import Mathlib

/-! Camellia mesh topology.

A shallow embedding of the entity registry, the cell and refinement forest and
the constraint and neighbour resolution of `MeshTopology.cpp` and `Cell.cpp`.

Conventions of the embedding.

* `IndexType` and `GlobalIndexType` are natural numbers.  The sentinel `-1`
  of the source ("not found", "no neighbour", "no parent") is `none`; tables
  are assumed to stay far below `2 ^ 32` entries, so an index never collides
  with the sentinel.
* `std::map` is an association list searched by `mapFind`; `operator[]`
  assignment is `mapSet`, `std::map::insert` is `mapInsert`.
* `std::set` of indices is a strictly increasing list (`setInsert`).
* C++ exceptions are `Except.error`; reading a vector out of range or
  dereferencing an end iterator (undefined behaviour in the source) is also
  reported as an error.
* Collaborators whose sources are outside `MeshTopology.cpp` and `Cell.cpp`
  (cell topologies, refinement patterns, `CamelliaCellTools`, periodic
  boundary conditions) are records of the data they answer with.
* Vertex coordinates are exact integer tuples; the tolerance search of
  `getVertexIndex` is an exact match.
-/

namespace Camellia

/-- Index type of the source: `unsigned`, here a natural number. -/
abbrev IndexType := Nat

/-- Key of a cell topology (`CellTopologyKey`), a pair of integers. -/
abbrev CellTopologyKey := Nat × Nat

/-- Vertex coordinates. -/
abbrev Point := List Int

/-- The exceptions raised by the embedded code, one constructor per message. -/
inductive MeshError where
  /-- Entities may not have repeated vertices. -/
  | repeatedVertices
  /-- Node set for vertex should not have more than one entry. -/
  | vertexNodeSet
  /-- MeshTopology error: vertex not found. -/
  | vertexNotFound
  /-- An end iterator was dereferenced. -/
  | invalidIterator
  /-- A vector was read outside its bounds. -/
  | indexOutOfRange
  /-- The function addCell: cell with specified cellIndex already exists. -/
  | cellExists
  /-- The function addCell: cellIndex must be at most the next cell index. -/
  | cellIndexTooLarge
  /-- Internal error: attempt to add 3rd cell for side. -/
  | thirdCellForSide
  /-- The function getCell: cellIndex is invalid. -/
  | invalidCellIndex
  /-- The function setNeighbor: neighborCellIndex equals the cell index. -/
  | sameCellNeighbor
  /-- The side ordinal must be less than the side count. -/
  | sideOrdinalOutOfBounds
  /-- Internal error: activeCellEntries does not have the expected size. -/
  | activeCellEntriesSize
  /-- The function deactivateCell: cell entity not found. -/
  | cellEntityNotFound
  /-- The child topologies and child vertices must be the same size. -/
  | childTopoSizeMismatch
  /-- A child was not found in its parent. -/
  | childNotFound
  /-- Entity does not have parent. -/
  | entityHasNoParent
  /-- Entity generalized parent not found. -/
  | generalizedParentNotFound
  /-- Entity cannot be its own parent. -/
  | entityOwnParent
  /-- The entity index is out of bounds for the topology keys. -/
  | entityTopologyNotFound
  /-- The sub-entity was not found. -/
  | subEntityNotFound
  /-- A null cell pointer was dereferenced. -/
  | nullPointer
  /-- Corresponding subcell not found in parent. -/
  | subcellNotFoundInParent
  /-- No higher-dimensional generalized parent for the entity. -/
  | noHigherDimensionalParent
  /-- Internal error: childOrdinal is out of bounds. -/
  | childOrdinalOutOfBounds
  /-- The cell index is not valid in the view. -/
  | cellIndexNotValid
  /-- A loop of the source ran longer than the fuel given to its embedding. -/
  | outOfFuel
  /-- The side entity index is `-1`. -/
  | sideEntityNotFound
  /-- MeshTopology internal error: number of active cells for side is not 0, 1, or 2. -/
  | activeCellCountForSide
  /-- Mesh error: attempting to add existing vertex. -/
  | existingVertex
  /-- The cell topology dimension or vertex count does not match. -/
  | topologyMismatch
  /-- The function pruneToInclude: reverseLookup does not contain parent entity. -/
  | parentEntityNotInLookup
  /-- A signed counter was incremented past its largest value. -/
  | integerOverflow
  /-- The function getSubEntityPermutation: subEntityDim cannot be greater than d. -/
  | subEntityDimTooLarge
  /-- The active cell count differs from the number of active cell IDs. -/
  | activeCellCountMismatch
  /-- An integer was divided by zero. -/
  | divisionByZero
  deriving DecidableEq, Repr

/-! ## Containers -/

section Containers

variable {K V : Type} [DecidableEq K]

/-- Lookup in a `std::map`. -/
def mapFind : List (K × V) → K → Option V
  | [], _ => none
  | (k', v) :: t, k => if k' = k then some v else mapFind t k

/-- Assignment `m[k] = v` in a `std::map`. -/
def mapSet : List (K × V) → K → V → List (K × V)
  | [], k, v => [(k, v)]
  | (k', v') :: t, k, v => if k' = k then (k, v) :: t else (k', v') :: mapSet t k v

/-- Insertion `m.insert(make_pair(k, v))`: an existing binding is kept. -/
def mapInsert (m : List (K × V)) (k : K) (v : V) : List (K × V) :=
  match mapFind m k with
  | some _ => m
  | none => m ++ [(k, v)]

end Containers

/-- Insertion into a `std::set` of indices. -/
def setInsert (x : Nat) : List Nat → List Nat
  | [] => [x]
  | y :: t => if x < y then x :: y :: t else if x = y then y :: t else y :: setInsert x t

/-- The `std::set` built from a range of indices. -/
def setOfList (l : List Nat) : List Nat :=
  l.foldl (fun s x => setInsert x s) []

/-- Removal `s.erase(x)` from a `std::set` of indices. -/
def setErase (x : Nat) (s : List Nat) : List Nat :=
  s.filter (fun y => y ≠ x)

/-- Lexicographic order on pairs, the order of `std::pair`. -/
def pairLe (a b : Nat × Nat) : Prop :=
  a.1 < b.1 ∨ (a.1 = b.1 ∧ a.2 ≤ b.2)

instance : DecidableRel pairLe := fun a b => by
  unfold pairLe
  exact inferInstance

/-- Sorting `std::sort` of a vector of indices. -/
def sortIndices (l : List Nat) : List Nat :=
  l.insertionSort (fun a b => a ≤ b)

/-- Sorting `std::sort` of a vector of pairs. -/
def sortPairs (l : List (Nat × Nat)) : List (Nat × Nat) :=
  l.insertionSort pairLe

/-- Insertion into a `std::set` of pairs. -/
def pairSetInsert (x : Nat × Nat) : List (Nat × Nat) → List (Nat × Nat)
  | [] => [x]
  | y :: t =>
    if x = y then y :: t
    else if pairLe x y then x :: y :: t
    else y :: pairSetInsert x t

/-- Update of entry `i` of a vector; nothing happens outside the bounds. -/
def modifyAt {α : Type} : List α → Nat → (α → α) → List α
  | [], _, _ => []
  | a :: t, 0, f => f a :: t
  | a :: t, i + 1, f => a :: modifyAt t i f

/-- A loop with a body that may raise: the state after the last item, or the
first error. -/
def foldExcept {σ α : Type} (f : σ → α → Except MeshError σ) : σ → List α → Except MeshError σ
  | s, [] => pure s
  | s, a :: t =>
    match f s a with
    | Except.error err => throw err
    | Except.ok s' => foldExcept f s' t

/-- The erasures `for (j = size - 1; j >= stop; j--) v.erase(v.begin() + indices[j])`:
the listed positions from the last one down to position `stop` of the list. -/
def eraseIndicesReverse {α : Type} (l : List α) (indicesToDelete : List Nat) (stop : Nat) :
    List α :=
  (indicesToDelete.drop stop).reverse.foldl (fun acc i => acc.eraseIdx i) l

/-- The positions of the entries equal to `x`, in increasing order. -/
def positionsOf {α : Type} [DecidableEq α] (x : α) : List α → Nat → List Nat
  | [], _ => []
  | a :: t, i => if a = x then i :: positionsOf x t (i + 1) else positionsOf x t (i + 1)

/-- Resizing `v.resize(n, dflt)` of a vector. -/
def resizeTo {α : Type} (l : List α) (n : Nat) (dflt : α) : List α :=
  l.take n ++ List.replicate (n - l.length) dflt

/-! ## Collaborators -/

/-- Modelled from the spec: the reference cell topology (`CellTopology.h` is
absent).  It answers with its key, its dimension, its node count and, for
every dimension below its own, the list of sub-cells, each with its own
topology and its node map into the cell. -/
inductive CellTopology where
  | mk (key : CellTopologyKey) (dimension : Nat) (nodeCount : Nat)
      (subcells : List (List (CellTopology × List Nat)))

namespace CellTopology

/-- Key `getKey()`. -/
def getKey : CellTopology → CellTopologyKey
  | .mk k _ _ _ => k

/-- Dimension `getDimension()`. -/
def getDimension : CellTopology → Nat
  | .mk _ d _ _ => d

/-- Node count `getNodeCount()` of the cell itself. -/
def getNodeCount : CellTopology → Nat
  | .mk _ _ n _ => n

/-- Sub-cell table: entry `d` lists the sub-cells of dimension `d`. -/
def subcells : CellTopology → List (List (CellTopology × List Nat))
  | .mk _ _ _ s => s

/-- Count `getSubcellCount(d)`. -/
def getSubcellCount (t : CellTopology) (d : Nat) : Nat :=
  (t.subcells.getD d []).length

/-- Node map `getNodeMap(d, j, ·)` as the list of node ordinals in the cell. -/
def nodeMap (t : CellTopology) (d j : Nat) : List Nat :=
  match (t.subcells.getD d [])[j]? with
  | some (_, nodes) => nodes
  | none => []

/-- Sub-cell topology `getSubcell(d, j)`. -/
def getSubcell (t : CellTopology) (d j : Nat) : Option CellTopology :=
  match (t.subcells.getD d [])[j]? with
  | some (sub, _) => some sub
  | none => none

/-- Side count `getSideCount()`: the sub-cells of dimension one less. -/
def getSideCount (t : CellTopology) : Nat :=
  t.getSubcellCount (t.getDimension - 1)

end CellTopology

/-- Modelled from the spec: the static helpers of `CamelliaCellTools` (its
source is absent): the permutation that maps one vertex ordering of an entity
to another, and the map from a sub-cell ordinal of a sub-cell to the ordinal
in the cell. -/
structure CellTools where
  /-- Permutation `permutationMatchingOrder(topo, fromOrder, toOrder)`. -/
  permutationMatchingOrder : CellTopology → List IndexType → List IndexType → Nat
  /-- Ordinal `subcellOrdinalMap(topo, d, ord, subDim, subOrd)`. -/
  subcellOrdinalMap : CellTopology → Nat → Nat → Nat → Nat → Nat
  /-- The static lookup `CellTopology::cellTopology(key)`. -/
  cellTopology : CellTopologyKey → Option CellTopology

/-- The point topology `CellTopology::point()`. -/
def pointTopology : CellTopology :=
  CellTopology.mk (0, 0) 0 1 []

/-- Modelled from the spec: a periodic boundary condition (`PeriodicBC.h` is
absent): which of its two sides a point matches and the partner point. -/
structure PeriodicBC where
  /-- Sides `getMatchingSides(point)`. -/
  getMatchingSides : Point → List Nat
  /-- Partner `getMatchingPoint(point, side)`. -/
  getMatchingPoint : Point → Nat → Point

/-- Modelled from the spec: a refinement pattern (`RefinementPattern.h` is
absent): child vertices in terms of the refined vertex list, the pattern of
every sub-cell with the physical nodes of its child entities, and the maps
between child and parent sides and sub-cells. -/
inductive RefinementPattern where
  | mk (key : Nat)
      (verticesForRefinement : List Point → List Point)
      (childVertexOrdinals : List (List Nat))
      (subcellPatterns : List (List (RefinementPattern × (List Point → List (List Point)))))
      (childrenForSides : List (List (Nat × Nat)))
      (parentSideLookupForChild : Nat → List (Nat × Nat))
      (mapSubcellOrdinalFromChildToParent : Nat → Nat → Nat → Option Nat)

namespace RefinementPattern

/-- Identity of the pattern object. -/
def key : RefinementPattern → Nat
  | .mk k _ _ _ _ _ _ => k

/-- Refined vertices `verticesForRefinement(cellNodes)`. -/
def verticesForRefinement : RefinementPattern → List Point → List Point
  | .mk _ f _ _ _ _ _ => f

/-- Child vertex ordinals: entry `c` lists the refined-vertex ordinals of child `c`. -/
def childVertexOrdinals : RefinementPattern → List (List Nat)
  | .mk _ _ c _ _ _ _ => c

/-- Child count `numChildren()`. -/
def numChildren (p : RefinementPattern) : Nat :=
  p.childVertexOrdinals.length

/-- Children `children(localToGlobalVertexIndex)` as lists of vertex indices;
an ordinal missing from the map reads as the default-constructed index 0. -/
def children (p : RefinementPattern) (localToGlobal : List (Nat × IndexType)) :
    List (List IndexType) :=
  p.childVertexOrdinals.map (fun ords => ords.map (fun o => (mapFind localToGlobal o).getD 0))

/-- Sub-cell patterns: entry `d`, `j` is `patternForSubcell(d, j)` with the
physical nodes of its child entities as a function of the cell nodes. -/
def subcellPatterns :
    RefinementPattern → List (List (RefinementPattern × (List Point → List (List Point))))
  | .mk _ _ _ s _ _ _ => s

/-- Table `childrenForSides()`: for each parent side the pairs
(child ordinal, child side ordinal). -/
def childrenForSides : RefinementPattern → List (List (Nat × Nat))
  | .mk _ _ _ _ c _ _ => c

/-- Map `parentSideLookupForChild(childOrdinal)` from child side to parent side. -/
def parentSideLookupForChild : RefinementPattern → Nat → List (Nat × Nat)
  | .mk _ _ _ _ _ f _ => f

/-- Ordinal `mapSubcellOrdinalFromChildToParent(child, dim, ord)`; `none` is `-1`. -/
def mapSubcellOrdinalFromChildToParent : RefinementPattern → Nat → Nat → Nat → Option Nat
  | .mk _ _ _ _ _ _ f => f

end RefinementPattern

/-! ## Cells and the mesh topology -/

/-- The class `Cell`.  Pointers to cells are cell indices resolved through the
cell table of the mesh topology. -/
structure Cell where
  /-- Topology of the cell. -/
  _cellTopo : CellTopology
  /-- Vertex indices. -/
  _vertices : List IndexType
  /-- Permutations of the sub-cells, by dimension and ordinal. -/
  _subcellPermutations : List (List Nat)
  /-- Index of the cell. -/
  _cellIndex : IndexType
  /-- Refinement level. -/
  _level : Nat
  /-- Neighbour (cell, side ordinal) per side; `none` is `(-1, -1)`. -/
  _neighbors : List (Option (IndexType × Nat))
  /-- Weak pointer to the parent; `none` is the null pointer. -/
  _parent : Option IndexType
  /-- Pointers to the children; `none` is the null pointer. -/
  _children : List (Option IndexType)
  /-- Indices of the children. -/
  _childIndices : List IndexType
  /-- Refinement pattern; `none` is the null pointer. -/
  _refPattern : Option RefinementPattern
  /-- Cache of sub-entity indices: `none` is `-2` (not looked for), `some none`
  is `-1` (looked for and not found). -/
  _entityIndices : List (List (Option (Option IndexType)))

/-- The class `MeshTopology` (for meshes without curved edges, entity sets and
a transformation function). -/
structure MeshTopology where
  /-- Space dimension. -/
  _spaceDim : Nat
  /-- Vertex coordinates. -/
  _vertices : List Point
  /-- Coordinates to vertex index. -/
  _vertexMap : List (Point × IndexType)
  /-- Sorted vertex lists of the entities, by dimension and entity index. -/
  _entities : List (List (List IndexType))
  /-- Sorted vertex list to entity index, by dimension. -/
  _knownEntities : List (List (List IndexType × IndexType))
  /-- First-seen vertex orderings, by dimension and entity index. -/
  _canonicalEntityOrdering : List (List (List IndexType))
  /-- Active (cell, sub-cell ordinal) pairs, by dimension and entity index. -/
  _activeCellsForEntities : List (List (List (IndexType × Nat)))
  /-- Sides containing an entity, by dimension and entity index. -/
  _sidesForEntities : List (List (List IndexType))
  /-- Possible parents (entity, refinement ordinal) of an entity, by dimension. -/
  _parentEntities : List (List (IndexType × List (IndexType × Nat)))
  /-- Generalized parent (entity, dimension) of an entity, by dimension. -/
  _generalizedParentEntities : List (List (IndexType × (IndexType × Nat)))
  /-- Child entities (`none` is `-1`) per refinement pattern, by dimension. -/
  _childEntities : List (List (IndexType × List (RefinementPattern × List (Option IndexType))))
  /-- Entity indices per topology key, by dimension. -/
  _entityCellTopologyKeys : List (List (CellTopologyKey × List IndexType))
  /-- Next cell index, also the global cell count. -/
  _nextCellIndex : IndexType
  /-- Global active cell count. -/
  _activeCellCount : IndexType
  /-- Periodic boundary conditions. -/
  _periodicBCs : List PeriodicBC
  /-- Periodic matches (bc index, side) of a vertex. -/
  _periodicBCIndicesMatchingNode : List (IndexType × List (Nat × Nat))
  /-- Partner of a vertex under a periodic match. -/
  _equivalentNodeViaPeriodicBC : List ((IndexType × (Nat × Nat)) × IndexType)
  /-- Canonical vertex of a vertex that is not in the known entities. -/
  _canonicalVertexPeriodic : List (IndexType × IndexType)
  /-- Cell table. -/
  _cells : List (IndexType × Cell)
  /-- Valid (locally known) cell indices. -/
  _validCells : List IndexType
  /-- Active cell indices. -/
  _activeCells : List IndexType
  /-- Root cell indices. -/
  _rootCells : List IndexType
  /-- Owned cell indices. -/
  _ownedCellIndices : List IndexType
  /-- Claimants (cell, side ordinal) of each side entity; `none` is `(-1, -1)`. -/
  _cellsForSideEntities : List (Option (IndexType × Nat) × Option (IndexType × Nat))
  /-- Boundary sides. -/
  _boundarySides : List IndexType
  /-- Pruning ordinal. -/
  _pruningOrdinal : Nat

namespace MeshTopology

/-- Initialisation `init(spaceDim)` of an empty topology. -/
def init (spaceDim : Nat) (periodicBCs : List PeriodicBC) : MeshTopology :=
  let numEntityDimensions := if spaceDim > 0 then spaceDim else 1
  { _spaceDim := spaceDim
    _vertices := []
    _vertexMap := []
    _entities := List.replicate numEntityDimensions []
    _knownEntities := List.replicate numEntityDimensions []
    _canonicalEntityOrdering := List.replicate numEntityDimensions []
    _activeCellsForEntities := List.replicate numEntityDimensions []
    _sidesForEntities := List.replicate numEntityDimensions []
    _parentEntities := List.replicate numEntityDimensions []
    _generalizedParentEntities := List.replicate numEntityDimensions []
    _childEntities := List.replicate numEntityDimensions []
    _entityCellTopologyKeys := List.replicate numEntityDimensions []
    _nextCellIndex := 0
    _activeCellCount := 0
    _periodicBCs := periodicBCs
    _periodicBCIndicesMatchingNode := []
    _equivalentNodeViaPeriodicBC := []
    _canonicalVertexPeriodic := []
    _cells := []
    _validCells := []
    _activeCells := []
    _rootCells := []
    _ownedCellIndices := []
    _cellsForSideEntities := []
    _boundarySides := []
    _pruningOrdinal := 0 }

/-! ### Entity registry -/

/-- Intersection of the periodic matches of the nodes, the first loop of
`getCanonicalEntityNodesViaPeriodicBCs`. -/
def matchingPeriodicBCsIntersection (matching : List (IndexType × List (Nat × Nat))) :
    List IndexType → List (Nat × Nat) → Bool → List (Nat × Nat)
  | [], acc, _ => acc
  | node :: rest, acc, firstNode =>
    match mapFind matching node with
    | none => []
    | some matchesForThisNode =>
      if firstNode then matchingPeriodicBCsIntersection matching rest matchesForThisNode false
      else matchingPeriodicBCsIntersection matching rest
        (acc.filter (fun m => decide (m ∈ matchesForThisNode))) false

/-- Partner node list under one periodic match. -/
def equivalentNodeVector (equivalentNode : List ((IndexType × (Nat × Nat)) × IndexType))
    (matchingBC : Nat × Nat) : List IndexType → Except MeshError (List IndexType)
  | [] => pure []
  | node :: rest =>
    match mapFind equivalentNode (node, matchingBC) with
    | none => throw MeshError.invalidIterator
    | some e => do
      let tail ← equivalentNodeVector equivalentNode matchingBC rest
      pure (e :: tail)

/-- Second loop of `getCanonicalEntityNodesViaPeriodicBCs`: the first partner
list whose sorted key is known; empty when there is none. -/
def firstKnownEquivalent (known : List (List IndexType × IndexType))
    (equivalentNode : List ((IndexType × (Nat × Nat)) × IndexType))
    (myEntityNodes : List IndexType) : List (Nat × Nat) → Except MeshError (List IndexType)
  | [] => pure []
  | matchingBC :: rest => do
    let equivalent ← equivalentNodeVector equivalentNode matchingBC myEntityNodes
    if (mapFind known (sortIndices equivalent)).isSome then pure equivalent
    else firstKnownEquivalent known equivalentNode myEntityNodes rest

/-- The method `getCanonicalEntityNodesViaPeriodicBCs`. -/
def getCanonicalEntityNodesViaPeriodicBCs (mt : MeshTopology) (d : Nat)
    (myEntityNodes : List IndexType) : Except MeshError (List IndexType) :=
  let sortedNodes := sortIndices myEntityNodes
  let known := mt._knownEntities.getD d []
  if (mapFind known sortedNodes).isSome then pure myEntityNodes
  else if d = 0 then
    match myEntityNodes with
    | [] => throw MeshError.indexOutOfRange
    | vertexIndex :: _ =>
      match mapFind mt._canonicalVertexPeriodic vertexIndex with
      | some canonical => pure [canonical]
      | none => throw MeshError.vertexNotFound
  else
    firstKnownEquivalent known mt._equivalentNodeViaPeriodicBC myEntityNodes
      (matchingPeriodicBCsIntersection mt._periodicBCIndicesMatchingNode myEntityNodes [] true)

/-- The method `getEntityIndex`; `none` is the not-found sentinel `-1`. -/
def getEntityIndex (mt : MeshTopology) (d : Nat) (nodeSet : List IndexType) :
    Except MeshError (Option IndexType) :=
  if d = 0 then
    if nodeSet.length = 1 then
      if mt._periodicBCs.length = 0 then pure nodeSet.head?
      else do
        let equivalent ← getCanonicalEntityNodesViaPeriodicBCs mt d nodeSet
        match equivalent with
        | [] => throw MeshError.indexOutOfRange
        | e :: _ => pure (some e)
    else throw MeshError.vertexNodeSet
  else
    let known := mt._knownEntities.getD d []
    match mapFind known nodeSet with
    | some entityIndex => pure (some entityIndex)
    | none =>
      if mt._periodicBCs.length > 0 then do
        let equivalent ← getCanonicalEntityNodesViaPeriodicBCs mt d nodeSet
        if equivalent.length > 0 then
          match mapFind known (sortIndices equivalent) with
          | some entityIndex => pure (some entityIndex)
          | none => pure none
        else pure none
      else pure none

/-- The new-entity branch of `addEntity`: the tables after the entity with the
given sorted key and first-seen ordering has been appended. -/
def addNewEntity (mt : MeshTopology) (entityTopo : CellTopology)
    (entityVertices sortedVertices : List IndexType) : MeshTopology :=
  let d := entityTopo.getDimension
  let entityIndex := (mt._entities.getD d []).length
  { mt with
    _entities := modifyAt mt._entities d (fun es => es ++ [sortedVertices])
    _knownEntities := modifyAt mt._knownEntities d
      (fun known => mapInsert known sortedVertices entityIndex)
    _canonicalEntityOrdering :=
      if d ≠ 0 then modifyAt mt._canonicalEntityOrdering d (fun os => os ++ [entityVertices])
      else mt._canonicalEntityOrdering
    _entityCellTopologyKeys := modifyAt mt._entityCellTopologyKeys d
      (fun keys => mapSet keys entityTopo.getKey
        (setInsert entityIndex ((mapFind keys entityTopo.getKey).getD []))) }

/-- The method `addEntity`: the new state, the entity index and the permutation. -/
def addEntity (tools : CellTools) (mt : MeshTopology) (entityTopo : CellTopology)
    (entityVertices : List IndexType) : Except MeshError (MeshTopology × IndexType × Nat) :=
  let nodeSet := setOfList entityVertices
  if nodeSet.length ≠ entityVertices.length then throw MeshError.repeatedVertices
  else do
    let d := entityTopo.getDimension
    let found ← getEntityIndex mt d nodeSet
    let sortedVertices := nodeSet
    match found with
    | none =>
      let entityIndex := (mt._entities.getD d []).length
      pure (addNewEntity mt entityTopo entityVertices sortedVertices, entityIndex, 0)
    | some entityIndex => do
      let canonicalVerticesNewOrdering ← getCanonicalEntityNodesViaPeriodicBCs mt d entityVertices
      let entityPermutation :=
        if d = 0 then 0
        else tools.permutationMatchingOrder entityTopo
          ((mt._canonicalEntityOrdering.getD d []).getD entityIndex [])
          canonicalVerticesNewOrdering
      pure (mt, entityIndex, entityPermutation)

/-- The method `getEntityCount` for a dimension above zero. -/
def entityCount (mt : MeshTopology) (d : Nat) : Nat :=
  (mt._entities.getD d []).length

/-! ### Constraint resolution -/

/-- Unsigned subtraction `_spaceDim - 1`, which wraps around to the largest
32-bit value for dimension zero. -/
def sideDim (mt : MeshTopology) : Nat :=
  if mt._spaceDim = 0 then 4294967295 else mt._spaceDim - 1

/-- The method `entityHasParent`. -/
def entityHasParent (mt : MeshTopology) (d : Nat) (entityIndex : IndexType) : Bool :=
  match mapFind (mt._parentEntities.getD d []) entityIndex with
  | none => false
  | some parents => decide (parents.length > 0)

/-- The method `getEntityParent`; the callers below pass parent ordinal 0, the
default argument. -/
def getEntityParent (mt : MeshTopology) (d : Nat) (entityIndex : IndexType)
    (parentOrdinal : Nat) : Except MeshError IndexType :=
  if !entityHasParent mt d entityIndex then throw MeshError.entityHasNoParent
  else
    match mapFind (mt._parentEntities.getD d []) entityIndex with
    | none => throw MeshError.entityHasNoParent
    | some parents =>
      match parents[parentOrdinal]? with
      | some parent => pure parent.1
      | none => throw MeshError.indexOutOfRange

/-- The method `entityHasGeneralizedParent`. -/
def entityHasGeneralizedParent (mt : MeshTopology) (d : Nat) (entityIndex : IndexType) : Bool :=
  (mapFind (mt._generalizedParentEntities.getD d []) entityIndex).isSome

/-- The method `getActiveCellCount`. -/
def getActiveCellCount (mt : MeshTopology) (d : Nat) (entityIndex : IndexType) : Nat :=
  if (mt._activeCellsForEntities.getD d []).length ≤ entityIndex then 0
  else ((mt._activeCellsForEntities.getD d []).getD entityIndex []).length

/-- The while loop of `getConstrainingEntityIndexOfLikeDimension`: climb the
first parents, remembering the last ancestor with an active cell. -/
def likeDimensionLoop (mt : MeshTopology) (d : Nat) :
    Nat → IndexType → IndexType → Except MeshError IndexType
  | 0, _, _ => throw MeshError.outOfFuel
  | fuel + 1, ancestorEntityIndex, constrainingEntityIndex =>
    if entityHasParent mt d ancestorEntityIndex then do
      let parent ← getEntityParent mt d ancestorEntityIndex 0
      likeDimensionLoop mt d fuel parent
        (if getActiveCellCount mt d parent > 0 then parent else constrainingEntityIndex)
    else pure constrainingEntityIndex

/-- The method `getConstrainingEntityIndexOfLikeDimension`. -/
def getConstrainingEntityIndexOfLikeDimension (fuel : Nat) (mt : MeshTopology) (d : Nat)
    (entityIndex : IndexType) : Except MeshError IndexType :=
  if d = 0 then pure entityIndex
  else likeDimensionLoop mt d fuel entityIndex entityIndex

/-- The inner while loop of `getConstrainingEntity`: the topmost like-dimension ancestor. -/
def topLikeDimensionAncestor (mt : MeshTopology) (d : Nat) :
    Nat → IndexType → Except MeshError IndexType
  | 0, _ => throw MeshError.outOfFuel
  | fuel + 1, entityIndex =>
    if entityHasParent mt d entityIndex then do
      let parent ← getEntityParent mt d entityIndex 0
      topLikeDimensionAncestor mt d fuel parent
    else pure entityIndex

/-- The sides read by `getConstrainingEntity` for an entity: the entity itself
when it is a side, else its entry of `_sidesForEntities`. -/
def sidesForConstraint (mt : MeshTopology) (d : Nat) (entityIndex : IndexType) :
    Except MeshError (List IndexType) :=
  if d = mt.sideDim then pure [entityIndex]
  else
    match (mt._sidesForEntities.getD d [])[entityIndex]? with
    | some sides => pure sides
    | none => throw MeshError.indexOutOfRange

/-- The constraint update of one pass of the for loop of `getConstrainingEntity`:
a like-dimension constraint is taken as it is, else the ancestor itself is
taken when one of its sides has an active cell. -/
def updateConstrainingEntity (mt : MeshTopology) (possibleConstrainingEntityIndex : IndexType)
    (generalizedAncestorDim : Nat) (generalizedAncestorEntityIndex : IndexType)
    (constrainingEntity : IndexType × Nat) : Except MeshError (IndexType × Nat) :=
  if possibleConstrainingEntityIndex ≠ generalizedAncestorEntityIndex then
    pure (possibleConstrainingEntityIndex, generalizedAncestorDim)
  else
    match sidesForConstraint mt generalizedAncestorDim generalizedAncestorEntityIndex with
    | Except.error err => throw err
    | Except.ok sidesForEntity =>
      if sidesForEntity.any (fun side => decide (getActiveCellCount mt mt.sideDim side > 0))
      then pure (possibleConstrainingEntityIndex, generalizedAncestorDim)
      else pure constrainingEntity

/-- The for loop of `getConstrainingEntity` over the generalized ancestors; the
inner while loops get the fuel `n`. -/
def constrainingEntityLoop (mt : MeshTopology) (n : Nat) :
    Nat → Nat → IndexType → IndexType × Nat → Except MeshError (IndexType × Nat)
  | 0, _, _, _ => throw MeshError.outOfFuel
  | fuel + 1, generalizedAncestorDim, generalizedAncestorEntityIndex, constrainingEntity =>
    if generalizedAncestorDim ≤ mt.sideDim then
      match getConstrainingEntityIndexOfLikeDimension n mt generalizedAncestorDim
          generalizedAncestorEntityIndex with
      | Except.error err => throw err
      | Except.ok possibleConstrainingEntityIndex =>
        match updateConstrainingEntity mt possibleConstrainingEntityIndex
            generalizedAncestorDim generalizedAncestorEntityIndex constrainingEntity with
        | Except.error err => throw err
        | Except.ok constrainingEntity =>
          match topLikeDimensionAncestor mt generalizedAncestorDim n
              generalizedAncestorEntityIndex with
          | Except.error err => throw err
          | Except.ok top =>
            match mapFind (mt._generalizedParentEntities.getD generalizedAncestorDim []) top with
            | some generalizedParent =>
              constrainingEntityLoop mt n fuel generalizedParent.2 generalizedParent.1
                constrainingEntity
            | none => pure constrainingEntity
    else pure constrainingEntity

/-- The method `getConstrainingEntity`: the pair (entity index, dimension). -/
def getConstrainingEntity (fuel : Nat) (mt : MeshTopology) (d : Nat)
    (entityIndex : IndexType) : Except MeshError (IndexType × Nat) :=
  constrainingEntityLoop mt fuel fuel d entityIndex (entityIndex, d)

/-! ### Cell table and views -/

/-- The method `isValidCellIndex`; the sentinel `-1` is never valid. -/
def isValidCellIndex (mt : MeshTopology) (cellIndex : Option IndexType) : Bool :=
  match cellIndex with
  | none => false
  | some i => decide (i ∈ mt._validCells)

/-- Modelled from the spec: `isParent` of the topology seen as a view
(`MeshTopologyView.cpp` is absent): a valid cell that is not active. -/
def isParent (mt : MeshTopology) (cellIndex : IndexType) : Bool :=
  mt.isValidCellIndex (some cellIndex) && !decide (cellIndex ∈ mt._activeCells)

/-- The method `getCell`. -/
def getCell (mt : MeshTopology) (cellIndex : IndexType) : Except MeshError Cell :=
  match mapFind mt._cells cellIndex with
  | some cell => pure cell
  | none => throw MeshError.invalidCellIndex

/-- The method `cellCount`. -/
def cellCount (mt : MeshTopology) : IndexType :=
  mt._nextCellIndex

/-- The method `activeCellCount`. -/
def activeCellCount (mt : MeshTopology) : IndexType :=
  mt._activeCellCount

/-- Dereference of a cell pointer: the null pointer and a pointer to a cell
that is no longer in the table are errors. -/
def derefCell (mt : MeshTopology) (pointer : Option IndexType) : Except MeshError Cell :=
  match pointer with
  | none => throw MeshError.nullPointer
  | some i =>
    match mapFind mt._cells i with
    | some cell => pure cell
    | none => throw MeshError.nullPointer

/-- The method `getCellCountForSide`. -/
def getCellCountForSide (mt : MeshTopology) (sideEntityIndex : IndexType) : Nat :=
  match mt._cellsForSideEntities[sideEntityIndex]? with
  | none => 0
  | some (none, none) => 0
  | some (_, none) => 1
  | some (_, some _) => 2

/-- The method `getFirstCellForSide`. -/
def getFirstCellForSide (mt : MeshTopology) (sideEntityIndex : IndexType) :
    Option (IndexType × Nat) :=
  match mt._cellsForSideEntities[sideEntityIndex]? with
  | none => none
  | some entry => entry.1

/-- The method `getSecondCellForSide`. -/
def getSecondCellForSide (mt : MeshTopology) (sideEntityIndex : IndexType) :
    Option (IndexType × Nat) :=
  match mt._cellsForSideEntities[sideEntityIndex]? with
  | none => none
  | some entry => entry.2

/-- The method `getCellsForSide`: the cell indices of the first and the second
claimant that are not `-1`. -/
def getCellsForSide (mt : MeshTopology) (sideEntityIndex : IndexType) : List IndexType :=
  (match mt.getFirstCellForSide sideEntityIndex with
    | some first => [first.1]
    | none => []) ++
  (match mt.getSecondCellForSide sideEntityIndex with
    | some second => [second.1]
    | none => [])

/-- The method `isBoundarySide`. -/
def isBoundarySide (mt : MeshTopology) (sideEntityIndex : IndexType) : Bool :=
  decide (sideEntityIndex ∈ mt._boundarySides)

/-- The method `addCellForSide`; the side entity index may be the sentinel. -/
def addCellForSide (mt : MeshTopology) (cellIndex : IndexType) (sideOrdinal : Nat)
    (sideEntityIndex : Option IndexType) : Except MeshError MeshTopology :=
  match sideEntityIndex with
  | none => throw MeshError.sideEntityNotFound
  | some side =>
    if mt._cellsForSideEntities.length ≤ side then
      pure { mt with
        _cellsForSideEntities :=
          modifyAt (resizeTo mt._cellsForSideEntities (side + 100) (none, none)) side
            (fun _ => (some (cellIndex, sideOrdinal), none)) }
    else
      match mt._cellsForSideEntities[side]?, mt.getCell cellIndex with
      | none, _ => throw MeshError.indexOutOfRange
      | some _, Except.error err => throw err
      | some (cell1, cell2), Except.ok cellToAdd =>
        match (match cellToAdd._parent with
          | none => Except.ok none
          | some parentPointer =>
            match mt.derefCell (some parentPointer) with
            | Except.error err => Except.error err
            | Except.ok parent => Except.ok (some parent._cellIndex)) with
        | Except.error err => throw err
        | Except.ok (parentCellIndex : Option IndexType) =>
          if cell1.map Prod.fst = none ∨ parentCellIndex = cell1.map Prod.fst then
            pure { mt with
              _cellsForSideEntities := modifyAt mt._cellsForSideEntities side
                (fun _ => (some (cellIndex, sideOrdinal), cell2)) }
          else if cell2.map Prod.fst = none ∨ parentCellIndex = cell2.map Prod.fst then
            pure { mt with
              _cellsForSideEntities := modifyAt mt._cellsForSideEntities side
                (fun _ => (cell1, some (cellIndex, sideOrdinal))) }
          else throw MeshError.thirdCellForSide

/-- The method `addSideForEntity`. -/
def addSideForEntity (mt : MeshTopology) (entityDim : Nat) (entityIndex sideEntityIndex : IndexType) :
    MeshTopology :=
  { mt with
    _sidesForEntities := modifyAt mt._sidesForEntities entityDim (fun sides =>
      let resized := if sides.length ≤ entityIndex then resizeTo sides (entityIndex + 100) []
        else sides
      modifyAt resized entityIndex (fun entry =>
        if sideEntityIndex ∈ entry then entry else entry ++ [sideEntityIndex])) }

/-- The method `Cell::setNeighbor` on the cell of the table with the given index. -/
def setNeighbor (mt : MeshTopology) (cellIndex : IndexType) (sideOrdinal : Nat)
    (neighborCellIndex : IndexType) (neighborSideOrdinal : Nat) (allowSameCellIndex : Bool) :
    Except MeshError MeshTopology :=
  match mt.getCell cellIndex with
  | Except.error err => throw err
  | Except.ok cell =>
    if neighborCellIndex = cell._cellIndex ∧ allowSameCellIndex = false then
      throw MeshError.sameCellNeighbor
    else if sideOrdinal ≥ cell._cellTopo.getSideCount then
      throw MeshError.sideOrdinalOutOfBounds
    else
      pure { mt with
        _cells := mapSet mt._cells cellIndex
          { cell with
            _neighbors := modifyAt cell._neighbors sideOrdinal
              (fun _ => some (neighborCellIndex, neighborSideOrdinal)) } }

/-- The method `getEntityTopology`. -/
def getEntityTopology (tools : CellTools) (mt : MeshTopology) (d : Nat) (entityIndex : IndexType) :
    Except MeshError CellTopology :=
  if d < mt._spaceDim then
    match (mt._entityCellTopologyKeys.getD d []).find?
        (fun entry => decide (entityIndex ∈ entry.2)) with
    | none => throw MeshError.entityTopologyNotFound
    | some entry =>
      match tools.cellTopology entry.1 with
      | some topo => pure topo
      | none => throw MeshError.nullPointer
  else
    match mt.getCell entityIndex with
    | Except.error err => throw err
    | Except.ok cell => pure cell._cellTopo

/-- The method `MeshTopology::getEntityVertexIndices`. -/
def getEntityVertexIndices (mt : MeshTopology) (d : Nat) (entityIndex : IndexType) :
    Except MeshError (List IndexType) :=
  if d = 0 then pure [entityIndex]
  else if d = mt._spaceDim then
    match mt.getCell entityIndex with
    | Except.error err => throw err
    | Except.ok cell => pure cell._vertices
  else
    match (mt._canonicalEntityOrdering.getD d [])[entityIndex]? with
    | some ordering => pure ordering
    | none => throw MeshError.indexOutOfRange

/-- The method `getSubEntityCount`. -/
def getSubEntityCount (tools : CellTools) (mt : MeshTopology) (d : Nat) (entityIndex : IndexType)
    (subEntityDim : Nat) : Except MeshError Nat :=
  if d = 0 then pure (if subEntityDim = 0 then 1 else 0)
  else
    match getEntityTopology tools mt d entityIndex with
    | Except.error err => throw err
    | Except.ok entityTopo => pure (entityTopo.getSubcellCount subEntityDim)

end MeshTopology

/-- Modelled from the spec: a `MeshTopologyView` (`MeshTopologyView.cpp` is
absent) as the virtual methods the cells call on it. -/
structure MeshTopologyView where
  /-- Validity `isValidCellIndex(cellIndex)` in the view. -/
  isValidCellIndex : Option IndexType → Bool
  /-- Whether the cell is a parent in the view. -/
  isParent : IndexType → Bool
  /-- The constraining entity `getConstrainingEntity(d, entityIndex)` as (index, dimension). -/
  getConstrainingEntity : Nat → IndexType → Except MeshError (IndexType × Nat)

namespace MeshTopology

/-- The topology itself as a view; the loops of `getConstrainingEntity` get the fuel. -/
def asView (fuel : Nat) (mt : MeshTopology) : MeshTopologyView :=
  { isValidCellIndex := mt.isValidCellIndex
    isParent := mt.isParent
    getConstrainingEntity := mt.getConstrainingEntity fuel }

end MeshTopology

namespace Cell

/-- The node list of a sub-cell: `nodes.push_back(_vertices[getNodeMap(d, j, node)])`. -/
def subcellNodes (cellTopo : CellTopology) (vertices : List IndexType) (d j : Nat) :
    Except MeshError (List IndexType) :=
  if d ≠ 0 then
    (cellTopo.nodeMap d j).mapM (fun nodeIndexInCell =>
      match vertices[nodeIndexInCell]? with
      | some v => pure v
      | none => throw MeshError.indexOutOfRange)
  else
    match vertices[j]? with
    | some v => pure [v]
    | none => throw MeshError.indexOutOfRange

/-- The method `Cell::getEntityVertexIndices`. -/
def getEntityVertexIndices (cell : Cell) (subcdim subcord : Nat) :
    Except MeshError (List IndexType) :=
  subcellNodes cell._cellTopo cell._vertices subcdim subcord

/-- The method `Cell::entityIndex`: the index (`none` is `-1`) and the cell with
its cache filled. -/
def entityIndex (mt : MeshTopology) (cell : Cell) (subcdim subcord : Nat) :
    Except MeshError (Option IndexType × Cell) :=
  let spaceDim := cell._cellTopo.getDimension
  if subcdim = spaceDim ∧ subcord = 0 then pure (some cell._cellIndex, cell)
  else
    let cache0 :=
      if cell._entityIndices.length = 0 then List.replicate spaceDim [] else cell._entityIndices
    match cache0[subcdim]? with
    | none => throw MeshError.indexOutOfRange
    | some row0 =>
      let row :=
        if row0.length = 0 then List.replicate (cell._cellTopo.getSubcellCount subcdim) none
        else row0
      match row[subcord]? with
      | none => throw MeshError.indexOutOfRange
      | some (some cached) =>
        pure (cached, { cell with _entityIndices := modifyAt cache0 subcdim (fun _ => row) })
      | some none =>
        match subcellNodes cell._cellTopo cell._vertices subcdim subcord with
        | Except.error err => throw err
        | Except.ok nodes =>
          match mt.getEntityIndex subcdim (setOfList nodes) with
          | Except.error err => throw err
          | Except.ok found =>
            pure (found, { cell with
              _entityIndices := modifyAt cache0 subcdim
                (fun _ => modifyAt row subcord (fun _ => some found)) })

/-- The value of `Cell::entityIndex`, the filled cache dropped. -/
def entityIndexValue (mt : MeshTopology) (cell : Cell) (subcdim subcord : Nat) :
    Except MeshError (Option IndexType) :=
  match entityIndex mt cell subcdim subcord with
  | Except.error err => throw err
  | Except.ok r => pure r.1

/-- The method `Cell::findChildOrdinal`; `none` is `-1`. -/
def findChildOrdinal (cell : Cell) (cellIndex : IndexType) : Option Nat :=
  let ordinal := cell._childIndices.indexOf cellIndex
  if ordinal < cell._childIndices.length then some ordinal else none

/-- The loop of `Cell::findSubcellOrdinal` from ordinal `scord` on. -/
def findSubcellOrdinalFrom (mt : MeshTopology) (cell : Cell) (subcdim : Nat)
    (subcEntityIndex : IndexType) : Nat → Nat → Except MeshError (Option Nat)
  | 0, _ => pure none
  | remaining + 1, scord =>
    match entityIndexValue mt cell subcdim scord with
    | Except.error err => throw err
    | Except.ok scEntityIndex =>
      if scEntityIndex = some subcEntityIndex then pure (some scord)
      else findSubcellOrdinalFrom mt cell subcdim subcEntityIndex remaining (scord + 1)

/-- The method `Cell::findSubcellOrdinal`; `none` is `-1`. -/
def findSubcellOrdinal (mt : MeshTopology) (cell : Cell) (subcdim : Nat)
    (subcEntityIndex : IndexType) : Except MeshError (Option Nat) :=
  findSubcellOrdinalFrom mt cell subcdim subcEntityIndex
    (cell._cellTopo.getSubcellCount subcdim) 0

/-- The method `Cell::isParent`. -/
def isParent (cell : Cell) (view : MeshTopologyView) : Bool :=
  view.isParent cell._cellIndex

/-- The while loop of `Cell::getNeighborInfo`, climbing from the stored
neighbour to its ancestors; `neighborInfoInBase` is `getNeighborInfo` of a cell
in the base topology. -/
def ancestralNeighborLoop (mt : MeshTopology)
    (neighborInfoInBase : Cell → Nat → Except MeshError (Option (IndexType × Nat)))
    (view : MeshTopologyView) (cellIndex : IndexType) :
    Nat → IndexType × Nat → Except MeshError (Option (IndexType × Nat))
  | 0, _ => throw MeshError.outOfFuel
  | fuel + 1, ancestralNeighborInfo =>
    if mt.isValidCellIndex (some ancestralNeighborInfo.1) then
      match mt.getCell ancestralNeighborInfo.1 with
      | Except.error err => throw err
      | Except.ok neighbor =>
        match neighbor._parent with
        | none => pure none
        | some parentPointer =>
          match mt.derefCell (some parentPointer) with
          | Except.error err => throw err
          | Except.ok neighborParent =>
            match neighborParent.findChildOrdinal neighbor._cellIndex,
                neighborParent._refPattern with
            | none, _ => throw MeshError.childNotFound
            | some _, none => throw MeshError.nullPointer
            | some childOrdinal, some refPattern =>
              match mapFind (refPattern.parentSideLookupForChild childOrdinal)
                  ancestralNeighborInfo.2 with
              | none => pure none
              | some parentSide =>
                match neighborInfoInBase neighborParent parentSide with
                | Except.error err => throw err
                | Except.ok info =>
                  if info.map Prod.fst ≠ some cellIndex then pure none
                  else if view.isValidCellIndex (some neighborParent._cellIndex) then
                    pure (some (neighborParent._cellIndex, parentSide))
                  else
                    ancestralNeighborLoop mt neighborInfoInBase view cellIndex fuel
                      (neighborParent._cellIndex, parentSide)
    else pure none

/-- The method `Cell::getNeighborInfo`; `none` is `(-1, -1)`. -/
def getNeighborInfo (mt : MeshTopology) :
    Nat → MeshTopologyView → Cell → Nat → Except MeshError (Option (IndexType × Nat))
  | 0, _, _, _ => throw MeshError.outOfFuel
  | fuel + 1, view, cell, sideOrdinal =>
    if sideOrdinal ≥ cell._cellTopo.getSideCount then throw MeshError.sideOrdinalOutOfBounds
    else
      match cell._neighbors[sideOrdinal]? with
      | none => throw MeshError.indexOutOfRange
      | some stored =>
        if view.isValidCellIndex (stored.map Prod.fst) then pure stored
        else
          match stored with
          | none => pure none
          | some storedNeighbor =>
            if mt.isValidCellIndex (some storedNeighbor.1) then
              ancestralNeighborLoop mt (getNeighborInfo mt fuel (mt.asView fuel)) view
                cell._cellIndex fuel storedNeighbor
            else pure none

/-- The method `Cell::ownsSide`. -/
def ownsSide (mt : MeshTopology) (fuel : Nat) (view : MeshTopologyView) (cell : Cell)
    (sideOrdinal : Nat) : Except MeshError Bool :=
  match getNeighborInfo mt fuel view cell sideOrdinal with
  | Except.error err => throw err
  | Except.ok none => pure true
  | Except.ok (some (neighborCellID, neighborSideOrdinal)) =>
    match mt.getCell neighborCellID with
    | Except.error err => throw err
    | Except.ok neighborCell =>
      match getNeighborInfo mt fuel view neighborCell neighborSideOrdinal with
      | Except.error err => throw err
      | Except.ok neighborOfNeighbor =>
        let isPeer := decide (neighborOfNeighbor.map Prod.fst = some cell._cellIndex)
        if isPeer && !neighborCell.isParent view then
          pure (decide (cell._cellIndex < neighborCellID))
        else if isPeer then pure true
        else if !neighborCell.isParent view then pure false
        else
          match neighborOfNeighbor with
          | none => pure false
          | some (ancestralCellID, _) => pure (decide (ancestralCellID < neighborCellID))

/-- The decision table of `ownsSide` as the spec words it: `neighbor` is the
resolved neighbour of the cell `c` on the side, `neighborOfNeighbor` the cell
across the neighbour's side, `neighborIsParent` whether the neighbour is a
parent in the view. -/
def ownsSideTable (c : IndexType) (neighbor : Option IndexType)
    (neighborOfNeighbor : Option IndexType) (neighborIsParent : Bool) : Bool :=
  match neighbor with
  | none => true
  | some n =>
    if neighborOfNeighbor = some c ∧ neighborIsParent = false then decide (c < n)
    else if neighborOfNeighbor = some c ∧ neighborIsParent = true then true
    else if neighborOfNeighbor ≠ some c ∧ neighborIsParent = false then false
    else
      match neighborOfNeighbor with
      | none => false
      | some a => decide (a < n)

/-- The loop of `Cell::getDescendantsForSide` over the children on a side;
`descend` is `getDescendantsForSide` of a child. -/
def descendantsForSideLoop (mt : MeshTopology) (view : MeshTopologyView) (cell : Cell)
    (leafNodesOnly : Bool)
    (descend : Cell → Nat → Except MeshError (List (IndexType × Nat))) :
    List (Nat × Nat) → Except MeshError (List (IndexType × Nat))
  | [] => pure []
  | (childOrdinal, childSideOrdinal) :: rest =>
    match cell._childIndices[childOrdinal]? with
    | none => throw MeshError.childOrdinalOutOfBounds
    | some childCellIndex =>
      let own : List (IndexType × Nat) :=
        if (view.isValidCellIndex (some childCellIndex) && !view.isParent childCellIndex)
            || !leafNodesOnly
        then [(childCellIndex, childSideOrdinal)] else []
      match (if view.isValidCellIndex (some childCellIndex) then
          match mt.derefCell ((cell._children.getD childOrdinal none)) with
          | Except.error err => Except.error err
          | Except.ok child =>
            if child.isParent view then descend child childSideOrdinal else Except.ok []
        else Except.ok []) with
      | Except.error err => throw err
      | Except.ok childDescendants =>
        match descendantsForSideLoop mt view cell leafNodesOnly descend rest with
        | Except.error err => throw err
        | Except.ok tail => pure (own ++ childDescendants ++ tail)

/-- The method `Cell::getDescendantsForSide`. -/
def getDescendantsForSide (mt : MeshTopology) (view : MeshTopologyView) (leafNodesOnly : Bool) :
    Nat → Cell → Nat → Except MeshError (List (IndexType × Nat))
  | 0, _, _ => throw MeshError.outOfFuel
  | fuel + 1, cell, sideOrdinal =>
    if !view.isValidCellIndex (some cell._cellIndex) then throw MeshError.cellIndexNotValid
    else if sideOrdinal ≥ cell._cellTopo.getSideCount then
      throw MeshError.sideOrdinalOutOfBounds
    else if !view.isParent cell._cellIndex then pure [(cell._cellIndex, sideOrdinal)]
    else
      match cell._refPattern with
      | none => throw MeshError.nullPointer
      | some refPattern =>
        match refPattern.childrenForSides[sideOrdinal]? with
        | none => throw MeshError.indexOutOfRange
        | some childIndices =>
          descendantsForSideLoop mt view cell leafNodesOnly
            (getDescendantsForSide mt view leafNodesOnly fuel) childIndices

end Cell

namespace MeshTopology

/-- The method `getSubEntityIndex`. -/
def getSubEntityIndex (tools : CellTools) (mt : MeshTopology) (d : Nat) (entityIndex : IndexType)
    (subEntityDim subEntityOrdinal : Nat) : Except MeshError IndexType :=
  if d = 0 then
    if subEntityDim = 0 ∧ subEntityOrdinal = 0 then pure entityIndex
    else throw MeshError.subEntityNotFound
  else if d = mt._spaceDim then
    match mt.getCell entityIndex with
    | Except.error err => throw err
    | Except.ok cell =>
      match cell.entityIndexValue mt subEntityDim subEntityOrdinal with
      | Except.error err => throw err
      | Except.ok none => throw MeshError.subEntityNotFound
      | Except.ok (some i) => pure i
  else
    match getEntityTopology tools mt d entityIndex, getEntityVertexIndices mt d entityIndex with
    | Except.error err, _ => throw err
    | Except.ok _, Except.error err => throw err
    | Except.ok entityTopo, Except.ok entityNodes =>
      match (entityTopo.nodeMap subEntityDim subEntityOrdinal).mapM
          (fun nodeOrdinalInEntity => entityNodes[nodeOrdinalInEntity]?) with
      | none => throw MeshError.indexOutOfRange
      | some nodes =>
        if subEntityDim = 0 then
          match nodes with
          | [] => throw MeshError.indexOutOfRange
          | nodeIndexInMesh :: _ => pure nodeIndexInMesh
        else
          match getEntityIndex mt subEntityDim (setOfList nodes) with
          | Except.error err => throw err
          | Except.ok none => throw MeshError.subEntityNotFound
          | Except.ok (some subEntityIndex) => pure subEntityIndex

/-- The method `getSubEntityPermutation`.  The first-seen ordering handed to
`permutationMatchingOrder` is the entry of `_canonicalEntityOrdering[subEntityDim]`
at the position `subEntityOrdinal`, as in the source. -/
def getSubEntityPermutation (tools : CellTools) (mt : MeshTopology) (d : Nat)
    (entityIndex : IndexType) (subEntityDim subEntityOrdinal : Nat) : Except MeshError Nat :=
  if subEntityDim = 0 then pure 0
  else if subEntityDim ≥ d then throw MeshError.subEntityDimTooLarge
  else
    match getEntityVertexIndices mt d entityIndex with
    | Except.error err => throw err
    | Except.ok entityNodes =>
      match getEntityTopology tools mt d entityIndex with
      | Except.error err => throw err
      | Except.ok topo =>
        match (topo.nodeMap subEntityDim subEntityOrdinal).mapM
            (fun entityNodeOrdinal => entityNodes[entityNodeOrdinal]?) with
        | none => throw MeshError.indexOutOfRange
        | some listedNodes =>
          match getCanonicalEntityNodesViaPeriodicBCs mt subEntityDim listedNodes with
          | Except.error err => throw err
          | Except.ok subEntityNodes =>
            match getSubEntityIndex tools mt d entityIndex subEntityDim subEntityOrdinal with
            | Except.error err => throw err
            | Except.ok subEntityIndex =>
              match getEntityTopology tools mt subEntityDim subEntityIndex with
              | Except.error err => throw err
              | Except.ok subEntityTopo =>
                match (mt._canonicalEntityOrdering.getD subEntityDim [])[subEntityOrdinal]? with
                | none => throw MeshError.indexOutOfRange
                | some ordering =>
                  pure (tools.permutationMatchingOrder subEntityTopo ordering subEntityNodes)

/-- The method `getEntitiesForSide`. -/
def getEntitiesForSide (tools : CellTools) (mt : MeshTopology) (sideEntityIndex : IndexType)
    (d : Nat) : Except MeshError (List IndexType) :=
  match getSubEntityCount tools mt mt.sideDim sideEntityIndex d with
  | Except.error err => throw err
  | Except.ok subEntityCount =>
    foldExcept (fun (subEntities : List IndexType) subEntityOrdinal =>
      match getSubEntityIndex tools mt mt.sideDim sideEntityIndex d subEntityOrdinal with
      | Except.error err => Except.error err
      | Except.ok i => Except.ok (setInsert i subEntities)) [] (List.range subEntityCount)

/-- The method `descendants`: the entity and all its recorded child entities,
children of children included, as a set.  A `-1` child, which the source keeps
in the set as the largest unsigned value, is left out. -/
def descendants (mt : MeshTopology) (d : Nat) : Nat → IndexType → Except MeshError (List IndexType)
  | 0, _ => throw MeshError.outOfFuel
  | fuel + 1, entityIndex =>
    match mapFind (mt._childEntities.getD d []) entityIndex with
    | none => pure [entityIndex]
    | some entries =>
      foldExcept (fun (all : List IndexType) child =>
        match descendants mt d fuel child with
        | Except.error err => Except.error err
        | Except.ok mine => Except.ok (mine.foldl (fun acc x => setInsert x acc) all))
        [entityIndex]
        (setOfList ((entries.map (fun entry => entry.2)).flatten.filterMap id))

/-- The while loop of `getConstrainingSideAncestry`. -/
def sideAncestryLoop (mt : MeshTopology) :
    Nat → IndexType → List (IndexType × Nat) → Except MeshError (List (IndexType × Nat))
  | 0, _, _ => throw MeshError.outOfFuel
  | fuel + 1, sideEntityIndex, ancestry =>
    match mapFind (mt._parentEntities.getD mt.sideDim []) sideEntityIndex with
    | none => pure []
    | some parents =>
      match parents.find? (fun entry => decide (getActiveCellCount mt mt.sideDim entry.1 > 0)) with
      | some entry => pure (ancestry ++ [entry])
      | none =>
        match parents.getLast? with
        | none => throw MeshError.indexOutOfRange
        | some last => sideAncestryLoop mt fuel last.1 (ancestry ++ [last])

/-- The method `getConstrainingSideAncestry`. -/
def getConstrainingSideAncestry (fuel : Nat) (mt : MeshTopology) (sideEntityIndex : IndexType) :
    Except MeshError (List (IndexType × Nat)) :=
  if mt.isBoundarySide sideEntityIndex then pure []
  else
    match (mt._activeCellsForEntities.getD mt.sideDim [])[sideEntityIndex]? with
    | none => throw MeshError.indexOutOfRange
    | some sideCellEntries =>
      if sideCellEntries.length = 2 then pure []
      else if sideCellEntries.length = 0 ∨ sideCellEntries.length = 1 then
        sideAncestryLoop mt fuel sideEntityIndex []
      else throw MeshError.activeCellCountForSide

/-- The method `getEntityGeneralizedParent`; `getCellsContainingEntity` is a
method of the view. -/
def getEntityGeneralizedParent (mt : MeshTopology)
    (getCellsContainingEntity : Nat → IndexType → List (IndexType × Nat))
    (d : Nat) (entityIndex : IndexType) : Except MeshError (IndexType × Nat) :=
  match mapFind (mt._generalizedParentEntities.getD d []) entityIndex with
  | some generalizedParent => pure generalizedParent
  | none =>
    match (if d = mt._spaceDim then
        match mt.getCell entityIndex with
        | Except.error err => Except.error err
        | Except.ok cell => Except.ok (some cell)
      else
        match getCellsContainingEntity d entityIndex with
        | [] => Except.ok none
        | first :: _ =>
          match mt.derefCell (some first.1) with
          | Except.error err => Except.error err
          | Except.ok cell => Except.ok (some cell)) with
    | Except.error err => throw err
    | Except.ok none => throw MeshError.generalizedParentNotFound
    | Except.ok (some cell) =>
      match cell._parent with
      | none => throw MeshError.generalizedParentNotFound
      | some parentPointer =>
        match mt.derefCell (some parentPointer) with
        | Except.error err => throw err
        | Except.ok parent => pure (parent._cellIndex, mt._spaceDim)

/-! ### Cell insertion -/

/-- The append to `_activeCellsForEntities[d][entityIndex]` with its resize and sort. -/
def pushActiveCell (mt : MeshTopology) (d : Nat) (entityIndex : IndexType)
    (entry : IndexType × Nat) : MeshTopology :=
  { mt with
    _activeCellsForEntities := modifyAt mt._activeCellsForEntities d (fun table =>
      let resized := if table.length ≤ entityIndex then resizeTo table (entityIndex + 100) []
        else table
      modifyAt resized entityIndex (fun entries => sortPairs (entries ++ [entry]))) }

/-- The vertices equivalent to a vertex via the periodic matches recorded for
it, in the order of the set of matches; a missing partner reads as the
default-constructed index 0. -/
def periodicEquivalents (mt : MeshTopology) (vertexIndex : IndexType) : List IndexType :=
  match mapFind mt._periodicBCIndicesMatchingNode vertexIndex with
  | none => []
  | some matchingBCs =>
    matchingBCs.map (fun bc => (mapFind mt._equivalentNodeViaPeriodicBC (vertexIndex, bc)).getD 0)

/-- One pass of the inner entity loop of `addCell`: sub-cell `j` of dimension `d`. -/
def addCellEntity (tools : CellTools) (cellIndex : IndexType) (cellTopo : CellTopology)
    (cellVertices : List IndexType) (d : Nat) (st : MeshTopology × List (List Nat)) (j : Nat) :
    Except MeshError (MeshTopology × List (List Nat)) :=
  match Cell.subcellNodes cellTopo cellVertices d j, cellTopo.getSubcell d j with
  | Except.error err, _ => throw err
  | Except.ok _, none => throw MeshError.nullPointer
  | Except.ok nodes, some entityTopo =>
    match addEntity tools st.1 entityTopo nodes with
    | Except.error err => throw err
    | Except.ok (mt1, entityIndex, entityPermutation) =>
      let permutations :=
        if d ≠ 0 then modifyAt st.2 d (fun row => modifyAt row j (fun _ => entityPermutation))
        else st.2
      let mt2 := pushActiveCell mt1 d entityIndex (cellIndex, j)
      let mt3 :=
        if d = 0 then
          (periodicEquivalents mt2 entityIndex).foldl
            (fun acc equivalentNode => pushActiveCell acc d equivalentNode (cellIndex, j)) mt2
        else mt2
      pure (mt3, permutations)

/-- One pass of the outer entity loop of `addCell`: all sub-cells of dimension `d`. -/
def addCellEntitiesOfDim (tools : CellTools) (cellIndex : IndexType) (cellTopo : CellTopology)
    (cellVertices : List IndexType) (st : MeshTopology × List (List Nat)) (d : Nat) :
    Except MeshError (MeshTopology × List (List Nat)) :=
  let entityCount := cellTopo.getSubcellCount d
  foldExcept (addCellEntity tools cellIndex cellTopo cellVertices d)
    (st.1, st.2 ++ [if d > 0 then List.replicate entityCount 0 else []])
    (List.range entityCount)

/-- The constructor `Cell::Cell`. -/
def newCell (cellTopo : CellTopology) (vertices : List IndexType)
    (subcellPermutations : List (List Nat)) (cellIndex : IndexType) : Cell :=
  { _cellTopo := cellTopo
    _vertices := vertices
    _subcellPermutations := subcellPermutations
    _cellIndex := cellIndex
    _level := 0
    _neighbors := List.replicate cellTopo.getSideCount none
    _parent := none
    _children := []
    _childIndices := []
    _refPattern := none
    _entityIndices := [] }

/-- The method `Cell::setParent` on the cell of the table with the given index. -/
def setParent (mt : MeshTopology) (cellIndex : IndexType) (parent : Option IndexType) :
    Except MeshError MeshTopology :=
  match mt.getCell cellIndex with
  | Except.error err => throw err
  | Except.ok cell =>
    match parent with
    | none => pure { mt with _cells := mapSet mt._cells cellIndex { cell with _parent := none } }
    | some parentPointer =>
      match mt.derefCell (some parentPointer) with
      | Except.error err => throw err
      | Except.ok parentCell =>
        pure { mt with
          _cells := mapSet mt._cells cellIndex
            { cell with _parent := some parentPointer, _level := parentCell._level + 1 } }

/-- The call `cell->entityIndex(d, ordinal)` on a cell of the table, the filled
cache stored back into the table. -/
def cellEntityIndex (mt : MeshTopology) (cellIndex : IndexType) (d ordinal : Nat) :
    Except MeshError (Option IndexType × MeshTopology) :=
  match mt.getCell cellIndex with
  | Except.error err => throw err
  | Except.ok cell =>
    match cell.entityIndex mt d ordinal with
    | Except.error err => throw err
    | Except.ok (found, cell') => pure (found, { mt with _cells := mapSet mt._cells cellIndex cell' })

/-- The side entity index `cell->entityIndex(sideDim, sideOrdinal)` of a cell of the table. -/
def cellSideEntityIndex (mt : MeshTopology) (cellIndex : IndexType) (sideOrdinal : Nat) :
    Except MeshError (Option IndexType × MeshTopology) :=
  cellEntityIndex mt cellIndex mt.sideDim sideOrdinal

/-- One pass of the first side loop of `addCell`: the cell claims its side. -/
def claimSide (cellIndex : IndexType) (mt : MeshTopology) (sideOrdinal : Nat) :
    Except MeshError MeshTopology :=
  match cellSideEntityIndex mt cellIndex sideOrdinal with
  | Except.error err => throw err
  | Except.ok (sideEntityIndex, mt1) => addCellForSide mt1 cellIndex sideOrdinal sideEntityIndex

/-- The neighbour update of the descendants of a refined claimant of a side. -/
def setDescendantNeighbors (fuel : Nat) (mt : MeshTopology) (claimant other : IndexType × Nat) :
    Except MeshError MeshTopology :=
  match mt.getCell claimant.1 with
  | Except.error err => throw err
  | Except.ok claimantCell =>
    if claimantCell.isParent (mt.asView fuel) then
      match Cell.getDescendantsForSide mt (mt.asView fuel) true fuel claimantCell
          claimant.2 with
      | Except.error err => throw err
      | Except.ok descendantEntries =>
        foldExcept (fun acc (descendantEntry : IndexType × Nat) =>
          setNeighbor acc descendantEntry.1 descendantEntry.2 other.1 other.2 false)
          mt descendantEntries
    else pure mt

/-- The branch of the second side loop of `addCell` for a side with two claimants. -/
def linkCompatibleNeighbors (fuel : Nat) (mt : MeshTopology) (sideEntityIndex : IndexType) :
    Except MeshError MeshTopology :=
  match mt.getFirstCellForSide sideEntityIndex, mt.getSecondCellForSide sideEntityIndex with
  | some firstNeighbor, some secondNeighbor =>
    let allowSameCellIndices := decide (mt._periodicBCs.length > 0)
    match mt.derefCell (some firstNeighbor.1), mt.derefCell (some secondNeighbor.1) with
    | Except.error err, _ => throw err
    | Except.ok _, Except.error err => throw err
    | Except.ok _, Except.ok _ =>
      match setNeighbor mt firstNeighbor.1 firstNeighbor.2 secondNeighbor.1 secondNeighbor.2
          allowSameCellIndices with
      | Except.error err => throw err
      | Except.ok mt1 =>
        match setNeighbor mt1 secondNeighbor.1 secondNeighbor.2 firstNeighbor.1 firstNeighbor.2
            allowSameCellIndices with
        | Except.error err => throw err
        | Except.ok mt2 =>
          match (if mt2.isBoundarySide sideEntityIndex then
              if (mapFind (mt2._childEntities.getD mt2.sideDim []) sideEntityIndex).isSome then
                match descendants mt2 mt2.sideDim fuel sideEntityIndex with
                | Except.error err => Except.error err
                | Except.ok childSides =>
                  Except.ok { mt2 with
                    _boundarySides := setErase sideEntityIndex
                      (childSides.foldl (fun acc x => setErase x acc) mt2._boundarySides) }
              else Except.ok { mt2 with
                _boundarySides := setErase sideEntityIndex mt2._boundarySides }
            else Except.ok mt2) with
          | Except.error err => throw err
          | Except.ok mt3 =>
            match setDescendantNeighbors fuel mt3 firstNeighbor secondNeighbor with
            | Except.error err => throw err
            | Except.ok mt4 => setDescendantNeighbors fuel mt4 secondNeighbor firstNeighbor
  | _, _ => throw MeshError.nullPointer

/-- The branch of the second side loop of `addCell` for a side claimed by the
new cell alone. -/
def linkSingleClaimant (fuel : Nat) (mt : MeshTopology) (cellIndex : IndexType)
    (parentCellIndex : Option IndexType) (sideOrdinal : Nat) (sideEntityIndex : IndexType) :
    Except MeshError MeshTopology :=
  match parentCellIndex with
  | none => pure { mt with _boundarySides := setInsert sideEntityIndex mt._boundarySides }
  | some _ =>
    match getConstrainingSideAncestry fuel mt sideEntityIndex with
    | Except.error err => throw err
    | Except.ok sideAncestry =>
      match sideAncestry.getLast? with
      | none => pure mt
      | some last =>
        match (mt._activeCellsForEntities.getD mt.sideDim [])[last.1]? with
        | none => throw MeshError.indexOutOfRange
        | some [activeCellEntry] =>
          setNeighbor mt cellIndex sideOrdinal activeCellEntry.1 activeCellEntry.2 false
        | some _ => throw MeshError.activeCellEntriesSize

/-- The registration of a side for one of its sub-entities, and for the
periodic equivalents of a vertex. -/
def addSideForSubEntity (d : Nat) (sideEntityIndex : IndexType) (mt : MeshTopology)
    (subcellEntityIndex : IndexType) : MeshTopology :=
  if d = 0 then
    (periodicEquivalents (addSideForEntity mt d subcellEntityIndex sideEntityIndex)
        subcellEntityIndex).foldl
      (fun acc equivalentNode => addSideForEntity acc d equivalentNode sideEntityIndex)
      (addSideForEntity mt d subcellEntityIndex sideEntityIndex)
  else addSideForEntity mt d subcellEntityIndex sideEntityIndex

/-- The registration of a side for its sub-entities of dimension `d`. -/
def addSidesForSubEntitiesOfDim (tools : CellTools) (sideEntityIndex : IndexType)
    (mt : MeshTopology) (d : Nat) : Except MeshError MeshTopology :=
  match getEntitiesForSide tools mt sideEntityIndex d with
  | Except.error err => throw err
  | Except.ok sideSubcellIndices =>
    pure (sideSubcellIndices.foldl (addSideForSubEntity d sideEntityIndex) mt)

/-- The registration of a side for its sub-entities at the end of one pass of
the second side loop of `addCell`. -/
def addSidesForSubEntities (tools : CellTools) (mt : MeshTopology) (sideEntityIndex : IndexType) :
    Except MeshError MeshTopology :=
  match foldExcept (addSidesForSubEntitiesOfDim tools sideEntityIndex) mt
      (List.range mt.sideDim) with
  | Except.error err => throw err
  | Except.ok mt1 => pure (addSideForEntity mt1 mt1.sideDim sideEntityIndex sideEntityIndex)

/-- One pass of the second side loop of `addCell`. -/
def linkSide (tools : CellTools) (fuel : Nat) (cellIndex : IndexType)
    (parentCellIndex : Option IndexType) (mt : MeshTopology) (sideOrdinal : Nat) :
    Except MeshError MeshTopology :=
  match cellSideEntityIndex mt cellIndex sideOrdinal with
  | Except.error err => throw err
  | Except.ok (none, _) => throw MeshError.sideEntityNotFound
  | Except.ok (some sideEntityIndex, mt1) =>
    let cellCountForSide := mt1.getCellCountForSide sideEntityIndex
    match (if cellCountForSide = 2 then linkCompatibleNeighbors fuel mt1 sideEntityIndex
      else if cellCountForSide = 1 then
        linkSingleClaimant fuel mt1 cellIndex parentCellIndex sideOrdinal sideEntityIndex
      else Except.ok mt1) with
    | Except.error err => throw err
    | Except.ok mt2 => addSidesForSubEntities tools mt2 sideEntityIndex

/-- The counter update at the head of `addCell`. -/
def countNewCell (mt : MeshTopology) (cellIndex : IndexType) : Except MeshError MeshTopology :=
  if (mapFind mt._cells cellIndex).isSome then throw MeshError.cellExists
  else if cellIndex < mt._nextCellIndex then pure mt
  else if cellIndex = mt._nextCellIndex then
    pure { mt with
      _nextCellIndex := mt._nextCellIndex + 1
      _activeCellCount := mt._activeCellCount + 1 }
  else throw MeshError.cellIndexTooLarge

/-- The creation of the cell object in `addCell` and its entry into the cell
table and the valid, active and root sets. -/
def insertCell (mt : MeshTopology) (cellIndex : IndexType) (cellTopo : CellTopology)
    (cellVertices : List IndexType) (cellEntityPermutations : List (List Nat)) : MeshTopology :=
  { mt with
    _cells := mapSet mt._cells cellIndex
      (newCell cellTopo cellVertices cellEntityPermutations cellIndex)
    _validCells := setInsert cellIndex mt._validCells
    _activeCells := setInsert cellIndex mt._activeCells
    _rootCells := setInsert cellIndex mt._rootCells }

/-- The method `addCell(cellIndex, cellTopo, cellVertices, parentCellIndex)` on
vertex indices; `none` is the default parent index `-1`. -/
def addCell (tools : CellTools) (fuel : Nat) (mt : MeshTopology) (cellIndex : IndexType)
    (cellTopo : CellTopology) (cellVertices : List IndexType)
    (parentCellIndex : Option IndexType) : Except MeshError MeshTopology :=
  match countNewCell mt cellIndex with
  | Except.error err => throw err
  | Except.ok mt1 =>
    match foldExcept (addCellEntitiesOfDim tools cellIndex cellTopo cellVertices) (mt1, [])
        (List.range mt1._spaceDim) with
    | Except.error err => throw err
    | Except.ok (mt2, cellEntityPermutations) =>
      let mt3 := insertCell mt2 cellIndex cellTopo cellVertices cellEntityPermutations
      match (match parentCellIndex with
        | none => Except.ok mt3
        | some parent =>
          match mt3.getCell parent with
          | Except.error err => Except.error err
          | Except.ok _ => setParent mt3 cellIndex (some parent)) with
      | Except.error err => throw err
      | Except.ok mt4 =>
        let sideCount := cellTopo.getSideCount
        match foldExcept (claimSide cellIndex) mt4 (List.range sideCount) with
        | Except.error err => throw err
        | Except.ok mt5 =>
          foldExcept (linkSide tools fuel cellIndex parentCellIndex) mt5 (List.range sideCount)

/-! ### Refinement -/

/-- The loop of `Cell::setChildren` over the child ordinals. -/
def linkChild (parentIndex : IndexType) (mt : MeshTopology) (entry : Nat × IndexType) :
    Except MeshError MeshTopology :=
  if mt.isValidCellIndex (some entry.2) then
    match mt.getCell entry.2 with
    | Except.error err => throw err
    | Except.ok _ =>
      match setParent mt entry.2 (some parentIndex) with
      | Except.error err => throw err
      | Except.ok mt1 =>
        match mt1.getCell parentIndex with
        | Except.error err => throw err
        | Except.ok parentCell =>
          pure { mt1 with
            _cells := mapSet mt1._cells parentIndex
              { parentCell with
                _children := modifyAt parentCell._children entry.1 (fun _ => some entry.2) } }
  else pure mt

/-- The method `Cell::setChildren` on the cell of the table with the given index. -/
def setChildren (mt : MeshTopology) (parentIndex : IndexType) (childIndices : List IndexType) :
    Except MeshError MeshTopology :=
  match mt.getCell parentIndex with
  | Except.error err => throw err
  | Except.ok parentCell =>
    foldExcept (linkChild parentIndex)
      { mt with
        _cells := mapSet mt._cells parentIndex
          { parentCell with
            _childIndices := childIndices
            _children := resizeTo parentCell._children childIndices.length none } }
      ((List.range childIndices.length).zip childIndices)

/-- The removal of the entries `(cellIndex, j)` from one active-cell list, as the
source does it: the matching positions are collected and erased from the last
one down to position `stop` of the collection (0 in the first loop of
`deactivateCell`, 1 in its loop over the periodic equivalents). -/
def eraseActiveCellEntries (mt : MeshTopology) (d : Nat) (entityIndex : IndexType)
    (entry : IndexType × Nat) (stop : Nat) : MeshTopology :=
  if (mt._activeCellsForEntities.getD d []).length ≤ entityIndex then mt
  else
    { mt with
      _activeCellsForEntities := modifyAt mt._activeCellsForEntities d (fun table =>
        modifyAt table entityIndex (fun entries =>
          eraseIndicesReverse entries (positionsOf entry entries 0) stop)) }

/-- One pass of the inner loop of `deactivateCell`: sub-cell `j` of dimension `d`. -/
def deactivateCellEntity (cell : Cell) (d : Nat) (mt : MeshTopology) (j : Nat) :
    Except MeshError MeshTopology :=
  match Cell.subcellNodes cell._cellTopo cell._vertices d j with
  | Except.error err => throw err
  | Except.ok nodes =>
    match getEntityIndex mt d (setOfList nodes) with
    | Except.error err => throw err
    | Except.ok none => throw MeshError.cellEntityNotFound
    | Except.ok (some entityIndex) =>
      let mt1 := eraseActiveCellEntries mt d entityIndex (cell._cellIndex, j) 0
      if d = 0 then
        pure ((periodicEquivalents mt1 entityIndex).foldl
          (fun acc equivalentNode =>
            eraseActiveCellEntries acc d equivalentNode (cell._cellIndex, j) 1) mt1)
      else pure mt1

/-- One pass of the outer loop of `deactivateCell`: all sub-cells of dimension `d`. -/
def deactivateCellEntitiesOfDim (cell : Cell) (mt : MeshTopology) (d : Nat) :
    Except MeshError MeshTopology :=
  foldExcept (deactivateCellEntity cell d) mt (List.range (cell._cellTopo.getSubcellCount d))

/-- The method `deactivateCell`. -/
def deactivateCell (mt : MeshTopology) (cell : Cell) : Except MeshError MeshTopology :=
  match foldExcept (deactivateCellEntitiesOfDim cell) mt (List.range mt._spaceDim) with
  | Except.error err => throw err
  | Except.ok mt1 => pure { mt1 with _activeCells := setErase cell._cellIndex mt1._activeCells }

/-- One pass of the loop of `addChildren`. -/
def addChild (tools : CellTools) (fuel : Nat) (parentCellIndex : IndexType)
    (mt : MeshTopology) (child : IndexType × CellTopology × List IndexType) :
    Except MeshError MeshTopology :=
  if !mt.isValidCellIndex (some child.1) then
    match addCell tools fuel mt child.1 child.2.1 child.2.2 (some parentCellIndex) with
    | Except.error err => throw err
    | Except.ok mt1 => pure { mt1 with _rootCells := setErase child.1 mt1._rootCells }
  else pure mt

/-- The method `addChildren`; the parent cell is given by its index in the table. -/
def addChildren (tools : CellTools) (fuel : Nat) (mt : MeshTopology) (firstChildIndex : IndexType)
    (parentIndex : IndexType) (childTopos : List CellTopology)
    (childVertices : List (List IndexType)) : Except MeshError MeshTopology :=
  let numChildren := childTopos.length
  if numChildren ≠ childVertices.length then throw MeshError.childTopoSizeMismatch
  else
    match mt.getCell parentIndex with
    | Except.error err => throw err
    | Except.ok parentCell =>
      let childIndices := (List.range numChildren).map (fun childOrdinal =>
        firstChildIndex + childOrdinal)
      match foldExcept (addChild tools fuel parentCell._cellIndex) mt
          (childIndices.zip (childTopos.zip childVertices)) with
      | Except.error err => throw err
      | Except.ok mt1 => setChildren mt1 parentIndex childIndices

/-- The method `getVertexIndex`, the tolerance search being an exact match. -/
def getVertexIndex (mt : MeshTopology) (vertex : Point) : Option IndexType :=
  mapFind mt._vertexMap vertex

/-- One pass of the periodic loop of `getVertexIndexAdding`: the match
`(i, matchingSide)` of the new vertex; the sides of a match are 0 and 1. -/
def recordPeriodicMatch (vertex : Point) (vertexIndex : IndexType)
    (st : MeshTopology × Bool) (bc : Nat × PeriodicBC × Nat) : MeshTopology × Bool :=
  let mt := st.1
  let matchingBC : Nat × Nat := (bc.1, bc.2.2)
  let matchingBCForEquivalentVertex : Nat × Nat := (bc.1, 1 - bc.2.2)
  let matchingPoint := bc.2.1.getMatchingPoint vertex bc.2.2
  match getVertexIndex mt matchingPoint with
  | none => st
  | some equivalentVertexIndex =>
    let canonical :=
      match mapFind mt._canonicalVertexPeriodic equivalentVertexIndex with
      | none => equivalentVertexIndex
      | some c => c
    ({ mt with
      _canonicalVertexPeriodic := mapSet mt._canonicalVertexPeriodic vertexIndex canonical
      _equivalentNodeViaPeriodicBC :=
        mapSet (mapSet mt._equivalentNodeViaPeriodicBC (vertexIndex, matchingBC)
          equivalentVertexIndex) (equivalentVertexIndex, matchingBCForEquivalentVertex)
          vertexIndex
      _periodicBCIndicesMatchingNode :=
        let m1 := mapSet mt._periodicBCIndicesMatchingNode vertexIndex
          (pairSetInsert matchingBC
            ((mapFind mt._periodicBCIndicesMatchingNode vertexIndex).getD []))
        mapSet m1 equivalentVertexIndex
          (pairSetInsert matchingBCForEquivalentVertex
            ((mapFind m1 equivalentVertexIndex).getD [])) }, true)

/-- The method `getVertexIndexAdding`. -/
def getVertexIndexAdding (mt : MeshTopology) (vertex : Point) : MeshTopology × IndexType :=
  match getVertexIndex mt vertex with
  | some vertexIndex => (mt, vertexIndex)
  | none =>
    let vertexIndex := mt._vertices.length
    let mt1 := { mt with
      _vertices := mt._vertices ++ [vertex]
      _vertexMap := mapSet mt._vertexMap vertex vertexIndex
      _entities := modifyAt mt._entities 0 (fun es => es ++ [[vertexIndex]])
      _entityCellTopologyKeys := modifyAt mt._entityCellTopologyKeys 0
        (fun keys => mapSet keys pointTopology.getKey
          (setInsert vertexIndex ((mapFind keys pointTopology.getKey).getD []))) }
    let matchingBCs : List (Nat × PeriodicBC × Nat) :=
      (((List.range mt1._periodicBCs.length).zip mt1._periodicBCs).map
        (fun bc => (bc.2.getMatchingSides vertex).map (fun side => (bc.1, bc.2, side)))).flatten
    let st := matchingBCs.foldl (recordPeriodicMatch vertex vertexIndex) (mt1, false)
    if st.2 then (st.1, vertexIndex)
    else
      ({ st.1 with
        _knownEntities := modifyAt st.1._knownEntities 0
          (fun known => mapSet known [vertexIndex] vertexIndex) }, vertexIndex)

/-- The method `getVertexIndices`. -/
def getVertexIndices (mt : MeshTopology) (vertices : List Point) :
    MeshTopology × List IndexType :=
  vertices.foldl (fun st vertex =>
    let r := getVertexIndexAdding st.1 vertex
    (r.1, st.2 ++ [r.2])) (mt, [])

/-- The coordinates `cellNodes` of the vertices of a cell. -/
def cellNodes (mt : MeshTopology) (cell : Cell) : Except MeshError (List Point) :=
  match cell._vertices.mapM (fun v => mt._vertices[v]?) with
  | some nodes => pure nodes
  | none => throw MeshError.indexOutOfRange

/-- One pass of the child loop of `refineCellEntities`: the child entity with
the given physical nodes. -/
def addChildEntity (tools : CellTools) (d : Nat) (parentIndex : IndexType)
    (childTopo : CellTopology) (st : MeshTopology × List (Option IndexType))
    (physicalNodes : List Point) : Except MeshError (MeshTopology × List (Option IndexType)) :=
  let r := getVertexIndices st.1 physicalNodes
  match addEntity tools r.1 childTopo r.2 with
  | Except.error err => throw err
  | Except.ok (mt1, childEntityIndex, _) =>
    let mt2 :=
      if childEntityIndex ≠ parentIndex then
        { mt1 with
          _parentEntities := modifyAt mt1._parentEntities d
            (fun parents => mapSet parents childEntityIndex [(parentIndex, 0)]) }
      else mt1
    pure (mt2, st.2 ++ [some childEntityIndex])

/-- One pass of the sub-cell loop of `refineCellEntities`: sub-cell `subcord` of
dimension `d` of the cell being refined. -/
def refineCellEntity (tools : CellTools) (cellIndex : IndexType) (cellTopo : CellTopology)
    (nodesOfCell : List Point) (refPattern : RefinementPattern) (d : Nat) (mt : MeshTopology)
    (subcord : Nat) : Except MeshError MeshTopology :=
  match (refPattern.subcellPatterns.getD d [])[subcord]? with
  | none => throw MeshError.nullPointer
  | some (subcellRefPattern, physicalNodesOfChildren) =>
    let childCount := subcellRefPattern.numChildren
    if childCount = 1 then pure mt
    else
      match cellEntityIndex mt cellIndex d subcord with
      | Except.error err => throw err
      | Except.ok (none, _) => throw MeshError.subEntityNotFound
      | Except.ok (some parentIndex, mt1) =>
        match (match mapFind (mt1._childEntities.getD d []) parentIndex with
          | none => Except.ok false
          | some [] => Except.error MeshError.indexOutOfRange
          | some (entry :: _) => Except.ok (entry.2.all (fun child => child.isSome))) with
        | Except.error err => throw err
        | Except.ok true => pure mt1
        | Except.ok false =>
          match cellTopo.getSubcell d subcord with
          | none => throw MeshError.nullPointer
          | some childTopo =>
            if (physicalNodesOfChildren nodesOfCell).length ≠ childCount then
              throw MeshError.indexOutOfRange
            else
              match foldExcept (addChildEntity tools d parentIndex childTopo) (mt1, [])
                  (physicalNodesOfChildren nodesOfCell) with
              | Except.error err => throw err
              | Except.ok (mt2, childEntityIndices) =>
                let mt3 := { mt2 with
                  _childEntities := modifyAt mt2._childEntities d
                    (fun children => mapSet children parentIndex
                      [(subcellRefPattern, childEntityIndices)]) }
                if d = mt3.sideDim ∧ mt3.isBoundarySide parentIndex = true then
                  pure { mt3 with
                    _boundarySides := (childEntityIndices.filterMap id).foldl
                      (fun acc x => setInsert x acc) mt3._boundarySides }
                else pure mt3

/-- One pass of the outer loop of `refineCellEntities`: all sub-cells of dimension `d`. -/
def refineCellEntitiesOfDim (tools : CellTools) (cellIndex : IndexType) (cellTopo : CellTopology)
    (nodesOfCell : List Point) (refPattern : RefinementPattern) (mt : MeshTopology) (d : Nat) :
    Except MeshError MeshTopology :=
  foldExcept (refineCellEntity tools cellIndex cellTopo nodesOfCell refPattern d) mt
    (List.range (cellTopo.getSubcellCount d))

/-- The method `refineCellEntities`. -/
def refineCellEntities (tools : CellTools) (mt : MeshTopology) (cellIndex : IndexType)
    (refPattern : RefinementPattern) : Except MeshError MeshTopology :=
  match mt.getCell cellIndex with
  | Except.error err => throw err
  | Except.ok cell =>
    match cellNodes mt cell with
    | Except.error err => throw err
    | Except.ok nodesOfCell =>
      foldExcept (refineCellEntitiesOfDim tools cellIndex cell._cellTopo nodesOfCell refPattern)
        mt ((List.range mt._spaceDim).drop 1)

/-- The method `setEntityGeneralizedParent`. -/
def setEntityGeneralizedParent (mt : MeshTopology) (entityDim : Nat) (entityIndex : IndexType)
    (parentDim : Nat) (parentEntityIndex : IndexType) : Except MeshError MeshTopology :=
  if entityDim = parentDim ∧ parentEntityIndex = entityIndex then throw MeshError.entityOwnParent
  else
    let mt1 := { mt with
      _generalizedParentEntities := modifyAt mt._generalizedParentEntities entityDim
        (fun parents => mapSet parents entityIndex (parentEntityIndex, parentDim)) }
    if entityDim = 0 then
      pure ((periodicEquivalents mt1 entityIndex).foldl (fun acc equivalentNode =>
        { acc with
          _generalizedParentEntities := modifyAt acc._generalizedParentEntities entityDim
            (fun parents => mapSet parents equivalentNode (parentEntityIndex, parentDim)) }) mt1)
    else pure mt1

/-- One pass of the innermost loop of `determineGeneralizedParentsForRefinement`:
sub-entity `subcord` of dimension `subcdim` of a child entity. -/
def setSubEntityGeneralizedParent (tools : CellTools) (d : Nat) (parentIndex : IndexType)
    (parentVertexIndices : List IndexType) (childEntityIndex : IndexType) (subcdim : Nat)
    (mt : MeshTopology) (subcord : Nat) : Except MeshError MeshTopology :=
  match getSubEntityIndex tools mt d childEntityIndex subcdim subcord with
  | Except.error err => throw err
  | Except.ok subcellEntityIndex =>
    if subcdim = 0 ∧ subcellEntityIndex ∈ parentVertexIndices then pure mt
    else
      match mapFind (mt._generalizedParentEntities.getD subcdim []) subcellEntityIndex with
      | some previousParent =>
        if previousParent.2 ≤ d then pure mt
        else setEntityGeneralizedParent mt subcdim subcellEntityIndex d parentIndex
      | none => setEntityGeneralizedParent mt subcdim subcellEntityIndex d parentIndex

/-- One pass of the sub-entity dimension loop of
`determineGeneralizedParentsForRefinement`: the sub-entities of dimension
`subcdim` of a child entity. -/
def setSubEntityGeneralizedParentsOfDim (tools : CellTools) (d : Nat) (parentIndex : IndexType)
    (parentVertexIndices : List IndexType) (child : IndexType) (mt : MeshTopology)
    (subcdim : Nat) : Except MeshError MeshTopology :=
  match getSubEntityCount tools mt d child subcdim with
  | Except.error err => throw err
  | Except.ok subcCount =>
    foldExcept (setSubEntityGeneralizedParent tools d parentIndex parentVertexIndices
      child subcdim) mt (List.range subcCount)

/-- One pass of the child loop of `determineGeneralizedParentsForRefinement`. -/
def setChildGeneralizedParents (tools : CellTools) (d : Nat) (parentIndex : IndexType)
    (parentVertexIndices : List IndexType) (mt : MeshTopology)
    (childEntityIndex : Option IndexType) : Except MeshError MeshTopology :=
  match childEntityIndex with
  | none => throw MeshError.entityTopologyNotFound
  | some child =>
    if parentIndex = child then pure mt
    else
      match setEntityGeneralizedParent mt d child d parentIndex with
      | Except.error err => throw err
      | Except.ok mt1 =>
        foldExcept (setSubEntityGeneralizedParentsOfDim tools d parentIndex parentVertexIndices
          child) mt1 (List.range d)

/-- One pass of the sub-cell loop of `determineGeneralizedParentsForRefinement`. -/
def determineGeneralizedParentsForSubcell (tools : CellTools) (cellIndex : IndexType)
    (refPattern : RefinementPattern) (d : Nat) (mt : MeshTopology) (subcord : Nat) :
    Except MeshError MeshTopology :=
  match (refPattern.subcellPatterns.getD d [])[subcord]? with
  | none => throw MeshError.nullPointer
  | some (subcellRefPattern, _) =>
    if subcellRefPattern.numChildren = 1 then pure mt
    else
      match cellEntityIndex mt cellIndex d subcord with
      | Except.error err => throw err
      | Except.ok (none, _) => throw MeshError.subEntityNotFound
      | Except.ok (some parentIndex, mt1) =>
        match getEntityVertexIndices mt1 d parentIndex with
        | Except.error err => throw err
        | Except.ok parentVertexIndices =>
          foldExcept (setChildGeneralizedParents tools d parentIndex parentVertexIndices) mt1
            ((((mapFind (mt1._childEntities.getD d []) parentIndex).getD []).map
              (fun entry => entry.2)).flatten)

/-- One pass of the outer loop of `determineGeneralizedParentsForRefinement`:
all sub-cells of dimension `d`. -/
def determineGeneralizedParentsOfDim (tools : CellTools) (cellIndex : IndexType)
    (cellTopo : CellTopology) (refPattern : RefinementPattern) (mt : MeshTopology) (d : Nat) :
    Except MeshError MeshTopology :=
  foldExcept (determineGeneralizedParentsForSubcell tools cellIndex refPattern d) mt
    (List.range (cellTopo.getSubcellCount d))

/-- The method `determineGeneralizedParentsForRefinement`. -/
def determineGeneralizedParentsForRefinement (tools : CellTools) (mt : MeshTopology)
    (cellIndex : IndexType) (refPattern : RefinementPattern) : Except MeshError MeshTopology :=
  match mt.getCell cellIndex with
  | Except.error err => throw err
  | Except.ok cell =>
    match cellNodes mt cell with
    | Except.error err => throw err
    | Except.ok _ =>
      foldExcept (determineGeneralizedParentsOfDim tools cellIndex cell._cellTopo refPattern)
        mt ((List.range mt._spaceDim).drop 1)

/-- Unsigned 32-bit addition of two values below `2^32`. -/
def wrapAdd (a b : Nat) : Nat :=
  if a + b < 4294967296 then a + b else a + b - 4294967296

/-- The counter update at the head of `refineCell`; the addition of
`numChildren() - 1` is unsigned arithmetic. -/
def countRefinement (mt : MeshTopology) (refPattern : RefinementPattern)
    (firstChildCellIndex : IndexType) : MeshTopology :=
  if firstChildCellIndex ≥ mt._nextCellIndex then
    { mt with
      _nextCellIndex := firstChildCellIndex + refPattern.numChildren
      _activeCellCount :=
        wrapAdd mt._activeCellCount
          (if refPattern.numChildren = 0 then 4294967295 else refPattern.numChildren - 1) }
  else mt

/-- The body of `refineCell` for a valid cell. -/
def refineValidCell (tools : CellTools) (fuel : Nat) (mt : MeshTopology) (cellIndex : IndexType)
    (refPattern : RefinementPattern) (firstChildCellIndex : IndexType) :
    Except MeshError MeshTopology :=
  match mt.derefCell (some cellIndex) with
  | Except.error err => throw err
  | Except.ok cell =>
    match cellNodes mt cell with
    | Except.error err => throw err
    | Except.ok nodesOfCell =>
      let added := getVertexIndices mt (refPattern.verticesForRefinement nodesOfCell)
      let vertexOrdinalToVertexIndex := (List.range added.2.length).zip added.2
      let childVertices := refPattern.children vertexOrdinalToVertexIndex
      let childTopos := List.replicate childVertices.length cell._cellTopo
      match refineCellEntities tools added.1 cellIndex refPattern with
      | Except.error err => throw err
      | Except.ok mt1 =>
        match mt1.derefCell (some cellIndex) with
        | Except.error err => throw err
        | Except.ok cell1 =>
          let mt2 := { mt1 with
            _cells := mapSet mt1._cells cellIndex { cell1 with _refPattern := some refPattern } }
          let newRefinement := decide (cell1._children.length = 0)
          match (if newRefinement then
              deactivateCell mt2 { cell1 with _refPattern := some refPattern }
            else Except.ok mt2) with
          | Except.error err => throw err
          | Except.ok mt3 =>
            match addChildren tools fuel mt3 firstChildCellIndex cellIndex childTopos
                childVertices with
            | Except.error err => throw err
            | Except.ok mt4 => determineGeneralizedParentsForRefinement tools mt4 cellIndex refPattern

/-- The method `refineCell` (for a mesh without curved edges). -/
def refineCell (tools : CellTools) (fuel : Nat) (mt : MeshTopology) (cellIndex : IndexType)
    (refPattern : RefinementPattern) (firstChildCellIndex : IndexType) :
    Except MeshError MeshTopology :=
  let mt1 := countRefinement mt refPattern firstChildCellIndex
  if !mt1.isValidCellIndex (some cellIndex) then pure mt1
  else refineValidCell tools fuel mt1 cellIndex refPattern firstChildCellIndex

/-! ### Refinement branches -/

/-- The search of `refinementBranchForSubcell` for the child pointer whose cell
has the given index, from ordinal `i` on; `none` when there is none. -/
def findChildPointer (mt : MeshTopology) (childCellIndex : IndexType) :
    List (Option IndexType) → Nat → Except MeshError (Option Nat)
  | [], _ => pure none
  | pointer :: rest, i =>
    match mt.derefCell pointer with
    | Except.error err => throw err
    | Except.ok child =>
      if child._cellIndex = childCellIndex then pure (some i)
      else findChildPointer mt childCellIndex rest (i + 1)

/-- One pass of the while loop of `Cell::refinementBranchForSubcell`: the parent
of the current ancestor, the child ordinal in it, and the sub-cell ordinal,
dimension and entity index of the sub-cell in the parent. -/
def refinementBranchStep (mt : MeshTopology)
    (getCellsContainingEntity : Nat → IndexType → List (IndexType × Nat))
    (currentAncestor : Cell) (subcord subcellEntityDimension : Nat)
    (subcellEntityIndex : IndexType) :
    Except MeshError (Cell × (RefinementPattern × Nat) × Nat × Nat × IndexType) :=
  match mt.derefCell currentAncestor._parent with
  | Except.error err => throw err
  | Except.ok parent =>
    match findChildPointer mt currentAncestor._cellIndex parent._children 0 with
    | Except.error err => throw err
    | Except.ok none => throw MeshError.childNotFound
    | Except.ok (some i) =>
      match parent._refPattern with
      | none => throw MeshError.nullPointer
      | some refPattern =>
        match (match refPattern.mapSubcellOrdinalFromChildToParent i subcellEntityDimension
            subcord with
          | some mapped => Except.ok (subcellEntityDimension, subcellEntityIndex, some mapped)
          | none =>
            match getEntityGeneralizedParent mt getCellsContainingEntity
                subcellEntityDimension subcellEntityIndex with
            | Except.error err => Except.error err
            | Except.ok generalizedParent =>
              if generalizedParent.2 ≤ subcellEntityDimension then
                Except.error MeshError.noHigherDimensionalParent
              else
                match parent.findSubcellOrdinal mt generalizedParent.2 generalizedParent.1 with
                | Except.error err => Except.error err
                | Except.ok found => Except.ok (generalizedParent.2, generalizedParent.1, found)) with
        | Except.error err => throw err
        | Except.ok (_, _, none) => throw MeshError.subcellNotFoundInParent
        | Except.ok (dimension, _, some mapped) =>
          match parent.entityIndexValue mt dimension mapped with
          | Except.error err => throw err
          | Except.ok none => throw MeshError.subEntityNotFound
          | Except.ok (some entityInParent) =>
            pure (parent, (refPattern, i), mapped, dimension, entityInParent)

/-- The while loop of `Cell::refinementBranchForSubcell`; the entries are
collected in the order of the climb. -/
def refinementBranchLoop (mt : MeshTopology)
    (getCellsContainingEntity : Nat → IndexType → List (IndexType × Nat))
    (constrainingEntity : IndexType × Nat) :
    Nat → Cell → Nat → Nat → IndexType → List (RefinementPattern × Nat) →
      Except MeshError (List (RefinementPattern × Nat))
  | 0, _, _, _, _, _ => throw MeshError.outOfFuel
  | fuel + 1, currentAncestor, subcord, subcellEntityDimension, subcellEntityIndex, climbed =>
    if subcellEntityIndex ≠ constrainingEntity.1 ∨ subcellEntityDimension ≠ constrainingEntity.2
    then
      match refinementBranchStep mt getCellsContainingEntity currentAncestor subcord
          subcellEntityDimension subcellEntityIndex with
      | Except.error err => throw err
      | Except.ok (parent, entry, mapped, dimension, entityInParent) =>
        refinementBranchLoop mt getCellsContainingEntity constrainingEntity fuel parent mapped
          dimension entityInParent (climbed ++ [entry])
    else pure climbed.reverse

end MeshTopology

namespace Cell

/-- The method `Cell::refinementBranchForSubcell`: the branch from the ancestor
compatible with the constraining cell down to this cell, as pairs
(refinement pattern, child ordinal). -/
def refinementBranchForSubcell (mt : MeshTopology) (fuel : Nat) (view : MeshTopologyView)
    (getCellsContainingEntity : Nat → IndexType → List (IndexType × Nat))
    (cell : Cell) (subcdim subcord : Nat) : Except MeshError (List (RefinementPattern × Nat)) :=
  match cell.entityIndexValue mt subcdim subcord with
  | Except.error err => throw err
  | Except.ok none => throw MeshError.subEntityNotFound
  | Except.ok (some subcellEntityIndex) =>
    match view.getConstrainingEntity subcdim subcellEntityIndex with
    | Except.error err => throw err
    | Except.ok constrainingEntity =>
      match mt.getCell cell._cellIndex with
      | Except.error err => throw err
      | Except.ok currentAncestor =>
        MeshTopology.refinementBranchLoop mt getCellsContainingEntity constrainingEntity fuel
          currentAncestor subcord subcdim subcellEntityIndex []

/-- One pass of the loop of `Cell::getEntityIndices`: the lookup of the sub-cell
`j` of dimension `subcdim` in the topology, past the cache. -/
def lookupEntityIndex (mt : MeshTopology) (cell : Cell) (subcdim j : Nat) :
    Except MeshError (Option IndexType) :=
  match subcellNodes cell._cellTopo cell._vertices subcdim j with
  | Except.error err => throw err
  | Except.ok nodes => mt.getEntityIndex subcdim (setOfList nodes)

/-- The method `Cell::getEntityIndices`; `none` is `-1`. -/
def getEntityIndices (mt : MeshTopology) (cell : Cell) (subcdim : Nat) :
    Except MeshError (List (Option IndexType)) :=
  foldExcept (fun (cellEntityIndices : List (Option IndexType)) j =>
    match lookupEntityIndex mt cell subcdim j with
    | Except.error err => Except.error err
    | Except.ok entityIndex => Except.ok (cellEntityIndices ++ [entityIndex]))
    [] (List.range (cell._cellTopo.getSubcellCount subcdim))

end Cell

namespace MeshTopology

/-! ### Constraint resolution as the spec words it -/

/-- First parent of an entity in its own dimension, if it has one. -/
def firstParent? (mt : MeshTopology) (d : Nat) (entityIndex : IndexType) : Option IndexType :=
  match mapFind (mt._parentEntities.getD d []) entityIndex with
  | some (parent :: _) => some parent.1
  | _ => none

/-- The like-dimension ancestors of an entity in the order of the climb. -/
def likeAncestors (mt : MeshTopology) (d : Nat) : Nat → IndexType → List IndexType
  | 0, _ => []
  | fuel + 1, entityIndex =>
    match firstParent? mt d entityIndex with
    | some parent => parent :: likeAncestors mt d fuel parent
    | none => []

/-- The generalized ancestors visited by the climb, each as (dimension, entity):
the entity itself, then the generalized parent of the topmost like-dimension
ancestor, and so on while the dimension is at most the side dimension. -/
def generalizedLevels (mt : MeshTopology) (n : Nat) : Nat → Nat → IndexType → List (Nat × IndexType)
  | 0, _, _ => []
  | fuel + 1, d, entityIndex =>
    if d ≤ mt.sideDim then
      (d, entityIndex) ::
        match mapFind (mt._generalizedParentEntities.getD d [])
            ((likeAncestors mt d n entityIndex).getLast?.getD entityIndex) with
        | some generalizedParent => generalizedLevels mt n fuel generalizedParent.2 generalizedParent.1
        | none => []
    else []

/-- The sides containing an entity: itself when it is a side. -/
def containingSides (mt : MeshTopology) (d : Nat) (entityIndex : IndexType) : List IndexType :=
  if d = mt.sideDim then [entityIndex]
  else ((mt._sidesForEntities.getD d [])[entityIndex]?).getD []

/-- The candidate constraint of one generalized ancestor: its last
like-dimension ancestor with an active cell, else the ancestor itself when one
of its containing sides has an active cell. -/
def levelCandidate (mt : MeshTopology) (n : Nat) (level : Nat × IndexType) :
    Option (IndexType × Nat) :=
  let activeAncestors :=
    (if level.1 = 0 then [] else likeAncestors mt level.1 n level.2).filter
      (fun a => decide (getActiveCellCount mt level.1 a > 0))
  if activeAncestors.getLast?.getD level.2 ≠ level.2 then
    some (activeAncestors.getLast?.getD level.2, level.1)
  else if (containingSides mt level.1 level.2).any
      (fun side => decide (getActiveCellCount mt mt.sideDim side > 0)) then
    some (level.2, level.1)
  else none

/-- The candidate constraints met while climbing, in order. -/
def constraintCandidates (fuel : Nat) (mt : MeshTopology) (d : Nat) (entityIndex : IndexType) :
    List (IndexType × Nat) :=
  (generalizedLevels mt fuel fuel d entityIndex).filterMap (levelCandidate mt fuel)

/-! ### Tables at the exit of a call -/

/-- The tables after a call of `addEntity`, whether it returned or raised.
Every raise of `addEntity` (the repeated-vertex test at its head and the raises
of the `const` methods `getEntityIndex` and
`getCanonicalEntityNodesViaPeriodicBCs`) precedes its first write, so a call
that raised leaves the tables of its entry. -/
def addEntityTables (tools : CellTools) (mt : MeshTopology) (entityTopo : CellTopology)
    (entityVertices : List IndexType) : MeshTopology :=
  match addEntity tools mt entityTopo entityVertices with
  | Except.ok r => r.1
  | Except.error _ => mt

/-- The tables after a call of `addCellForSide`, whether it returned or raised.
In the branch that can raise, the claimants are edited in local copies and
written back by the last statement, after the raises, so a call that raised
leaves the tables of its entry. -/
def addCellForSideTables (mt : MeshTopology) (cellIndex : IndexType) (sideOrdinal : Nat)
    (sideEntityIndex : Option IndexType) : MeshTopology :=
  match addCellForSide mt cellIndex sideOrdinal sideEntityIndex with
  | Except.ok mt' => mt'
  | Except.error _ => mt

/-- The part of `addCell` after the counter update at its head: the entity
loop, the creation of the cell and the two side loops. -/
def addCellCounted (tools : CellTools) (fuel : Nat) (mt1 : MeshTopology) (cellIndex : IndexType)
    (cellTopo : CellTopology) (cellVertices : List IndexType)
    (parentCellIndex : Option IndexType) : Except MeshError MeshTopology :=
  match foldExcept (addCellEntitiesOfDim tools cellIndex cellTopo cellVertices) (mt1, [])
      (List.range mt1._spaceDim) with
  | Except.error err => throw err
  | Except.ok (mt2, cellEntityPermutations) =>
    let mt3 := insertCell mt2 cellIndex cellTopo cellVertices cellEntityPermutations
    match (match parentCellIndex with
      | none => Except.ok mt3
      | some parent =>
        match mt3.getCell parent with
        | Except.error err => Except.error err
        | Except.ok _ => setParent mt3 cellIndex (some parent)) with
    | Except.error err => throw err
    | Except.ok mt4 =>
      let sideCount := cellTopo.getSideCount
      match foldExcept (claimSide cellIndex) mt4 (List.range sideCount) with
      | Except.error err => throw err
      | Except.ok mt5 =>
        foldExcept (linkSide tools fuel cellIndex parentCellIndex) mt5 (List.range sideCount)

/-! ### Periodic canonicalization as the spec words it -/

/-- The periodic rules recorded for a vertex; none when it has no record. -/
def rulesOfVertex (mt : MeshTopology) (v : IndexType) : List (Nat × Nat) :=
  (mapFind mt._periodicBCIndicesMatchingNode v).getD []

/-- The periodic rules common to all vertices of a list, in the order of the
rule set of its first vertex; none when a vertex has no record. -/
def commonPeriodicRules (mt : MeshTopology) : List IndexType → List (Nat × Nat)
  | [] => []
  | v :: rest =>
    (rulesOfVertex mt v).filter (fun r =>
      rest.all (fun w => (mapFind mt._periodicBCIndicesMatchingNode w).isSome &&
        decide (r ∈ rulesOfVertex mt w)))

/-- The list with every vertex replaced by its partner under a periodic rule,
in the order of the list; a vertex without partner is left out. -/
def substitutePartners (mt : MeshTopology) (r : Nat × Nat) (vs : List IndexType) :
    List IndexType :=
  vs.filterMap (fun v => mapFind mt._equivalentNodeViaPeriodicBC (v, r))

/-- Whether the sorted list of a vertex list is a known key of dimension `d`. -/
def keyKnown (mt : MeshTopology) (d : Nat) (vs : List IndexType) : Bool :=
  (mapFind (mt._knownEntities.getD d []) (sortIndices vs)).isSome

/-- Periodic canonicalization in the words of the spec: the list itself when
its sorted key is known; otherwise the partner substitution under the first
common rule whose substitution has a known key; the empty list when there is
no such rule. -/
def canonicalNodesSpec (mt : MeshTopology) (d : Nat) (vs : List IndexType) : List IndexType :=
  if keyKnown mt d vs then vs
  else
    match (commonPeriodicRules mt vs).find? (fun r => keyKnown mt d (substitutePartners mt r vs)) with
    | some r => substitutePartners mt r vs
    | none => []

/-- One step of the climb of `Cell::getNeighborInfo` as the spec words it: from
a cell and one of its sides to the parent of the cell and the side of the
parent given by the child-to-parent side map of the parent's refinement
pattern; `none` when the cell is unknown, has no parent, is not listed among
the children of its parent, or its side is interior to the parent. -/
def parentSideStep (mt : MeshTopology) (info : IndexType × Nat) : Option (IndexType × Nat) :=
  match mt.getCell info.1 with
  | Except.error _ => none
  | Except.ok neighbor =>
    match neighbor._parent with
    | none => none
    | some parentPointer =>
      match mt.derefCell (some parentPointer) with
      | Except.error _ => none
      | Except.ok neighborParent =>
        match neighborParent.findChildOrdinal neighbor._cellIndex, neighborParent._refPattern with
        | some childOrdinal, some refPattern =>
          match mapFind (refPattern.parentSideLookupForChild childOrdinal) info.2 with
          | none => none
          | some parentSide => some (neighborParent._cellIndex, parentSide)
        | _, _ => none

/-- The ancestor reached after `k` steps of `parentSideStep`. -/
def parentSideSteps (mt : MeshTopology) : Nat → IndexType × Nat → Option (IndexType × Nat)
  | 0, info => some info
  | k + 1, info =>
    match parentSideStep mt info with
    | none => none
    | some next => parentSideSteps mt k next

/-- The state in which pass `sideOrdinal` of the second side loop of `addCell`
starts: the body of `addCell` with that loop stopped before the pass. -/
def addCellBeforeLinkSide (tools : CellTools) (fuel : Nat) (mt : MeshTopology)
    (cellIndex : IndexType) (cellTopo : CellTopology) (cellVertices : List IndexType)
    (parentCellIndex : Option IndexType) (sideOrdinal : Nat) : Except MeshError MeshTopology :=
  match countNewCell mt cellIndex with
  | Except.error err => throw err
  | Except.ok mt1 =>
    match foldExcept (addCellEntitiesOfDim tools cellIndex cellTopo cellVertices) (mt1, [])
        (List.range mt1._spaceDim) with
    | Except.error err => throw err
    | Except.ok (mt2, cellEntityPermutations) =>
      let mt3 := insertCell mt2 cellIndex cellTopo cellVertices cellEntityPermutations
      match (match parentCellIndex with
        | none => Except.ok mt3
        | some parent =>
          match mt3.getCell parent with
          | Except.error err => Except.error err
          | Except.ok _ => setParent mt3 cellIndex (some parent)) with
      | Except.error err => throw err
      | Except.ok mt4 =>
        let sideCount := cellTopo.getSideCount
        match foldExcept (claimSide cellIndex) mt4 (List.range sideCount) with
        | Except.error err => throw err
        | Except.ok mt5 =>
          foldExcept (linkSide tools fuel cellIndex parentCellIndex) mt5 (List.range sideOrdinal)

/-! ### Pruning -/

/-- The value of a sub-entity index read as an unsigned `IndexType`: the
sentinel `-1` is the largest 32-bit value. -/
def unsignedIndex (entityIndex : Option IndexType) : IndexType :=
  match entityIndex with
  | some i => i
  | none => 4294967295

/-- Element access `m[k]` of a `std::map` of indices: the value read, and the
map, in which a missing key has been bound to zero. -/
def mapAt (m : List (IndexType × IndexType)) (k : IndexType) :
    IndexType × List (IndexType × IndexType) :=
  match mapFind m k with
  | some v => (v, m)
  | none => (0, mapSet m k 0)

/-- The new index that `operator[]` reads for an old index from an old-to-new
map: zero for an index that is not in the map. -/
def newIndex (lookup : List (IndexType × IndexType)) (old : IndexType) : IndexType :=
  (mapFind lookup old).getD 0

/-- Modelled from the spec: `cellHalo(owned, dim)` of `MeshTopologyView`
(`MeshTopologyView.cpp` is absent), as the cells it inserts into the halo of
the owned cells for the given neighbour dimension. -/
abbrev CellHalo := MeshTopology → List IndexType → Nat → List IndexType

/-- The method `pruningHalo`, for a mesh without curved edges: the set filled
by `cellHalo`. -/
def pruningHalo (cellHalo : CellHalo) (mt : MeshTopology) (ownedCellIndices : List IndexType)
    (dimForNeighborRelation : Nat) : List IndexType :=
  setOfList (cellHalo mt ownedCellIndices dimForNeighborRelation)

/-- One pass of the innermost loop that collects the entities of the halo:
`entitiesToKeep[d].insert(cell->entityIndex(d, scord))`. -/
def keepCellEntity (cellID : IndexType) (d : Nat) (s : MeshTopology × List (List IndexType))
    (scord : Nat) : Except MeshError (MeshTopology × List (List IndexType)) :=
  match cellEntityIndex s.1 cellID d scord with
  | Except.error err => throw err
  | Except.ok (entityIndex, mt1) =>
    pure (mt1, modifyAt s.2 d (setInsert (unsignedIndex entityIndex)))

/-- The loop over the sub-cells of one dimension of a cell of the halo. -/
def keepCellEntitiesOfDim (cellID : IndexType) (cellTopo : CellTopology)
    (s : MeshTopology × List (List IndexType)) (d : Nat) :
    Except MeshError (MeshTopology × List (List IndexType)) :=
  foldExcept (keepCellEntity cellID d) s (List.range (cellTopo.getSubcellCount d))

/-- One pass of the loop over the cells of the halo that collects their entities. -/
def keepCellEntities (s : MeshTopology × List (List IndexType)) (cellID : IndexType) :
    Except MeshError (MeshTopology × List (List IndexType)) :=
  match s.1.getCell cellID with
  | Except.error err => throw err
  | Except.ok cell =>
    foldExcept (keepCellEntitiesOfDim cellID cell._cellTopo) s (List.range s.1._spaceDim)

/-- The first loop of `pruneToInclude`: the sets `entitiesToKeep` of the
sub-entity indices of the cells of the halo, by dimension, and the topology in
which the cells have filled their caches. -/
def entitiesToKeep (mt : MeshTopology) (cellsToInclude : List IndexType) :
    Except MeshError (MeshTopology × List (List IndexType)) :=
  foldExcept keepCellEntities (mt, List.replicate mt._spaceDim []) cellsToInclude

/-- The old-to-new map `reverseLookup[d]` of one dimension: the kept old index
at position `i` is bound to `i`. -/
def reverseLookupOfDim (oldEntityIndices : List IndexType) : List (IndexType × IndexType) :=
  oldEntityIndices.enum.foldl (fun m entry => mapSet m entry.2 entry.1) []

/-- One pass of the vertex loop: the coordinates of the kept vertex, and its
bindings in the old-to-new map and in the coordinate map. -/
def pruneVertex (mt : MeshTopology)
    (s : List Point × List (IndexType × IndexType) × List (Point × IndexType))
    (entry : Nat × IndexType) :
    Except MeshError (List Point × List (IndexType × IndexType) × List (Point × IndexType)) :=
  match mt._vertices[entry.2]? with
  | none => throw MeshError.indexOutOfRange
  | some vertex =>
    if vertex.length < mt._spaceDim then throw MeshError.indexOutOfRange
    else
      let prunedVertex := vertex.take mt._spaceDim
      pure (s.1 ++ [prunedVertex], mapSet s.2.1 entry.2 entry.1,
        mapSet s.2.2 prunedVertex entry.1)

/-- The while loop of the lambda `replacementSideEntry`: the climb from a
pruned claimant of a side through its parents, to the first one in the halo
that has the side; `none` is `(-1, -1)`. -/
def replacementParentLoop (mt : MeshTopology) (cellsToInclude : List IndexType)
    (oldSideEntityIndex : IndexType) : Nat → Cell → Except MeshError (Option (IndexType × Nat))
  | 0, _ => throw MeshError.outOfFuel
  | fuel + 1, cell =>
    match cell._parent with
    | none => pure none
    | some parentPointer =>
      match mt.derefCell (some parentPointer) with
      | Except.error err => throw err
      | Except.ok parent =>
        match parent.findSubcellOrdinal mt mt.sideDim oldSideEntityIndex with
        | Except.error err => throw err
        | Except.ok none => pure none
        | Except.ok (some sideOrdinal) =>
          if parent._cellIndex ∈ cellsToInclude then pure (some (parent._cellIndex, sideOrdinal))
          else replacementParentLoop mt cellsToInclude oldSideEntityIndex fuel parent

/-- The lambda `replacementSideEntry` of `pruneToInclude`. -/
def replacementSideEntry (mt : MeshTopology) (cellsToInclude : List IndexType) (fuel : Nat)
    (oldSideEntityIndex : IndexType) (existingEntry : Option (IndexType × Nat)) :
    Except MeshError (Option (IndexType × Nat)) :=
  match existingEntry with
  | none => pure none
  | some entry =>
    if entry.1 ∈ cellsToInclude then pure (some entry)
    else
      match mt.getCell entry.1 with
      | Except.error err => throw err
      | Except.ok cell => replacementParentLoop mt cellsToInclude oldSideEntityIndex fuel cell

/-- One pass of the loop over the kept sides: the old-to-new maps and the
pruned claimant table after the side at position `entry.1`. -/
def pruneSideClaimants (mt : MeshTopology) (cellsToInclude : List IndexType) (fuel : Nat)
    (s : List (List (IndexType × IndexType)) ×
      List (Option (IndexType × Nat) × Option (IndexType × Nat)))
    (entry : Nat × IndexType) :
    Except MeshError (List (List (IndexType × IndexType)) ×
      List (Option (IndexType × Nat) × Option (IndexType × Nat))) :=
  match mt._cellsForSideEntities[entry.2]? with
  | none => pure s
  | some cellsForSideEntry =>
    let reverseLookup := modifyAt s.1 mt.sideDim (fun m => mapSet m entry.2 entry.1)
    match replacementSideEntry mt cellsToInclude fuel entry.2 cellsForSideEntry.1 with
    | Except.error err => throw err
    | Except.ok first =>
      match replacementSideEntry mt cellsToInclude fuel entry.2 cellsForSideEntry.2 with
      | Except.error err => throw err
      | Except.ok second =>
        let flipped := if first.isNone && second.isSome then (second, first) else (first, second)
        if first.isNone && second.isNone then pure (reverseLookup, s.2)
        else
          let table :=
            if s.2.length ≤ entry.1 then resizeTo s.2 (entry.1 + 100) (none, none) else s.2
          pure (reverseLookup, modifyAt table entry.1 (fun _ => flipped))

/-- The local tables of `pruneToInclude` that the entity loop fills, with the
old-to-new maps `reverseLookup`. -/
structure PrunedEntities where
  /-- Old-to-new maps, by dimension. -/
  reverseLookup : List (List (IndexType × IndexType))
  /-- The table `prunedEntities`. -/
  entities : List (List (List IndexType))
  /-- The table `prunedKnownEntities`. -/
  knownEntities : List (List (List IndexType × IndexType))
  /-- The table `prunedCanonicalEntityOrdering`. -/
  canonicalEntityOrdering : List (List (List IndexType))
  /-- The table `prunedActiveCellsForEntities`. -/
  activeCellsForEntities : List (List (List (IndexType × Nat)))
  /-- The table `prunedSidesForEntities`. -/
  sidesForEntities : List (List (List IndexType))
  /-- The table `prunedParentEntities`. -/
  parentEntities : List (List (IndexType × List (IndexType × Nat)))
  /-- The table `prunedGeneralizedParentEntities`. -/
  generalizedParentEntities : List (List (IndexType × (IndexType × Nat)))
  /-- The table `prunedChildEntities`. -/
  childEntities : List (List (IndexType × List (RefinementPattern × List (Option IndexType))))
  /-- The table `prunedEntityCellTopologyKeys`. -/
  entityCellTopologyKeys : List (List (CellTopologyKey × List IndexType))

/-- The local tables before the entity loop: one empty entry per dimension. -/
def PrunedEntities.empty (spaceDim : Nat) (reverseLookup : List (List (IndexType × IndexType))) :
    PrunedEntities :=
  { reverseLookup := reverseLookup
    entities := List.replicate spaceDim []
    knownEntities := List.replicate spaceDim []
    canonicalEntityOrdering := List.replicate spaceDim []
    activeCellsForEntities := List.replicate spaceDim []
    sidesForEntities := List.replicate spaceDim []
    parentEntities := List.replicate spaceDim []
    generalizedParentEntities := List.replicate spaceDim []
    childEntities := List.replicate spaceDim []
    entityCellTopologyKeys := List.replicate spaceDim [] }

/-- One pass of the node loop of an entity: the new index of the node of the
sorted vertex list and, from dimension one up, of the node of the first-seen
ordering, both read with `operator[]` from the old-to-new map of the vertices. -/
def pruneEntityNode (d : Nat) (canonicalOrdering : Option (List IndexType))
    (s : List (IndexType × IndexType) × List IndexType × List IndexType)
    (node : Nat × IndexType) :
    Except MeshError (List (IndexType × IndexType) × List IndexType × List IndexType) :=
  let newVertex := mapAt s.1 node.2
  if d = 0 then pure (newVertex.2, s.2.1 ++ [newVertex.1], s.2.2)
  else
    match canonicalOrdering with
    | none => throw MeshError.indexOutOfRange
    | some ordering =>
      match ordering[node.1]? with
      | none => throw MeshError.indexOutOfRange
      | some oldVertexIndex =>
        let newCanonical := mapAt newVertex.2 oldVertexIndex
        pure (newCanonical.2, s.2.1 ++ [newVertex.1], s.2.2 ++ [newCanonical.1])

/-- The new parent entries of an entity: an old parent that is not in the
old-to-new map raises. -/
def prunedParents (lookup : List (IndexType × IndexType)) :
    List (IndexType × Nat) → Except MeshError (List (IndexType × Nat))
  | [] => pure []
  | oldParentEntry :: rest =>
    match mapFind lookup oldParentEntry.1 with
    | none => throw MeshError.parentEntityNotInLookup
    | some newParent =>
      match prunedParents lookup rest with
      | Except.error err => throw err
      | Except.ok newParents => pure ((newParent, oldParentEntry.2) :: newParents)

/-- The new child list of one refinement of an entity: a child that is not in
the old-to-new map becomes `-1`. -/
def prunedChildren (lookup : List (IndexType × IndexType))
    (oldChildEntityIndices : List (Option IndexType)) : List (Option IndexType) :=
  oldChildEntityIndices.map (fun oldChild => mapFind lookup (unsignedIndex oldChild))

/-- One pass of the entity loop of `pruneToInclude` for the dimension `d`: the
kept entity with the old index `entry.2` becomes the entity `entry.1`. -/
def pruneEntity (tools : CellTools) (mt : MeshTopology) (cellsToInclude : List IndexType)
    (d : Nat) (s : PrunedEntities) (entry : Nat × IndexType) : Except MeshError PrunedEntities :=
  match getEntityTopology tools mt d entry.2 with
  | Except.error err => throw err
  | Except.ok entityTopo =>
    match (mt._entities.getD d [])[entry.2]? with
    | none => throw MeshError.indexOutOfRange
    | some oldNodes =>
      match foldExcept
          (pruneEntityNode d ((mt._canonicalEntityOrdering.getD d [])[entry.2]?))
          (s.reverseLookup.getD 0 [], [], []) oldNodes.enum with
      | Except.error err => throw err
      | Except.ok (vertexLookup, newNodes, newCanonical) =>
        let reverseLookup := modifyAt s.reverseLookup 0 (fun _ => vertexLookup)
        match (mt._activeCellsForEntities.getD d [])[entry.2]?,
            (mt._sidesForEntities.getD d [])[entry.2]? with
        | some oldActiveCells, some oldSides =>
          match (match mapFind (mt._parentEntities.getD d []) entry.2 with
              | none => Except.ok none
              | some oldParents =>
                match prunedParents (reverseLookup.getD d []) oldParents with
                | Except.error err => Except.error err
                | Except.ok newParents => Except.ok (some newParents)) with
          | Except.error err => throw err
          | Except.ok newParents =>
            match (match mapFind (mt._generalizedParentEntities.getD d []) entry.2 with
                | none => Except.ok none
                | some oldEntry =>
                  match reverseLookup[oldEntry.2]? with
                  | none => Except.error MeshError.indexOutOfRange
                  | some lookup =>
                    match mapFind lookup oldEntry.1 with
                    | none => Except.ok none
                    | some prunedParent => Except.ok (some (prunedParent, oldEntry.2))) with
            | Except.error err => throw err
            | Except.ok newGeneralizedParent =>
              pure
                { reverseLookup := reverseLookup
                  entities := modifyAt s.entities d (fun es => es ++ [newNodes])
                  knownEntities := modifyAt s.knownEntities d
                    (fun known => mapSet known newNodes entry.1)
                  canonicalEntityOrdering :=
                    if d > 0 then
                      modifyAt s.canonicalEntityOrdering d (fun os => os ++ [newCanonical])
                    else s.canonicalEntityOrdering
                  activeCellsForEntities := modifyAt s.activeCellsForEntities d
                    (fun cs => cs ++
                      [oldActiveCells.filter (fun active => decide (active.1 ∈ cellsToInclude))])
                  sidesForEntities := modifyAt s.sidesForEntities d
                    (fun ss => ss ++
                      [oldSides.filterMap (mapFind (reverseLookup.getD mt.sideDim []))])
                  parentEntities :=
                    match newParents with
                    | none => s.parentEntities
                    | some parents =>
                      modifyAt s.parentEntities d (fun ps => mapSet ps entry.1 parents)
                  generalizedParentEntities :=
                    match newGeneralizedParent with
                    | none => s.generalizedParentEntities
                    | some parent =>
                      modifyAt s.generalizedParentEntities d
                        (fun ps => mapSet ps entry.1 parent)
                  childEntities :=
                    match mapFind (mt._childEntities.getD d []) entry.2 with
                    | none => s.childEntities
                    | some [] => s.childEntities
                    | some refinements =>
                      modifyAt s.childEntities d (fun cs => mapSet cs entry.1
                        (refinements.map
                          (fun refinement =>
                            (refinement.1, prunedChildren (reverseLookup.getD d []) refinement.2))))
                  entityCellTopologyKeys := modifyAt s.entityCellTopologyKeys d
                    (fun keys => mapSet keys entityTopo.getKey
                      (setInsert entry.1 ((mapFind keys entityTopo.getKey).getD []))) }
        | _, _ => throw MeshError.indexOutOfRange

/-- The entity loop of one dimension. -/
def pruneEntitiesOfDim (tools : CellTools) (mt : MeshTopology) (cellsToInclude : List IndexType)
    (oldEntityIndices : List (List IndexType)) (s : PrunedEntities) (d : Nat) :
    Except MeshError PrunedEntities :=
  foldExcept (pruneEntity tools mt cellsToInclude d) s (oldEntityIndices.getD d []).enum

/-- One pass of the cell loop: the kept cell gets its new vertex indices through
`setVertices`, which empties its cache of sub-entity indices, and is entered in
the pruned cell table and cell sets. -/
def pruneCell (mt : MeshTopology)
    (s : List (IndexType × IndexType) × List (IndexType × Cell) × List IndexType × List IndexType)
    (cellID : IndexType) :
    Except MeshError
      (List (IndexType × IndexType) × List (IndexType × Cell) × List IndexType × List IndexType) :=
  match mt.getCell cellID with
  | Except.error err => throw err
  | Except.ok cell =>
    let newVertices := cell._vertices.foldl
      (fun (acc : List (IndexType × IndexType) × List IndexType) oldVertexIndex =>
        ((mapAt acc.1 oldVertexIndex).2, acc.2 ++ [(mapAt acc.1 oldVertexIndex).1]))
      (s.1, [])
    pure (newVertices.1,
      mapSet s.2.1 cellID { cell with _vertices := newVertices.2, _entityIndices := [] },
      setInsert cellID s.2.2.1,
      if !mt.isParent cell._cellIndex then setInsert cellID s.2.2.2 else s.2.2.2)

/-- The while loop that climbs from a cell of the pruned table to a root: the
root cells and the visited cells. -/
def rootWalk (mt : MeshTopology) :
    Nat → List IndexType × List IndexType → IndexType →
      Except MeshError (List IndexType × List IndexType)
  | 0, _, _ => throw MeshError.outOfFuel
  | fuel + 1, s, cellID =>
    if cellID ∈ s.2 then pure s
    else
      match mt.getCell cellID with
      | Except.error err => throw err
      | Except.ok cell =>
        match cell._parent with
        | some parentPointer =>
          match mt.derefCell (some parentPointer) with
          | Except.error err => throw err
          | Except.ok parent => rootWalk mt fuel (s.1, setInsert cellID s.2) parent._cellIndex
        | none => pure (setInsert cellID s.1, setInsert cellID s.2)

/-- One pass of the loop over the pruned cell table that finds the root cells. -/
def rootWalkFrom (mt : MeshTopology) (fuel : Nat) (s : List IndexType × List IndexType)
    (cellEntry : IndexType × Cell) : Except MeshError (List IndexType × List IndexType) :=
  rootWalk mt fuel s cellEntry.1

/-- The assignments of the rebuilt tables to the members at the end of
`pruneToInclude`, the root cells apart. -/
def assignPruned (mt : MeshTopology) (prunedVertices : List Point)
    (prunedVertexMap : List (Point × IndexType))
    (prunedCellsForSideEntities : List (Option (IndexType × Nat) × Option (IndexType × Nat)))
    (pruned : PrunedEntities) (prunedCells : List (IndexType × Cell))
    (prunedValidCells prunedActiveCells : List IndexType) : MeshTopology :=
  { mt with
    _vertices := prunedVertices
    _vertexMap := prunedVertexMap
    _cellsForSideEntities := prunedCellsForSideEntities
    _entities := pruned.entities
    _knownEntities := pruned.knownEntities
    _canonicalEntityOrdering := pruned.canonicalEntityOrdering
    _activeCellsForEntities := pruned.activeCellsForEntities
    _sidesForEntities := pruned.sidesForEntities
    _parentEntities := pruned.parentEntities
    _generalizedParentEntities := pruned.generalizedParentEntities
    _childEntities := pruned.childEntities
    _entityCellTopologyKeys := pruned.entityCellTopologyKeys
    _boundarySides := setOfList
      (mt._boundarySides.filterMap (mapFind (pruned.reverseLookup.getD mt.sideDim [])))
    _cells := prunedCells
    _activeCells := prunedActiveCells
    _validCells := prunedValidCells }

/-- The rebuild of `pruneToInclude`, from the collection of the entities of the
halo on. -/
def pruneRebuild (tools : CellTools) (fuel : Nat) (mt : MeshTopology)
    (cellsToInclude : List IndexType) : Except MeshError MeshTopology :=
  match entitiesToKeep mt cellsToInclude with
  | Except.error err => throw err
  | Except.ok (mt1, oldEntityIndices) =>
    if mt1._spaceDim = 0 then throw MeshError.indexOutOfRange
    else
      match foldExcept (pruneVertex mt1) ([], reverseLookupOfDim (oldEntityIndices.getD 0 []), [])
          (oldEntityIndices.getD 0 []).enum with
      | Except.error err => throw err
      | Except.ok (prunedVertices, vertexLookup, prunedVertexMap) =>
        match foldExcept (pruneSideClaimants mt1 cellsToInclude fuel)
            (modifyAt (oldEntityIndices.map reverseLookupOfDim) 0 (fun _ => vertexLookup), [])
            (oldEntityIndices.getD mt1.sideDim []).enum with
        | Except.error err => throw err
        | Except.ok (sideLookups, prunedCellsForSideEntities) =>
          match foldExcept (pruneEntitiesOfDim tools mt1 cellsToInclude oldEntityIndices)
              (PrunedEntities.empty mt1._spaceDim sideLookups) (List.range mt1._spaceDim) with
          | Except.error err => throw err
          | Except.ok pruned =>
            match foldExcept (pruneCell mt1) (pruned.reverseLookup.getD 0 [], [], [], [])
                cellsToInclude with
            | Except.error err => throw err
            | Except.ok (_, prunedCells, prunedValidCells, prunedActiveCells) =>
              match foldExcept
                  (rootWalkFrom (assignPruned mt1 prunedVertices prunedVertexMap
                    prunedCellsForSideEntities pruned prunedCells prunedValidCells
                    prunedActiveCells) fuel) ([], []) prunedCells with
              | Except.error err => throw err
              | Except.ok (prunedRootCells, _) =>
                pure { assignPruned mt1 prunedVertices prunedVertexMap
                    prunedCellsForSideEntities pruned prunedCells prunedValidCells
                    prunedActiveCells with _rootCells := prunedRootCells }

/-- The head of `pruneToInclude`: the pruning ordinal is incremented and the
owned cells are stored. -/
def beginPrune (mt : MeshTopology) (ownedCellIndices : List IndexType) : MeshTopology :=
  { mt with _pruningOrdinal := mt._pruningOrdinal + 1, _ownedCellIndices := ownedCellIndices }

/-- The method `pruneToInclude`, the communicator left out: the ordinal, a
signed 32-bit counter, and the owned cells are set first, and the tables are
rebuilt unless the halo has as many cells as the cell table. -/
def pruneToInclude (tools : CellTools) (cellHalo : CellHalo) (fuel : Nat) (mt : MeshTopology)
    (ownedCellIndices : List IndexType) (dimForNeighborRelation : Nat) :
    Except MeshError MeshTopology :=
  if mt._pruningOrdinal ≥ 2147483647 then throw MeshError.integerOverflow
  else
    let mt0 := beginPrune mt ownedCellIndices
    let cellsToInclude := pruningHalo cellHalo mt0 ownedCellIndices dimForNeighborRelation
    if cellsToInclude.length = mt0._cells.length then pure mt0
    else pruneRebuild tools fuel mt0 cellsToInclude

/-- The method `pruningOrdinal`. -/
def pruningOrdinal (mt : MeshTopology) : Nat :=
  mt._pruningOrdinal

end MeshTopology

/-! ## Partition policy -/

namespace MeshPartitionPolicy

/-- One pass of the inner loop of `partitionMesh`: the next active cell goes
into partition `i`. -/
def assignCell (activeCellIDs : List IndexType) (i : Nat) (s : List (List IndexType) × Nat)
    (_j : Nat) : Except MeshError (List (List IndexType) × Nat) :=
  match activeCellIDs[s.2]? with
  | none => throw MeshError.indexOutOfRange
  | some cellID => pure (modifyAt s.1 i (setInsert cellID), s.2 + 1)

/-- One pass of the outer loop of `partitionMesh`: partition `i` is filled. -/
def fillPartition (activeCellIDs : List IndexType) (chunkSize remainder : Nat)
    (s : List (List IndexType) × Nat) (i : Nat) :
    Except MeshError (List (List IndexType) × Nat) :=
  let chunkSizeWithRemainder := if i < remainder then chunkSize + 1 else chunkSize
  foldExcept (assignCell activeCellIDs i) s (List.range chunkSizeWithRemainder)

/-- The default `MeshPartitionPolicy::partitionMesh`, on the active cell count
that the topology reports and the set of the active cell IDs of the mesh; the
result is the vector handed to `setPartitions`.  The count is read into an
`int`: a count of `2^31` or more is a negative value there, of which the loops
make no pass and which differs from every size. -/
def partitionMesh (activeCellCount : Nat) (activeCellIDsSet : List IndexType)
    (numPartitions : Nat) : Except MeshError (List (List IndexType)) :=
  if numPartitions = 0 then throw MeshError.divisionByZero
  else
    let numActiveCells := activeCellCount
    let chunkSize := numActiveCells / numPartitions
    let remainder := numActiveCells % numPartitions
    if 2147483648 ≤ numActiveCells ∨ activeCellIDsSet.length ≠ numActiveCells then
      throw MeshError.activeCellCountMismatch
    else
      match foldExcept (fillPartition activeCellIDsSet chunkSize remainder)
          (List.replicate numPartitions [], 0) (List.range numPartitions) with
      | Except.error err => throw err
      | Except.ok (partitionedActiveCells, _) => pure partitionedActiveCells

end MeshPartitionPolicy

/-! ## Invariants -/

/-- Registry invariant: the per-dimension tables are aligned and, for every
dimension from one up, the key map and the entity list are mutual inverses. -/
def RegistryInv (mt : MeshTopology) : Prop :=
  mt._entities.length = mt._knownEntities.length ∧
  ∀ d, 1 ≤ d →
    (∀ (k : List Nat) (i : Nat), mapFind (mt._knownEntities.getD d []) k = some i →
      (mt._entities.getD d [])[i]? = some k) ∧
    (∀ (i : Nat) (k : List Nat), (mt._entities.getD d [])[i]? = some k →
      mapFind (mt._knownEntities.getD d []) k = some i)

/-- Shape of the parent table: one entry per entity dimension as `init` makes
them, and vertices have no like-dimension parents (`refineCellEntities` records
parents from dimension one up only). -/
def ParentTableOK (mt : MeshTopology) : Prop :=
  mt._parentEntities.length = (if mt._spaceDim > 0 then mt._spaceDim else 1) ∧
  mt._parentEntities.getD 0 [] = []

/-- The part of a cell record that only refinement changes: index, level,
parent, children. -/
def Cell.sameCore (c c' : Cell) : Prop :=
  c'._cellIndex = c._cellIndex ∧ c'._level = c._level ∧ c'._parent = c._parent ∧
    c'._children = c._children ∧ c'._childIndices = c._childIndices

/-- Two cell records with the same index and the same children. -/
def Cell.keepChildren (c c' : Cell) : Prop :=
  c'._cellIndex = c._cellIndex ∧ c'._children = c._children ∧
    c'._childIndices = c._childIndices

/-- Two optional values are both absent, or both present and related. -/
def optRel {α : Type} (r : α → α → Prop) : Option α → Option α → Prop
  | none, none => True
  | some a, some b => r a b
  | _, _ => False

/-- The cell tables have the same keys, every cell keeps its index and children,
and every cell but the excepted one keeps its level and parent too. -/
def CellsRel (except : Option IndexType) (mt mt' : MeshTopology) : Prop :=
  ∀ k : IndexType, optRel (fun c c' => Cell.keepChildren c c' ∧ (some k ≠ except → Cell.sameCore c c'))
    (mapFind mt._cells k) (mapFind mt'._cells k)

/-- A step that leaves the cell sets and counters alone and touches cells as `CellsRel` allows. -/
structure Frame (except : Option IndexType) (mt mt' : MeshTopology) : Prop where
  /-- The valid cells are unchanged. -/
  valid : mt'._validCells = mt._validCells
  /-- The active cells are unchanged. -/
  active : mt'._activeCells = mt._activeCells
  /-- The next cell index is unchanged. -/
  next : mt'._nextCellIndex = mt._nextCellIndex
  /-- The active cell count is unchanged. -/
  count : mt'._activeCellCount = mt._activeCellCount
  /-- The space dimension is unchanged. -/
  dim : mt'._spaceDim = mt._spaceDim
  /-- The cells keep their cores. -/
  cells : CellsRel except mt mt'

/-- The cache of the cell holds the index `x` (`none` is `-1`) for the sub-cell
`ord` of dimension `d`. -/
def Cell.cached (c : Cell) (d ord : Nat) (x : Option IndexType) : Prop :=
  ∃ row, c._entityIndices[d]? = some row ∧ row[ord]? = some (some x)

/-- Two cell records with the same index, topology and number of neighbour
slots, the second with every cached sub-entity index of the first. -/
def Cell.sameShape (c c' : Cell) : Prop :=
  c'._cellIndex = c._cellIndex ∧ c'._cellTopo = c._cellTopo ∧
    c'._neighbors.length = c._neighbors.length ∧
    ∀ (d ord : Nat) (x : Option IndexType), c.cached d ord x → c'.cached d ord x

/-- A step that keeps the keys of the cell table and the shape of every cell,
and, when `keepClaimants` is set, the claimant table. -/
structure Shape (keepClaimants : Bool) (mt mt' : MeshTopology) : Prop where
  /-- The claimant table is unchanged. -/
  claimants : keepClaimants = true → mt'._cellsForSideEntities = mt._cellsForSideEntities
  /-- The cells keep their shape. -/
  cells : ∀ k : IndexType, optRel Cell.sameShape (mapFind mt._cells k) (mapFind mt'._cells k)

/-- Every cell of the table is stored under its own index and has one neighbour
slot per side. -/
def CellsWF (mt : MeshTopology) : Prop :=
  ∀ (k : IndexType) (cell : Cell), mapFind mt._cells k = some cell →
    cell._cellIndex = k ∧ cell._neighbors.length = cell._cellTopo.getSideCount

/-- A step that leaves the pruning ordinal and the space dimension alone and,
when the flags are set, the child entities and the boundary sides. -/
structure Steady (keepChildEntities keepBoundary : Bool) (mt mt' : MeshTopology) : Prop where
  /-- The pruning ordinal is unchanged. -/
  ordinal : mt'._pruningOrdinal = mt._pruningOrdinal
  /-- The space dimension is unchanged. -/
  dim : mt'._spaceDim = mt._spaceDim
  /-- The child entities are unchanged. -/
  childEntities : keepChildEntities = true → mt'._childEntities = mt._childEntities
  /-- The boundary sides are unchanged. -/
  boundary : keepBoundary = true → mt'._boundarySides = mt._boundarySides

/-- The slot of the cache that `Cell::entityIndex` reads for the sub-cell `ord`
of dimension `d`, after the lazy sizing of the cache and of its row; `none`
when the slot is out of range. -/
def Cell.cacheSlot (c : Cell) (d ord : Nat) : Option (Option (Option IndexType)) :=
  match (if c._entityIndices.length = 0 then List.replicate c._cellTopo.getDimension []
      else c._entityIndices)[d]? with
  | none => none
  | some row0 =>
    (if row0.length = 0 then List.replicate (c._cellTopo.getSubcellCount d) none else row0)[ord]?

/-- The second cell record is the first one with a cache of sub-entity indices
that answers every `entityIndex(d, ord)` as the cache of the first does. -/
def Cell.CacheFilled (mt : MeshTopology) (c c' : Cell) : Prop :=
  (∃ cache, c' = { c with _entityIndices := cache }) ∧
    ∀ d ord : Nat, Cell.entityIndexValue mt c' d ord = Cell.entityIndexValue mt c d ord

/-- The second topology is the first one with the caches of its cells filled:
the tables are the same and every cell record is `CacheFilled`. -/
def CellsFilled (mt m : MeshTopology) : Prop :=
  m = { mt with _cells := m._cells } ∧
    ∀ k : IndexType, optRel (Cell.CacheFilled mt) (mapFind mt._cells k) (mapFind m._cells k)

/-- The sub-entity `x` of dimension `d` is returned by `entityIndex(d, ord)` for
a sub-cell `ord` of a cell of the list `cells`, as an unsigned index. -/
def IsHaloEntity (mt : MeshTopology) (cells : List IndexType) (d : Nat) (x : IndexType) : Prop :=
  ∃ k ∈ cells, ∃ cell, mapFind mt._cells k = some cell ∧
    ∃ ord < cell._cellTopo.getSubcellCount d, ∃ found,
      Cell.entityIndexValue mt cell d ord = Except.ok found ∧
        MeshTopology.unsignedIndex found = x

/-- The invariant of the loops that collect the entities of the halo. -/
def KeepInv (mt : MeshTopology) (s : MeshTopology × List (List IndexType)) : Prop :=
  CellsFilled mt s.1 ∧ s.2.length = mt._spaceDim ∧
    ∀ d : Nat, (s.2.getD d []).Sorted (fun a b => a < b)

/-- One completed call of a method that changes the topology: the addition of
vertices, of an entity or of a cell, the refinement of a cell, or a prune. -/
inductive Operation (tools : CellTools) (cellHalo : MeshTopology.CellHalo) :
    MeshTopology → MeshTopology → Prop where
  /-- The vertices have been added. -/
  | addVertices (mt : MeshTopology) (vertices : List Point) :
    Operation tools cellHalo mt (mt.getVertexIndices vertices).1
  /-- The entity has been added. -/
  | addEntity (mt mt' : MeshTopology) (entityTopo : CellTopology)
    (entityVertices : List IndexType) (entityIndex : IndexType) (permutation : Nat) :
    mt.addEntity tools entityTopo entityVertices = Except.ok (mt', entityIndex, permutation) →
    Operation tools cellHalo mt mt'
  /-- The cell has been added. -/
  | addCell (fuel : Nat) (mt mt' : MeshTopology) (cellIndex : IndexType)
    (cellTopo : CellTopology) (cellVertices : List IndexType) (parent : Option IndexType) :
    mt.addCell tools fuel cellIndex cellTopo cellVertices parent = Except.ok mt' →
    Operation tools cellHalo mt mt'
  /-- The cell has been refined. -/
  | refineCell (fuel : Nat) (mt mt' : MeshTopology) (cellIndex : IndexType)
    (refPattern : RefinementPattern) (firstChildCellIndex : IndexType) :
    mt.refineCell tools fuel cellIndex refPattern firstChildCellIndex = Except.ok mt' →
    Operation tools cellHalo mt mt'
  /-- The topology has been pruned. -/
  | pruneToInclude (fuel : Nat) (mt mt' : MeshTopology) (ownedCellIndices : List IndexType)
    (dimForNeighborRelation : Nat) :
    mt.pruneToInclude tools cellHalo fuel ownedCellIndices dimForNeighborRelation
      = Except.ok mt' →
    Operation tools cellHalo mt mt'

/-- The part of the result of `Cell::getDescendantsForSide` (with
`leafNodesOnly` false) that belongs to one child on the side: the child with its
side, followed by the descendants of the child for that side when the child is
valid and a parent in the view, and by nothing otherwise; `descend` is
`getDescendantsForSide` of a child. -/
def Cell.SideChildPart (mt : MeshTopology) (view : MeshTopologyView)
    (descend : Cell → Nat → Except MeshError (List (IndexType × Nat))) (cell : Cell)
    (entry : Nat × Nat) (part : List (IndexType × Nat)) : Prop :=
  ∃ (k : IndexType) (below : List (IndexType × Nat)),
    cell._childIndices[entry.1]? = some k ∧ part = (k, entry.2) :: below ∧
    ((view.isValidCellIndex (some k) = true ∧
        ∃ child, mt.derefCell (cell._children.getD entry.1 none) = Except.ok child ∧
          ((child.isParent view = true ∧ descend child entry.2 = Except.ok below) ∨
            (child.isParent view = false ∧ below = []))) ∨
      (view.isValidCellIndex (some k) = false ∧ below = []))

/-- The entry `e` is reached from the side `s` of the cell by descending through
the children on the side: `path` lists the children passed on the way, each
valid and a parent in the view, from the child of the cell down to the parent of
`e`. -/
inductive Cell.OnSidePath (mt : MeshTopology) (view : MeshTopologyView) :
    Cell → Nat → IndexType × Nat → List (IndexType × Nat) → Prop where
  /-- A child of the cell on the side. -/
  | direct (cell : Cell) (s : Nat) (refPattern : RefinementPattern) (entries : List (Nat × Nat))
    (entry : Nat × Nat) (k : IndexType) :
    cell._refPattern = some refPattern → refPattern.childrenForSides[s]? = some entries →
    entry ∈ entries → cell._childIndices[entry.1]? = some k →
    Cell.OnSidePath mt view cell s (k, entry.2) []
  /-- An entry reached from a child of the cell on the side. -/
  | through (cell : Cell) (s : Nat) (refPattern : RefinementPattern) (entries : List (Nat × Nat))
    (entry : Nat × Nat) (k : IndexType) (child : Cell) (e : IndexType × Nat)
    (path : List (IndexType × Nat)) :
    cell._refPattern = some refPattern → refPattern.childrenForSides[s]? = some entries →
    entry ∈ entries → cell._childIndices[entry.1]? = some k →
    view.isValidCellIndex (some k) = true →
    mt.derefCell (cell._children.getD entry.1 none) = Except.ok child →
    child.isParent view = true → Cell.OnSidePath mt view child entry.2 e path →
    Cell.OnSidePath mt view cell s e ((k, entry.2) :: path)

/-- The side entity `p` has been subdivided and its child side entities are
boundary sides: its one refinement lists children that are all present and all
in the boundary-side set. -/
def SideRefined (sideDim : Nat) (m : MeshTopology) (p : IndexType) : Prop :=
  ∃ (entry : RefinementPattern × List (Option IndexType)),
    mapFind (m._childEntities.getD sideDim []) p = some [entry] ∧
      (∀ x ∈ entry.2, x.isSome = true) ∧ ∀ x : IndexType, some x ∈ entry.2 → x ∈ m._boundarySides

/-- The invariant of the passes of `refineCellEntities` for the boundary side `p`,
side `s` of the cell `c` of full dimension: the side stays a boundary side, the
cell keeps it in its cache, and the side is not subdivided yet or is
`SideRefined`. -/
def BoundarySideInv (mt : MeshTopology) (c : IndexType) (s : Nat) (p : IndexType)
    (m : MeshTopology) : Prop :=
  m._spaceDim = mt._spaceDim ∧ mt.sideDim < m._childEntities.length ∧ p ∈ m._boundarySides ∧
    (∃ cell, mapFind m._cells c = some cell ∧ cell.cached mt.sideDim s (some p) ∧
      cell._cellTopo.getDimension = mt._spaceDim) ∧
    (mapFind (m._childEntities.getD mt.sideDim []) p = none ∨ SideRefined mt.sideDim m p)

/-- The claimant table fills the first slot first: in no entry is the second
slot filled while the first is `(-1, -1)`. -/
def ClaimantsInOrder (mt : MeshTopology) : Prop :=
  ∀ entry ∈ mt._cellsForSideEntities, entry.2.isSome = true → entry.1.isSome = true

/-- The size of chunk `i` when `N` cells are divided among `P` partitions: the
first `N mod P` chunks have one cell more than `N / P`. -/
def MeshPartitionPolicy.chunkSizeOf (N P i : Nat) : Nat :=
  N / P + (if i < N % P then 1 else 0)

/-- The position of the first cell of chunk `i` in the list of the cells: the
sum of the sizes of the chunks before it. -/
def MeshPartitionPolicy.chunkStart (N P : Nat) : Nat → Nat
  | 0 => 0
  | i + 1 => MeshPartitionPolicy.chunkStart N P i + MeshPartitionPolicy.chunkSizeOf N P i

/-- Chunk `i` of the list of the cells. -/
def MeshPartitionPolicy.chunk (ids : List IndexType) (P i : Nat) : List IndexType :=
  (ids.drop (MeshPartitionPolicy.chunkStart ids.length P i)).take
    (MeshPartitionPolicy.chunkSizeOf ids.length P i)

/-- The last recorded parent of a side, the one with which the loop of
`getConstrainingSideAncestry` goes on when no parent has an active cell. -/
def MeshTopology.lastParent? (mt : MeshTopology) (sideEntityIndex : IndexType) :
    Option IndexType :=
  match mapFind (mt._parentEntities.getD mt.sideDim []) sideEntityIndex with
  | some parents => parents.getLast?.map (fun entry => entry.1)
  | none => none

/-- A chain of successive parent sides of a side: every entry is a recorded
parent of the side before it, the first entry one of the side itself. -/
def MeshTopology.ParentChain (mt : MeshTopology) : IndexType → List (IndexType × Nat) → Prop
  | _, [] => True
  | sideEntityIndex, entry :: rest =>
    (∃ parents, mapFind (mt._parentEntities.getD mt.sideDim []) sideEntityIndex = some parents ∧
      entry ∈ parents) ∧ MeshTopology.ParentChain mt entry.1 rest

/-- The number of entries of a `std::map` with index keys: the number of
different keys. -/
def mapSize {V : Type} (m : List (IndexType × V)) : Nat :=
  (m.map Prod.fst).dedup.length

/-- The states of a replicated, unpruned mesh: the empty topology, and the
states reached from it by adding vertices, by `addCell` at the next cell index,
and by `refineCell` of a known cell without children with a pattern of at least
one child, the first child index being the next cell index and the new indices
fitting in 32 bits. -/
inductive Replicated (tools : CellTools) : MeshTopology → Prop where
  /-- The empty topology. -/
  | empty (spaceDim : Nat) (periodicBCs : List PeriodicBC) :
    Replicated tools (MeshTopology.init spaceDim periodicBCs)
  /-- The vertices have been added. -/
  | addVertices (mt : MeshTopology) (vertices : List Point) :
    Replicated tools mt → Replicated tools (mt.getVertexIndices vertices).1
  /-- The cell has been added at the next cell index. -/
  | addCell (fuel : Nat) (mt mt' : MeshTopology) (cellTopo : CellTopology)
    (cellVertices : List IndexType) (parent : Option IndexType) :
    Replicated tools mt →
    mt.addCell tools fuel mt._nextCellIndex cellTopo cellVertices parent = Except.ok mt' →
    Replicated tools mt'
  /-- The cell has been refined. -/
  | refineCell (fuel : Nat) (mt mt' : MeshTopology) (cellIndex : IndexType)
    (refPattern : RefinementPattern) (cell : Cell) :
    Replicated tools mt →
    mt.isValidCellIndex (some cellIndex) = true → mt.getCell cellIndex = Except.ok cell →
    cell._children = [] → 1 ≤ refPattern.numChildren →
    mt._nextCellIndex + refPattern.numChildren ≤ 4294967296 →
    mt.refineCell tools fuel cellIndex refPattern mt._nextCellIndex = Except.ok mt' →
    Replicated tools mt'

/-- The bookkeeping of the cells in a replicated mesh. -/
structure Counted (mt : MeshTopology) : Prop where
  /-- The valid cells are the indices below the next cell index. -/
  valid : ∀ x : IndexType, x ∈ mt._validCells ↔ x < mt._nextCellIndex
  /-- The active cells are valid. -/
  active : ∀ x ∈ mt._activeCells, x ∈ mt._validCells
  /-- The active-cell set is in ascending order. -/
  sorted : mt._activeCells.Sorted (fun a b => a < b)
  /-- The counter is the size of the active-cell set. -/
  count : mt._activeCellCount = mt._activeCells.length
  /-- The active cells have no children. -/
  leaf : ∀ x ∈ mt._activeCells, ∀ cx, mapFind mt._cells x = some cx →
    cx._children = [] ∧ cx._childIndices = []
  /-- Every cell is stored under its own index. -/
  index : ∀ (k : IndexType) (cell : Cell), mapFind mt._cells k = some cell → cell._cellIndex = k
  /-- The keys of the cell table are the valid cells. -/
  keys : ∀ k : IndexType, (mapFind mt._cells k).isSome = true ↔ k ∈ mt._validCells
  /-- The valid cells that are not active have children. -/
  parents : ∀ k ∈ mt._validCells, k ∉ mt._activeCells → ∀ cell,
    mapFind mt._cells k = some cell → cell._children ≠ []

/-- The generalized-parent table is well formed: the recorded generalized
parent of an entity has at least the dimension of the entity and is not the
entity itself. -/
def GeneralizedParentsWF (mt : MeshTopology) : Prop :=
  ∀ (d : Nat) (e : IndexType) (p : IndexType × Nat),
    mapFind (mt._generalizedParentEntities.getD d []) e = some p →
    d ≤ p.2 ∧ ¬ (p.2 = d ∧ p.1 = e)

/-- A step of `determineGeneralizedParentsForRefinement`: the periodic matches
are left alone, a well-formed generalized-parent table stays well formed, and
the recorded dimension of an entity does not increase when the entity is not a
vertex or no vertex has periodic partners. -/
structure GeneralizedStep (mt mt' : MeshTopology) : Prop where
  /-- The periodic rules matching the vertices are unchanged. -/
  matching : mt'._periodicBCIndicesMatchingNode = mt._periodicBCIndicesMatchingNode
  /-- The periodic partners of the vertices are unchanged. -/
  equivalent : mt'._equivalentNodeViaPeriodicBC = mt._equivalentNodeViaPeriodicBC
  /-- The number of generalized-parent tables is unchanged. -/
  length : mt'._generalizedParentEntities.length = mt._generalizedParentEntities.length
  /-- A well-formed table stays well formed. -/
  wf : GeneralizedParentsWF mt → GeneralizedParentsWF mt'
  /-- The recorded dimension does not increase. -/
  keep : GeneralizedParentsWF mt → ∀ (k : Nat) (e : IndexType) (q : IndexType × Nat),
    (1 ≤ k ∨ ∀ v, MeshTopology.periodicEquivalents mt v = []) →
    mapFind (mt._generalizedParentEntities.getD k []) e = some q →
    ∃ q', mapFind (mt'._generalizedParentEntities.getD k []) e = some q' ∧ q'.2 ≤ q.2

/-- Two cell records with the same topology, vertices and cache of sub-entity
indices. -/
def Cell.sameCache (c c' : Cell) : Prop :=
  c'._cellTopo = c._cellTopo ∧ c'._vertices = c._vertices ∧
    c'._entityIndices = c._entityIndices

/-- The cache of the cell is sized as `Cell::entityIndex` sizes it: it is empty
or has one row per dimension below the dimension of the cell, and a row is empty
or has one slot per sub-cell. -/
def Cell.CacheSized (c : Cell) : Prop :=
  (c._entityIndices.length = 0 ∨ c._entityIndices.length = c._cellTopo.getDimension) ∧
    ∀ (d : Nat) (row : List (Option (Option IndexType))), c._entityIndices[d]? = some row →
      row.length = 0 ∨ row.length = c._cellTopo.getSubcellCount d

/-- The topology has no periodic boundary conditions, the cache of every cell of
the table is sized, and every cached index is an index found, which the
uncached lookup of `Cell::getEntityIndices` finds too. -/
def CacheSound (mt : MeshTopology) : Prop :=
  mt._periodicBCs.length = 0 ∧
    ∀ (k : IndexType) (cell : Cell), mapFind mt._cells k = some cell →
      cell.CacheSized ∧
        ∀ (d ord : Nat) (x : Option IndexType), cell.cached d ord x →
          ∃ i, x = some i ∧ Cell.lookupEntityIndex mt cell d ord = Except.ok (some i)

/-- A step that keeps the caches sound. -/
def CacheStep (mt mt' : MeshTopology) : Prop :=
  CacheSound mt → CacheSound mt'

/-- A step that keeps the periodic boundary conditions and every known entity of
dimension one and above. -/
def KnownGrows (mt mt' : MeshTopology) : Prop :=
  mt'._periodicBCs = mt._periodicBCs ∧
    ∀ (d : Nat), 1 ≤ d → ∀ (key : List IndexType) (i : IndexType),
      mapFind (mt._knownEntities.getD d []) key = some i →
        mapFind (mt'._knownEntities.getD d []) key = some i

/-- One completed call that changes the topology or fills a cache: an
`Operation`, or a call `cell->entityIndex(d, ord)` on a cell of the table that
returned an index. -/
def CacheOperation (tools : CellTools) (cellHalo : MeshTopology.CellHalo)
    (mt mt' : MeshTopology) : Prop :=
  Operation tools cellHalo mt mt' ∨
    ∃ (k : IndexType) (d ord : Nat) (i : IndexType),
      MeshTopology.cellEntityIndex mt k d ord = Except.ok (some i, mt')

/-- The line topology: two vertices, which are its sides. -/
def lineTopology : CellTopology :=
  CellTopology.mk (1, 0) 1 2 [[(pointTopology, [0]), (pointTopology, [1])]]

/-- Cell tools for the samples: permutation 0 when the orders agree, 1 when
they differ; sub-cell ordinals of a side are read off the node map. -/
def sampleTools : CellTools :=
  { permutationMatchingOrder := fun _ a b => if a = b then 0 else 1
    subcellOrdinalMap := fun t d j sd so =>
      if sd = 0 then (t.nodeMap d j).getD so 0 else so
    cellTopology := fun key =>
      if key = (0, 0) then some pointTopology
      else if key = (1, 0) then some lineTopology
      else none }

/-- The state of a successful run, the empty topology of dimension zero otherwise. -/
def stateOf (r : Except MeshError MeshTopology) : MeshTopology :=
  match r with
  | Except.ok mt => mt
  | Except.error _ => MeshTopology.init 0 []

/-- The cell with the given index of the table, a fresh point cell when there is none. -/
def cellOf (mt : MeshTopology) (cellIndex : IndexType) : Cell :=
  match mt.getCell cellIndex with
  | Except.ok cell => cell
  | Except.error _ => MeshTopology.newCell pointTopology [] [] cellIndex

/-- The regular refinement of a line into two lines: the refined vertices are
the two end points with the mid point between them. -/
def linePattern : RefinementPattern :=
  RefinementPattern.mk 1
    (fun nodes =>
      match nodes with
      | [a, b] => [a, List.zipWith (fun x y => (x + y) / 2) a b, b]
      | _ => [])
    [[0, 1], [1, 2]]
    []
    [[(0, 0)], [(1, 1)]]
    (fun c => if c = 0 then [(0, 0)] else if c = 1 then [(1, 1)] else [])
    (fun c d ord => if d = 0 then (if c = ord then some ord else none) else some 0)

/-- A one-dimensional mesh of one cell on the interval from 0 to 4. -/
def lineMesh : MeshTopology :=
  stateOf (MeshTopology.addCell sampleTools 10
    (MeshTopology.getVertexIndices (MeshTopology.init 1 []) [[0], [4]]).1
    0 lineTopology [0, 1] none)

/-- A periodic rule identifying the points 0 and `len` of the line. -/
def linePeriodicBC (len : Int) : PeriodicBC :=
  { getMatchingSides := fun p => if p = [0] then [0] else if p = [len] then [1] else []
    getMatchingPoint := fun _ side => if side = 0 then [len] else [0] }

/-- A periodic one-dimensional mesh of one cell: the cell is its own neighbour. -/
def periodicLineMesh : MeshTopology :=
  stateOf (MeshTopology.addCell sampleTools 10
    (MeshTopology.getVertexIndices (MeshTopology.init 1 [linePeriodicBC 4]) [[0], [4]]).1
    0 lineTopology [0, 1] none)

/-- A periodic one-dimensional mesh of two cells on the interval from 0 to 8. -/
def periodicTwoCellMesh : MeshTopology :=
  stateOf (MeshTopology.addCell sampleTools 10
    (stateOf (MeshTopology.addCell sampleTools 10
      (MeshTopology.getVertexIndices (MeshTopology.init 1 [linePeriodicBC 8])
        [[0], [4], [8]]).1
      0 lineTopology [0, 1] none))
    1 lineTopology [1, 2] none)

/-- A one-dimensional mesh of two cells on the interval from 0 to 8. -/
def twoCellMesh : MeshTopology :=
  stateOf (MeshTopology.addCell sampleTools 10
    (stateOf (MeshTopology.addCell sampleTools 10
      (MeshTopology.getVertexIndices (MeshTopology.init 1 []) [[0], [4], [8]]).1
      0 lineTopology [0, 1] none))
    1 lineTopology [1, 2] none)

/-- The quadrilateral topology: four vertices in counter-clockwise order, and
four edges, edge `j` from vertex `j` to vertex `j + 1`. -/
def quadTopology : CellTopology :=
  CellTopology.mk (2, 0) 2 4
    [[(pointTopology, [0]), (pointTopology, [1]), (pointTopology, [2]), (pointTopology, [3])],
     [(lineTopology, [0, 1]), (lineTopology, [1, 2]), (lineTopology, [2, 3]),
      (lineTopology, [3, 0])]]

/-- The point half way between two points with even coordinate differences. -/
def midPoint (a b : Point) : Point :=
  List.zipWith (fun x y => (x + y) / 2) a b

/-- The two halves of edge `j` of a quadrilateral with the given nodes. -/
def edgeChildren (j : Nat) (nodes : List Point) : List (List Point) :=
  [[nodes.getD j [], midPoint (nodes.getD j []) (nodes.getD ((j + 1) % 4) [])],
    [midPoint (nodes.getD j []) (nodes.getD ((j + 1) % 4) []), nodes.getD ((j + 1) % 4) []]]

/-- The regular refinement of a quadrilateral into four: refined vertices 0 to 3
are the corners, 4 to 7 the edge mid points, 8 the centre; child `c` sits at
corner `c` and has its sides `c` and `c + 3` on the parent sides of the same
ordinals. -/
def quadPattern : RefinementPattern :=
  RefinementPattern.mk 2
    (fun nodes =>
      match nodes with
      | [v0, v1, v2, v3] =>
        [v0, v1, v2, v3, midPoint v0 v1, midPoint v1 v2, midPoint v2 v3, midPoint v3 v0,
          midPoint (midPoint v0 v1) (midPoint v2 v3)]
      | _ => [])
    [[0, 4, 8, 7], [4, 1, 5, 8], [8, 5, 2, 6], [7, 8, 6, 3]]
    [[], [(linePattern, edgeChildren 0), (linePattern, edgeChildren 1),
          (linePattern, edgeChildren 2), (linePattern, edgeChildren 3)]]
    [[(0, 0), (1, 0)], [(1, 1), (2, 1)], [(2, 2), (3, 2)], [(3, 3), (0, 3)]]
    (fun c => [(c, c), ((c + 3) % 4, (c + 3) % 4)])
    (fun c d ord =>
      if d = 0 then (if c = ord then some ord else none)
      else if d = 1 then (if ord = c ∨ ord = (c + 3) % 4 then some ord else none)
      else some 0)

/-- Cell tools for the two-dimensional samples: those of the line samples with
the quadrilateral topology known by its key. -/
def quadTools : CellTools :=
  { sampleTools with
    cellTopology := fun key =>
      if key = (0, 0) then some pointTopology
      else if key = (1, 0) then some lineTopology
      else if key = (2, 0) then some quadTopology
      else none }

/-- A two-dimensional mesh of two quadrilaterals side by side, cell 0 on the
square from (0,0) to (4,4) and cell 1 on the square from (4,0) to (8,4). -/
def twoQuadMesh : MeshTopology :=
  stateOf (MeshTopology.addCell quadTools 10
    (stateOf (MeshTopology.addCell quadTools 10
      (MeshTopology.getVertexIndices (MeshTopology.init 2 [])
        [[0, 0], [4, 0], [4, 4], [0, 4], [8, 0], [8, 4]]).1
      0 quadTopology [0, 1, 2, 3] none))
    1 quadTopology [1, 4, 5, 2] none)

/-- The two-quadrilateral mesh with cell 0 refined into the cells 2 to 5: the
children 3 and 4 have hanging edges on the side shared with the unrefined cell 1. -/
def refinedQuadMesh : MeshTopology :=
  stateOf (MeshTopology.refineCell quadTools 10 twoQuadMesh 0 quadPattern 2)

/-- The line mesh with its cell 0 refined into the cells 1 and 2. -/
def refinedLineMesh : MeshTopology :=
  stateOf (MeshTopology.refineCell sampleTools 10 lineMesh 0 linePattern 1)

/-- The line mesh after `refineCell(0, pattern, 0)`: the first child index is
the index of the refined cell itself. -/
def selfChildLineMesh : MeshTopology :=
  stateOf (MeshTopology.refineCell sampleTools 10 lineMesh 0 linePattern 0)

/-- A two-dimensional mesh of one quadrilateral on the square from (0,0) to (4,4). -/
def singleQuadMesh : MeshTopology :=
  stateOf (MeshTopology.addCell quadTools 10
    (MeshTopology.getVertexIndices (MeshTopology.init 2 [])
      [[0, 0], [4, 0], [4, 4], [0, 4]]).1
    0 quadTopology [0, 1, 2, 3] none)

/-- The one-quadrilateral mesh with its cell refined into the cells 1 to 4. -/
def refinedSingleQuadMesh : MeshTopology :=
  stateOf (MeshTopology.refineCell quadTools 10 singleQuadMesh 0 quadPattern 1)

/-- A periodic rule of the square of side `len`: the points with first
coordinate `0` (side 0) are matched with the points with first coordinate `len`
at the same height (side 1). -/
def quadPeriodicBC (len : Int) : PeriodicBC :=
  { getMatchingSides := fun p =>
      if p.getD 0 0 = 0 then [0] else if p.getD 0 0 = len then [1] else []
    getMatchingPoint := fun p side =>
      if side = 0 then [len, p.getD 1 0] else [0, p.getD 1 0] }

/-- The one-quadrilateral mesh on the square from (0,0) to (4,4) whose left and
right edges are identified by a periodic rule. -/
def periodicQuadMesh : MeshTopology :=
  stateOf (MeshTopology.addCell quadTools 10
    (MeshTopology.getVertexIndices (MeshTopology.init 2 [quadPeriodicBC 4])
      [[0, 0], [4, 0], [4, 4], [0, 4]]).1
    0 quadTopology [0, 1, 2, 3] none)

/-- The two-cell line mesh with its cell 0 refined into the cells 2 and 3. -/
def refinedTwoCellMesh : MeshTopology :=
  stateOf (MeshTopology.refineCell sampleTools 10 twoCellMesh 0 linePattern 2)

/-- The view of a topology in which the cells 0 and 1 are the valid cells and no
cell is a parent. -/
def rootView (mt : MeshTopology) : MeshTopologyView :=
  { isValidCellIndex := fun i => decide (i = some 0 ∨ i = some 1)
    isParent := fun _ => false
    getConstrainingEntity := mt.getConstrainingEntity 10 }

/-- The two-quadrilateral mesh in the state in which `refineCell(0, quadPattern, 2)`
starts to add the children: the counters are updated, the entities of cell 0 are
refined, its pattern is set and the cell is deactivated. -/
def refiningQuadMesh : MeshTopology :=
  let counted := MeshTopology.countRefinement twoQuadMesh quadPattern 2
  let added := MeshTopology.getVertexIndices counted
    (quadPattern.verticesForRefinement [[0, 0], [4, 0], [4, 4], [0, 4]])
  let refined := stateOf (MeshTopology.refineCellEntities quadTools added.1 0 quadPattern)
  let cell := cellOf refined 0
  let patterned := { refined with
    _cells := mapSet refined._cells 0 { cell with _refPattern := some quadPattern } }
  stateOf (MeshTopology.deactivateCell patterned { cell with _refPattern := some quadPattern })

/-- The state of that refinement after the first child, cell 2, is added. -/
def refiningQuadMeshOneChild : MeshTopology :=
  stateOf (MeshTopology.addChild quadTools 10 0 refiningQuadMesh (2, quadTopology, [0, 6, 10, 9]))

/-- The state that a side-entity lookup leaves, the given state when it raised. -/
def lookupStateOf (mt : MeshTopology) (r : Except MeshError (Option IndexType × MeshTopology)) :
    MeshTopology :=
  match r with
  | Except.ok q => q.2
  | Except.error _ => mt

/-- The state in which pass 1 of the second side loop starts when the second
child, cell 3, is added to the two-quadrilateral mesh being refined. -/
def secondChildPass : MeshTopology :=
  stateOf (MeshTopology.addCellBeforeLinkSide quadTools 10 refiningQuadMeshOneChild 3
    quadTopology [6, 1, 7, 10] (some 0) 1)

/-- That state after the lookup of the side entity of side 1 of cell 3. -/
def secondChildPassSide : MeshTopology :=
  lookupStateOf secondChildPass (MeshTopology.cellSideEntityIndex secondChildPass 3 1)

/-- A one-dimensional mesh of the two cells 0 on the interval from 0 to 4 and 1
on the interval from 8 to 12, with a gap between them. -/
def gapLineMesh : MeshTopology :=
  stateOf (MeshTopology.addCell sampleTools 10
    (stateOf (MeshTopology.addCell sampleTools 10
      (MeshTopology.getVertexIndices (MeshTopology.init 1 []) [[0], [4], [8], [12]]).1
      0 lineTopology [0, 1] none))
    1 lineTopology [2, 3] none)

/-- The mesh with the gap filled by cell 2 on the interval from 4 to 8. -/
def filledLineMesh : MeshTopology :=
  stateOf (MeshTopology.addCell sampleTools 10 gapLineMesh 2 lineTopology [1, 2] none)

/-- A halo function that answers with the given cells, whatever the owned cells. -/
def haloOf (cells : List IndexType) : MeshTopology.CellHalo :=
  fun _ _ _ => cells

/-- The filled line mesh pruned for the owned cell 1 with the halo of the cells 1
and 2, its neighbour: cell 0 and the vertex 0 are dropped. -/
def prunedLineMesh : MeshTopology :=
  stateOf (MeshTopology.pruneToInclude sampleTools (haloOf [1, 2]) 10 filledLineMesh [1] 0)

/-- The local tables of a result of a pass of the entity loop, the empty tables
for an error. -/
def prunedOf (r : Except MeshError MeshTopology.PrunedEntities) : MeshTopology.PrunedEntities :=
  match r with
  | Except.ok pruned => pruned
  | Except.error _ => MeshTopology.PrunedEntities.empty 0 []

/-- The local tables before the entity loop when the refined two-quadrilateral
mesh is pruned to the unrefined cell 1: the old-to-new maps of its vertices 1, 2,
4, 5 and of its edges 1, 4, 5, 6. -/
def neighborLookup : MeshTopology.PrunedEntities :=
  MeshTopology.PrunedEntities.empty 2
    [MeshTopology.reverseLookupOfDim [1, 2, 4, 5], MeshTopology.reverseLookupOfDim [1, 4, 5, 6]]

/-- The refined line mesh after `refineCell(1, pattern, 3)`: cell 0 has the
children 1 and 2, and its first child, cell 1, has the children 3 and 4. -/
def twiceRefinedLineMesh : MeshTopology :=
  stateOf (MeshTopology.refineCell sampleTools 10 refinedLineMesh 1 linePattern 3)

/-- The one-quadrilateral mesh after `refineCellEntities(0, quadPattern)`: the
four edges of the cell, all boundary sides, have two child edges each. -/
def quadWithRefinedEntities : MeshTopology :=
  stateOf (MeshTopology.refineCellEntities quadTools singleQuadMesh 0 quadPattern)

/-- The two-quadrilateral mesh pruned to the halo of its cell 1: the vertices 1,
2, 4 and 5 and the edges 1, 4, 5 and 6 are kept. -/
def prunedQuadMesh : MeshTopology :=
  stateOf (MeshTopology.pruneToInclude quadTools (haloOf [1]) 10 twoQuadMesh [1] 0)

/-- The triangle topology: three vertices and three edges, edge `j` from vertex
`j` to vertex `j + 1`. -/
def triangleTopology : CellTopology :=
  CellTopology.mk (2, 1) 2 3
    [[(pointTopology, [0]), (pointTopology, [1]), (pointTopology, [2])],
     [(lineTopology, [0, 1]), (lineTopology, [1, 2]), (lineTopology, [2, 0])]]

/-- The tetrahedron topology: four vertices, six edges and four triangular
faces. -/
def tetTopology : CellTopology :=
  CellTopology.mk (3, 0) 3 4
    [[(pointTopology, [0]), (pointTopology, [1]), (pointTopology, [2]), (pointTopology, [3])],
     [(lineTopology, [0, 1]), (lineTopology, [1, 2]), (lineTopology, [2, 0]),
      (lineTopology, [0, 3]), (lineTopology, [1, 3]), (lineTopology, [2, 3])],
     [(triangleTopology, [0, 1, 3]), (triangleTopology, [1, 2, 3]),
      (triangleTopology, [0, 3, 2]), (triangleTopology, [0, 2, 1])]]

/-- Cell tools for the three-dimensional samples: those of the line samples
with the triangle and the tetrahedron known by their keys. -/
def tetTools : CellTools :=
  { sampleTools with
    cellTopology := fun key =>
      if key = (0, 0) then some pointTopology
      else if key = (1, 0) then some lineTopology
      else if key = (2, 1) then some triangleTopology
      else if key = (3, 0) then some tetTopology
      else none }

/-- The pattern of a sub-cell of which the refinement of a cell reads the number
of children only. -/
def subcellPattern (key children : Nat) : RefinementPattern :=
  RefinementPattern.mk key (fun _ => []) (List.replicate children []) [] [] (fun _ => [])
    (fun _ _ _ => none)

/-- The bisection of a tetrahedron at the mid point of its edge 0: refined
vertex 4 is the mid point of the vertices 0 and 1; child 0 keeps vertex 0 and
child 1 keeps vertex 1; the edge 0 and the faces 0 and 3, which contain it, are
bisected, the other edges and faces are not refined. -/
def tetBisectPattern : RefinementPattern :=
  RefinementPattern.mk 3
    (fun nodes =>
      match nodes with
      | [v0, v1, v2, v3] => [v0, v1, v2, v3, midPoint v0 v1]
      | _ => [])
    [[0, 4, 2, 3], [4, 1, 2, 3]]
    [[],
     [(subcellPattern 10 2, fun nodes =>
        [[nodes.getD 0 [], midPoint (nodes.getD 0 []) (nodes.getD 1 [])],
         [midPoint (nodes.getD 0 []) (nodes.getD 1 []), nodes.getD 1 []]]),
      (subcellPattern 11 1, fun _ => []), (subcellPattern 11 1, fun _ => []),
      (subcellPattern 11 1, fun _ => []), (subcellPattern 11 1, fun _ => []),
      (subcellPattern 11 1, fun _ => [])],
     [(subcellPattern 20 2, fun nodes =>
        [[nodes.getD 0 [], midPoint (nodes.getD 0 []) (nodes.getD 1 []), nodes.getD 3 []],
         [midPoint (nodes.getD 0 []) (nodes.getD 1 []), nodes.getD 1 [], nodes.getD 3 []]]),
      (subcellPattern 21 1, fun _ => []), (subcellPattern 21 1, fun _ => []),
      (subcellPattern 22 2, fun nodes =>
        [[nodes.getD 0 [], nodes.getD 2 [], midPoint (nodes.getD 0 []) (nodes.getD 1 [])],
         [midPoint (nodes.getD 0 []) (nodes.getD 1 []), nodes.getD 2 [], nodes.getD 1 []]])]]
    [[(0, 0), (1, 0)], [(1, 1)], [(0, 2)], [(0, 3), (1, 3)]]
    (fun c =>
      if c = 0 then [(0, 0), (2, 2), (3, 3)]
      else if c = 1 then [(0, 0), (1, 1), (3, 3)]
      else [])
    (fun _ _ _ => none)

/-- A periodic rule in three dimensions: the points with first coordinate `0`
(side 0) are matched with the points with first coordinate `len` that have the
same other coordinates (side 1). -/
def boxPeriodicBC (len : Int) : PeriodicBC :=
  { getMatchingSides := fun p =>
      if p.getD 0 0 = 0 then [0] else if p.getD 0 0 = len then [1] else []
    getMatchingPoint := fun p side =>
      if side = 0 then [len, p.getD 1 0, p.getD 2 0] else [0, p.getD 1 0, p.getD 2 0] }

/-- A three-dimensional mesh of two tetrahedra under the periodic rule that
identifies the plane `x = 0` with the plane `x = 8`: cell 0 has its edge 0, from
vertex 0 to vertex 1, in the plane `x = 0`, and cell 1 has its edge 0, from
vertex 4 to vertex 5, in the plane `x = 8`; the two edges are the one edge
entity 0. -/
def twoTetMesh : MeshTopology :=
  stateOf (MeshTopology.addCell tetTools 10
    (stateOf (MeshTopology.addCell tetTools 10
      (MeshTopology.getVertexIndices (MeshTopology.init 3 [boxPeriodicBC 8])
        [[0, 0, 0], [0, 4, 0], [2, 0, 4], [2, 4, 8],
          [8, 0, 0], [8, 4, 0], [6, 0, 4], [6, 4, 8]]).1
      0 tetTopology [0, 1, 2, 3] none))
    1 tetTopology [4, 5, 6, 7] none)

/-- The two-tetrahedron mesh with cell 1 bisected into the cells 2 and 3; the
new vertex 8 is the mid point of the edge in the plane `x = 8`. -/
def bisectedTetMesh : MeshTopology :=
  stateOf (MeshTopology.refineCell tetTools 10 twoTetMesh 1 tetBisectPattern 2)

/-- The state in which the bisection of cell 0 of that mesh into the cells 4 and
5 calls `determineGeneralizedParentsForRefinement`: the counters are updated,
the new vertex 9, the mid point of the edge in the plane `x = 0` and the
periodic partner of vertex 8, is added, the entities of cell 0 are refined, the
cell is deactivated and its children are added. -/
def childrenAddedTetMesh : MeshTopology :=
  let counted := MeshTopology.countRefinement bisectedTetMesh tetBisectPattern 4
  let added := MeshTopology.getVertexIndices counted
    (tetBisectPattern.verticesForRefinement [[0, 0, 0], [0, 4, 0], [2, 0, 4], [2, 4, 8]])
  let refined := stateOf (MeshTopology.refineCellEntities tetTools added.1 0 tetBisectPattern)
  let cell := cellOf refined 0
  let patterned := { refined with
    _cells := mapSet refined._cells 0 { cell with _refPattern := some tetBisectPattern } }
  stateOf (MeshTopology.addChildren tetTools 10
    (stateOf (MeshTopology.deactivateCell patterned
      { cell with _refPattern := some tetBisectPattern }))
    4 0 [tetTopology, tetTopology] [[0, 9, 2, 3], [9, 1, 2, 3]])

/-- The two-tetrahedron mesh with cell 1 bisected and then cell 0 bisected. -/
def twiceBisectedTetMesh : MeshTopology :=
  stateOf (MeshTopology.refineCell tetTools 10 bisectedTetMesh 0 tetBisectPattern 4)

/-- The state in which the refinement of cell 0 of the two-quadrilateral mesh
calls `determineGeneralizedParentsForRefinement`: the children 2 to 5 are added
to the state `refiningQuadMesh`. -/
def childrenAddedQuadMesh : MeshTopology :=
  stateOf (MeshTopology.addChildren quadTools 10 refiningQuadMesh 2 0
    [quadTopology, quadTopology, quadTopology, quadTopology]
    [[0, 6, 10, 9], [6, 1, 7, 10], [10, 7, 2, 8], [9, 10, 8, 3]])

/-- A periodic rule of a strip: the points with first coordinate `lo` (side 0)
are matched with the points with first coordinate `hi` at the same height
(side 1). -/
def stripPeriodicBC (lo hi : Int) : PeriodicBC :=
  { getMatchingSides := fun p =>
      if p.getD 0 0 = lo then [0] else if p.getD 0 0 = hi then [1] else []
    getMatchingPoint := fun p side =>
      if side = 0 then [hi, p.getD 1 0] else [lo, p.getD 1 0] }

/-- The two-quadrilateral mesh under two periodic rules, the rule 0 matching the
lines `x = 8` and `x = 16` and the rule 1 matching the lines `x = 0` and `x = 8`:
the right edge of cell 1 is found as the left edge of cell 0. -/
def chainedPeriodicMesh : MeshTopology :=
  stateOf (MeshTopology.addCell quadTools 10
    (stateOf (MeshTopology.addCell quadTools 10
      (MeshTopology.getVertexIndices
        (MeshTopology.init 2 [stripPeriodicBC 8 16, stripPeriodicBC 0 8])
        [[0, 0], [4, 0], [4, 4], [0, 4], [8, 0], [8, 4]]).1
      0 quadTopology [0, 1, 2, 3] none))
    1 quadTopology [1, 4, 5, 2] none)

/-- The vertices of the square from (16,0) to (20,4) added to the chained
periodic mesh. -/
def chainedPeriodicVertices : MeshTopology :=
  (MeshTopology.getVertexIndices chainedPeriodicMesh
    [[16, 0], [20, 0], [20, 4], [16, 4]]).1

/-- The chained periodic mesh with a third cell on the square from (16,0) to
(20,4), whose left edge lies on the line `x = 16`. -/
def chainedPeriodicMeshThree : MeshTopology :=
  stateOf (MeshTopology.addCell quadTools 10 chainedPeriodicVertices
    2 quadTopology [6, 7, 8, 9] none)

/-- The refined two-quadrilateral mesh after the call `entityIndex(0, 2)` on its
cell 3, which has cached the vertex 7. -/
def vertexCachedQuadMesh : MeshTopology :=
  lookupStateOf refinedQuadMesh (MeshTopology.cellEntityIndex refinedQuadMesh 3 0 2)

/-- A three-dimensional mesh of one tetrahedron, without periodic rules. -/
def oneTetMesh : MeshTopology :=
  stateOf (MeshTopology.addCell tetTools 10
    (MeshTopology.getVertexIndices (MeshTopology.init 3 [])
      [[0, 0, 0], [0, 4, 0], [2, 0, 4], [2, 4, 8]]).1
    0 tetTopology [0, 1, 2, 3] none)

/-- That mesh with cell 0 bisected into the cells 1 and 2: the new vertex 4 is
the mid point of edge 0, whose children are the edge 6, from vertex 0 to vertex
4, and the edge 7, from vertex 4 to vertex 1. -/
def bisectedOneTetMesh : MeshTopology :=
  stateOf (MeshTopology.refineCell tetTools 10 oneTetMesh 0 tetBisectPattern 1)

/-- The bisected mesh with a root tetrahedron, cell 3, on the vertices 0 and 4
and the new vertices 5 and 6: it has the child edge 6 in common with the child
cell 1, and no face in common with any cell. -/
def edgeNeighborTetMesh : MeshTopology :=
  stateOf (MeshTopology.addCell tetTools 10
    (MeshTopology.getVertexIndices bisectedOneTetMesh [[-4, 0, 0], [-4, 2, -4]]).1
    3 tetTopology [0, 4, 5, 6] none)

/-- The local tables before the entity loop when the bisected tetrahedron mesh
with the root cell 3 is pruned to cell 3: the old-to-new maps of its vertices 0,
4, 5, 6, of its edges 6, 10, 11, 12, 13, 14 and of its faces 9, 10, 11, 12. -/
def edgeNeighborLookup : MeshTopology.PrunedEntities :=
  MeshTopology.PrunedEntities.empty 3
    [MeshTopology.reverseLookupOfDim [0, 4, 5, 6],
      MeshTopology.reverseLookupOfDim [6, 10, 11, 12, 13, 14],
      MeshTopology.reverseLookupOfDim [9, 10, 11, 12]]

section ContainerLemmas

variable {K V : Type} [DecidableEq K]

theorem mapFind_append (m : List (K × V)) (k k' : K) (v : V) :
    mapFind (m ++ [(k, v)]) k' =
      match mapFind m k' with
      | some x => some x
      | none => if k = k' then some v else none := by
  induction m with
  | nil => simp [mapFind]
  | cons a t ih =>
    obtain ⟨ka, va⟩ := a
    by_cases h : ka = k'
    · simp [mapFind, h]
    · simp [mapFind, h, ih]

theorem mapFind_mapInsert_of_none (m : List (K × V)) (k k' : K) (v : V)
    (h : mapFind m k = none) :
    mapFind (mapInsert m k v) k' = if k = k' then some v else mapFind m k' := by
  unfold mapInsert
  rw [h]
  simp only [mapFind_append]
  by_cases hk : k = k'
  · subst hk
    simp [h]
  · simp only [hk, if_false]
    cases mapFind m k' <;> rfl

theorem mapFind_mapSet (m : List (K × V)) (k k' : K) (v : V) :
    mapFind (mapSet m k v) k' = if k = k' then some v else mapFind m k' := by
  induction m with
  | nil => simp [mapSet, mapFind]
  | cons a t ih =>
    obtain ⟨ka, va⟩ := a
    by_cases h : ka = k
    · subst h
      by_cases h' : ka = k' <;> simp [mapSet, mapFind, h']
    · by_cases h' : ka = k'
      · subst h'
        simp [mapSet, mapFind, h, Ne.symm h]
      · simp [mapSet, mapFind, h, h', ih]

end ContainerLemmas

theorem mem_setInsert (x z : Nat) (l : List Nat) : z ∈ setInsert x l ↔ z = x ∨ z ∈ l := by
  induction l with
  | nil => simp [setInsert]
  | cons y t ih =>
    unfold setInsert
    split
    · simp
    · split
      · rename_i h1 h2
        subst h2
        simp
      · simp only [List.mem_cons, ih]
        tauto

theorem sorted_setInsert (x : Nat) (l : List Nat) (h : l.Sorted (fun a b => a < b)) :
    (setInsert x l).Sorted (fun a b => a < b) := by
  induction l with
  | nil => simp [setInsert]
  | cons y t ih =>
    have ht : t.Sorted (fun a b => a < b) := h.of_cons
    have hy : ∀ b ∈ t, y < b := fun b hb => List.rel_of_sorted_cons h b hb
    unfold setInsert
    split
    · rename_i hxy
      refine List.sorted_cons.2 ⟨?_, h⟩
      intro b hb
      rcases List.mem_cons.1 hb with rfl | hb
      · exact hxy
      · exact lt_trans hxy (hy b hb)
    · split
      · exact h
      · rename_i h1 h2
        refine List.sorted_cons.2 ⟨?_, ih ht⟩
        intro b hb
        rcases (mem_setInsert x b t).1 hb with rfl | hb
        · omega
        · exact hy b hb

theorem setOfList_aux (l acc : List Nat) (h : acc.Sorted (fun a b => a < b)) :
    (l.foldl (fun s x => setInsert x s) acc).Sorted (fun a b => a < b) ∧
      ∀ z, z ∈ l.foldl (fun s x => setInsert x s) acc ↔ z ∈ l ∨ z ∈ acc := by
  induction l generalizing acc with
  | nil => simp [h]
  | cons x t ih =>
    obtain ⟨h1, h2⟩ := ih (setInsert x acc) (sorted_setInsert x acc h)
    refine ⟨h1, fun z => ?_⟩
    simp only [List.foldl_cons, h2, mem_setInsert, List.mem_cons]
    tauto

theorem sorted_setOfList (l : List Nat) : (setOfList l).Sorted (fun a b => a < b) :=
  (setOfList_aux l [] List.sorted_nil).1

theorem mem_setOfList (l : List Nat) (z : Nat) : z ∈ setOfList l ↔ z ∈ l := by
  have := (setOfList_aux l [] List.sorted_nil).2 z
  simpa [setOfList] using this

theorem nodup_setOfList (l : List Nat) : (setOfList l).Nodup :=
  (sorted_setOfList l).nodup

theorem setOfList_eq_of_perm {l l' : List Nat} (h : l.Perm l') : setOfList l = setOfList l' := by
  apply List.eq_of_perm_of_sorted _ (sorted_setOfList l) (sorted_setOfList l')
  rw [List.perm_ext_iff_of_nodup (nodup_setOfList l) (nodup_setOfList l')]
  intro a
  rw [mem_setOfList, mem_setOfList]
  exact h.mem_iff

theorem nodup_of_length_setOfList {l : List Nat} (h : (setOfList l).length = l.length) :
    l.Nodup := by
  have hperm : (setOfList l).Perm l.dedup := by
    rw [List.perm_ext_iff_of_nodup (nodup_setOfList l) (List.nodup_dedup l)]
    intro a
    rw [mem_setOfList, List.mem_dedup]
  have hlen : l.dedup.length = l.length := by rw [← hperm.length_eq, h]
  have : l.dedup = l := (List.dedup_sublist l).eq_of_length hlen
  exact List.dedup_eq_self.1 this

theorem length_setOfList_of_nodup {l : List Nat} (h : l.Nodup) :
    (setOfList l).length = l.length := by
  apply List.Perm.length_eq
  rw [List.perm_ext_iff_of_nodup (nodup_setOfList l) h]
  intro a
  rw [mem_setOfList]

theorem sortIndices_eq_setOfList {l : List Nat} (h : l.Nodup) : sortIndices l = setOfList l := by
  have hs : (setOfList l).Sorted (fun a b => a ≤ b) :=
    (sorted_setOfList l).imp (fun hab => Nat.le_of_lt hab)
  have hperm : (sortIndices l).Perm (setOfList l) := by
    refine (List.perm_insertionSort _ l).trans ?_
    rw [List.perm_ext_iff_of_nodup h (nodup_setOfList l)]
    intro a
    rw [mem_setOfList]
  exact List.eq_of_perm_of_sorted hperm (List.sorted_insertionSort _ l) hs

theorem length_modifyAt {α : Type} (l : List α) (i : Nat) (f : α → α) :
    (modifyAt l i f).length = l.length := by
  induction l generalizing i with
  | nil => rfl
  | cons a t ih => cases i <;> simp [modifyAt, ih]

theorem getD_modifyAt_ne {α : Type} (l : List α) (i j : Nat) (f : α → α) (dflt : α)
    (h : j ≠ i) : (modifyAt l i f).getD j dflt = l.getD j dflt := by
  induction l generalizing i j with
  | nil => rfl
  | cons a t ih =>
    cases i with
    | zero =>
      cases j with
      | zero => exact absurd rfl h
      | succ j => simp [modifyAt]
    | succ i =>
      cases j with
      | zero => simp [modifyAt]
      | succ j =>
        simp only [modifyAt, List.getD_cons_succ]
        exact ih i j (fun hj => h (by rw [hj]))

theorem getD_modifyAt_self {α : Type} (l : List α) (i : Nat) (f : α → α) (dflt : α)
    (h : i < l.length) : (modifyAt l i f).getD i dflt = f (l.getD i dflt) := by
  induction l generalizing i with
  | nil => simp at h
  | cons a t ih =>
    cases i with
    | zero => simp [modifyAt]
    | succ i =>
      simp only [modifyAt, List.getD_cons_succ]
      exact ih i (by simpa using h)

theorem getD_modifyAt_of_le {α : Type} (l : List α) (i j : Nat) (f : α → α) (dflt : α)
    (h : l.length ≤ i) : (modifyAt l i f).getD j dflt = l.getD j dflt := by
  induction l generalizing i j with
  | nil => rfl
  | cons a t ih =>
    cases i with
    | zero => simp at h
    | succ i =>
      cases j with
      | zero => simp [modifyAt]
      | succ j =>
        simp only [modifyAt, List.getD_cons_succ]
        exact ih i j (by simpa using h)

/-! ## Frame lemmas -/

theorem sameCore_refl (c : Cell) : Cell.sameCore c c := ⟨rfl, rfl, rfl, rfl, rfl⟩

theorem keepChildren_refl (c : Cell) : Cell.keepChildren c c := ⟨rfl, rfl, rfl⟩

theorem sameCore_keep {c c' : Cell} (h : Cell.sameCore c c') : Cell.keepChildren c c' :=
  ⟨h.1, h.2.2.2.1, h.2.2.2.2⟩

theorem sameCore_trans {a b c : Cell} (h1 : Cell.sameCore a b) (h2 : Cell.sameCore b c) :
    Cell.sameCore a c :=
  ⟨h2.1.trans h1.1, h2.2.1.trans h1.2.1, h2.2.2.1.trans h1.2.2.1, h2.2.2.2.1.trans h1.2.2.2.1,
    h2.2.2.2.2.trans h1.2.2.2.2⟩

theorem keepChildren_trans {a b c : Cell} (h1 : Cell.keepChildren a b)
    (h2 : Cell.keepChildren b c) : Cell.keepChildren a c :=
  ⟨h2.1.trans h1.1, h2.2.1.trans h1.2.1, h2.2.2.trans h1.2.2⟩

theorem optRel_refl {α : Type} {r : α → α → Prop} (hr : ∀ a, r a a) (o : Option α) :
    optRel r o o := by
  cases o with
  | none => trivial
  | some a => exact hr a

theorem optRel_trans {α : Type} {r : α → α → Prop} (hr : ∀ a b c, r a b → r b c → r a c)
    {x y z : Option α} (h1 : optRel r x y) (h2 : optRel r y z) : optRel r x z := by
  cases x <;> cases y <;> cases z <;> simp only [optRel] at h1 h2 ⊢
  exact hr _ _ _ h1 h2

theorem optRel_mono {α : Type} {r r' : α → α → Prop} (hr : ∀ a b, r a b → r' a b)
    {x y : Option α} (h : optRel r x y) : optRel r' x y := by
  cases x <;> cases y <;> simp only [optRel] at h ⊢
  exact hr _ _ h

theorem cellsRel_refl (e : Option IndexType) (mt : MeshTopology) : CellsRel e mt mt :=
  fun _ => optRel_refl (fun c => ⟨keepChildren_refl c, fun _ => sameCore_refl c⟩) _

theorem cellsRel_of_eq (e : Option IndexType) {mt mt' : MeshTopology}
    (h : mt'._cells = mt._cells) : CellsRel e mt mt' := by
  intro k
  rw [h]
  exact optRel_refl (fun c => ⟨keepChildren_refl c, fun _ => sameCore_refl c⟩) _

theorem cellsRel_trans {e : Option IndexType} {a b c : MeshTopology}
    (h1 : CellsRel e a b) (h2 : CellsRel e b c) : CellsRel e a c :=
  fun k => optRel_trans
    (fun _ _ _ x y => ⟨keepChildren_trans x.1 y.1, fun hk => sameCore_trans (x.2 hk) (y.2 hk)⟩) (h1 k) (h2 k)

theorem cellsRel_mono {e : Option IndexType} {a b : MeshTopology} (h : CellsRel none a b) :
    CellsRel e a b :=
  fun k => optRel_mono (fun _ _ x => ⟨x.1, fun _ => x.2 (by simp)⟩) (h k)

theorem frame_refl (e : Option IndexType) (mt : MeshTopology) : Frame e mt mt :=
  ⟨rfl, rfl, rfl, rfl, rfl, cellsRel_refl e mt⟩

theorem frame_of_eq (e : Option IndexType) {mt mt' : MeshTopology}
    (h1 : mt'._validCells = mt._validCells) (h2 : mt'._activeCells = mt._activeCells)
    (h3 : mt'._nextCellIndex = mt._nextCellIndex)
    (h4 : mt'._activeCellCount = mt._activeCellCount) (h5 : mt'._spaceDim = mt._spaceDim)
    (h6 : mt'._cells = mt._cells) : Frame e mt mt' :=
  ⟨h1, h2, h3, h4, h5, cellsRel_of_eq e h6⟩

theorem frame_trans {e : Option IndexType} {a b c : MeshTopology}
    (h1 : Frame e a b) (h2 : Frame e b c) : Frame e a c :=
  ⟨h2.valid.trans h1.valid, h2.active.trans h1.active, h2.next.trans h1.next,
    h2.count.trans h1.count, h2.dim.trans h1.dim, cellsRel_trans h1.cells h2.cells⟩

theorem frame_mono {e : Option IndexType} {a b : MeshTopology} (h : Frame none a b) :
    Frame e a b :=
  ⟨h.valid, h.active, h.next, h.count, h.dim, cellsRel_mono h.cells⟩

/-- A loop whose every pass is related by a reflexive and transitive relation
relates its first state to its last. -/
theorem foldExcept_rel {σ α : Type} (R : σ → σ → Prop) (hrefl : ∀ s, R s s)
    (htrans : ∀ a b c, R a b → R b c → R a c) (f : σ → α → Except MeshError σ)
    (l : List α) (hf : ∀ s a s', a ∈ l → f s a = Except.ok s' → R s s') (s s' : σ)
    (h : foldExcept f s l = Except.ok s') : R s s' := by
  induction l generalizing s with
  | nil =>
    cases h
    exact hrefl _
  | cons a t ih =>
    unfold foldExcept at h
    cases hfa : f s a with
    | error err =>
      rw [hfa] at h
      cases h
    | ok s1 =>
      rw [hfa] at h
      exact htrans _ _ _ (hf s a s1 (List.mem_cons_self a t) hfa)
        (ih (fun s a s' ha => hf s a s' (List.mem_cons_of_mem _ ha)) s1 h)

theorem foldl_rel {σ α : Type} (R : σ → σ → Prop) (hrefl : ∀ s, R s s)
    (htrans : ∀ a b c, R a b → R b c → R a c) (f : σ → α → σ)
    (l : List α) (hf : ∀ s a, R s (f s a)) (s : σ) : R s (l.foldl f s) := by
  induction l generalizing s with
  | nil => exact hrefl s
  | cons a t ih => exact htrans _ _ _ (hf s a) (ih (f s a))

theorem foldExcept_frame {α : Type} (e : Option IndexType)
    (f : MeshTopology → α → Except MeshError MeshTopology) (l : List α)
    (hf : ∀ s a s', f s a = Except.ok s' → Frame e s s') (s s' : MeshTopology)
    (h : foldExcept f s l = Except.ok s') : Frame e s s' :=
  foldExcept_rel (Frame e) (frame_refl e) (fun _ _ _ => frame_trans) f l
    (fun s a s' _ => hf s a s') s s' h

theorem foldl_frame {α : Type} (e : Option IndexType) (f : MeshTopology → α → MeshTopology)
    (l : List α) (hf : ∀ s a, Frame e s (f s a)) (s : MeshTopology) :
    Frame e s (l.foldl f s) :=
  foldl_rel (Frame e) (frame_refl e) (fun _ _ _ => frame_trans) f l hf s

/-! ## Entity registry: lemmas -/

namespace MeshTopology

theorem getEntityIndex_of_no_periodic (mt : MeshTopology) (d : Nat) (ns : List IndexType)
    (hd : d ≠ 0) (hper : mt._periodicBCs = []) :
    getEntityIndex mt d ns = Except.ok (mapFind (mt._knownEntities.getD d []) ns) := by
  unfold getEntityIndex
  simp only [hd, if_false, hper, List.length_nil, gt_iff_lt, lt_self_iff_false]
  cases mapFind (mt._knownEntities.getD d []) ns <;> rfl

theorem mapFind_none_of_getEntityIndex_none (mt : MeshTopology) (d : Nat) (ns : List IndexType)
    (hd : d ≠ 0) (h : getEntityIndex mt d ns = Except.ok none) :
    mapFind (mt._knownEntities.getD d []) ns = none := by
  unfold getEntityIndex at h
  simp only [hd, if_false] at h
  cases hfind : mapFind (mt._knownEntities.getD d []) ns with
  | none => rfl
  | some i =>
    rw [hfind] at h
    simp only [pure, Except.pure] at h
    cases h

theorem getCanonical_of_known (mt : MeshTopology) (d : Nat) (vs : List IndexType)
    (h : (mapFind (mt._knownEntities.getD d []) (sortIndices vs)).isSome = true) :
    getCanonicalEntityNodesViaPeriodicBCs mt d vs = Except.ok vs := by
  unfold getCanonicalEntityNodesViaPeriodicBCs
  simp only [h, if_true]
  rfl

/-- An existing entity is returned without any change of state. -/
theorem addEntity_of_known (tools : CellTools) (mt : MeshTopology) (topo : CellTopology)
    (vs : List IndexType) (i : IndexType) (hd : topo.getDimension ≠ 0)
    (hper : mt._periodicBCs = []) (hnodup : vs.Nodup)
    (hk : mapFind (mt._knownEntities.getD topo.getDimension []) (setOfList vs) = some i) :
    ∃ p, addEntity tools mt topo vs = Except.ok (mt, i, p) := by
  have hlen := length_setOfList_of_nodup hnodup
  have hcan : getCanonicalEntityNodesViaPeriodicBCs mt topo.getDimension vs = Except.ok vs := by
    apply getCanonical_of_known
    rw [sortIndices_eq_setOfList hnodup, hk]
    rfl
  refine ⟨tools.permutationMatchingOrder topo
    ((mt._canonicalEntityOrdering.getD topo.getDimension []).getD i []) vs, ?_⟩
  unfold addEntity
  simp only [hlen, ne_eq, not_true_eq_false, if_false,
    getEntityIndex_of_no_periodic mt _ _ hd hper, hk, hcan, hd]
  rfl

/-- A successful `addEntity` either appended a new entity or found an existing one. -/
theorem addEntity_ok_cases (tools : CellTools) (mt mt' : MeshTopology) (topo : CellTopology)
    (vs : List IndexType) (i : IndexType) (p : Nat)
    (hadd : addEntity tools mt topo vs = Except.ok (mt', i, p)) :
    (setOfList vs).length = vs.length ∧
      ((getEntityIndex mt topo.getDimension (setOfList vs) = Except.ok none ∧
          mt' = addNewEntity mt topo vs (setOfList vs) ∧
          i = (mt._entities.getD topo.getDimension []).length) ∨
        (getEntityIndex mt topo.getDimension (setOfList vs) = Except.ok (some i) ∧ mt' = mt)) := by
  unfold addEntity at hadd
  by_cases hl : (setOfList vs).length ≠ vs.length
  · simp only [if_pos hl] at hadd
    cases hadd
  · simp only [if_neg hl, bind, Except.bind] at hadd
    refine ⟨not_not.1 hl, ?_⟩
    cases hget : getEntityIndex mt topo.getDimension (setOfList vs) with
    | error e =>
      rw [hget] at hadd
      cases hadd
    | ok found =>
      rw [hget] at hadd
      cases found with
      | none =>
        simp only [pure, Except.pure, Except.ok.injEq, Prod.mk.injEq] at hadd
        exact Or.inl ⟨rfl, hadd.1.symm, hadd.2.1.symm⟩
      | some j =>
        simp only at hadd
        cases hcan : getCanonicalEntityNodesViaPeriodicBCs mt topo.getDimension vs with
        | error e =>
          rw [hcan] at hadd
          cases hadd
        | ok c =>
          rw [hcan] at hadd
          simp only [pure, Except.pure, Except.ok.injEq, Prod.mk.injEq] at hadd
          obtain ⟨h1, h2, -⟩ := hadd
          subst h2
          exact Or.inr ⟨rfl, h1.symm⟩

theorem getD_replicate_nil {α : Type} (n d : Nat) :
    (List.replicate n ([] : List α)).getD d [] = [] := by
  induction n generalizing d with
  | zero => rfl
  | succ n ih =>
    cases d with
    | zero => rfl
    | succ d => simp [List.replicate_succ, ih d]

/-- The empty topology satisfies the registry invariant. -/
theorem registryInv_init (spaceDim : Nat) (bcs : List PeriodicBC) :
    RegistryInv (MeshTopology.init spaceDim bcs) := by
  refine ⟨by simp [MeshTopology.init], fun d _ => ⟨fun k i h => ?_, fun i k h => ?_⟩⟩
  · simp only [MeshTopology.init, getD_replicate_nil] at h
    cases h
  · simp only [MeshTopology.init, getD_replicate_nil] at h
    simp at h

/-! ### Constraint resolution: lemmas -/

theorem getLast?_cons_getD {α : Type} (a c : α) (l : List α) :
    (a :: l).getLast?.getD c = l.getLast?.getD a := by
  cases l with
  | nil => rfl
  | cons b t => simp [List.getLast?_cons_cons, List.getLast?_eq_getLast]

theorem getEntityParent_of_hasParent (mt : MeshTopology) (d : Nat) (x : IndexType)
    (h : entityHasParent mt d x = true) :
    ∃ p, getEntityParent mt d x 0 = Except.ok p ∧ firstParent? mt d x = some p := by
  unfold entityHasParent at h
  unfold getEntityParent firstParent? entityHasParent
  cases hfind : mapFind (mt._parentEntities.getD d []) x with
  | none =>
    rw [hfind] at h
    cases h
  | some parents =>
    rw [hfind] at h
    cases parents with
    | nil => simp at h
    | cons parent rest => exact ⟨parent.1, by simp [pure, Except.pure], rfl⟩

theorem firstParent?_of_not_hasParent (mt : MeshTopology) (d : Nat) (x : IndexType)
    (h : entityHasParent mt d x = false) : firstParent? mt d x = none := by
  unfold entityHasParent at h
  unfold firstParent?
  cases hfind : mapFind (mt._parentEntities.getD d []) x with
  | none => rfl
  | some parents =>
    rw [hfind] at h
    cases parents with
    | nil => rfl
    | cons parent rest => simp at h

theorem likeDimensionLoop_eq (mt : MeshTopology) (d fuel : Nat) (x c r : IndexType)
    (h : likeDimensionLoop mt d fuel x c = Except.ok r) :
    r = (((likeAncestors mt d fuel x).filter
      (fun a => decide (getActiveCellCount mt d a > 0))).getLast?).getD c := by
  induction fuel generalizing x c with
  | zero => cases h
  | succ fuel ih =>
    unfold likeDimensionLoop at h
    unfold likeAncestors
    cases hp : entityHasParent mt d x with
    | false =>
      rw [firstParent?_of_not_hasParent mt d x hp]
      simp only [hp] at h
      cases h
      rfl
    | true =>
      obtain ⟨p, hget, hfirst⟩ := getEntityParent_of_hasParent mt d x hp
      simp only [hp, if_true, hget, bind, Except.bind] at h
      rw [hfirst]
      have := ih p _ h
      rw [this]
      simp only [List.filter_cons]
      by_cases hact : getActiveCellCount mt d p > 0
      · simp only [hact, if_true, decide_True]
        rw [getLast?_cons_getD]
      · simp only [hact, if_false, decide_False]
        rfl

theorem topLikeDimensionAncestor_eq (mt : MeshTopology) (d fuel : Nat) (x r : IndexType)
    (h : topLikeDimensionAncestor mt d fuel x = Except.ok r) :
    r = (likeAncestors mt d fuel x).getLast?.getD x := by
  induction fuel generalizing x with
  | zero => cases h
  | succ fuel ih =>
    unfold topLikeDimensionAncestor at h
    unfold likeAncestors
    cases hp : entityHasParent mt d x with
    | false =>
      rw [firstParent?_of_not_hasParent mt d x hp]
      simp only [hp] at h
      cases h
      rfl
    | true =>
      obtain ⟨p, hget, hfirst⟩ := getEntityParent_of_hasParent mt d x hp
      simp only [hp, if_true, hget, bind, Except.bind] at h
      rw [hfirst, ih p h, getLast?_cons_getD]

theorem containingSides_of_sidesForConstraint (mt : MeshTopology) (d : Nat) (x : IndexType)
    (sides : List IndexType) (h : sidesForConstraint mt d x = Except.ok sides) :
    containingSides mt d x = sides := by
  unfold sidesForConstraint at h
  unfold containingSides
  by_cases hd : d = mt.sideDim
  · simp only [hd, if_true] at h ⊢
    cases h
    rfl
  · simp only [hd, if_false] at h ⊢
    cases hs : (mt._sidesForEntities.getD d [])[x]? with
    | none =>
      rw [hs] at h
      cases h
    | some l =>
      rw [hs] at h
      cases h
      rfl

theorem updateConstrainingEntity_eq (mt : MeshTopology) (n d : Nat) (x possible : IndexType)
    (c c' : IndexType × Nat)
    (hposs : possible = (((if d = 0 then [] else likeAncestors mt d n x).filter
      (fun a => decide (getActiveCellCount mt d a > 0))).getLast?).getD x)
    (h : updateConstrainingEntity mt possible d x c = Except.ok c') (l : List (IndexType × Nat)) :
    ((match levelCandidate mt n (d, x) with
      | some cand => cand :: l
      | none => l).getLast?).getD c = l.getLast?.getD c' := by
  unfold updateConstrainingEntity at h
  unfold levelCandidate
  simp only [← hposs]
  by_cases hne : possible ≠ x
  · simp only [hne, if_true, ne_eq, not_false_eq_true] at h ⊢
    cases h
    rw [getLast?_cons_getD]
  · simp only [hne, if_false] at h ⊢
    cases hsides : sidesForConstraint mt d x with
    | error err =>
      rw [hsides] at h
      cases h
    | ok sides =>
      rw [hsides] at h
      rw [containingSides_of_sidesForConstraint mt d x sides hsides]
      simp only at h
      by_cases hany : sides.any
          (fun side => decide (getActiveCellCount mt mt.sideDim side > 0)) = true
      · simp only [hany, if_true] at h ⊢
        cases h
        rw [getLast?_cons_getD, not_not.1 hne]
      · simp only [hany] at h ⊢
        cases h
        rfl

theorem constrainingEntityLoop_eq (mt : MeshTopology) (n fuel d : Nat) (x : IndexType)
    (c r : IndexType × Nat) (h : constrainingEntityLoop mt n fuel d x c = Except.ok r) :
    r = ((generalizedLevels mt n fuel d x).filterMap (levelCandidate mt n)).getLast?.getD c := by
  induction fuel generalizing d x c with
  | zero => cases h
  | succ fuel ih =>
    unfold constrainingEntityLoop at h
    unfold generalizedLevels
    by_cases hd : d ≤ mt.sideDim
    · simp only [hd, if_true] at h ⊢
      cases hlike : getConstrainingEntityIndexOfLikeDimension n mt d x with
      | error err =>
        rw [hlike] at h
        cases h
      | ok possible =>
        rw [hlike] at h
        simp only at h
        have hposs : possible = (((if d = 0 then [] else likeAncestors mt d n x).filter
            (fun a => decide (getActiveCellCount mt d a > 0))).getLast?).getD x := by
          unfold getConstrainingEntityIndexOfLikeDimension at hlike
          by_cases hd0 : d = 0
          · simp only [hd0, if_true] at hlike ⊢
            cases hlike
            rfl
          · simp only [hd0, if_false] at hlike ⊢
            exact likeDimensionLoop_eq mt d n x x possible hlike
        cases hcons : updateConstrainingEntity mt possible d x c with
        | error err =>
          rw [hcons] at h
          cases h
        | ok c' =>
          have hs := updateConstrainingEntity_eq mt n d x possible c c' hposs hcons
          rw [hcons] at h
          simp only at h
          cases htop : topLikeDimensionAncestor mt d n x with
          | error err =>
            rw [htop] at h
            cases h
          | ok top =>
            rw [htop] at h
            simp only at h
            rw [← topLikeDimensionAncestor_eq mt d n x top htop]
            simp only [List.filterMap_cons]
            cases hgen : mapFind (mt._generalizedParentEntities.getD d []) top with
            | none =>
              rw [hgen] at h
              cases h
              have := hs []
              cases hlc : levelCandidate mt n (d, x) with
              | none =>
                rw [hlc] at this
                simpa using this.symm
              | some cand =>
                rw [hlc] at this
                simpa using this.symm
            | some gp =>
              rw [hgen] at h
              simp only at h
              have hrec := ih gp.2 gp.1 c' h
              rw [hrec]
              have := hs ((generalizedLevels mt n fuel gp.2 gp.1).filterMap (levelCandidate mt n))
              rw [← this]
              cases levelCandidate mt n (d, x) <;> rfl
    · simp only [hd, if_false] at h ⊢
      cases h
      rfl

theorem levelCandidate_sound (mt : MeshTopology) (n : Nat) (level : Nat × IndexType)
    (r : IndexType × Nat) (h : levelCandidate mt n level = some r) :
    (∃ a ∈ likeAncestors mt level.1 n level.2,
        getActiveCellCount mt level.1 a > 0 ∧ r = (a, level.1)) ∨
      ((∃ side ∈ containingSides mt level.1 level.2,
        getActiveCellCount mt mt.sideDim side > 0) ∧ r = (level.2, level.1)) := by
  unfold levelCandidate at h
  simp only at h
  generalize hL : (if level.1 = 0 then [] else likeAncestors mt level.1 n level.2) = L at h
  have hsub : ∀ a ∈ L, a ∈ likeAncestors mt level.1 n level.2 := by
    intro a ha
    by_cases h0 : level.1 = 0
    · rw [if_pos h0] at hL
      rw [← hL] at ha
      cases ha
    · rw [if_neg h0] at hL
      rw [hL]
      exact ha
  by_cases hne : (L.filter (fun a => decide (getActiveCellCount mt level.1 a > 0))).getLast?.getD
      level.2 ≠ level.2
  · rw [if_pos hne] at h
    left
    cases hlast : (L.filter (fun a => decide (getActiveCellCount mt level.1 a > 0))).getLast? with
    | none =>
      rw [hlast] at hne
      exact absurd rfl hne
    | some a =>
      rw [hlast] at h
      have hmem := List.mem_of_getLast?_eq_some hlast
      rw [List.mem_filter] at hmem
      obtain ⟨hmem, hact⟩ := hmem
      exact ⟨a, hsub a hmem, of_decide_eq_true hact, (Option.some.inj h).symm⟩
  · rw [if_neg hne] at h
    by_cases hany : (containingSides mt level.1 level.2).any
        (fun side => decide (getActiveCellCount mt mt.sideDim side > 0)) = true
    · rw [if_pos hany] at h
      right
      rw [List.any_eq_true] at hany
      obtain ⟨side, hside, hact⟩ := hany
      exact ⟨⟨side, hside, of_decide_eq_true hact⟩, (Option.some.inj h).symm⟩
    · rw [if_neg hany] at h
      cases h

/-! ### Cell insertion and refinement: frame lemmas -/

theorem cellsRel_mapSet (e : Option IndexType) (mt mt' : MeshTopology) (k : IndexType)
    (c c' : Cell) (hfind : mapFind mt._cells k = some c)
    (hcells : mt'._cells = mapSet mt._cells k c')
    (hkeep : Cell.keepChildren c c') (hcore : some k ≠ e → Cell.sameCore c c') :
    CellsRel e mt mt' := by
  intro k'
  rw [hcells, mapFind_mapSet]
  by_cases hk : k = k'
  · subst hk
    rw [if_pos rfl, hfind]
    exact ⟨hkeep, hcore⟩
  · rw [if_neg hk]
    exact optRel_refl (fun c => ⟨keepChildren_refl c, fun _ => sameCore_refl c⟩) _

theorem mapFind_of_getCell (mt : MeshTopology) (k : IndexType) (c : Cell)
    (h : mt.getCell k = Except.ok c) : mapFind mt._cells k = some c := by
  unfold getCell at h
  cases hf : mapFind mt._cells k with
  | none =>
    rw [hf] at h
    cases h
  | some c' =>
    rw [hf] at h
    cases h
    rfl

theorem getCell_of_mapFind (mt : MeshTopology) (k : IndexType) (c : Cell)
    (h : mapFind mt._cells k = some c) : mt.getCell k = Except.ok c := by
  unfold getCell
  rw [h]
  rfl

theorem mapFind_of_derefCell (mt : MeshTopology) (k : IndexType) (c : Cell)
    (h : mt.derefCell (some k) = Except.ok c) : mapFind mt._cells k = some c := by
  unfold derefCell at h
  dsimp only at h
  cases hf : mapFind mt._cells k with
  | none =>
    rw [hf] at h
    cases h
  | some c' =>
    rw [hf] at h
    cases h
    rfl

theorem addNewEntity_frame (e : Option IndexType) (mt : MeshTopology) (topo : CellTopology)
    (vs sv : List IndexType) : Frame e mt (addNewEntity mt topo vs sv) :=
  frame_of_eq e rfl rfl rfl rfl rfl rfl

theorem addEntity_frame (e : Option IndexType) (tools : CellTools) (mt mt' : MeshTopology)
    (topo : CellTopology) (vs : List IndexType) (i : IndexType) (p : Nat)
    (h : addEntity tools mt topo vs = Except.ok (mt', i, p)) : Frame e mt mt' := by
  rcases (addEntity_ok_cases tools mt mt' topo vs i p h).2 with ⟨_, h1, _⟩ | ⟨_, h1⟩
  · rw [h1]
    exact addNewEntity_frame e mt topo vs _
  · rw [h1]
    exact frame_refl e mt

theorem pushActiveCell_frame (e : Option IndexType) (mt : MeshTopology) (d : Nat)
    (x : IndexType) (entry : IndexType × Nat) : Frame e mt (pushActiveCell mt d x entry) :=
  frame_of_eq e rfl rfl rfl rfl rfl rfl

theorem addCellEntity_frame (e : Option IndexType) (tools : CellTools) (cellIndex : IndexType)
    (cellTopo : CellTopology) (cellVertices : List IndexType) (d : Nat)
    (st st' : MeshTopology × List (List Nat)) (j : Nat)
    (h : addCellEntity tools cellIndex cellTopo cellVertices d st j = Except.ok st') :
    Frame e st.1 st'.1 := by
  unfold addCellEntity at h
  split at h
  · cases h
  · cases h
  · split at h
    · cases h
    · rename_i mt1 ei ep hadd
      have h1 := addEntity_frame e _ _ _ _ _ _ _ hadd
      simp only [pure, Except.pure, Except.ok.injEq] at h
      subst h
      refine frame_trans h1 (frame_trans (pushActiveCell_frame e mt1 d ei (cellIndex, j)) ?_)
      dsimp only
      split
      · exact foldl_frame e _ _ (fun s a => pushActiveCell_frame e s d a _) _
      · exact frame_refl e _

theorem addCellEntitiesOfDim_frame (e : Option IndexType) (tools : CellTools)
    (cellIndex : IndexType) (cellTopo : CellTopology) (cellVertices : List IndexType)
    (st st' : MeshTopology × List (List Nat)) (d : Nat)
    (h : addCellEntitiesOfDim tools cellIndex cellTopo cellVertices st d = Except.ok st') :
    Frame e st.1 st'.1 := by
  unfold addCellEntitiesOfDim at h
  exact foldExcept_rel (fun a b => Frame e a.1 b.1) (fun s => frame_refl e s.1)
    (fun _ _ _ => frame_trans) _ _
    (fun s a s' _ hs => addCellEntity_frame e tools cellIndex cellTopo cellVertices d s s' a hs)
    _ _ h

theorem entityIndex_sameCore (mt : MeshTopology) (cell cell' : Cell) (d ord : Nat)
    (found : Option IndexType)
    (h : Cell.entityIndex mt cell d ord = Except.ok (found, cell')) :
    Cell.sameCore cell cell' := by
  unfold Cell.entityIndex at h
  dsimp only at h
  split at h
  · cases h
    exact sameCore_refl _
  · split at h
    · cases h
    · split at h
      · cases h
      · cases h
        exact ⟨rfl, rfl, rfl, rfl, rfl⟩
      · split at h
        · cases h
        · split at h
          · cases h
          · cases h
            exact ⟨rfl, rfl, rfl, rfl, rfl⟩

theorem cellEntityIndex_frame (e : Option IndexType) (mt mt' : MeshTopology)
    (cellIndex : IndexType) (d ord : Nat) (found : Option IndexType)
    (h : cellEntityIndex mt cellIndex d ord = Except.ok (found, mt')) : Frame e mt mt' := by
  unfold cellEntityIndex at h
  split at h
  · cases h
  · rename_i cell hcell
    split at h
    · cases h
    · rename_i f cell' hidx
      cases h
      have hc := entityIndex_sameCore _ _ _ _ _ _ hidx
      exact ⟨rfl, rfl, rfl, rfl, rfl,
        cellsRel_mapSet e _ _ cellIndex cell cell' (mapFind_of_getCell _ _ _ hcell) rfl
          (sameCore_keep hc) (fun _ => hc)⟩

theorem addCellForSide_frame (e : Option IndexType) (mt mt' : MeshTopology)
    (cellIndex : IndexType) (sideOrdinal : Nat) (side : Option IndexType)
    (h : addCellForSide mt cellIndex sideOrdinal side = Except.ok mt') : Frame e mt mt' := by
  unfold addCellForSide at h
  split at h
  · cases h
  · split at h
    · cases h
      exact frame_of_eq e rfl rfl rfl rfl rfl rfl
    · split at h
      · cases h
      · cases h
      · split at h
        · cases h
        · split at h
          · cases h
            exact frame_of_eq e rfl rfl rfl rfl rfl rfl
          · split at h
            · cases h
              exact frame_of_eq e rfl rfl rfl rfl rfl rfl
            · cases h

theorem claimSide_frame (e : Option IndexType) (cellIndex : IndexType) (mt mt' : MeshTopology)
    (sideOrdinal : Nat) (h : claimSide cellIndex mt sideOrdinal = Except.ok mt') :
    Frame e mt mt' := by
  unfold claimSide cellSideEntityIndex at h
  split at h
  · cases h
  · rename_i side mt1 h1
    exact frame_trans (cellEntityIndex_frame e _ _ _ _ _ _ h1)
      (addCellForSide_frame e _ _ _ _ _ h)

theorem setNeighbor_frame (e : Option IndexType) (mt mt' : MeshTopology) (cellIndex : IndexType)
    (sideOrdinal : Nat) (n : IndexType) (ns : Nat) (allow : Bool)
    (h : setNeighbor mt cellIndex sideOrdinal n ns allow = Except.ok mt') : Frame e mt mt' := by
  unfold setNeighbor at h
  split at h
  · cases h
  · rename_i cell hcell
    split at h
    · cases h
    · split at h
      · cases h
      · cases h
        exact ⟨rfl, rfl, rfl, rfl, rfl,
          cellsRel_mapSet e _ _ cellIndex cell _ (mapFind_of_getCell _ _ _ hcell) rfl
            ⟨rfl, rfl, rfl⟩ (fun _ => ⟨rfl, rfl, rfl, rfl, rfl⟩)⟩

theorem setDescendantNeighbors_frame (e : Option IndexType) (fuel : Nat) (mt mt' : MeshTopology)
    (claimant other : IndexType × Nat)
    (h : setDescendantNeighbors fuel mt claimant other = Except.ok mt') : Frame e mt mt' := by
  unfold setDescendantNeighbors at h
  split at h
  · cases h
  · split at h
    · split at h
      · cases h
      · exact foldExcept_frame e _ _ (fun s a s' hs => setNeighbor_frame e _ _ _ _ _ _ _ hs) _ _ h
    · cases h
      exact frame_refl e _

theorem linkCompatibleNeighbors_frame (e : Option IndexType) (fuel : Nat) (mt mt' : MeshTopology)
    (side : IndexType) (h : linkCompatibleNeighbors fuel mt side = Except.ok mt') :
    Frame e mt mt' := by
  unfold linkCompatibleNeighbors at h
  split at h
  · dsimp only at h
    split at h
    · cases h
    · cases h
    · split at h
      · cases h
      · rename_i mt1 h1
        split at h
        · cases h
        · rename_i mt2 h2
          split at h
          · cases h
          · rename_i mt3 h3
            have f3 : Frame e mt2 mt3 := by
              split at h3
              · split at h3
                · split at h3
                  · cases h3
                  · cases h3
                    exact frame_of_eq e rfl rfl rfl rfl rfl rfl
                · cases h3
                  exact frame_of_eq e rfl rfl rfl rfl rfl rfl
              · cases h3
                exact frame_refl e _
            split at h
            · cases h
            · rename_i mt4 h4
              exact frame_trans (setNeighbor_frame e _ _ _ _ _ _ _ h1)
                (frame_trans (setNeighbor_frame e _ _ _ _ _ _ _ h2)
                  (frame_trans f3
                    (frame_trans (setDescendantNeighbors_frame e _ _ _ _ _ h4)
                      (setDescendantNeighbors_frame e _ _ _ _ _ h))))
  · cases h

theorem linkSingleClaimant_frame (e : Option IndexType) (fuel : Nat) (mt mt' : MeshTopology)
    (cellIndex : IndexType) (parent : Option IndexType) (sideOrdinal : Nat) (side : IndexType)
    (h : linkSingleClaimant fuel mt cellIndex parent sideOrdinal side = Except.ok mt') :
    Frame e mt mt' := by
  unfold linkSingleClaimant at h
  split at h
  · cases h
    exact frame_of_eq e rfl rfl rfl rfl rfl rfl
  · split at h
    · cases h
    · split at h
      · cases h
        exact frame_refl e _
      · split at h
        · cases h
        · exact setNeighbor_frame e _ _ _ _ _ _ _ h
        · cases h

theorem addSideForEntity_frame (e : Option IndexType) (mt : MeshTopology) (d : Nat)
    (x side : IndexType) : Frame e mt (addSideForEntity mt d x side) :=
  frame_of_eq e rfl rfl rfl rfl rfl rfl

theorem addSideForSubEntity_frame (e : Option IndexType) (d : Nat) (side : IndexType)
    (mt : MeshTopology) (x : IndexType) : Frame e mt (addSideForSubEntity d side mt x) := by
  unfold addSideForSubEntity
  split
  · exact frame_trans (addSideForEntity_frame e _ _ _ _)
      (foldl_frame e _ _ (fun s3 y => addSideForEntity_frame e _ _ _ _) _)
  · exact addSideForEntity_frame e _ _ _ _

theorem addSidesForSubEntitiesOfDim_frame (e : Option IndexType) (tools : CellTools)
    (side : IndexType) (mt mt' : MeshTopology) (d : Nat)
    (h : addSidesForSubEntitiesOfDim tools side mt d = Except.ok mt') : Frame e mt mt' := by
  unfold addSidesForSubEntitiesOfDim at h
  split at h
  · cases h
  · cases h
    exact foldl_frame e _ _ (fun s x => addSideForSubEntity_frame e d side s x) _

theorem addSidesForSubEntities_frame (e : Option IndexType) (tools : CellTools)
    (mt mt' : MeshTopology) (side : IndexType)
    (h : addSidesForSubEntities tools mt side = Except.ok mt') : Frame e mt mt' := by
  unfold addSidesForSubEntities at h
  split at h
  · cases h
  · rename_i mt1 h1
    cases h
    exact frame_trans
      (foldExcept_frame e _ _ (fun s d s' hs => addSidesForSubEntitiesOfDim_frame e tools side s s' d hs)
        _ _ h1)
      (addSideForEntity_frame e _ _ _ _)

theorem linkSide_frame (e : Option IndexType) (tools : CellTools) (fuel : Nat)
    (cellIndex : IndexType) (parent : Option IndexType) (mt mt' : MeshTopology)
    (sideOrdinal : Nat)
    (h : linkSide tools fuel cellIndex parent mt sideOrdinal = Except.ok mt') :
    Frame e mt mt' := by
  unfold linkSide cellSideEntityIndex at h
  split at h
  · cases h
  · cases h
  · rename_i side mt1 h1
    dsimp only at h
    split at h
    · cases h
    · rename_i mt2 h2
      have f2 : Frame e mt1 mt2 := by
        split at h2
        · exact linkCompatibleNeighbors_frame e _ _ _ _ h2
        · split at h2
          · exact linkSingleClaimant_frame e _ _ _ _ _ _ _ h2
          · cases h2
            exact frame_refl e _
      exact frame_trans (cellEntityIndex_frame e _ _ _ _ _ _ h1)
        (frame_trans f2 (addSidesForSubEntities_frame e _ _ _ _ h))

theorem recordPeriodicMatch_frame (e : Option IndexType) (vertex : Point) (vertexIndex : IndexType)
    (st : MeshTopology × Bool) (bc : Nat × PeriodicBC × Nat) :
    Frame e st.1 (recordPeriodicMatch vertex vertexIndex st bc).1 := by
  unfold recordPeriodicMatch
  dsimp only
  split
  · exact frame_refl e _
  · exact frame_of_eq e rfl rfl rfl rfl rfl rfl

theorem getVertexIndexAdding_frame (e : Option IndexType) (mt : MeshTopology) (vertex : Point) :
    Frame e mt (getVertexIndexAdding mt vertex).1 := by
  unfold getVertexIndexAdding
  split
  · exact frame_refl e _
  · dsimp only
    have hloop : ∀ (l : List (Nat × PeriodicBC × Nat)) (s : MeshTopology) (b : Bool),
        Frame e s (l.foldl (recordPeriodicMatch vertex mt._vertices.length) (s, b)).1 :=
      fun l s b => foldl_rel (fun (x y : MeshTopology × Bool) => Frame e x.1 y.1)
        (fun s => frame_refl e s.1) (fun _ _ _ => frame_trans) _ l
        (fun s a => recordPeriodicMatch_frame e vertex _ s a) (s, b)
    split
    · refine frame_trans ?_ (hloop _ _ _)
      exact frame_of_eq e rfl rfl rfl rfl rfl rfl
    · refine frame_trans (frame_trans ?_ (hloop _ _ _)) (frame_of_eq e rfl rfl rfl rfl rfl rfl)
      exact frame_of_eq e rfl rfl rfl rfl rfl rfl

theorem getVertexIndices_frame (e : Option IndexType) (mt : MeshTopology) (vertices : List Point) :
    Frame e mt (getVertexIndices mt vertices).1 := by
  unfold getVertexIndices
  exact foldl_rel (fun (a b : MeshTopology × List IndexType) => Frame e a.1 b.1)
    (fun s => frame_refl e s.1) (fun _ _ _ => frame_trans) _ vertices
    (fun s a => getVertexIndexAdding_frame e s.1 a) (mt, [])

theorem addChildEntity_frame (e : Option IndexType) (tools : CellTools) (d : Nat)
    (parentIndex : IndexType) (childTopo : CellTopology)
    (st st' : MeshTopology × List (Option IndexType)) (physicalNodes : List Point)
    (h : addChildEntity tools d parentIndex childTopo st physicalNodes = Except.ok st') :
    Frame e st.1 st'.1 := by
  unfold addChildEntity at h
  dsimp only at h
  split at h
  · cases h
  · rename_i mt1 child p hadd
    have h1 := addEntity_frame e _ _ _ _ _ _ _ hadd
    simp only [pure, Except.pure, Except.ok.injEq] at h
    subst h
    refine frame_trans (getVertexIndices_frame e st.1 physicalNodes) (frame_trans h1 ?_)
    dsimp only
    split
    · exact frame_of_eq e rfl rfl rfl rfl rfl rfl
    · exact frame_refl e _

theorem refineCellEntity_frame (e : Option IndexType) (tools : CellTools) (cellIndex : IndexType)
    (cellTopo : CellTopology) (nodesOfCell : List Point) (refPattern : RefinementPattern)
    (d : Nat) (mt mt' : MeshTopology) (subcord : Nat)
    (h : refineCellEntity tools cellIndex cellTopo nodesOfCell refPattern d mt subcord
      = Except.ok mt') : Frame e mt mt' := by
  unfold refineCellEntity at h
  split at h
  · cases h
  · dsimp only at h
    split at h
    · cases h
      exact frame_refl e _
    · split at h
      · cases h
      · cases h
      · rename_i parentIndex mt1 h1
        have f1 := cellEntityIndex_frame e _ _ _ _ _ _ h1
        split at h
        · cases h
        · cases h
          exact f1
        · split at h
          · cases h
          · split at h
            · cases h
            · split at h
              · cases h
              · rename_i mt2 childEntityIndices h2
                have f2 : Frame e mt1 mt2 :=
                  foldExcept_rel (fun (a b : MeshTopology × List (Option IndexType)) =>
                      Frame e a.1 b.1)
                    (fun s => frame_refl e s.1) (fun _ _ _ => frame_trans) _ _
                    (fun s a s' _ hs => addChildEntity_frame e tools d parentIndex _ s s' a hs)
                    _ _ h2
                split at h
                · cases h
                  exact frame_trans f1 (frame_trans f2 (frame_of_eq e rfl rfl rfl rfl rfl rfl))
                · cases h
                  exact frame_trans f1 (frame_trans f2 (frame_of_eq e rfl rfl rfl rfl rfl rfl))

theorem refineCellEntitiesOfDim_frame (e : Option IndexType) (tools : CellTools)
    (cellIndex : IndexType) (cellTopo : CellTopology) (nodesOfCell : List Point)
    (refPattern : RefinementPattern) (mt mt' : MeshTopology) (d : Nat)
    (h : refineCellEntitiesOfDim tools cellIndex cellTopo nodesOfCell refPattern mt d
      = Except.ok mt') : Frame e mt mt' := by
  unfold refineCellEntitiesOfDim at h
  exact foldExcept_frame e _ _
    (fun s a s' hs => refineCellEntity_frame e tools cellIndex cellTopo nodesOfCell refPattern d
      s s' a hs) _ _ h

theorem refineCellEntities_frame (e : Option IndexType) (tools : CellTools)
    (mt mt' : MeshTopology) (cellIndex : IndexType) (refPattern : RefinementPattern)
    (h : refineCellEntities tools mt cellIndex refPattern = Except.ok mt') : Frame e mt mt' := by
  unfold refineCellEntities at h
  split at h
  · cases h
  · split at h
    · cases h
    · exact foldExcept_frame e _ _
        (fun s a s' hs => refineCellEntitiesOfDim_frame e tools cellIndex _ _ refPattern s s' a hs)
        _ _ h

theorem setEntityGeneralizedParent_frame (e : Option IndexType) (mt mt' : MeshTopology)
    (entityDim : Nat) (entityIndex : IndexType) (parentDim : Nat) (parentEntityIndex : IndexType)
    (h : setEntityGeneralizedParent mt entityDim entityIndex parentDim parentEntityIndex
      = Except.ok mt') : Frame e mt mt' := by
  unfold setEntityGeneralizedParent at h
  split at h
  · cases h
  · dsimp only at h
    split at h
    · cases h
      refine frame_trans ?_ (foldl_frame e _ _ ?_ _)
      · exact frame_of_eq e rfl rfl rfl rfl rfl rfl
      · intro s a
        exact frame_of_eq e rfl rfl rfl rfl rfl rfl
    · cases h
      exact frame_of_eq e rfl rfl rfl rfl rfl rfl

theorem setSubEntityGeneralizedParent_frame (e : Option IndexType) (tools : CellTools) (d : Nat)
    (parentIndex : IndexType) (parentVertexIndices : List IndexType) (child : IndexType)
    (subcdim : Nat) (mt mt' : MeshTopology) (subcord : Nat)
    (h : setSubEntityGeneralizedParent tools d parentIndex parentVertexIndices child subcdim mt
      subcord = Except.ok mt') : Frame e mt mt' := by
  unfold setSubEntityGeneralizedParent at h
  split at h
  · cases h
  · split at h
    · cases h
      exact frame_refl e _
    · split at h
      · split at h
        · cases h
          exact frame_refl e _
        · exact setEntityGeneralizedParent_frame e _ _ _ _ _ _ h
      · exact setEntityGeneralizedParent_frame e _ _ _ _ _ _ h

theorem setSubEntityGeneralizedParentsOfDim_frame (e : Option IndexType) (tools : CellTools)
    (d : Nat) (parentIndex : IndexType) (parentVertexIndices : List IndexType)
    (child : IndexType) (mt mt' : MeshTopology) (subcdim : Nat)
    (h : setSubEntityGeneralizedParentsOfDim tools d parentIndex parentVertexIndices child mt
      subcdim = Except.ok mt') : Frame e mt mt' := by
  unfold setSubEntityGeneralizedParentsOfDim at h
  split at h
  · cases h
  · exact foldExcept_frame e _ _
      (fun s a s' hs => setSubEntityGeneralizedParent_frame e tools d parentIndex
        parentVertexIndices child subcdim s s' a hs) _ _ h

theorem setChildGeneralizedParents_frame (e : Option IndexType) (tools : CellTools) (d : Nat)
    (parentIndex : IndexType) (parentVertexIndices : List IndexType) (mt mt' : MeshTopology)
    (childEntityIndex : Option IndexType)
    (h : setChildGeneralizedParents tools d parentIndex parentVertexIndices mt childEntityIndex
      = Except.ok mt') : Frame e mt mt' := by
  unfold setChildGeneralizedParents at h
  split at h
  · cases h
  · rename_i child
    split at h
    · cases h
      exact frame_refl e _
    · split at h
      · cases h
      · rename_i mt1 h1
        exact frame_trans (setEntityGeneralizedParent_frame e _ _ _ _ _ _ h1)
          (foldExcept_frame e _ _
            (fun s a s' hs => setSubEntityGeneralizedParentsOfDim_frame e tools d parentIndex
              parentVertexIndices child s s' a hs) _ _ h)

theorem determineGeneralizedParentsForSubcell_frame (e : Option IndexType) (tools : CellTools)
    (cellIndex : IndexType) (refPattern : RefinementPattern) (d : Nat) (mt mt' : MeshTopology)
    (subcord : Nat)
    (h : determineGeneralizedParentsForSubcell tools cellIndex refPattern d mt subcord
      = Except.ok mt') : Frame e mt mt' := by
  unfold determineGeneralizedParentsForSubcell at h
  split at h
  · cases h
  · split at h
    · cases h
      exact frame_refl e _
    · split at h
      · cases h
      · cases h
      · rename_i parentIndex mt1 h1
        split at h
        · cases h
        · rename_i parentVertexIndices _
          exact frame_trans (cellEntityIndex_frame e _ _ _ _ _ _ h1)
            (foldExcept_frame e _ _
              (fun s a s' hs => setChildGeneralizedParents_frame e tools d parentIndex
                parentVertexIndices s s' a hs) _ _ h)

theorem determineGeneralizedParentsOfDim_frame (e : Option IndexType) (tools : CellTools)
    (cellIndex : IndexType) (cellTopo : CellTopology) (refPattern : RefinementPattern)
    (mt mt' : MeshTopology) (d : Nat)
    (h : determineGeneralizedParentsOfDim tools cellIndex cellTopo refPattern mt d
      = Except.ok mt') : Frame e mt mt' := by
  unfold determineGeneralizedParentsOfDim at h
  exact foldExcept_frame e _ _
    (fun s a s' hs => determineGeneralizedParentsForSubcell_frame e tools cellIndex refPattern d
      s s' a hs) _ _ h

theorem determineGeneralizedParentsForRefinement_frame (e : Option IndexType)
    (tools : CellTools) (mt mt' : MeshTopology) (cellIndex : IndexType)
    (refPattern : RefinementPattern)
    (h : determineGeneralizedParentsForRefinement tools mt cellIndex refPattern = Except.ok mt') :
    Frame e mt mt' := by
  unfold determineGeneralizedParentsForRefinement at h
  split at h
  · cases h
  · split at h
    · cases h
    · exact foldExcept_frame e _ _
        (fun s a s' hs => determineGeneralizedParentsOfDim_frame e tools cellIndex _ refPattern
          s s' a hs) _ _ h

theorem eraseActiveCellEntries_frame (e : Option IndexType) (mt : MeshTopology) (d : Nat)
    (x : IndexType) (entry : IndexType × Nat) (stop : Nat) :
    Frame e mt (eraseActiveCellEntries mt d x entry stop) := by
  unfold eraseActiveCellEntries
  split
  · exact frame_refl e _
  · exact frame_of_eq e rfl rfl rfl rfl rfl rfl

theorem deactivateCellEntity_frame (e : Option IndexType) (cell : Cell) (d : Nat)
    (mt mt' : MeshTopology) (j : Nat)
    (h : deactivateCellEntity cell d mt j = Except.ok mt') : Frame e mt mt' := by
  unfold deactivateCellEntity at h
  split at h
  · cases h
  · split at h
    · cases h
    · cases h
    · dsimp only at h
      split at h
      · cases h
        refine frame_trans ?_
          (foldl_frame e _ _ (fun s a => eraseActiveCellEntries_frame e s _ a _ _) _)
        exact eraseActiveCellEntries_frame e _ _ _ _ _
      · cases h
        exact eraseActiveCellEntries_frame e _ _ _ _ _

theorem deactivateCellEntitiesOfDim_frame (e : Option IndexType) (cell : Cell)
    (mt mt' : MeshTopology) (d : Nat)
    (h : deactivateCellEntitiesOfDim cell mt d = Except.ok mt') : Frame e mt mt' := by
  unfold deactivateCellEntitiesOfDim at h
  exact foldExcept_frame e _ _
    (fun s a s' hs => deactivateCellEntity_frame e cell d s s' a hs) _ _ h

theorem setParent_frame (mt mt' : MeshTopology) (cellIndex : IndexType)
    (parent : Option IndexType) (h : setParent mt cellIndex parent = Except.ok mt') :
    Frame (some cellIndex) mt mt' := by
  unfold setParent at h
  split at h
  · cases h
  · rename_i cell hcell
    split at h
    · cases h
      exact ⟨rfl, rfl, rfl, rfl, rfl,
        cellsRel_mapSet _ _ _ cellIndex cell _ (mapFind_of_getCell _ _ _ hcell) rfl
          ⟨rfl, rfl, rfl⟩ (fun hne => absurd rfl hne)⟩
    · split at h
      · cases h
      · cases h
        exact ⟨rfl, rfl, rfl, rfl, rfl,
          cellsRel_mapSet _ _ _ cellIndex cell _ (mapFind_of_getCell _ _ _ hcell) rfl
            ⟨rfl, rfl, rfl⟩ (fun hne => absurd rfl hne)⟩

theorem countNewCell_spec (mt mt1 : MeshTopology) (cellIndex : IndexType)
    (h : countNewCell mt cellIndex = Except.ok mt1) :
    mapFind mt._cells cellIndex = none ∧ mt1._cells = mt._cells ∧
      mt1._validCells = mt._validCells ∧ mt1._activeCells = mt._activeCells ∧
      mt1._spaceDim = mt._spaceDim ∧
      (cellIndex < mt._nextCellIndex →
        mt1._nextCellIndex = mt._nextCellIndex ∧ mt1._activeCellCount = mt._activeCellCount) := by
  unfold countNewCell at h
  split at h
  · cases h
  · rename_i hnone
    have hn : mapFind mt._cells cellIndex = none := by
      cases hf : mapFind mt._cells cellIndex with
      | none => rfl
      | some c =>
        rw [hf] at hnone
        exact absurd rfl hnone
    split at h
    · cases h
      exact ⟨hn, rfl, rfl, rfl, rfl, fun _ => ⟨rfl, rfl⟩⟩
    · rename_i hlt
      split at h
      · cases h
        exact ⟨hn, rfl, rfl, rfl, rfl, fun hlt' => absurd hlt' hlt⟩
      · cases h

/-- What a successful `addCell` does to the cell sets, the counters and the
cell table. -/
theorem addCell_spec (tools : CellTools) (fuel : Nat) (mt mt' : MeshTopology)
    (cellIndex : IndexType) (cellTopo : CellTopology) (cellVertices : List IndexType)
    (parent : Option IndexType)
    (h : addCell tools fuel mt cellIndex cellTopo cellVertices parent = Except.ok mt') :
    mt'._validCells = setInsert cellIndex mt._validCells ∧
      mt'._activeCells = setInsert cellIndex mt._activeCells ∧
      mt'._spaceDim = mt._spaceDim ∧
      (cellIndex < mt._nextCellIndex →
        mt'._nextCellIndex = mt._nextCellIndex ∧ mt'._activeCellCount = mt._activeCellCount) ∧
      (∀ k : IndexType, k ≠ cellIndex →
        optRel Cell.sameCore (mapFind mt._cells k) (mapFind mt'._cells k)) ∧
      (∃ c', mapFind mt'._cells cellIndex = some c' ∧ c'._children = [] ∧
        c'._childIndices = [] ∧ c'._cellIndex = cellIndex) := by
  unfold addCell at h
  split at h
  · cases h
  · rename_i mt1 h1
    obtain ⟨_, hc1, hv1, ha1, hd1, hn1⟩ := countNewCell_spec _ _ _ h1
    split at h
    · cases h
    · rename_i mt2 perms h2
      have f2 : Frame none mt1 mt2 :=
        foldExcept_rel (fun (a b : MeshTopology × List (List Nat)) => Frame none a.1 b.1)
          (fun s => frame_refl none s.1) (fun _ _ _ => frame_trans) _ _
          (fun s a s' _ hs => addCellEntitiesOfDim_frame none tools cellIndex cellTopo
            cellVertices s s' a hs) _ _ h2
      dsimp only at h
      split at h
      · cases h
      · rename_i mt4 h4
        have f4 : Frame (some cellIndex)
            (insertCell mt2 cellIndex cellTopo cellVertices perms) mt4 := by
          split at h4
          · cases h4
            exact frame_refl _ _
          · split at h4
            · cases h4
            · exact setParent_frame _ _ _ _ h4
        split at h
        · cases h
        · rename_i mt5 h5
          have f5 : Frame (some cellIndex) mt4 mt5 :=
            foldExcept_frame _ _ _ (fun s a s' hs => claimSide_frame _ cellIndex s s' a hs) _ _ h5
          have f6 : Frame (some cellIndex) mt5 mt' :=
            foldExcept_frame _ _ _
              (fun s a s' hs => linkSide_frame _ tools fuel cellIndex parent s s' a hs) _ _ h
          have F := frame_trans f4 (frame_trans f5 f6)
          refine ⟨?_, ?_, ?_, ?_, ?_, ?_⟩
          · rw [F.valid]
            show setInsert cellIndex mt2._validCells = _
            rw [f2.valid, hv1]
          · rw [F.active]
            show setInsert cellIndex mt2._activeCells = _
            rw [f2.active, ha1]
          · rw [F.dim]
            show mt2._spaceDim = _
            rw [f2.dim, hd1]
          · intro hlt
            obtain ⟨hn, hcnt⟩ := hn1 hlt
            constructor
            · rw [F.next]
              show mt2._nextCellIndex = _
              rw [f2.next, hn]
            · rw [F.count]
              show mt2._activeCellCount = _
              rw [f2.count, hcnt]
          · intro k hk
            have hF := F.cells k
            have h3 : mapFind (insertCell mt2 cellIndex cellTopo cellVertices perms)._cells k
                = mapFind mt2._cells k := by
              show mapFind (mapSet mt2._cells cellIndex _) k = _
              rw [mapFind_mapSet, if_neg (Ne.symm hk)]
            rw [h3] at hF
            have h12 := f2.cells k
            rw [hc1] at h12
            have hA : optRel Cell.sameCore (mapFind mt._cells k) (mapFind mt2._cells k) :=
              optRel_mono (fun _ _ x => x.2 (by simp)) h12
            have hB : optRel Cell.sameCore (mapFind mt2._cells k) (mapFind mt'._cells k) :=
              optRel_mono (fun _ _ x => x.2 (fun hcon => hk (Option.some.inj hcon))) hF
            exact optRel_trans (r := Cell.sameCore) (fun _ _ _ => sameCore_trans) hA hB
          · have hF := F.cells cellIndex
            have h3 : mapFind (insertCell mt2 cellIndex cellTopo cellVertices perms)._cells
                cellIndex = some (newCell cellTopo cellVertices perms cellIndex) := by
              show mapFind (mapSet mt2._cells cellIndex _) cellIndex = _
              rw [mapFind_mapSet, if_pos rfl]
            rw [h3] at hF
            cases hfin : mapFind mt'._cells cellIndex with
            | none =>
              rw [hfin] at hF
              exact absurd hF (by simp [optRel])
            | some c' =>
              rw [hfin] at hF
              obtain ⟨⟨hi, hch, hci⟩, _⟩ := hF
              exact ⟨c', rfl, hch, hci, hi⟩

theorem mem_setErase (x z : Nat) (l : List Nat) : z ∈ setErase x l ↔ z ∈ l ∧ z ≠ x := by
  unfold setErase
  simp [List.mem_filter]

theorem addChild_spec (tools : CellTools) (fuel : Nat) (p : IndexType) (s s' : MeshTopology)
    (child : IndexType × CellTopology × List IndexType)
    (h : addChild tools fuel p s child = Except.ok s') :
    (child.1 ∈ s._validCells → s' = s) ∧
    (child.1 ∉ s._validCells →
      s'._validCells = setInsert child.1 s._validCells ∧
      s'._activeCells = setInsert child.1 s._activeCells ∧
      s'._spaceDim = s._spaceDim ∧
      (child.1 < s._nextCellIndex →
        s'._nextCellIndex = s._nextCellIndex ∧ s'._activeCellCount = s._activeCellCount) ∧
      (∀ k : IndexType, k ≠ child.1 →
        optRel Cell.sameCore (mapFind s._cells k) (mapFind s'._cells k)) ∧
      (∃ c', mapFind s'._cells child.1 = some c' ∧ c'._children = [] ∧
        c'._childIndices = [])) := by
  unfold addChild at h
  by_cases hv : child.1 ∈ s._validCells
  · have hb : s.isValidCellIndex (some child.1) = true := by
      simp [isValidCellIndex, hv]
    simp only [hb, Bool.not_true, Bool.false_eq_true, if_false] at h
    cases h
    exact ⟨fun _ => rfl, fun hn => absurd hv hn⟩
  · have hb : s.isValidCellIndex (some child.1) = false := by
      simp [isValidCellIndex, hv]
    simp only [hb, Bool.not_false, if_true] at h
    split at h
    · cases h
    · rename_i mt1 h1
      cases h
      obtain ⟨a, b, c, d, e, c', f1, f2, f3, _⟩ := addCell_spec _ _ _ _ _ _ _ _ h1
      exact ⟨fun hv' => absurd hv' hv, fun _ => ⟨a, b, c, d, e, c', f1, f2, f3⟩⟩

/-- What the loop of `addChildren` does: the children that were not valid are
added to the valid and active sets with fresh records without children; every
other cell keeps its core. -/
theorem addChildren_loop (tools : CellTools) (fuel : Nat) (p : IndexType)
    (es : List (IndexType × CellTopology × List IndexType)) (s s' : MeshTopology)
    (h : foldExcept (addChild tools fuel p) s es = Except.ok s') :
    (∀ x : IndexType, x ∈ s'._validCells ↔ x ∈ s._validCells ∨ x ∈ es.map (fun e => e.1)) ∧
    (∀ x : IndexType, x ∈ s'._activeCells ↔
      x ∈ s._activeCells ∨ (x ∈ es.map (fun e => e.1) ∧ x ∉ s._validCells)) ∧
    s'._spaceDim = s._spaceDim ∧
    ((∀ x ∈ es.map (fun e => e.1), x < s._nextCellIndex) →
      s'._nextCellIndex = s._nextCellIndex ∧ s'._activeCellCount = s._activeCellCount) ∧
    (∀ k : IndexType, (k ∉ es.map (fun e => e.1) ∨ k ∈ s._validCells) →
      optRel Cell.sameCore (mapFind s._cells k) (mapFind s'._cells k)) ∧
    (∀ k : IndexType, k ∈ es.map (fun e => e.1) → k ∉ s._validCells →
      ∃ c', mapFind s'._cells k = some c' ∧ c'._children = [] ∧ c'._childIndices = []) := by
  induction es generalizing s with
  | nil =>
    cases h
    refine ⟨fun x => by simp, fun x => by simp, rfl, fun _ => ⟨rfl, rfl⟩, fun k _ => ?_,
      fun k hk => absurd hk (by simp)⟩
    exact optRel_refl sameCore_refl _
  | cons e t ih =>
    unfold foldExcept at h
    cases h1 : addChild tools fuel p s e with
    | error err =>
      rw [h1] at h
      cases h
    | ok s1 =>
      rw [h1] at h
      obtain ⟨iv, ia, idim, icnt, icore, ifresh⟩ := ih s1 h
      obtain ⟨hold, hnew⟩ := addChild_spec _ _ _ _ _ _ h1
      by_cases hv : e.1 ∈ s._validCells
      · have hs1 : s1 = s := hold hv
        subst hs1
        refine ⟨?_, ?_, idim, ?_, ?_, ?_⟩
        · intro x
          rw [iv x]
          simp only [List.map_cons, List.mem_cons]
          constructor
          · rintro (hx | hx)
            · exact Or.inl hx
            · exact Or.inr (Or.inr hx)
          · rintro (hx | hx | hx)
            · exact Or.inl hx
            · exact Or.inl (hx ▸ hv)
            · exact Or.inr hx
        · intro x
          rw [ia x]
          simp only [List.map_cons, List.mem_cons]
          constructor
          · rintro (hx | ⟨hx, hnv⟩)
            · exact Or.inl hx
            · exact Or.inr ⟨Or.inr hx, hnv⟩
          · rintro (hx | ⟨hx | hx, hnv⟩)
            · exact Or.inl hx
            · exact absurd (hx ▸ hv) hnv
            · exact Or.inr ⟨hx, hnv⟩
        · intro hlt
          exact icnt (fun x hx => hlt x (by
            simp only [List.map_cons, List.mem_cons]
            exact Or.inr hx))
        · intro k hk
          apply icore k
          rcases hk with hk | hk
          · left
            intro hkt
            apply hk
            simp only [List.map_cons, List.mem_cons]
            exact Or.inr hkt
          · exact Or.inr hk
        · intro k hk hnv
          simp only [List.map_cons, List.mem_cons] at hk
          rcases hk with hk | hk
          · exact absurd (hk ▸ hv) hnv
          · exact ifresh k hk hnv
      · obtain ⟨nv, na, ndim, ncnt, ncore, nfresh⟩ := hnew hv
        have hmem1 : ∀ x : IndexType, x ∈ s1._validCells ↔ x = e.1 ∨ x ∈ s._validCells := by
          intro x
          rw [nv]
          exact mem_setInsert _ _ _
        refine ⟨?_, ?_, idim.trans ndim, ?_, ?_, ?_⟩
        · intro x
          rw [iv x, hmem1 x]
          simp only [List.map_cons, List.mem_cons]
          constructor
          · rintro ((hx | hx) | hx)
            · exact Or.inr (Or.inl hx)
            · exact Or.inl hx
            · exact Or.inr (Or.inr hx)
          · rintro (hx | hx | hx)
            · exact Or.inl (Or.inr hx)
            · exact Or.inl (Or.inl hx)
            · exact Or.inr hx
        · intro x
          rw [ia x, hmem1 x, na, mem_setInsert]
          simp only [List.map_cons, List.mem_cons]
          constructor
          · rintro ((hx | hx) | ⟨hx, hnv⟩)
            · exact Or.inr ⟨Or.inl hx, hx ▸ hv⟩
            · exact Or.inl hx
            · exact Or.inr ⟨Or.inr hx, fun hc => hnv (Or.inr hc)⟩
          · rintro (hx | ⟨hx | hx, hnv⟩)
            · exact Or.inl (Or.inr hx)
            · exact Or.inl (Or.inl hx)
            · by_cases hxe : x = e.1
              · exact Or.inl (Or.inl hxe)
              · refine Or.inr ⟨hx, ?_⟩
                rintro (hc | hc)
                · exact hxe hc
                · exact hnv hc
        · intro hlt
          have he : e.1 < s._nextCellIndex := hlt e.1 (by simp)
          obtain ⟨hn1, hc1⟩ := ncnt he
          have := icnt (fun x hx => by
            rw [hn1]
            exact hlt x (by
              simp only [List.map_cons, List.mem_cons]
              exact Or.inr hx))
          exact ⟨this.1.trans hn1, this.2.trans hc1⟩
        · intro k hk
          have hke : k ≠ e.1 := by
            rcases hk with hk | hk
            · intro hc
              apply hk
              simp [hc]
            · intro hc
              exact hv (hc ▸ hk)
          have h2 : optRel Cell.sameCore (mapFind s1._cells k) (mapFind s'._cells k) := by
            apply icore k
            rcases hk with hk | hk
            · left
              intro hkt
              apply hk
              simp only [List.map_cons, List.mem_cons]
              exact Or.inr hkt
            · exact Or.inr ((hmem1 k).2 (Or.inr hk))
          exact optRel_trans (r := Cell.sameCore) (fun _ _ _ => sameCore_trans) (ncore k hke) h2
        · intro k hk hnv
          simp only [List.map_cons, List.mem_cons] at hk
          by_cases hke : k = e.1
          · subst hke
            obtain ⟨c1, hc1, hch, hci⟩ := nfresh
            have h2 := icore e.1 (Or.inr ((hmem1 e.1).2 (Or.inl rfl)))
            rw [hc1] at h2
            cases hfin : mapFind s'._cells e.1 with
            | none =>
              rw [hfin] at h2
              exact absurd h2 (by simp [optRel])
            | some c' =>
              rw [hfin] at h2
              exact ⟨c', rfl, h2.2.2.2.1.trans hch, h2.2.2.2.2.trans hci⟩
          · rcases hk with hk | hk
            · exact absurd hk hke
            · apply ifresh k hk
              intro hc
              rcases (hmem1 k).1 hc with hc | hc
              · exact hke hc
              · exact hnv hc

theorem deactivateCell_spec (mt mt' : MeshTopology) (cell : Cell)
    (h : deactivateCell mt cell = Except.ok mt') :
    mt'._activeCells = setErase cell._cellIndex mt._activeCells ∧
      mt'._validCells = mt._validCells ∧ mt'._nextCellIndex = mt._nextCellIndex ∧
      mt'._activeCellCount = mt._activeCellCount ∧ mt'._spaceDim = mt._spaceDim ∧
      CellsRel none mt mt' := by
  unfold deactivateCell at h
  split at h
  · cases h
  · rename_i mt1 h1
    have f1 : Frame none mt mt1 :=
      foldExcept_frame none _ _
        (fun s a s' hs => deactivateCellEntitiesOfDim_frame none cell s s' a hs) _ _ h1
    cases h
    refine ⟨?_, f1.valid, f1.next, f1.count, f1.dim, fun k => f1.cells k⟩
    show setErase cell._cellIndex mt1._activeCells = _
    rw [f1.active]

/-- The fields other than the cell table that `setChildren` leaves alone, and
the cells other than the parent, which keep their children. -/
theorem linkChild_keep (c : IndexType) (s s' : MeshTopology) (entry : Nat × IndexType)
    (h : linkChild c s entry = Except.ok s') :
    (s'._validCells = s._validCells ∧ s'._activeCells = s._activeCells ∧
      s'._nextCellIndex = s._nextCellIndex ∧ s'._activeCellCount = s._activeCellCount ∧
      s'._spaceDim = s._spaceDim) ∧
    (∀ k : IndexType, k ≠ c →
      optRel Cell.keepChildren (mapFind s._cells k) (mapFind s'._cells k)) := by
  unfold linkChild at h
  split at h
  · split at h
    · cases h
    · split at h
      · cases h
      · rename_i s1 h1
        have f1 := setParent_frame _ _ _ _ h1
        split at h
        · cases h
        · cases h
          refine ⟨⟨f1.valid, f1.active, f1.next, f1.count, f1.dim⟩, fun k hk => ?_⟩
          show optRel Cell.keepChildren (mapFind s._cells k) (mapFind (mapSet s1._cells c _) k)
          rw [mapFind_mapSet, if_neg (Ne.symm hk)]
          exact optRel_mono (fun _ _ x => x.1) (f1.cells k)
  · cases h
    exact ⟨⟨rfl, rfl, rfl, rfl, rfl⟩, fun k _ => optRel_refl keepChildren_refl _⟩

theorem setChildren_keep (mt mt' : MeshTopology) (c : IndexType) (childIndices : List IndexType)
    (h : setChildren mt c childIndices = Except.ok mt') :
    (mt'._validCells = mt._validCells ∧ mt'._activeCells = mt._activeCells ∧
      mt'._nextCellIndex = mt._nextCellIndex ∧ mt'._activeCellCount = mt._activeCellCount ∧
      mt'._spaceDim = mt._spaceDim) ∧
    (∀ k : IndexType, k ≠ c →
      optRel Cell.keepChildren (mapFind mt._cells k) (mapFind mt'._cells k)) := by
  unfold setChildren at h
  split at h
  · cases h
  · rename_i parentCell hpc
    have hloop := foldExcept_rel
      (fun (a b : MeshTopology) =>
        (b._validCells = a._validCells ∧ b._activeCells = a._activeCells ∧
          b._nextCellIndex = a._nextCellIndex ∧ b._activeCellCount = a._activeCellCount ∧
          b._spaceDim = a._spaceDim) ∧
        (∀ k : IndexType, k ≠ c →
          optRel Cell.keepChildren (mapFind a._cells k) (mapFind b._cells k)))
      (fun a => ⟨⟨rfl, rfl, rfl, rfl, rfl⟩, fun k _ => optRel_refl keepChildren_refl _⟩)
      (fun a b d hab hbd =>
        ⟨⟨hbd.1.1.trans hab.1.1, hbd.1.2.1.trans hab.1.2.1, hbd.1.2.2.1.trans hab.1.2.2.1,
            hbd.1.2.2.2.1.trans hab.1.2.2.2.1, hbd.1.2.2.2.2.trans hab.1.2.2.2.2⟩,
          fun k hk => optRel_trans (r := Cell.keepChildren) (fun _ _ _ => keepChildren_trans)
            (hab.2 k hk) (hbd.2 k hk)⟩)
      (linkChild c) _ (fun s a s' _ hs => linkChild_keep c s s' a hs) _ _ h
    refine ⟨hloop.1, fun k hk => ?_⟩
    have h2 := hloop.2 k hk
    have h3 : mapFind (mapSet mt._cells c
        { parentCell with
          _childIndices := childIndices
          _children := resizeTo parentCell._children childIndices.length none }) k
        = mapFind mt._cells k := by
      rw [mapFind_mapSet, if_neg (Ne.symm hk)]
    rw [← h3]
    exact h2

theorem linkChild_spec (c : IndexType) (s s' : MeshTopology) (i : Nat) (x : IndexType)
    (pc : Cell) (h : linkChild c s (i, x) = Except.ok s') (hx : x ∈ s._validCells)
    (hne : x ≠ c) (hpc : mapFind s._cells c = some pc) :
    s'._validCells = s._validCells ∧
    (∃ pc', mapFind s'._cells c = some pc' ∧ pc'._childIndices = pc._childIndices ∧
      pc'._level = pc._level ∧
      pc'._children = modifyAt pc._children i (fun _ => some x)) ∧
    (∃ cx', mapFind s'._cells x = some cx' ∧ cx'._parent = some c ∧
      cx'._level = pc._level + 1) ∧
    (∀ k : IndexType, k ≠ c → k ≠ x → mapFind s'._cells k = mapFind s._cells k) := by
  unfold linkChild at h
  have hb : s.isValidCellIndex (some x) = true := by
    simp [isValidCellIndex, hx]
  simp only [hb, if_true] at h
  split at h
  · cases h
  · rename_i cx hcx
    split at h
    · cases h
    · rename_i s1 h1
      have hs1 : s1 = { s with
          _cells := mapSet s._cells x { cx with _parent := some c, _level := pc._level + 1 } } := by
        unfold setParent at h1
        rw [hcx] at h1
        simp only [derefCell, hpc] at h1
        cases h1
        rfl
      subst hs1
      have hpc1 : getCell { s with
          _cells := mapSet s._cells x { cx with _parent := some c, _level := pc._level + 1 } } c
          = Except.ok pc := by
        apply getCell_of_mapFind
        show mapFind (mapSet s._cells x _) c = some pc
        rw [mapFind_mapSet, if_neg hne, hpc]
      rw [hpc1] at h
      cases h
      refine ⟨rfl,
        ⟨{ pc with _children := modifyAt pc._children i (fun _ => some x) }, ?_, rfl, rfl, rfl⟩,
        ⟨{ cx with _parent := some c, _level := pc._level + 1 }, ?_, rfl, rfl⟩,
        fun k hkc hkx => ?_⟩
      · show mapFind (mapSet (mapSet s._cells x _) c _) c = _
        rw [mapFind_mapSet, if_pos rfl]
      · show mapFind (mapSet (mapSet s._cells x _) c _) x = _
        rw [mapFind_mapSet, if_neg (Ne.symm hne), mapFind_mapSet, if_pos rfl]
      · show mapFind (mapSet (mapSet s._cells x _) c _) k = _
        rw [mapFind_mapSet, if_neg (Ne.symm hkc), mapFind_mapSet, if_neg (Ne.symm hkx)]

theorem linkChildren_spec (c : IndexType) (lvl : Nat) (indices : List IndexType)
    (es : List (Nat × IndexType)) (s s' : MeshTopology) (ch : List (Option IndexType))
    (h : foldExcept (linkChild c) s es = Except.ok s')
    (hval : ∀ e ∈ es, e.2 ∈ s._validCells) (hne : ∀ e ∈ es, e.2 ≠ c)
    (hJ : ∃ pc, mapFind s._cells c = some pc ∧ pc._childIndices = indices ∧
      pc._level = lvl ∧ pc._children = ch) :
    (∃ pc', mapFind s'._cells c = some pc' ∧ pc'._childIndices = indices ∧
      pc'._level = lvl ∧
      pc'._children = es.foldl (fun acc e => modifyAt acc e.1 (fun _ => some e.2)) ch) ∧
    (∀ e ∈ es, ∃ cx', mapFind s'._cells e.2 = some cx' ∧ cx'._parent = some c ∧
      cx'._level = lvl + 1) ∧
    (∀ k : IndexType, k ≠ c → (∀ e ∈ es, e.2 ≠ k) → mapFind s'._cells k = mapFind s._cells k) := by
  induction es generalizing s ch with
  | nil =>
    cases h
    exact ⟨hJ, fun e he => absurd he (by simp), fun _ _ _ => rfl⟩
  | cons e t ih =>
    unfold foldExcept at h
    cases h1 : linkChild c s e with
    | error err =>
      rw [h1] at h
      cases h
    | ok s1 =>
      rw [h1] at h
      obtain ⟨pc, hpc, hci, hlv, hch⟩ := hJ
      obtain ⟨i, x⟩ := e
      have hx : x ∈ s._validCells := hval (i, x) (List.mem_cons_self _ _)
      have hxc : x ≠ c := hne (i, x) (List.mem_cons_self _ _)
      obtain ⟨hv1, ⟨pc1, hpc1, hci1, hlv1, hch1⟩, ⟨cx1, hcx1, hpar1, hlev1⟩, hoth1⟩ :=
        linkChild_spec c s s1 i x pc h1 hx hxc hpc
      obtain ⟨hP, hC, hO⟩ := ih s1 (modifyAt ch i (fun _ => some x)) h
        (fun e he => by
          rw [hv1]
          exact hval e (List.mem_cons_of_mem _ he))
        (fun e he => hne e (List.mem_cons_of_mem _ he))
        ⟨pc1, hpc1, hci1.trans hci, hlv1.trans hlv, by rw [hch1, hch]⟩
      refine ⟨hP, ?_, ?_⟩
      · intro e he
        rcases List.mem_cons.1 he with he | he
        · subst he
          by_cases hlater : ∃ e' ∈ t, e'.2 = x
          · obtain ⟨e', he', hex⟩ := hlater
            have := hC e' he'
            rw [hex] at this
            exact this
          · have hstay := hO x hxc (fun e' he' hc => hlater ⟨e', he', hc⟩)
            exact ⟨cx1, by rw [hstay, hcx1], hpar1, by rw [hlev1, hlv]⟩
        · exact hC e he
      · intro k hkc hk
        rw [hO k hkc (fun e' he' => hk e' (List.mem_cons_of_mem _ he'))]
        exact hoth1 k hkc (Ne.symm (hk (i, x) (List.mem_cons_self _ _)))

theorem take_succ_modifyAt {α : Type} (l : List α) (k : Nat) (a : α) (hk : k < l.length) :
    (modifyAt l k (fun _ => a)).take (k + 1) = l.take k ++ [a] := by
  induction l generalizing k with
  | nil => simp at hk
  | cons b t ih =>
    cases k with
    | zero => simp [modifyAt]
    | succ n =>
      have hn : n < t.length := by simpa using hk
      simp [modifyAt, ih n hn]

theorem foldl_modifyAt_enumFrom (l : List IndexType) (k : Nat) (ch : List (Option IndexType))
    (hlen : ch.length = k + l.length) :
    (l.enumFrom k).foldl (fun acc e => modifyAt acc e.1 (fun _ => some e.2)) ch
      = ch.take k ++ l.map some := by
  induction l generalizing k ch with
  | nil =>
    simp only [List.enumFrom_nil, List.foldl_nil, List.map_nil, List.append_nil]
    rw [List.take_of_length_le]
    simp at hlen
    omega
  | cons x t ih =>
    simp only [List.enumFrom_cons, List.foldl_cons, List.map_cons]
    rw [ih (k + 1) (modifyAt ch k (fun _ => some x))
      (by rw [length_modifyAt]; simp at hlen; omega)]
    rw [take_succ_modifyAt ch k (some x) (by simp at hlen; omega)]
    simp

theorem length_resizeTo {α : Type} (l : List α) (n : Nat) (d : α) :
    (resizeTo l n d).length = n := by
  unfold resizeTo
  simp only [List.length_append, List.length_take, List.length_replicate]
  omega

/-- What a successful `setChildren` does when the children are valid cells
other than the parent: the parent gets the child indices and pointers and keeps
its level; every child gets the parent and the level of the parent plus one. -/
theorem setChildren_spec (mt mt' : MeshTopology) (c : IndexType) (indices : List IndexType)
    (parentCell : Cell) (h : setChildren mt c indices = Except.ok mt')
    (hpc : mapFind mt._cells c = some parentCell)
    (hval : ∀ x ∈ indices, x ∈ mt._validCells) (hne : ∀ x ∈ indices, x ≠ c) :
    (∃ pc', mapFind mt'._cells c = some pc' ∧ pc'._childIndices = indices ∧
      pc'._level = parentCell._level ∧ pc'._children = indices.map some) ∧
    (∀ x ∈ indices, ∃ cx', mapFind mt'._cells x = some cx' ∧ cx'._parent = some c ∧
      cx'._level = parentCell._level + 1) := by
  unfold setChildren at h
  rw [getCell_of_mapFind mt c parentCell hpc] at h
  simp only at h
  rw [← List.enum_eq_zip_range] at h
  obtain ⟨⟨pc', hpc', hci, hlv, hch⟩, hC, _⟩ := linkChildren_spec c parentCell._level indices
    indices.enum _ mt' (resizeTo parentCell._children indices.length none) h
    (fun e he => hval e.2 (by
      obtain ⟨h1, h2⟩ := List.mem_enum he
      rw [h2]
      exact List.getElem_mem h1))
    (fun e he => hne e.2 (by
      obtain ⟨h1, h2⟩ := List.mem_enum he
      rw [h2]
      exact List.getElem_mem h1))
    ⟨{ parentCell with
        _childIndices := indices
        _children := resizeTo parentCell._children indices.length none }, by
      show mapFind (mapSet mt._cells c _) c = some _
      rw [mapFind_mapSet, if_pos rfl], rfl, rfl, rfl⟩
  refine ⟨⟨pc', hpc', hci, hlv, ?_⟩, fun x hx => ?_⟩
  · rw [hch]
    have := foldl_modifyAt_enumFrom indices 0
      (resizeTo parentCell._children indices.length none)
      (by rw [length_resizeTo]; omega)
    simpa [List.enum] using this
  · obtain ⟨i, hi, hix⟩ := List.mem_iff_getElem.1 hx
    have hmem : (i, x) ∈ indices.enum := by
      rw [List.mk_mem_enum_iff_getElem?, List.getElem?_eq_getElem hi, hix]
    exact hC (i, x) hmem

theorem length_children (pat : RefinementPattern) (l : List (Nat × IndexType)) :
    (pat.children l).length = pat.numChildren := by
  unfold RefinementPattern.children RefinementPattern.numChildren
  simp

theorem countRefinement_fields (mt : MeshTopology) (pat : RefinementPattern) (f : IndexType) :
    (countRefinement mt pat f)._cells = mt._cells ∧
      (countRefinement mt pat f)._validCells = mt._validCells ∧
      (countRefinement mt pat f)._activeCells = mt._activeCells ∧
      (countRefinement mt pat f)._vertices = mt._vertices := by
  unfold countRefinement
  split
  · exact ⟨rfl, rfl, rfl, rfl⟩
  · exact ⟨rfl, rfl, rfl, rfl⟩

/-- The stages of a successful `refineCell` on a valid cell: the state before
the loop of `addChildren`, the state after it, the state after `setChildren`. -/
theorem refineCell_stages (tools : CellTools) (fuel : Nat) (mt mt' : MeshTopology)
    (c : IndexType) (pat : RefinementPattern) (f : IndexType) (cell : Cell)
    (hvalid : c ∈ mt._validCells) (hcell : mapFind mt._cells c = some cell)
    (h : refineCell tools fuel mt c pat f = Except.ok mt') :
    ∃ (m3 m4 m5 : MeshTopology) (cell3 : Cell)
        (es : List (IndexType × CellTopology × List IndexType)),
      mapFind m3._cells c = some cell3 ∧ Cell.sameCore cell cell3 ∧
      m3._validCells = mt._validCells ∧
      (cell._children.length = 0 →
        m3._activeCells = setErase cell._cellIndex mt._activeCells) ∧
      m3._nextCellIndex = (countRefinement mt pat f)._nextCellIndex ∧
      m3._activeCellCount = (countRefinement mt pat f)._activeCellCount ∧
      (∀ k : IndexType, optRel Cell.sameCore (mapFind mt._cells k) (mapFind m3._cells k)) ∧
      es.map (fun e => e.1) = (List.range pat.numChildren).map (fun i => f + i) ∧
      foldExcept (addChild tools fuel cell3._cellIndex) m3 es = Except.ok m4 ∧
      setChildren m4 c ((List.range pat.numChildren).map (fun i => f + i)) = Except.ok m5 ∧
      Frame none m5 mt' := by
  obtain ⟨hcc, hcv, hca, _⟩ := countRefinement_fields mt pat f
  unfold refineCell at h
  have hb : (countRefinement mt pat f).isValidCellIndex (some c) = true := by
    simp [isValidCellIndex, hcv, hvalid]
  simp only [hb, Bool.not_true, Bool.false_eq_true, if_false] at h
  unfold refineValidCell at h
  have hd : (countRefinement mt pat f).derefCell (some c) = Except.ok cell := by
    unfold derefCell
    simp only [hcc, hcell]
    rfl
  rw [hd] at h
  simp only at h
  split at h
  · cases h
  · rename_i nodesOfCell hnodes
    split at h
    · cases h
    · rename_i mt1 h1
      have f0 : Frame none (countRefinement mt pat f)
          (getVertexIndices (countRefinement mt pat f)
            (pat.verticesForRefinement nodesOfCell)).1 :=
        getVertexIndices_frame none _ _
      have f1 := frame_trans f0 (refineCellEntities_frame none _ _ _ _ _ h1)
      split at h
      · cases h
      · rename_i cell1 hcell1
        have hfind1 := mapFind_of_derefCell _ _ _ hcell1
        have hsc1 : Cell.sameCore cell cell1 := by
          have := f1.cells c
          rw [hcc, hcell, hfind1] at this
          exact this.2 (by simp)
        split at h
        · cases h
        · rename_i mt3 h3
          split at h
          · cases h
          · rename_i mt4 h4
            have f2 : Frame none mt1 { mt1 with
                _cells := mapSet mt1._cells c { cell1 with _refPattern := some pat } } :=
              ⟨rfl, rfl, rfl, rfl, rfl,
                cellsRel_mapSet none _ _ c cell1 _ hfind1 rfl ⟨rfl, rfl, rfl⟩
                  (fun _ => ⟨rfl, rfl, rfl, rfl, rfl⟩)⟩
            have h13 : mt3._validCells = mt1._validCells ∧
                (cell1._children.length = 0 →
                  mt3._activeCells = setErase cell1._cellIndex mt1._activeCells) ∧
                mt3._nextCellIndex = mt1._nextCellIndex ∧
                mt3._activeCellCount = mt1._activeCellCount ∧ CellsRel none mt1 mt3 := by
              split at h3
              · obtain ⟨ha, hv, hn, hc, _, hr⟩ := deactivateCell_spec _ _ _ h3
                exact ⟨hv, fun _ => ha, hn, hc, cellsRel_trans f2.cells hr⟩
              · rename_i hnew
                cases h3
                refine ⟨rfl, fun h0 => absurd ?_ hnew, rfl, rfl, f2.cells⟩
                simp [h0]
            obtain ⟨hv3, ha3, hn3, hc3, hr3⟩ := h13
            unfold addChildren at h4
            simp only [List.length_replicate, length_children, ne_eq, not_true_eq_false,
              if_false] at h4
            split at h4
            · cases h4
            · rename_i parentCell hpc3
              split at h4
              · cases h4
              · rename_i m4 hloop
                have hrel : ∀ k : IndexType,
                    optRel Cell.sameCore (mapFind mt._cells k) (mapFind mt3._cells k) := by
                  intro k
                  have ha := f1.cells k
                  rw [hcc] at ha
                  exact optRel_trans (r := Cell.sameCore) (fun _ _ _ => sameCore_trans)
                    (optRel_mono (fun _ _ x => x.2 (by simp)) ha)
                    (optRel_mono (fun _ _ x => x.2 (by simp)) (hr3 k))
                have hfind3 := mapFind_of_getCell _ _ _ hpc3
                have hsc3 : Cell.sameCore cell parentCell := by
                  have := hrel c
                  rw [hcell, hfind3] at this
                  exact this
                refine ⟨mt3, m4, mt4, parentCell, _, hfind3, hsc3, ?_, ?_, ?_, ?_, hrel, ?_,
                  hloop, h4, determineGeneralizedParentsForRefinement_frame none _ _ _ _ _ h⟩
                · rw [hv3, f1.valid, hcv]
                · intro h0
                  rw [ha3 (by rw [hsc1.2.2.2.1]; exact h0), hsc1.1, f1.active, hca]
                · rw [hn3, f1.next]
                · rw [hc3, f1.count]
                · have : ∀ (l1 : List IndexType) (l2 : List (CellTopology × List IndexType)),
                      l1.length ≤ l2.length → (l1.zip l2).map (fun e => e.1) = l1 := by
                    intro l1 l2 hl
                    exact List.map_fst_zip _ _ hl
                  apply this
                  simp [length_children]

theorem mem_childRange (f n : Nat) (x : Nat) :
    x ∈ (List.range n).map (fun i => f + i) ↔ f ≤ x ∧ x < f + n := by
  simp only [List.mem_map, List.mem_range]
  constructor
  · rintro ⟨i, hi, rfl⟩
    omega
  · rintro ⟨h1, h2⟩
    exact ⟨x - f, by omega, by omega⟩

theorem mem_validCells_of_isValid (mt : MeshTopology) (c : IndexType)
    (h : mt.isValidCellIndex (some c) = true) : c ∈ mt._validCells := by
  simpa [isValidCellIndex] using h

theorem find_of_optRel {r : Cell → Cell → Prop} {a : Option Cell} {b : Option Cell} {x : Cell}
    (h : optRel r a b) (ha : a = some x) : ∃ y, b = some y ∧ r x y := by
  subst ha
  cases b with
  | none => exact absurd h (by simp [optRel])
  | some y => exact ⟨y, rfl, h⟩

theorem find_of_optRel_right {r : Cell → Cell → Prop} {a : Option Cell} {b : Option Cell}
    {y : Cell} (h : optRel r a b) (hb : b = some y) : ∃ x, a = some x ∧ r x y := by
  subst hb
  cases a with
  | none => exact absurd h (by simp [optRel])
  | some x => exact ⟨x, rfl, h⟩

/-- A run that is a success is the success of its state. -/
theorem eq_ok_stateOf (r : Except MeshError MeshTopology) (h : r.isOk = true) :
    r = Except.ok (stateOf r) := by
  cases r with
  | error err => cases h
  | ok mt => rfl

/-! ## Sorted keys and periodic relabeling: lemmas -/

theorem getD_modifyAt_eq {α : Type} (l : List α) (i j : Nat) (f : α → α) (dflt : α)
    (h : i < l.length) :
    (modifyAt l i f).getD j dflt = if j = i then f (l.getD i dflt) else l.getD j dflt := by
  by_cases hj : j = i
  · subst hj
    rw [if_pos rfl, getD_modifyAt_self l j f dflt h]
  · rw [if_neg hj, getD_modifyAt_ne l i j f dflt hj]

/-- A key that is not known and has no known periodic relabeling is not found. -/
theorem getEntityIndex_of_unknown (mt : MeshTopology) (d : Nat) (S : List IndexType)
    (hd : d ≠ 0) (hkey : mapFind (mt._knownEntities.getD d []) S = none)
    (hper : 0 < mt._periodicBCs.length →
      getCanonicalEntityNodesViaPeriodicBCs mt d S = Except.ok []) :
    getEntityIndex mt d S = Except.ok none := by
  unfold getEntityIndex
  simp only [hd, if_false, hkey]
  by_cases hp : 0 < mt._periodicBCs.length
  · simp only [gt_iff_lt, hp, if_true, hper hp, bind, Except.bind, List.length_nil,
      lt_self_iff_false, if_false]
    rfl
  · simp only [gt_iff_lt, hp, if_false]
    rfl

theorem intersection_rest (mt : MeshTopology) (rest : List IndexType) (acc : List (Nat × Nat)) :
    matchingPeriodicBCsIntersection mt._periodicBCIndicesMatchingNode rest acc false
      = acc.filter (fun r =>
          rest.all (fun w => (mapFind mt._periodicBCIndicesMatchingNode w).isSome &&
            decide (r ∈ rulesOfVertex mt w))) := by
  induction rest generalizing acc with
  | nil =>
    unfold matchingPeriodicBCsIntersection
    simp
  | cons w t ih =>
    unfold matchingPeriodicBCsIntersection
    cases hw : mapFind mt._periodicBCIndicesMatchingNode w with
    | none =>
      simp [hw]
    | some rs =>
      simp only [Bool.false_eq_true, if_false]
      rw [ih, List.filter_filter]
      congr 1
      funext r
      simp [rulesOfVertex, hw, Bool.and_comm]

theorem intersection_eq_commonRules (mt : MeshTopology) (vs : List IndexType) :
    matchingPeriodicBCsIntersection mt._periodicBCIndicesMatchingNode vs [] true
      = commonPeriodicRules mt vs := by
  cases vs with
  | nil => rfl
  | cons v rest =>
    unfold matchingPeriodicBCsIntersection commonPeriodicRules
    cases hv : mapFind mt._periodicBCIndicesMatchingNode v with
    | none => simp [rulesOfVertex, hv]
    | some rs =>
      simp only [if_true]
      rw [intersection_rest]
      simp [rulesOfVertex, hv]

theorem equivalentNodeVector_eq (mt : MeshTopology) (r : Nat × Nat) (vs : List IndexType)
    (h : ∀ v ∈ vs, (mapFind mt._equivalentNodeViaPeriodicBC (v, r)).isSome = true) :
    equivalentNodeVector mt._equivalentNodeViaPeriodicBC r vs
      = Except.ok (substitutePartners mt r vs) := by
  induction vs with
  | nil => rfl
  | cons v t ih =>
    unfold equivalentNodeVector
    have hv := h v (List.mem_cons_self _ _)
    cases hf : mapFind mt._equivalentNodeViaPeriodicBC (v, r) with
    | none =>
      rw [hf] at hv
      cases hv
    | some e =>
      simp only [ih (fun w hw => h w (List.mem_cons_of_mem _ hw)), bind, Except.bind]
      simp [substitutePartners, hf, pure, Except.pure]

theorem firstKnownEquivalent_eq (mt : MeshTopology) (d : Nat) (vs : List IndexType)
    (rules : List (Nat × Nat))
    (h : ∀ r ∈ rules, ∀ v ∈ vs, (mapFind mt._equivalentNodeViaPeriodicBC (v, r)).isSome = true) :
    firstKnownEquivalent (mt._knownEntities.getD d []) mt._equivalentNodeViaPeriodicBC vs rules
      = Except.ok
        (match rules.find? (fun r => keyKnown mt d (substitutePartners mt r vs)) with
          | some r => substitutePartners mt r vs
          | none => []) := by
  induction rules with
  | nil => rfl
  | cons r t ih =>
    unfold firstKnownEquivalent
    rw [equivalentNodeVector_eq mt r vs (h r (List.mem_cons_self _ _))]
    simp only [bind, Except.bind]
    by_cases hk : keyKnown mt d (substitutePartners mt r vs) = true
    · have hk' := hk
      unfold keyKnown at hk'
      simp only [hk', if_true, List.find?_cons, hk]
      rfl
    · have hk' := hk
      unfold keyKnown at hk'
      simp only [hk', if_false, List.find?_cons, hk]
      exact ih (fun r' hr' => h r' (List.mem_cons_of_mem _ hr'))

/-- For `d ≥ 1`, with a recorded partner for every vertex under every common
rule, the code agrees with the spec-side canonicalization. -/
theorem getCanonical_eq_spec (mt : MeshTopology) (d : Nat) (vs : List IndexType) (hd : 1 ≤ d)
    (hpart : ∀ r ∈ commonPeriodicRules mt vs, ∀ v ∈ vs,
      (mapFind mt._equivalentNodeViaPeriodicBC (v, r)).isSome = true) :
    getCanonicalEntityNodesViaPeriodicBCs mt d vs = Except.ok (canonicalNodesSpec mt d vs) := by
  by_cases hk : keyKnown mt d vs = true
  · rw [getCanonical_of_known mt d vs hk]
    unfold canonicalNodesSpec
    rw [if_pos hk]
  · have hk' := hk
    unfold keyKnown at hk'
    unfold getCanonicalEntityNodesViaPeriodicBCs canonicalNodesSpec
    have hd0 : d ≠ 0 := by omega
    simp only [hk', hk, hd0, if_false, intersection_eq_commonRules]
    exact firstKnownEquivalent_eq mt d vs _ hpart

theorem sortIndices_of_sorted (S : List Nat) (h : S.Sorted (fun a b => a < b)) :
    sortIndices S = S := by
  unfold sortIndices
  exact List.Sorted.insertionSort_eq (h.imp (fun hab => Nat.le_of_lt hab))

/-! ## The index check of `addCell`: lemmas -/

/-- The method `addCell` is the counter update followed by the rest of its body. -/
theorem addCell_eq_counted (tools : CellTools) (fuel : Nat) (mt : MeshTopology)
    (cellIndex : IndexType) (cellTopo : CellTopology) (cellVertices : List IndexType)
    (parent : Option IndexType) :
    addCell tools fuel mt cellIndex cellTopo cellVertices parent
      = match countNewCell mt cellIndex with
        | Except.error err => Except.error err
        | Except.ok mt1 => addCellCounted tools fuel mt1 cellIndex cellTopo cellVertices parent := by
  unfold addCell addCellCounted
  rfl

/-- The part of `addCell` after the counter update leaves the counters. -/
theorem addCellCounted_counters (tools : CellTools) (fuel : Nat) (mt1 mt' : MeshTopology)
    (cellIndex : IndexType) (cellTopo : CellTopology) (cellVertices : List IndexType)
    (parent : Option IndexType)
    (h : addCellCounted tools fuel mt1 cellIndex cellTopo cellVertices parent = Except.ok mt') :
    mt'._nextCellIndex = mt1._nextCellIndex ∧ mt'._activeCellCount = mt1._activeCellCount := by
  unfold addCellCounted at h
  split at h
  · cases h
  · rename_i mt2 perms h2
    have f2 : Frame none mt1 mt2 :=
      foldExcept_rel (fun (a b : MeshTopology × List (List Nat)) => Frame none a.1 b.1)
        (fun s => frame_refl none s.1) (fun _ _ _ => frame_trans) _ _
        (fun s a s' _ hs => addCellEntitiesOfDim_frame none tools cellIndex cellTopo
          cellVertices s s' a hs) _ _ h2
    dsimp only at h
    split at h
    · cases h
    · rename_i mt4 h4
      have f4 : Frame (some cellIndex)
          (insertCell mt2 cellIndex cellTopo cellVertices perms) mt4 := by
        split at h4
        · cases h4
          exact frame_refl _ _
        · split at h4
          · cases h4
          · exact setParent_frame _ _ _ _ h4
      split at h
      · cases h
      · rename_i mt5 h5
        have f5 : Frame (some cellIndex) mt4 mt5 :=
          foldExcept_frame _ _ _ (fun s a s' hs => claimSide_frame _ cellIndex s s' a hs) _ _ h5
        have f6 : Frame (some cellIndex) mt5 mt' :=
          foldExcept_frame _ _ _
            (fun s a s' hs => linkSide_frame _ tools fuel cellIndex parent s s' a hs) _ _ h
        have F := frame_trans f4 (frame_trans f5 f6)
        constructor
        · rw [F.next]
          show mt2._nextCellIndex = _
          rw [f2.next]
        · rw [F.count]
          show mt2._activeCellCount = _
          rw [f2.count]

/-! ## Neighbours through ancestors: lemmas -/

/-- A result of the climb of `Cell::getNeighborInfo` is valid in the view, is
reached by steps to the parent, and has the cell as its neighbour in the base
topology. -/
theorem ancestralNeighborLoop_sound (mt : MeshTopology)
    (base : Cell → Nat → Except MeshError (Option (IndexType × Nat)))
    (view : MeshTopologyView) (c : IndexType) (fuel : Nat) :
    ∀ (info : IndexType × Nat) (n : IndexType) (t : Nat),
      Cell.ancestralNeighborLoop mt base view c fuel info = Except.ok (some (n, t)) →
      view.isValidCellIndex (some n) = true ∧
        (∃ k, 1 ≤ k ∧ parentSideSteps mt k info = some (n, t)) ∧
        (∃ (ancestor : Cell) (back : Option (IndexType × Nat)), ancestor._cellIndex = n ∧
          base ancestor t = Except.ok back ∧ back.map Prod.fst = some c) := by
  induction fuel with
  | zero =>
    intro info n t h
    unfold Cell.ancestralNeighborLoop at h
    cases h
  | succ fuel ih =>
    intro info n t h
    unfold Cell.ancestralNeighborLoop at h
    split at h
    · split at h
      · cases h
      · rename_i neighbor hcell
        split at h
        · cases h
        · rename_i parentPointer hparent
          split at h
          · cases h
          · rename_i neighborParent hderef
            split at h
            · cases h
            · cases h
            · rename_i childOrdinal refPattern hchild hpat
              split at h
              · cases h
              · rename_i parentSide hside
                split at h
                · cases h
                · rename_i back hback
                  have hstep : parentSideStep mt info = some (neighborParent._cellIndex, parentSide) := by
                    unfold parentSideStep
                    simp only [hcell, hparent, hderef, hchild, hpat, hside]
                  split at h
                  · cases h
                  · rename_i hpeer
                    have hpeer' : back.map Prod.fst = some c := by
                      by_contra hne
                      exact hpeer hne
                    split at h
                    · rename_i hvalid
                      cases h
                      refine ⟨hvalid, ⟨1, Nat.le_refl 1, ?_⟩, neighborParent, back, rfl, hback, hpeer'⟩
                      unfold parentSideSteps
                      simp only [hstep]
                      rfl
                    · obtain ⟨hv, ⟨k, hk, hsteps⟩, hbase⟩ := ih _ n t h
                      refine ⟨hv, ⟨k + 1, Nat.le_add_left 1 k, ?_⟩, hbase⟩
                      show (match parentSideStep mt info with
                        | none => none
                        | some next => parentSideSteps mt k next) = some (n, t)
                      simp only [hstep]
                      exact hsteps
    · cases h

/-! ## Shape of the cells through `addCell`: lemmas -/

theorem getElem?_modifyAt {α : Type} (l : List α) (i j : Nat) (f : α → α) :
    (modifyAt l i f)[j]? = if j = i then (l[j]?).map f else l[j]? := by
  induction l generalizing i j with
  | nil =>
    simp [modifyAt]
  | cons a t ih =>
    cases i with
    | zero =>
      cases j with
      | zero => simp [modifyAt]
      | succ j => simp [modifyAt]
    | succ i =>
      cases j with
      | zero => simp [modifyAt]
      | succ j =>
        simp only [modifyAt, List.getElem?_cons_succ, ih, Nat.succ.injEq, add_left_inj]

theorem sameShape_refl (c : Cell) : Cell.sameShape c c :=
  ⟨rfl, rfl, rfl, fun _ _ _ h => h⟩

theorem sameShape_trans {a b c : Cell} (h1 : Cell.sameShape a b) (h2 : Cell.sameShape b c) :
    Cell.sameShape a c :=
  ⟨h2.1.trans h1.1, h2.2.1.trans h1.2.1, h2.2.2.1.trans h1.2.2.1,
    fun d ord x h => h2.2.2.2 d ord x (h1.2.2.2 d ord x h)⟩

theorem shape_refl (b : Bool) (mt : MeshTopology) : Shape b mt mt :=
  ⟨fun _ => rfl, fun _ => optRel_refl sameShape_refl _⟩

theorem shape_of_eq (b : Bool) {mt mt' : MeshTopology}
    (hclaim : mt'._cellsForSideEntities = mt._cellsForSideEntities)
    (hcells : mt'._cells = mt._cells) : Shape b mt mt' := by
  refine ⟨fun _ => hclaim, fun k => ?_⟩
  rw [hcells]
  exact optRel_refl sameShape_refl _

theorem shape_trans {b : Bool} {x y z : MeshTopology} (h1 : Shape b x y) (h2 : Shape b y z) :
    Shape b x z :=
  ⟨fun hb => (h2.claimants hb).trans (h1.claimants hb),
    fun k => optRel_trans (r := Cell.sameShape) (fun _ _ _ => sameShape_trans)
      (h1.cells k) (h2.cells k)⟩

theorem shape_of_cells_eq {mt mt' : MeshTopology} (hcells : mt'._cells = mt._cells) :
    Shape false mt mt' := by
  refine ⟨fun h => Bool.noConfusion h, fun k => ?_⟩
  rw [hcells]
  exact optRel_refl sameShape_refl _

/-- A step that keeps the claimant table is in particular a step. -/
theorem shape_weaken {b : Bool} {x y : MeshTopology} (h : Shape true x y) : Shape b x y :=
  ⟨fun _ => h.claimants rfl, h.cells⟩

theorem foldExcept_shape {α : Type} (b : Bool)
    (f : MeshTopology → α → Except MeshError MeshTopology) (l : List α)
    (hf : ∀ s a s', f s a = Except.ok s' → Shape b s s') (s s' : MeshTopology)
    (h : foldExcept f s l = Except.ok s') : Shape b s s' :=
  foldExcept_rel (Shape b) (shape_refl b) (fun _ _ _ => shape_trans) f l
    (fun s a s' _ => hf s a s') s s' h

theorem foldl_shape {α : Type} (b : Bool) (f : MeshTopology → α → MeshTopology)
    (l : List α) (hf : ∀ s a, Shape b s (f s a)) (s : MeshTopology) :
    Shape b s (l.foldl f s) :=
  foldl_rel (Shape b) (shape_refl b) (fun _ _ _ => shape_trans) f l hf s

theorem shape_mapSet (b : Bool) (mt mt' : MeshTopology) (k : IndexType)
    (c c' : Cell) (hfind : mapFind mt._cells k = some c)
    (hcells : mt'._cells = mapSet mt._cells k c')
    (hclaim : mt'._cellsForSideEntities = mt._cellsForSideEntities)
    (hshape : Cell.sameShape c c') : Shape b mt mt' := by
  refine ⟨fun _ => hclaim, fun k' => ?_⟩
  rw [hcells, mapFind_mapSet]
  by_cases hk : k = k'
  · subst hk
    rw [if_pos rfl, hfind]
    exact hshape
  · rw [if_neg hk]
    exact optRel_refl sameShape_refl _

theorem cellsWF_of_shape {b : Bool} {mt mt' : MeshTopology} (h : Shape b mt mt')
    (hwf : CellsWF mt) : CellsWF mt' := by
  intro k cell' hfind
  have hk := h.cells k
  rw [hfind] at hk
  cases hf : mapFind mt._cells k with
  | none =>
    rw [hf] at hk
    exact absurd hk (by simp [optRel])
  | some cell =>
    rw [hf] at hk
    obtain ⟨h1, h2, h3, _⟩ := hk
    obtain ⟨w1, w2⟩ := hwf k cell hf
    exact ⟨h1.trans w1, by rw [h3, h2, w2]⟩

theorem addNewEntity_shape (keep : Bool) (mt : MeshTopology) (topo : CellTopology)
    (vs sv : List IndexType) : Shape keep mt (addNewEntity mt topo vs sv) :=
  shape_of_eq keep rfl rfl

theorem addEntity_shape (keep : Bool) (tools : CellTools) (mt mt' : MeshTopology)
    (topo : CellTopology) (vs : List IndexType) (i : IndexType) (p : Nat)
    (h : addEntity tools mt topo vs = Except.ok (mt', i, p)) : Shape keep mt mt' := by
  rcases (addEntity_ok_cases tools mt mt' topo vs i p h).2 with ⟨_, h1, _⟩ | ⟨_, h1⟩
  · rw [h1]
    exact addNewEntity_shape keep mt topo vs _
  · rw [h1]
    exact shape_refl keep mt

theorem pushActiveCell_shape (keep : Bool) (mt : MeshTopology) (d : Nat)
    (x : IndexType) (entry : IndexType × Nat) : Shape keep mt (pushActiveCell mt d x entry) :=
  shape_of_eq keep rfl rfl

theorem addCellEntity_shape (keep : Bool) (tools : CellTools) (cellIndex : IndexType)
    (cellTopo : CellTopology) (cellVertices : List IndexType) (d : Nat)
    (st st' : MeshTopology × List (List Nat)) (j : Nat)
    (h : addCellEntity tools cellIndex cellTopo cellVertices d st j = Except.ok st') :
    Shape keep st.1 st'.1 := by
  unfold addCellEntity at h
  split at h
  · cases h
  · cases h
  · split at h
    · cases h
    · rename_i mt1 ei ep hadd
      have h1 := addEntity_shape keep _ _ _ _ _ _ _ hadd
      simp only [pure, Except.pure, Except.ok.injEq] at h
      subst h
      refine shape_trans h1 (shape_trans (pushActiveCell_shape keep mt1 d ei (cellIndex, j)) ?_)
      dsimp only
      split
      · exact foldl_shape keep _ _ (fun s a => pushActiveCell_shape keep s d a _) _
      · exact shape_refl keep _

theorem addCellEntitiesOfDim_shape (keep : Bool) (tools : CellTools)
    (cellIndex : IndexType) (cellTopo : CellTopology) (cellVertices : List IndexType)
    (st st' : MeshTopology × List (List Nat)) (d : Nat)
    (h : addCellEntitiesOfDim tools cellIndex cellTopo cellVertices st d = Except.ok st') :
    Shape keep st.1 st'.1 := by
  unfold addCellEntitiesOfDim at h
  exact foldExcept_rel (fun a b => Shape keep a.1 b.1) (fun s => shape_refl keep s.1)
    (fun _ _ _ => shape_trans) _ _
    (fun s a s' _ hs => addCellEntity_shape keep tools cellIndex cellTopo cellVertices d s s' a hs)
    _ _ h

theorem cached_modifyAt_row (cell : Cell) (d : Nat) (row0 : List (Option (Option IndexType)))
    (f : List (Option (Option IndexType)) → List (Option (Option IndexType)))
    (hrow0 : cell._entityIndices[d]? = some row0)
    (hf : ∀ (ord : Nat) (x : Option IndexType), row0[ord]? = some (some x) →
      (f row0)[ord]? = some (some x))
    (d' ord' : Nat) (x : Option IndexType) (hx : cell.cached d' ord' x) :
    Cell.cached { cell with _entityIndices := modifyAt cell._entityIndices d f } d' ord' x := by
  obtain ⟨r, hr, hrx⟩ := hx
  by_cases hd : d' = d
  · refine ⟨f row0, ?_, ?_⟩
    · show (modifyAt cell._entityIndices d f)[d']? = _
      rw [getElem?_modifyAt, if_pos hd, hd, hrow0]
      rfl
    · rw [hd, hrow0] at hr
      have hrr : row0 = r := Option.some.inj hr
      rw [← hrr] at hrx
      exact hf ord' x hrx
  · refine ⟨r, ?_, hrx⟩
    show (modifyAt cell._entityIndices d f)[d']? = _
    rw [getElem?_modifyAt, if_neg hd, hr]

theorem entityIndex_sameShape (mt : MeshTopology) (cell cell' : Cell) (d ord : Nat)
    (found : Option IndexType)
    (h : Cell.entityIndex mt cell d ord = Except.ok (found, cell')) :
    Cell.sameShape cell cell' := by
  unfold Cell.entityIndex at h
  dsimp only at h
  split at h
  · cases h
    exact sameShape_refl _
  · by_cases hlen : cell._entityIndices.length = 0
    · -- an empty cache holds nothing
      have hnil : cell._entityIndices = [] := List.length_eq_zero.1 hlen
      have hnone : ∀ d' ord' x, ¬ cell.cached d' ord' x := by
        intro d' ord' x hx
        obtain ⟨r, hr, _⟩ := hx
        rw [hnil] at hr
        cases hr
      split at h
      · cases h
      · split at h
        · cases h
        · cases h
          exact ⟨rfl, rfl, rfl, fun d' ord' x hx => absurd hx (hnone d' ord' x)⟩
        · split at h
          · cases h
          · split at h
            · cases h
            · cases h
              exact ⟨rfl, rfl, rfl, fun d' ord' x hx => absurd hx (hnone d' ord' x)⟩
    · rw [if_neg hlen] at h
      split at h
      · cases h
      · rename_i row0 hrow0
        have hkeep : ∀ (ord' : Nat) (x : Option IndexType), row0[ord']? = some (some x) →
            (if row0.length = 0 then List.replicate (cell._cellTopo.getSubcellCount d) none
              else row0) = row0 := by
          intro ord' x hx
          have hrl : ¬ row0.length = 0 := by
            intro h0
            rw [List.length_eq_zero.1 h0] at hx
            cases hx
          rw [if_neg hrl]
        split at h
        · cases h
        · cases h
          refine ⟨rfl, rfl, rfl, ?_⟩
          intro d' ord' x hx
          exact cached_modifyAt_row cell d row0 _ hrow0
            (fun o y hy => by rw [hkeep o y hy]; exact hy) d' ord' x hx
        · rename_i hnone
          split at h
          · cases h
          · split at h
            · cases h
            · cases h
              refine ⟨rfl, rfl, rfl, ?_⟩
              intro d' ord' x hx
              refine cached_modifyAt_row cell d row0 _ hrow0 (fun o y hy => ?_) d' ord' x hx
              rw [hkeep o y hy] at hnone ⊢
              rw [getElem?_modifyAt]
              by_cases ho : o = ord
              · rw [ho, hnone] at hy
                cases hy
              · rw [if_neg ho]
                exact hy

theorem cellEntityIndex_shape (keep : Bool) (mt mt' : MeshTopology)
    (cellIndex : IndexType) (d ord : Nat) (found : Option IndexType)
    (h : cellEntityIndex mt cellIndex d ord = Except.ok (found, mt')) : Shape keep mt mt' := by
  unfold cellEntityIndex at h
  split at h
  · cases h
  · rename_i cell hcell
    split at h
    · cases h
    · rename_i f cell' hidx
      cases h
      have hc := entityIndex_sameShape _ _ _ _ _ _ hidx
      exact shape_mapSet keep _ _ cellIndex cell cell' (mapFind_of_getCell _ _ _ hcell) rfl rfl hc

theorem addCellForSide_shape (mt mt' : MeshTopology)
    (cellIndex : IndexType) (sideOrdinal : Nat) (side : Option IndexType)
    (h : addCellForSide mt cellIndex sideOrdinal side = Except.ok mt') : Shape false mt mt' := by
  unfold addCellForSide at h
  split at h
  · cases h
  · split at h
    · cases h
      exact shape_of_cells_eq rfl
    · split at h
      · cases h
      · cases h
      · split at h
        · cases h
        · split at h
          · cases h
            exact shape_of_cells_eq rfl
          · split at h
            · cases h
              exact shape_of_cells_eq rfl
            · cases h

theorem claimSide_shape (cellIndex : IndexType) (mt mt' : MeshTopology)
    (sideOrdinal : Nat) (h : claimSide cellIndex mt sideOrdinal = Except.ok mt') :
    Shape false mt mt' := by
  unfold claimSide cellSideEntityIndex at h
  split at h
  · cases h
  · rename_i side mt1 h1
    exact shape_trans (cellEntityIndex_shape false _ _ _ _ _ _ h1)
      (addCellForSide_shape _ _ _ _ _ h)

theorem setNeighbor_shape (keep : Bool) (mt mt' : MeshTopology) (cellIndex : IndexType)
    (sideOrdinal : Nat) (n : IndexType) (ns : Nat) (allow : Bool)
    (h : setNeighbor mt cellIndex sideOrdinal n ns allow = Except.ok mt') : Shape keep mt mt' := by
  unfold setNeighbor at h
  split at h
  · cases h
  · rename_i cell hcell
    split at h
    · cases h
    · split at h
      · cases h
      · cases h
        exact shape_mapSet keep _ _ cellIndex cell _ (mapFind_of_getCell _ _ _ hcell) rfl rfl
          ⟨rfl, rfl, length_modifyAt _ _ _, fun _ _ _ hx => hx⟩

theorem setDescendantNeighbors_shape (keep : Bool) (fuel : Nat) (mt mt' : MeshTopology)
    (claimant other : IndexType × Nat)
    (h : setDescendantNeighbors fuel mt claimant other = Except.ok mt') : Shape keep mt mt' := by
  unfold setDescendantNeighbors at h
  split at h
  · cases h
  · split at h
    · split at h
      · cases h
      · exact foldExcept_shape keep _ _ (fun s a s' hs => setNeighbor_shape keep _ _ _ _ _ _ _ hs) _ _ h
    · cases h
      exact shape_refl keep _

theorem linkCompatibleNeighbors_shape (keep : Bool) (fuel : Nat) (mt mt' : MeshTopology)
    (side : IndexType) (h : linkCompatibleNeighbors fuel mt side = Except.ok mt') :
    Shape keep mt mt' := by
  unfold linkCompatibleNeighbors at h
  split at h
  · dsimp only at h
    split at h
    · cases h
    · cases h
    · split at h
      · cases h
      · rename_i mt1 h1
        split at h
        · cases h
        · rename_i mt2 h2
          split at h
          · cases h
          · rename_i mt3 h3
            have f3 : Shape keep mt2 mt3 := by
              split at h3
              · split at h3
                · split at h3
                  · cases h3
                  · cases h3
                    exact shape_of_eq keep rfl rfl
                · cases h3
                  exact shape_of_eq keep rfl rfl
              · cases h3
                exact shape_refl keep _
            split at h
            · cases h
            · rename_i mt4 h4
              exact shape_trans (setNeighbor_shape keep _ _ _ _ _ _ _ h1)
                (shape_trans (setNeighbor_shape keep _ _ _ _ _ _ _ h2)
                  (shape_trans f3
                    (shape_trans (setDescendantNeighbors_shape keep _ _ _ _ _ h4)
                      (setDescendantNeighbors_shape keep _ _ _ _ _ h))))
  · cases h

theorem linkSingleClaimant_shape (keep : Bool) (fuel : Nat) (mt mt' : MeshTopology)
    (cellIndex : IndexType) (parent : Option IndexType) (sideOrdinal : Nat) (side : IndexType)
    (h : linkSingleClaimant fuel mt cellIndex parent sideOrdinal side = Except.ok mt') :
    Shape keep mt mt' := by
  unfold linkSingleClaimant at h
  split at h
  · cases h
    exact shape_of_eq keep rfl rfl
  · split at h
    · cases h
    · split at h
      · cases h
        exact shape_refl keep _
      · split at h
        · cases h
        · exact setNeighbor_shape keep _ _ _ _ _ _ _ h
        · cases h

theorem addSideForEntity_shape (keep : Bool) (mt : MeshTopology) (d : Nat)
    (x side : IndexType) : Shape keep mt (addSideForEntity mt d x side) :=
  shape_of_eq keep rfl rfl

theorem addSideForSubEntity_shape (keep : Bool) (d : Nat) (side : IndexType)
    (mt : MeshTopology) (x : IndexType) : Shape keep mt (addSideForSubEntity d side mt x) := by
  unfold addSideForSubEntity
  split
  · exact shape_trans (addSideForEntity_shape keep _ _ _ _)
      (foldl_shape keep _ _ (fun s3 y => addSideForEntity_shape keep _ _ _ _) _)
  · exact addSideForEntity_shape keep _ _ _ _

theorem addSidesForSubEntitiesOfDim_shape (keep : Bool) (tools : CellTools)
    (side : IndexType) (mt mt' : MeshTopology) (d : Nat)
    (h : addSidesForSubEntitiesOfDim tools side mt d = Except.ok mt') : Shape keep mt mt' := by
  unfold addSidesForSubEntitiesOfDim at h
  split at h
  · cases h
  · cases h
    exact foldl_shape keep _ _ (fun s x => addSideForSubEntity_shape keep d side s x) _

theorem addSidesForSubEntities_shape (keep : Bool) (tools : CellTools)
    (mt mt' : MeshTopology) (side : IndexType)
    (h : addSidesForSubEntities tools mt side = Except.ok mt') : Shape keep mt mt' := by
  unfold addSidesForSubEntities at h
  split at h
  · cases h
  · rename_i mt1 h1
    cases h
    exact shape_trans
      (foldExcept_shape keep _ _ (fun s d s' hs => addSidesForSubEntitiesOfDim_shape keep tools side s s' d hs)
        _ _ h1)
      (addSideForEntity_shape keep _ _ _ _)

theorem linkSide_shape (keep : Bool) (tools : CellTools) (fuel : Nat)
    (cellIndex : IndexType) (parent : Option IndexType) (mt mt' : MeshTopology)
    (sideOrdinal : Nat)
    (h : linkSide tools fuel cellIndex parent mt sideOrdinal = Except.ok mt') :
    Shape keep mt mt' := by
  unfold linkSide cellSideEntityIndex at h
  split at h
  · cases h
  · cases h
  · rename_i side mt1 h1
    dsimp only at h
    split at h
    · cases h
    · rename_i mt2 h2
      have f2 : Shape keep mt1 mt2 := by
        split at h2
        · exact linkCompatibleNeighbors_shape keep _ _ _ _ h2
        · split at h2
          · exact linkSingleClaimant_shape keep _ _ _ _ _ _ _ h2
          · cases h2
            exact shape_refl keep _
      exact shape_trans (cellEntityIndex_shape keep _ _ _ _ _ _ h1)
        (shape_trans f2 (addSidesForSubEntities_shape keep _ _ _ _ h))


theorem setParent_shape (keep : Bool) (mt mt' : MeshTopology) (cellIndex : IndexType)
    (parent : Option IndexType) (h : setParent mt cellIndex parent = Except.ok mt') :
    Shape keep mt mt' := by
  unfold setParent at h
  split at h
  · cases h
  · rename_i cell hcell
    split at h
    · cases h
      exact shape_mapSet keep _ _ cellIndex cell _ (mapFind_of_getCell _ _ _ hcell) rfl rfl
        ⟨rfl, rfl, rfl, fun _ _ _ hx => hx⟩
    · split at h
      · cases h
      · cases h
        exact shape_mapSet keep _ _ cellIndex cell _ (mapFind_of_getCell _ _ _ hcell) rfl rfl
          ⟨rfl, rfl, rfl, fun _ _ _ hx => hx⟩

/-! ## The second side loop of `addCell`: lemmas -/

theorem foldExcept_append {σ α : Type} (f : σ → α → Except MeshError σ) (l1 l2 : List α)
    (s : σ) :
    foldExcept f s (l1 ++ l2)
      = match foldExcept f s l1 with
        | Except.error err => Except.error err
        | Except.ok s1 => foldExcept f s1 l2 := by
  induction l1 generalizing s with
  | nil => rfl
  | cons a t ih =>
    simp only [List.cons_append, foldExcept]
    cases f s a with
    | error err => rfl
    | ok s1 => exact ih s1

theorem range_split (s n : Nat) (h : s < n) :
    List.range n = List.range s ++ s :: List.range' (s + 1) (n - (s + 1)) := by
  have h1 : List.range' 0 s ++ List.range' (0 + s) (n - s) = List.range' 0 (n - s + s) :=
    List.range'_append_1 0 s (n - s)
  have h2 : n - s + s = n := by omega
  have h3 : n - s = (n - (s + 1)) + 1 := by omega
  rw [h2, Nat.zero_add] at h1
  rw [List.range_eq_range', List.range_eq_range', ← h1, h3, List.range'_succ]

/-- The method `addCell` as the passes of its second side loop before a side,
the pass of the side, and the passes after it. -/
theorem addCell_eq_linkSide_from (tools : CellTools) (fuel : Nat) (mt : MeshTopology)
    (cellIndex : IndexType) (cellTopo : CellTopology) (cellVertices : List IndexType)
    (parent : Option IndexType) (s : Nat) (hs : s < cellTopo.getSideCount) :
    addCell tools fuel mt cellIndex cellTopo cellVertices parent
      = match addCellBeforeLinkSide tools fuel mt cellIndex cellTopo cellVertices parent s with
        | Except.error err => Except.error err
        | Except.ok mts =>
          match linkSide tools fuel cellIndex parent mts s with
          | Except.error err => Except.error err
          | Except.ok m =>
            foldExcept (linkSide tools fuel cellIndex parent) m
              (List.range' (s + 1) (cellTopo.getSideCount - (s + 1))) := by
  unfold addCell addCellBeforeLinkSide
  cases countNewCell mt cellIndex with
  | error err => rfl
  | ok mt1 =>
    dsimp only
    cases foldExcept (addCellEntitiesOfDim tools cellIndex cellTopo cellVertices) (mt1, [])
        (List.range mt1._spaceDim) with
    | error err => rfl
    | ok r =>
      obtain ⟨mt2, perms⟩ := r
      dsimp only
      have hlast : ∀ mt4 : MeshTopology,
          (match foldExcept (claimSide cellIndex) mt4 (List.range cellTopo.getSideCount) with
            | Except.error err => Except.error err
            | Except.ok mt5 =>
              foldExcept (linkSide tools fuel cellIndex parent) mt5
                (List.range cellTopo.getSideCount))
          = (match (match foldExcept (claimSide cellIndex) mt4
                (List.range cellTopo.getSideCount) with
              | Except.error err => Except.error err
              | Except.ok mt5 =>
                foldExcept (linkSide tools fuel cellIndex parent) mt5 (List.range s)) with
            | Except.error err => Except.error err
            | Except.ok mts =>
              match linkSide tools fuel cellIndex parent mts s with
              | Except.error err => Except.error err
              | Except.ok m =>
                foldExcept (linkSide tools fuel cellIndex parent) m
                  (List.range' (s + 1) (cellTopo.getSideCount - (s + 1)))) := by
        intro mt4
        cases foldExcept (claimSide cellIndex) mt4 (List.range cellTopo.getSideCount) with
        | error err => rfl
        | ok mt5 =>
          dsimp only
          rw [range_split s _ hs, foldExcept_append]
          cases foldExcept (linkSide tools fuel cellIndex parent) mt5 (List.range s) with
          | error err => rfl
          | ok mts =>
            dsimp only
            simp only [foldExcept]
            cases linkSide tools fuel cellIndex parent mts s with
            | error err => rfl
            | ok m => rfl
      cases parent with
      | none => exact hlast _
      | some p =>
        dsimp only
        cases (insertCell mt2 cellIndex cellTopo cellVertices perms).getCell p with
        | error err => rfl
        | ok pc =>
          dsimp only
          cases setParent (insertCell mt2 cellIndex cellTopo cellVertices perms) cellIndex
              (some p) with
          | error err => rfl
          | ok mt4 => exact hlast mt4

/-- In every pass state of the second side loop of `addCell` the new cell is in
the table under its index, with its topology and one neighbour slot per side;
and the table stays well formed. -/
theorem addCellBeforeLinkSide_spec (tools : CellTools) (fuel : Nat) (mt mts : MeshTopology)
    (cellIndex : IndexType) (cellTopo : CellTopology) (cellVertices : List IndexType)
    (parent : Option IndexType) (s : Nat)
    (h : addCellBeforeLinkSide tools fuel mt cellIndex cellTopo cellVertices parent s
      = Except.ok mts) :
    (∃ cell, mapFind mts._cells cellIndex = some cell ∧ cell._cellIndex = cellIndex ∧
      cell._cellTopo = cellTopo ∧ cell._neighbors.length = cellTopo.getSideCount) ∧
    (CellsWF mt → CellsWF mts) := by
  unfold addCellBeforeLinkSide at h
  split at h
  · cases h
  · rename_i mt1 h1
    obtain ⟨_, hc1, _⟩ := countNewCell_spec _ _ _ h1
    split at h
    · cases h
    · rename_i mt2 perms h2
      have f2 : Shape false mt1 mt2 :=
        foldExcept_rel (fun (a b : MeshTopology × List (List Nat)) => Shape false a.1 b.1)
          (fun s => shape_refl false s.1) (fun _ _ _ => shape_trans) _ _
          (fun s a s' _ hs => addCellEntitiesOfDim_shape false tools cellIndex cellTopo
            cellVertices s s' a hs) _ _ h2
      dsimp only at h
      split at h
      · cases h
      · rename_i mt4 h4
        have f4 : Shape false (insertCell mt2 cellIndex cellTopo cellVertices perms) mt4 := by
          split at h4
          · cases h4
            exact shape_refl _ _
          · split at h4
            · cases h4
            · exact setParent_shape _ _ _ _ _ h4
        split at h
        · cases h
        · rename_i mt5 h5
          have f5 : Shape false mt4 mt5 :=
            foldExcept_shape _ _ _ (fun s a s' hs => claimSide_shape cellIndex s s' a hs) _ _ h5
          have f6 : Shape false mt5 mts :=
            foldExcept_shape _ _ _
              (fun s a s' hs => linkSide_shape _ tools fuel cellIndex parent s s' a hs) _ _ h
          have F := shape_trans f4 (shape_trans f5 f6)
          have h3 : mapFind (insertCell mt2 cellIndex cellTopo cellVertices perms)._cells
              cellIndex = some (newCell cellTopo cellVertices perms cellIndex) := by
            show mapFind (mapSet mt2._cells cellIndex _) cellIndex = _
            rw [mapFind_mapSet, if_pos rfl]
          constructor
          · have hF := F.cells cellIndex
            rw [h3] at hF
            cases hfin : mapFind mts._cells cellIndex with
            | none =>
              rw [hfin] at hF
              exact absurd hF (by simp [optRel])
            | some c' =>
              rw [hfin] at hF
              obtain ⟨hi, ht, hl, _⟩ := hF
              refine ⟨c', rfl, hi, ht, ?_⟩
              rw [hl]
              exact List.length_replicate _ _
          · intro hwf
            have hwf1 : CellsWF mt1 := by
              intro k cell hk
              rw [hc1] at hk
              exact hwf k cell hk
            have hwf2 : CellsWF mt2 := cellsWF_of_shape f2 hwf1
            have hwf3 : CellsWF (insertCell mt2 cellIndex cellTopo cellVertices perms) := by
              intro k cell hk
              by_cases hkc : cellIndex = k
              · subst hkc
                rw [h3] at hk
                cases hk
                exact ⟨rfl, List.length_replicate _ _⟩
              · have hk' : mapFind (mapSet mt2._cells cellIndex
                    (newCell cellTopo cellVertices perms cellIndex)) k = some cell := hk
                rw [mapFind_mapSet, if_neg hkc] at hk'
                exact hwf2 k cell hk'
            exact cellsWF_of_shape F hwf3

theorem setNeighbor_ok (mt : MeshTopology) (k : IndexType) (s : Nat) (n : IndexType) (t : Nat)
    (allow : Bool) (cell : Cell) (hcell : mapFind mt._cells k = some cell)
    (hn : n = cell._cellIndex → allow = true) (hs : s < cell._cellTopo.getSideCount) :
    setNeighbor mt k s n t allow = Except.ok { mt with
      _cells := mapSet mt._cells k
        { cell with _neighbors := modifyAt cell._neighbors s (fun _ => some (n, t)) } } := by
  unfold setNeighbor
  rw [getCell_of_mapFind _ _ _ hcell]
  dsimp only
  have h1 : ¬ (n = cell._cellIndex ∧ allow = false) := by
    intro hcon
    have := hn hcon.1
    rw [hcon.2] at this
    cases this
  rw [if_neg h1, if_neg (Nat.not_le.2 hs)]
  rfl

theorem entityIndex_neighbors (mt : MeshTopology) (cell cell' : Cell) (d ord : Nat)
    (found : Option IndexType)
    (h : Cell.entityIndex mt cell d ord = Except.ok (found, cell')) :
    cell'._neighbors = cell._neighbors := by
  unfold Cell.entityIndex at h
  dsimp only at h
  split at h
  · cases h
    rfl
  · split at h
    · cases h
    · split at h
      · cases h
      · cases h
        rfl
      · split at h
        · cases h
        · split at h
          · cases h
          · cases h
            rfl

/-- The side-entity lookup of a cell fills the cache of the cell and nothing else. -/
theorem cellEntityIndex_inv (mt mt' : MeshTopology) (cellIndex : IndexType) (d ord : Nat)
    (found : Option IndexType)
    (h : cellEntityIndex mt cellIndex d ord = Except.ok (found, mt')) :
    ∃ cell cell', mapFind mt._cells cellIndex = some cell ∧
      Cell.entityIndex mt cell d ord = Except.ok (found, cell') ∧
      mt' = { mt with _cells := mapSet mt._cells cellIndex cell' } := by
  unfold cellEntityIndex at h
  split at h
  · cases h
  · rename_i cell hcell
    split at h
    · cases h
    · rename_i f cell' hidx
      cases h
      exact ⟨cell, cell', mapFind_of_getCell _ _ _ hcell, hidx, rfl⟩

theorem addSideForSubEntity_cells (d : Nat) (side : IndexType) (mt : MeshTopology)
    (x : IndexType) : (addSideForSubEntity d side mt x)._cells = mt._cells ∧
      (addSideForSubEntity d side mt x)._boundarySides = mt._boundarySides := by
  unfold addSideForSubEntity
  split
  · have hfold := foldl_rel (fun (a b : MeshTopology) =>
        b._cells = a._cells ∧ b._boundarySides = a._boundarySides)
      (fun _ => ⟨rfl, rfl⟩) (fun _ _ _ h1 h2 => ⟨h2.1.trans h1.1, h2.2.trans h1.2⟩)
      (fun acc equivalentNode => addSideForEntity acc d equivalentNode side)
      (periodicEquivalents (addSideForEntity mt d x side) x)
      (fun _ _ => ⟨rfl, rfl⟩) (addSideForEntity mt d x side)
    exact hfold
  · exact ⟨rfl, rfl⟩

/-- The registration of a side for its sub-entities leaves the cell table and
the boundary sides. -/
theorem addSidesForSubEntities_cells (tools : CellTools) (mt mt' : MeshTopology)
    (side : IndexType) (h : addSidesForSubEntities tools mt side = Except.ok mt') :
    mt'._cells = mt._cells ∧ mt'._boundarySides = mt._boundarySides := by
  unfold addSidesForSubEntities at h
  split at h
  · cases h
  · rename_i mt1 h1
    cases h
    have hfold : mt1._cells = mt._cells ∧ mt1._boundarySides = mt._boundarySides :=
      foldExcept_rel (fun (a b : MeshTopology) =>
          b._cells = a._cells ∧ b._boundarySides = a._boundarySides)
        (fun _ => ⟨rfl, rfl⟩) (fun _ _ _ h1 h2 => ⟨h2.1.trans h1.1, h2.2.trans h1.2⟩) _ _
        (fun s d s' _ hs => by
          unfold addSidesForSubEntitiesOfDim at hs
          split at hs
          · cases hs
          · cases hs
            exact foldl_rel (fun (a b : MeshTopology) =>
                b._cells = a._cells ∧ b._boundarySides = a._boundarySides)
              (fun _ => ⟨rfl, rfl⟩) (fun _ _ _ h1 h2 => ⟨h2.1.trans h1.1, h2.2.trans h1.2⟩) _ _
              (fun s x => addSideForSubEntity_cells d side s x) _) _ _ h1
    exact hfold

/-! ## Stored neighbours through the second side loop: lemmas -/

/-- A cached index is what `Cell::entityIndex` returns. -/
theorem entityIndex_of_cached (mt : MeshTopology) (cell : Cell) (d ord : Nat)
    (x : Option IndexType) (hnot : ¬ (d = cell._cellTopo.getDimension ∧ ord = 0))
    (hx : cell.cached d ord x) :
    ∃ cell', Cell.entityIndex mt cell d ord = Except.ok (x, cell') := by
  obtain ⟨r, hr, hrx⟩ := hx
  have hlen : ¬ cell._entityIndices.length = 0 := by
    intro h0
    rw [List.length_eq_zero.1 h0] at hr
    cases hr
  have hrl : ¬ r.length = 0 := by
    intro h0
    rw [List.length_eq_zero.1 h0] at hrx
    cases hrx
  unfold Cell.entityIndex
  dsimp only
  rw [if_neg hnot, if_neg hlen]
  simp only [hr, if_neg hrl, hrx]
  exact ⟨_, rfl⟩

theorem eq_ok_lookupStateOf (mt : MeshTopology)
    (r : Except MeshError (Option IndexType × MeshTopology)) (x : Option IndexType)
    (h : r.map Prod.fst = Except.ok x) : r = Except.ok (x, lookupStateOf mt r) := by
  cases r with
  | error err => cases h
  | ok q =>
    obtain ⟨q1, q2⟩ := q
    cases h
    rfl

theorem mem_of_mapFind {V : Type} (l : List (IndexType × V)) (k : IndexType) (v : V)
    (h : mapFind l k = some v) : (k, v) ∈ l := by
  induction l with
  | nil => cases h
  | cons p t ih =>
    obtain ⟨k', v'⟩ := p
    unfold mapFind at h
    split at h
    · rename_i hk
      cases h
      rw [hk]
      exact List.mem_cons_self _ _
    · exact List.mem_cons_of_mem _ (ih h)

theorem steady_refl (kc kb : Bool) (mt : MeshTopology) : Steady kc kb mt mt :=
  ⟨rfl, rfl, fun _ => rfl, fun _ => rfl⟩

theorem steady_of_eq (kc kb : Bool) {mt mt' : MeshTopology}
    (h1 : mt'._pruningOrdinal = mt._pruningOrdinal) (h2 : mt'._spaceDim = mt._spaceDim)
    (h3 : mt'._childEntities = mt._childEntities)
    (h4 : mt'._boundarySides = mt._boundarySides) : Steady kc kb mt mt' :=
  ⟨h1, h2, fun _ => h3, fun _ => h4⟩

theorem steady_trans {kc kb : Bool} {a b c : MeshTopology}
    (h1 : Steady kc kb a b) (h2 : Steady kc kb b c) : Steady kc kb a c :=
  ⟨h2.ordinal.trans h1.ordinal, h2.dim.trans h1.dim,
    fun hk => (h2.childEntities hk).trans (h1.childEntities hk),
    fun hk => (h2.boundary hk).trans (h1.boundary hk)⟩

theorem steady_weaken {kc kb : Bool} {a b : MeshTopology} (kc' kb' : Bool)
    (hc : kc' = true → kc = true) (hb : kb' = true → kb = true)
    (h : Steady kc kb a b) : Steady kc' kb' a b :=
  ⟨h.ordinal, h.dim, fun hk => h.childEntities (hc hk), fun hk => h.boundary (hb hk)⟩

theorem steady_keep_children (kc : Bool) {mt mt' : MeshTopology}
    (h1 : mt'._pruningOrdinal = mt._pruningOrdinal) (h2 : mt'._spaceDim = mt._spaceDim)
    (h3 : mt'._childEntities = mt._childEntities) : Steady kc false mt mt' :=
  ⟨h1, h2, fun _ => h3, fun hk => Bool.noConfusion hk⟩

theorem steady_keep_none {mt mt' : MeshTopology}
    (h1 : mt'._pruningOrdinal = mt._pruningOrdinal) (h2 : mt'._spaceDim = mt._spaceDim) :
    Steady false false mt mt' :=
  ⟨h1, h2, fun hk => Bool.noConfusion hk, fun hk => Bool.noConfusion hk⟩

theorem foldExcept_steady {α : Type} (kc kb : Bool)
    (f : MeshTopology → α → Except MeshError MeshTopology) (l : List α)
    (hf : ∀ s a s', f s a = Except.ok s' → Steady kc kb s s') (s s' : MeshTopology)
    (h : foldExcept f s l = Except.ok s') : Steady kc kb s s' :=
  foldExcept_rel (Steady kc kb) (steady_refl kc kb) (fun _ _ _ => steady_trans) f l
    (fun s a s' _ => hf s a s') s s' h

theorem foldl_steady {α : Type} (kc kb : Bool) (f : MeshTopology → α → MeshTopology)
    (l : List α) (hf : ∀ s a, Steady kc kb s (f s a)) (s : MeshTopology) :
    Steady kc kb s (l.foldl f s) :=
  foldl_rel (Steady kc kb) (steady_refl kc kb) (fun _ _ _ => steady_trans) f l hf s

theorem addNewEntity_steady (kc kb : Bool) (mt : MeshTopology) (topo : CellTopology)
    (vs sv : List IndexType) : Steady kc kb mt (addNewEntity mt topo vs sv) :=
  steady_of_eq kc kb rfl rfl rfl rfl

theorem addEntity_steady (kc kb : Bool) (tools : CellTools) (mt mt' : MeshTopology)
    (topo : CellTopology) (vs : List IndexType) (i : IndexType) (p : Nat)
    (h : addEntity tools mt topo vs = Except.ok (mt', i, p)) : Steady kc kb mt mt' := by
  rcases (addEntity_ok_cases tools mt mt' topo vs i p h).2 with ⟨_, h1, _⟩ | ⟨_, h1⟩
  · rw [h1]
    exact addNewEntity_steady kc kb mt topo vs _
  · rw [h1]
    exact steady_refl kc kb mt

theorem pushActiveCell_steady (kc kb : Bool) (mt : MeshTopology) (d : Nat)
    (x : IndexType) (entry : IndexType × Nat) : Steady kc kb mt (pushActiveCell mt d x entry) :=
  steady_of_eq kc kb rfl rfl rfl rfl

theorem addCellEntity_steady (kc kb : Bool) (tools : CellTools) (cellIndex : IndexType)
    (cellTopo : CellTopology) (cellVertices : List IndexType) (d : Nat)
    (st st' : MeshTopology × List (List Nat)) (j : Nat)
    (h : addCellEntity tools cellIndex cellTopo cellVertices d st j = Except.ok st') :
    Steady kc kb st.1 st'.1 := by
  unfold addCellEntity at h
  split at h
  · cases h
  · cases h
  · split at h
    · cases h
    · rename_i mt1 ei ep hadd
      have h1 := addEntity_steady kc kb _ _ _ _ _ _ _ hadd
      simp only [pure, Except.pure, Except.ok.injEq] at h
      subst h
      refine steady_trans h1 (steady_trans (pushActiveCell_steady kc kb mt1 d ei (cellIndex, j)) ?_)
      dsimp only
      split
      · exact foldl_steady kc kb _ _ (fun s a => pushActiveCell_steady kc kb s d a _) _
      · exact steady_refl kc kb _

theorem addCellEntitiesOfDim_steady (kc kb : Bool) (tools : CellTools)
    (cellIndex : IndexType) (cellTopo : CellTopology) (cellVertices : List IndexType)
    (st st' : MeshTopology × List (List Nat)) (d : Nat)
    (h : addCellEntitiesOfDim tools cellIndex cellTopo cellVertices st d = Except.ok st') :
    Steady kc kb st.1 st'.1 := by
  unfold addCellEntitiesOfDim at h
  exact foldExcept_rel (fun a b => Steady kc kb a.1 b.1) (fun s => steady_refl kc kb s.1)
    (fun _ _ _ => steady_trans) _ _
    (fun s a s' _ hs => addCellEntity_steady kc kb tools cellIndex cellTopo cellVertices d s s' a hs)
    _ _ h

theorem cellEntityIndex_steady (kc kb : Bool) (mt mt' : MeshTopology)
    (cellIndex : IndexType) (d ord : Nat) (found : Option IndexType)
    (h : cellEntityIndex mt cellIndex d ord = Except.ok (found, mt')) : Steady kc kb mt mt' := by
  unfold cellEntityIndex at h
  split at h
  · cases h
  · rename_i cell hcell
    split at h
    · cases h
    · rename_i f cell' hidx
      cases h
      exact steady_of_eq _ _ rfl rfl rfl rfl

theorem addCellForSide_steady (kc kb : Bool) (mt mt' : MeshTopology)
    (cellIndex : IndexType) (sideOrdinal : Nat) (side : Option IndexType)
    (h : addCellForSide mt cellIndex sideOrdinal side = Except.ok mt') : Steady kc kb mt mt' := by
  unfold addCellForSide at h
  split at h
  · cases h
  · split at h
    · cases h
      exact steady_of_eq kc kb rfl rfl rfl rfl
    · split at h
      · cases h
      · cases h
      · split at h
        · cases h
        · split at h
          · cases h
            exact steady_of_eq kc kb rfl rfl rfl rfl
          · split at h
            · cases h
              exact steady_of_eq kc kb rfl rfl rfl rfl
            · cases h

theorem claimSide_steady (kc kb : Bool) (cellIndex : IndexType) (mt mt' : MeshTopology)
    (sideOrdinal : Nat) (h : claimSide cellIndex mt sideOrdinal = Except.ok mt') :
    Steady kc kb mt mt' := by
  unfold claimSide cellSideEntityIndex at h
  split at h
  · cases h
  · rename_i side mt1 h1
    exact steady_trans (cellEntityIndex_steady kc kb _ _ _ _ _ _ h1)
      (addCellForSide_steady kc kb _ _ _ _ _ h)

theorem setNeighbor_steady (kc kb : Bool) (mt mt' : MeshTopology) (cellIndex : IndexType)
    (sideOrdinal : Nat) (n : IndexType) (ns : Nat) (allow : Bool)
    (h : setNeighbor mt cellIndex sideOrdinal n ns allow = Except.ok mt') : Steady kc kb mt mt' := by
  unfold setNeighbor at h
  split at h
  · cases h
  · rename_i cell hcell
    split at h
    · cases h
    · split at h
      · cases h
      · cases h
        exact steady_of_eq _ _ rfl rfl rfl rfl

theorem setDescendantNeighbors_steady (kc kb : Bool) (fuel : Nat) (mt mt' : MeshTopology)
    (claimant other : IndexType × Nat)
    (h : setDescendantNeighbors fuel mt claimant other = Except.ok mt') : Steady kc kb mt mt' := by
  unfold setDescendantNeighbors at h
  split at h
  · cases h
  · split at h
    · split at h
      · cases h
      · exact foldExcept_steady kc kb _ _ (fun s a s' hs => setNeighbor_steady kc kb _ _ _ _ _ _ _ hs) _ _ h
    · cases h
      exact steady_refl kc kb _

theorem linkCompatibleNeighbors_steady (kc : Bool) (fuel : Nat) (mt mt' : MeshTopology)
    (side : IndexType) (h : linkCompatibleNeighbors fuel mt side = Except.ok mt') :
    Steady kc false mt mt' := by
  unfold linkCompatibleNeighbors at h
  split at h
  · dsimp only at h
    split at h
    · cases h
    · cases h
    · split at h
      · cases h
      · rename_i mt1 h1
        split at h
        · cases h
        · rename_i mt2 h2
          split at h
          · cases h
          · rename_i mt3 h3
            have f3 : Steady kc false mt2 mt3 := by
              split at h3
              · split at h3
                · split at h3
                  · cases h3
                  · cases h3
                    exact steady_keep_children kc rfl rfl rfl
                · cases h3
                  exact steady_keep_children kc rfl rfl rfl
              · cases h3
                exact steady_refl kc false _
            split at h
            · cases h
            · rename_i mt4 h4
              exact steady_trans (setNeighbor_steady kc false _ _ _ _ _ _ _ h1)
                (steady_trans (setNeighbor_steady kc false _ _ _ _ _ _ _ h2)
                  (steady_trans f3
                    (steady_trans (setDescendantNeighbors_steady kc false _ _ _ _ _ h4)
                      (setDescendantNeighbors_steady kc false _ _ _ _ _ h))))
  · cases h

theorem linkSingleClaimant_steady (kc : Bool) (fuel : Nat) (mt mt' : MeshTopology)
    (cellIndex : IndexType) (parent : Option IndexType) (sideOrdinal : Nat) (side : IndexType)
    (h : linkSingleClaimant fuel mt cellIndex parent sideOrdinal side = Except.ok mt') :
    Steady kc false mt mt' := by
  unfold linkSingleClaimant at h
  split at h
  · cases h
    exact steady_keep_children kc rfl rfl rfl
  · split at h
    · cases h
    · split at h
      · cases h
        exact steady_refl kc false _
      · split at h
        · cases h
        · exact setNeighbor_steady kc false _ _ _ _ _ _ _ h
        · cases h

theorem addSideForEntity_steady (kc kb : Bool) (mt : MeshTopology) (d : Nat)
    (x side : IndexType) : Steady kc kb mt (addSideForEntity mt d x side) :=
  steady_of_eq kc kb rfl rfl rfl rfl

theorem addSideForSubEntity_steady (kc kb : Bool) (d : Nat) (side : IndexType)
    (mt : MeshTopology) (x : IndexType) : Steady kc kb mt (addSideForSubEntity d side mt x) := by
  unfold addSideForSubEntity
  split
  · exact steady_trans (addSideForEntity_steady kc kb _ _ _ _)
      (foldl_steady kc kb _ _ (fun s3 y => addSideForEntity_steady kc kb _ _ _ _) _)
  · exact addSideForEntity_steady kc kb _ _ _ _

theorem addSidesForSubEntitiesOfDim_steady (kc kb : Bool) (tools : CellTools)
    (side : IndexType) (mt mt' : MeshTopology) (d : Nat)
    (h : addSidesForSubEntitiesOfDim tools side mt d = Except.ok mt') : Steady kc kb mt mt' := by
  unfold addSidesForSubEntitiesOfDim at h
  split at h
  · cases h
  · cases h
    exact foldl_steady kc kb _ _ (fun s x => addSideForSubEntity_steady kc kb d side s x) _

theorem addSidesForSubEntities_steady (kc kb : Bool) (tools : CellTools)
    (mt mt' : MeshTopology) (side : IndexType)
    (h : addSidesForSubEntities tools mt side = Except.ok mt') : Steady kc kb mt mt' := by
  unfold addSidesForSubEntities at h
  split at h
  · cases h
  · rename_i mt1 h1
    cases h
    exact steady_trans
      (foldExcept_steady kc kb _ _ (fun s d s' hs => addSidesForSubEntitiesOfDim_steady kc kb tools side s s' d hs)
        _ _ h1)
      (addSideForEntity_steady kc kb _ _ _ _)

theorem linkSide_steady (kc : Bool) (tools : CellTools) (fuel : Nat)
    (cellIndex : IndexType) (parent : Option IndexType) (mt mt' : MeshTopology)
    (sideOrdinal : Nat)
    (h : linkSide tools fuel cellIndex parent mt sideOrdinal = Except.ok mt') :
    Steady kc false mt mt' := by
  unfold linkSide cellSideEntityIndex at h
  split at h
  · cases h
  · cases h
  · rename_i side mt1 h1
    dsimp only at h
    split at h
    · cases h
    · rename_i mt2 h2
      have f2 : Steady kc false mt1 mt2 := by
        split at h2
        · exact linkCompatibleNeighbors_steady kc _ _ _ _ h2
        · split at h2
          · exact linkSingleClaimant_steady kc _ _ _ _ _ _ _ h2
          · cases h2
            exact steady_refl kc false _
      exact steady_trans (cellEntityIndex_steady kc false _ _ _ _ _ _ h1)
        (steady_trans f2 (addSidesForSubEntities_steady kc false _ _ _ _ h))

theorem recordPeriodicMatch_steady (kc kb : Bool) (vertex : Point) (vertexIndex : IndexType)
    (st : MeshTopology × Bool) (bc : Nat × PeriodicBC × Nat) :
    Steady kc kb st.1 (recordPeriodicMatch vertex vertexIndex st bc).1 := by
  unfold recordPeriodicMatch
  dsimp only
  split
  · exact steady_refl kc kb _
  · exact steady_of_eq kc kb rfl rfl rfl rfl

theorem getVertexIndexAdding_steady (kc kb : Bool) (mt : MeshTopology) (vertex : Point) :
    Steady kc kb mt (getVertexIndexAdding mt vertex).1 := by
  unfold getVertexIndexAdding
  split
  · exact steady_refl kc kb _
  · dsimp only
    have hloop : ∀ (l : List (Nat × PeriodicBC × Nat)) (s : MeshTopology) (b : Bool),
        Steady kc kb s (l.foldl (recordPeriodicMatch vertex mt._vertices.length) (s, b)).1 :=
      fun l s b => foldl_rel (fun (x y : MeshTopology × Bool) => Steady kc kb x.1 y.1)
        (fun s => steady_refl kc kb s.1) (fun _ _ _ => steady_trans) _ l
        (fun s a => recordPeriodicMatch_steady kc kb vertex _ s a) (s, b)
    split
    · refine steady_trans ?_ (hloop _ _ _)
      exact steady_of_eq kc kb rfl rfl rfl rfl
    · refine steady_trans (steady_trans ?_ (hloop _ _ _)) (steady_of_eq kc kb rfl rfl rfl rfl)
      exact steady_of_eq kc kb rfl rfl rfl rfl

theorem getVertexIndices_steady (kc kb : Bool) (mt : MeshTopology) (vertices : List Point) :
    Steady kc kb mt (getVertexIndices mt vertices).1 := by
  unfold getVertexIndices
  exact foldl_rel (fun (a b : MeshTopology × List IndexType) => Steady kc kb a.1 b.1)
    (fun s => steady_refl kc kb s.1) (fun _ _ _ => steady_trans) _ vertices
    (fun s a => getVertexIndexAdding_steady kc kb s.1 a) (mt, [])

theorem addChildEntity_steady (kc kb : Bool) (tools : CellTools) (d : Nat)
    (parentIndex : IndexType) (childTopo : CellTopology)
    (st st' : MeshTopology × List (Option IndexType)) (physicalNodes : List Point)
    (h : addChildEntity tools d parentIndex childTopo st physicalNodes = Except.ok st') :
    Steady kc kb st.1 st'.1 := by
  unfold addChildEntity at h
  dsimp only at h
  split at h
  · cases h
  · rename_i mt1 child p hadd
    have h1 := addEntity_steady kc kb _ _ _ _ _ _ _ hadd
    simp only [pure, Except.pure, Except.ok.injEq] at h
    subst h
    refine steady_trans (getVertexIndices_steady kc kb st.1 physicalNodes) (steady_trans h1 ?_)
    dsimp only
    split
    · exact steady_of_eq kc kb rfl rfl rfl rfl
    · exact steady_refl kc kb _

theorem refineCellEntity_steady (tools : CellTools) (cellIndex : IndexType)
    (cellTopo : CellTopology) (nodesOfCell : List Point) (refPattern : RefinementPattern)
    (d : Nat) (mt mt' : MeshTopology) (subcord : Nat)
    (h : refineCellEntity tools cellIndex cellTopo nodesOfCell refPattern d mt subcord
      = Except.ok mt') : Steady false false mt mt' := by
  unfold refineCellEntity at h
  split at h
  · cases h
  · dsimp only at h
    split at h
    · cases h
      exact steady_refl false false _
    · split at h
      · cases h
      · cases h
      · rename_i parentIndex mt1 h1
        have f1 := cellEntityIndex_steady false false _ _ _ _ _ _ h1
        split at h
        · cases h
        · cases h
          exact f1
        · split at h
          · cases h
          · split at h
            · cases h
            · split at h
              · cases h
              · rename_i mt2 childEntityIndices h2
                have f2 : Steady false false mt1 mt2 :=
                  foldExcept_rel (fun (a b : MeshTopology × List (Option IndexType)) =>
                      Steady false false a.1 b.1)
                    (fun s => steady_refl false false s.1) (fun _ _ _ => steady_trans) _ _
                    (fun s a s' _ hs => addChildEntity_steady false false tools d parentIndex _ s s' a hs)
                    _ _ h2
                split at h
                · cases h
                  exact steady_trans f1 (steady_trans f2 (steady_keep_none rfl rfl))
                · cases h
                  exact steady_trans f1 (steady_trans f2 (steady_keep_none rfl rfl))

theorem refineCellEntitiesOfDim_steady (tools : CellTools)
    (cellIndex : IndexType) (cellTopo : CellTopology) (nodesOfCell : List Point)
    (refPattern : RefinementPattern) (mt mt' : MeshTopology) (d : Nat)
    (h : refineCellEntitiesOfDim tools cellIndex cellTopo nodesOfCell refPattern mt d
      = Except.ok mt') : Steady false false mt mt' := by
  unfold refineCellEntitiesOfDim at h
  exact foldExcept_steady false false _ _
    (fun s a s' hs => refineCellEntity_steady tools cellIndex cellTopo nodesOfCell refPattern d
      s s' a hs) _ _ h

theorem refineCellEntities_steady (tools : CellTools)
    (mt mt' : MeshTopology) (cellIndex : IndexType) (refPattern : RefinementPattern)
    (h : refineCellEntities tools mt cellIndex refPattern = Except.ok mt') : Steady false false mt mt' := by
  unfold refineCellEntities at h
  split at h
  · cases h
  · split at h
    · cases h
    · exact foldExcept_steady false false _ _
        (fun s a s' hs => refineCellEntitiesOfDim_steady tools cellIndex _ _ refPattern s s' a hs)
        _ _ h

theorem setEntityGeneralizedParent_steady (kc kb : Bool) (mt mt' : MeshTopology)
    (entityDim : Nat) (entityIndex : IndexType) (parentDim : Nat) (parentEntityIndex : IndexType)
    (h : setEntityGeneralizedParent mt entityDim entityIndex parentDim parentEntityIndex
      = Except.ok mt') : Steady kc kb mt mt' := by
  unfold setEntityGeneralizedParent at h
  split at h
  · cases h
  · dsimp only at h
    split at h
    · cases h
      refine steady_trans ?_ (foldl_steady kc kb _ _ ?_ _)
      · exact steady_of_eq kc kb rfl rfl rfl rfl
      · intro s a
        exact steady_of_eq kc kb rfl rfl rfl rfl
    · cases h
      exact steady_of_eq kc kb rfl rfl rfl rfl

theorem setSubEntityGeneralizedParent_steady (kc kb : Bool) (tools : CellTools) (d : Nat)
    (parentIndex : IndexType) (parentVertexIndices : List IndexType) (child : IndexType)
    (subcdim : Nat) (mt mt' : MeshTopology) (subcord : Nat)
    (h : setSubEntityGeneralizedParent tools d parentIndex parentVertexIndices child subcdim mt
      subcord = Except.ok mt') : Steady kc kb mt mt' := by
  unfold setSubEntityGeneralizedParent at h
  split at h
  · cases h
  · split at h
    · cases h
      exact steady_refl kc kb _
    · split at h
      · split at h
        · cases h
          exact steady_refl kc kb _
        · exact setEntityGeneralizedParent_steady kc kb _ _ _ _ _ _ h
      · exact setEntityGeneralizedParent_steady kc kb _ _ _ _ _ _ h

theorem setSubEntityGeneralizedParentsOfDim_steady (kc kb : Bool) (tools : CellTools)
    (d : Nat) (parentIndex : IndexType) (parentVertexIndices : List IndexType)
    (child : IndexType) (mt mt' : MeshTopology) (subcdim : Nat)
    (h : setSubEntityGeneralizedParentsOfDim tools d parentIndex parentVertexIndices child mt
      subcdim = Except.ok mt') : Steady kc kb mt mt' := by
  unfold setSubEntityGeneralizedParentsOfDim at h
  split at h
  · cases h
  · exact foldExcept_steady kc kb _ _
      (fun s a s' hs => setSubEntityGeneralizedParent_steady kc kb tools d parentIndex
        parentVertexIndices child subcdim s s' a hs) _ _ h

theorem setChildGeneralizedParents_steady (kc kb : Bool) (tools : CellTools) (d : Nat)
    (parentIndex : IndexType) (parentVertexIndices : List IndexType) (mt mt' : MeshTopology)
    (childEntityIndex : Option IndexType)
    (h : setChildGeneralizedParents tools d parentIndex parentVertexIndices mt childEntityIndex
      = Except.ok mt') : Steady kc kb mt mt' := by
  unfold setChildGeneralizedParents at h
  split at h
  · cases h
  · rename_i child
    split at h
    · cases h
      exact steady_refl kc kb _
    · split at h
      · cases h
      · rename_i mt1 h1
        exact steady_trans (setEntityGeneralizedParent_steady kc kb _ _ _ _ _ _ h1)
          (foldExcept_steady kc kb _ _
            (fun s a s' hs => setSubEntityGeneralizedParentsOfDim_steady kc kb tools d parentIndex
              parentVertexIndices child s s' a hs) _ _ h)

theorem determineGeneralizedParentsForSubcell_steady (kc kb : Bool) (tools : CellTools)
    (cellIndex : IndexType) (refPattern : RefinementPattern) (d : Nat) (mt mt' : MeshTopology)
    (subcord : Nat)
    (h : determineGeneralizedParentsForSubcell tools cellIndex refPattern d mt subcord
      = Except.ok mt') : Steady kc kb mt mt' := by
  unfold determineGeneralizedParentsForSubcell at h
  split at h
  · cases h
  · split at h
    · cases h
      exact steady_refl kc kb _
    · split at h
      · cases h
      · cases h
      · rename_i parentIndex mt1 h1
        split at h
        · cases h
        · rename_i parentVertexIndices _
          exact steady_trans (cellEntityIndex_steady kc kb _ _ _ _ _ _ h1)
            (foldExcept_steady kc kb _ _
              (fun s a s' hs => setChildGeneralizedParents_steady kc kb tools d parentIndex
                parentVertexIndices s s' a hs) _ _ h)

theorem determineGeneralizedParentsOfDim_steady (kc kb : Bool) (tools : CellTools)
    (cellIndex : IndexType) (cellTopo : CellTopology) (refPattern : RefinementPattern)
    (mt mt' : MeshTopology) (d : Nat)
    (h : determineGeneralizedParentsOfDim tools cellIndex cellTopo refPattern mt d
      = Except.ok mt') : Steady kc kb mt mt' := by
  unfold determineGeneralizedParentsOfDim at h
  exact foldExcept_steady kc kb _ _
    (fun s a s' hs => determineGeneralizedParentsForSubcell_steady kc kb tools cellIndex refPattern d
      s s' a hs) _ _ h

theorem determineGeneralizedParentsForRefinement_steady (kc kb : Bool)
    (tools : CellTools) (mt mt' : MeshTopology) (cellIndex : IndexType)
    (refPattern : RefinementPattern)
    (h : determineGeneralizedParentsForRefinement tools mt cellIndex refPattern = Except.ok mt') :
    Steady kc kb mt mt' := by
  unfold determineGeneralizedParentsForRefinement at h
  split at h
  · cases h
  · split at h
    · cases h
    · exact foldExcept_steady kc kb _ _
        (fun s a s' hs => determineGeneralizedParentsOfDim_steady kc kb tools cellIndex _ refPattern
          s s' a hs) _ _ h

theorem eraseActiveCellEntries_steady (kc kb : Bool) (mt : MeshTopology) (d : Nat)
    (x : IndexType) (entry : IndexType × Nat) (stop : Nat) :
    Steady kc kb mt (eraseActiveCellEntries mt d x entry stop) := by
  unfold eraseActiveCellEntries
  split
  · exact steady_refl kc kb _
  · exact steady_of_eq kc kb rfl rfl rfl rfl

theorem deactivateCellEntity_steady (kc kb : Bool) (cell : Cell) (d : Nat)
    (mt mt' : MeshTopology) (j : Nat)
    (h : deactivateCellEntity cell d mt j = Except.ok mt') : Steady kc kb mt mt' := by
  unfold deactivateCellEntity at h
  split at h
  · cases h
  · split at h
    · cases h
    · cases h
    · dsimp only at h
      split at h
      · cases h
        refine steady_trans ?_
          (foldl_steady kc kb _ _ (fun s a => eraseActiveCellEntries_steady kc kb s _ a _ _) _)
        exact eraseActiveCellEntries_steady kc kb _ _ _ _ _
      · cases h
        exact eraseActiveCellEntries_steady kc kb _ _ _ _ _

theorem deactivateCellEntitiesOfDim_steady (kc kb : Bool) (cell : Cell)
    (mt mt' : MeshTopology) (d : Nat)
    (h : deactivateCellEntitiesOfDim cell mt d = Except.ok mt') : Steady kc kb mt mt' := by
  unfold deactivateCellEntitiesOfDim at h
  exact foldExcept_steady kc kb _ _
    (fun s a s' hs => deactivateCellEntity_steady kc kb cell d s s' a hs) _ _ h

theorem setParent_steady (kc kb : Bool) (mt mt' : MeshTopology) (cellIndex : IndexType)
    (parent : Option IndexType) (h : setParent mt cellIndex parent = Except.ok mt') :
    Steady kc kb mt mt' := by
  unfold setParent at h
  split at h
  · cases h
  · rename_i cell hcell
    split at h
    · cases h
      exact steady_of_eq _ _ rfl rfl rfl rfl
    · split at h
      · cases h
      · cases h
        exact steady_of_eq _ _ rfl rfl rfl rfl

theorem countNewCell_steady (kc kb : Bool) (mt mt1 : MeshTopology) (cellIndex : IndexType)
    (h : countNewCell mt cellIndex = Except.ok mt1) : Steady kc kb mt mt1 := by
  unfold countNewCell at h
  split at h
  · cases h
  · split at h
    · cases h
      exact steady_refl kc kb _
    · split at h
      · cases h
        exact steady_of_eq kc kb rfl rfl rfl rfl
      · cases h

theorem addCell_steady (kc : Bool) (tools : CellTools) (fuel : Nat) (mt mt' : MeshTopology)
    (cellIndex : IndexType) (cellTopo : CellTopology) (cellVertices : List IndexType)
    (parent : Option IndexType)
    (h : addCell tools fuel mt cellIndex cellTopo cellVertices parent = Except.ok mt') :
    Steady kc false mt mt' := by
  unfold addCell at h
  split at h
  · cases h
  · rename_i mt1 h1
    have f1 := countNewCell_steady kc false _ _ _ h1
    split at h
    · cases h
    · rename_i mt2 perms h2
      have f2 : Steady kc false mt1 mt2 :=
        foldExcept_rel (fun (a b : MeshTopology × List (List Nat)) => Steady kc false a.1 b.1)
          (fun s => steady_refl kc false s.1) (fun _ _ _ => steady_trans) _ _
          (fun s a s' _ hs => addCellEntitiesOfDim_steady kc false tools cellIndex cellTopo
            cellVertices s s' a hs) _ _ h2
      dsimp only at h
      split at h
      · cases h
      · rename_i mt4 h4
        have f3 : Steady kc false mt2 (insertCell mt2 cellIndex cellTopo cellVertices perms) :=
          steady_of_eq kc false rfl rfl rfl rfl
        have f4 : Steady kc false (insertCell mt2 cellIndex cellTopo cellVertices perms) mt4 := by
          split at h4
          · cases h4
            exact steady_refl _ _ _
          · split at h4
            · cases h4
            · exact setParent_steady _ _ _ _ _ _ h4
        split at h
        · cases h
        · rename_i mt5 h5
          have f5 : Steady kc false mt4 mt5 :=
            foldExcept_steady _ _ _ _ (fun s a s' hs => claimSide_steady _ _ cellIndex s s' a hs)
              _ _ h5
          have f6 : Steady kc false mt5 mt' :=
            foldExcept_steady _ _ _ _
              (fun s a s' hs => linkSide_steady _ tools fuel cellIndex parent s s' a hs) _ _ h
          exact steady_trans f1 (steady_trans f2 (steady_trans f3
            (steady_trans f4 (steady_trans f5 f6))))

theorem linkChild_steady (kc kb : Bool) (parentIndex : IndexType) (mt mt' : MeshTopology)
    (entry : Nat × IndexType) (h : linkChild parentIndex mt entry = Except.ok mt') :
    Steady kc kb mt mt' := by
  unfold linkChild at h
  split at h
  · split at h
    · cases h
    · split at h
      · cases h
      · rename_i mt1 h1
        split at h
        · cases h
        · cases h
          exact steady_trans (setParent_steady kc kb _ _ _ _ h1)
            (steady_of_eq kc kb rfl rfl rfl rfl)
  · cases h
    exact steady_refl kc kb _

theorem setChildren_steady (kc kb : Bool) (mt mt' : MeshTopology) (parentIndex : IndexType)
    (childIndices : List IndexType) (h : setChildren mt parentIndex childIndices = Except.ok mt') :
    Steady kc kb mt mt' := by
  unfold setChildren at h
  split at h
  · cases h
  · rename_i parentCell _
    have f0 : Steady kc kb mt
        { mt with
          _cells := mapSet mt._cells parentIndex
            { parentCell with
              _childIndices := childIndices
              _children := resizeTo parentCell._children childIndices.length none } } :=
      steady_of_eq kc kb rfl rfl rfl rfl
    exact steady_trans f0
      (foldExcept_steady kc kb _ _ (fun s a s' hs => linkChild_steady kc kb parentIndex s s' a hs)
        _ _ h)

theorem deactivateCell_steady (kc kb : Bool) (mt mt' : MeshTopology) (cell : Cell)
    (h : deactivateCell mt cell = Except.ok mt') : Steady kc kb mt mt' := by
  unfold deactivateCell at h
  split at h
  · cases h
  · rename_i mt1 h1
    cases h
    exact steady_trans
      (foldExcept_steady kc kb _ _
        (fun s d s' hs => deactivateCellEntitiesOfDim_steady kc kb cell s s' d hs) _ _ h1)
      (steady_of_eq kc kb rfl rfl rfl rfl)

theorem addChild_steady (kc : Bool) (tools : CellTools) (fuel : Nat) (parentCellIndex : IndexType)
    (mt mt' : MeshTopology) (child : IndexType × CellTopology × List IndexType)
    (h : addChild tools fuel parentCellIndex mt child = Except.ok mt') :
    Steady kc false mt mt' := by
  unfold addChild at h
  split at h
  · split at h
    · cases h
    · rename_i mt1 h1
      cases h
      exact steady_trans (addCell_steady kc _ _ _ _ _ _ _ _ h1)
        (steady_of_eq kc false rfl rfl rfl rfl)
  · cases h
    exact steady_refl kc false _

theorem addChildren_steady (kc : Bool) (tools : CellTools) (fuel : Nat) (mt mt' : MeshTopology)
    (firstChildIndex parentIndex : IndexType) (childTopos : List CellTopology)
    (childVertices : List (List IndexType))
    (h : addChildren tools fuel mt firstChildIndex parentIndex childTopos childVertices
      = Except.ok mt') : Steady kc false mt mt' := by
  unfold addChildren at h
  dsimp only at h
  split at h
  · cases h
  · split at h
    · cases h
    · split at h
      · cases h
      · rename_i mt1 h1
        exact steady_trans
          (foldExcept_steady kc false _ _
            (fun s a s' hs => addChild_steady kc tools fuel _ s s' a hs) _ _ h1)
          (setChildren_steady kc false _ _ _ _ h)

theorem countRefinement_steady (kc kb : Bool) (mt : MeshTopology) (refPattern : RefinementPattern)
    (firstChildCellIndex : IndexType) :
    Steady kc kb mt (countRefinement mt refPattern firstChildCellIndex) := by
  unfold countRefinement
  split
  · exact steady_of_eq kc kb rfl rfl rfl rfl
  · exact steady_refl kc kb _

theorem refineValidCell_steady (tools : CellTools) (fuel : Nat) (mt mt' : MeshTopology)
    (cellIndex : IndexType) (refPattern : RefinementPattern) (firstChildCellIndex : IndexType)
    (h : refineValidCell tools fuel mt cellIndex refPattern firstChildCellIndex = Except.ok mt') :
    Steady false false mt mt' := by
  unfold refineValidCell at h
  split at h
  · cases h
  · split at h
    · cases h
    · dsimp only at h
      split at h
      · cases h
      · rename_i mt1 h1
        have f0 := getVertexIndices_steady false false mt
          (refPattern.verticesForRefinement (by assumption))
        have f1 := refineCellEntities_steady _ _ _ _ _ h1
        split at h
        · cases h
        · rename_i cell1 hcell1
          split at h
          · cases h
          · rename_i mt3 h3
            have f3 : Steady false false
                { mt1 with
                  _cells := mapSet mt1._cells cellIndex
                    { cell1 with _refPattern := some refPattern } } mt3 := by
              split at h3
              · exact deactivateCell_steady _ _ _ _ _ h3
              · cases h3
                exact steady_refl _ _ _
            split at h
            · cases h
            · rename_i mt4 h4
              have f2 : Steady false false mt1
                  { mt1 with
                    _cells := mapSet mt1._cells cellIndex
                      { cell1 with _refPattern := some refPattern } } :=
                steady_of_eq false false rfl rfl rfl rfl
              exact steady_trans f0 (steady_trans f1
                (steady_trans f2
                  (steady_trans f3 (steady_trans (addChildren_steady false _ _ _ _ _ _ _ _ h4)
                    (determineGeneralizedParentsForRefinement_steady false false _ _ _ _ _ h)))))

theorem refineCell_steady (tools : CellTools) (fuel : Nat) (mt mt' : MeshTopology)
    (cellIndex : IndexType) (refPattern : RefinementPattern) (firstChildCellIndex : IndexType)
    (h : refineCell tools fuel mt cellIndex refPattern firstChildCellIndex = Except.ok mt') :
    Steady false false mt mt' := by
  unfold refineCell at h
  dsimp only at h
  split at h
  · cases h
    exact countRefinement_steady false false _ _ _
  · exact steady_trans (countRefinement_steady false false _ _ _)
      (refineValidCell_steady _ _ _ _ _ _ _ h)

/-! ## The entities of the halo: lemmas -/

theorem entityIndexValue_eq_slot (mt : MeshTopology) (c : Cell) (d ord : Nat) :
    Cell.entityIndexValue mt c d ord =
      if d = c._cellTopo.getDimension ∧ ord = 0 then Except.ok (some c._cellIndex)
      else
        match c.cacheSlot d ord with
        | none => Except.error MeshError.indexOutOfRange
        | some (some cached) => Except.ok cached
        | some none =>
          match Cell.subcellNodes c._cellTopo c._vertices d ord with
          | Except.error err => Except.error err
          | Except.ok nodes => mt.getEntityIndex d (setOfList nodes) := by
  unfold Cell.entityIndexValue Cell.entityIndex Cell.cacheSlot
  dsimp only
  by_cases htriv : d = c._cellTopo.getDimension ∧ ord = 0
  · rw [if_pos htriv, if_pos htriv]
    rfl
  · rw [if_neg htriv, if_neg htriv]
    cases h0 : (if c._entityIndices.length = 0 then List.replicate c._cellTopo.getDimension []
        else c._entityIndices)[d]? with
    | none => rfl
    | some row0 =>
      dsimp only
      cases h1 : (if row0.length = 0 then List.replicate (c._cellTopo.getSubcellCount d) none
          else row0)[ord]? with
      | none => rfl
      | some slot =>
        cases slot with
        | some cached => rfl
        | none =>
          dsimp only
          cases Cell.subcellNodes c._cellTopo c._vertices d ord with
          | error err => rfl
          | ok nodes =>
            dsimp only
            cases mt.getEntityIndex d (setOfList nodes) with
            | error err => rfl
            | ok found => rfl

theorem cacheSlot_modify (c : Cell) (d0 : Nat) (row0 row' : List (Option (Option IndexType)))
    (h0 : (if c._entityIndices.length = 0 then List.replicate c._cellTopo.getDimension []
      else c._entityIndices)[d0]? = some row0)
    (hlen : row'.length ≠ 0) (d ord : Nat) :
    Cell.cacheSlot
      { c with
        _entityIndices :=
          modifyAt (if c._entityIndices.length = 0 then List.replicate c._cellTopo.getDimension []
            else c._entityIndices) d0 (fun _ => row') } d ord
      = if d = d0 then row'[ord]? else c.cacheSlot d ord := by
  have hne : (modifyAt (if c._entityIndices.length = 0
      then List.replicate c._cellTopo.getDimension [] else c._entityIndices) d0
        (fun _ => row')).length ≠ 0 := by
    rw [length_modifyAt]
    intro hz
    rw [List.length_eq_zero.1 hz] at h0
    cases h0
  unfold Cell.cacheSlot
  dsimp only
  rw [if_neg hne, getElem?_modifyAt]
  by_cases hd : d = d0
  · rw [if_pos hd, if_pos hd, hd, h0]
    dsimp only [Option.map]
    rw [if_neg hlen]
  · rw [if_neg hd, if_neg hd]

theorem entityIndex_slots (mt : MeshTopology) (c c' : Cell) (d0 ord0 : Nat)
    (x : Option IndexType) (h : Cell.entityIndex mt c d0 ord0 = Except.ok (x, c')) :
    (∃ cache, c' = { c with _entityIndices := cache }) ∧
      (((d0 = c._cellTopo.getDimension ∧ ord0 = 0) ∧ c' = c) ∨
        (¬ (d0 = c._cellTopo.getDimension ∧ ord0 = 0) ∧
          c'.cacheSlot d0 ord0 = some (some x) ∧
          ∀ d ord : Nat, ¬ (d = d0 ∧ ord = ord0) → c'.cacheSlot d ord = c.cacheSlot d ord)) := by
  unfold Cell.entityIndex at h
  dsimp only at h
  by_cases htriv : d0 = c._cellTopo.getDimension ∧ ord0 = 0
  · rw [if_pos htriv] at h
    cases h
    exact ⟨⟨_, rfl⟩, Or.inl ⟨htriv, rfl⟩⟩
  · rw [if_neg htriv] at h
    cases h0 : (if c._entityIndices.length = 0 then List.replicate c._cellTopo.getDimension []
        else c._entityIndices)[d0]? with
    | none =>
      rw [h0] at h
      cases h
    | some row0 =>
      rw [h0] at h
      dsimp only at h
      have hslot : c.cacheSlot d0 ord0 = (if row0.length = 0
          then List.replicate (c._cellTopo.getSubcellCount d0) none else row0)[ord0]? := by
        unfold Cell.cacheSlot
        rw [h0]
      cases h1 : (if row0.length = 0 then List.replicate (c._cellTopo.getSubcellCount d0) none
          else row0)[ord0]? with
      | none =>
        rw [h1] at h
        cases h
      | some slot =>
        rw [h1] at h
        have hrow : (if row0.length = 0 then List.replicate (c._cellTopo.getSubcellCount d0) none
            else row0).length ≠ 0 := by
          intro hz
          rw [List.length_eq_zero.1 hz] at h1
          cases h1
        cases slot with
        | some cached =>
          cases h
          refine ⟨⟨_, rfl⟩, Or.inr ⟨htriv, ?_, ?_⟩⟩
          · rw [cacheSlot_modify c d0 row0 _ h0 hrow, if_pos rfl, h1]
          · intro d ord hne
            rw [cacheSlot_modify c d0 row0 _ h0 hrow]
            by_cases hd : d = d0
            · rw [if_pos hd]
              unfold Cell.cacheSlot
              rw [hd, h0]
            · rw [if_neg hd]
        | none =>
          dsimp only at h
          split at h
          · cases h
          · split at h
            · cases h
            · rename_i found _
              cases h
              have hrow' : (modifyAt (if row0.length = 0
                  then List.replicate (c._cellTopo.getSubcellCount d0) none else row0) ord0
                    (fun _ => some x)).length ≠ 0 := by
                rw [length_modifyAt]
                exact hrow
              refine ⟨⟨_, rfl⟩, Or.inr ⟨htriv, ?_, ?_⟩⟩
              · rw [cacheSlot_modify c d0 row0 _ h0 hrow', if_pos rfl, getElem?_modifyAt,
                  if_pos rfl, h1]
                rfl
              · intro d ord hne
                rw [cacheSlot_modify c d0 row0 _ h0 hrow']
                by_cases hd : d = d0
                · rw [if_pos hd, getElem?_modifyAt]
                  have hord : ord ≠ ord0 := fun ho => hne ⟨hd, ho⟩
                  rw [if_neg hord]
                  unfold Cell.cacheSlot
                  rw [hd, h0]
                · rw [if_neg hd]

theorem entityIndex_filled (mt : MeshTopology) (c c' : Cell) (d0 ord0 : Nat)
    (x : Option IndexType) (h : Cell.entityIndex mt c d0 ord0 = Except.ok (x, c')) :
    Cell.CacheFilled mt c c' := by
  obtain ⟨hcache, hslots⟩ := entityIndex_slots mt c c' d0 ord0 x h
  refine ⟨hcache, ?_⟩
  rcases hslots with ⟨_, heq⟩ | ⟨htriv, hslot, hother⟩
  · intro d ord
    rw [heq]
  · obtain ⟨cache, hc⟩ := hcache
    have htopo : c'._cellTopo = c._cellTopo := by rw [hc]
    have hverts : c'._vertices = c._vertices := by rw [hc]
    have hidx : c'._cellIndex = c._cellIndex := by rw [hc]
    have hval : Cell.entityIndexValue mt c d0 ord0 = Except.ok x := by
      unfold Cell.entityIndexValue
      rw [h]
      rfl
    intro d ord
    by_cases hd : d = d0 ∧ ord = ord0
    · obtain ⟨hd1, hd2⟩ := hd
      subst hd1
      subst hd2
      rw [hval, entityIndexValue_eq_slot, htopo, if_neg htriv, hslot]
    · rw [entityIndexValue_eq_slot, entityIndexValue_eq_slot mt c, htopo, hverts, hidx,
        hother d ord hd]

theorem cacheFilled_refl (mt : MeshTopology) (c : Cell) : Cell.CacheFilled mt c c :=
  ⟨⟨_, rfl⟩, fun _ _ => rfl⟩

theorem cacheFilled_trans {mt : MeshTopology} {a b c : Cell} (h1 : Cell.CacheFilled mt a b)
    (h2 : Cell.CacheFilled mt b c) : Cell.CacheFilled mt a c := by
  obtain ⟨⟨cache1, hb⟩, hv1⟩ := h1
  obtain ⟨⟨cache2, hc⟩, hv2⟩ := h2
  refine ⟨⟨cache2, ?_⟩, fun d ord => (hv2 d ord).trans (hv1 d ord)⟩
  rw [hc, hb]

theorem entityIndex_tables (mt m : MeshTopology) (h : m = { mt with _cells := m._cells })
    (c : Cell) (d ord : Nat) : Cell.entityIndex m c d ord = Cell.entityIndex mt c d ord := by
  rw [h]
  rfl

theorem entityIndexValue_tables (mt m : MeshTopology) (h : m = { mt with _cells := m._cells })
    (c : Cell) (d ord : Nat) :
    Cell.entityIndexValue m c d ord = Cell.entityIndexValue mt c d ord := by
  unfold Cell.entityIndexValue
  rw [entityIndex_tables mt m h]

theorem cellsFilled_refl (mt : MeshTopology) : CellsFilled mt mt := by
  refine ⟨rfl, fun k => ?_⟩
  cases mapFind mt._cells k with
  | none => exact True.intro
  | some c => exact cacheFilled_refl mt c

theorem cellsFilled_find (mt m : MeshTopology) (h : CellsFilled mt m) (k : IndexType)
    (c' : Cell) (hc : mapFind m._cells k = some c') :
    ∃ c, mapFind mt._cells k = some c ∧ Cell.CacheFilled mt c c' := by
  have hk := h.2 k
  rw [hc] at hk
  cases hf : mapFind mt._cells k with
  | none =>
    rw [hf] at hk
    exact hk.elim
  | some c =>
    rw [hf] at hk
    exact ⟨c, rfl, hk⟩

theorem cellsFilled_find_rev (mt m : MeshTopology) (h : CellsFilled mt m) (k : IndexType)
    (c : Cell) (hc : mapFind mt._cells k = some c) :
    ∃ c', mapFind m._cells k = some c' ∧ Cell.CacheFilled mt c c' := by
  have hk := h.2 k
  rw [hc] at hk
  cases hf : mapFind m._cells k with
  | none =>
    rw [hf] at hk
    exact hk.elim
  | some c' =>
    rw [hf] at hk
    exact ⟨c', rfl, hk⟩

theorem cellEntityIndex_filled (mt m m' : MeshTopology) (hm : CellsFilled mt m)
    (k : IndexType) (d ord : Nat) (x : Option IndexType)
    (h : cellEntityIndex m k d ord = Except.ok (x, m')) :
    CellsFilled mt m' ∧ ∃ c, mapFind mt._cells k = some c ∧
      Cell.entityIndexValue mt c d ord = Except.ok x := by
  obtain ⟨cell, cell', hcell, hentity, hm'⟩ := cellEntityIndex_inv _ _ _ _ _ _ h
  obtain ⟨c, hc, hfill⟩ := cellsFilled_find mt m hm k cell hcell
  rw [entityIndex_tables mt m hm.1] at hentity
  have hfill' := entityIndex_filled mt cell cell' d ord x hentity
  have hval : Cell.entityIndexValue mt cell d ord = Except.ok x := by
    unfold Cell.entityIndexValue
    rw [hentity]
    rfl
  refine ⟨⟨?_, fun k' => ?_⟩, c, hc, ?_⟩
  · rw [hm', hm.1]
  · rw [hm']
    show optRel _ _ (mapFind (mapSet m._cells k cell') k')
    rw [mapFind_mapSet]
    by_cases hk : k = k'
    · rw [if_pos hk, ← hk, hc]
      exact cacheFilled_trans hfill hfill'
    · rw [if_neg hk]
      exact hm.2 k'
  · rw [← hfill.2 d ord]
    exact hval

/-- A loop that collects into its state: an invariant of the states and the
membership of the collection after the loop. -/
theorem foldExcept_collect {σ α β : Type} (f : σ → α → Except MeshError σ) (I : σ → Prop)
    (mem : σ → β → Prop) (P : α → β → Prop) (l : List α)
    (hstep : ∀ s a s', a ∈ l → I s → f s a = Except.ok s' →
      I s' ∧ ∀ y, mem s' y ↔ mem s y ∨ P a y)
    (s s' : σ) (hs : I s) (h : foldExcept f s l = Except.ok s') :
    I s' ∧ ∀ y, mem s' y ↔ mem s y ∨ ∃ a ∈ l, P a y := by
  induction l generalizing s with
  | nil =>
    cases h
    exact ⟨hs, fun y => ⟨Or.inl, fun hy => hy.elim id (fun ⟨_, ha, _⟩ => absurd ha (List.not_mem_nil _))⟩⟩
  | cons a t ih =>
    unfold foldExcept at h
    cases hfa : f s a with
    | error err =>
      rw [hfa] at h
      cases h
    | ok s1 =>
      rw [hfa] at h
      obtain ⟨hI1, hmem1⟩ := hstep s a s1 (List.mem_cons_self a t) hs hfa
      obtain ⟨hI', hmem'⟩ := ih (fun s a s' ha => hstep s a s' (List.mem_cons_of_mem _ ha)) s1 hI1 h
      refine ⟨hI', fun y => ?_⟩
      rw [hmem', hmem1]
      constructor
      · rintro ((hy | hy) | ⟨b, hb, hy⟩)
        · exact Or.inl hy
        · exact Or.inr ⟨a, List.mem_cons_self a t, hy⟩
        · exact Or.inr ⟨b, List.mem_cons_of_mem _ hb, hy⟩
      · rintro (hy | ⟨b, hb, hy⟩)
        · exact Or.inl (Or.inl hy)
        · rcases List.mem_cons.1 hb with hba | hbt
          · rw [hba] at hy
            exact Or.inl (Or.inr hy)
          · exact Or.inr ⟨b, hbt, hy⟩

theorem keepCellEntity_spec (mt : MeshTopology) (k : IndexType) (c : Cell)
    (hc : mapFind mt._cells k = some c) (d0 : Nat) (hd0 : d0 < mt._spaceDim)
    (s s' : MeshTopology × List (List IndexType)) (ord : Nat) (hs : KeepInv mt s)
    (h : keepCellEntity k d0 s ord = Except.ok s') :
    KeepInv mt s' ∧ ∀ y : Nat × IndexType, y.2 ∈ s'.2.getD y.1 [] ↔ y.2 ∈ s.2.getD y.1 [] ∨
      (y.1 = d0 ∧ ∃ found, Cell.entityIndexValue mt c d0 ord = Except.ok found ∧
        unsignedIndex found = y.2) := by
  unfold keepCellEntity at h
  split at h
  · cases h
  · rename_i found m1 hidx
    cases h
    obtain ⟨hfilled, c1, hc1, hval⟩ := cellEntityIndex_filled mt s.1 m1 hs.1 k d0 ord found hidx
    rw [hc] at hc1
    cases hc1
    have hlen : d0 < s.2.length := by rw [hs.2.1]; exact hd0
    refine ⟨⟨hfilled, ?_, fun d => ?_⟩, fun y => ?_⟩
    · show (modifyAt s.2 d0 _).length = _
      rw [length_modifyAt]
      exact hs.2.1
    · show ((modifyAt s.2 d0 _).getD d []).Sorted _
      rw [getD_modifyAt_eq _ _ _ _ _ hlen]
      by_cases hd : d = d0
      · rw [if_pos hd]
        exact sorted_setInsert _ _ (hs.2.2 d0)
      · rw [if_neg hd]
        exact hs.2.2 d
    · show y.2 ∈ (modifyAt s.2 d0 _).getD y.1 [] ↔ _
      rw [getD_modifyAt_eq _ _ _ _ _ hlen]
      by_cases hd : y.1 = d0
      · rw [if_pos hd, mem_setInsert, hd]
        constructor
        · rintro (hy | hy)
          · exact Or.inr ⟨rfl, found, hval, hy.symm⟩
          · exact Or.inl hy
        · rintro (hy | ⟨_, f2, hf2, hy⟩)
          · exact Or.inr hy
          · rw [hval] at hf2
            cases hf2
            exact Or.inl hy.symm
      · rw [if_neg hd]
        constructor
        · exact Or.inl
        · rintro (hy | ⟨hy, _⟩)
          · exact hy
          · exact absurd hy hd

theorem keepCellEntitiesOfDim_spec (mt : MeshTopology) (k : IndexType) (c : Cell)
    (hc : mapFind mt._cells k = some c) (s s' : MeshTopology × List (List IndexType)) (d0 : Nat)
    (hd0 : d0 < mt._spaceDim) (hs : KeepInv mt s)
    (h : keepCellEntitiesOfDim k c._cellTopo s d0 = Except.ok s') :
    KeepInv mt s' ∧ ∀ y : Nat × IndexType, y.2 ∈ s'.2.getD y.1 [] ↔ y.2 ∈ s.2.getD y.1 [] ∨
      (y.1 = d0 ∧ ∃ ord < c._cellTopo.getSubcellCount d0, ∃ found,
        Cell.entityIndexValue mt c d0 ord = Except.ok found ∧ unsignedIndex found = y.2) := by
  unfold keepCellEntitiesOfDim at h
  obtain ⟨hI, hmem⟩ := foldExcept_collect (keepCellEntity k d0) (KeepInv mt)
    (fun s (y : Nat × IndexType) => y.2 ∈ s.2.getD y.1 [])
    (fun ord (y : Nat × IndexType) => y.1 = d0 ∧ ∃ found,
      Cell.entityIndexValue mt c d0 ord = Except.ok found ∧ unsignedIndex found = y.2)
    (List.range (c._cellTopo.getSubcellCount d0))
    (fun s a s' _ hI hf => keepCellEntity_spec mt k c hc d0 hd0 s s' a hI hf) s s' hs h
  refine ⟨hI, fun y => ?_⟩
  rw [hmem y]
  constructor
  · rintro (hy | ⟨ord, hord, hd, hrest⟩)
    · exact Or.inl hy
    · exact Or.inr ⟨hd, ord, List.mem_range.1 hord, hrest⟩
  · rintro (hy | ⟨hd, ord, hord, hrest⟩)
    · exact Or.inl hy
    · exact Or.inr ⟨ord, List.mem_range.2 hord, hd, hrest⟩

theorem keepCellEntities_spec (mt : MeshTopology) (s s' : MeshTopology × List (List IndexType))
    (k : IndexType) (hs : KeepInv mt s) (h : keepCellEntities s k = Except.ok s') :
    KeepInv mt s' ∧ ∀ y : Nat × IndexType, y.2 ∈ s'.2.getD y.1 [] ↔ y.2 ∈ s.2.getD y.1 [] ∨
      (y.1 < mt._spaceDim ∧ ∃ c, mapFind mt._cells k = some c ∧
        ∃ ord < c._cellTopo.getSubcellCount y.1, ∃ found,
          Cell.entityIndexValue mt c y.1 ord = Except.ok found ∧ unsignedIndex found = y.2) := by
  unfold keepCellEntities at h
  split at h
  · cases h
  · rename_i cell hcell
    obtain ⟨c, hc, hfill⟩ := cellsFilled_find mt s.1 hs.1 k cell (mapFind_of_getCell _ _ _ hcell)
    have htopo : cell._cellTopo = c._cellTopo := by
      obtain ⟨cache, hcache⟩ := hfill.1
      rw [hcache]
    have hdim : s.1._spaceDim = mt._spaceDim := by
      rw [hs.1.1]
    rw [htopo, hdim] at h
    obtain ⟨hI, hmem⟩ := foldExcept_collect (keepCellEntitiesOfDim k c._cellTopo) (KeepInv mt)
      (fun s (y : Nat × IndexType) => y.2 ∈ s.2.getD y.1 [])
      (fun d0 (y : Nat × IndexType) => y.1 = d0 ∧ ∃ ord < c._cellTopo.getSubcellCount d0,
        ∃ found, Cell.entityIndexValue mt c d0 ord = Except.ok found ∧ unsignedIndex found = y.2)
      (List.range mt._spaceDim)
      (fun s a s' ha hI hf =>
        keepCellEntitiesOfDim_spec mt k c hc s s' a (List.mem_range.1 ha) hI hf) s s' hs h
    refine ⟨hI, fun y => ?_⟩
    rw [hmem y]
    constructor
    · rintro (hy | ⟨d0, hd0, hd, hrest⟩)
      · exact Or.inl hy
      · subst hd
        exact Or.inr ⟨List.mem_range.1 hd0, c, hc, hrest⟩
    · rintro (hy | ⟨hd, c2, hc2, hrest⟩)
      · exact Or.inl hy
      · rw [hc] at hc2
        cases hc2
        exact Or.inr ⟨y.1, List.mem_range.2 hd, rfl, hrest⟩

/-- The first loop of `pruneToInclude`: the cells have filled their caches, and
the entities kept are, by dimension, the sorted sub-entity indices of the cells
of the halo. -/
theorem entitiesToKeep_spec (mt mt1 : MeshTopology) (H : List IndexType)
    (olds : List (List IndexType)) (h : entitiesToKeep mt H = Except.ok (mt1, olds)) :
    CellsFilled mt mt1 ∧ olds.length = mt._spaceDim ∧
      (∀ d : Nat, (olds.getD d []).Sorted (fun a b => a < b)) ∧
      ∀ (d : Nat) (x : IndexType), x ∈ olds.getD d [] ↔ d < mt._spaceDim ∧ IsHaloEntity mt H d x := by
  unfold entitiesToKeep at h
  have h0 : KeepInv mt (mt, List.replicate mt._spaceDim []) := by
    refine ⟨cellsFilled_refl mt, List.length_replicate _ _, fun d => ?_⟩
    show ((List.replicate mt._spaceDim []).getD d []).Sorted _
    rw [getD_replicate_nil]
    exact List.sorted_nil
  obtain ⟨hI, hmem⟩ := foldExcept_collect keepCellEntities (KeepInv mt)
    (fun s (y : Nat × IndexType) => y.2 ∈ s.2.getD y.1 [])
    (fun k (y : Nat × IndexType) => y.1 < mt._spaceDim ∧ ∃ c, mapFind mt._cells k = some c ∧
      ∃ ord < c._cellTopo.getSubcellCount y.1, ∃ found,
        Cell.entityIndexValue mt c y.1 ord = Except.ok found ∧ unsignedIndex found = y.2)
    H (fun s a s' _ hI hf => keepCellEntities_spec mt s s' a hI hf) _ _ h0 h
  refine ⟨hI.1, hI.2.1, hI.2.2, fun d x => ?_⟩
  have hm := hmem (d, x)
  dsimp only at hm
  rw [hm, getD_replicate_nil]
  constructor
  · rintro (hy | ⟨k, hk, hd, c, hc, hrest⟩)
    · exact absurd hy (List.not_mem_nil _)
    · exact ⟨hd, k, hk, c, hc, hrest⟩
  · rintro ⟨hd, k, hk, c, hc, hrest⟩
    exact Or.inr ⟨k, hk, hd, c, hc, hrest⟩

/-! ## The rebuild of the prune: lemmas -/

theorem pruneRebuild_inv (tools : CellTools) (fuel : Nat) (mt mt' : MeshTopology)
    (H : List IndexType) (h : pruneRebuild tools fuel mt H = Except.ok mt') :
    ∃ mt1 olds pv vl pvm sl pcs pruned rev cells valid active roots visited,
      entitiesToKeep mt H = Except.ok (mt1, olds) ∧ mt1._spaceDim ≠ 0 ∧
      foldExcept (pruneVertex mt1) ([], reverseLookupOfDim (olds.getD 0 []), [])
        (olds.getD 0 []).enum = Except.ok (pv, vl, pvm) ∧
      foldExcept (pruneSideClaimants mt1 H fuel)
        (modifyAt (olds.map reverseLookupOfDim) 0 (fun _ => vl), [])
        (olds.getD mt1.sideDim []).enum = Except.ok (sl, pcs) ∧
      foldExcept (pruneEntitiesOfDim tools mt1 H olds) (PrunedEntities.empty mt1._spaceDim sl)
        (List.range mt1._spaceDim) = Except.ok pruned ∧
      foldExcept (pruneCell mt1) (pruned.reverseLookup.getD 0 [], [], [], []) H
        = Except.ok (rev, cells, valid, active) ∧
      foldExcept (rootWalkFrom (assignPruned mt1 pv pvm pcs pruned cells valid active) fuel)
        ([], []) cells = Except.ok (roots, visited) ∧
      mt' = { assignPruned mt1 pv pvm pcs pruned cells valid active with _rootCells := roots } := by
  unfold pruneRebuild at h
  split at h
  · cases h
  · rename_i mt1 olds h1
    split at h
    · cases h
    · rename_i hdim
      split at h
      · cases h
      · rename_i pv vl pvm h2
        split at h
        · cases h
        · rename_i sl pcs h3
          split at h
          · cases h
          · rename_i pruned h4
            split at h
            · cases h
            · rename_i rev cells valid active h5
              split at h
              · cases h
              · rename_i roots visited h6
                cases h
                exact ⟨mt1, olds, pv, vl, pvm, sl, pcs, pruned, rev, cells, valid, active, roots,
                  visited, h1, hdim, h2, h3, h4, h5, h6, rfl⟩

theorem pruneToInclude_inv (tools : CellTools) (cellHalo : CellHalo) (fuel : Nat)
    (mt mt' : MeshTopology) (owned : List IndexType) (dim : Nat)
    (h : pruneToInclude tools cellHalo fuel mt owned dim = Except.ok mt') :
    mt._pruningOrdinal < 2147483647 ∧
      (((pruningHalo cellHalo (beginPrune mt owned) owned dim).length = mt._cells.length ∧
        mt' = beginPrune mt owned) ∨
      ((pruningHalo cellHalo (beginPrune mt owned) owned dim).length ≠ mt._cells.length ∧
        pruneRebuild tools fuel (beginPrune mt owned)
          (pruningHalo cellHalo (beginPrune mt owned) owned dim) = Except.ok mt')) := by
  unfold pruneToInclude at h
  split at h
  · cases h
  · rename_i hlt
    dsimp only at h
    refine ⟨by omega, ?_⟩
    split at h
    · rename_i hlen
      cases h
      exact Or.inl ⟨hlen, rfl⟩
    · rename_i hlen
      exact Or.inr ⟨hlen, h⟩

theorem mapAt_value (m : List (IndexType × IndexType)) (k : IndexType) :
    (mapAt m k).1 = newIndex m k := by
  unfold mapAt newIndex
  cases mapFind m k with
  | none => rfl
  | some v => rfl

theorem mapAt_lookup (m : List (IndexType × IndexType)) (k k' : IndexType) :
    newIndex (mapAt m k).2 k' = newIndex m k' := by
  unfold mapAt newIndex
  cases hk : mapFind m k with
  | some v => rfl
  | none =>
    dsimp only
    rw [mapFind_mapSet]
    by_cases hkk : k = k'
    · rw [if_pos hkk, ← hkk, hk]
      rfl
    · rw [if_neg hkk]

theorem newVertices_foldl (vs : List IndexType) (m : List (IndexType × IndexType))
    (acc : List IndexType) :
    (vs.foldl
      (fun (acc : List (IndexType × IndexType) × List IndexType) oldVertexIndex =>
        ((mapAt acc.1 oldVertexIndex).2, acc.2 ++ [(mapAt acc.1 oldVertexIndex).1]))
      (m, acc)).2 = acc ++ vs.map (newIndex m) ∧
    ∀ k, newIndex (vs.foldl
      (fun (acc : List (IndexType × IndexType) × List IndexType) oldVertexIndex =>
        ((mapAt acc.1 oldVertexIndex).2, acc.2 ++ [(mapAt acc.1 oldVertexIndex).1]))
      (m, acc)).1 k = newIndex m k := by
  induction vs generalizing m acc with
  | nil => exact ⟨by simp, fun _ => rfl⟩
  | cons v t ih =>
    simp only [List.foldl_cons, List.map_cons]
    obtain ⟨h1, h2⟩ := ih (mapAt m v).2 (acc ++ [(mapAt m v).1])
    refine ⟨?_, fun k => ?_⟩
    · rw [h1, mapAt_value, List.append_assoc]
      congr 1
      simp only [List.singleton_append, List.cons.injEq, true_and]
      exact List.map_congr_left (fun x _ => mapAt_lookup m v x)
    · rw [h2, mapAt_lookup]

theorem mapSet_of_none {K V : Type} [DecidableEq K] (m : List (K × V)) (k : K) (v : V)
    (h : mapFind m k = none) : mapSet m k v = m ++ [(k, v)] := by
  induction m with
  | nil => rfl
  | cons a t ih =>
    obtain ⟨k', v'⟩ := a
    unfold mapFind at h
    unfold mapSet
    by_cases hk : k' = k
    · rw [if_pos hk] at h
      cases h
    · rw [if_neg hk] at h
      rw [if_neg hk, ih h]
      rfl

theorem pruneCell_spec (mt1 : MeshTopology)
    (s s' : List (IndexType × IndexType) × List (IndexType × Cell) × List IndexType ×
      List IndexType) (k : IndexType) (h : pruneCell mt1 s k = Except.ok s') :
    ∃ cell, mapFind mt1._cells k = some cell ∧
      (∀ v, newIndex s'.1 v = newIndex s.1 v) ∧
      s'.2.1 = mapSet s.2.1 k
        { cell with _vertices := cell._vertices.map (newIndex s.1), _entityIndices := [] } ∧
      s'.2.2.1 = setInsert k s.2.2.1 ∧
      s'.2.2.2 = (if mt1.isParent cell._cellIndex = false then setInsert k s.2.2.2
        else s.2.2.2) := by
  unfold pruneCell at h
  split at h
  · cases h
  · rename_i cell hcell
    cases h
    obtain ⟨h1, h2⟩ := newVertices_foldl cell._vertices s.1 []
    refine ⟨cell, mapFind_of_getCell _ _ _ hcell, h2, ?_, rfl, ?_⟩
    · dsimp only
      rw [h1]
      rfl
    · dsimp only
      cases mt1.isParent cell._cellIndex <;> rfl

/-- The cell loop of `pruneToInclude`. -/
theorem pruneCells_spec (mt1 : MeshTopology) (l : List IndexType)
    (s s' : List (IndexType × IndexType) × List (IndexType × Cell) × List IndexType ×
      List IndexType) (h : foldExcept (pruneCell mt1) s l = Except.ok s') :
    (∀ v, newIndex s'.1 v = newIndex s.1 v) ∧
      s'.2.2.1 = l.foldl (fun acc k => setInsert k acc) s.2.2.1 ∧
      (∀ k ∈ l, ∃ cell, mapFind mt1._cells k = some cell) ∧
      (∀ k, mapFind s'.2.1 k =
        if k ∈ l then (mapFind mt1._cells k).map (fun cell =>
          { cell with _vertices := cell._vertices.map (newIndex s.1), _entityIndices := [] })
        else mapFind s.2.1 k) ∧
      (∀ k, k ∈ s'.2.2.2 ↔ k ∈ s.2.2.2 ∨
        (k ∈ l ∧ ∃ cell, mapFind mt1._cells k = some cell ∧
          mt1.isParent cell._cellIndex = false)) ∧
      ((∀ k ∈ l, mapFind s.2.1 k = none) → l.Nodup →
        s'.2.1.map Prod.fst = s.2.1.map Prod.fst ++ l) := by
  induction l generalizing s with
  | nil =>
    cases h
    refine ⟨fun _ => rfl, rfl, fun k hk => absurd hk (List.not_mem_nil _), fun k => ?_,
      fun k => ?_, fun _ _ => by simp⟩
    · rw [if_neg (List.not_mem_nil _)]
    · constructor
      · exact Or.inl
      · rintro (hk | ⟨hk, _⟩)
        · exact hk
        · exact absurd hk (List.not_mem_nil _)
  | cons a t ih =>
    unfold foldExcept at h
    cases hfa : pruneCell mt1 s a with
    | error err =>
      rw [hfa] at h
      cases h
    | ok s1 =>
      rw [hfa] at h
      obtain ⟨cell, hcell, hlook, hcells, hvalid, hactive⟩ := pruneCell_spec mt1 s s1 a hfa
      obtain ⟨ih1, ih2, ih3, ih4, ih5, ih6⟩ := ih s1 h
      refine ⟨fun v => (ih1 v).trans (hlook v), ?_, ?_, fun k => ?_, fun k => ?_, ?_⟩
      · rw [ih2, hvalid]
        rfl
      · intro k hk
        rcases List.mem_cons.1 hk with hka | hkt
        · rw [hka]
          exact ⟨cell, hcell⟩
        · exact ih3 k hkt
      · rw [ih4 k]
        have hfun : (fun cell : Cell =>
            ({ cell with _vertices := cell._vertices.map (newIndex s1.1), _entityIndices := [] }
              : Cell))
            = (fun cell : Cell =>
            ({ cell with _vertices := cell._vertices.map (newIndex s.1), _entityIndices := [] }
              : Cell)) := by
          funext cell
          have hv : cell._vertices.map (newIndex s1.1) = cell._vertices.map (newIndex s.1) :=
            List.map_congr_left (fun x _ => hlook x)
          rw [hv]
        rw [hfun]
        by_cases hkt : k ∈ t
        · rw [if_pos hkt, if_pos (List.mem_cons_of_mem _ hkt)]
        · rw [if_neg hkt, hcells, mapFind_mapSet]
          by_cases hka : a = k
          · rw [if_pos hka, if_pos (by rw [hka]; exact List.mem_cons_self _ _), ← hka, hcell]
            rfl
          · rw [if_neg hka, if_neg]
            intro hmem
            rcases List.mem_cons.1 hmem with h1 | h1
            · exact hka h1.symm
            · exact hkt h1
      · rw [ih5 k, hactive]
        constructor
        · rintro (hk | ⟨hk, hrest⟩)
          · by_cases hp : mt1.isParent cell._cellIndex = false
            · rw [if_pos hp, mem_setInsert] at hk
              rcases hk with hk | hk
              · refine Or.inr ⟨by rw [hk]; exact List.mem_cons_self _ _, cell, ?_, hp⟩
                rw [hk]
                exact hcell
              · exact Or.inl hk
            · rw [if_neg hp] at hk
              exact Or.inl hk
          · exact Or.inr ⟨List.mem_cons_of_mem _ hk, hrest⟩
        · rintro (hk | ⟨hk, c2, hc2, hp2⟩)
          · left
            by_cases hp : mt1.isParent cell._cellIndex = false
            · rw [if_pos hp, mem_setInsert]
              exact Or.inr hk
            · rw [if_neg hp]
              exact hk
          · rcases List.mem_cons.1 hk with hka | hkt
            · left
              rw [hka] at hc2
              rw [hcell] at hc2
              cases hc2
              rw [if_pos hp2, mem_setInsert]
              exact Or.inl hka
            · exact Or.inr ⟨hkt, c2, hc2, hp2⟩
      · intro hnone hnodup
        have hnd := List.nodup_cons.1 hnodup
        have hnone1 : ∀ k ∈ t, mapFind s1.2.1 k = none := by
          intro k hk
          rw [hcells, mapFind_mapSet]
          have hne : a ≠ k := fun hak => hnd.1 (by rw [hak]; exact hk)
          rw [if_neg hne]
          exact hnone k (List.mem_cons_of_mem _ hk)
        rw [ih6 hnone1 hnd.2, hcells, mapSet_of_none _ _ _ (hnone a (List.mem_cons_self _ _))]
        simp

theorem foldl_setInsert_eq_setOfList (l : List Nat) :
    l.foldl (fun acc k => setInsert k acc) [] = setOfList l := rfl

theorem setOfList_of_sorted (S : List Nat) (h : S.Sorted (fun a b => a < b)) :
    setOfList S = S := by
  rw [← sortIndices_eq_setOfList h.nodup]
  exact sortIndices_of_sorted S h

/-- The cell table and the cell sets after the rebuild of a prune with the
sorted halo `H`. -/
theorem pruneRebuild_cells (tools : CellTools) (fuel : Nat) (mt mt' : MeshTopology)
    (H : List IndexType) (hsorted : H.Sorted (fun a b => a < b))
    (h : pruneRebuild tools fuel mt H = Except.ok mt') :
    mt'._pruningOrdinal = mt._pruningOrdinal ∧ mt'._ownedCellIndices = mt._ownedCellIndices ∧
      mt'._cells.map Prod.fst = H ∧ mt'._validCells = H ∧
      (∀ k ∈ H, ∃ cell, mapFind mt._cells k = some cell) ∧
      ∃ lookup : List (IndexType × IndexType), ∀ k, mapFind mt'._cells k =
        if k ∈ H then (mapFind mt._cells k).map (fun cell =>
          { cell with _vertices := cell._vertices.map (newIndex lookup), _entityIndices := [] })
        else none := by
  obtain ⟨mt1, olds, pv, vl, pvm, sl, pcs, pruned, rev, cells, valid, active, roots, visited,
    h1, _, _, _, _, h5, _, hmt'⟩ := pruneRebuild_inv tools fuel mt mt' H h
  obtain ⟨hfilled, _, _, _⟩ := entitiesToKeep_spec mt mt1 H olds h1
  obtain ⟨_, hvalid, hex, hfind, _, hkeys⟩ := pruneCells_spec mt1 H _ _ h5
  have hmap : ∀ k, (mapFind mt1._cells k).map (fun cell : Cell =>
      ({ cell with
          _vertices := cell._vertices.map (newIndex (pruned.reverseLookup.getD 0 [])),
          _entityIndices := [] } : Cell))
      = (mapFind mt._cells k).map (fun cell : Cell =>
      ({ cell with
          _vertices := cell._vertices.map (newIndex (pruned.reverseLookup.getD 0 [])),
          _entityIndices := [] } : Cell)) := by
    intro k
    have hk := hfilled.2 k
    cases hf : mapFind mt._cells k with
    | none =>
      rw [hf] at hk
      cases hf1 : mapFind mt1._cells k with
      | none => rfl
      | some c1 =>
        rw [hf1] at hk
        exact hk.elim
    | some c =>
      rw [hf] at hk
      cases hf1 : mapFind mt1._cells k with
      | none =>
        rw [hf1] at hk
        exact hk.elim
      | some c1 =>
        rw [hf1] at hk
        obtain ⟨⟨cache, hc1⟩, _⟩ := hk
        rw [hc1]
        rfl
  rw [hmt']
  refine ⟨?_, ?_, ?_, ?_, ?_, pruned.reverseLookup.getD 0 [], fun k => ?_⟩
  · show mt1._pruningOrdinal = _
    rw [hfilled.1]
  · show mt1._ownedCellIndices = _
    rw [hfilled.1]
  · show cells.map Prod.fst = H
    have := hkeys (fun _ _ => rfl) hsorted.nodup
    simpa using this
  · show valid = H
    have hvalid' : valid = H.foldl (fun acc k => setInsert k acc) [] := hvalid
    rw [hvalid', foldl_setInsert_eq_setOfList, setOfList_of_sorted H hsorted]
  · intro k hk
    obtain ⟨c1, hc1⟩ := hex k hk
    obtain ⟨c, hc, _⟩ := cellsFilled_find mt mt1 hfilled k c1 hc1
    exact ⟨c, hc⟩
  · show mapFind cells k = _
    rw [hfind k, hmap k]
    rfl

/-! ## The entity loop of the prune: lemmas -/

theorem pruneEntityNodes_spec (d : Nat) (ordering : Option (List IndexType))
    (l : List IndexType) (n : Nat)
    (s s' : List (IndexType × IndexType) × List IndexType × List IndexType)
    (h : foldExcept (pruneEntityNode d ordering) s (l.enumFrom n) = Except.ok s') :
    (∀ v, newIndex s'.1 v = newIndex s.1 v) ∧
      s'.2.1 = s.2.1 ++ l.map (newIndex s.1) ∧
      (d = 0 → s'.2.2 = s.2.2) ∧
      (d ≠ 0 → ∀ o, ordering = some o →
        s'.2.2 = s.2.2 ++ ((o.drop n).take l.length).map (newIndex s.1)) := by
  induction l generalizing n s with
  | nil =>
    cases h
    refine ⟨fun _ => rfl, by simp, fun _ => rfl, fun _ o _ => by simp⟩
  | cons a t ih =>
    simp only [List.enumFrom_cons, foldExcept] at h
    cases hfa : pruneEntityNode d ordering s (n, a) with
    | error err =>
      rw [hfa] at h
      cases h
    | ok s1 =>
      rw [hfa] at h
      obtain ⟨ih1, ih2, ih3, ih5⟩ := ih (n + 1) s1 h
      unfold pruneEntityNode at hfa
      dsimp only at hfa
      by_cases hd : d = 0
      · rw [if_pos hd] at hfa
        cases hfa
        refine ⟨fun v => (ih1 v).trans (mapAt_lookup _ _ _), ?_, fun _ => ih3 hd,
          fun hne => absurd hd hne⟩
        rw [ih2]
        show (s.2.1 ++ [(mapAt s.1 a).1]) ++ List.map (newIndex (mapAt s.1 a).2) t = _
        rw [mapAt_value, List.append_assoc]
        congr 1
        simp only [List.singleton_append, List.map_cons, List.cons.injEq, true_and]
        exact List.map_congr_left (fun x _ => mapAt_lookup _ _ x)
      · rw [if_neg hd] at hfa
        cases ho : ordering with
        | none =>
          rw [ho] at hfa
          cases hfa
        | some o =>
          rw [ho] at hfa
          dsimp only at hfa
          cases hon : o[n]? with
          | none =>
            rw [hon] at hfa
            cases hfa
          | some oldVertexIndex =>
            rw [hon] at hfa
            cases hfa
            have hlook : ∀ v, newIndex (mapAt (mapAt s.1 a).2 oldVertexIndex).2 v
                = newIndex s.1 v :=
              fun v => (mapAt_lookup _ _ v).trans (mapAt_lookup _ _ v)
            have hnlt : n < o.length := by
              rcases Nat.lt_or_ge n o.length with hlt | hge
              · exact hlt
              · rw [List.getElem?_eq_none hge] at hon
                cases hon
            refine ⟨fun v => (ih1 v).trans (hlook v), ?_, fun h0 => absurd h0 hd,
              fun _ o' ho' => ?_⟩
            · rw [ih2]
              show (s.2.1 ++ [(mapAt s.1 a).1]) ++ List.map (newIndex _) t = _
              rw [mapAt_value, List.append_assoc]
              congr 1
              simp only [List.singleton_append, List.map_cons, List.cons.injEq, true_and]
              exact List.map_congr_left (fun x _ => hlook x)
            · cases ho'
              rw [ih5 hd o ho]
              show (s.2.2 ++ [(mapAt (mapAt s.1 a).2 oldVertexIndex).1])
                ++ List.map (newIndex _) _ = _
              rw [mapAt_value, mapAt_lookup, List.append_assoc]
              congr 1
              have hdrop : o.drop n = oldVertexIndex :: o.drop (n + 1) := by
                rw [List.drop_eq_getElem_cons hnlt]
                congr 1
                rw [List.getElem?_eq_getElem hnlt] at hon
                exact Option.some.inj hon
              rw [hdrop]
              simp only [List.length_cons, List.take_succ_cons, List.map_cons,
                List.singleton_append, List.cons.injEq, true_and]
              exact List.map_congr_left (fun x _ => hlook x)

/-- What one completed pass of the entity loop read and stored. -/
theorem pruneEntity_inv (tools : CellTools) (mt : MeshTopology) (H : List IndexType) (d : Nat)
    (s s' : PrunedEntities) (entry : Nat × IndexType)
    (h : pruneEntity tools mt H d s entry = Except.ok s') :
    ∃ entityTopo oldNodes vertexLookup newNodes newCanonical oldActiveCells oldSides,
      getEntityTopology tools mt d entry.2 = Except.ok entityTopo ∧
      (mt._entities.getD d [])[entry.2]? = some oldNodes ∧
      foldExcept (pruneEntityNode d ((mt._canonicalEntityOrdering.getD d [])[entry.2]?))
        (s.reverseLookup.getD 0 [], [], []) oldNodes.enum
          = Except.ok (vertexLookup, newNodes, newCanonical) ∧
      (mt._activeCellsForEntities.getD d [])[entry.2]? = some oldActiveCells ∧
      (mt._sidesForEntities.getD d [])[entry.2]? = some oldSides ∧
      (∀ oldParents, mapFind (mt._parentEntities.getD d []) entry.2 = some oldParents →
        ∃ newParents,
          prunedParents ((modifyAt s.reverseLookup 0 (fun _ => vertexLookup)).getD d [])
            oldParents = Except.ok newParents ∧
          s'.parentEntities = modifyAt s.parentEntities d
            (fun ps => mapSet ps entry.1 newParents)) ∧
      (mapFind (mt._parentEntities.getD d []) entry.2 = none →
        s'.parentEntities = s.parentEntities) ∧
      (∀ oldEntry, mapFind (mt._generalizedParentEntities.getD d []) entry.2 = some oldEntry →
        ∃ lookup, (modifyAt s.reverseLookup 0 (fun _ => vertexLookup))[oldEntry.2]? = some lookup ∧
          s'.generalizedParentEntities =
            match mapFind lookup oldEntry.1 with
            | none => s.generalizedParentEntities
            | some prunedParent =>
              modifyAt s.generalizedParentEntities d
                (fun ps => mapSet ps entry.1 (prunedParent, oldEntry.2))) ∧
      (mapFind (mt._generalizedParentEntities.getD d []) entry.2 = none →
        s'.generalizedParentEntities = s.generalizedParentEntities) ∧
      s'.reverseLookup = modifyAt s.reverseLookup 0 (fun _ => vertexLookup) ∧
      s'.entities = modifyAt s.entities d (fun es => es ++ [newNodes]) ∧
      s'.knownEntities = modifyAt s.knownEntities d (fun known => mapSet known newNodes entry.1) ∧
      s'.canonicalEntityOrdering =
        (if d > 0 then modifyAt s.canonicalEntityOrdering d (fun os => os ++ [newCanonical])
          else s.canonicalEntityOrdering) ∧
      s'.activeCellsForEntities = modifyAt s.activeCellsForEntities d
        (fun cs => cs ++ [oldActiveCells.filter (fun active => decide (active.1 ∈ H))]) ∧
      s'.sidesForEntities = modifyAt s.sidesForEntities d
        (fun ss => ss ++ [oldSides.filterMap
          (mapFind ((modifyAt s.reverseLookup 0 (fun _ => vertexLookup)).getD mt.sideDim []))]) ∧
      s'.childEntities =
        (match mapFind (mt._childEntities.getD d []) entry.2 with
          | none => s.childEntities
          | some [] => s.childEntities
          | some refinements =>
            modifyAt s.childEntities d (fun cs => mapSet cs entry.1
              (refinements.map (fun refinement =>
                (refinement.1,
                  prunedChildren
                    ((modifyAt s.reverseLookup 0 (fun _ => vertexLookup)).getD d [])
                    refinement.2))))) ∧
      s'.entityCellTopologyKeys = modifyAt s.entityCellTopologyKeys d
        (fun keys => mapSet keys entityTopo.getKey
          (setInsert entry.1 ((mapFind keys entityTopo.getKey).getD []))) := by
  unfold pruneEntity at h
  split at h
  · cases h
  · rename_i entityTopo htopo
    split at h
    · cases h
    · rename_i oldNodes hnodes
      split at h
      · cases h
      · rename_i vertexLookup newNodes newCanonical hfold
        dsimp only at h
        split at h
        · rename_i oldActiveCells oldSides hactive hsides
          split at h
          · cases h
          · rename_i newParents hparents
            split at h
            · cases h
            · rename_i newGen hgen
              cases h
              refine ⟨entityTopo, oldNodes, vertexLookup, newNodes, newCanonical, oldActiveCells,
                oldSides, htopo, hnodes, hfold, hactive, hsides, ?_, ?_, ?_, ?_, rfl, rfl, rfl,
                rfl, rfl, rfl, rfl, rfl⟩
              · intro oldParents hold
                rw [hold] at hparents
                dsimp only at hparents
                split at hparents
                · cases hparents
                · rename_i np hnp
                  cases hparents
                  exact ⟨np, hnp, rfl⟩
              · intro hnone
                rw [hnone] at hparents
                cases hparents
                rfl
              · intro oldEntry hold
                rw [hold] at hgen
                dsimp only at hgen
                split at hgen
                · cases hgen
                · rename_i lookup hlookup
                  refine ⟨lookup, hlookup, ?_⟩
                  cases hm : mapFind lookup oldEntry.1 with
                  | none =>
                    rw [hm] at hgen
                    cases hgen
                    rfl
                  | some pp =>
                    rw [hm] at hgen
                    cases hgen
                    rfl
              · intro hnone
                rw [hnone] at hgen
                cases hgen
                rfl
        · cases h

theorem prunedParents_error (lookup : List (IndexType × IndexType))
    (l : List (IndexType × Nat)) (h : ∃ p ∈ l, mapFind lookup p.1 = none) :
    prunedParents lookup l = Except.error MeshError.parentEntityNotInLookup := by
  induction l with
  | nil =>
    obtain ⟨p, hp, _⟩ := h
    exact absurd hp (List.not_mem_nil _)
  | cons a t ih =>
    unfold prunedParents
    cases ha : mapFind lookup a.1 with
    | none => rfl
    | some n =>
      dsimp only
      obtain ⟨p, hp, hnone⟩ := h
      rcases List.mem_cons.1 hp with hpa | hpt
      · rw [hpa, ha] at hnone
        cases hnone
      · rw [ih ⟨p, hpt, hnone⟩]
        rfl

theorem prunedParents_ok (lookup : List (IndexType × IndexType))
    (l : List (IndexType × Nat)) (nl : List (IndexType × Nat))
    (h : prunedParents lookup l = Except.ok nl) :
    (∀ p ∈ l, ∃ n, mapFind lookup p.1 = some n) ∧
      nl = l.map (fun p => (newIndex lookup p.1, p.2)) := by
  induction l generalizing nl with
  | nil =>
    cases h
    exact ⟨fun p hp => absurd hp (List.not_mem_nil _), rfl⟩
  | cons a t ih =>
    unfold prunedParents at h
    cases ha : mapFind lookup a.1 with
    | none =>
      rw [ha] at h
      cases h
    | some n =>
      rw [ha] at h
      dsimp only at h
      cases ht : prunedParents lookup t with
      | error err =>
        rw [ht] at h
        cases h
      | ok nt =>
        rw [ht] at h
        cases h
        obtain ⟨h1, h2⟩ := ih nt ht
        refine ⟨fun p hp => ?_, ?_⟩
        · rcases List.mem_cons.1 hp with hpa | hpt
          · rw [hpa]
            exact ⟨n, ha⟩
          · exact h1 p hpt
        · rw [h2]
          simp only [List.map_cons, List.cons.injEq, and_true]
          unfold newIndex
          rw [ha]
          rfl

theorem prunedChildren_getElem (lookup : List (IndexType × IndexType))
    (cs : List (Option IndexType)) (i : Nat) :
    (prunedChildren lookup cs)[i]? = (cs[i]?).map (fun c => mapFind lookup (unsignedIndex c)) := by
  unfold prunedChildren
  rw [List.getElem?_map]

theorem pruneEntity_parent_error (tools : CellTools) (mt : MeshTopology) (H : List IndexType)
    (d : Nat) (s : PrunedEntities) (entry : Nat × IndexType)
    (entityTopo : CellTopology) (oldNodes : List IndexType)
    (r : List (IndexType × IndexType) × List IndexType × List IndexType)
    (oldActiveCells : List (IndexType × Nat)) (oldSides : List IndexType)
    (oldParents : List (IndexType × Nat))
    (htopo : getEntityTopology tools mt d entry.2 = Except.ok entityTopo)
    (hnodes : (mt._entities.getD d [])[entry.2]? = some oldNodes)
    (hfold : foldExcept (pruneEntityNode d ((mt._canonicalEntityOrdering.getD d [])[entry.2]?))
      (s.reverseLookup.getD 0 [], [], []) oldNodes.enum = Except.ok r)
    (hactive : (mt._activeCellsForEntities.getD d [])[entry.2]? = some oldActiveCells)
    (hsides : (mt._sidesForEntities.getD d [])[entry.2]? = some oldSides)
    (hparents : mapFind (mt._parentEntities.getD d []) entry.2 = some oldParents)
    (hmissing : ∃ p ∈ oldParents,
      mapFind ((modifyAt s.reverseLookup 0 (fun _ => r.1)).getD d []) p.1 = none) :
    pruneEntity tools mt H d s entry = Except.error MeshError.parentEntityNotInLookup := by
  obtain ⟨vl, nn, nc⟩ := r
  unfold pruneEntity
  rw [htopo]
  dsimp only
  rw [hnodes]
  dsimp only
  rw [hfold]
  dsimp only
  rw [hactive, hsides]
  dsimp only
  rw [hparents]
  dsimp only
  rw [prunedParents_error _ _ hmissing]
  rfl

theorem eq_ok_prunedOf (r : Except MeshError PrunedEntities) (h : r.isOk = true) :
    r = Except.ok (prunedOf r) := by
  cases r with
  | error err => cases h
  | ok p => rfl

/-! ## Descendants on a side: lemmas -/

theorem descendantsForSideLoop_parts (mt : MeshTopology) (view : MeshTopologyView) (cell : Cell)
    (descend : Cell → Nat → Except MeshError (List (IndexType × Nat)))
    (entries : List (Nat × Nat)) (L : List (IndexType × Nat))
    (h : Cell.descendantsForSideLoop mt view cell false descend entries = Except.ok L) :
    ∃ parts : List (List (IndexType × Nat)), L = parts.flatten ∧
      List.Forall₂ (Cell.SideChildPart mt view descend cell) entries parts := by
  induction entries generalizing L with
  | nil =>
    cases h
    exact ⟨[], rfl, List.Forall₂.nil⟩
  | cons entry rest ih =>
    obtain ⟨childOrdinal, childSideOrdinal⟩ := entry
    unfold Cell.descendantsForSideLoop at h
    split at h
    · cases h
    · rename_i k hk
      dsimp only at h
      split at h
      · cases h
      · rename_i below hbelow
        split at h
        · cases h
        · rename_i tail htail
          cases h
          obtain ⟨parts, hparts, hall⟩ := ih tail htail
          refine ⟨((k, childSideOrdinal) :: below) :: parts, ?_, List.Forall₂.cons ?_ hall⟩
          · rw [List.flatten_cons, ← hparts]
            simp
          · refine ⟨k, below, hk, rfl, ?_⟩
            by_cases hvalid : view.isValidCellIndex (some k) = true
            · rw [if_pos hvalid] at hbelow
              refine Or.inl ⟨hvalid, ?_⟩
              split at hbelow
              · cases hbelow
              · rename_i child hchild
                refine ⟨child, hchild, ?_⟩
                by_cases hparent : child.isParent view = true
                · rw [if_pos hparent] at hbelow
                  exact Or.inl ⟨hparent, hbelow⟩
                · rw [if_neg hparent] at hbelow
                  cases hbelow
                  exact Or.inr ⟨by simpa using hparent, rfl⟩
            · rw [if_neg hvalid] at hbelow
              cases hbelow
              exact Or.inr ⟨by simpa using hvalid, rfl⟩

theorem descendantsForSideLoop_leaves (mt : MeshTopology) (view : MeshTopologyView) (cell : Cell)
    (descend : Cell → Nat → Except MeshError (List (IndexType × Nat)))
    (hdescend : ∀ child t L, descend child t = Except.ok L →
      ∀ e ∈ L, view.isValidCellIndex (some e.1) = true ∧ view.isParent e.1 = false)
    (entries : List (Nat × Nat)) (L : List (IndexType × Nat))
    (h : Cell.descendantsForSideLoop mt view cell true descend entries = Except.ok L) :
    ∀ e ∈ L, view.isValidCellIndex (some e.1) = true ∧ view.isParent e.1 = false := by
  induction entries generalizing L with
  | nil =>
    cases h
    intro e he
    exact absurd he (List.not_mem_nil _)
  | cons entry rest ih =>
    obtain ⟨childOrdinal, childSideOrdinal⟩ := entry
    unfold Cell.descendantsForSideLoop at h
    split at h
    · cases h
    · rename_i k hk
      dsimp only at h
      split at h
      · cases h
      · rename_i below hbelow
        split at h
        · cases h
        · rename_i tail htail
          cases h
          intro e he
          rcases List.mem_append.1 he with he1 | he3
          · rcases List.mem_append.1 he1 with he1 | he2
            · by_cases hown : (view.isValidCellIndex (some k) && !view.isParent k) = true
              · have hown' : ((view.isValidCellIndex (some k) && !view.isParent k)
                    || !true) = true := by rw [hown]; rfl
                rw [if_pos hown'] at he1
                rw [List.mem_singleton.1 he1]
                simpa using hown
              · have hown' : ¬ ((view.isValidCellIndex (some k) && !view.isParent k)
                    || !true) = true := by simpa using hown
                rw [if_neg hown'] at he1
                exact absurd he1 (List.not_mem_nil _)
            · by_cases hvalid : view.isValidCellIndex (some k) = true
              · rw [if_pos hvalid] at hbelow
                split at hbelow
                · cases hbelow
                · rename_i child hchild
                  by_cases hparent : child.isParent view = true
                  · rw [if_pos hparent] at hbelow
                    exact hdescend child childSideOrdinal below hbelow e he2
                  · rw [if_neg hparent] at hbelow
                    cases hbelow
                    exact absurd he2 (List.not_mem_nil _)
              · rw [if_neg hvalid] at hbelow
                cases hbelow
                exact absurd he2 (List.not_mem_nil _)
          · exact ih tail htail e he3

theorem getDescendantsForSide_leaves (mt : MeshTopology) (view : MeshTopologyView) (fuel : Nat)
    (cell : Cell) (s : Nat) (L : List (IndexType × Nat))
    (h : Cell.getDescendantsForSide mt view true fuel cell s = Except.ok L) :
    ∀ e ∈ L, view.isValidCellIndex (some e.1) = true ∧ view.isParent e.1 = false := by
  induction fuel generalizing cell s L with
  | zero => cases h
  | succ fuel ih =>
    unfold Cell.getDescendantsForSide at h
    split at h
    · cases h
    · rename_i hvalid
      split at h
      · cases h
      · split at h
        · rename_i hnot
          cases h
          intro e he
          rw [List.mem_singleton.1 he]
          exact ⟨by simpa using hvalid, by simpa using hnot⟩
        · split at h
          · cases h
          · split at h
            · cases h
            · exact descendantsForSideLoop_leaves mt view cell _
                (fun child t L' hL' => ih child t L' hL') _ L h

theorem descendantsForSideLoop_paths (mt : MeshTopology) (view : MeshTopologyView) (cell : Cell)
    (refPattern : RefinementPattern) (allEntries : List (Nat × Nat)) (s : Nat)
    (hpat : cell._refPattern = some refPattern)
    (hall : refPattern.childrenForSides[s]? = some allEntries)
    (descend : Cell → Nat → Except MeshError (List (IndexType × Nat)))
    (hdescend : ∀ child t L, child.isParent view = true → descend child t = Except.ok L →
      ∀ (j : Nat) (e : IndexType × Nat), L[j]? = some e →
        ∃ p, Cell.OnSidePath mt view child t e p ∧ ∀ a ∈ p, ∃ i < j, L[i]? = some a)
    (entries : List (Nat × Nat)) (hsub : ∀ x ∈ entries, x ∈ allEntries)
    (L : List (IndexType × Nat))
    (h : Cell.descendantsForSideLoop mt view cell false descend entries = Except.ok L) :
    ∀ (j : Nat) (e : IndexType × Nat), L[j]? = some e →
      ∃ p, Cell.OnSidePath mt view cell s e p ∧ ∀ a ∈ p, ∃ i < j, L[i]? = some a := by
  induction entries generalizing L with
  | nil =>
    cases h
    intro j e he
    simp at he
  | cons entry rest ih =>
    obtain ⟨childOrdinal, childSideOrdinal⟩ := entry
    have hentry : (childOrdinal, childSideOrdinal) ∈ allEntries :=
      hsub _ (List.mem_cons_self _ _)
    unfold Cell.descendantsForSideLoop at h
    split at h
    · cases h
    · rename_i k hk
      dsimp only at h
      split at h
      · cases h
      · rename_i below hbelow
        split at h
        · cases h
        · rename_i tail htail
          cases h
          have hL : (if (view.isValidCellIndex (some k) && !view.isParent k || !false) = true
              then [(k, childSideOrdinal)] else []) ++ below ++ tail
              = (k, childSideOrdinal) :: (below ++ tail) := by
            simp
          rw [hL]
          intro j e he
          cases j with
          | zero =>
            simp only [List.getElem?_cons_zero, Option.some.injEq] at he
            rw [← he]
            exact ⟨[], Cell.OnSidePath.direct cell s refPattern allEntries
              (childOrdinal, childSideOrdinal) k hpat hall hentry hk,
              fun a ha => absurd ha (List.not_mem_nil _)⟩
          | succ j =>
            rw [List.getElem?_cons_succ] at he
            rcases Nat.lt_or_ge j below.length with hlt | hge
            · rw [List.getElem?_append_left hlt] at he
              by_cases hvalid : view.isValidCellIndex (some k) = true
              · rw [if_pos hvalid] at hbelow
                split at hbelow
                · cases hbelow
                · rename_i child hchild
                  by_cases hparent : child.isParent view = true
                  · rw [if_pos hparent] at hbelow
                    obtain ⟨p, hp, hprec⟩ := hdescend child childSideOrdinal below hparent hbelow j e he
                    refine ⟨(k, childSideOrdinal) :: p,
                      Cell.OnSidePath.through cell s refPattern allEntries
                        (childOrdinal, childSideOrdinal) k child e p hpat hall hentry hk hvalid
                        hchild hparent hp, fun a ha => ?_⟩
                    rcases List.mem_cons.1 ha with ha0 | hap
                    · exact ⟨0, Nat.succ_pos _, by rw [ha0, List.getElem?_cons_zero]⟩
                    · obtain ⟨i, hi, hai⟩ := hprec a hap
                      refine ⟨i + 1, Nat.succ_lt_succ hi, ?_⟩
                      rw [List.getElem?_cons_succ,
                        List.getElem?_append_left (Nat.lt_trans hi hlt)]
                      exact hai
                  · rw [if_neg hparent] at hbelow
                    cases hbelow
                    exact absurd hlt (Nat.not_lt_zero _)
              · rw [if_neg hvalid] at hbelow
                cases hbelow
                exact absurd hlt (Nat.not_lt_zero _)
            · rw [List.getElem?_append_right hge] at he
              obtain ⟨p, hp, hprec⟩ := ih (fun x hx => hsub x (List.mem_cons_of_mem _ hx))
                tail htail (j - below.length) e he
              refine ⟨p, hp, fun a ha => ?_⟩
              obtain ⟨i, hi, hai⟩ := hprec a ha
              refine ⟨i + below.length + 1, by omega, ?_⟩
              rw [List.getElem?_cons_succ, List.getElem?_append_right (by omega)]
              have hsubst : i + below.length - below.length = i := by omega
              rw [hsubst]
              exact hai

theorem getDescendantsForSide_paths (mt : MeshTopology) (view : MeshTopologyView) (fuel : Nat)
    (cell : Cell) (s : Nat) (L : List (IndexType × Nat))
    (hparent : view.isParent cell._cellIndex = true)
    (h : Cell.getDescendantsForSide mt view false fuel cell s = Except.ok L) :
    ∀ (j : Nat) (e : IndexType × Nat), L[j]? = some e →
      ∃ p, Cell.OnSidePath mt view cell s e p ∧ ∀ a ∈ p, ∃ i < j, L[i]? = some a := by
  induction fuel generalizing cell s L with
  | zero => cases h
  | succ fuel ih =>
    unfold Cell.getDescendantsForSide at h
    split at h
    · cases h
    · split at h
      · cases h
      · split at h
        · rename_i hnot
          rw [hparent] at hnot
          cases hnot
        · split at h
          · cases h
          · rename_i refPattern hpat
            split at h
            · cases h
            · rename_i entries hentries
              exact descendantsForSideLoop_paths mt view cell refPattern entries s hpat hentries
                _ (fun child t L' hp hL' => ih child t L' hp hL') entries (fun _ hx => hx) L h

/-! ## Boundary sides through `refineCellEntities`: lemmas -/

theorem recordPeriodicMatch_cells (vertex : Point) (vertexIndex : IndexType)
    (st : MeshTopology × Bool) (bc : Nat × PeriodicBC × Nat) :
    (recordPeriodicMatch vertex vertexIndex st bc).1._cells = st.1._cells := by
  unfold recordPeriodicMatch
  dsimp only
  split <;> rfl

theorem getVertexIndexAdding_cells (mt : MeshTopology) (vertex : Point) :
    (getVertexIndexAdding mt vertex).1._cells = mt._cells := by
  unfold getVertexIndexAdding
  split
  · rfl
  · dsimp only
    have hfold : ∀ (l : List (Nat × PeriodicBC × Nat)) (st : MeshTopology × Bool),
        (l.foldl (recordPeriodicMatch vertex mt._vertices.length) st).1._cells = st.1._cells := by
      intro l
      induction l with
      | nil => intro st; rfl
      | cons a t ih =>
        intro st
        rw [List.foldl_cons, ih, recordPeriodicMatch_cells]
    split
    · rw [hfold]
    · exact hfold _ _

theorem getVertexIndices_cells (mt : MeshTopology) (vertices : List Point) :
    (getVertexIndices mt vertices).1._cells = mt._cells := by
  unfold getVertexIndices
  exact foldl_rel (fun (a b : MeshTopology × List IndexType) => b.1._cells = a.1._cells)
    (fun _ => rfl) (fun _ _ _ h1 h2 => h2.trans h1) _ vertices
    (fun s a => getVertexIndexAdding_cells s.1 a) (mt, [])

theorem addEntity_cells (tools : CellTools) (mt mt' : MeshTopology) (topo : CellTopology)
    (vs : List IndexType) (i : IndexType) (p : Nat)
    (h : addEntity tools mt topo vs = Except.ok (mt', i, p)) : mt'._cells = mt._cells := by
  rcases (addEntity_ok_cases tools mt mt' topo vs i p h).2 with ⟨_, h1, _⟩ | ⟨_, h1⟩
  · rw [h1]
    rfl
  · rw [h1]

theorem addChildEntity_spec (tools : CellTools) (d : Nat)
    (parentIndex : IndexType) (childTopo : CellTopology)
    (st st' : MeshTopology × List (Option IndexType)) (physicalNodes : List Point)
    (h : addChildEntity tools d parentIndex childTopo st physicalNodes = Except.ok st') :
    st'.1._cells = st.1._cells ∧ ∃ x, st'.2 = st.2 ++ [some x] := by
  unfold addChildEntity at h
  dsimp only at h
  split at h
  · cases h
  · rename_i mt1 child p hadd
    have h1 := addEntity_cells _ _ _ _ _ _ _ hadd
    simp only [pure, Except.pure, Except.ok.injEq] at h
    subst h
    refine ⟨?_, child, rfl⟩
    dsimp only
    split
    · show mt1._cells = _
      rw [h1, getVertexIndices_cells]
    · rw [h1, getVertexIndices_cells]

theorem addChildEntities_spec (tools : CellTools) (d : Nat)
    (parentIndex : IndexType) (childTopo : CellTopology) (nodes : List (List Point))
    (st st' : MeshTopology × List (Option IndexType))
    (h : foldExcept (addChildEntity tools d parentIndex childTopo) st nodes = Except.ok st') :
    st'.1._cells = st.1._cells ∧ Steady true true st.1 st'.1 ∧
      ((∀ x ∈ st.2, x.isSome = true) → ∀ x ∈ st'.2, x.isSome = true) := by
  induction nodes generalizing st with
  | nil =>
    cases h
    exact ⟨rfl, steady_refl _ _ _, fun hx => hx⟩
  | cons a t ih =>
    unfold foldExcept at h
    cases hfa : addChildEntity tools d parentIndex childTopo st a with
    | error err =>
      rw [hfa] at h
      cases h
    | ok s1 =>
      rw [hfa] at h
      obtain ⟨hc1, x, hx1⟩ := addChildEntity_spec tools d parentIndex childTopo st s1 a hfa
      have hs1 := addChildEntity_steady true true tools d parentIndex childTopo st s1 a hfa
      obtain ⟨hc, hs, hsome⟩ := ih s1 h
      refine ⟨hc.trans hc1, steady_trans hs1 hs, fun hacc => hsome ?_⟩
      intro y hy
      rw [hx1] at hy
      rcases List.mem_append.1 hy with hy | hy
      · exact hacc y hy
      · rw [List.mem_singleton.1 hy]
        rfl

/-- What one completed pass of the sub-cell loop of `refineCellEntities` did. -/
theorem refineCellEntity_inv (tools : CellTools) (cellIndex : IndexType)
    (cellTopo : CellTopology) (nodesOfCell : List Point) (refPattern : RefinementPattern)
    (d : Nat) (mt mt' : MeshTopology) (subcord : Nat)
    (h : refineCellEntity tools cellIndex cellTopo nodesOfCell refPattern d mt subcord
      = Except.ok mt') :
    ∃ subPattern nodesOfChildren,
      (refPattern.subcellPatterns.getD d [])[subcord]? = some (subPattern, nodesOfChildren) ∧
      ((subPattern.numChildren = 1 ∧ mt' = mt) ∨
        (subPattern.numChildren ≠ 1 ∧ ∃ q mt1,
          cellEntityIndex mt cellIndex d subcord = Except.ok (some q, mt1) ∧
          ((mt' = mt1 ∧ ∃ entry rest,
              mapFind (mt1._childEntities.getD d []) q = some (entry :: rest) ∧
                entry.2.all (fun child => child.isSome) = true) ∨
            (∃ mt2 children childTopo,
              foldExcept (addChildEntity tools d q childTopo) (mt1, [])
                (nodesOfChildren nodesOfCell) = Except.ok (mt2, children) ∧
              mt' =
                (if d = mt2.sideDim ∧ q ∈ mt2._boundarySides then
                  { mt2 with
                    _childEntities := modifyAt mt2._childEntities d
                      (fun cs => mapSet cs q [(subPattern, children)])
                    _boundarySides := (children.filterMap id).foldl
                      (fun acc x => setInsert x acc) mt2._boundarySides }
                else
                  { mt2 with
                    _childEntities := modifyAt mt2._childEntities d
                      (fun cs => mapSet cs q [(subPattern, children)]) }))))) := by
  unfold refineCellEntity at h
  split at h
  · cases h
  · rename_i subPattern nodesOfChildren hpat
    refine ⟨subPattern, nodesOfChildren, hpat, ?_⟩
    dsimp only at h
    split at h
    · rename_i hone
      cases h
      exact Or.inl ⟨hone, rfl⟩
    · rename_i hmany
      refine Or.inr ⟨hmany, ?_⟩
      split at h
      · cases h
      · cases h
      · rename_i q mt1 h1
        refine ⟨q, mt1, h1, ?_⟩
        split at h
        · cases h
        · rename_i hcheck
          cases h
          refine Or.inl ⟨rfl, ?_⟩
          split at hcheck
          · cases hcheck
          · cases hcheck
          · rename_i entry rest hfind
            injection hcheck with hc
            exact ⟨entry, rest, hfind, hc⟩
        · split at h
          · cases h
          · rename_i childTopo _
            split at h
            · cases h
            · split at h
              · cases h
              · rename_i mt2 children h2
                refine Or.inr ⟨mt2, children, childTopo, h2, ?_⟩
                split at h
                · rename_i hb
                  cases h
                  have hb' : d = mt2.sideDim ∧ q ∈ mt2._boundarySides :=
                    ⟨hb.1, by simpa [isBoundarySide] using hb.2⟩
                  rw [if_pos hb']
                · rename_i hb
                  cases h
                  have hb' : ¬ (d = mt2.sideDim ∧ q ∈ mt2._boundarySides) := by
                    intro hx
                    exact hb ⟨hx.1, by simpa [isBoundarySide] using hx.2⟩
                  rw [if_neg hb']

theorem mem_foldl_setInsert (l : List Nat) (acc : List Nat) (z : Nat) :
    z ∈ l.foldl (fun acc x => setInsert x acc) acc ↔ z ∈ acc ∨ z ∈ l := by
  induction l generalizing acc with
  | nil => simp
  | cons a t ih =>
    rw [List.foldl_cons, ih, mem_setInsert]
    simp only [List.mem_cons]
    tauto

theorem sideDim_of_spaceDim (m mt : MeshTopology) (h : m._spaceDim = mt._spaceDim) :
    m.sideDim = mt.sideDim := by
  unfold sideDim
  rw [h]

theorem sideRefined_of_tables (sideDim : Nat) (m m' : MeshTopology) (p : IndexType)
    (hc : m'._childEntities.getD sideDim [] = m._childEntities.getD sideDim [] ∨
      ∃ (d : Nat) (q : IndexType) (f : List (RefinementPattern × List (Option IndexType))),
        ¬ (d = sideDim ∧ q = p) ∧
          m'._childEntities = modifyAt m._childEntities d (fun cs => mapSet cs q f))
    (hb : ∀ z, z ∈ m._boundarySides → z ∈ m'._boundarySides) :
    (mapFind (m'._childEntities.getD sideDim []) p
        = mapFind (m._childEntities.getD sideDim []) p) ∧
      (SideRefined sideDim m p → SideRefined sideDim m' p) := by
  have hfind : mapFind (m'._childEntities.getD sideDim []) p
      = mapFind (m._childEntities.getD sideDim []) p := by
    rcases hc with hc | ⟨d, q, f, hne, hc⟩
    · rw [hc]
    · rw [hc]
      by_cases hd : sideDim = d
      · by_cases hlen : d < m._childEntities.length
        · rw [hd, getD_modifyAt_self _ _ _ _ hlen, mapFind_mapSet]
          have hq : q ≠ p := fun hqp => hne ⟨hd.symm, hqp⟩
          rw [if_neg hq]
        · rw [getD_modifyAt_of_le _ _ _ _ _ (Nat.le_of_not_lt hlen)]
      · rw [getD_modifyAt_ne _ _ _ _ _ hd]
  refine ⟨hfind, ?_⟩
  rintro ⟨entry, he, hsome, hmem⟩
  exact ⟨entry, by rw [hfind]; exact he, hsome, fun x hx => hb x (hmem x hx)⟩

/-- One pass of the sub-cell loop of `refineCellEntities` keeps the invariant of
the boundary side `p` and, when it is the pass of the side itself with a
pattern of more than one child, leaves the side `SideRefined`. -/
theorem refineCellEntity_boundary (tools : CellTools) (c : IndexType)
    (cellTopo : CellTopology) (nodesOfCell : List Point) (refPattern : RefinementPattern)
    (d : Nat) (mt m m' : MeshTopology) (subcord s : Nat) (p : IndexType)
    (hJ : BoundarySideInv mt c s p m)
    (h : refineCellEntity tools c cellTopo nodesOfCell refPattern d m subcord = Except.ok m') :
    BoundarySideInv mt c s p m' ∧
      (SideRefined mt.sideDim m p → SideRefined mt.sideDim m' p) ∧
      (d = mt.sideDim → subcord = s → mt.sideDim < mt._spaceDim →
        (∀ subPattern nodesOfChildren,
          (refPattern.subcellPatterns.getD d [])[subcord]? = some (subPattern, nodesOfChildren) →
          subPattern.numChildren ≠ 1) →
        SideRefined mt.sideDim m' p) := by
  obtain ⟨hdim, hlen, hbnd, ⟨cell, hcell, hcached, hfull⟩, hstate⟩ := hJ
  obtain ⟨subPattern, nodesOfChildren, hpat, hcase⟩ :=
    refineCellEntity_inv tools c cellTopo nodesOfCell refPattern d m m' subcord h
  rcases hcase with ⟨hone, hm'⟩ | ⟨hmany, q, m1, h1, hcase⟩
  · rw [hm']
    exact ⟨⟨hdim, hlen, hbnd, ⟨cell, hcell, hcached, hfull⟩, hstate⟩, fun hx => hx,
      fun _ _ _ hall => absurd hone (hall subPattern nodesOfChildren hpat)⟩
  · -- the lookup of the cell fills its cache only
    obtain ⟨cell0, cell1, hcell0, hentity, hm1⟩ := cellEntityIndex_inv _ _ _ _ _ _ h1
    rw [hcell] at hcell0
    cases hcell0
    have hshape := entityIndex_sameShape _ _ _ _ _ _ hentity
    have hs1 := cellEntityIndex_steady true true _ _ _ _ _ _ h1
    have hcell1 : mapFind m1._cells c = some cell1 := by
      rw [hm1]
      show mapFind (mapSet m._cells c cell1) c = _
      rw [mapFind_mapSet, if_pos rfl]
    have hcached1 : cell1.cached mt.sideDim s (some p) := hshape.2.2.2 _ _ _ hcached
    have hfull1 : cell1._cellTopo.getDimension = mt._spaceDim := by
      rw [hshape.2.1]
      exact hfull
    have hce1 : m1._childEntities = m._childEntities := hs1.childEntities rfl
    have hb1 : m1._boundarySides = m._boundarySides := hs1.boundary rfl
    have hdim1 : m1._spaceDim = mt._spaceDim := hs1.dim.trans hdim
    have hq : d = mt.sideDim → subcord = s → mt.sideDim < mt._spaceDim → q = p := by
      intro hd hsub hlt
      have hnot : ¬ (mt.sideDim = cell._cellTopo.getDimension ∧ s = 0) := by
        rintro ⟨hx, _⟩
        rw [hfull] at hx
        omega
      obtain ⟨cell2, h2⟩ := entityIndex_of_cached m cell mt.sideDim s (some p) hnot hcached
      rw [hd, hsub, h2] at hentity
      cases hentity
      rfl
    have hJ1 : BoundarySideInv mt c s p m1 := by
      refine ⟨hdim1, ?_, ?_, ⟨cell1, hcell1, hcached1, hfull1⟩, ?_⟩
      · rw [hce1]
        exact hlen
      · rw [hb1]
        exact hbnd
      · rcases hstate with hnone | hdone
        · left
          rw [hce1]
          exact hnone
        · right
          exact (sideRefined_of_tables mt.sideDim m m1 p (Or.inl (by rw [hce1]))
            (fun z hz => by rw [hb1]; exact hz)).2 hdone
    have hkeep1 : SideRefined mt.sideDim m p → SideRefined mt.sideDim m1 p :=
      (sideRefined_of_tables mt.sideDim m m1 p (Or.inl (by rw [hce1]))
        (fun z hz => by rw [hb1]; exact hz)).2
    rcases hcase with ⟨hm', entry, rest, hfind, hall⟩ | ⟨m2, children, childTopo, h2, hm'⟩
    · rw [hm']
      refine ⟨hJ1, hkeep1, fun hd hsub hlt _ => ?_⟩
      have hqp := hq hd hsub hlt
      rw [hqp, hd] at hfind
      rcases hJ1.2.2.2.2 with hnone | hdone
      · rw [hnone] at hfind
        cases hfind
      · exact hdone
    · obtain ⟨hc2, hs2, hsome⟩ := addChildEntities_spec tools d q childTopo _ (m1, [])
        (m2, children) h2
      have hsome' : ∀ x ∈ children, x.isSome = true :=
        hsome (fun x hx => absurd hx (List.not_mem_nil _))
      have hce2 : m2._childEntities = m1._childEntities := hs2.childEntities rfl
      have hb2 : m2._boundarySides = m1._boundarySides := hs2.boundary rfl
      have hdim2 : m2._spaceDim = mt._spaceDim := hs2.dim.trans hdim1
      have hside2 : m2.sideDim = mt.sideDim := sideDim_of_spaceDim m2 mt hdim2
      have hc2' : m2._cells = m1._cells := hc2
      -- the new state: child entities set at `q`, boundary sides grown
      have hfacts : m'._spaceDim = mt._spaceDim ∧ m'._cells = m1._cells ∧
          m'._childEntities = modifyAt m1._childEntities d
            (fun cs => mapSet cs q [(subPattern, children)]) ∧
          (∀ z, z ∈ m1._boundarySides → z ∈ m'._boundarySides) ∧
          (d = mt.sideDim → q ∈ m1._boundarySides →
            ∀ x, some x ∈ children → x ∈ m'._boundarySides) := by
        rw [hm']
        by_cases hbr : d = m2.sideDim ∧ q ∈ m2._boundarySides
        · rw [if_pos hbr]
          refine ⟨hdim2, hc2', ?_, ?_, ?_⟩
          · show modifyAt m2._childEntities d _ = _
            rw [hce2]
          · intro z hz
            show z ∈ List.foldl _ m2._boundarySides _
            rw [mem_foldl_setInsert, hb2]
            exact Or.inl hz
          · intro _ _ x hx
            show x ∈ List.foldl _ m2._boundarySides _
            rw [mem_foldl_setInsert]
            right
            rw [List.mem_filterMap]
            exact ⟨some x, hx, rfl⟩
        · rw [if_neg hbr]
          refine ⟨hdim2, hc2', ?_, ?_, ?_⟩
          · show modifyAt m2._childEntities d _ = _
            rw [hce2]
          · intro z hz
            show z ∈ m2._boundarySides
            rw [hb2]
            exact hz
          · intro hd hqb
            exact absurd ⟨hd.trans hside2.symm, by rw [hb2]; exact hqb⟩ hbr
      obtain ⟨hdim', hcells', hce', hbsub, hins⟩ := hfacts
      by_cases hdq : d = mt.sideDim ∧ q = p
      · -- the pass subdivides the side `p` itself
        obtain ⟨hd, hqp⟩ := hdq
        have hdone : SideRefined mt.sideDim m' p := by
          refine ⟨(subPattern, children), ?_, hsome', ?_⟩
          · rw [hce', hd, getD_modifyAt_self _ _ _ _ (by rw [hce1]; exact hlen), mapFind_mapSet,
              if_pos hqp]
          · intro x hx
            exact hins hd (by rw [hqp]; exact hJ1.2.2.1) x hx
        refine ⟨⟨hdim', ?_, hbsub p hJ1.2.2.1, ⟨cell1, by rw [hcells']; exact hcell1, hcached1,
          hfull1⟩, Or.inr hdone⟩, fun _ => hdone, fun _ _ _ _ => hdone⟩
        rw [hce', length_modifyAt, hce1]
        exact hlen
      · have htab := sideRefined_of_tables mt.sideDim m1 m' p
          (Or.inr ⟨d, q, [(subPattern, children)], hdq, hce'⟩) hbsub
        refine ⟨⟨hdim', ?_, hbsub p hJ1.2.2.1, ⟨cell1, by rw [hcells']; exact hcell1, hcached1,
          hfull1⟩, ?_⟩, fun hx => htab.2 (hkeep1 hx), fun hd hsub hlt _ => ?_⟩
        · rw [hce', length_modifyAt, hce1]
          exact hlen
        · rcases hJ1.2.2.2.2 with hnone | hdone
          · left
            rw [htab.1]
            exact hnone
          · exact Or.inr (htab.2 hdone)
        · exact absurd ⟨hd, hq hd hsub hlt⟩ hdq

/-- A loop whose passes keep an invariant `I` and a property `Q`, one of whose
passes establishes `Q`: the last state has both. -/
theorem foldExcept_establish {σ α : Type} (f : σ → α → Except MeshError σ) (I Q : σ → Prop)
    (l : List α) (a0 : α) (ha0 : a0 ∈ l)
    (hstep : ∀ s a s', a ∈ l → I s → f s a = Except.ok s' → I s' ∧ (Q s → Q s'))
    (hest : ∀ s s', I s → f s a0 = Except.ok s' → Q s')
    (s s' : σ) (hs : I s) (h : foldExcept f s l = Except.ok s') : I s' ∧ Q s' := by
  have hkeep : ∀ (t : List α) (s s' : σ), (∀ a ∈ t, a ∈ l) → I s →
      foldExcept f s t = Except.ok s' → I s' ∧ (Q s → Q s') := by
    intro t
    induction t with
    | nil =>
      intro s s' _ hI ht
      cases ht
      exact ⟨hI, fun hq => hq⟩
    | cons a t ih =>
      intro s s' hsub hI ht
      unfold foldExcept at ht
      cases hfa : f s a with
      | error err =>
        rw [hfa] at ht
        cases ht
      | ok s1 =>
        rw [hfa] at ht
        obtain ⟨hI1, hQ1⟩ := hstep s a s1 (hsub a (List.mem_cons_self _ _)) hI hfa
        obtain ⟨hI', hQ'⟩ := ih s1 s' (fun x hx => hsub x (List.mem_cons_of_mem _ hx)) hI1 ht
        exact ⟨hI', fun hq => hQ' (hQ1 hq)⟩
  have hmain : ∀ (t : List α) (s s' : σ), (∀ a ∈ t, a ∈ l) → a0 ∈ t → I s →
      foldExcept f s t = Except.ok s' → I s' ∧ Q s' := by
    intro t
    induction t with
    | nil =>
      intro s s' _ hmem
      exact absurd hmem (List.not_mem_nil _)
    | cons a t ih =>
      intro s s' hsub hmem hI ht
      unfold foldExcept at ht
      cases hfa : f s a with
      | error err =>
        rw [hfa] at ht
        cases ht
      | ok s1 =>
        rw [hfa] at ht
        obtain ⟨hI1, _⟩ := hstep s a s1 (hsub a (List.mem_cons_self _ _)) hI hfa
        by_cases ha : a = a0
        · rw [ha] at hfa
          have hq1 := hest s s1 hI hfa
          obtain ⟨hI', hQ'⟩ := hkeep t s1 s' (fun x hx => hsub x (List.mem_cons_of_mem _ hx))
            hI1 ht
          exact ⟨hI', hQ' hq1⟩
        · rcases List.mem_cons.1 hmem with h0 | h0
          · exact absurd h0.symm ha
          · exact ih s1 s' (fun x hx => hsub x (List.mem_cons_of_mem _ hx)) h0 hI1 ht
  exact hmain l s s' (fun _ hx => hx) ha0 hs h

/-! ## Boundary sides of a new root cell: lemmas -/

theorem reverseLookupLoop_other (l : List IndexType) (x : IndexType) (hx : x ∉ l) :
    ∀ (n : Nat) (m : List (IndexType × IndexType)),
      mapFind ((l.enumFrom n).foldl (fun m entry => mapSet m entry.2 entry.1) m) x
        = mapFind m x := by
  induction l with
  | nil =>
    intro n m
    rfl
  | cons a t ih =>
    intro n m
    rw [List.enumFrom_cons, List.foldl_cons, ih (fun h => hx (List.mem_cons_of_mem _ h)),
      mapFind_mapSet, if_neg (fun h => hx (by rw [← h]; exact List.mem_cons_self _ _))]

theorem reverseLookupLoop_find (l : List IndexType) (hnd : l.Nodup) :
    ∀ (n : Nat) (m : List (IndexType × IndexType)) (i : Nat) (x : IndexType),
      l[i]? = some x →
      mapFind ((l.enumFrom n).foldl (fun m entry => mapSet m entry.2 entry.1) m) x
        = some (n + i) := by
  induction l with
  | nil =>
    intro n m i x hi
    simp at hi
  | cons a t ih =>
    intro n m i x hi
    obtain ⟨hat, hndt⟩ := List.nodup_cons.1 hnd
    rw [List.enumFrom_cons, List.foldl_cons]
    cases i with
    | zero =>
      rw [List.getElem?_cons_zero] at hi
      cases hi
      rw [reverseLookupLoop_other t a hat, mapFind_mapSet, if_pos rfl]
      rfl
    | succ j =>
      rw [List.getElem?_cons_succ] at hi
      rw [ih hndt (n + 1) _ j x hi, Nat.add_assoc, Nat.add_comm 1 j]

/-- The old-to-new map of a duplicate-free list binds the entry at position `i`
to `i`. -/
theorem reverseLookupOfDim_find (l : List IndexType) (hnd : l.Nodup) (i : Nat) (x : IndexType)
    (hi : l[i]? = some x) : mapFind (reverseLookupOfDim l) x = some i := by
  have := reverseLookupLoop_find l hnd 0 [] i x hi
  rw [Nat.zero_add] at this
  exact this

/-- The old-to-new map binds the entries of its list only. -/
theorem reverseLookupOfDim_none (l : List IndexType) (x : IndexType) (hx : x ∉ l) :
    mapFind (reverseLookupOfDim l) x = none :=
  reverseLookupLoop_other l x hx 0 []

/-- The vertex loop of the prune: the pruned vertex table lists the first
`_spaceDim` coordinates of the kept vertices, each of which is in the old table,
and the bindings that the loop repeats leave the old-to-new map as it was. -/
theorem pruneVertices_spec (mt1 : MeshTopology) (l : List IndexType) :
    ∀ (n : Nat)
      (s s' : List Point × List (IndexType × IndexType) × List (Point × IndexType)),
      foldExcept (pruneVertex mt1) s (l.enumFrom n) = Except.ok s' →
      (∀ (i : Nat) (x : IndexType), l[i]? = some x → mapFind s.2.1 x = some (n + i)) →
      s'.1 = s.1 ++ l.map (fun old => (mt1._vertices.getD old []).take mt1._spaceDim) ∧
        (∀ old ∈ l, ∃ v, mt1._vertices[old]? = some v ∧ mt1._spaceDim ≤ v.length) ∧
        (∀ v, mapFind s'.2.1 v = mapFind s.2.1 v) := by
  induction l with
  | nil =>
    intro n s s' h _
    cases h
    exact ⟨by simp, (fun _ ho => by cases ho), fun _ => rfl⟩
  | cons a t ih =>
    intro n s s' h hbound
    rw [List.enumFrom_cons] at h
    simp only [foldExcept] at h
    cases h1 : pruneVertex mt1 s (n, a) with
    | error err =>
      rw [h1] at h
      cases h
    | ok s1 =>
      rw [h1] at h
      unfold pruneVertex at h1
      dsimp only at h1
      cases hv : mt1._vertices[a]? with
      | none =>
        rw [hv] at h1
        cases h1
      | some vertex =>
        rw [hv] at h1
        dsimp only at h1
        by_cases hlen : vertex.length < mt1._spaceDim
        · rw [if_pos hlen] at h1
          cases h1
        · rw [if_neg hlen] at h1
          cases h1
          have ha : mapFind s.2.1 a = some n := by
            have := hbound 0 a (List.getElem?_cons_zero)
            rw [Nat.add_zero] at this
            exact this
          have hsame : ∀ v, mapFind (mapSet s.2.1 a n) v = mapFind s.2.1 v := by
            intro v
            rw [mapFind_mapSet]
            by_cases hav : a = v
            · rw [if_pos hav, ← hav, ha]
            · rw [if_neg hav]
          obtain ⟨hpv, hex, hfind⟩ := ih (n + 1) _ s' h (by
            intro i x hi
            show mapFind (mapSet s.2.1 a n) x = _
            rw [hsame, hbound (i + 1) x (by rw [List.getElem?_cons_succ]; exact hi),
              Nat.add_assoc, Nat.add_comm 1 i])
          refine ⟨?_, ?_, ?_⟩
          · rw [hpv, List.map_cons, List.getD_eq_getElem?_getD, hv]
            simp
          · intro old hold
            rcases List.mem_cons.1 hold with h0 | h0
            · rw [h0]
              exact ⟨vertex, hv, Nat.le_of_not_lt hlen⟩
            · exact hex old h0
          · intro v
            rw [hfind v]
            exact hsame v

/-- One pass of the loop over the kept sides leaves the old-to-new maps alone
or binds the side in the map of the side dimension. -/
theorem pruneSideClaimants_lookup (mt1 : MeshTopology) (H : List IndexType) (fuel : Nat)
    (s s' : List (List (IndexType × IndexType)) ×
      List (Option (IndexType × Nat) × Option (IndexType × Nat)))
    (entry : Nat × IndexType) (h : pruneSideClaimants mt1 H fuel s entry = Except.ok s') :
    s'.1 = s.1 ∨ s'.1 = modifyAt s.1 mt1.sideDim (fun m => mapSet m entry.2 entry.1) := by
  unfold pruneSideClaimants at h
  split at h
  · cases h
    exact Or.inl rfl
  · dsimp only at h
    split at h
    · cases h
    · split at h
      · cases h
      · split at h
        · cases h
          exact Or.inr rfl
        · cases h
          exact Or.inr rfl

/-- The loop over the kept sides keeps the number of old-to-new maps and what
the map of the vertices binds. -/
theorem pruneSidesClaimants_spec (mt1 : MeshTopology) (H : List IndexType) (fuel : Nat)
    (l : List IndexType) :
    ∀ (n : Nat)
      (s s' : List (List (IndexType × IndexType)) ×
        List (Option (IndexType × Nat) × Option (IndexType × Nat))),
      foldExcept (pruneSideClaimants mt1 H fuel) s (l.enumFrom n) = Except.ok s' →
      (mt1.sideDim = 0 → ∀ (i : Nat) (x : IndexType), l[i]? = some x →
        mapFind (s.1.getD 0 []) x = some (n + i)) →
      s'.1.length = s.1.length ∧
        ∀ v, mapFind (s'.1.getD 0 []) v = mapFind (s.1.getD 0 []) v := by
  induction l with
  | nil =>
    intro n s s' h _
    cases h
    exact ⟨rfl, fun _ => rfl⟩
  | cons a t ih =>
    intro n s s' h hbound
    rw [List.enumFrom_cons] at h
    simp only [foldExcept] at h
    cases h1 : pruneSideClaimants mt1 H fuel s (n, a) with
    | error err =>
      rw [h1] at h
      cases h
    | ok s1 =>
      rw [h1] at h
      have hstep : s1.1.length = s.1.length ∧
          ∀ v, mapFind (s1.1.getD 0 []) v = mapFind (s.1.getD 0 []) v := by
        rcases pruneSideClaimants_lookup mt1 H fuel s s1 (n, a) h1 with hs | hs
        · rw [hs]
          exact ⟨rfl, fun _ => rfl⟩
        · rw [hs]
          refine ⟨length_modifyAt _ _ _, fun v => ?_⟩
          by_cases hside : mt1.sideDim = 0
          · rw [hside]
            by_cases hlen : 0 < s.1.length
            · rw [getD_modifyAt_self _ _ _ _ hlen, mapFind_mapSet]
              have ha : mapFind (s.1.getD 0 []) a = some n := by
                have := hbound hside 0 a (List.getElem?_cons_zero)
                rw [Nat.add_zero] at this
                exact this
              by_cases hav : a = v
              · rw [if_pos hav, ← hav, ha]
              · rw [if_neg hav]
            · rw [getD_modifyAt_of_le _ _ _ _ _ (Nat.le_of_not_lt hlen)]
          · rw [getD_modifyAt_ne _ _ _ _ _ (fun h0 => hside h0.symm)]
      obtain ⟨hl, hf⟩ := ih (n + 1) s1 s' h (by
        intro hside i x hi
        rw [hstep.2, hbound hside (i + 1) x (by rw [List.getElem?_cons_succ]; exact hi),
          Nat.add_assoc, Nat.add_comm 1 i])
      exact ⟨hl.trans hstep.1, fun v => (hf v).trans (hstep.2 v)⟩

/-- The node loop of an entity of dimension one or more without a first-seen
ordering runs over no node. -/
theorem pruneEntityNodes_without_ordering (d : Nat) (hd : d ≠ 0) (l : List IndexType) (n : Nat)
    (s s' : List (IndexType × IndexType) × List IndexType × List IndexType)
    (h : foldExcept (pruneEntityNode d none) s (l.enumFrom n) = Except.ok s') :
    l = [] := by
  cases l with
  | nil => rfl
  | cons a t =>
    rw [List.enumFrom_cons] at h
    simp only [foldExcept] at h
    unfold pruneEntityNode at h
    dsimp only at h
    rw [if_neg hd] at h
    cases h

/-- The entity loop of one dimension appends one row per kept entity to the
pruned entities and, from dimension one up, to the pruned first-seen orderings:
the old row with every vertex replaced by what the old-to-new map of the
vertices reads for it. -/
theorem pruneEntities_spec (tools : CellTools) (mt : MeshTopology) (H : List IndexType)
    (d : Nat) (f : IndexType → IndexType) (l : List IndexType) :
    ∀ (n : Nat) (s s' : PrunedEntities),
      foldExcept (pruneEntity tools mt H d) s (l.enumFrom n) = Except.ok s' →
      0 < s.reverseLookup.length →
      (∀ v, newIndex (s.reverseLookup.getD 0 []) v = f v) →
      d < s.entities.length → d < s.canonicalEntityOrdering.length →
      s'.reverseLookup.length = s.reverseLookup.length ∧
        (∀ v, newIndex (s'.reverseLookup.getD 0 []) v = f v) ∧
        s'.entities.length = s.entities.length ∧
        s'.canonicalEntityOrdering.length = s.canonicalEntityOrdering.length ∧
        (∀ d', s'.entities.getD d' [] =
          if d' = d then
            s.entities.getD d [] ++
              l.map (fun old => ((mt._entities.getD d []).getD old []).map f)
          else s.entities.getD d' []) ∧
        (∀ d', s'.canonicalEntityOrdering.getD d' [] =
          if d' = d ∧ 0 < d then
            s.canonicalEntityOrdering.getD d [] ++
              l.map (fun old => (((mt._canonicalEntityOrdering.getD d []).getD old []).take
                ((mt._entities.getD d []).getD old []).length).map f)
          else s.canonicalEntityOrdering.getD d' []) := by
  induction l with
  | nil =>
    intro n s s' h _ hf _ _
    cases h
    refine ⟨rfl, hf, rfl, rfl, fun d' => ?_, fun d' => ?_⟩
    · by_cases hd' : d' = d
      · rw [if_pos hd', hd']
        simp
      · rw [if_neg hd']
    · by_cases hd' : d' = d ∧ 0 < d
      · rw [if_pos hd', hd'.1]
        simp
      · rw [if_neg hd']
  | cons a t ih =>
    intro n s s' h hlen hf hde hdc
    rw [List.enumFrom_cons] at h
    simp only [foldExcept] at h
    cases h1 : pruneEntity tools mt H d s (n, a) with
    | error err =>
      rw [h1] at h
      cases h
    | ok s1 =>
      rw [h1] at h
      obtain ⟨entityTopo, oldNodes, vertexLookup, newNodes, newCanonical, oldActiveCells,
        oldSides, _, hold, hnodes, _, _, _, _, _, _, hrl, hent, _, hcan, _⟩ :=
        pruneEntity_inv tools mt H d s s1 (n, a) h1
      have hnodes' : foldExcept
          (pruneEntityNode d ((mt._canonicalEntityOrdering.getD d [])[a]?))
          (s.reverseLookup.getD 0 [], [], []) (oldNodes.enumFrom 0)
            = Except.ok (vertexLookup, newNodes, newCanonical) := hnodes
      obtain ⟨hnew, hrow, _, hcrow⟩ := pruneEntityNodes_spec d _ oldNodes 0 _ _ hnodes'
      have hgetold : (mt._entities.getD d []).getD a [] = oldNodes := by
        rw [List.getD_eq_getElem?_getD]
        have hold' : (mt._entities.getD d [])[a]? = some oldNodes := hold
        rw [hold']
        rfl
      have hmapf : oldNodes.map (newIndex (s.reverseLookup.getD 0 [])) = oldNodes.map f :=
        List.map_congr_left (fun v _ => hf v)
      have hnewNodes : newNodes = oldNodes.map f := by
        have : newNodes = [] ++ oldNodes.map (newIndex (s.reverseLookup.getD 0 [])) := hrow
        rw [this, List.nil_append, hmapf]
      have hnewCanonical : 0 < d → newCanonical =
          (((mt._canonicalEntityOrdering.getD d []).getD a []).take oldNodes.length).map f := by
        intro hd0
        have hdne : d ≠ 0 := Nat.pos_iff_ne_zero.1 hd0
        rw [List.getD_eq_getElem?_getD]
        cases ho : (mt._canonicalEntityOrdering.getD d [])[a]? with
        | none =>
          rw [ho] at hnodes'
          have hnil := pruneEntityNodes_without_ordering d hdne oldNodes 0 _ _ hnodes'
          rw [hnil] at hnodes'
          cases hnodes'
          rw [hnil]
          rfl
        | some o =>
          have := hcrow hdne o ho
          have this' : newCanonical
              = [] ++ ((o.drop 0).take oldNodes.length).map
                (newIndex (s.reverseLookup.getD 0 [])) := this
          rw [this', List.nil_append, List.drop_zero]
          exact List.map_congr_left (fun v _ => hf v)
      have hrl1 : s1.reverseLookup.length = s.reverseLookup.length := by
        rw [hrl, length_modifyAt]
      have hf1 : ∀ v, newIndex (s1.reverseLookup.getD 0 []) v = f v := by
        intro v
        rw [hrl, getD_modifyAt_self _ _ _ _ hlen]
        have : newIndex vertexLookup v = newIndex (s.reverseLookup.getD 0 []) v := hnew v
        rw [this]
        exact hf v
      have hent1 : s1.entities.length = s.entities.length := by
        rw [hent, length_modifyAt]
      have hcan1 : s1.canonicalEntityOrdering.length = s.canonicalEntityOrdering.length := by
        rw [hcan]
        split
        · rw [length_modifyAt]
        · rfl
      obtain ⟨h1l, h1f, h1e, h1c, h1rows, h1can⟩ := ih (n + 1) s1 s' h (by rw [hrl1]; exact hlen)
        hf1 (by rw [hent1]; exact hde) (by rw [hcan1]; exact hdc)
      refine ⟨h1l.trans hrl1, h1f, h1e.trans hent1, h1c.trans hcan1, fun d' => ?_, fun d' => ?_⟩
      · rw [h1rows d']
        by_cases hd' : d' = d
        · rw [if_pos hd', if_pos hd', hent, getD_modifyAt_self _ _ _ _ hde, List.map_cons,
            hgetold, hnewNodes]
          simp
        · rw [if_neg hd', if_neg hd', hent, getD_modifyAt_ne _ _ _ _ _ hd']
      · rw [h1can d']
        by_cases hd' : d' = d ∧ 0 < d
        · rw [if_pos hd', if_pos hd', hcan, if_pos hd'.2, getD_modifyAt_self _ _ _ _ hdc,
            List.map_cons, hgetold, hnewCanonical hd'.2]
          simp
        · rw [if_neg hd', if_neg hd', hcan]
          by_cases hd0 : d > 0
          · rw [if_pos hd0]
            have hne : d' ≠ d := fun h0 => hd' ⟨h0, hd0⟩
            rw [getD_modifyAt_ne _ _ _ _ _ hne]
          · rw [if_neg hd0]

/-- The entity loop over distinct dimensions within the tables: the rows of the
dimensions of the loop are appended, the other dimensions are left alone. -/
theorem pruneEntitiesOfDims_spec (tools : CellTools) (mt : MeshTopology) (H : List IndexType)
    (olds : List (List IndexType)) (f : IndexType → IndexType) (ds : List Nat) :
    ds.Nodup → ∀ (s s' : PrunedEntities),
      foldExcept (pruneEntitiesOfDim tools mt H olds) s ds = Except.ok s' →
      0 < s.reverseLookup.length →
      (∀ v, newIndex (s.reverseLookup.getD 0 []) v = f v) →
      (∀ d ∈ ds, d < s.entities.length ∧ d < s.canonicalEntityOrdering.length) →
      (∀ v, newIndex (s'.reverseLookup.getD 0 []) v = f v) ∧
        (∀ d, s'.entities.getD d [] =
          if d ∈ ds then
            s.entities.getD d [] ++
              (olds.getD d []).map (fun old => ((mt._entities.getD d []).getD old []).map f)
          else s.entities.getD d []) ∧
        (∀ d, s'.canonicalEntityOrdering.getD d [] =
          if d ∈ ds ∧ 0 < d then
            s.canonicalEntityOrdering.getD d [] ++
              (olds.getD d []).map
                (fun old => (((mt._canonicalEntityOrdering.getD d []).getD old []).take
                  ((mt._entities.getD d []).getD old []).length).map f)
          else s.canonicalEntityOrdering.getD d []) := by
  induction ds with
  | nil =>
    intro _ s s' h _ hf _
    cases h
    refine ⟨hf, fun d => ?_, fun d => ?_⟩
    · rw [if_neg (List.not_mem_nil d)]
    · rw [if_neg (fun h0 => List.not_mem_nil d h0.1)]
  | cons a t ih =>
    intro hnd s s' h hlen hf hbounds
    obtain ⟨hat, hndt⟩ := List.nodup_cons.1 hnd
    simp only [foldExcept] at h
    cases h1 : pruneEntitiesOfDim tools mt H olds s a with
    | error err =>
      rw [h1] at h
      cases h
    | ok s1 =>
      rw [h1] at h
      have h1' : foldExcept (pruneEntity tools mt H a) s ((olds.getD a []).enumFrom 0)
          = Except.ok s1 := h1
      obtain ⟨ha1, ha2⟩ := hbounds a (List.mem_cons_self _ _)
      obtain ⟨hl1, hf1, he1, hc1, hrows1, hcan1⟩ :=
        pruneEntities_spec tools mt H a f (olds.getD a []) 0 s s1 h1' hlen hf ha1 ha2
      obtain ⟨hf', hrows, hcan⟩ := ih hndt s1 s' h (by rw [hl1]; exact hlen) hf1 (by
        intro d hd
        rw [he1, hc1]
        exact hbounds d (List.mem_cons_of_mem _ hd))
      refine ⟨hf', fun d => ?_, fun d => ?_⟩
      · rw [hrows d, hrows1 d]
        by_cases hda : d = a
        · subst hda
          rw [if_neg hat, if_pos rfl, if_pos (List.mem_cons_self _ _)]
        · rw [if_neg hda]
          by_cases hdt : d ∈ t
          · rw [if_pos hdt, if_pos (List.mem_cons_of_mem _ hdt)]
          · rw [if_neg hdt,
              if_neg (fun h0 : d ∈ a :: t => (List.mem_cons.1 h0).elim hda hdt)]
      · rw [hcan d, hcan1 d]
        by_cases hda : d = a
        · subst hda
          rw [if_neg (fun h0 : d ∈ t ∧ 0 < d => hat h0.1)]
          by_cases hd0 : 0 < d
          · rw [if_pos (⟨rfl, hd0⟩ : d = d ∧ 0 < d),
              if_pos (⟨List.mem_cons_self _ _, hd0⟩ : d ∈ d :: t ∧ 0 < d)]
          · rw [if_neg (fun h0 : d = d ∧ 0 < d => hd0 h0.2),
              if_neg (fun h0 : d ∈ d :: t ∧ 0 < d => hd0 h0.2)]
        · rw [if_neg (fun h0 : d = a ∧ 0 < a => hda h0.1)]
          by_cases hdt : d ∈ t ∧ 0 < d
          · rw [if_pos hdt,
              if_pos (⟨List.mem_cons_of_mem _ hdt.1, hdt.2⟩ : d ∈ a :: t ∧ 0 < d)]
          · rw [if_neg hdt,
              if_neg (fun h0 : d ∈ a :: t ∧ 0 < d =>
                hdt ⟨(List.mem_cons.1 h0.1).elim (fun h1 => absurd h1 hda) id, h0.2⟩)]

/-- The rebuilt vertex, entity and cell tables of `pruneToInclude`: the vertex
table lists the coordinates of the kept vertices, the entity tables list the rows
of the kept entities with every vertex replaced by what the old-to-new map of the
vertices reads for it, and the cells of the halo have their vertex lists replaced
in the same way. -/
theorem pruneRebuild_tables (tools : CellTools) (fuel : Nat) (mt mt' : MeshTopology)
    (H : List IndexType) (h : pruneRebuild tools fuel mt H = Except.ok mt') :
    ∃ mt1 olds, entitiesToKeep mt H = Except.ok (mt1, olds) ∧ mt._spaceDim ≠ 0 ∧
      mt'._vertices
        = (olds.getD 0 []).map (fun old => (mt._vertices.getD old []).take mt._spaceDim) ∧
      (∀ old ∈ olds.getD 0 [], ∃ v, mt._vertices[old]? = some v ∧ mt._spaceDim ≤ v.length) ∧
      (∀ d, d < mt._spaceDim → mt'._entities.getD d [] =
        (olds.getD d []).map (fun old => ((mt._entities.getD d []).getD old []).map
          (newIndex (reverseLookupOfDim (olds.getD 0 []))))) ∧
      (∀ d, 0 < d → d < mt._spaceDim → mt'._canonicalEntityOrdering.getD d [] =
        (olds.getD d []).map
          (fun old => (((mt._canonicalEntityOrdering.getD d []).getD old []).take
            ((mt._entities.getD d []).getD old []).length).map
              (newIndex (reverseLookupOfDim (olds.getD 0 []))))) ∧
      ∀ k, mapFind mt'._cells k =
        if k ∈ H then (mapFind mt._cells k).map (fun cell =>
          { cell with
            _vertices := cell._vertices.map (newIndex (reverseLookupOfDim (olds.getD 0 []))),
            _entityIndices := [] })
        else none := by
  obtain ⟨mt1, olds, pv, vl, pvm, sl, pcs, pruned, rev, cells, valid, active, roots, visited,
    h1, hdim, h2, h3, h4, h5, _, hmt'⟩ := pruneRebuild_inv tools fuel mt mt' H h
  obtain ⟨hfilled, holds, hsorted, _⟩ := entitiesToKeep_spec mt mt1 H olds h1
  have hsd : mt1._spaceDim = mt._spaceDim := by rw [hfilled.1]
  have hvs : mt1._vertices = mt._vertices := by rw [hfilled.1]
  have hes : mt1._entities = mt._entities := by rw [hfilled.1]
  have hcs : mt1._canonicalEntityOrdering = mt._canonicalEntityOrdering := by rw [hfilled.1]
  have hnd0 : (olds.getD 0 []).Nodup := (hsorted 0).nodup
  -- the vertex loop
  have h2' : foldExcept (pruneVertex mt1) ([], reverseLookupOfDim (olds.getD 0 []), [])
      ((olds.getD 0 []).enumFrom 0) = Except.ok (pv, vl, pvm) := h2
  obtain ⟨hpv, hvex, hvl⟩ := pruneVertices_spec mt1 (olds.getD 0 []) 0 _ _ h2' (by
    intro i x hi
    rw [Nat.zero_add]
    exact reverseLookupOfDim_find _ hnd0 i x hi)
  have hvl' : ∀ v, mapFind vl v = mapFind (reverseLookupOfDim (olds.getD 0 [])) v := hvl
  -- the side loop
  have hlen0 : 0 < (modifyAt (olds.map reverseLookupOfDim) 0 (fun _ => vl)).length := by
    rw [length_modifyAt, List.length_map, holds, ← hsd]
    exact Nat.pos_of_ne_zero hdim
  have hinit0 : (modifyAt (olds.map reverseLookupOfDim) 0 (fun _ => vl)).getD 0 [] = vl := by
    rw [getD_modifyAt_self _ _ _ _ (by rw [length_modifyAt] at hlen0; exact hlen0)]
  have h3' : foldExcept (pruneSideClaimants mt1 H fuel)
      (modifyAt (olds.map reverseLookupOfDim) 0 (fun _ => vl), [])
      ((olds.getD mt1.sideDim []).enumFrom 0) = Except.ok (sl, pcs) := h3
  obtain ⟨hsl, hslfind⟩ := pruneSidesClaimants_spec mt1 H fuel _ 0 _ _ h3' (by
    intro hside i x hi
    show mapFind ((modifyAt (olds.map reverseLookupOfDim) 0 (fun _ => vl)).getD 0 []) x = _
    rw [hinit0, hvl', Nat.zero_add]
    rw [hside] at hi
    exact reverseLookupOfDim_find _ hnd0 i x hi)
  have hslen : 0 < sl.length := by
    have : sl.length = (modifyAt (olds.map reverseLookupOfDim) 0 (fun _ => vl)).length := hsl
    rw [this]
    exact hlen0
  have hslnew : ∀ v, newIndex (sl.getD 0 []) v
      = newIndex (reverseLookupOfDim (olds.getD 0 [])) v := by
    intro v
    unfold newIndex
    have : mapFind (sl.getD 0 []) v
        = mapFind ((modifyAt (olds.map reverseLookupOfDim) 0 (fun _ => vl)).getD 0 []) v :=
      hslfind v
    rw [this, hinit0, hvl']
  -- the entity loop
  obtain ⟨hpnew, hrows, hcan⟩ := pruneEntitiesOfDims_spec tools mt1 H olds
    (newIndex (reverseLookupOfDim (olds.getD 0 []))) (List.range mt1._spaceDim)
    (List.nodup_range _) _ pruned h4 hslen hslnew (by
      intro d hd
      have hd' := List.mem_range.1 hd
      exact ⟨by show d < (List.replicate mt1._spaceDim []).length
                rw [List.length_replicate]; exact hd',
        by show d < (List.replicate mt1._spaceDim []).length
           rw [List.length_replicate]; exact hd'⟩)
  -- the cell loop
  obtain ⟨_, _, _, hfind, _, _⟩ := pruneCells_spec mt1 H _ _ h5
  have hmap : ∀ k, (mapFind mt1._cells k).map (fun cell : Cell =>
      ({ cell with
          _vertices := cell._vertices.map (newIndex (pruned.reverseLookup.getD 0 [])),
          _entityIndices := [] } : Cell))
      = (mapFind mt._cells k).map (fun cell : Cell =>
      ({ cell with
          _vertices := cell._vertices.map (newIndex (reverseLookupOfDim (olds.getD 0 []))),
          _entityIndices := [] } : Cell)) := by
    intro k
    have hfun : newIndex (pruned.reverseLookup.getD 0 [])
        = newIndex (reverseLookupOfDim (olds.getD 0 [])) := funext hpnew
    rw [hfun]
    have hk := hfilled.2 k
    cases hf : mapFind mt._cells k with
    | none =>
      rw [hf] at hk
      cases hf1 : mapFind mt1._cells k with
      | none => rfl
      | some c1 =>
        rw [hf1] at hk
        exact hk.elim
    | some c =>
      rw [hf] at hk
      cases hf1 : mapFind mt1._cells k with
      | none =>
        rw [hf1] at hk
        exact hk.elim
      | some c1 =>
        rw [hf1] at hk
        obtain ⟨⟨cache, hc1⟩, _⟩ := hk
        rw [hc1]
        rfl
  refine ⟨mt1, olds, h1, by rw [← hsd]; exact hdim, ?_, ?_, ?_, ?_, ?_⟩
  · rw [hmt']
    show pv = _
    have : pv = [] ++ (olds.getD 0 []).map
        (fun old => (mt1._vertices.getD old []).take mt1._spaceDim) := hpv
    rw [this, List.nil_append, hvs, hsd]
  · intro old hold
    obtain ⟨v, hv, hle⟩ := hvex old hold
    rw [hvs] at hv
    rw [hsd] at hle
    exact ⟨v, hv, hle⟩
  · intro d hd
    rw [hmt']
    show pruned.entities.getD d [] = _
    rw [hrows d, if_pos (List.mem_range.2 (by rw [hsd]; exact hd)), hes]
    show (List.replicate mt1._spaceDim []).getD d [] ++ _ = _
    rw [getD_replicate_nil, List.nil_append]
  · intro d hd0 hd
    rw [hmt']
    show pruned.canonicalEntityOrdering.getD d [] = _
    rw [hcan d, if_pos ⟨List.mem_range.2 (by rw [hsd]; exact hd), hd0⟩, hes, hcs]
    show (List.replicate mt1._spaceDim []).getD d [] ++ _ = _
    rw [getD_replicate_nil, List.nil_append]
  · intro k
    rw [hmt']
    show mapFind cells k = _
    rw [hfind k, hmap k]
    rfl

/-- The vertex entity of a cell of dimension one or more in a mesh without
periodic rules is the vertex of the cell, when the cache of the cell has the slot
and the slot is empty or holds the vertex. -/
theorem entityIndexValue_vertex (mt : MeshTopology) (c : Cell) (j : Nat) (v : IndexType)
    (hper : mt._periodicBCs.length = 0) (hdim : c._cellTopo.getDimension ≠ 0)
    (hv : c._vertices[j]? = some v)
    (hslot : c.cacheSlot 0 j = some none ∨ c.cacheSlot 0 j = some (some (some v))) :
    Cell.entityIndexValue mt c 0 j = Except.ok (some v) := by
  rw [entityIndexValue_eq_slot, if_neg (fun h0 => hdim h0.1.symm)]
  rcases hslot with hs | hs
  · rw [hs]
    dsimp only
    unfold Cell.subcellNodes
    rw [if_neg (by decide), hv]
    show getEntityIndex mt 0 (setOfList [v]) = _
    unfold getEntityIndex
    have hone : [v].length = 1 := rfl
    simp only [hone, hper, if_true]
    rfl
  · rw [hs]

/-! ## Refinement of an unknown cell: lemmas -/

theorem countRefinement_isValid (mt : MeshTopology) (pat : RefinementPattern) (f : IndexType)
    (c : Option IndexType) :
    (countRefinement mt pat f).isValidCellIndex c = mt.isValidCellIndex c := by
  unfold countRefinement
  split <;> rfl

/-! ## The slots of the claimant table: lemmas -/

theorem mem_modifyAt {α : Type} (l : List α) (i : Nat) (f : α → α) (x : α)
    (hx : x ∈ modifyAt l i f) : x ∈ l ∨ ∃ a ∈ l, x = f a := by
  induction l generalizing i with
  | nil => cases hx
  | cons a t ih =>
    cases i with
    | zero =>
      simp only [modifyAt, List.mem_cons] at hx
      rcases hx with h | h
      · exact Or.inr ⟨a, List.mem_cons_self _ _, h⟩
      · exact Or.inl (List.mem_cons_of_mem _ h)
    | succ i =>
      simp only [modifyAt, List.mem_cons] at hx
      rcases hx with h | h
      · exact Or.inl (by rw [h]; exact List.mem_cons_self _ _)
      · rcases ih i h with h1 | ⟨b, hb, h1⟩
        · exact Or.inl (List.mem_cons_of_mem _ h1)
        · exact Or.inr ⟨b, List.mem_cons_of_mem _ hb, h1⟩

theorem mem_resizeTo {α : Type} (l : List α) (n : Nat) (dflt x : α)
    (hx : x ∈ resizeTo l n dflt) : x ∈ l ∨ x = dflt := by
  unfold resizeTo at hx
  rcases List.mem_append.1 hx with h | h
  · exact Or.inl (List.mem_of_mem_take h)
  · exact Or.inr (List.eq_of_mem_replicate h)

/-- An entry written over a table whose entries fill the first slot first,
resized or not, leaves such a table when it fills the first slot first. -/
theorem inOrder_modifyAt
    (table : List (Option (IndexType × Nat) × Option (IndexType × Nat)))
    (i : Nat) (entry : Option (IndexType × Nat) × Option (IndexType × Nat))
    (htable : ∀ x ∈ table, x.2.isSome = true → x.1.isSome = true)
    (hentry : entry.2.isSome = true → entry.1.isSome = true) :
    ∀ x ∈ modifyAt table i (fun _ => entry), x.2.isSome = true → x.1.isSome = true := by
  intro x hx
  rcases mem_modifyAt _ _ _ _ hx with h | ⟨_, _, h⟩
  · exact htable x h
  · rw [h]
    exact hentry

theorem inOrder_resizeTo
    (table : List (Option (IndexType × Nat) × Option (IndexType × Nat))) (n : Nat)
    (htable : ∀ x ∈ table, x.2.isSome = true → x.1.isSome = true) :
    ∀ x ∈ resizeTo table n (none, none), x.2.isSome = true → x.1.isSome = true := by
  intro x hx
  rcases mem_resizeTo _ _ _ _ hx with h | h
  · exact htable x h
  · rw [h]
    intro h2
    cases h2

/-- The method `addCellForSide` keeps the claimant table filling the first slot
first. -/
theorem addCellForSide_inOrder (mt mt' : MeshTopology) (cellIndex : IndexType)
    (sideOrdinal : Nat) (side : Option IndexType) (hinv : ClaimantsInOrder mt)
    (h : addCellForSide mt cellIndex sideOrdinal side = Except.ok mt') :
    ClaimantsInOrder mt' := by
  unfold addCellForSide at h
  split at h
  · cases h
  · split at h
    · cases h
      exact inOrder_modifyAt _ _ _ (inOrder_resizeTo _ _ hinv) (fun _ => rfl)
    · split at h
      · cases h
      · cases h
      · rename_i cell1 cell2 cellToAdd _ _
        split at h
        · cases h
        · split at h
          · cases h
            exact inOrder_modifyAt _ _ _ hinv (fun _ => rfl)
          · rename_i hfirst
            split at h
            · cases h
              refine inOrder_modifyAt _ _ _ hinv (fun _ => ?_)
              cases cell1 with
              | none => exact absurd (Or.inl rfl) hfirst
              | some c1 => rfl
            · cases h

/-- One pass of the loop of `pruneToInclude` over the kept sides keeps the
pruned claimant table filling the first slot first. -/
theorem pruneSideClaimants_inOrder (mt : MeshTopology) (H : List IndexType) (fuel : Nat)
    (s s' : List (List (IndexType × IndexType)) ×
      List (Option (IndexType × Nat) × Option (IndexType × Nat)))
    (entry : Nat × IndexType)
    (hs : ∀ x ∈ s.2, x.2.isSome = true → x.1.isSome = true)
    (h : pruneSideClaimants mt H fuel s entry = Except.ok s') :
    ∀ x ∈ s'.2, x.2.isSome = true → x.1.isSome = true := by
  unfold pruneSideClaimants at h
  split at h
  · cases h
    exact hs
  · dsimp only at h
    split at h
    · cases h
    · rename_i first _
      split at h
      · cases h
      · rename_i second _
        split at h
        · cases h
          exact hs
        · cases h
          have hflip : ((if first.isNone && second.isSome then (second, first)
              else (first, second)) : Option (IndexType × Nat) × Option (IndexType × Nat)).2.isSome
                = true →
              ((if first.isNone && second.isSome then (second, first)
              else (first, second)) : Option (IndexType × Nat) × Option (IndexType × Nat)).1.isSome
                = true := by
            cases first <;> cases second <;> simp
          apply inOrder_modifyAt _ _ _ _ hflip
          split
          · exact inOrder_resizeTo _ _ hs
          · exact hs

/-- The number of cells that `getCellsForSide` lists is the count that
`getCellCountForSide` returns, in a claimant table that fills the first slot
first. -/
theorem length_getCellsForSide (mt : MeshTopology) (hinv : ClaimantsInOrder mt)
    (e : IndexType) : (mt.getCellsForSide e).length = mt.getCellCountForSide e := by
  unfold getCellsForSide getFirstCellForSide getSecondCellForSide getCellCountForSide
  cases hentry : mt._cellsForSideEntities[e]? with
  | none => rfl
  | some entry =>
    obtain ⟨first, second⟩ := entry
    have hmem : (first, second) ∈ mt._cellsForSideEntities := List.mem_iff_getElem?.2 ⟨e, hentry⟩
    have := hinv _ hmem
    cases first <;> cases second <;> simp at this ⊢

/-- A Boolean check of `ClaimantsInOrder`. -/
theorem claimantsInOrder_of_all (mt : MeshTopology)
    (h : mt._cellsForSideEntities.all (fun entry => !entry.2.isSome || entry.1.isSome) = true) :
    ClaimantsInOrder mt := by
  intro entry hmem h2
  have := List.all_eq_true.1 h entry hmem
  rw [h2] at this
  simpa using this

/-! ## The default partition: lemmas -/

section PartitionLemmas
open MeshPartitionPolicy

theorem modifyAt_id {α : Type} (l : List α) (i : Nat) : modifyAt l i (fun a => a) = l := by
  induction l generalizing i with
  | nil => rfl
  | cons a t ih => cases i <;> simp [modifyAt, ih]

theorem modifyAt_modifyAt {α : Type} (l : List α) (i : Nat) (f g : α → α) :
    modifyAt (modifyAt l i f) i g = modifyAt l i (fun a => g (f a)) := by
  induction l generalizing i with
  | nil => rfl
  | cons a t ih => cases i <;> simp [modifyAt, ih]

theorem modifyAt_append_cons {α : Type} (A : List α) (b : α) (B : List α) (f : α → α) :
    modifyAt (A ++ b :: B) A.length f = A ++ f b :: B := by
  induction A with
  | nil => rfl
  | cons a t ih => simp [modifyAt, ih]

theorem chunkStart_eq (N P : Nat) (k : Nat) :
    chunkStart N P k = k * (N / P) + min k (N % P) := by
  induction k with
  | zero => simp [chunkStart]
  | succ k ih =>
    simp only [chunkStart, chunkSizeOf, ih, Nat.succ_mul]
    by_cases hk : k < N % P
    · rw [if_pos hk, Nat.min_eq_left (Nat.le_of_lt hk), Nat.min_eq_left hk]
      omega
    · rw [if_neg hk, Nat.min_eq_right (Nat.le_of_not_lt hk),
        Nat.min_eq_right (Nat.le_succ_of_le (Nat.le_of_not_lt hk))]
      omega

theorem chunkStart_total (N P : Nat) (hP : 1 ≤ P) : chunkStart N P P = N := by
  rw [chunkStart_eq, Nat.min_eq_right (Nat.le_of_lt (Nat.mod_lt _ hP))]
  exact Nat.div_add_mod N P

theorem chunkStart_mono (N P : Nat) (i j : Nat) (h : i ≤ j) :
    chunkStart N P i ≤ chunkStart N P j := by
  induction j with
  | zero =>
    have : i = 0 := Nat.le_zero.1 h
    rw [this]
  | succ j ih =>
    rcases Nat.lt_or_ge i (j + 1) with hlt | hge
    · exact Nat.le_trans (ih (Nat.le_of_lt_succ hlt)) (Nat.le_add_right _ _)
    · have : i = j + 1 := Nat.le_antisymm h hge
      rw [this]

theorem chunk_within (N P i : Nat) (hP : 1 ≤ P) (hi : i < P) :
    chunkStart N P i + chunkSizeOf N P i ≤ N := by
  have h1 : chunkStart N P (i + 1) ≤ chunkStart N P P := chunkStart_mono N P _ _ hi
  rw [chunkStart_total N P hP] at h1
  exact h1

/-- The inner loop of `partitionMesh`: as many cells as the loop has passes go
from the position of the counter into partition `i`. -/
theorem assignCells_spec (ids : List IndexType) (i : Nat) :
    ∀ (l : List Nat) (parts : List (List IndexType)) (o : Nat),
      o + l.length ≤ ids.length →
      foldExcept (assignCell ids i) (parts, o) l
        = Except.ok (modifyAt parts i (fun part =>
            ((ids.drop o).take l.length).foldl (fun acc x => setInsert x acc) part),
          o + l.length) := by
  intro l
  induction l with
  | nil =>
    intro parts o _
    simp only [foldExcept, List.length_nil, List.take_zero, List.foldl_nil, Nat.add_zero]
    rw [modifyAt_id]
    rfl
  | cons a t ih =>
    intro parts o ho
    have hlt : o < ids.length := by
      simp only [List.length_cons] at ho
      omega
    simp only [foldExcept]
    unfold assignCell
    rw [List.getElem?_eq_getElem hlt]
    dsimp only
    show foldExcept (assignCell ids i) (modifyAt parts i (setInsert ids[o]), o + 1) t = _
    rw [ih _ (o + 1) (by simp only [List.length_cons] at ho; omega), modifyAt_modifyAt,
      List.drop_eq_getElem_cons hlt, List.length_cons, List.take_succ_cons]
    simp only [List.foldl_cons]
    congr 2
    omega

/-- The outer loop of `partitionMesh` on a sorted list of cells: after `k`
passes the first `k` partitions are the first `k` chunks of the list. -/
theorem fillPartitions_spec (ids : List IndexType) (P : Nat) (hP : 1 ≤ P)
    (hsorted : ids.Sorted (fun a b => a < b)) :
    ∀ k, k ≤ P →
      foldExcept (fillPartition ids (ids.length / P) (ids.length % P))
          (List.replicate P [], 0) (List.range k)
        = Except.ok ((List.range k).map (chunk ids P) ++ List.replicate (P - k) [],
          chunkStart ids.length P k) := by
  intro k
  induction k with
  | zero =>
    intro _
    rfl
  | succ k ih =>
    intro hk
    have hkP : k < P := hk
    rw [List.range_succ, foldExcept_append, ih (Nat.le_of_lt hkP)]
    dsimp only
    simp only [foldExcept]
    unfold fillPartition
    dsimp only
    have hsize : (if k < ids.length % P then ids.length / P + 1 else ids.length / P)
        = chunkSizeOf ids.length P k := by
      unfold chunkSizeOf
      split <;> rfl
    rw [hsize]
    have hwithin := chunk_within ids.length P k hP hkP
    rw [assignCells_spec ids k (List.range (chunkSizeOf ids.length P k)) _ _
      (by rw [List.length_range]; exact hwithin)]
    dsimp only
    rw [List.length_range]
    have hrep : List.replicate (P - k) ([] : List IndexType)
        = [] :: List.replicate (P - (k + 1)) [] := by
      have : P - k = (P - (k + 1)) + 1 := by omega
      rw [this, List.replicate_succ]
    have hlen : ((List.range k).map (chunk ids P)).length = k := by
      rw [List.length_map, List.length_range]
    have hslice : ((ids.drop (chunkStart ids.length P k)).take
        (chunkSizeOf ids.length P k)).foldl (fun acc x => setInsert x acc) []
          = chunk ids P k := by
      rw [foldl_setInsert_eq_setOfList]
      exact setOfList_of_sorted _
        (List.Pairwise.sublist ((List.take_sublist _ _).trans (List.drop_sublist _ _)) hsorted)
    rw [hrep]
    have hmod := modifyAt_append_cons ((List.range k).map (chunk ids P)) []
      (List.replicate (P - (k + 1)) [])
      (fun part => ((ids.drop (chunkStart ids.length P k)).take
        (chunkSizeOf ids.length P k)).foldl (fun acc x => setInsert x acc) part)
    rw [hlen] at hmod
    rw [hmod, hslice, List.map_append, List.map_singleton, List.append_assoc]
    rfl

theorem flatten_chunks (ids : List IndexType) (P : Nat) :
    ∀ k, k ≤ P →
      ((List.range k).map (chunk ids P)).flatten = ids.take (chunkStart ids.length P k) := by
  intro k
  induction k with
  | zero =>
    intro _
    rfl
  | succ k ih =>
    intro hk
    rw [List.range_succ, List.map_append, List.flatten_append, ih (Nat.le_of_lt hk)]
    simp only [List.map_singleton, List.flatten_cons, List.flatten_nil, List.append_nil]
    show _ = ids.take (chunkStart ids.length P k + chunkSizeOf ids.length P k)
    rw [List.take_add]
    rfl

theorem length_chunk (ids : List IndexType) (P i : Nat) (hP : 1 ≤ P) (hi : i < P) :
    (chunk ids P i).length = chunkSizeOf ids.length P i := by
  unfold chunk
  rw [List.length_take, List.length_drop]
  have := chunk_within ids.length P i hP hi
  omega

end PartitionLemmas

/-! ## The ancestry of a side: lemmas -/

theorem parentChain_append (mt : MeshTopology) (last : IndexType × Nat) :
    ∀ (s : IndexType) (parents : List (IndexType × Nat)) (rest : List (IndexType × Nat)),
      mapFind (mt._parentEntities.getD mt.sideDim []) s = some parents → last ∈ parents →
      ParentChain mt last.1 rest → ParentChain mt s (last :: rest) :=
  fun _ parents _ hfind hmem hrest => ⟨⟨parents, hfind, hmem⟩, hrest⟩

/-- The loop of `getConstrainingSideAncestry` returns the empty list or its
ancestry followed by a chain of parents that ends in a side with an active cell. -/
theorem sideAncestryLoop_spec (mt : MeshTopology) :
    ∀ (fuel : Nat) (s : IndexType) (anc L : List (IndexType × Nat)),
      sideAncestryLoop mt fuel s anc = Except.ok L →
      L = [] ∨ ∃ rest, L = anc ++ rest ∧ ParentChain mt s rest ∧
        ∃ last, rest.getLast? = some last ∧ 0 < getActiveCellCount mt mt.sideDim last.1 := by
  intro fuel
  induction fuel with
  | zero =>
    intro s anc L h
    cases h
  | succ fuel ih =>
    intro s anc L h
    unfold sideAncestryLoop at h
    cases hfind : mapFind (mt._parentEntities.getD mt.sideDim []) s with
    | none =>
      rw [hfind] at h
      left
      cases h
      rfl
    | some parents =>
      rw [hfind] at h
      dsimp only at h
      cases hact : parents.find?
          (fun entry => decide (getActiveCellCount mt mt.sideDim entry.1 > 0)) with
      | some entry =>
        rw [hact] at h
        right
        refine ⟨[entry], ?_, ⟨⟨parents, hfind, List.mem_of_find?_eq_some hact⟩, trivial⟩,
          entry, rfl, ?_⟩
        · cases h
          rfl
        · have := List.find?_some hact
          exact of_decide_eq_true this
      | none =>
        rw [hact] at h
        dsimp only at h
        cases hlast : parents.getLast? with
        | none =>
          rw [hlast] at h
          cases h
        | some last =>
          rw [hlast] at h
          dsimp only at h
          rcases ih last.1 (anc ++ [last]) L h with hnil | ⟨rest, hL, hchain, final, hfinal, hpos⟩
          · left
            exact hnil
          · right
            refine ⟨last :: rest, ?_, ?_, final, ?_, hpos⟩
            · rw [hL, List.append_assoc]
              rfl
            · exact parentChain_append mt last s parents rest hfind
                (List.mem_of_mem_getLast? hlast) hchain
            · cases rest with
              | nil => cases hfinal
              | cons b t =>
                rw [List.getLast?_cons_cons]
                exact hfinal

/-- With a well-founded last-parent relation and no empty parent list the loop
of `getConstrainingSideAncestry` returns once the fuel is large enough. -/
theorem sideAncestryLoop_terminates (mt : MeshTopology)
    (hwf : WellFounded (fun a b => mt.lastParent? b = some a))
    (hne : ∀ s, mapFind (mt._parentEntities.getD mt.sideDim []) s ≠ some []) (s : IndexType) :
    ∃ N, ∀ fuel, N ≤ fuel → ∀ anc, ∃ L, sideAncestryLoop mt fuel s anc = Except.ok L := by
  induction s using hwf.induction
  rename_i x ih
  cases hfind : mapFind (mt._parentEntities.getD mt.sideDim []) x with
  | none =>
    refine ⟨1, fun fuel hfuel anc => ⟨[], ?_⟩⟩
    obtain ⟨n, rfl⟩ : ∃ n, fuel = n + 1 := ⟨fuel - 1, by omega⟩
    unfold sideAncestryLoop
    rw [hfind]
    rfl
  | some parents =>
    cases hact : parents.find?
        (fun entry => decide (getActiveCellCount mt mt.sideDim entry.1 > 0)) with
    | some entry =>
      refine ⟨1, fun fuel hfuel anc => ⟨anc ++ [entry], ?_⟩⟩
      obtain ⟨n, rfl⟩ : ∃ n, fuel = n + 1 := ⟨fuel - 1, by omega⟩
      unfold sideAncestryLoop
      rw [hfind]
      dsimp only
      rw [hact]
      rfl
    | none =>
      cases hlast : parents.getLast? with
      | none =>
        exfalso
        rw [List.getLast?_eq_none_iff.1 hlast] at hfind
        exact hne x hfind
      | some last =>
        have hrel : mt.lastParent? x = some last.1 := by
          unfold lastParent?
          rw [hfind]
          dsimp only
          rw [hlast]
          rfl
        obtain ⟨N, hN⟩ := ih last.1 hrel
        refine ⟨N + 1, fun fuel hfuel anc => ?_⟩
        obtain ⟨n, rfl⟩ : ∃ n, fuel = n + 1 := ⟨fuel - 1, by omega⟩
        obtain ⟨L, hL⟩ := hN n (by omega) (anc ++ [last])
        refine ⟨L, ?_⟩
        unfold sideAncestryLoop
        rw [hfind]
        dsimp only
        rw [hact]
        dsimp only
        rw [hlast]
        exact hL

/-- A last-parent relation whose parents all have a smaller index than the
child is well-founded. -/
theorem lastParent_wf_of_all (mt : MeshTopology)
    (hall : (mt._parentEntities.getD mt.sideDim []).all
      (fun entry => entry.2.all (fun parent => decide (parent.1 < entry.1))) = true) :
    WellFounded (fun a b => mt.lastParent? b = some a) := by
  refine Subrelation.wf ?_ Nat.lt_wfRel.wf
  intro a b hab
  show a < b
  unfold lastParent? at hab
  cases hfind : mapFind (mt._parentEntities.getD mt.sideDim []) b with
  | none =>
    rw [hfind] at hab
    cases hab
  | some parents =>
    rw [hfind] at hab
    dsimp only at hab
    cases hlast : parents.getLast? with
    | none =>
      rw [hlast] at hab
      cases hab
    | some last =>
      rw [hlast] at hab
      have ha : last.1 = a := by
        cases hab
        rfl
      have h1 := List.all_eq_true.1 hall _ (mem_of_mapFind _ _ _ hfind)
      have h2 := List.all_eq_true.1 h1 _ (List.mem_of_mem_getLast? hlast)
      rw [← ha]
      exact of_decide_eq_true h2

theorem parentLists_nonempty_of_all (mt : MeshTopology)
    (hall : (mt._parentEntities.getD mt.sideDim []).all
      (fun entry => !entry.2.isEmpty) = true) :
    ∀ s, mapFind (mt._parentEntities.getD mt.sideDim []) s ≠ some [] := by
  intro s hs
  have h1 := List.all_eq_true.1 hall _ (mem_of_mapFind _ _ _ hs)
  cases h1

/-! ## The counters of a replicated mesh: lemmas -/

theorem isSome_eq_of_optRel {α : Type} {r : α → α → Prop} {a b : Option α}
    (h : optRel r a b) : a.isSome = b.isSome := by
  cases a <;> cases b
  · rfl
  · exact absurd h (by simp [optRel])
  · exact absurd h (by simp [optRel])
  · rfl

theorem mem_keys_iff {V : Type} (m : List (IndexType × V)) (k : IndexType) :
    k ∈ m.map Prod.fst ↔ (mapFind m k).isSome = true := by
  induction m with
  | nil => simp [mapFind]
  | cons p t ih =>
    obtain ⟨k', v⟩ := p
    unfold mapFind
    by_cases hk : k' = k
    · simp [hk]
    · rw [if_neg hk, ← ih]
      simp only [List.map_cons, List.mem_cons]
      constructor
      · rintro (h | h)
        · exact absurd h.symm hk
        · exact h
      · exact fun h => Or.inr h

/-- A table whose keys are the indices below `n` has `n` entries. -/
theorem mapSize_eq_of_keys {V : Type} (m : List (IndexType × V)) (n : Nat)
    (h : ∀ k : IndexType, (mapFind m k).isSome = true ↔ k < n) : mapSize m = n := by
  unfold mapSize
  have hperm : (m.map Prod.fst).dedup.Perm (List.range n) :=
    (List.perm_ext_iff_of_nodup (List.nodup_dedup _) (List.nodup_range n)).2
      (fun k => by rw [List.mem_dedup, mem_keys_iff, h, List.mem_range])
  rw [hperm.length_eq, List.length_range]

theorem length_setInsert_of_not_mem (x : Nat) (l : List Nat) (h : x ∉ l) :
    (setInsert x l).length = l.length + 1 := by
  induction l with
  | nil => rfl
  | cons y t ih =>
    unfold setInsert
    have hxy : x ≠ y := fun hxy => h (by rw [hxy]; exact List.mem_cons_self _ _)
    by_cases hlt : x < y
    · rw [if_pos hlt]
      rfl
    · rw [if_neg hlt, if_neg hxy, List.length_cons, List.length_cons,
        ih (fun hx => h (List.mem_cons_of_mem _ hx))]

theorem length_setErase_of_mem (x : Nat) (l : List Nat) (hnd : l.Nodup) (hx : x ∈ l) :
    (setErase x l).length + 1 = l.length := by
  induction l with
  | nil => cases hx
  | cons y t ih =>
    unfold setErase at ih ⊢
    rw [List.nodup_cons] at hnd
    by_cases hyx : y = x
    · subst hyx
      have hfilter : t.filter (fun z => decide (z ≠ y)) = t := by
        rw [List.filter_eq_self]
        intro a ha
        exact decide_eq_true (fun hay => hnd.1 (hay ▸ ha))
      rw [List.filter_cons_of_neg (by simp), hfilter]
      rfl
    · rw [List.filter_cons_of_pos (by simpa using hyx), List.length_cons, List.length_cons]
      have hxt : x ∈ t := by
        rcases List.mem_cons.1 hx with h | h
        · exact absurd h.symm hyx
        · exact h
      rw [ih hnd.2 hxt]

theorem sorted_setErase (x : Nat) (l : List Nat) (h : l.Sorted (fun a b => a < b)) :
    (setErase x l).Sorted (fun a b => a < b) :=
  List.Pairwise.sublist (List.filter_sublist _) h

theorem counted_init (spaceDim : Nat) (periodicBCs : List PeriodicBC) :
    Counted (init spaceDim periodicBCs) :=
  ⟨fun x => by simp [init], fun x hx => by simp [init] at hx, List.sorted_nil, rfl,
    fun x hx => by simp [init] at hx, fun k cell hk => by simp [init, mapFind] at hk,
    fun k => by simp [init, mapFind], fun k hk => by simp [init] at hk⟩

/-- A step that leaves the cell sets and the counters alone and keeps the index
and the children of every cell preserves the bookkeeping. -/
theorem counted_of_keep {mt mt' : MeshTopology} (hv : mt'._validCells = mt._validCells)
    (ha : mt'._activeCells = mt._activeCells) (hn : mt'._nextCellIndex = mt._nextCellIndex)
    (hcnt : mt'._activeCellCount = mt._activeCellCount)
    (hcells : ∀ k : IndexType,
      optRel Cell.keepChildren (mapFind mt._cells k) (mapFind mt'._cells k))
    (hc : Counted mt) : Counted mt' := by
  refine ⟨?_, ?_, ?_, ?_, ?_, ?_, ?_, ?_⟩
  · intro x
    rw [hv, hn]
    exact hc.valid x
  · intro x hx
    rw [ha] at hx
    rw [hv]
    exact hc.active x hx
  · rw [ha]
    exact hc.sorted
  · rw [hcnt, ha]
    exact hc.count
  · intro x hx cx hcx
    rw [ha] at hx
    obtain ⟨c0, hf0, hr0⟩ := find_of_optRel_right (hcells x) hcx
    obtain ⟨h1, h2⟩ := hc.leaf x hx c0 hf0
    exact ⟨hr0.2.1.trans h1, hr0.2.2.trans h2⟩
  · intro k cell hk
    obtain ⟨c0, hf0, hr0⟩ := find_of_optRel_right (hcells k) hk
    exact hr0.1.trans (hc.index k c0 hf0)
  · intro k
    rw [hv, ← isSome_eq_of_optRel (hcells k)]
    exact hc.keys k
  · intro k hk hka cell hcell
    rw [hv] at hk
    rw [ha] at hka
    obtain ⟨c0, hf0, hr0⟩ := find_of_optRel_right (hcells k) hcell
    rw [hr0.2.1]
    exact hc.parents k hk hka c0 hf0

theorem counted_of_frame {mt mt' : MeshTopology} (h : Frame none mt mt') (hc : Counted mt) :
    Counted mt' :=
  counted_of_keep h.valid h.active h.next h.count
    (fun k => optRel_mono (fun _ _ x => x.1) (h.cells k)) hc


/-- The method `addCell` at the next cell index preserves the bookkeeping. -/
theorem counted_addCell (tools : CellTools) (fuel : Nat) (mt mt' : MeshTopology)
    (cellTopo : CellTopology) (cellVertices : List IndexType) (parent : Option IndexType)
    (h : addCell tools fuel mt mt._nextCellIndex cellTopo cellVertices parent = Except.ok mt')
    (hc : Counted mt) : Counted mt' := by
  obtain ⟨hv, ha, _, _, hcore, c', hfc', hch', hci', hidx'⟩ := addCell_spec _ _ _ _ _ _ _ _ h
  have hnv : mt._nextCellIndex ∉ mt._validCells := fun hx =>
    absurd ((hc.valid _).1 hx) (Nat.lt_irrefl _)
  have hna : mt._nextCellIndex ∉ mt._activeCells := fun hx => hnv (hc.active _ hx)
  have hnone : ¬ ((mapFind mt._cells mt._nextCellIndex).isSome = true) := fun hx =>
    hnv ((hc.keys _).1 hx)
  have hcounters : mt'._nextCellIndex = mt._nextCellIndex + 1 ∧
      mt'._activeCellCount = mt._activeCellCount + 1 := by
    have heq := addCell_eq_counted tools fuel mt mt._nextCellIndex cellTopo cellVertices parent
    have hcn : countNewCell mt mt._nextCellIndex = Except.ok
        { mt with
          _nextCellIndex := mt._nextCellIndex + 1
          _activeCellCount := mt._activeCellCount + 1 } := by
      unfold countNewCell
      rw [if_neg hnone, if_neg (Nat.lt_irrefl _), if_pos rfl]
      rfl
    rw [hcn, h] at heq
    exact addCellCounted_counters _ _ _ _ _ _ _ _ heq.symm
  refine ⟨?_, ?_, ?_, ?_, ?_, ?_, ?_, ?_⟩
  · intro x
    rw [hv, mem_setInsert, hcounters.1, hc.valid x]
    constructor
    · rintro (hx | hx)
      · rw [hx]
        exact Nat.lt_succ_self _
      · exact Nat.lt_succ_of_lt hx
    · intro hx
      rcases Nat.lt_succ_iff_lt_or_eq.1 hx with h1 | h1
      · exact Or.inr h1
      · exact Or.inl h1
  · intro x hx
    rw [ha, mem_setInsert] at hx
    rw [hv, mem_setInsert]
    exact hx.imp id (hc.active x)
  · rw [ha]
    exact sorted_setInsert _ _ hc.sorted
  · rw [hcounters.2, ha, length_setInsert_of_not_mem _ _ hna, hc.count]
  · intro x hx cx hcx
    rw [ha, mem_setInsert] at hx
    by_cases hxn : x = mt._nextCellIndex
    · subst hxn
      rw [hfc'] at hcx
      cases hcx
      exact ⟨hch', hci'⟩
    · have hxa : x ∈ mt._activeCells := hx.resolve_left hxn
      obtain ⟨c0, hf0, hr0⟩ := find_of_optRel_right (hcore x hxn) hcx
      obtain ⟨h1, h2⟩ := hc.leaf x hxa c0 hf0
      exact ⟨hr0.2.2.2.1.trans h1, hr0.2.2.2.2.trans h2⟩
  · intro k cell hk
    by_cases hkn : k = mt._nextCellIndex
    · subst hkn
      rw [hfc'] at hk
      cases hk
      exact hidx'
    · obtain ⟨c0, hf0, hr0⟩ := find_of_optRel_right (hcore k hkn) hk
      exact hr0.1.trans (hc.index k c0 hf0)
  · intro k
    rw [hv, mem_setInsert]
    by_cases hkn : k = mt._nextCellIndex
    · subst hkn
      rw [hfc']
      exact ⟨fun _ => Or.inl rfl, fun _ => rfl⟩
    · rw [← isSome_eq_of_optRel (hcore k hkn), hc.keys k]
      exact ⟨fun hx => Or.inr hx, fun hx => hx.resolve_left hkn⟩
  · intro k hk hka cell hcell
    rw [hv, mem_setInsert] at hk
    rw [ha, mem_setInsert] at hka
    have hkn : k ≠ mt._nextCellIndex := fun hx => hka (Or.inl hx)
    obtain ⟨c0, hf0, hr0⟩ := find_of_optRel_right (hcore k hkn) hcell
    rw [hr0.2.2.2.1]
    exact hc.parents k (hk.resolve_left hkn) (fun hx => hka (Or.inr hx)) c0 hf0

/-- The loop of `addChildren` keeps every cell under its own index and the
active-cell set in ascending order. -/
theorem addChildren_loop_indexed (tools : CellTools) (fuel : Nat) (p : IndexType)
    (es : List (IndexType × CellTopology × List IndexType)) (s s' : MeshTopology)
    (h : foldExcept (addChild tools fuel p) s es = Except.ok s')
    (hidx : ∀ (k : IndexType) (cell : Cell), mapFind s._cells k = some cell → cell._cellIndex = k)
    (hsorted : s._activeCells.Sorted (fun a b => a < b)) :
    (∀ (k : IndexType) (cell : Cell), mapFind s'._cells k = some cell → cell._cellIndex = k) ∧
      s'._activeCells.Sorted (fun a b => a < b) := by
  refine foldExcept_rel
    (fun (a b : MeshTopology) =>
      ((∀ (k : IndexType) (cell : Cell), mapFind a._cells k = some cell → cell._cellIndex = k) ∧
        a._activeCells.Sorted (fun x y => x < y)) →
      ((∀ (k : IndexType) (cell : Cell), mapFind b._cells k = some cell → cell._cellIndex = k) ∧
        b._activeCells.Sorted (fun x y => x < y)))
    (fun _ hx => hx) (fun _ _ _ h1 h2 hx => h2 (h1 hx)) _ es ?_ s s' h ⟨hidx, hsorted⟩
  intro a child b _ hstep ⟨hia, hsa⟩
  unfold addChild at hstep
  split at hstep
  · split at hstep
    · cases hstep
    · rename_i mt1 h1
      cases hstep
      obtain ⟨_, ha, _, _, hcore, c', hfc', _, _, hidx'⟩ := addCell_spec _ _ _ _ _ _ _ _ h1
      refine ⟨fun k cell hk => ?_, ?_⟩
      · by_cases hkn : k = child.1
        · subst hkn
          rw [hfc'] at hk
          cases hk
          exact hidx'
        · obtain ⟨c0, hf0, hr0⟩ := find_of_optRel_right (hcore k hkn) hk
          exact hr0.1.trans (hia k c0 hf0)
      · rw [ha]
        exact sorted_setInsert _ _ hsa
  · cases hstep
    exact ⟨hia, hsa⟩

/-- The method `setChildren` keeps the keys of the cell table and the index of
every cell. -/
theorem setChildren_index (mt mt' : MeshTopology) (c : IndexType) (childIndices : List IndexType)
    (h : setChildren mt c childIndices = Except.ok mt') :
    ∀ k : IndexType, optRel (fun x y : Cell => y._cellIndex = x._cellIndex)
      (mapFind mt._cells k) (mapFind mt'._cells k) := by
  have hrefl : ∀ o : Option Cell, optRel (fun x y : Cell => y._cellIndex = x._cellIndex) o o :=
    fun o => optRel_refl (r := fun x y : Cell => y._cellIndex = x._cellIndex) (fun _ => rfl) o
  have htrans : ∀ a b d : Option Cell,
      optRel (fun x y : Cell => y._cellIndex = x._cellIndex) a b →
      optRel (fun x y : Cell => y._cellIndex = x._cellIndex) b d →
      optRel (fun x y : Cell => y._cellIndex = x._cellIndex) a d :=
    fun a b d => optRel_trans (r := fun x y : Cell => y._cellIndex = x._cellIndex)
      (fun _ _ _ h1 h2 => h2.trans h1)
  have hset : ∀ (s : MeshTopology) (pc pc' : Cell), mapFind s._cells c = some pc →
      pc'._cellIndex = pc._cellIndex → ∀ k : IndexType,
      optRel (fun x y : Cell => y._cellIndex = x._cellIndex)
        (mapFind s._cells k) (mapFind (mapSet s._cells c pc') k) := by
    intro s pc pc' hpc hi k
    rw [mapFind_mapSet]
    by_cases hk : c = k
    · subst hk
      rw [if_pos rfl, hpc]
      exact hi
    · rw [if_neg hk]
      exact hrefl _
  unfold setChildren at h
  split at h
  · cases h
  · rename_i parentCell hpc
    have hloop := foldExcept_rel
      (fun (a b : MeshTopology) => ∀ k : IndexType,
        optRel (fun x y : Cell => y._cellIndex = x._cellIndex)
          (mapFind a._cells k) (mapFind b._cells k))
      (fun a k => hrefl _) (fun a b d h1 h2 k => htrans _ _ _ (h1 k) (h2 k)) _ _
      (fun s entry s' _ hstep => by
        unfold linkChild at hstep
        split at hstep
        · split at hstep
          · cases hstep
          · split at hstep
            · cases hstep
            · rename_i s1 h1
              have f1 := setParent_frame _ _ _ _ h1
              split at hstep
              · cases hstep
              · rename_i pc1 hpc1
                cases hstep
                intro k
                exact htrans _ _ _ (optRel_mono (fun _ _ x => x.1.1) (f1.cells k))
                  (hset s1 pc1
                    { pc1 with
                      _children := modifyAt pc1._children entry.1 (fun _ => some entry.2) }
                    (mapFind_of_getCell _ _ _ hpc1) rfl k)
        · cases hstep
          exact fun k => hrefl _) _ _ h
    intro k
    exact htrans _ _ _
      (hset mt parentCell
        { parentCell with
          _childIndices := childIndices
          _children := resizeTo parentCell._children childIndices.length none }
        (mapFind_of_getCell _ _ _ hpc) rfl k) (hloop k)


/-- The method `refineCell` on a known cell without children, with a pattern of
at least one child and with the next cell index as first child index, preserves
the bookkeeping. -/
theorem counted_refineCell (tools : CellTools) (fuel : Nat) (mt mt' : MeshTopology)
    (c : IndexType) (pat : RefinementPattern) (cell : Cell)
    (hvalid : mt.isValidCellIndex (some c) = true) (hcell : mt.getCell c = Except.ok cell)
    (hunref : cell._children = []) (hpat : 1 ≤ pat.numChildren)
    (hfit : mt._nextCellIndex + pat.numChildren ≤ 4294967296)
    (h : refineCell tools fuel mt c pat mt._nextCellIndex = Except.ok mt')
    (hc : Counted mt) : Counted mt' := by
  have hv := mem_validCells_of_isValid mt c hvalid
  have hfind := mapFind_of_getCell mt c cell hcell
  have hindex : cell._cellIndex = c := hc.index c cell hfind
  have hclt : c < mt._nextCellIndex := (hc.valid c).1 hv
  have hcact : c ∈ mt._activeCells := by
    by_contra hna
    exact hc.parents c hv hna cell hfind hunref
  have hnodup : mt._activeCells.Nodup := hc.sorted.nodup
  have hlenle : mt._activeCells.length ≤ mt._nextCellIndex := by
    have hsub : mt._activeCells ⊆ List.range mt._nextCellIndex := fun x hx =>
      List.mem_range.2 ((hc.valid x).1 (hc.active x hx))
    have hle := (hnodup.subperm hsub).length_le
    rw [List.length_range] at hle
    exact hle
  have hpos : 1 ≤ mt._activeCells.length := List.length_pos_of_mem hcact
  have hcnt := hc.count
  simp only [IndexType] at hcnt hlenle hfit hclt
  obtain ⟨m3, m4, m5, cell3, es, hf3, hsc3, hv3, ha3, hn3, hc3, hrel3, hes, hloop, hset, hfr⟩ :=
    refineCell_stages tools fuel mt mt' c pat mt._nextCellIndex cell hv hfind h
  obtain ⟨lv, la, _, lcnt, lcore, lfresh⟩ := addChildren_loop tools fuel _ es m3 m4 hloop
  rw [hes] at lv la lcnt lcore lfresh
  obtain ⟨⟨sv, sa, sn, sc, _⟩, skeep⟩ := setChildren_keep m4 m5 c _ hset
  have sidx := setChildren_index m4 m5 c _ hset
  have ha3' : m3._activeCells = setErase c mt._activeCells := by
    rw [ha3 (by rw [hunref]; rfl), hindex]
  have hnext3 : m3._nextCellIndex = mt._nextCellIndex + pat.numChildren := by
    rw [hn3]
    unfold countRefinement
    rw [if_pos (Nat.le_refl _)]
  have hcount3 : m3._activeCellCount + 1 = mt._activeCellCount + pat.numChildren := by
    rw [hc3]
    unfold countRefinement
    rw [if_pos (Nat.le_refl _)]
    show wrapAdd mt._activeCellCount _ + 1 = _
    unfold wrapAdd
    have hn0 : pat.numChildren ≠ 0 := by omega
    rw [if_neg hn0, if_pos (by omega)]
    omega
  have hnotvalid : ∀ x : Nat, mt._nextCellIndex ≤ x → x ∉ mt._validCells := by
    intro x hx hxv
    exact absurd hx (Nat.not_le.2 ((hc.valid x).1 hxv))
  obtain ⟨hn4, hc4⟩ := lcnt (fun x hx => by
    rw [mem_childRange] at hx
    rw [hnext3]
    exact hx.2)
  have hactive : ∀ x : Nat, x ∈ mt'._activeCells ↔
      (x ∈ mt._activeCells ∧ x ≠ c) ∨
        (mt._nextCellIndex ≤ x ∧ x < mt._nextCellIndex + pat.numChildren) := by
    intro x
    rw [hfr.active, sa, la x, ha3', mem_setErase, mem_childRange, hv3]
    constructor
    · rintro (hx | ⟨hx, _⟩)
      · exact Or.inl hx
      · exact Or.inr hx
    · rintro (hx | hx)
      · exact Or.inl hx
      · exact Or.inr ⟨hx, hnotvalid x hx.1⟩
  have hidx3 : ∀ (k : IndexType) (cl : Cell), mapFind m3._cells k = some cl →
      cl._cellIndex = k := by
    intro k cl hk
    obtain ⟨c0, hf0, hr0⟩ := find_of_optRel_right (hrel3 k) hk
    exact hr0.1.trans (hc.index k c0 hf0)
  have hsort3 : m3._activeCells.Sorted (fun a b => a < b) := by
    rw [ha3']
    exact sorted_setErase _ _ hc.sorted
  obtain ⟨hidx4, hsort4⟩ := addChildren_loop_indexed tools fuel _ es m3 m4 hloop hidx3 hsort3
  have hvalid' : ∀ x : Nat, x ∈ mt'._validCells ↔
      x ∈ mt._validCells ∨
        (mt._nextCellIndex ≤ x ∧ x < mt._nextCellIndex + pat.numChildren) := by
    intro x
    rw [hfr.valid, sv, lv x, hv3, mem_childRange]
  have hnext' : mt'._nextCellIndex = mt._nextCellIndex + pat.numChildren := by
    rw [hfr.next, sn, hn4, hnext3]
  have hcount' : mt'._activeCellCount + 1 = mt._activeCellCount + pat.numChildren := by
    rw [hfr.count, sc, hc4, hcount3]
  have hsorted' : mt'._activeCells.Sorted (fun a b => a < b) := by
    rw [hfr.active, sa]
    exact hsort4
  have hall : ∀ k : IndexType, optRel (fun x y : Cell => y._cellIndex = x._cellIndex)
      (mapFind m4._cells k) (mapFind mt'._cells k) := fun k =>
    optRel_trans (r := fun x y : Cell => y._cellIndex = x._cellIndex)
      (fun _ _ _ h1 h2 => h2.trans h1) (sidx k)
      (optRel_mono (fun _ _ x => x.1.1) (hfr.cells k))
  have hlen' : mt'._activeCells.length + 1 = mt._activeCells.length + pat.numChildren := by
    have hperm : mt'._activeCells.Perm (setErase c mt._activeCells ++
        (List.range pat.numChildren).map (fun i => mt._nextCellIndex + i)) := by
      refine (List.perm_ext_iff_of_nodup hsorted'.nodup ?_).2 ?_
      · refine List.Nodup.append (sorted_setErase _ _ hc.sorted).nodup ?_ ?_
        · exact (List.nodup_range _).map (fun a b hab => Nat.add_left_cancel hab)
        · intro x hx1 hx2
          rw [mem_setErase] at hx1
          rw [mem_childRange] at hx2
          exact hnotvalid x hx2.1 (hc.active x hx1.1)
      · intro x
        rw [hactive x, List.mem_append, mem_setErase, mem_childRange]
    rw [hperm.length_eq, List.length_append, List.length_map, List.length_range]
    have herase := length_setErase_of_mem c _ hnodup hcact
    omega
  obtain ⟨pc4, hpc4, _⟩ := find_of_optRel (lcore c (Or.inr (by rw [hv3]; exact hv))) hf3
  obtain ⟨⟨pc5, hpc5, _, _, hch5⟩, _⟩ := setChildren_spec m4 m5 c _ pc4 hset hpc4
    (fun x hx => (lv x).2 (Or.inr hx))
    (fun x hx hxc => by
      rw [mem_childRange] at hx
      rw [hxc] at hx
      exact absurd hx.1 (Nat.not_le.2 hclt))
  refine ⟨?_, ?_, hsorted', ?_, ?_, ?_, ?_, ?_⟩
  · intro x
    rw [hvalid' x, hnext', hc.valid x]
    constructor
    · rintro (hx | hx)
      · exact Nat.lt_of_lt_of_le hx (Nat.le_add_right _ _)
      · exact hx.2
    · intro hx
      rcases Nat.lt_or_ge x mt._nextCellIndex with h1 | h1
      · exact Or.inl h1
      · exact Or.inr ⟨h1, hx⟩
  · intro x hx
    rcases (hactive x).1 hx with hx1 | hx1
    · exact (hvalid' x).2 (Or.inl (hc.active x hx1.1))
    · exact (hvalid' x).2 (Or.inr hx1)
  · have hA : mt'._activeCellCount + 1 = mt._activeCells.length + pat.numChildren := by
      rw [hcount', hcnt]
    exact Nat.add_right_cancel (hA.trans hlen'.symm)
  · intro x hx cx hcx
    obtain ⟨c5, hf5, hr5⟩ := find_of_optRel_right (hfr.cells x) hcx
    have hk5 : Cell.keepChildren c5 cx := hr5.1
    rcases (hactive x).1 hx with ⟨hxa, hxc⟩ | hxnew
    · have hxlt : x < mt._nextCellIndex := (hc.valid x).1 (hc.active x hxa)
      obtain ⟨c4, hf4, hr4⟩ := find_of_optRel_right (skeep x hxc) hf5
      have hxL : x ∉ (List.range pat.numChildren).map (fun i => mt._nextCellIndex + i) := by
        rw [mem_childRange]
        intro hcon
        exact absurd hcon.1 (Nat.not_le.2 hxlt)
      obtain ⟨c3, hf3x, hr3⟩ := find_of_optRel_right (lcore x (Or.inl hxL)) hf4
      obtain ⟨c0, hf0, hr0⟩ := find_of_optRel_right (hrel3 x) hf3x
      obtain ⟨h1, h2⟩ := hc.leaf x hxa c0 hf0
      constructor
      · rw [hk5.2.1, hr4.2.1, hr3.2.2.2.1, hr0.2.2.2.1, h1]
      · rw [hk5.2.2, hr4.2.2, hr3.2.2.2.2, hr0.2.2.2.2, h2]
    · have hxc : x ≠ c := by
        intro hcon
        subst hcon
        exact absurd hxnew.1 (Nat.not_le.2 hclt)
      obtain ⟨c4, hf4, hr4⟩ := find_of_optRel_right (skeep x hxc) hf5
      obtain ⟨c4', hf4', hch, hci⟩ := lfresh x ((mem_childRange _ _ _).2 hxnew)
        (by rw [hv3]; exact hnotvalid x hxnew.1)
      rw [hf4] at hf4'
      cases hf4'
      constructor
      · rw [hk5.2.1, hr4.2.1, hch]
      · rw [hk5.2.2, hr4.2.2, hci]
  · intro k cl hk
    obtain ⟨c4, hf4, hr4⟩ := find_of_optRel_right (hall k) hk
    exact hr4.trans (hidx4 k c4 hf4)
  · intro k
    rw [← isSome_eq_of_optRel (hall k), hvalid' k]
    by_cases hnew : mt._nextCellIndex ≤ k ∧ k < mt._nextCellIndex + pat.numChildren
    · obtain ⟨c4, hf4, _, _⟩ := lfresh k ((mem_childRange _ _ _).2 hnew)
        (by rw [hv3]; exact hnotvalid k hnew.1)
      rw [hf4]
      exact ⟨fun _ => Or.inr hnew, fun _ => rfl⟩
    · have hkL : k ∉ (List.range pat.numChildren).map (fun i => mt._nextCellIndex + i) := by
        rw [mem_childRange]
        exact hnew
      rw [← isSome_eq_of_optRel (lcore k (Or.inl hkL)), ← isSome_eq_of_optRel (hrel3 k),
        hc.keys k]
      exact ⟨fun hx => Or.inl hx, fun hx => hx.resolve_right hnew⟩
  · intro k hk hka cl hcl
    obtain ⟨c5, hf5, hr5⟩ := find_of_optRel_right (hfr.cells k) hcl
    have hk5 : Cell.keepChildren c5 cl := hr5.1
    by_cases hkc : k = c
    · subst hkc
      rw [hpc5] at hf5
      cases hf5
      rw [hk5.2.1, hch5]
      intro hnil
      have hl := congrArg List.length hnil
      rw [List.length_map, List.length_map, List.length_range] at hl
      exact absurd hl (by simp only [List.length_nil]; omega)
    · rcases (hvalid' k).1 hk with hold | hnew
      · have hkna : k ∉ mt._activeCells := fun hx => hka ((hactive k).2 (Or.inl ⟨hx, hkc⟩))
        obtain ⟨c4, hf4, hr4⟩ := find_of_optRel_right (skeep k hkc) hf5
        obtain ⟨c3, hf3x, hr3⟩ := find_of_optRel_right
          (lcore k (Or.inr (by rw [hv3]; exact hold))) hf4
        obtain ⟨c0, hf0, hr0⟩ := find_of_optRel_right (hrel3 k) hf3x
        rw [hk5.2.1, hr4.2.1, hr3.2.2.2.1, hr0.2.2.2.1]
        exact hc.parents k hold hkna c0 hf0
      · exact absurd ((hactive k).2 (Or.inr hnew)) hka

/-- The states of a replicated mesh have the bookkeeping of the cells. -/
theorem counted_of_replicated (tools : CellTools) (mt : MeshTopology)
    (h : Replicated tools mt) : Counted mt := by
  induction h with
  | empty spaceDim periodicBCs => exact counted_init spaceDim periodicBCs
  | addVertices mt vertices _ ih => exact counted_of_frame (getVertexIndices_frame none mt vertices) ih
  | addCell fuel mt mt' cellTopo cellVertices parent _ hstep ih =>
    exact counted_addCell tools fuel mt mt' cellTopo cellVertices parent hstep ih
  | refineCell fuel mt mt' cellIndex refPattern cell _ hvalid hcell hunref hpat hfit hstep ih =>
    exact counted_refineCell tools fuel mt mt' cellIndex refPattern cell hvalid hcell hunref
      hpat hfit hstep ih

/-! ## Termination of the constraint climb: lemmas -/

/-- With a well-founded first-parent relation the loop of
`getConstrainingEntityIndexOfLikeDimension` returns, the same entity for every
fuel that is large enough. -/
theorem likeDimensionLoop_terminates (mt : MeshTopology) (d : Nat)
    (hwf : WellFounded (fun a b => firstParent? mt d b = some a)) (x : IndexType) :
    ∃ N, ∀ c, ∃ r, ∀ fuel, N ≤ fuel → likeDimensionLoop mt d fuel x c = Except.ok r := by
  induction x using hwf.induction
  rename_i x ih
  cases hp : entityHasParent mt d x with
  | false =>
    refine ⟨1, fun c => ⟨c, fun fuel hfuel => ?_⟩⟩
    obtain ⟨n, rfl⟩ : ∃ n, fuel = n + 1 := ⟨fuel - 1, by omega⟩
    unfold likeDimensionLoop
    simp only [hp]
    rfl
  | true =>
    obtain ⟨p, hget, hfirst⟩ := getEntityParent_of_hasParent mt d x hp
    obtain ⟨N, hN⟩ := ih p hfirst
    refine ⟨N + 1, fun c => ?_⟩
    obtain ⟨r, hr⟩ := hN (if getActiveCellCount mt d p > 0 then p else c)
    refine ⟨r, fun fuel hfuel => ?_⟩
    obtain ⟨n, rfl⟩ : ∃ n, fuel = n + 1 := ⟨fuel - 1, by omega⟩
    unfold likeDimensionLoop
    simp only [hp, if_true, hget]
    exact hr n (by omega)

theorem likeDimension_terminates (mt : MeshTopology) (d : Nat)
    (hwf : WellFounded (fun a b => firstParent? mt d b = some a)) (x : IndexType) :
    ∃ N r, ∀ fuel, N ≤ fuel →
      getConstrainingEntityIndexOfLikeDimension fuel mt d x = Except.ok r := by
  by_cases hd : d = 0
  · refine ⟨0, x, fun fuel _ => ?_⟩
    unfold getConstrainingEntityIndexOfLikeDimension
    rw [if_pos hd]
    rfl
  · obtain ⟨N, hN⟩ := likeDimensionLoop_terminates mt d hwf x
    obtain ⟨r, hr⟩ := hN x
    refine ⟨N, r, fun fuel hfuel => ?_⟩
    unfold getConstrainingEntityIndexOfLikeDimension
    rw [if_neg hd]
    exact hr fuel hfuel

/-- With a well-founded first-parent relation the inner while loop of
`getConstrainingEntity` returns an entity without parent. -/
theorem topLikeDimensionAncestor_terminates (mt : MeshTopology) (d : Nat)
    (hwf : WellFounded (fun a b => firstParent? mt d b = some a)) (x : IndexType) :
    ∃ N top, firstParent? mt d top = none ∧
      ∀ fuel, N ≤ fuel → topLikeDimensionAncestor mt d fuel x = Except.ok top := by
  induction x using hwf.induction
  rename_i x ih
  cases hp : entityHasParent mt d x with
  | false =>
    refine ⟨1, x, firstParent?_of_not_hasParent mt d x hp, fun fuel hfuel => ?_⟩
    obtain ⟨n, rfl⟩ : ∃ n, fuel = n + 1 := ⟨fuel - 1, by omega⟩
    unfold topLikeDimensionAncestor
    simp only [hp]
    rfl
  | true =>
    obtain ⟨p, hget, hfirst⟩ := getEntityParent_of_hasParent mt d x hp
    obtain ⟨N, top, htop, hN⟩ := ih p hfirst
    refine ⟨N + 1, top, htop, fun fuel hfuel => ?_⟩
    obtain ⟨n, rfl⟩ : ∃ n, fuel = n + 1 := ⟨fuel - 1, by omega⟩
    unfold topLikeDimensionAncestor
    simp only [hp, if_true, hget]
    exact hN n (by omega)

theorem updateConstrainingEntity_ne_outOfFuel (mt : MeshTopology) (possible : IndexType)
    (d : Nat) (x : IndexType) (c : IndexType × Nat) :
    updateConstrainingEntity mt possible d x c ≠ Except.error MeshError.outOfFuel := by
  unfold updateConstrainingEntity sidesForConstraint
  intro h
  split at h
  · cases h
  · split at h
    · rename_i err herr
      split at herr
      · cases herr
      · split at herr
        · cases herr
        · cases herr
          cases h
    · split at h
      · cases h
      · cases h

/-- The for loop of `getConstrainingEntity` ends, with a result that does not
depend on the fuel, after at most `m` passes when the first-parent relations
are well-founded and the generalized parents of the entities without parent
have a larger dimension. -/
theorem constrainingEntityLoop_terminates (mt : MeshTopology)
    (hwf : ∀ d, WellFounded (fun a b => firstParent? mt d b = some a))
    (hgen : ∀ (d : Nat) (e : IndexType) (p : IndexType × Nat), firstParent? mt d e = none →
      mapFind (mt._generalizedParentEntities.getD d []) e = some p → d < p.2) :
    ∀ (m dim : Nat) (e : IndexType), mt.sideDim + 1 - dim ≤ m →
      ∃ N, (∀ n, N ≤ n → ∀ fuel, (generalizedLevels mt n fuel dim e).length ≤ m) ∧
        ∀ c, ∃ R, R ≠ Except.error MeshError.outOfFuel ∧
          ∀ n, N ≤ n → ∀ fuel, m + 1 ≤ fuel → constrainingEntityLoop mt n fuel dim e c = R := by
  intro m
  induction m with
  | zero =>
    intro dim e hm
    have hd : ¬ dim ≤ mt.sideDim := by omega
    refine ⟨0, fun n _ fuel => ?_, fun c => ⟨Except.ok c, (fun h => by cases h),
      fun n _ fuel hfuel => ?_⟩⟩
    · cases fuel with
      | zero => simp [generalizedLevels]
      | succ f =>
        unfold generalizedLevels
        rw [if_neg hd]
        simp
    · obtain ⟨f, rfl⟩ : ∃ f, fuel = f + 1 := ⟨fuel - 1, by omega⟩
      unfold constrainingEntityLoop
      rw [if_neg hd]
      rfl
  | succ m ih =>
    intro dim e hm
    by_cases hd : dim ≤ mt.sideDim
    · obtain ⟨N1, r1, h1⟩ := likeDimension_terminates mt dim (hwf dim) e
      obtain ⟨N2, top, htop, h2⟩ := topLikeDimensionAncestor_terminates mt dim (hwf dim) e
      have hlast : ∀ n, N2 ≤ n → (likeAncestors mt dim n e).getLast?.getD e = top :=
        fun n hn => (topLikeDimensionAncestor_eq mt dim n e top (h2 n hn)).symm
      cases hg : mapFind (mt._generalizedParentEntities.getD dim []) top with
      | none =>
        refine ⟨max N1 N2, fun n hn fuel => ?_, fun c => ?_⟩
        · cases fuel with
          | zero => simp [generalizedLevels]
          | succ f =>
            unfold generalizedLevels
            rw [if_pos hd, hlast n (by omega), hg]
            simp
        · cases hu : updateConstrainingEntity mt r1 dim e c with
          | error err =>
            refine ⟨Except.error err, fun h => ?_, fun n hn fuel hfuel => ?_⟩
            · rw [h] at hu
              exact updateConstrainingEntity_ne_outOfFuel mt r1 dim e c hu
            · obtain ⟨f, rfl⟩ : ∃ f, fuel = f + 1 := ⟨fuel - 1, by omega⟩
              unfold constrainingEntityLoop
              rw [if_pos hd, h1 n (by omega)]
              dsimp only
              rw [hu]
              rfl
          | ok c' =>
            refine ⟨Except.ok c', (fun h => by cases h), fun n hn fuel hfuel => ?_⟩
            obtain ⟨f, rfl⟩ : ∃ f, fuel = f + 1 := ⟨fuel - 1, by omega⟩
            unfold constrainingEntityLoop
            rw [if_pos hd, h1 n (by omega)]
            dsimp only
            rw [hu]
            dsimp only
            rw [h2 n (by omega)]
            dsimp only
            rw [hg]
            rfl
      | some p =>
        have hrise : dim < p.2 := hgen dim top p htop hg
        obtain ⟨N3, hlen3, h3⟩ := ih p.2 p.1 (by omega)
        refine ⟨max N1 (max N2 N3), fun n hn fuel => ?_, fun c => ?_⟩
        · cases fuel with
          | zero => simp [generalizedLevels]
          | succ f =>
            unfold generalizedLevels
            rw [if_pos hd, hlast n (by omega), hg]
            dsimp only
            rw [List.length_cons]
            exact Nat.succ_le_succ (hlen3 n (by omega) f)
        · cases hu : updateConstrainingEntity mt r1 dim e c with
          | error err =>
            refine ⟨Except.error err, fun h => ?_, fun n hn fuel hfuel => ?_⟩
            · rw [h] at hu
              exact updateConstrainingEntity_ne_outOfFuel mt r1 dim e c hu
            · obtain ⟨f, rfl⟩ : ∃ f, fuel = f + 1 := ⟨fuel - 1, by omega⟩
              unfold constrainingEntityLoop
              rw [if_pos hd, h1 n (by omega)]
              dsimp only
              rw [hu]
              rfl
          | ok c' =>
            obtain ⟨R, hR, hloop⟩ := h3 c'
            refine ⟨R, hR, fun n hn fuel hfuel => ?_⟩
            obtain ⟨f, rfl⟩ : ∃ f, fuel = f + 1 := ⟨fuel - 1, by omega⟩
            unfold constrainingEntityLoop
            rw [if_pos hd, h1 n (by omega)]
            dsimp only
            rw [hu]
            dsimp only
            rw [h2 n (by omega)]
            dsimp only
            rw [hg]
            exact hloop n (by omega) f (by omega)
    · refine ⟨0, fun n _ fuel => ?_, fun c => ⟨Except.ok c, (fun h => by cases h),
        fun n _ fuel hfuel => ?_⟩⟩
      · cases fuel with
        | zero => simp [generalizedLevels]
        | succ f =>
          unfold generalizedLevels
          rw [if_neg hd]
          simp
      · obtain ⟨f, rfl⟩ : ∃ f, fuel = f + 1 := ⟨fuel - 1, by omega⟩
        unfold constrainingEntityLoop
        rw [if_neg hd]
        rfl

/-- A first-parent relation whose parents all have a smaller index than the
child is well-founded. -/
theorem firstParent_wf_of_all (mt : MeshTopology)
    (hall : mt._parentEntities.all (fun table => table.all
      (fun entry => entry.2.all (fun parent => decide (parent.1 < entry.1)))) = true) :
    ∀ d, WellFounded (fun a b => firstParent? mt d b = some a) := by
  intro d
  refine Subrelation.wf ?_ Nat.lt_wfRel.wf
  intro a b hab
  show a < b
  unfold firstParent? at hab
  cases hfind : mapFind (mt._parentEntities.getD d []) b with
  | none =>
    rw [hfind] at hab
    cases hab
  | some parents =>
    rw [hfind] at hab
    cases parents with
    | nil => cases hab
    | cons parent rest =>
      have ha : parent.1 = a := by
        cases hab
        rfl
      rw [List.getD_eq_getElem?_getD] at hfind
      cases hget : mt._parentEntities[d]? with
      | none =>
        rw [hget] at hfind
        cases hfind
      | some table =>
        rw [hget] at hfind
        have h0 := List.all_eq_true.1 hall table (List.mem_iff_getElem?.2 ⟨d, hget⟩)
        have h1 := List.all_eq_true.1 h0 _ (mem_of_mapFind _ _ _ hfind)
        have h2 := List.all_eq_true.1 h1 parent (List.mem_cons_self _ _)
        rw [← ha]
        exact of_decide_eq_true h2

/-- A generalized-parent table that passes the check entry by entry gives the
entities without parent generalized parents of larger dimension. -/
theorem generalizedParents_rise_of_all (mt : MeshTopology)
    (hall : (List.range mt._generalizedParentEntities.length).all (fun d =>
      (mt._generalizedParentEntities.getD d []).all (fun entry =>
        (firstParent? mt d entry.1).isSome || decide (d < entry.2.2))) = true) :
    ∀ (d : Nat) (e : IndexType) (p : IndexType × Nat), firstParent? mt d e = none →
      mapFind (mt._generalizedParentEntities.getD d []) e = some p → d < p.2 := by
  intro d e p hnone hfind
  by_cases hd : d < mt._generalizedParentEntities.length
  · have h0 := List.all_eq_true.1 hall d (List.mem_range.2 hd)
    have h1 := List.all_eq_true.1 h0 _ (mem_of_mapFind _ _ _ hfind)
    dsimp only at h1
    rw [hnone] at h1
    exact of_decide_eq_true (by simpa using h1)
  · rw [List.getD_eq_getElem?_getD, List.getElem?_eq_none (by omega)] at hfind
    cases hfind

/-! ## The generalized parents set by a refinement: lemmas -/

theorem periodicEquivalents_congr {mt mt' : MeshTopology}
    (h1 : mt'._periodicBCIndicesMatchingNode = mt._periodicBCIndicesMatchingNode)
    (h2 : mt'._equivalentNodeViaPeriodicBC = mt._equivalentNodeViaPeriodicBC) (v : IndexType) :
    periodicEquivalents mt' v = periodicEquivalents mt v := by
  unfold periodicEquivalents
  rw [h1, h2]

theorem generalizedStep_refl (mt : MeshTopology) : GeneralizedStep mt mt :=
  ⟨rfl, rfl, rfl, fun h => h, fun _ _ _ q _ hq => ⟨q, hq, Nat.le_refl _⟩⟩

theorem generalizedStep_trans {a b c : MeshTopology} (h1 : GeneralizedStep a b)
    (h2 : GeneralizedStep b c) : GeneralizedStep a c := by
  refine ⟨h2.matching.trans h1.matching, h2.equivalent.trans h1.equivalent,
    h2.length.trans h1.length, fun h => h2.wf (h1.wf h), ?_⟩
  intro hwf k e q hk hq
  obtain ⟨q1, hq1, hle1⟩ := h1.keep hwf k e q hk hq
  have hk' : 1 ≤ k ∨ ∀ v, periodicEquivalents b v = [] := by
    rcases hk with hk | hk
    · exact Or.inl hk
    · exact Or.inr (fun v => by
        rw [periodicEquivalents_congr h1.matching h1.equivalent v]
        exact hk v)
  obtain ⟨q2, hq2, hle2⟩ := h2.keep (h1.wf hwf) k e q1 hk' hq1
  exact ⟨q2, hq2, Nat.le_trans hle2 hle1⟩

/-- A step that leaves the generalized-parent table and the periodic matches
alone. -/
theorem generalizedStep_of_eq {mt mt' : MeshTopology}
    (h1 : mt'._periodicBCIndicesMatchingNode = mt._periodicBCIndicesMatchingNode)
    (h2 : mt'._equivalentNodeViaPeriodicBC = mt._equivalentNodeViaPeriodicBC)
    (h3 : mt'._generalizedParentEntities = mt._generalizedParentEntities) :
    GeneralizedStep mt mt' := by
  refine ⟨h1, h2, by rw [h3], fun h => ?_, fun _ k e q _ hq => ⟨q, ?_, Nat.le_refl _⟩⟩
  · intro d e p hp
    rw [h3] at hp
    exact h d e p hp
  · rw [h3]
    exact hq

/-- The table after the records of a list of entities of one dimension are
set to one value. -/
theorem setRecords_spec (dim : Nat) (v : IndexType × Nat) (keys : List IndexType)
    (mt : MeshTopology) :
    ((keys.foldl (fun (acc : MeshTopology) key =>
        { acc with
          _generalizedParentEntities := modifyAt acc._generalizedParentEntities dim
            (fun parents => mapSet parents key v) }) mt)._periodicBCIndicesMatchingNode
      = mt._periodicBCIndicesMatchingNode) ∧
    ((keys.foldl (fun (acc : MeshTopology) key =>
        { acc with
          _generalizedParentEntities := modifyAt acc._generalizedParentEntities dim
            (fun parents => mapSet parents key v) }) mt)._equivalentNodeViaPeriodicBC
      = mt._equivalentNodeViaPeriodicBC) ∧
    ((keys.foldl (fun (acc : MeshTopology) key =>
        { acc with
          _generalizedParentEntities := modifyAt acc._generalizedParentEntities dim
            (fun parents => mapSet parents key v) }) mt)._generalizedParentEntities.length
      = mt._generalizedParentEntities.length) ∧
    ∀ (k : Nat) (x : IndexType),
      mapFind ((keys.foldl (fun (acc : MeshTopology) key =>
        { acc with
          _generalizedParentEntities := modifyAt acc._generalizedParentEntities dim
            (fun parents => mapSet parents key v) }) mt)._generalizedParentEntities.getD k []) x
      = if k = dim ∧ dim < mt._generalizedParentEntities.length ∧ x ∈ keys then some v
        else mapFind (mt._generalizedParentEntities.getD k []) x := by
  induction keys generalizing mt with
  | nil =>
    refine ⟨rfl, rfl, rfl, fun k x => ?_⟩
    rw [if_neg (fun h => absurd h.2.2 (List.not_mem_nil _))]
    rfl
  | cons key rest ih =>
    obtain ⟨i1, i2, i3, i4⟩ := ih
      { mt with
        _generalizedParentEntities := modifyAt mt._generalizedParentEntities dim
          (fun parents => mapSet parents key v) }
    simp only [List.foldl_cons]
    refine ⟨i1, i2, ?_, fun k x => ?_⟩
    · rw [i3]
      exact length_modifyAt _ _ _
    · rw [i4 k x]
      show (if k = dim ∧ dim < (modifyAt mt._generalizedParentEntities dim _).length ∧ x ∈ rest
          then some v
          else mapFind ((modifyAt mt._generalizedParentEntities dim
            (fun parents => mapSet parents key v)).getD k []) x) = _
      rw [length_modifyAt]
      by_cases hk : k = dim
      · subst hk
        by_cases hlen : k < mt._generalizedParentEntities.length
        · rw [getD_modifyAt_self _ _ _ _ hlen, mapFind_mapSet]
          by_cases hx : x ∈ rest
          · rw [if_pos ⟨rfl, hlen, hx⟩, if_pos ⟨rfl, hlen, List.mem_cons_of_mem _ hx⟩]
          · rw [if_neg (fun h => hx h.2.2)]
            by_cases hkey : key = x
            · rw [if_pos hkey, if_pos ⟨rfl, hlen, by rw [hkey]; exact List.mem_cons_self _ _⟩]
            · rw [if_neg hkey, if_neg (fun h => by
                rcases List.mem_cons.1 h.2.2 with h1 | h1
                · exact hkey h1.symm
                · exact hx h1)]
        · rw [if_neg (fun h => hlen h.2.1), if_neg (fun h => hlen h.2.1),
            getD_modifyAt_of_le _ _ _ _ _ (Nat.le_of_not_lt hlen)]
      · rw [if_neg (fun h => hk h.1), if_neg (fun h => hk h.1), getD_modifyAt_ne _ _ _ _ _ hk]

/-- The method `setEntityGeneralizedParent` sets the record of the entity and,
for a vertex, of its periodic partners, and no other record. -/
theorem setEntityGeneralizedParent_spec (mt mt' : MeshTopology) (entityDim : Nat)
    (entityIndex : IndexType) (parentDim : Nat) (parentEntityIndex : IndexType)
    (h : setEntityGeneralizedParent mt entityDim entityIndex parentDim parentEntityIndex
      = Except.ok mt') :
    ¬ (entityDim = parentDim ∧ parentEntityIndex = entityIndex) ∧
    mt'._periodicBCIndicesMatchingNode = mt._periodicBCIndicesMatchingNode ∧
    mt'._equivalentNodeViaPeriodicBC = mt._equivalentNodeViaPeriodicBC ∧
    mt'._generalizedParentEntities.length = mt._generalizedParentEntities.length ∧
    ∀ (k : Nat) (x : IndexType),
      mapFind (mt'._generalizedParentEntities.getD k []) x
        = if k = entityDim ∧ entityDim < mt._generalizedParentEntities.length ∧
            (x = entityIndex ∨ (entityDim = 0 ∧ x ∈ periodicEquivalents mt entityIndex))
          then some (parentEntityIndex, parentDim)
          else mapFind (mt._generalizedParentEntities.getD k []) x := by
  unfold setEntityGeneralizedParent at h
  split at h
  · cases h
  · rename_i hown
    dsimp only at h
    have hone := setRecords_spec entityDim (parentEntityIndex, parentDim) [entityIndex] mt
    simp only [List.foldl_cons, List.foldl_nil] at hone
    obtain ⟨_, _, o3, o4⟩ := hone
    split at h
    · rename_i hzero
      cases h
      have hper : periodicEquivalents
          { mt with
            _generalizedParentEntities := modifyAt mt._generalizedParentEntities entityDim
              (fun parents => mapSet parents entityIndex (parentEntityIndex, parentDim)) }
          entityIndex = periodicEquivalents mt entityIndex :=
        periodicEquivalents_congr rfl rfl entityIndex
      obtain ⟨e1, e2, e3, e4⟩ := setRecords_spec entityDim (parentEntityIndex, parentDim)
        (periodicEquivalents mt entityIndex)
        { mt with
          _generalizedParentEntities := modifyAt mt._generalizedParentEntities entityDim
            (fun parents => mapSet parents entityIndex (parentEntityIndex, parentDim)) }
      rw [hper]
      refine ⟨hown, e1, e2, e3.trans o3, fun k x => ?_⟩
      rw [e4 k x, o4 k x, o3]
      by_cases hc : k = entityDim ∧ entityDim < mt._generalizedParentEntities.length
      · by_cases hx : x ∈ periodicEquivalents mt entityIndex
        · rw [if_pos ⟨hc.1, hc.2, hx⟩, if_pos ⟨hc.1, hc.2, Or.inr ⟨hzero, hx⟩⟩]
        · rw [if_neg (fun h => hx h.2.2)]
          by_cases hxe : x = entityIndex
          · rw [if_pos ⟨hc.1, hc.2, by rw [hxe]; exact List.mem_singleton.2 rfl⟩,
              if_pos ⟨hc.1, hc.2, Or.inl hxe⟩]
          · rw [if_neg (fun h => hxe (List.mem_singleton.1 h.2.2)),
              if_neg (fun h => by
                rcases h.2.2 with h1 | h1
                · exact hxe h1
                · exact hx h1.2)]
      · rw [if_neg (fun h => hc ⟨h.1, h.2.1⟩), if_neg (fun h => hc ⟨h.1, h.2.1⟩),
          if_neg (fun h => hc ⟨h.1, h.2.1⟩)]
    · rename_i hzero
      cases h
      refine ⟨hown, rfl, rfl, o3, fun k x => ?_⟩
      rw [o4 k x]
      by_cases hc : k = entityDim ∧ entityDim < mt._generalizedParentEntities.length
      · by_cases hxe : x = entityIndex
        · rw [if_pos ⟨hc.1, hc.2, by rw [hxe]; exact List.mem_singleton.2 rfl⟩,
            if_pos ⟨hc.1, hc.2, Or.inl hxe⟩]
        · rw [if_neg (fun h => hxe (List.mem_singleton.1 h.2.2)),
            if_neg (fun h => by
              rcases h.2.2 with h1 | h1
              · exact hxe h1
              · exact hzero h1.1)]
      · rw [if_neg (fun h => hc ⟨h.1, h.2.1⟩), if_neg (fun h => hc ⟨h.1, h.2.1⟩)]


/-- A call of `setEntityGeneralizedParent` with a parent of larger dimension,
or of the same positive dimension, that replaces no record of smaller
dimension is a step. -/
theorem setEntityGeneralizedParent_step (mt mt' : MeshTopology) (entityDim : Nat)
    (entityIndex : IndexType) (parentDim : Nat) (parentEntityIndex : IndexType)
    (h : setEntityGeneralizedParent mt entityDim entityIndex parentDim parentEntityIndex
      = Except.ok mt')
    (hdim : entityDim < parentDim ∨ (entityDim = parentDim ∧ 0 < entityDim))
    (hguard : GeneralizedParentsWF mt → ∀ q,
      mapFind (mt._generalizedParentEntities.getD entityDim []) entityIndex = some q →
      parentDim ≤ q.2) : GeneralizedStep mt mt' := by
  obtain ⟨hown, m1, m2, m3, hrec⟩ := setEntityGeneralizedParent_spec _ _ _ _ _ _ h
  refine ⟨m1, m2, m3, ?_, ?_⟩
  · intro hwf d e p hp
    rw [hrec d e] at hp
    by_cases hc : d = entityDim ∧ entityDim < mt._generalizedParentEntities.length ∧
        (e = entityIndex ∨ (entityDim = 0 ∧ e ∈ periodicEquivalents mt entityIndex))
    · rw [if_pos hc] at hp
      cases hp
      obtain ⟨hd, _, he⟩ := hc
      subst hd
      rcases hdim with hlt | ⟨heq, hpos⟩
      · exact ⟨Nat.le_of_lt hlt, fun hx => absurd hx.1 (Nat.ne_of_gt hlt)⟩
      · refine ⟨Nat.le_of_eq heq, fun hx => ?_⟩
        rcases he with he | he
        · exact hown ⟨heq, hx.2.trans he⟩
        · exact absurd he.1 (Nat.pos_iff_ne_zero.1 hpos)
    · rw [if_neg hc] at hp
      exact hwf d e p hp
  · intro hwf k e q hk hq
    rw [hrec k e]
    by_cases hc : k = entityDim ∧ entityDim < mt._generalizedParentEntities.length ∧
        (e = entityIndex ∨ (entityDim = 0 ∧ e ∈ periodicEquivalents mt entityIndex))
    · rw [if_pos hc]
      refine ⟨_, rfl, ?_⟩
      obtain ⟨hd, _, he⟩ := hc
      subst hd
      rcases he with he | he
      · subst he
        exact hguard hwf q hq
      · rcases hk with hk | hk
        · exact absurd hk (by rw [he.1]; exact Nat.not_succ_le_zero 0)
        · rw [hk entityIndex] at he
          exact absurd he.2 (List.not_mem_nil _)
    · rw [if_neg hc]
      exact ⟨q, hq, Nat.le_refl _⟩

theorem foldExcept_generalizedStep {α : Type}
    (f : MeshTopology → α → Except MeshError MeshTopology) (l : List α)
    (hf : ∀ s a s', a ∈ l → f s a = Except.ok s' → GeneralizedStep s s') (s s' : MeshTopology)
    (h : foldExcept f s l = Except.ok s') : GeneralizedStep s s' :=
  foldExcept_rel GeneralizedStep generalizedStep_refl (fun _ _ _ => generalizedStep_trans) f l
    hf s s' h

theorem setSubEntityGeneralizedParent_step (tools : CellTools) (d : Nat)
    (parentIndex : IndexType) (parentVertexIndices : List IndexType) (child : IndexType)
    (subcdim : Nat) (mt mt' : MeshTopology) (subcord : Nat) (hsub : subcdim < d)
    (h : setSubEntityGeneralizedParent tools d parentIndex parentVertexIndices child subcdim mt
      subcord = Except.ok mt') : GeneralizedStep mt mt' := by
  unfold setSubEntityGeneralizedParent at h
  split at h
  · cases h
  · rename_i x _
    split at h
    · cases h
      exact generalizedStep_refl _
    · cases hprev : mapFind (mt._generalizedParentEntities.getD subcdim []) x with
      | none =>
        rw [hprev] at h
        exact setEntityGeneralizedParent_step _ _ _ _ _ _ h (Or.inl hsub)
          (fun _ q hq => by rw [hprev] at hq; cases hq)
      | some prev =>
        rw [hprev] at h
        dsimp only at h
        split at h
        · cases h
          exact generalizedStep_refl _
        · rename_i hnle
          exact setEntityGeneralizedParent_step _ _ _ _ _ _ h (Or.inl hsub)
            (fun _ q hq => by
              rw [hprev] at hq
              cases hq
              exact Nat.le_of_lt (Nat.lt_of_not_le hnle))

theorem setSubEntityGeneralizedParentsOfDim_step (tools : CellTools)
    (d : Nat) (parentIndex : IndexType) (parentVertexIndices : List IndexType)
    (child : IndexType) (mt mt' : MeshTopology) (subcdim : Nat) (hsub : subcdim < d)
    (h : setSubEntityGeneralizedParentsOfDim tools d parentIndex parentVertexIndices child mt
      subcdim = Except.ok mt') : GeneralizedStep mt mt' := by
  unfold setSubEntityGeneralizedParentsOfDim at h
  split at h
  · cases h
  · exact foldExcept_generalizedStep _ _
      (fun s a s' _ hs => setSubEntityGeneralizedParent_step tools d parentIndex
        parentVertexIndices child subcdim s s' a hsub hs) _ _ h

theorem setChildGeneralizedParents_step (tools : CellTools) (d : Nat)
    (parentIndex : IndexType) (parentVertexIndices : List IndexType) (mt mt' : MeshTopology)
    (childEntityIndex : Option IndexType) (hd : 1 ≤ d)
    (h : setChildGeneralizedParents tools d parentIndex parentVertexIndices mt childEntityIndex
      = Except.ok mt') : GeneralizedStep mt mt' := by
  unfold setChildGeneralizedParents at h
  split at h
  · cases h
  · rename_i child
    split at h
    · cases h
      exact generalizedStep_refl _
    · split at h
      · cases h
      · rename_i mt1 h1
        exact generalizedStep_trans
          (setEntityGeneralizedParent_step _ _ _ _ _ _ h1 (Or.inr ⟨rfl, hd⟩)
            (fun hwf q hq => (hwf d child q hq).1))
          (foldExcept_generalizedStep _ _
            (fun s a s' ha hs => setSubEntityGeneralizedParentsOfDim_step tools d parentIndex
              parentVertexIndices child s s' a (List.mem_range.1 ha) hs) _ _ h)

theorem determineGeneralizedParentsForSubcell_step (tools : CellTools)
    (cellIndex : IndexType) (refPattern : RefinementPattern) (d : Nat) (mt mt' : MeshTopology)
    (subcord : Nat) (hd : 1 ≤ d)
    (h : determineGeneralizedParentsForSubcell tools cellIndex refPattern d mt subcord
      = Except.ok mt') : GeneralizedStep mt mt' := by
  unfold determineGeneralizedParentsForSubcell at h
  split at h
  · cases h
  · split at h
    · cases h
      exact generalizedStep_refl _
    · split at h
      · cases h
      · cases h
      · rename_i parentIndex mt1 h1
        have hstep1 : GeneralizedStep mt mt1 := by
          unfold cellEntityIndex at h1
          split at h1
          · cases h1
          · split at h1
            · cases h1
            · cases h1
              exact generalizedStep_of_eq rfl rfl rfl
        split at h
        · cases h
        · rename_i parentVertexIndices _
          exact generalizedStep_trans hstep1
            (foldExcept_generalizedStep _ _
              (fun s a s' _ hs => setChildGeneralizedParents_step tools d parentIndex
                parentVertexIndices s s' a hd hs) _ _ h)

theorem determineGeneralizedParentsOfDim_step (tools : CellTools)
    (cellIndex : IndexType) (cellTopo : CellTopology) (refPattern : RefinementPattern)
    (mt mt' : MeshTopology) (d : Nat) (hd : 1 ≤ d)
    (h : determineGeneralizedParentsOfDim tools cellIndex cellTopo refPattern mt d
      = Except.ok mt') : GeneralizedStep mt mt' := by
  unfold determineGeneralizedParentsOfDim at h
  exact foldExcept_generalizedStep _ _
    (fun s a s' _ hs => determineGeneralizedParentsForSubcell_step tools cellIndex refPattern d
      s s' a hd hs) _ _ h

theorem pos_of_mem_drop_range (n a : Nat) (h : a ∈ (List.range n).drop 1) : 1 ≤ a := by
  cases n with
  | zero => simp at h
  | succ n =>
    rw [List.range_succ_eq_map] at h
    simp only [List.drop_succ_cons, List.drop_zero, List.mem_map] at h
    obtain ⟨b, _, hb⟩ := h
    rw [← hb]
    exact Nat.succ_le_succ (Nat.zero_le _)

/-- The method `determineGeneralizedParentsForRefinement` is a step. -/
theorem determineGeneralizedParentsForRefinement_step (tools : CellTools)
    (mt mt' : MeshTopology) (cellIndex : IndexType) (refPattern : RefinementPattern)
    (h : determineGeneralizedParentsForRefinement tools mt cellIndex refPattern = Except.ok mt') :
    GeneralizedStep mt mt' := by
  unfold determineGeneralizedParentsForRefinement at h
  split at h
  · cases h
  · split at h
    · cases h
    · exact foldExcept_generalizedStep _ _
        (fun s a s' ha hs => determineGeneralizedParentsOfDim_step tools cellIndex _ refPattern
          s s' a (pos_of_mem_drop_range _ _ ha) hs) _ _ h

/-- The passes over the sub-entities of a child entity of dimension `d` leave
the records of the entities of dimension `d` and above alone. -/
theorem setSubEntityGeneralizedParentsOfDim_above (tools : CellTools)
    (d : Nat) (parentIndex : IndexType) (parentVertexIndices : List IndexType)
    (child : IndexType) (mt mt' : MeshTopology) (subcdim : Nat) (hsub : subcdim < d)
    (h : setSubEntityGeneralizedParentsOfDim tools d parentIndex parentVertexIndices child mt
      subcdim = Except.ok mt') :
    ∀ (k : Nat) (x : IndexType), d ≤ k →
      mapFind (mt'._generalizedParentEntities.getD k []) x
        = mapFind (mt._generalizedParentEntities.getD k []) x := by
  unfold setSubEntityGeneralizedParentsOfDim at h
  split at h
  · cases h
  · refine foldExcept_rel
      (fun (a b : MeshTopology) => ∀ (k : Nat) (x : IndexType), d ≤ k →
        mapFind (b._generalizedParentEntities.getD k []) x
          = mapFind (a._generalizedParentEntities.getD k []) x)
      (fun _ _ _ _ => rfl) (fun _ _ _ h1 h2 k x hk => (h2 k x hk).trans (h1 k x hk)) _ _
      ?_ _ _ h
    intro s a s' _ hs k x hk
    unfold setSubEntityGeneralizedParent at hs
    split at hs
    · cases hs
    · rename_i y _
      split at hs
      · cases hs
        rfl
      · split at hs
        · split at hs
          · cases hs
            rfl
          · obtain ⟨_, _, _, _, hrec⟩ := setEntityGeneralizedParent_spec _ _ _ _ _ _ hs
            rw [hrec k x, if_neg (fun hc => absurd hc.1 (by omega))]
        · obtain ⟨_, _, _, _, hrec⟩ := setEntityGeneralizedParent_spec _ _ _ _ _ _ hs
          rw [hrec k x, if_neg (fun hc => absurd hc.1 (by omega))]

/-- A pass of the child loop records the subdivided entity as the generalized
parent of the child entity. -/
theorem setChildGeneralizedParents_child (tools : CellTools) (d : Nat)
    (parentIndex : IndexType) (parentVertexIndices : List IndexType) (mt mt' : MeshTopology)
    (child : IndexType) (hne : parentIndex ≠ child)
    (hlen : d < mt._generalizedParentEntities.length)
    (h : setChildGeneralizedParents tools d parentIndex parentVertexIndices mt (some child)
      = Except.ok mt') :
    mapFind (mt'._generalizedParentEntities.getD d []) child = some (parentIndex, d) := by
  unfold setChildGeneralizedParents at h
  dsimp only at h
  rw [if_neg hne] at h
  split at h
  · cases h
  · rename_i mt1 h1
    obtain ⟨_, _, _, _, hrec⟩ := setEntityGeneralizedParent_spec _ _ _ _ _ _ h1
    have h0 : mapFind (mt1._generalizedParentEntities.getD d []) child
        = some (parentIndex, d) := by
      rw [hrec d child, if_pos ⟨rfl, hlen, Or.inl rfl⟩]
    have hfold := foldExcept_rel
      (fun (a b : MeshTopology) => ∀ (k : Nat) (x : IndexType), d ≤ k →
        mapFind (b._generalizedParentEntities.getD k []) x
          = mapFind (a._generalizedParentEntities.getD k []) x)
      (fun _ _ _ _ => rfl) (fun _ _ _ h1 h2 k x hk => (h2 k x hk).trans (h1 k x hk)) _ _
      (fun s a s' ha hs => setSubEntityGeneralizedParentsOfDim_above tools d parentIndex
        parentVertexIndices child s s' a (List.mem_range.1 ha) hs) _ _ h
    rw [hfold d child (Nat.le_refl _)]
    exact h0

/-- A sub-entity with a recorded generalized parent of dimension at most `d`
keeps it: the pass changes nothing. -/
theorem setSubEntityGeneralizedParent_kept (tools : CellTools) (d : Nat)
    (parentIndex : IndexType) (parentVertexIndices : List IndexType) (child : IndexType)
    (subcdim : Nat) (mt : MeshTopology) (subcord : Nat) (x : IndexType) (q : IndexType × Nat)
    (hx : getSubEntityIndex tools mt d child subcdim subcord = Except.ok x)
    (hq : mapFind (mt._generalizedParentEntities.getD subcdim []) x = some q) (hle : q.2 ≤ d) :
    setSubEntityGeneralizedParent tools d parentIndex parentVertexIndices child subcdim mt
      subcord = Except.ok mt := by
  unfold setSubEntityGeneralizedParent
  rw [hx]
  dsimp only
  split
  · rfl
  · rw [hq]
    dsimp only
    rw [if_pos hle]
    rfl

/-- A generalized-parent table that passes the check entry by entry is well
formed. -/
theorem generalizedParentsWF_of_all (mt : MeshTopology)
    (hall : (List.range mt._generalizedParentEntities.length).all (fun d =>
      (mt._generalizedParentEntities.getD d []).all (fun entry =>
        decide (d ≤ entry.2.2) && !(decide (entry.2.2 = d) && decide (entry.2.1 = entry.1))))
      = true) : GeneralizedParentsWF mt := by
  intro d e p hfind
  by_cases hd : d < mt._generalizedParentEntities.length
  · have h0 := List.all_eq_true.1 hall d (List.mem_range.2 hd)
    have h1 := List.all_eq_true.1 h0 _ (mem_of_mapFind _ _ _ hfind)
    simp only [Bool.and_eq_true, decide_eq_true_eq, Bool.not_eq_true', Bool.and_eq_false_iff,
      decide_eq_false_iff_not] at h1
    refine ⟨h1.1, fun hx => ?_⟩
    rcases h1.2 with h2 | h2
    · exact h2 hx.1
    · exact h2 hx.2
  · rw [List.getD_eq_getElem?_getD, List.getElem?_eq_none (by omega)] at hfind
    cases hfind

/-! ## The cache of sub-entity indices: lemmas -/

theorem cacheStep_refl (mt : MeshTopology) : CacheStep mt mt :=
  fun h => h

theorem cacheStep_trans {a b c : MeshTopology} (h1 : CacheStep a b) (h2 : CacheStep b c) :
    CacheStep a c :=
  fun h => h2 (h1 h)

theorem foldExcept_cacheStep {α : Type}
    (f : MeshTopology → α → Except MeshError MeshTopology) (l : List α)
    (hf : ∀ s a s', f s a = Except.ok s' → CacheStep s s') (s s' : MeshTopology)
    (h : foldExcept f s l = Except.ok s') : CacheStep s s' :=
  foldExcept_rel CacheStep cacheStep_refl (fun _ _ _ => cacheStep_trans) f l
    (fun s a s' _ => hf s a s') s s' h

theorem foldl_cacheStep {α : Type} (f : MeshTopology → α → MeshTopology)
    (l : List α) (hf : ∀ s a, CacheStep s (f s a)) (s : MeshTopology) :
    CacheStep s (l.foldl f s) :=
  foldl_rel CacheStep cacheStep_refl (fun _ _ _ => cacheStep_trans) f l hf s

/-- Without periodic boundary conditions, an index found stays found while the
known entities grow. -/
theorem getEntityIndex_grows (mt mt' : MeshTopology) (hg : KnownGrows mt mt')
    (h0 : mt._periodicBCs.length = 0) (d : Nat) (nodeSet : List IndexType) (i : IndexType)
    (h : getEntityIndex mt d nodeSet = Except.ok (some i)) :
    getEntityIndex mt' d nodeSet = Except.ok (some i) := by
  have h0' : mt'._periodicBCs.length = 0 := by rw [hg.1]; exact h0
  unfold getEntityIndex at h ⊢
  by_cases hd : d = 0
  · rw [if_pos hd] at h ⊢
    rw [h0']
    rw [h0] at h
    exact h
  · rw [if_neg hd] at h ⊢
    dsimp only at h ⊢
    cases hfind : mapFind (mt._knownEntities.getD d []) nodeSet with
    | none =>
      rw [hfind] at h
      dsimp only at h
      rw [if_neg (by rw [h0]; exact Nat.lt_irrefl 0)] at h
      cases h
    | some j =>
      rw [hfind] at h
      have hji : j = i := by
        cases h
        rfl
      rw [hg.2 d (Nat.pos_of_ne_zero hd) nodeSet j hfind, hji]
      rfl

theorem lookupEntityIndex_grows (mt mt' : MeshTopology) (hg : KnownGrows mt mt')
    (h0 : mt._periodicBCs.length = 0) (c c' : Cell) (hc : Cell.sameCache c c') (d ord : Nat)
    (i : IndexType) (h : Cell.lookupEntityIndex mt c d ord = Except.ok (some i)) :
    Cell.lookupEntityIndex mt' c' d ord = Except.ok (some i) := by
  unfold Cell.lookupEntityIndex at h ⊢
  rw [hc.1, hc.2.1]
  cases hn : Cell.subcellNodes c._cellTopo c._vertices d ord with
  | error err =>
    rw [hn] at h
    cases h
  | ok nodes =>
    rw [hn] at h
    exact getEntityIndex_grows mt mt' hg h0 d _ i h

theorem cacheSized_of_sameCache (c c' : Cell) (hc : Cell.sameCache c c')
    (h : c.CacheSized) : c'.CacheSized := by
  unfold Cell.CacheSized at h ⊢
  rw [hc.1, hc.2.2]
  exact h

theorem cacheSized_of_nil (c : Cell) (h : c._entityIndices = []) : c.CacheSized := by
  unfold Cell.CacheSized
  rw [h]
  exact ⟨Or.inl rfl, fun d row hrow => by cases hrow⟩

theorem not_cached_of_nil (c : Cell) (h : c._entityIndices = []) (d ord : Nat)
    (x : Option IndexType) : ¬ c.cached d ord x := by
  rintro ⟨row, hrow, _⟩
  rw [h] at hrow
  cases hrow

/-- A step that lets the known entities grow, and whose cells are new with an
empty cache or old with their cache, keeps the caches sound. -/
theorem cacheStep_of_grows (mt mt' : MeshTopology) (hg : KnownGrows mt mt')
    (hcells : ∀ (k : IndexType) (c' : Cell), mapFind mt'._cells k = some c' →
      c'._entityIndices = [] ∨ ∃ c, mapFind mt._cells k = some c ∧ Cell.sameCache c c') :
    CacheStep mt mt' := by
  intro hs
  refine ⟨by rw [hg.1]; exact hs.1, ?_⟩
  intro k c' hc'
  rcases hcells k c' hc' with hnil | ⟨c, hc, hsame⟩
  · exact ⟨cacheSized_of_nil c' hnil,
      fun d ord x hx => absurd hx (not_cached_of_nil c' hnil d ord x)⟩
  · obtain ⟨hsized, hright⟩ := hs.2 k c hc
    refine ⟨cacheSized_of_sameCache c c' hsame hsized, ?_⟩
    intro d ord x hx
    have hx0 : c.cached d ord x := by
      unfold Cell.cached at hx ⊢
      rw [← hsame.2.2]
      exact hx
    obtain ⟨i, hi, hlook⟩ := hright d ord x hx0
    exact ⟨i, hi, lookupEntityIndex_grows mt mt' hg hs.1 c c' hsame d ord i hlook⟩

theorem knownGrows_of_eq {mt mt' : MeshTopology} (h1 : mt'._periodicBCs = mt._periodicBCs)
    (h2 : mt'._knownEntities = mt._knownEntities) : KnownGrows mt mt' :=
  ⟨h1, fun d _ key i h => by rw [h2]; exact h⟩

theorem cacheStep_of_eq {mt mt' : MeshTopology} (h1 : mt'._periodicBCs = mt._periodicBCs)
    (h2 : mt'._knownEntities = mt._knownEntities) (h3 : mt'._cells = mt._cells) :
    CacheStep mt mt' :=
  cacheStep_of_grows mt mt' (knownGrows_of_eq h1 h2)
    (fun k c' hc' => Or.inr ⟨c', by rw [← h3]; exact hc', rfl, rfl, rfl⟩)

theorem cacheStep_mapSet (mt mt' : MeshTopology) (k : IndexType) (c c' : Cell)
    (hfind : mapFind mt._cells k = some c) (h1 : mt'._periodicBCs = mt._periodicBCs)
    (h2 : mt'._knownEntities = mt._knownEntities) (h3 : mt'._cells = mapSet mt._cells k c')
    (hsame : Cell.sameCache c c') : CacheStep mt mt' := by
  refine cacheStep_of_grows mt mt' (knownGrows_of_eq h1 h2) ?_
  intro j cj hcj
  rw [h3, mapFind_mapSet] at hcj
  by_cases hk : k = j
  · rw [if_pos hk] at hcj
    cases hcj
    exact Or.inr ⟨c, by rw [← hk]; exact hfind, hsame⟩
  · rw [if_neg hk] at hcj
    exact Or.inr ⟨cj, hcj, rfl, rfl, rfl⟩

theorem mapFind_mapInsert_of_some {K V : Type} [DecidableEq K] (m : List (K × V)) (k k' : K)
    (v v' : V) (h : mapFind m k' = some v') : mapFind (mapInsert m k v) k' = some v' := by
  unfold mapInsert
  cases hk : mapFind m k with
  | some _ => exact h
  | none =>
    dsimp only
    rw [mapFind_append, h]


theorem knownGrows_mapInsert (mt mt' : MeshTopology) (d : Nat) (key : List IndexType)
    (v : IndexType) (h1 : mt'._periodicBCs = mt._periodicBCs)
    (h2 : mt'._knownEntities
      = modifyAt mt._knownEntities d (fun known => mapInsert known key v)) :
    KnownGrows mt mt' := by
  refine ⟨h1, ?_⟩
  intro d' _ key' i hfind
  rw [h2]
  by_cases hd : d' = d
  · by_cases hlen : d < mt._knownEntities.length
    · rw [hd, getD_modifyAt_self _ _ _ _ hlen]
      rw [hd] at hfind
      exact mapFind_mapInsert_of_some _ _ _ _ _ hfind
    · rw [getD_modifyAt_of_le _ _ _ _ _ (Nat.not_lt.1 hlen)]
      exact hfind
  · rw [getD_modifyAt_ne _ _ _ _ _ hd]
    exact hfind

theorem knownGrows_vertex (mt mt' : MeshTopology)
    (f : List (List IndexType × IndexType) → List (List IndexType × IndexType))
    (h1 : mt'._periodicBCs = mt._periodicBCs)
    (h2 : mt'._knownEntities = modifyAt mt._knownEntities 0 f) : KnownGrows mt mt' := by
  refine ⟨h1, ?_⟩
  intro d hd key i hfind
  rw [h2, getD_modifyAt_ne _ _ _ _ _ (Nat.pos_iff_ne_zero.1 hd)]
  exact hfind

theorem cacheStep_of_known (mt mt' : MeshTopology) (hg : KnownGrows mt mt')
    (h3 : mt'._cells = mt._cells) : CacheStep mt mt' :=
  cacheStep_of_grows mt mt' hg
    (fun k c' hc' => Or.inr ⟨c', by rw [← h3]; exact hc', rfl, rfl, rfl⟩)

/-- The cache after its lazy sizing holds what the cache held. -/
theorem cached_of_lazy (cell : Cell) (d ord : Nat) (x : Option IndexType)
    (r : List (Option (Option IndexType)))
    (hr : (if cell._entityIndices.length = 0 then
      List.replicate cell._cellTopo.getDimension [] else cell._entityIndices)[d]? = some r)
    (hx : r[ord]? = some (some x)) : cell.cached d ord x := by
  by_cases hlen : cell._entityIndices.length = 0
  · rw [if_pos hlen] at hr
    have hnil : r = [] := (List.mem_replicate.1 (List.getElem?_mem hr)).2
    rw [hnil] at hx
    cases hx
  · rw [if_neg hlen] at hr
    exact ⟨r, hr, hx⟩

/-- The row after its lazy sizing holds what the row held. -/
theorem slot_of_lazy (n ord : Nat) (x : Option IndexType)
    (r : List (Option (Option IndexType)))
    (hx : (if r.length = 0 then List.replicate n none else r)[ord]? = some (some x)) :
    r[ord]? = some (some x) := by
  by_cases hlen : r.length = 0
  · rw [if_pos hlen, List.getElem?_replicate] at hx
    split at hx <;> cases hx
  · rw [if_neg hlen] at hx
    exact hx

theorem sized_of_lazy (cell : Cell) (hsized : cell.CacheSized) :
    ((if cell._entityIndices.length = 0 then
        List.replicate cell._cellTopo.getDimension [] else cell._entityIndices).length = 0 ∨
      (if cell._entityIndices.length = 0 then
        List.replicate cell._cellTopo.getDimension [] else cell._entityIndices).length
          = cell._cellTopo.getDimension) ∧
    ∀ (d : Nat) (r : List (Option (Option IndexType))),
      (if cell._entityIndices.length = 0 then
        List.replicate cell._cellTopo.getDimension [] else cell._entityIndices)[d]? = some r →
      r.length = 0 ∨ r.length = cell._cellTopo.getSubcellCount d := by
  by_cases hlen : cell._entityIndices.length = 0
  · rw [if_pos hlen]
    refine ⟨Or.inr (List.length_replicate _ _), ?_⟩
    intro d r hr
    have hnil : r = [] := (List.mem_replicate.1 (List.getElem?_mem hr)).2
    rw [hnil]
    exact Or.inl rfl
  · rw [if_neg hlen]
    exact hsized

/-- The cache with one row replaced by a row of full length, whose slots hold
what the old row held or an index that the lookup finds, is sized and right. -/
theorem cache_row_replaced (mt : MeshTopology) (cell : Cell) (d : Nat)
    (row0 newrow : List (Option (Option IndexType)))
    (hsized : cell.CacheSized)
    (hright : ∀ (d' ord' : Nat) (x : Option IndexType), cell.cached d' ord' x →
      ∃ j, x = some j ∧ Cell.lookupEntityIndex mt cell d' ord' = Except.ok (some j))
    (hrow0 : (if cell._entityIndices.length = 0 then
      List.replicate cell._cellTopo.getDimension [] else cell._entityIndices)[d]? = some row0)
    (hlen : newrow.length = cell._cellTopo.getSubcellCount d)
    (hslots : ∀ (ord' : Nat) (x : Option IndexType), newrow[ord']? = some (some x) →
      row0[ord']? = some (some x) ∨
        ∃ j, x = some j ∧ Cell.lookupEntityIndex mt cell d ord' = Except.ok (some j)) :
    Cell.CacheSized { cell with
      _entityIndices := modifyAt (if cell._entityIndices.length = 0 then
        List.replicate cell._cellTopo.getDimension [] else cell._entityIndices) d
          (fun _ => newrow) } ∧
    ∀ (d' ord' : Nat) (x : Option IndexType),
      Cell.cached { cell with
        _entityIndices := modifyAt (if cell._entityIndices.length = 0 then
          List.replicate cell._cellTopo.getDimension [] else cell._entityIndices) d
            (fun _ => newrow) } d' ord' x →
      ∃ j, x = some j ∧ Cell.lookupEntityIndex mt cell d' ord' = Except.ok (some j) := by
  obtain ⟨hs1, hs2⟩ := sized_of_lazy cell hsized
  constructor
  · constructor
    · show (modifyAt _ d _).length = 0 ∨ (modifyAt _ d _).length = cell._cellTopo.getDimension
      rw [length_modifyAt]
      exact hs1
    · intro d' r hr
      have hr' : (modifyAt (if cell._entityIndices.length = 0 then
          List.replicate cell._cellTopo.getDimension [] else cell._entityIndices) d
            (fun _ => newrow))[d']? = some r := hr
      rw [getElem?_modifyAt] at hr'
      by_cases hd : d' = d
      · rw [if_pos hd, hd, hrow0] at hr'
        cases hr'
        rw [hd]
        exact Or.inr hlen
      · rw [if_neg hd] at hr'
        exact hs2 d' r hr'
  · rintro d' ord' x ⟨r, hr, hx⟩
    have hr' : (modifyAt (if cell._entityIndices.length = 0 then
        List.replicate cell._cellTopo.getDimension [] else cell._entityIndices) d
          (fun _ => newrow))[d']? = some r := hr
    rw [getElem?_modifyAt] at hr'
    by_cases hd : d' = d
    · rw [if_pos hd, hd, hrow0] at hr'
      cases hr'
      rw [hd]
      rcases hslots ord' x hx with hold | hnew
      · exact hright d ord' x (cached_of_lazy cell d ord' x row0 hrow0 hold)
      · exact hnew
    · rw [if_neg hd] at hr'
      exact hright d' ord' x (cached_of_lazy cell d' ord' x r hr' hx)

theorem length_lazy_row (cell : Cell) (hsized : cell.CacheSized) (d : Nat)
    (row0 : List (Option (Option IndexType)))
    (hrow0 : (if cell._entityIndices.length = 0 then
      List.replicate cell._cellTopo.getDimension [] else cell._entityIndices)[d]? = some row0) :
    (if row0.length = 0 then List.replicate (cell._cellTopo.getSubcellCount d) none
      else row0).length = cell._cellTopo.getSubcellCount d := by
  by_cases hlen : row0.length = 0
  · rw [if_pos hlen]
    exact List.length_replicate _ _
  · rw [if_neg hlen]
    rcases (sized_of_lazy cell hsized).2 d row0 hrow0 with h | h
    · exact absurd h hlen
    · exact h

/-- A successful `Cell::entityIndex` that returns an index leaves the cache
sized and right. -/
theorem entityIndex_cacheRight (mt : MeshTopology) (cell cell' : Cell) (d ord : Nat)
    (i : IndexType) (h : Cell.entityIndex mt cell d ord = Except.ok (some i, cell'))
    (hsized : cell.CacheSized)
    (hright : ∀ (d' ord' : Nat) (x : Option IndexType), cell.cached d' ord' x →
      ∃ j, x = some j ∧ Cell.lookupEntityIndex mt cell d' ord' = Except.ok (some j)) :
    cell'._cellTopo = cell._cellTopo ∧ cell'._vertices = cell._vertices ∧ cell'.CacheSized ∧
      ∀ (d' ord' : Nat) (x : Option IndexType), cell'.cached d' ord' x →
        ∃ j, x = some j ∧ Cell.lookupEntityIndex mt cell d' ord' = Except.ok (some j) := by
  unfold Cell.entityIndex at h
  dsimp only at h
  split at h
  · cases h
    exact ⟨rfl, rfl, hsized, hright⟩
  · split at h
    · cases h
    · rename_i row0 hrow0
      have hlen := length_lazy_row cell hsized d row0 hrow0
      split at h
      · cases h
      · rename_i cached hcached
        cases h
        obtain ⟨h1, h2⟩ := cache_row_replaced mt cell d row0 _ hsized hright hrow0 hlen
          (fun ord' x hx => Or.inl (slot_of_lazy _ ord' x row0 hx))
        exact ⟨rfl, rfl, h1, h2⟩
      · rename_i hnone
        split at h
        · cases h
        · rename_i nodes hnodes
          split at h
          · cases h
          · rename_i found hfound
            cases h
            obtain ⟨h1, h2⟩ := cache_row_replaced mt cell d row0
              (modifyAt (if row0.length = 0 then
                List.replicate (cell._cellTopo.getSubcellCount d) none else row0) ord
                (fun _ => some (some i))) hsized hright hrow0
              (by rw [length_modifyAt]; exact hlen)
              (fun ord' x hx => by
                rw [getElem?_modifyAt] at hx
                by_cases ho : ord' = ord
                · rw [if_pos ho, ho, hnone] at hx
                  cases hx
                  refine Or.inr ⟨i, rfl, ?_⟩
                  rw [ho]
                  unfold Cell.lookupEntityIndex
                  rw [hnodes]
                  exact hfound
                · rw [if_neg ho] at hx
                  exact Or.inl (slot_of_lazy _ ord' x row0 hx))
            exact ⟨rfl, rfl, h1, h2⟩

theorem lookupEntityIndex_congr (mt mt' : MeshTopology) (c c' : Cell)
    (h1 : mt'._periodicBCs = mt._periodicBCs) (h2 : mt'._knownEntities = mt._knownEntities)
    (h0 : mt._periodicBCs.length = 0)
    (h3 : c'._cellTopo = c._cellTopo) (h4 : c'._vertices = c._vertices) (d ord : Nat)
    (i : IndexType) (h : Cell.lookupEntityIndex mt c d ord = Except.ok (some i)) :
    Cell.lookupEntityIndex mt' c' d ord = Except.ok (some i) := by
  unfold Cell.lookupEntityIndex at h ⊢
  rw [h3, h4]
  cases hn : Cell.subcellNodes c._cellTopo c._vertices d ord with
  | error err =>
    rw [hn] at h
    cases h
  | ok nodes =>
    rw [hn] at h
    exact getEntityIndex_grows mt mt' (knownGrows_of_eq h1 h2) h0 d _ i h

theorem cellEntityIndex_cacheStep (mt mt' : MeshTopology)
    (cellIndex : IndexType) (d ord : Nat) (i : IndexType)
    (h : cellEntityIndex mt cellIndex d ord = Except.ok (some i, mt')) : CacheStep mt mt' := by
  obtain ⟨cell, cell', hcell, hidx, hmt'⟩ := cellEntityIndex_inv mt mt' cellIndex d ord _ h
  intro hs
  have h0' : mt'._periodicBCs = mt._periodicBCs := by rw [hmt']
  have hk' : mt'._knownEntities = mt._knownEntities := by rw [hmt']
  refine ⟨by rw [h0']; exact hs.1, ?_⟩
  intro k c hc
  have hc' : mapFind (mapSet mt._cells cellIndex cell') k = some c := by
    rw [hmt'] at hc
    exact hc
  rw [mapFind_mapSet] at hc'
  by_cases hk : cellIndex = k
  · rw [if_pos hk] at hc'
    cases hc'
    obtain ⟨hsized, hright⟩ := hs.2 cellIndex cell hcell
    obtain ⟨e1, e2, e3, e4⟩ := entityIndex_cacheRight mt cell cell' d ord i hidx hsized hright
    refine ⟨e3, ?_⟩
    intro d' ord' x hx
    obtain ⟨j, hj, hlook⟩ := e4 d' ord' x hx
    exact ⟨j, hj, lookupEntityIndex_congr mt mt' cell cell' h0' hk' hs.1 e1 e2 d' ord' j hlook⟩
  · rw [if_neg hk] at hc'
    obtain ⟨hsized, hright⟩ := hs.2 k c hc'
    refine ⟨hsized, ?_⟩
    intro d' ord' x hx
    obtain ⟨j, hj, hlook⟩ := hright d' ord' x hx
    exact ⟨j, hj, lookupEntityIndex_congr mt mt' c c h0' hk' hs.1 rfl rfl d' ord' j hlook⟩


theorem addNewEntity_cacheStep (mt : MeshTopology) (topo : CellTopology)
    (vs sv : List IndexType) : CacheStep mt (addNewEntity mt topo vs sv) :=
  cacheStep_of_known _ _ (knownGrows_mapInsert _ _ topo.getDimension sv _ rfl rfl) rfl

theorem addEntity_cacheStep (tools : CellTools) (mt mt' : MeshTopology)
    (topo : CellTopology) (vs : List IndexType) (i : IndexType) (p : Nat)
    (h : addEntity tools mt topo vs = Except.ok (mt', i, p)) : CacheStep mt mt' := by
  rcases (addEntity_ok_cases tools mt mt' topo vs i p h).2 with ⟨_, h1, _⟩ | ⟨_, h1⟩
  · rw [h1]
    exact addNewEntity_cacheStep mt topo vs _
  · rw [h1]
    exact cacheStep_refl mt

theorem pushActiveCell_cacheStep (mt : MeshTopology) (d : Nat)
    (x : IndexType) (entry : IndexType × Nat) : CacheStep mt (pushActiveCell mt d x entry) :=
  cacheStep_of_eq rfl rfl rfl

theorem addCellEntity_cacheStep (tools : CellTools) (cellIndex : IndexType)
    (cellTopo : CellTopology) (cellVertices : List IndexType) (d : Nat)
    (st st' : MeshTopology × List (List Nat)) (j : Nat)
    (h : addCellEntity tools cellIndex cellTopo cellVertices d st j = Except.ok st') :
    CacheStep st.1 st'.1 := by
  unfold addCellEntity at h
  split at h
  · cases h
  · cases h
  · split at h
    · cases h
    · rename_i mt1 ei ep hadd
      have h1 := addEntity_cacheStep _ _ _ _ _ _ _ hadd
      simp only [pure, Except.pure, Except.ok.injEq] at h
      subst h
      refine cacheStep_trans h1 (cacheStep_trans (pushActiveCell_cacheStep mt1 d ei (cellIndex, j)) ?_)
      dsimp only
      split
      · exact foldl_cacheStep _ _ (fun s a => pushActiveCell_cacheStep s d a _) _
      · exact cacheStep_refl _

theorem addCellEntitiesOfDim_cacheStep (tools : CellTools)
    (cellIndex : IndexType) (cellTopo : CellTopology) (cellVertices : List IndexType)
    (st st' : MeshTopology × List (List Nat)) (d : Nat)
    (h : addCellEntitiesOfDim tools cellIndex cellTopo cellVertices st d = Except.ok st') :
    CacheStep st.1 st'.1 := by
  unfold addCellEntitiesOfDim at h
  exact foldExcept_rel (fun a b => CacheStep a.1 b.1) (fun s => cacheStep_refl s.1)
    (fun _ _ _ => cacheStep_trans) _ _
    (fun s a s' _ hs => addCellEntity_cacheStep tools cellIndex cellTopo cellVertices d s s' a hs)
    _ _ h

theorem addCellForSide_cacheStep (mt mt' : MeshTopology)
    (cellIndex : IndexType) (sideOrdinal : Nat) (side : Option IndexType)
    (h : addCellForSide mt cellIndex sideOrdinal side = Except.ok mt') : CacheStep mt mt' := by
  unfold addCellForSide at h
  split at h
  · cases h
  · split at h
    · cases h
      exact cacheStep_of_eq rfl rfl rfl
    · split at h
      · cases h
      · cases h
      · split at h
        · cases h
        · split at h
          · cases h
            exact cacheStep_of_eq rfl rfl rfl
          · split at h
            · cases h
              exact cacheStep_of_eq rfl rfl rfl
            · cases h

theorem claimSide_cacheStep (cellIndex : IndexType) (mt mt' : MeshTopology)
    (sideOrdinal : Nat) (h : claimSide cellIndex mt sideOrdinal = Except.ok mt') :
    CacheStep mt mt' := by
  unfold claimSide cellSideEntityIndex at h
  split at h
  · cases h
  · rename_i side mt1 h1
    cases side with
    | none =>
      unfold addCellForSide at h
      cases h
    | some sideEntityIndex =>
      exact cacheStep_trans (cellEntityIndex_cacheStep _ _ _ _ _ _ h1)
        (addCellForSide_cacheStep _ _ _ _ _ h)

theorem setNeighbor_cacheStep (mt mt' : MeshTopology) (cellIndex : IndexType)
    (sideOrdinal : Nat) (n : IndexType) (ns : Nat) (allow : Bool)
    (h : setNeighbor mt cellIndex sideOrdinal n ns allow = Except.ok mt') : CacheStep mt mt' := by
  unfold setNeighbor at h
  split at h
  · cases h
  · rename_i cell hcell
    split at h
    · cases h
    · split at h
      · cases h
      · cases h
        exact cacheStep_mapSet _ _ cellIndex cell _ (mapFind_of_getCell _ _ _ hcell) rfl rfl rfl
          ⟨rfl, rfl, rfl⟩

theorem setDescendantNeighbors_cacheStep (fuel : Nat) (mt mt' : MeshTopology)
    (claimant other : IndexType × Nat)
    (h : setDescendantNeighbors fuel mt claimant other = Except.ok mt') : CacheStep mt mt' := by
  unfold setDescendantNeighbors at h
  split at h
  · cases h
  · split at h
    · split at h
      · cases h
      · exact foldExcept_cacheStep _ _ (fun s a s' hs => setNeighbor_cacheStep _ _ _ _ _ _ _ hs) _ _ h
    · cases h
      exact cacheStep_refl _

theorem linkCompatibleNeighbors_cacheStep (fuel : Nat) (mt mt' : MeshTopology)
    (side : IndexType) (h : linkCompatibleNeighbors fuel mt side = Except.ok mt') :
    CacheStep mt mt' := by
  unfold linkCompatibleNeighbors at h
  split at h
  · dsimp only at h
    split at h
    · cases h
    · cases h
    · split at h
      · cases h
      · rename_i mt1 h1
        split at h
        · cases h
        · rename_i mt2 h2
          split at h
          · cases h
          · rename_i mt3 h3
            have f3 : CacheStep mt2 mt3 := by
              split at h3
              · split at h3
                · split at h3
                  · cases h3
                  · cases h3
                    exact cacheStep_of_eq rfl rfl rfl
                · cases h3
                  exact cacheStep_of_eq rfl rfl rfl
              · cases h3
                exact cacheStep_refl _
            split at h
            · cases h
            · rename_i mt4 h4
              exact cacheStep_trans (setNeighbor_cacheStep _ _ _ _ _ _ _ h1)
                (cacheStep_trans (setNeighbor_cacheStep _ _ _ _ _ _ _ h2)
                  (cacheStep_trans f3
                    (cacheStep_trans (setDescendantNeighbors_cacheStep _ _ _ _ _ h4)
                      (setDescendantNeighbors_cacheStep _ _ _ _ _ h))))
  · cases h

theorem linkSingleClaimant_cacheStep (fuel : Nat) (mt mt' : MeshTopology)
    (cellIndex : IndexType) (parent : Option IndexType) (sideOrdinal : Nat) (side : IndexType)
    (h : linkSingleClaimant fuel mt cellIndex parent sideOrdinal side = Except.ok mt') :
    CacheStep mt mt' := by
  unfold linkSingleClaimant at h
  split at h
  · cases h
    exact cacheStep_of_eq rfl rfl rfl
  · split at h
    · cases h
    · split at h
      · cases h
        exact cacheStep_refl _
      · split at h
        · cases h
        · exact setNeighbor_cacheStep _ _ _ _ _ _ _ h
        · cases h

theorem addSideForEntity_cacheStep (mt : MeshTopology) (d : Nat)
    (x side : IndexType) : CacheStep mt (addSideForEntity mt d x side) :=
  cacheStep_of_eq rfl rfl rfl

theorem addSideForSubEntity_cacheStep (d : Nat) (side : IndexType)
    (mt : MeshTopology) (x : IndexType) : CacheStep mt (addSideForSubEntity d side mt x) := by
  unfold addSideForSubEntity
  split
  · exact cacheStep_trans (addSideForEntity_cacheStep _ _ _ _)
      (foldl_cacheStep _ _ (fun s3 y => addSideForEntity_cacheStep _ _ _ _) _)
  · exact addSideForEntity_cacheStep _ _ _ _

theorem addSidesForSubEntitiesOfDim_cacheStep (tools : CellTools)
    (side : IndexType) (mt mt' : MeshTopology) (d : Nat)
    (h : addSidesForSubEntitiesOfDim tools side mt d = Except.ok mt') : CacheStep mt mt' := by
  unfold addSidesForSubEntitiesOfDim at h
  split at h
  · cases h
  · cases h
    exact foldl_cacheStep _ _ (fun s x => addSideForSubEntity_cacheStep d side s x) _

theorem addSidesForSubEntities_cacheStep (tools : CellTools)
    (mt mt' : MeshTopology) (side : IndexType)
    (h : addSidesForSubEntities tools mt side = Except.ok mt') : CacheStep mt mt' := by
  unfold addSidesForSubEntities at h
  split at h
  · cases h
  · rename_i mt1 h1
    cases h
    exact cacheStep_trans
      (foldExcept_cacheStep _ _ (fun s d s' hs => addSidesForSubEntitiesOfDim_cacheStep tools side s s' d hs)
        _ _ h1)
      (addSideForEntity_cacheStep _ _ _ _)

theorem linkSide_cacheStep (tools : CellTools) (fuel : Nat)
    (cellIndex : IndexType) (parent : Option IndexType) (mt mt' : MeshTopology)
    (sideOrdinal : Nat)
    (h : linkSide tools fuel cellIndex parent mt sideOrdinal = Except.ok mt') :
    CacheStep mt mt' := by
  unfold linkSide cellSideEntityIndex at h
  split at h
  · cases h
  · cases h
  · rename_i side mt1 h1
    dsimp only at h
    split at h
    · cases h
    · rename_i mt2 h2
      have f2 : CacheStep mt1 mt2 := by
        split at h2
        · exact linkCompatibleNeighbors_cacheStep _ _ _ _ h2
        · split at h2
          · exact linkSingleClaimant_cacheStep _ _ _ _ _ _ _ h2
          · cases h2
            exact cacheStep_refl _
      exact cacheStep_trans (cellEntityIndex_cacheStep _ _ _ _ _ _ h1)
        (cacheStep_trans f2 (addSidesForSubEntities_cacheStep _ _ _ _ h))

theorem recordPeriodicMatch_cacheStep (vertex : Point) (vertexIndex : IndexType)
    (st : MeshTopology × Bool) (bc : Nat × PeriodicBC × Nat) :
    CacheStep st.1 (recordPeriodicMatch vertex vertexIndex st bc).1 := by
  unfold recordPeriodicMatch
  dsimp only
  split
  · exact cacheStep_refl _
  · exact cacheStep_of_eq rfl rfl rfl

theorem getVertexIndexAdding_cacheStep (mt : MeshTopology) (vertex : Point) :
    CacheStep mt (getVertexIndexAdding mt vertex).1 := by
  unfold getVertexIndexAdding
  split
  · exact cacheStep_refl _
  · dsimp only
    have hloop : ∀ (l : List (Nat × PeriodicBC × Nat)) (s : MeshTopology) (b : Bool),
        CacheStep s (l.foldl (recordPeriodicMatch vertex mt._vertices.length) (s, b)).1 :=
      fun l s b => foldl_rel (fun (x y : MeshTopology × Bool) => CacheStep x.1 y.1)
        (fun s => cacheStep_refl s.1) (fun _ _ _ => cacheStep_trans) _ l
        (fun s a => recordPeriodicMatch_cacheStep vertex _ s a) (s, b)
    split
    · refine cacheStep_trans ?_ (hloop _ _ _)
      exact cacheStep_of_eq rfl rfl rfl
    · refine cacheStep_trans (cacheStep_trans ?_ (hloop _ _ _))
        (cacheStep_of_known _ _ (knownGrows_vertex _ _ _ rfl rfl) rfl)
      exact cacheStep_of_eq rfl rfl rfl

theorem getVertexIndices_cacheStep (mt : MeshTopology) (vertices : List Point) :
    CacheStep mt (getVertexIndices mt vertices).1 := by
  unfold getVertexIndices
  exact foldl_rel (fun (a b : MeshTopology × List IndexType) => CacheStep a.1 b.1)
    (fun s => cacheStep_refl s.1) (fun _ _ _ => cacheStep_trans) _ vertices
    (fun s a => getVertexIndexAdding_cacheStep s.1 a) (mt, [])

theorem addChildEntity_cacheStep (tools : CellTools) (d : Nat)
    (parentIndex : IndexType) (childTopo : CellTopology)
    (st st' : MeshTopology × List (Option IndexType)) (physicalNodes : List Point)
    (h : addChildEntity tools d parentIndex childTopo st physicalNodes = Except.ok st') :
    CacheStep st.1 st'.1 := by
  unfold addChildEntity at h
  dsimp only at h
  split at h
  · cases h
  · rename_i mt1 child p hadd
    have h1 := addEntity_cacheStep _ _ _ _ _ _ _ hadd
    simp only [pure, Except.pure, Except.ok.injEq] at h
    subst h
    refine cacheStep_trans (getVertexIndices_cacheStep st.1 physicalNodes) (cacheStep_trans h1 ?_)
    dsimp only
    split
    · exact cacheStep_of_eq rfl rfl rfl
    · exact cacheStep_refl _

theorem refineCellEntity_cacheStep (tools : CellTools) (cellIndex : IndexType)
    (cellTopo : CellTopology) (nodesOfCell : List Point) (refPattern : RefinementPattern)
    (d : Nat) (mt mt' : MeshTopology) (subcord : Nat)
    (h : refineCellEntity tools cellIndex cellTopo nodesOfCell refPattern d mt subcord
      = Except.ok mt') : CacheStep mt mt' := by
  unfold refineCellEntity at h
  split at h
  · cases h
  · dsimp only at h
    split at h
    · cases h
      exact cacheStep_refl _
    · split at h
      · cases h
      · cases h
      · rename_i parentIndex mt1 h1
        have f1 := cellEntityIndex_cacheStep _ _ _ _ _ _ h1
        split at h
        · cases h
        · cases h
          exact f1
        · split at h
          · cases h
          · split at h
            · cases h
            · split at h
              · cases h
              · rename_i mt2 childEntityIndices h2
                have f2 : CacheStep mt1 mt2 :=
                  foldExcept_rel (fun (a b : MeshTopology × List (Option IndexType)) =>
                      CacheStep a.1 b.1)
                    (fun s => cacheStep_refl s.1) (fun _ _ _ => cacheStep_trans) _ _
                    (fun s a s' _ hs => addChildEntity_cacheStep tools d parentIndex _ s s' a hs)
                    _ _ h2
                split at h
                · cases h
                  exact cacheStep_trans f1 (cacheStep_trans f2 (cacheStep_of_eq rfl rfl rfl))
                · cases h
                  exact cacheStep_trans f1 (cacheStep_trans f2 (cacheStep_of_eq rfl rfl rfl))

theorem refineCellEntitiesOfDim_cacheStep (tools : CellTools)
    (cellIndex : IndexType) (cellTopo : CellTopology) (nodesOfCell : List Point)
    (refPattern : RefinementPattern) (mt mt' : MeshTopology) (d : Nat)
    (h : refineCellEntitiesOfDim tools cellIndex cellTopo nodesOfCell refPattern mt d
      = Except.ok mt') : CacheStep mt mt' := by
  unfold refineCellEntitiesOfDim at h
  exact foldExcept_cacheStep _ _
    (fun s a s' hs => refineCellEntity_cacheStep tools cellIndex cellTopo nodesOfCell refPattern d
      s s' a hs) _ _ h

theorem refineCellEntities_cacheStep (tools : CellTools)
    (mt mt' : MeshTopology) (cellIndex : IndexType) (refPattern : RefinementPattern)
    (h : refineCellEntities tools mt cellIndex refPattern = Except.ok mt') : CacheStep mt mt' := by
  unfold refineCellEntities at h
  split at h
  · cases h
  · split at h
    · cases h
    · exact foldExcept_cacheStep _ _
        (fun s a s' hs => refineCellEntitiesOfDim_cacheStep tools cellIndex _ _ refPattern s s' a hs)
        _ _ h

theorem setEntityGeneralizedParent_cacheStep (mt mt' : MeshTopology)
    (entityDim : Nat) (entityIndex : IndexType) (parentDim : Nat) (parentEntityIndex : IndexType)
    (h : setEntityGeneralizedParent mt entityDim entityIndex parentDim parentEntityIndex
      = Except.ok mt') : CacheStep mt mt' := by
  unfold setEntityGeneralizedParent at h
  split at h
  · cases h
  · dsimp only at h
    split at h
    · cases h
      refine cacheStep_trans ?_ (foldl_cacheStep _ _ ?_ _)
      · exact cacheStep_of_eq rfl rfl rfl
      · intro s a
        exact cacheStep_of_eq rfl rfl rfl
    · cases h
      exact cacheStep_of_eq rfl rfl rfl

theorem setSubEntityGeneralizedParent_cacheStep (tools : CellTools) (d : Nat)
    (parentIndex : IndexType) (parentVertexIndices : List IndexType) (child : IndexType)
    (subcdim : Nat) (mt mt' : MeshTopology) (subcord : Nat)
    (h : setSubEntityGeneralizedParent tools d parentIndex parentVertexIndices child subcdim mt
      subcord = Except.ok mt') : CacheStep mt mt' := by
  unfold setSubEntityGeneralizedParent at h
  split at h
  · cases h
  · split at h
    · cases h
      exact cacheStep_refl _
    · split at h
      · split at h
        · cases h
          exact cacheStep_refl _
        · exact setEntityGeneralizedParent_cacheStep _ _ _ _ _ _ h
      · exact setEntityGeneralizedParent_cacheStep _ _ _ _ _ _ h

theorem setSubEntityGeneralizedParentsOfDim_cacheStep (tools : CellTools)
    (d : Nat) (parentIndex : IndexType) (parentVertexIndices : List IndexType)
    (child : IndexType) (mt mt' : MeshTopology) (subcdim : Nat)
    (h : setSubEntityGeneralizedParentsOfDim tools d parentIndex parentVertexIndices child mt
      subcdim = Except.ok mt') : CacheStep mt mt' := by
  unfold setSubEntityGeneralizedParentsOfDim at h
  split at h
  · cases h
  · exact foldExcept_cacheStep _ _
      (fun s a s' hs => setSubEntityGeneralizedParent_cacheStep tools d parentIndex
        parentVertexIndices child subcdim s s' a hs) _ _ h

theorem setChildGeneralizedParents_cacheStep (tools : CellTools) (d : Nat)
    (parentIndex : IndexType) (parentVertexIndices : List IndexType) (mt mt' : MeshTopology)
    (childEntityIndex : Option IndexType)
    (h : setChildGeneralizedParents tools d parentIndex parentVertexIndices mt childEntityIndex
      = Except.ok mt') : CacheStep mt mt' := by
  unfold setChildGeneralizedParents at h
  split at h
  · cases h
  · rename_i child
    split at h
    · cases h
      exact cacheStep_refl _
    · split at h
      · cases h
      · rename_i mt1 h1
        exact cacheStep_trans (setEntityGeneralizedParent_cacheStep _ _ _ _ _ _ h1)
          (foldExcept_cacheStep _ _
            (fun s a s' hs => setSubEntityGeneralizedParentsOfDim_cacheStep tools d parentIndex
              parentVertexIndices child s s' a hs) _ _ h)

theorem determineGeneralizedParentsForSubcell_cacheStep (tools : CellTools)
    (cellIndex : IndexType) (refPattern : RefinementPattern) (d : Nat) (mt mt' : MeshTopology)
    (subcord : Nat)
    (h : determineGeneralizedParentsForSubcell tools cellIndex refPattern d mt subcord
      = Except.ok mt') : CacheStep mt mt' := by
  unfold determineGeneralizedParentsForSubcell at h
  split at h
  · cases h
  · split at h
    · cases h
      exact cacheStep_refl _
    · split at h
      · cases h
      · cases h
      · rename_i parentIndex mt1 h1
        split at h
        · cases h
        · rename_i parentVertexIndices _
          exact cacheStep_trans (cellEntityIndex_cacheStep _ _ _ _ _ _ h1)
            (foldExcept_cacheStep _ _
              (fun s a s' hs => setChildGeneralizedParents_cacheStep tools d parentIndex
                parentVertexIndices s s' a hs) _ _ h)

theorem determineGeneralizedParentsOfDim_cacheStep (tools : CellTools)
    (cellIndex : IndexType) (cellTopo : CellTopology) (refPattern : RefinementPattern)
    (mt mt' : MeshTopology) (d : Nat)
    (h : determineGeneralizedParentsOfDim tools cellIndex cellTopo refPattern mt d
      = Except.ok mt') : CacheStep mt mt' := by
  unfold determineGeneralizedParentsOfDim at h
  exact foldExcept_cacheStep _ _
    (fun s a s' hs => determineGeneralizedParentsForSubcell_cacheStep tools cellIndex refPattern d
      s s' a hs) _ _ h

theorem determineGeneralizedParentsForRefinement_cacheStep (tools : CellTools)
    (mt mt' : MeshTopology) (cellIndex : IndexType) (refPattern : RefinementPattern)
    (h : determineGeneralizedParentsForRefinement tools mt cellIndex refPattern = Except.ok mt') :
    CacheStep mt mt' := by
  unfold determineGeneralizedParentsForRefinement at h
  split at h
  · cases h
  · split at h
    · cases h
    · exact foldExcept_cacheStep _ _
        (fun s a s' hs => determineGeneralizedParentsOfDim_cacheStep tools cellIndex _ refPattern
          s s' a hs) _ _ h

theorem eraseActiveCellEntries_cacheStep (mt : MeshTopology) (d : Nat)
    (x : IndexType) (entry : IndexType × Nat) (stop : Nat) :
    CacheStep mt (eraseActiveCellEntries mt d x entry stop) := by
  unfold eraseActiveCellEntries
  split
  · exact cacheStep_refl _
  · exact cacheStep_of_eq rfl rfl rfl

theorem deactivateCellEntity_cacheStep (cell : Cell) (d : Nat)
    (mt mt' : MeshTopology) (j : Nat)
    (h : deactivateCellEntity cell d mt j = Except.ok mt') : CacheStep mt mt' := by
  unfold deactivateCellEntity at h
  split at h
  · cases h
  · split at h
    · cases h
    · cases h
    · dsimp only at h
      split at h
      · cases h
        refine cacheStep_trans ?_
          (foldl_cacheStep _ _ (fun s a => eraseActiveCellEntries_cacheStep s _ a _ _) _)
        exact eraseActiveCellEntries_cacheStep _ _ _ _ _
      · cases h
        exact eraseActiveCellEntries_cacheStep _ _ _ _ _

theorem deactivateCellEntitiesOfDim_cacheStep (cell : Cell)
    (mt mt' : MeshTopology) (d : Nat)
    (h : deactivateCellEntitiesOfDim cell mt d = Except.ok mt') : CacheStep mt mt' := by
  unfold deactivateCellEntitiesOfDim at h
  exact foldExcept_cacheStep _ _
    (fun s a s' hs => deactivateCellEntity_cacheStep cell d s s' a hs) _ _ h

theorem setParent_cacheStep (mt mt' : MeshTopology) (cellIndex : IndexType)
    (parent : Option IndexType) (h : setParent mt cellIndex parent = Except.ok mt') :
    CacheStep mt mt' := by
  unfold setParent at h
  split at h
  · cases h
  · rename_i cell hcell
    split at h
    · cases h
      exact cacheStep_mapSet _ _ cellIndex cell _ (mapFind_of_getCell _ _ _ hcell) rfl rfl rfl
          ⟨rfl, rfl, rfl⟩
    · split at h
      · cases h
      · cases h
        exact cacheStep_mapSet _ _ cellIndex cell _ (mapFind_of_getCell _ _ _ hcell) rfl rfl rfl
          ⟨rfl, rfl, rfl⟩


theorem countNewCell_cacheStep (mt mt1 : MeshTopology) (cellIndex : IndexType)
    (h : countNewCell mt cellIndex = Except.ok mt1) : CacheStep mt mt1 := by
  unfold countNewCell at h
  split at h
  · cases h
  · split at h
    · cases h
      exact cacheStep_refl _
    · split at h
      · cases h
        exact cacheStep_of_eq rfl rfl rfl
      · cases h

theorem insertCell_cacheStep (mt : MeshTopology) (cellIndex : IndexType)
    (cellTopo : CellTopology) (cellVertices : List IndexType) (perms : List (List Nat)) :
    CacheStep mt (insertCell mt cellIndex cellTopo cellVertices perms) := by
  refine cacheStep_of_grows _ _ (knownGrows_of_eq rfl rfl) ?_
  intro k c' hc'
  have hc : mapFind (mapSet mt._cells cellIndex
      (newCell cellTopo cellVertices perms cellIndex)) k = some c' := hc'
  rw [mapFind_mapSet] at hc
  by_cases hk : cellIndex = k
  · rw [if_pos hk] at hc
    cases hc
    exact Or.inl rfl
  · rw [if_neg hk] at hc
    exact Or.inr ⟨c', hc, rfl, rfl, rfl⟩

/-- A successful `addCell` keeps the caches sound. -/
theorem addCell_cacheStep (tools : CellTools) (fuel : Nat) (mt mt' : MeshTopology)
    (cellIndex : IndexType) (cellTopo : CellTopology) (cellVertices : List IndexType)
    (parent : Option IndexType)
    (h : addCell tools fuel mt cellIndex cellTopo cellVertices parent = Except.ok mt') :
    CacheStep mt mt' := by
  unfold addCell at h
  split at h
  · cases h
  · rename_i mt1 h1
    have f1 := countNewCell_cacheStep _ _ _ h1
    split at h
    · cases h
    · rename_i mt2 perms h2
      have f2 : CacheStep mt1 mt2 :=
        foldExcept_rel (fun (a b : MeshTopology × List (List Nat)) => CacheStep a.1 b.1)
          (fun s => cacheStep_refl s.1) (fun _ _ _ => cacheStep_trans) _ _
          (fun s a s' _ hs => addCellEntitiesOfDim_cacheStep tools cellIndex cellTopo
            cellVertices s s' a hs) _ _ h2
      have f3 := insertCell_cacheStep mt2 cellIndex cellTopo cellVertices perms
      dsimp only at h
      split at h
      · cases h
      · rename_i mt4 h4
        have f4 : CacheStep (insertCell mt2 cellIndex cellTopo cellVertices perms) mt4 := by
          split at h4
          · cases h4
            exact cacheStep_refl _
          · split at h4
            · cases h4
            · exact setParent_cacheStep _ _ _ _ h4
        split at h
        · cases h
        · rename_i mt5 h5
          have f5 : CacheStep mt4 mt5 :=
            foldExcept_cacheStep _ _ (fun s a s' hs => claimSide_cacheStep cellIndex s s' a hs)
              _ _ h5
          have f6 : CacheStep mt5 mt' :=
            foldExcept_cacheStep _ _
              (fun s a s' hs => linkSide_cacheStep tools fuel cellIndex parent s s' a hs) _ _ h
          exact cacheStep_trans f1 (cacheStep_trans f2 (cacheStep_trans f3
            (cacheStep_trans f4 (cacheStep_trans f5 f6))))

theorem deactivateCell_cacheStep (mt mt' : MeshTopology) (cell : Cell)
    (h : deactivateCell mt cell = Except.ok mt') : CacheStep mt mt' := by
  unfold deactivateCell at h
  split at h
  · cases h
  · rename_i mt1 h1
    cases h
    exact cacheStep_trans
      (foldExcept_cacheStep _ _
        (fun s a s' hs => deactivateCellEntitiesOfDim_cacheStep cell s s' a hs) _ _ h1)
      (cacheStep_of_eq rfl rfl rfl)

theorem addChild_cacheStep (tools : CellTools) (fuel : Nat) (p : IndexType)
    (s s' : MeshTopology) (child : IndexType × CellTopology × List IndexType)
    (h : addChild tools fuel p s child = Except.ok s') : CacheStep s s' := by
  unfold addChild at h
  split at h
  · split at h
    · cases h
    · rename_i mt1 h1
      cases h
      exact cacheStep_trans (addCell_cacheStep _ _ _ _ _ _ _ _ h1) (cacheStep_of_eq rfl rfl rfl)
  · cases h
    exact cacheStep_refl _

theorem linkChild_cacheStep (p : IndexType) (s s' : MeshTopology) (entry : Nat × IndexType)
    (h : linkChild p s entry = Except.ok s') : CacheStep s s' := by
  unfold linkChild at h
  split at h
  · split at h
    · cases h
    · split at h
      · cases h
      · rename_i mt1 h1
        split at h
        · cases h
        · rename_i parentCell hp
          cases h
          exact cacheStep_trans (setParent_cacheStep _ _ _ _ h1)
            (cacheStep_mapSet _ _ p parentCell _ (mapFind_of_getCell _ _ _ hp) rfl rfl rfl
              ⟨rfl, rfl, rfl⟩)
  · cases h
    exact cacheStep_refl _

theorem setChildren_cacheStep (mt mt' : MeshTopology) (p : IndexType)
    (childIndices : List IndexType) (h : setChildren mt p childIndices = Except.ok mt') :
    CacheStep mt mt' := by
  unfold setChildren at h
  split at h
  · cases h
  · rename_i parentCell hp
    have f1 : CacheStep mt { mt with
        _cells := mapSet mt._cells p
          { parentCell with
            _childIndices := childIndices
            _children := resizeTo parentCell._children childIndices.length none } } :=
      cacheStep_mapSet _ _ p parentCell _ (mapFind_of_getCell _ _ _ hp) rfl rfl rfl
        ⟨rfl, rfl, rfl⟩
    exact cacheStep_trans f1
      (foldExcept_cacheStep _ _ (fun s a s' hs => linkChild_cacheStep p s s' a hs) _ _ h)

theorem addChildren_cacheStep (tools : CellTools) (fuel : Nat) (mt mt' : MeshTopology)
    (firstChildIndex parentIndex : IndexType) (childTopos : List CellTopology)
    (childVertices : List (List IndexType))
    (h : addChildren tools fuel mt firstChildIndex parentIndex childTopos childVertices
      = Except.ok mt') : CacheStep mt mt' := by
  unfold addChildren at h
  dsimp only at h
  split at h
  · cases h
  · split at h
    · cases h
    · rename_i parentCell hp
      split at h
      · cases h
      · rename_i mt1 h1
        exact cacheStep_trans
          (foldExcept_cacheStep _ _
            (fun s a s' hs => addChild_cacheStep tools fuel parentCell._cellIndex s s' a hs)
            _ _ h1)
          (setChildren_cacheStep _ _ _ _ h)

theorem countRefinement_cacheStep (mt : MeshTopology) (refPattern : RefinementPattern)
    (firstChildCellIndex : IndexType) :
    CacheStep mt (countRefinement mt refPattern firstChildCellIndex) := by
  unfold countRefinement
  split
  · exact cacheStep_of_eq rfl rfl rfl
  · exact cacheStep_refl _

theorem refineValidCell_cacheStep (tools : CellTools) (fuel : Nat) (mt mt' : MeshTopology)
    (cellIndex : IndexType) (refPattern : RefinementPattern) (firstChildCellIndex : IndexType)
    (h : refineValidCell tools fuel mt cellIndex refPattern firstChildCellIndex
      = Except.ok mt') : CacheStep mt mt' := by
  unfold refineValidCell at h
  split at h
  · cases h
  · rename_i cell hcell
    split at h
    · cases h
    · rename_i nodesOfCell hnodes
      dsimp only at h
      split at h
      · cases h
      · rename_i mt1 h1
        split at h
        · cases h
        · rename_i cell1 hcell1
          split at h
          · cases h
          · rename_i mt3 h3
            split at h
            · cases h
            · rename_i mt4 h4
              have f0 := getVertexIndices_cacheStep mt (refPattern.verticesForRefinement nodesOfCell)
              have f1 := refineCellEntities_cacheStep _ _ _ _ _ h1
              have f2 : CacheStep mt1 { mt1 with
                  _cells := mapSet mt1._cells cellIndex
                    { cell1 with _refPattern := some refPattern } } :=
                cacheStep_mapSet _ _ cellIndex cell1 _ (mapFind_of_derefCell _ _ _ hcell1)
                  rfl rfl rfl ⟨rfl, rfl, rfl⟩
              have f3 : CacheStep { mt1 with
                  _cells := mapSet mt1._cells cellIndex
                    { cell1 with _refPattern := some refPattern } } mt3 := by
                split at h3
                · exact deactivateCell_cacheStep _ _ _ h3
                · cases h3
                  exact cacheStep_refl _
              have f4 := addChildren_cacheStep _ _ _ _ _ _ _ _ h4
              have f5 := determineGeneralizedParentsForRefinement_cacheStep _ _ _ _ _ h
              exact cacheStep_trans f0 (cacheStep_trans f1 (cacheStep_trans f2
                (cacheStep_trans f3 (cacheStep_trans f4 f5))))

/-- A successful `refineCell` keeps the caches sound. -/
theorem refineCell_cacheStep (tools : CellTools) (fuel : Nat) (mt mt' : MeshTopology)
    (cellIndex : IndexType) (refPattern : RefinementPattern) (firstChildCellIndex : IndexType)
    (h : refineCell tools fuel mt cellIndex refPattern firstChildCellIndex = Except.ok mt') :
    CacheStep mt mt' := by
  unfold refineCell at h
  dsimp only at h
  split at h
  · cases h
    exact countRefinement_cacheStep _ _ _
  · exact cacheStep_trans (countRefinement_cacheStep _ _ _)
      (refineValidCell_cacheStep _ _ _ _ _ _ _ h)

/-- A successful `pruneToInclude` keeps the caches sound: the rebuild empties
the cache of every cell that it keeps. -/
theorem pruneToInclude_cacheStep (tools : CellTools) (cellHalo : CellHalo) (fuel : Nat)
    (mt mt' : MeshTopology) (owned : List IndexType) (dim : Nat)
    (h : pruneToInclude tools cellHalo fuel mt owned dim = Except.ok mt') :
    CacheStep mt mt' := by
  rcases (pruneToInclude_inv tools cellHalo fuel mt mt' owned dim h).2 with
    ⟨_, hmt'⟩ | ⟨_, hre⟩
  · rw [hmt']
    exact cacheStep_of_eq rfl rfl rfl
  · intro hs
    obtain ⟨mt1, olds, pv, vl, pvm, sl, pcs, pruned, rev, cells, valid, active, roots, visited,
      h1, _, _, _, _, _, _, hmt'⟩ := pruneRebuild_inv tools fuel _ mt' _ hre
    obtain ⟨mt1', olds', h1', _, _, _, _, _, hcells⟩ := pruneRebuild_tables tools fuel _ mt' _ hre
    obtain ⟨hfilled, _⟩ := entitiesToKeep_spec _ mt1 _ olds h1
    have hbc : mt'._periodicBCs = mt._periodicBCs := by
      rw [hmt']
      show mt1._periodicBCs = _
      rw [hfilled.1]
      rfl
    refine ⟨by rw [hbc]; exact hs.1, ?_⟩
    intro k c hc
    rw [hcells k] at hc
    have hnil : c._entityIndices = [] := by
      split at hc
      · cases hf : mapFind (beginPrune mt owned)._cells k with
        | none =>
          rw [hf] at hc
          cases hc
        | some c0 =>
          rw [hf] at hc
          cases hc
          rfl
      · cases hc
    exact ⟨cacheSized_of_nil c hnil,
      fun d ord x hx => absurd hx (not_cached_of_nil c hnil d ord x)⟩

/-- Every completed call of a method that changes the topology keeps the caches
sound. -/
theorem operation_cacheStep (tools : CellTools) (cellHalo : CellHalo) (mt mt' : MeshTopology)
    (h : Operation tools cellHalo mt mt') : CacheStep mt mt' := by
  cases h with
  | addVertices _ vertices => exact getVertexIndices_cacheStep mt vertices
  | addEntity _ _ entityTopo entityVertices entityIndex permutation h =>
    exact addEntity_cacheStep tools mt mt' _ _ _ _ h
  | addCell fuel _ _ cellIndex cellTopo cellVertices parent h =>
    exact addCell_cacheStep tools fuel mt mt' _ _ _ _ h
  | refineCell fuel _ _ cellIndex refPattern firstChildCellIndex h =>
    exact refineCell_cacheStep tools fuel mt mt' _ _ _ h
  | pruneToInclude fuel _ _ ownedCellIndices dimForNeighborRelation h =>
    exact pruneToInclude_cacheStep tools cellHalo fuel mt mt' _ _ h

theorem cacheSound_init (spaceDim : Nat) : CacheSound (init spaceDim []) :=
  ⟨rfl, fun k cell h => by cases h⟩

/-- Every topology reached from an empty one without periodic boundary
conditions has sound caches. -/
theorem cacheSound_of_reached (tools : CellTools) (cellHalo : CellHalo) (spaceDim : Nat)
    (mt : MeshTopology)
    (h : Relation.ReflTransGen (CacheOperation tools cellHalo) (init spaceDim []) mt) :
    CacheSound mt := by
  induction h with
  | refl => exact cacheSound_init spaceDim
  | tail _ hstep ih =>
    rcases hstep with hop | ⟨k, d, ord, i, hidx⟩
    · exact operation_cacheStep tools cellHalo _ _ hop ih
    · exact cellEntityIndex_cacheStep _ _ k d ord i hidx ih

/-- The list of `Cell::getEntityIndices` holds the lookup of every sub-cell. -/
theorem getEntityIndices_loop (mt : MeshTopology) (cell : Cell) (d : Nat) (n : Nat)
    (l : List (Option IndexType))
    (h : foldExcept (fun (cellEntityIndices : List (Option IndexType)) j =>
      match Cell.lookupEntityIndex mt cell d j with
      | Except.error err => Except.error err
      | Except.ok entityIndex => Except.ok (cellEntityIndices ++ [entityIndex]))
      [] (List.range n) = Except.ok l) :
    l.length = n ∧ ∀ j, j < n → ∃ x, Cell.lookupEntityIndex mt cell d j = Except.ok x ∧
      l[j]? = some x := by
  induction n generalizing l with
  | zero =>
    cases h
    exact ⟨rfl, fun j hj => absurd hj (Nat.not_lt_zero j)⟩
  | succ n ih =>
    rw [List.range_succ, foldExcept_append] at h
    cases hprev : foldExcept (fun (cellEntityIndices : List (Option IndexType)) j =>
      match Cell.lookupEntityIndex mt cell d j with
      | Except.error err => Except.error err
      | Except.ok entityIndex => Except.ok (cellEntityIndices ++ [entityIndex]))
      [] (List.range n) with
    | error err =>
      rw [hprev] at h
      cases h
    | ok l0 =>
      rw [hprev] at h
      obtain ⟨hlen, hall⟩ := ih l0 hprev
      dsimp only at h
      unfold foldExcept at h
      cases hlook : Cell.lookupEntityIndex mt cell d n with
      | error err =>
        rw [hlook] at h
        cases h
      | ok x =>
        rw [hlook] at h
        dsimp only at h
        unfold foldExcept at h
        cases h
        refine ⟨by rw [List.length_append, hlen]; rfl, ?_⟩
        intro j hj
        rcases Nat.lt_succ_iff_lt_or_eq.1 hj with hlt | heq
        · obtain ⟨y, hy, hget⟩ := hall j hlt
          refine ⟨y, hy, ?_⟩
          rw [List.getElem?_append_left (by rw [hlen]; exact hlt)]
          exact hget
        · refine ⟨x, by rw [heq]; exact hlook, ?_⟩
          rw [heq, ← hlen]
          exact List.getElem?_concat_length l0 x

/-- With a sound cache, `Cell::entityIndex` returns what the lookup past the
cache returns, for a sub-cell of a dimension below that of the cell. -/
theorem entityIndexValue_eq_lookup (mt : MeshTopology) (cell : Cell)
    (hsized : cell.CacheSized)
    (hright : ∀ (d' ord' : Nat) (x : Option IndexType), cell.cached d' ord' x →
      ∃ j, x = some j ∧ Cell.lookupEntityIndex mt cell d' ord' = Except.ok (some j))
    (d ord : Nat) (hd : d < cell._cellTopo.getDimension)
    (hord : ord < cell._cellTopo.getSubcellCount d) :
    Cell.entityIndexValue mt cell d ord = Cell.lookupEntityIndex mt cell d ord := by
  obtain ⟨hs1, hs2⟩ := sized_of_lazy cell hsized
  have hlen0 : (if cell._entityIndices.length = 0 then
      List.replicate cell._cellTopo.getDimension [] else cell._entityIndices).length
        = cell._cellTopo.getDimension := by
    by_cases hlen : cell._entityIndices.length = 0
    · rw [if_pos hlen]
      exact List.length_replicate _ _
    · rw [if_neg hlen]
      rcases hsized.1 with h | h
      · exact absurd h hlen
      · exact h
  obtain ⟨row0, hrow0⟩ : ∃ row0, (if cell._entityIndices.length = 0 then
      List.replicate cell._cellTopo.getDimension [] else cell._entityIndices)[d]? = some row0 := by
    have hlt : d < (if cell._entityIndices.length = 0 then
        List.replicate cell._cellTopo.getDimension [] else cell._entityIndices).length := by
      rw [hlen0]
      exact hd
    exact ⟨_, List.getElem?_eq_getElem hlt⟩
  have hrowlen := length_lazy_row cell hsized d row0 hrow0
  obtain ⟨slot, hslot⟩ : ∃ slot, (if row0.length = 0 then
      List.replicate (cell._cellTopo.getSubcellCount d) none else row0)[ord]? = some slot := by
    have hlt : ord < (if row0.length = 0 then
        List.replicate (cell._cellTopo.getSubcellCount d) none else row0).length := by
      rw [hrowlen]
      exact hord
    exact ⟨_, List.getElem?_eq_getElem hlt⟩
  unfold Cell.entityIndexValue Cell.entityIndex
  dsimp only
  rw [if_neg (fun hcon : d = cell._cellTopo.getDimension ∧ ord = 0 =>
    absurd hcon.1 (Nat.ne_of_lt hd)), hrow0]
  dsimp only
  rw [hslot]
  cases slot with
  | some cached =>
    dsimp only
    obtain ⟨j, hj, hlook⟩ := hright d ord cached
      (cached_of_lazy cell d ord cached row0 hrow0 (slot_of_lazy _ ord cached row0 hslot))
    rw [hlook, hj]
    rfl
  | none =>
    dsimp only
    unfold Cell.lookupEntityIndex
    cases hn : Cell.subcellNodes cell._cellTopo cell._vertices d ord with
    | error err => rfl
    | ok nodes =>
      dsimp only
      cases hfound : mt.getEntityIndex d (setOfList nodes) with
      | error err => rfl
      | ok found => rfl

/-! ## The slots written by a pass of the second side loop: lemmas -/

end MeshTopology

/-! ## Claims -/

open MeshTopology

/-- C1: in a registry without periodic rules, for a topology of dimension at
least one and pairwise-distinct vertices, `addEntity` returns an index, and
called again with any reordering of the vertices it returns the same index and
leaves the number of entities of that dimension unchanged. -/
theorem addEntity_reordering_same_index (tools : CellTools) (mt : MeshTopology)
    (topo : CellTopology) (vs : List IndexType)
    (hper : mt._periodicBCs = []) (hd : 1 ≤ topo.getDimension)
    (hdim : topo.getDimension < mt._knownEntities.length) (hnodup : vs.Nodup) :
    ∃ mt1 i p, addEntity tools mt topo vs = Except.ok (mt1, i, p) ∧
      ∀ vs', vs'.Perm vs →
        ∃ mt2 p', addEntity tools mt1 topo vs' = Except.ok (mt2, i, p') ∧
          mt2.entityCount topo.getDimension = mt1.entityCount topo.getDimension := by
  have hd0 : topo.getDimension ≠ 0 := by omega
  have hlen := length_setOfList_of_nodup hnodup
  cases hfind : mapFind (mt._knownEntities.getD topo.getDimension []) (setOfList vs) with
  | some i =>
    obtain ⟨p, hp⟩ := addEntity_of_known tools mt topo vs i hd0 hper hnodup hfind
    refine ⟨mt, i, p, hp, fun vs' hperm => ?_⟩
    have hnodup' : vs'.Nodup := hperm.nodup_iff.2 hnodup
    have hfind' : mapFind (mt._knownEntities.getD topo.getDimension []) (setOfList vs') = some i := by
      rw [setOfList_eq_of_perm hperm, hfind]
    obtain ⟨p', hp'⟩ := addEntity_of_known tools mt topo vs' i hd0 hper hnodup' hfind'
    exact ⟨mt, p', hp', rfl⟩
  | none =>
    refine ⟨addNewEntity mt topo vs (setOfList vs),
      (mt._entities.getD topo.getDimension []).length, 0, ?_, fun vs' hperm => ?_⟩
    · unfold addEntity
      simp only [hlen, ne_eq, not_true_eq_false, if_false,
        getEntityIndex_of_no_periodic mt _ _ hd0 hper, hfind]
      rfl
    · have hnodup' : vs'.Nodup := hperm.nodup_iff.2 hnodup
      obtain ⟨p', hp'⟩ := addEntity_of_known tools (addNewEntity mt topo vs (setOfList vs)) topo vs'
        (mt._entities.getD topo.getDimension []).length hd0 hper hnodup' (by
          rw [setOfList_eq_of_perm hperm]
          simp only [addNewEntity, getD_modifyAt_self _ _ _ _ hdim]
          rw [mapFind_mapInsert_of_none _ _ _ _ hfind]
          simp)
      exact ⟨_, p', hp', rfl⟩

/-- Witness of C1: the edge with vertices 3 and 1 in an empty two-dimensional topology. -/
theorem addEntity_reordering_same_index_witness :
    (MeshTopology.init 2 [])._periodicBCs = [] ∧ 1 ≤ lineTopology.getDimension ∧
      lineTopology.getDimension < (MeshTopology.init 2 [])._knownEntities.length ∧
      [3, 1].Nodup ∧
      ∃ mt1 i p, addEntity sampleTools (MeshTopology.init 2 []) lineTopology [3, 1]
          = Except.ok (mt1, i, p) ∧
        ∀ vs', vs'.Perm [3, 1] →
          ∃ mt2 p', addEntity sampleTools mt1 lineTopology vs' = Except.ok (mt2, i, p') ∧
            mt2.entityCount lineTopology.getDimension
              = mt1.entityCount lineTopology.getDimension :=
  ⟨rfl, by decide, by decide, by decide,
    addEntity_reordering_same_index sampleTools (MeshTopology.init 2 []) lineTopology [3, 1]
      rfl (by decide) (by decide) (by decide)⟩

/-- C2: `addEntity` preserves the registry invariant (for every dimension from
one up the key map and the entity list are mutual inverses), so no two distinct
entity indices of one dimension share a canonical vertex-set key. -/
theorem addEntity_preserves_registryInv (tools : CellTools) (mt mt' : MeshTopology)
    (topo : CellTopology) (vs : List IndexType) (i : IndexType) (p : Nat)
    (hinv : RegistryInv mt)
    (hadd : addEntity tools mt topo vs = Except.ok (mt', i, p)) :
    RegistryInv mt' ∧
      ∀ d, 1 ≤ d → ∀ (a b : Nat) (k : List IndexType),
        (mt'._entities.getD d [])[a]? = some k →
        (mt'._entities.getD d [])[b]? = some k → a = b := by
  have key : RegistryInv mt' := by
    rcases addEntity_ok_cases tools mt mt' topo vs i p hadd with ⟨-, hcase⟩
    rcases hcase with ⟨hget, hmt, -⟩ | ⟨-, hmt⟩
    · subst hmt
      obtain ⟨hlen, hmaps⟩ := hinv
      unfold addNewEntity
      refine ⟨by simp only [length_modifyAt]; exact hlen, fun d hd => ?_⟩
      by_cases hdd : d = topo.getDimension
      · subst hdd
        have hd0 : topo.getDimension ≠ 0 := by omega
        have hnone := mapFind_none_of_getEntityIndex_none mt _ _ hd0 hget
        by_cases hrange : topo.getDimension < mt._entities.length
        · have hrange' : topo.getDimension < mt._knownEntities.length := hlen ▸ hrange
          simp only [getD_modifyAt_self _ _ _ _ hrange, getD_modifyAt_self _ _ _ _ hrange']
          obtain ⟨h1, h2⟩ := hmaps _ hd
          generalize mt._entities.getD topo.getDimension [] = es at h1 h2 ⊢
          generalize mt._knownEntities.getD topo.getDimension [] = known at h1 h2 hnone ⊢
          constructor
          · intro k a hka
            rw [mapFind_mapInsert_of_none _ _ _ _ hnone] at hka
            split at hka
            · rename_i hkk
              cases hka
              subst hkk
              simp
            · have hk := h1 k a hka
              have ha : a < es.length := by
                by_contra hcon
                rw [List.getElem?_eq_none (Nat.le_of_not_lt hcon)] at hk
                cases hk
              rw [List.getElem?_append_left ha]
              exact hk
          · intro a k hak
            rw [mapFind_mapInsert_of_none _ _ _ _ hnone]
            by_cases ha : a < es.length
            · rw [List.getElem?_append_left ha] at hak
              have hfa := h2 a k hak
              have hne : ¬ setOfList vs = k := by
                intro hkk
                rw [← hkk, hnone] at hfa
                cases hfa
              simp only [hne, if_false]
              exact hfa
            · rw [List.getElem?_append_right (Nat.le_of_not_lt ha)] at hak
              have hidx : a - es.length = 0 := by
                by_contra hcon
                have hle : [setOfList vs].length ≤ a - es.length := by
                  simp only [List.length_singleton]
                  omega
                rw [List.getElem?_eq_none hle] at hak
                cases hak
              rw [hidx] at hak
              simp only [List.getElem?_cons_zero, Option.some.injEq] at hak
              subst hak
              simp only [if_true, Option.some.injEq]
              exact Nat.le_antisymm (Nat.le_of_not_lt ha) (Nat.sub_eq_zero_iff_le.1 hidx)
        · have hrange' : ¬ topo.getDimension < mt._knownEntities.length := hlen ▸ hrange
          simp only [getD_modifyAt_of_le _ _ _ _ _ (Nat.le_of_not_lt hrange),
            getD_modifyAt_of_le _ _ _ _ _ (Nat.le_of_not_lt hrange')]
          exact hmaps _ hd
      · simp only [getD_modifyAt_ne _ _ _ _ _ hdd]
        exact hmaps d hd
    · subst hmt
      exact hinv
  refine ⟨key, fun d hd a b k ha hb => ?_⟩
  have h2 := (key.2 d hd).2
  have := h2 a k ha
  rw [h2 b k hb] at this
  exact (Option.some.inj this).symm

/-- Witness of C2: registering the edge with vertices 3 and 1 in an empty
two-dimensional topology. -/
theorem addEntity_preserves_registryInv_witness :
    RegistryInv (MeshTopology.init 2 []) ∧
      addEntity sampleTools (MeshTopology.init 2 []) lineTopology [3, 1]
        = Except.ok (addNewEntity (MeshTopology.init 2 []) lineTopology [3, 1] [1, 3], 0, 0) ∧
      RegistryInv (addNewEntity (MeshTopology.init 2 []) lineTopology [3, 1] [1, 3]) :=
  ⟨registryInv_init 2 [], rfl,
    (addEntity_preserves_registryInv sampleTools (MeshTopology.init 2 []) _ lineTopology
      [3, 1] 0 0 (registryInv_init 2 []) rfl).1⟩

/-- C8: when the like-dimension parent `p` of an entity `e` of dimension `d`
has an active cell, and `p` has neither a like-dimension parent nor a
generalized parent, `getConstrainingEntity(d, e)` returns `(p, d)`. -/
theorem getConstrainingEntity_of_active_parent (fuel : Nat) (mt : MeshTopology) (d : Nat)
    (e p : IndexType) (hok : ParentTableOK mt)
    (hparent : getEntityParent mt d e 0 = Except.ok p)
    (hactive : 0 < getActiveCellCount mt d p)
    (hptop : entityHasParent mt d p = false)
    (hpgen : entityHasGeneralizedParent mt d p = false)
    (hfuel : 2 ≤ fuel) :
    getConstrainingEntity fuel mt d e = Except.ok (p, d) := by
  obtain ⟨hlen, hvert⟩ := hok
  have he : entityHasParent mt d e = true := by
    cases h : entityHasParent mt d e with
    | true => rfl
    | false =>
      unfold getEntityParent at hparent
      simp [h] at hparent
  have hne : p ≠ e := by
    intro hpe
    rw [hpe, he] at hptop
    cases hptop
  have hfind : mapFind (mt._parentEntities.getD d []) e ≠ none := by
    intro hnone
    unfold entityHasParent at he
    rw [hnone] at he
    cases he
  have hd0 : d ≠ 0 := by
    intro h0
    apply hfind
    rw [h0, hvert]
    rfl
  have hdlt : d < mt._parentEntities.length := by
    by_contra hcon
    apply hfind
    rw [List.getD_eq_default _ _ (Nat.le_of_not_lt hcon)]
    rfl
  have hd : d ≤ mt.sideDim := by
    unfold sideDim
    by_cases hs : mt._spaceDim > 0
    · rw [if_pos hs] at hlen
      rw [if_neg (by omega)]
      omega
    · rw [if_neg hs] at hlen
      rw [if_pos (by omega)]
      omega
  have hgen : mapFind (mt._generalizedParentEntities.getD d []) p = none := by
    unfold entityHasGeneralizedParent at hpgen
    cases h : mapFind (mt._generalizedParentEntities.getD d []) p with
    | none => rfl
    | some g =>
      rw [h] at hpgen
      cases hpgen
  obtain ⟨f, rfl⟩ : ∃ f, fuel = f + 2 := ⟨fuel - 2, by omega⟩
  have hlike : getConstrainingEntityIndexOfLikeDimension (f + 2) mt d e = Except.ok p := by
    simp only [getConstrainingEntityIndexOfLikeDimension, hd0, if_false, likeDimensionLoop, he,
      if_true, hparent, bind, Except.bind, hactive, hptop]
    rfl
  have htop : topLikeDimensionAncestor mt d (f + 2) e = Except.ok p := by
    simp only [topLikeDimensionAncestor, he, if_true, hparent, bind, Except.bind, hptop]
    rfl
  have hupd : updateConstrainingEntity mt p d e (e, d) = Except.ok (p, d) := by
    unfold updateConstrainingEntity
    rw [if_pos hne]
    rfl
  unfold getConstrainingEntity constrainingEntityLoop
  simp only [hd, if_true, hlike, hupd, htop, hgen]
  rfl

set_option maxRecDepth 100000 in
/-- Witness of C8: in the refined two-quadrilateral mesh the fine edge 9 on the
side shared with the unrefined cell 1 is constrained by its parent, the coarse
edge 1, which has the active cell 1. -/
theorem getConstrainingEntity_of_active_parent_witness :
    ParentTableOK refinedQuadMesh ∧
      getEntityParent refinedQuadMesh 1 9 0 = Except.ok 1 ∧
      0 < getActiveCellCount refinedQuadMesh 1 1 ∧
      entityHasParent refinedQuadMesh 1 1 = false ∧
      entityHasGeneralizedParent refinedQuadMesh 1 1 = false ∧
      getConstrainingEntity 10 refinedQuadMesh 1 9 = Except.ok (1, 1) :=
  ⟨⟨rfl, rfl⟩, rfl, by decide, rfl, rfl,
    getConstrainingEntity_of_active_parent 10 refinedQuadMesh 1 9 1
      ⟨rfl, rfl⟩ rfl (by decide) rfl rfl (by decide)⟩

/-- C9: whatever `getConstrainingEntity(d, e)` returns is the last candidate met
while climbing (a like-dimension ancestor with an active cell, or a generalized
ancestor one of whose containing sides has an active cell), and the entity
itself `(e, d)` when no ancestor qualifies; with neither a parent nor a
generalized parent the call returns `(e, d)`. -/
theorem getConstrainingEntity_last_candidate (fuel : Nat) (mt : MeshTopology) (d : Nat)
    (e : IndexType) :
    (∀ r, getConstrainingEntity fuel mt d e = Except.ok r →
      r = (constraintCandidates fuel mt d e).getLast?.getD (e, d) ∧
      (((∀ level ∈ generalizedLevels mt fuel fuel d e,
            ∀ a ∈ likeAncestors mt level.1 fuel level.2, getActiveCellCount mt level.1 a = 0) ∧
          (∀ level ∈ generalizedLevels mt fuel fuel d e, level ≠ (d, e) →
            ∀ side ∈ containingSides mt level.1 level.2,
              getActiveCellCount mt mt.sideDim side = 0)) →
        r = (e, d)) ∧
      (r ≠ (e, d) →
        ∃ level ∈ generalizedLevels mt fuel fuel d e,
          (∃ a ∈ likeAncestors mt level.1 fuel level.2,
              getActiveCellCount mt level.1 a > 0 ∧ r = (a, level.1)) ∨
            ((∃ side ∈ containingSides mt level.1 level.2,
              getActiveCellCount mt mt.sideDim side > 0) ∧ r = (level.2, level.1)))) ∧
    (1 ≤ fuel → entityHasParent mt d e = false → entityHasGeneralizedParent mt d e = false →
      (d < mt.sideDim → e < (mt._sidesForEntities.getD d []).length) →
      getConstrainingEntity fuel mt d e = Except.ok (e, d)) := by
  constructor
  · intro r hr
    have hlast := constrainingEntityLoop_eq mt fuel fuel d e (e, d) r hr
    have hprop : ∀ c ∈ constraintCandidates fuel mt d e,
        ∃ level ∈ generalizedLevels mt fuel fuel d e,
          (∃ a ∈ likeAncestors mt level.1 fuel level.2,
              getActiveCellCount mt level.1 a > 0 ∧ c = (a, level.1)) ∨
            ((∃ side ∈ containingSides mt level.1 level.2,
              getActiveCellCount mt mt.sideDim side > 0) ∧ c = (level.2, level.1)) := by
      intro c hc
      unfold constraintCandidates at hc
      rw [List.mem_filterMap] at hc
      obtain ⟨level, hlevel, hcand⟩ := hc
      exact ⟨level, hlevel, levelCandidate_sound mt fuel level c hcand⟩
    have hmem : r ≠ (e, d) → r ∈ constraintCandidates fuel mt d e := by
      intro hne
      cases hl : (constraintCandidates fuel mt d e).getLast? with
      | none =>
        unfold constraintCandidates at hl
        rw [hl] at hlast
        exact absurd hlast hne
      | some c =>
        have hc := List.mem_of_getLast?_eq_some hl
        unfold constraintCandidates at hl
        rw [hl] at hlast
        rw [hlast]
        exact hc
    refine ⟨hlast, ?_, fun hne => hprop r (hmem hne)⟩
    rintro ⟨hA1, hA2⟩
    by_contra hne
    obtain ⟨level, hlevel, hcase⟩ := hprop r (hmem hne)
    rcases hcase with ⟨a, ha, hact, -⟩ | ⟨⟨side, hside, hact⟩, hr2⟩
    · have := hA1 level hlevel a ha
      omega
    · by_cases hlv : level = (d, e)
      · apply hne
        rw [hr2, hlv]
      · have := hA2 level hlevel hlv side hside
        omega
  · intro hfuel hnop hnog hsides
    obtain ⟨f, rfl⟩ : ∃ f, fuel = f + 1 := ⟨fuel - 1, by omega⟩
    have hgen : mapFind (mt._generalizedParentEntities.getD d []) e = none := by
      unfold entityHasGeneralizedParent at hnog
      cases h : mapFind (mt._generalizedParentEntities.getD d []) e with
      | none => rfl
      | some g =>
        rw [h] at hnog
        cases hnog
    have hlike : getConstrainingEntityIndexOfLikeDimension (f + 1) mt d e = Except.ok e := by
      unfold getConstrainingEntityIndexOfLikeDimension
      by_cases hd0 : d = 0
      · rw [if_pos hd0]
        rfl
      · rw [if_neg hd0]
        simp only [likeDimensionLoop, hnop]
        rfl
    have htop : topLikeDimensionAncestor mt d (f + 1) e = Except.ok e := by
      simp only [topLikeDimensionAncestor, hnop]
      rfl
    unfold getConstrainingEntity constrainingEntityLoop
    by_cases hd : d ≤ mt.sideDim
    · have hupd : updateConstrainingEntity mt e d e (e, d) = Except.ok (e, d) := by
        unfold updateConstrainingEntity sidesForConstraint
        simp only [ne_eq, not_true_eq_false, if_false]
        by_cases hds : d = mt.sideDim
        · simp only [hds, if_true, pure, Except.pure]
          split <;> rfl
        · simp only [hds, if_false]
          have hlt : e < (mt._sidesForEntities.getD d []).length := hsides (by omega)
          rw [List.getElem?_eq_getElem hlt]
          simp only [pure, Except.pure]
          split <;> rfl
      simp only [hd, if_true, hlike, hupd, htop, hgen]
      rfl
    · simp only [hd, if_false]
      rfl

/-- Amended C6: for two different cells `A` and `B` that are each other's
resolved neighbour across sides `a` and `b`, neither a parent in the view,
exactly one of `A.ownsSide(a)` and `B.ownsSide(b)` is true. -/
theorem ownsSide_exactly_one_of_distinct (mt : MeshTopology) (fuel : Nat)
    (view : MeshTopologyView) (A B : Cell) (a b : Nat)
    (hA : mt.getCell A._cellIndex = Except.ok A) (hB : mt.getCell B._cellIndex = Except.ok B)
    (hab : Cell.getNeighborInfo mt fuel view A a = Except.ok (some (B._cellIndex, b)))
    (hba : Cell.getNeighborInfo mt fuel view B b = Except.ok (some (A._cellIndex, a)))
    (hpA : view.isParent A._cellIndex = false) (hpB : view.isParent B._cellIndex = false)
    (hne : A._cellIndex ≠ B._cellIndex) :
    (Cell.ownsSide mt fuel view A a = Except.ok true ∧
        Cell.ownsSide mt fuel view B b = Except.ok false) ∨
      (Cell.ownsSide mt fuel view A a = Except.ok false ∧
        Cell.ownsSide mt fuel view B b = Except.ok true) := by
  have hownA : Cell.ownsSide mt fuel view A a
      = Except.ok (decide (A._cellIndex < B._cellIndex)) := by
    unfold Cell.ownsSide
    simp only [hab, hB, hba, Option.map_some', Cell.isParent, hpB, decide_True, Bool.not_false,
      Bool.and_self, if_true]
    rfl
  have hownB : Cell.ownsSide mt fuel view B b
      = Except.ok (decide (B._cellIndex < A._cellIndex)) := by
    unfold Cell.ownsSide
    simp only [hba, hA, hab, Option.map_some', Cell.isParent, hpA, decide_True, Bool.not_false,
      Bool.and_self, if_true]
    rfl
  rw [hownA, hownB]
  rcases Nat.lt_or_gt_of_ne hne with hlt | hgt
  · left
    have h2 : ¬ B._cellIndex < A._cellIndex := Nat.lt_asymm hlt
    simp [hlt, h2]
  · right
    have h2 : ¬ A._cellIndex < B._cellIndex := Nat.lt_asymm hgt
    simp [hgt, h2]

/-- Witness of the amended C6: the two cells of the two-cell line mesh across
their common vertex. -/
theorem ownsSide_exactly_one_of_distinct_witness :
    twoCellMesh.getCell (cellOf twoCellMesh 0)._cellIndex = Except.ok (cellOf twoCellMesh 0) ∧
      twoCellMesh.getCell (cellOf twoCellMesh 1)._cellIndex = Except.ok (cellOf twoCellMesh 1) ∧
      Cell.getNeighborInfo twoCellMesh 3 (twoCellMesh.asView 3) (cellOf twoCellMesh 0) 1
        = Except.ok (some ((cellOf twoCellMesh 1)._cellIndex, 0)) ∧
      Cell.getNeighborInfo twoCellMesh 3 (twoCellMesh.asView 3) (cellOf twoCellMesh 1) 0
        = Except.ok (some ((cellOf twoCellMesh 0)._cellIndex, 1)) ∧
      ((Cell.ownsSide twoCellMesh 3 (twoCellMesh.asView 3) (cellOf twoCellMesh 0) 1
            = Except.ok true ∧
          Cell.ownsSide twoCellMesh 3 (twoCellMesh.asView 3) (cellOf twoCellMesh 1) 0
            = Except.ok false) ∨
        (Cell.ownsSide twoCellMesh 3 (twoCellMesh.asView 3) (cellOf twoCellMesh 0) 1
            = Except.ok false ∧
          Cell.ownsSide twoCellMesh 3 (twoCellMesh.asView 3) (cellOf twoCellMesh 1) 0
            = Except.ok true)) :=
  ⟨rfl, rfl, rfl, rfl,
    ownsSide_exactly_one_of_distinct twoCellMesh 3 (twoCellMesh.asView 3)
      (cellOf twoCellMesh 0) (cellOf twoCellMesh 1) 1 0 rfl rfl rfl rfl rfl rfl (by decide)⟩

/-- Counterexample to C6 as stated: in the periodic one-cell line mesh the cell
is its own resolved neighbour across its two sides and is not a parent, and it
owns neither side. -/
theorem ownsSide_self_neighbor_owns_neither :
    periodicLineMesh.getCell 0 = Except.ok (cellOf periodicLineMesh 0) ∧
      (cellOf periodicLineMesh 0)._cellIndex = 0 ∧
      Cell.getNeighborInfo periodicLineMesh 3 (periodicLineMesh.asView 3)
        (cellOf periodicLineMesh 0) 0 = Except.ok (some (0, 1)) ∧
      Cell.getNeighborInfo periodicLineMesh 3 (periodicLineMesh.asView 3)
        (cellOf periodicLineMesh 0) 1 = Except.ok (some (0, 0)) ∧
      (periodicLineMesh.asView 3).isParent 0 = false ∧
      Cell.ownsSide periodicLineMesh 3 (periodicLineMesh.asView 3)
        (cellOf periodicLineMesh 0) 0 = Except.ok false ∧
      Cell.ownsSide periodicLineMesh 3 (periodicLineMesh.asView 3)
        (cellOf periodicLineMesh 0) 1 = Except.ok false :=
  ⟨rfl, rfl, rfl, rfl, rfl, rfl, rfl⟩

/-- C7: `ownsSide(c, s)` is the decision table of the spec evaluated on the
resolved neighbour `(n, t)` of `c` on `s`, on the cell across side `t` of `n`,
and on whether `n` is a parent in the view. -/
theorem ownsSide_eq_table (mt : MeshTopology) (fuel : Nat) (view : MeshTopologyView)
    (cell : Cell) (s : Nat) :
    (Cell.getNeighborInfo mt fuel view cell s = Except.ok none →
      Cell.ownsSide mt fuel view cell s
        = Except.ok (Cell.ownsSideTable cell._cellIndex none none false)) ∧
    (∀ (n : IndexType) (t : Nat) (neighborCell : Cell) (across : Option (IndexType × Nat)),
      Cell.getNeighborInfo mt fuel view cell s = Except.ok (some (n, t)) →
      mt.getCell n = Except.ok neighborCell →
      Cell.getNeighborInfo mt fuel view neighborCell t = Except.ok across →
      Cell.ownsSide mt fuel view cell s
        = Except.ok (Cell.ownsSideTable cell._cellIndex (some n) (across.map Prod.fst)
            (view.isParent neighborCell._cellIndex))) := by
  constructor
  · intro h
    unfold Cell.ownsSide
    rw [h]
    rfl
  · intro n t neighborCell across h hcell hacross
    unfold Cell.ownsSide Cell.ownsSideTable
    simp only [h, hcell, hacross, Cell.isParent]
    by_cases hp : view.isParent neighborCell._cellIndex = true
    · by_cases hpeer : across.map Prod.fst = some cell._cellIndex
      · simp [hpeer, hp, pure, Except.pure]
      · cases across with
        | none => simp [hp, pure, Except.pure]
        | some pr =>
          obtain ⟨x, y⟩ := pr
          simp only [Option.map_some'] at hpeer
          simp [hpeer, hp, pure, Except.pure]
    · have hp' : view.isParent neighborCell._cellIndex = false := by simpa using hp
      by_cases hpeer : across.map Prod.fst = some cell._cellIndex
      · simp [hpeer, hp', pure, Except.pure]
      · simp [hpeer, hp', pure, Except.pure]

/-- Witness of C7: cell 0 of the two-cell line mesh on its side 1, facing cell 1. -/
theorem ownsSide_eq_table_witness :
    Cell.getNeighborInfo twoCellMesh 3 (twoCellMesh.asView 3) (cellOf twoCellMesh 0) 1
        = Except.ok (some (1, 0)) ∧
      twoCellMesh.getCell 1 = Except.ok (cellOf twoCellMesh 1) ∧
      Cell.getNeighborInfo twoCellMesh 3 (twoCellMesh.asView 3) (cellOf twoCellMesh 1) 0
        = Except.ok (some (0, 1)) ∧
      Cell.ownsSide twoCellMesh 3 (twoCellMesh.asView 3) (cellOf twoCellMesh 0) 1
        = Except.ok (Cell.ownsSideTable (cellOf twoCellMesh 0)._cellIndex (some 1)
            ((some ((0 : IndexType), 1)).map Prod.fst)
            ((twoCellMesh.asView 3).isParent (cellOf twoCellMesh 1)._cellIndex)) :=
  ⟨rfl, rfl, rfl,
    (ownsSide_eq_table twoCellMesh 3 (twoCellMesh.asView 3) (cellOf twoCellMesh 0) 1).2
      1 0 (cellOf twoCellMesh 1) (some (0, 1)) rfl rfl rfl⟩

set_option maxRecDepth 100000 in
/-- Witness of C9: in the refined two-quadrilateral mesh the hanging edge 9 has
the last candidate `(1, 1)`, its parent edge, and that is what the call
returns; the coarse edge 1, which has no ancestor, is its own constraint. -/
theorem getConstrainingEntity_last_candidate_witness :
    getConstrainingEntity 10 refinedQuadMesh 1 9 = Except.ok (1, 1) ∧
      ((1, 1) : IndexType × Nat)
        = (constraintCandidates 10 refinedQuadMesh 1 9).getLast?.getD (9, 1) ∧
      getConstrainingEntity 10 refinedQuadMesh 1 1 = Except.ok (1, 1) :=
  ⟨rfl, ((getConstrainingEntity_last_candidate 10 refinedQuadMesh 1 9).1 (1, 1) rfl).1,
    (getConstrainingEntity_last_candidate 10 refinedQuadMesh 1 1).2 (by decide) rfl rfl
      (fun h => absurd h (by decide))⟩

/-- C10: `refinementBranchForSubcell` returns the empty branch when the
sub-cell's entity is its own constraining entity; when one pass of the climb
(one level of hanging refinement) takes the sub-cell to the constraining entity,
it returns exactly one entry, whose pattern is the refinement pattern of the
parent cell and whose child ordinal is the position of this cell among the
children of the parent. -/
theorem refinementBranchForSubcell_one_level (mt : MeshTopology) (fuel : Nat)
    (view : MeshTopologyView)
    (getCellsContainingEntity : Nat → IndexType → List (IndexType × Nat))
    (cell current : Cell) (d ord : Nat) (e : IndexType)
    (he : cell.entityIndexValue mt d ord = Except.ok (some e))
    (hcell : mt.getCell cell._cellIndex = Except.ok current) :
    (view.getConstrainingEntity d e = Except.ok (e, d) → 1 ≤ fuel →
      Cell.refinementBranchForSubcell mt fuel view getCellsContainingEntity cell d ord
        = Except.ok []) ∧
    (∀ (ce : IndexType × Nat) (parent : Cell) (pat : RefinementPattern) (i mapped dim : Nat)
        (pe : IndexType),
      view.getConstrainingEntity d e = Except.ok ce →
      (e ≠ ce.1 ∨ d ≠ ce.2) →
      refinementBranchStep mt getCellsContainingEntity current ord d e
        = Except.ok (parent, (pat, i), mapped, dim, pe) →
      (pe, dim) = ce → 2 ≤ fuel →
      Cell.refinementBranchForSubcell mt fuel view getCellsContainingEntity cell d ord
          = Except.ok [(pat, i)] ∧
        mt.derefCell current._parent = Except.ok parent ∧
        parent._refPattern = some pat ∧
        findChildPointer mt current._cellIndex parent._children 0 = Except.ok (some i)) := by
  constructor
  · intro hce hfuel
    obtain ⟨f, rfl⟩ : ∃ f, fuel = f + 1 := ⟨fuel - 1, by omega⟩
    unfold Cell.refinementBranchForSubcell
    simp only [he, hce, hcell]
    unfold refinementBranchLoop
    simp only [ne_eq, not_true_eq_false, or_self, if_false]
    rfl
  · intro ce parent pat i mapped dim pe hce hne hstep hreach hfuel
    obtain ⟨f, rfl⟩ : ∃ f, fuel = f + 2 := ⟨fuel - 2, by omega⟩
    refine ⟨?_, ?_⟩
    · unfold Cell.refinementBranchForSubcell
      simp only [he, hce, hcell]
      unfold refinementBranchLoop
      rw [if_pos hne]
      simp only [hstep]
      unfold refinementBranchLoop
      subst hreach
      simp only [ne_eq, not_true_eq_false, or_self, if_false]
      rfl
    · unfold refinementBranchStep at hstep
      cases hpar : mt.derefCell current._parent with
      | error err =>
        rw [hpar] at hstep
        cases hstep
      | ok par =>
        rw [hpar] at hstep
        simp only at hstep
        cases hfind : findChildPointer mt current._cellIndex par._children 0 with
        | error err =>
          rw [hfind] at hstep
          cases hstep
        | ok found =>
          rw [hfind] at hstep
          cases found with
          | none => cases hstep
          | some j =>
            simp only at hstep
            cases hpat : par._refPattern with
            | none =>
              rw [hpat] at hstep
              cases hstep
            | some rp =>
              rw [hpat] at hstep
              simp only at hstep
              split at hstep
              · cases hstep
              · cases hstep
              · split at hstep
                · cases hstep
                · cases hstep
                · simp only [pure, Except.pure, Except.ok.injEq, Prod.mk.injEq] at hstep
                  obtain ⟨h1, ⟨h2, h3⟩, _⟩ := hstep
                  subst h1 h2 h3
                  exact ⟨rfl, hpat, hfind⟩

set_option maxRecDepth 100000 in
/-- Witness of C10: child cell 3 of the refined two-quadrilateral mesh. Its
edge 0 is its own constraint and has the empty branch; its edge 1 is a hanging
edge on the side shared with the unrefined cell 1, one level below the coarse
edge 1, and has the single entry (pattern of cell 0, child ordinal 1). -/
theorem refinementBranchForSubcell_one_level_witness :
    (Cell.refinementBranchForSubcell refinedQuadMesh 10 (refinedQuadMesh.asView 10)
        (fun _ _ => []) (cellOf refinedQuadMesh 3) 1 0 = Except.ok []) ∧
      (Cell.refinementBranchForSubcell refinedQuadMesh 10 (refinedQuadMesh.asView 10)
          (fun _ _ => []) (cellOf refinedQuadMesh 3) 1 1 = Except.ok [(quadPattern, 1)] ∧
        refinedQuadMesh.derefCell (cellOf refinedQuadMesh 3)._parent
          = Except.ok (cellOf refinedQuadMesh 0) ∧
        (cellOf refinedQuadMesh 0)._refPattern = some quadPattern ∧
        findChildPointer refinedQuadMesh (cellOf refinedQuadMesh 3)._cellIndex
          (cellOf refinedQuadMesh 0)._children 0 = Except.ok (some 1)) :=
  ⟨(refinementBranchForSubcell_one_level refinedQuadMesh 10 (refinedQuadMesh.asView 10)
      (fun _ _ => []) (cellOf refinedQuadMesh 3) (cellOf refinedQuadMesh 3) 1 0 8 rfl rfl).1
      rfl (by decide),
    (refinementBranchForSubcell_one_level refinedQuadMesh 10 (refinedQuadMesh.asView 10)
      (fun _ _ => []) (cellOf refinedQuadMesh 3) (cellOf refinedQuadMesh 3) 1 1 9 rfl rfl).2
      (1, 1) (cellOf refinedQuadMesh 0) quadPattern 1 1 1 1 rfl (Or.inl (by decide)) rfl rfl
      (by decide)⟩

/-- Amended C3: after a successful `refineCell(c, pattern, firstChild)` on a
known cell `c` whose own index is not one of the child indices
`firstChild, ..., firstChild + n - 1` (`n = pattern.numChildren()`), the child
index list of `c` is exactly that range, its child pointers are the cells of
that range, its level is unchanged, and every child has `c` as its parent and
the level of `c` plus one. -/
theorem refineCell_links_children (tools : CellTools) (fuel : Nat) (mt mt' : MeshTopology)
    (c : Nat) (pat : RefinementPattern) (f : Nat) (cell : Cell)
    (hvalid : mt.isValidCellIndex (some c) = true)
    (hcell : mt.getCell c = Except.ok cell)
    (hout : c < f ∨ f + pat.numChildren ≤ c)
    (h : refineCell tools fuel mt c pat f = Except.ok mt') :
    ∃ cell', mt'.getCell c = Except.ok cell' ∧
      cell'._childIndices = (List.range pat.numChildren).map (fun i => f + i) ∧
      cell'._children = (List.range pat.numChildren).map (fun i => some (f + i)) ∧
      cell'._level = cell._level ∧
      ∀ i, i < pat.numChildren →
        ∃ child, mt'.getCell (f + i) = Except.ok child ∧ child._parent = some c ∧
          child._level = cell'._level + 1 := by
  have hv := mem_validCells_of_isValid mt c hvalid
  have hfind := mapFind_of_getCell mt c cell hcell
  obtain ⟨m3, m4, m5, cell3, es, hf3, hsc3, hv3, _, _, _, _, hes, hloop, hset, hfr⟩ :=
    refineCell_stages tools fuel mt mt' c pat f cell hv hfind h
  obtain ⟨lv, _, _, _, lcore, _⟩ := addChildren_loop tools fuel _ es m3 m4 hloop
  have hcL : c ∉ (List.range pat.numChildren).map (fun i => f + i) := by
    rw [mem_childRange]
    omega
  obtain ⟨pc4, hf4, hsc4⟩ := find_of_optRel (lcore c (Or.inl (by rw [hes]; exact hcL))) hf3
  obtain ⟨⟨pc5, hf5, hci5, hlv5, hch5⟩, hchild5⟩ := setChildren_spec m4 m5 c _ pc4 hset hf4
    (fun x hx => (lv x).2 (Or.inr (by rw [hes]; exact hx)))
    (fun x hx hxc => hcL (hxc ▸ hx))
  obtain ⟨cell', hf', hsc'⟩ := find_of_optRel (hfr.cells c) hf5
  have hcore' := hsc'.2 (by simp)
  have hlevel : cell'._level = cell._level := by
    rw [hcore'.2.1, hlv5, hsc4.2.1, hsc3.2.1]
  refine ⟨cell', getCell_of_mapFind _ _ _ hf', ?_, ?_, hlevel, ?_⟩
  · rw [hcore'.2.2.2.2, hci5]
  · rw [hcore'.2.2.2.1, hch5, List.map_map]
    rfl
  · intro i hi
    have hx : f + i ∈ (List.range pat.numChildren).map (fun i => f + i) := by
      rw [mem_childRange]
      omega
    obtain ⟨cx5, hfx5, hpar5, hlev5⟩ := hchild5 (f + i) hx
    obtain ⟨child, hfc, hscc⟩ := find_of_optRel (hfr.cells (f + i)) hfx5
    have hcorec := hscc.2 (by simp)
    refine ⟨child, getCell_of_mapFind _ _ _ hfc, ?_, ?_⟩
    · rw [hcorec.2.2.1, hpar5]
    · rw [hcorec.2.1, hlev5, hlevel, hsc4.2.1, hsc3.2.1]

set_option maxRecDepth 100000 in
/-- Witness of the amended C3: cell 0 of the line mesh refined into the cells 1 and 2. -/
theorem refineCell_links_children_witness :
    refineCell sampleTools 10 lineMesh 0 linePattern 1 = Except.ok refinedLineMesh ∧
      ∃ cell', refinedLineMesh.getCell 0 = Except.ok cell' ∧
        cell'._childIndices = (List.range linePattern.numChildren).map (fun i => 1 + i) ∧
        cell'._children = (List.range linePattern.numChildren).map (fun i => some (1 + i)) ∧
        cell'._level = (cellOf lineMesh 0)._level ∧
        ∀ i, i < linePattern.numChildren →
          ∃ child, refinedLineMesh.getCell (1 + i) = Except.ok child ∧ child._parent = some 0 ∧
            child._level = cell'._level + 1 :=
  ⟨eq_ok_stateOf _ rfl,
    refineCell_links_children sampleTools 10 lineMesh refinedLineMesh 0 linePattern 1
      (cellOf lineMesh 0) rfl rfl (Or.inl (by decide)) (eq_ok_stateOf _ rfl)⟩

set_option maxRecDepth 100000 in
/-- Counterexample to C3 as stated: `refineCell(0, pattern, 0)` on the known,
unrefined cell 0 of the line mesh succeeds and gives cell 0 the child list
`[0, 1]`; its child 0 is the cell itself, with parent 0, and its level 1 is not
the level 1 of its parent plus one. -/
theorem refineCell_own_child_level :
    lineMesh.isValidCellIndex (some 0) = true ∧
      lineMesh.getCell 0 = Except.ok (cellOf lineMesh 0) ∧
      (cellOf lineMesh 0)._children = [] ∧ (cellOf lineMesh 0)._childIndices = [] ∧
      refineCell sampleTools 10 lineMesh 0 linePattern 0 = Except.ok selfChildLineMesh ∧
      selfChildLineMesh.getCell 0 = Except.ok (cellOf selfChildLineMesh 0) ∧
      (cellOf selfChildLineMesh 0)._childIndices = [0, 1] ∧
      (cellOf selfChildLineMesh 0)._parent = some 0 ∧
      (cellOf selfChildLineMesh 0)._level = 1 ∧
      ¬ (∀ x ∈ (cellOf selfChildLineMesh 0)._childIndices,
          ∃ child parent, selfChildLineMesh.getCell x = Except.ok child ∧
            selfChildLineMesh.getCell 0 = Except.ok parent ∧ child._parent = some 0 ∧
            child._level = parent._level + 1) := by
  refine ⟨rfl, rfl, rfl, rfl, eq_ok_stateOf _ rfl, rfl, rfl, rfl, rfl, ?_⟩
  intro hall
  have hmem : (0 : IndexType) ∈ (cellOf selfChildLineMesh 0)._childIndices := by
    have hl : (cellOf selfChildLineMesh 0)._childIndices = [0, 1] := rfl
    rw [hl]
    exact List.mem_cons_self _ _
  obtain ⟨child, parent, hchild, hparent, _, hlevel⟩ := hall 0 hmem
  have hc : selfChildLineMesh.getCell 0 = Except.ok (cellOf selfChildLineMesh 0) := rfl
  rw [hc] at hchild hparent
  cases hchild
  cases hparent
  exact absurd hlevel (Nat.succ_ne_self _).symm

/-- C4: for a known unrefined cell `c`, a successful `refineCell(c, pattern,
firstChild)` with `firstChild` the next cell index makes the active-cell set
the old set without `c` together with `firstChild, ..., firstChild + n - 1`;
`c` is no longer active and none of the new cells was active before; the cell
count grows by `n` and the active-cell count by `n - 1`; no active cell has
children. -/
theorem refineCell_active_cells (tools : CellTools) (fuel : Nat) (mt mt' : MeshTopology)
    (c : Nat) (pat : RefinementPattern) (cell : Cell)
    (hvalid : mt.isValidCellIndex (some c) = true)
    (hcell : mt.getCell c = Except.ok cell) (hindex : cell._cellIndex = c)
    (hunref : cell._children = [])
    (hinv1 : ∀ x ∈ mt._validCells, x < mt._nextCellIndex)
    (hinv2 : ∀ x ∈ mt._activeCells, x ∈ mt._validCells)
    (hinv3 : ∀ x ∈ mt._activeCells, ∀ cx, mt.getCell x = Except.ok cx →
      cx._children = [] ∧ cx._childIndices = [])
    (hcount : 1 ≤ mt._activeCellCount)
    (hwrap : mt._activeCellCount + pat.numChildren ≤ 4294967296)
    (h : refineCell tools fuel mt c pat mt._nextCellIndex = Except.ok mt') :
    (∀ x : Nat, x ∈ mt'._activeCells ↔
      (x ∈ mt._activeCells ∧ x ≠ c) ∨
        (mt._nextCellIndex ≤ x ∧ x < mt._nextCellIndex + pat.numChildren)) ∧
    c ∉ mt'._activeCells ∧
    (∀ x : Nat, mt._nextCellIndex ≤ x → x ∉ mt._activeCells) ∧
    mt'.cellCount = mt.cellCount + pat.numChildren ∧
    mt'.activeCellCount + 1 = mt.activeCellCount + pat.numChildren ∧
    (∀ x ∈ mt'._activeCells, ∀ cx, mt'.getCell x = Except.ok cx →
      cx._children = [] ∧ cx._childIndices = []) := by
  have hv := mem_validCells_of_isValid mt c hvalid
  have hfind := mapFind_of_getCell mt c cell hcell
  simp only [IndexType] at hcount hwrap hinv1
  have hclt := hinv1 c hv
  obtain ⟨m3, m4, m5, cell3, es, hf3, hsc3, hv3, ha3, hn3, hc3, hrel3, hes, hloop, hset, hfr⟩ :=
    refineCell_stages tools fuel mt mt' c pat mt._nextCellIndex cell hv hfind h
  obtain ⟨lv, la, _, lcnt, lcore, lfresh⟩ := addChildren_loop tools fuel _ es m3 m4 hloop
  rw [hes] at lv la lcnt lcore lfresh
  obtain ⟨⟨sv, sa, sn, sc, _⟩, skeep⟩ := setChildren_keep m4 m5 c _ hset
  have ha3' : m3._activeCells = setErase c mt._activeCells := by
    rw [ha3 (by rw [hunref]; rfl), hindex]
  have hnext3 : m3._nextCellIndex = mt._nextCellIndex + pat.numChildren := by
    rw [hn3]
    unfold countRefinement
    rw [if_pos (Nat.le_refl _)]
  have hcount3 : m3._activeCellCount + 1 = mt._activeCellCount + pat.numChildren := by
    rw [hc3]
    unfold countRefinement
    rw [if_pos (Nat.le_refl _)]
    show wrapAdd mt._activeCellCount _ + 1 = _
    unfold wrapAdd
    by_cases hn0 : pat.numChildren = 0
    · rw [if_pos hn0, if_neg (by omega)]
      omega
    · rw [if_neg hn0, if_pos (by omega)]
      omega
  have hnotvalid : ∀ x : Nat, mt._nextCellIndex ≤ x → x ∉ mt._validCells := by
    intro x hx hxv
    exact absurd hx (Nat.not_le.2 (hinv1 x hxv))
  obtain ⟨hn4, hc4⟩ := lcnt (fun x hx => by
    rw [mem_childRange] at hx
    rw [hnext3]
    exact hx.2)
  have hactive : ∀ x : Nat, x ∈ mt'._activeCells ↔
      (x ∈ mt._activeCells ∧ x ≠ c) ∨
        (mt._nextCellIndex ≤ x ∧ x < mt._nextCellIndex + pat.numChildren) := by
    intro x
    rw [hfr.active, sa, la x, ha3', mem_setErase, mem_childRange, hv3]
    constructor
    · rintro (hx | ⟨hx, _⟩)
      · exact Or.inl hx
      · exact Or.inr hx
    · rintro (hx | hx)
      · exact Or.inl hx
      · exact Or.inr ⟨hx, hnotvalid x hx.1⟩
  refine ⟨hactive, ?_, fun x hx hxa => hnotvalid x hx (hinv2 x hxa), ?_, ?_, ?_⟩
  · intro hc
    rcases (hactive c).1 hc with hx | hx
    · exact hx.2 rfl
    · exact absurd hx.1 (Nat.not_le.2 hclt)
  · show mt'._nextCellIndex = mt._nextCellIndex + pat.numChildren
    rw [hfr.next, sn, hn4, hnext3]
  · show mt'._activeCellCount + 1 = mt._activeCellCount + pat.numChildren
    rw [hfr.count, sc, hc4, hcount3]
  · intro x hx cx hcx
    have hfx := mapFind_of_getCell _ _ _ hcx
    obtain ⟨c5, hf5, hr5⟩ := find_of_optRel_right (hfr.cells x) hfx
    have hk5 : Cell.keepChildren c5 cx := hr5.1
    rcases (hactive x).1 hx with ⟨hxa, hxc⟩ | hxnew
    · have hxlt : x < mt._nextCellIndex := hinv1 x (hinv2 x hxa)
      obtain ⟨c4, hf4, hr4⟩ := find_of_optRel_right (skeep x hxc) hf5
      have hxL : x ∉ (List.range pat.numChildren).map (fun i => mt._nextCellIndex + i) := by
        rw [mem_childRange]
        intro hcon
        exact absurd hcon.1 (Nat.not_le.2 hxlt)
      obtain ⟨c3, hf3x, hr3⟩ := find_of_optRel_right (lcore x (Or.inl hxL)) hf4
      obtain ⟨c0, hf0, hr0⟩ := find_of_optRel_right (hrel3 x) hf3x
      obtain ⟨h1, h2⟩ := hinv3 x hxa c0 (getCell_of_mapFind _ _ _ hf0)
      constructor
      · rw [hk5.2.1, hr4.2.1, hr3.2.2.2.1, hr0.2.2.2.1, h1]
      · rw [hk5.2.2, hr4.2.2, hr3.2.2.2.2, hr0.2.2.2.2, h2]
    · have hxc : x ≠ c := by
        intro hcon
        subst hcon
        exact absurd hxnew.1 (Nat.not_le.2 hclt)
      obtain ⟨c4, hf4, hr4⟩ := find_of_optRel_right (skeep x hxc) hf5
      obtain ⟨c4', hf4', hch, hci⟩ := lfresh x ((mem_childRange _ _ _).2 hxnew)
        (by rw [hv3]; exact hnotvalid x hxnew.1)
      rw [hf4] at hf4'
      cases hf4'
      constructor
      · rw [hk5.2.1, hr4.2.1, hch]
      · rw [hk5.2.2, hr4.2.2, hci]

set_option maxRecDepth 100000 in
/-- In the one-quadrilateral mesh the active cell has no children. -/
theorem singleQuadMesh_active_unrefined :
    ∀ x ∈ singleQuadMesh._activeCells, ∀ cx, singleQuadMesh.getCell x = Except.ok cx →
      cx._children = [] ∧ cx._childIndices = [] := by
  intro x hx cx hcx
  have ha : singleQuadMesh._activeCells = [0] := rfl
  rw [ha] at hx
  have hx0 : x = 0 := by simpa using hx
  subst hx0
  have hc : singleQuadMesh.getCell 0 = Except.ok (cellOf singleQuadMesh 0) := rfl
  rw [hc] at hcx
  cases hcx
  exact ⟨rfl, rfl⟩

set_option maxRecDepth 100000 in
/-- Witness of C4: one quadrilateral refined into four gives 5 cells, 4 of them
active, the cells 1 to 4. -/
theorem refineCell_active_cells_witness :
    refineCell quadTools 10 singleQuadMesh 0 quadPattern singleQuadMesh._nextCellIndex
        = Except.ok refinedSingleQuadMesh ∧
      refinedSingleQuadMesh._activeCells = [1, 2, 3, 4] ∧
      refinedSingleQuadMesh.cellCount = 5 ∧ refinedSingleQuadMesh.activeCellCount = 4 ∧
      ((∀ x : Nat, x ∈ refinedSingleQuadMesh._activeCells ↔
          (x ∈ singleQuadMesh._activeCells ∧ x ≠ 0) ∨
            (singleQuadMesh._nextCellIndex ≤ x ∧
              x < singleQuadMesh._nextCellIndex + quadPattern.numChildren)) ∧
        0 ∉ refinedSingleQuadMesh._activeCells ∧
        (∀ x : Nat, singleQuadMesh._nextCellIndex ≤ x → x ∉ singleQuadMesh._activeCells) ∧
        refinedSingleQuadMesh.cellCount = singleQuadMesh.cellCount + quadPattern.numChildren ∧
        refinedSingleQuadMesh.activeCellCount + 1
          = singleQuadMesh.activeCellCount + quadPattern.numChildren ∧
        (∀ x ∈ refinedSingleQuadMesh._activeCells, ∀ cx,
          refinedSingleQuadMesh.getCell x = Except.ok cx →
            cx._children = [] ∧ cx._childIndices = [])) :=
  ⟨eq_ok_stateOf _ rfl, rfl, rfl, rfl,
    refineCell_active_cells quadTools 10 singleQuadMesh refinedSingleQuadMesh 0 quadPattern
      (cellOf singleQuadMesh 0) rfl rfl rfl rfl (by decide) (by decide)
      singleQuadMesh_active_unrefined (by decide) (by decide) (eq_ok_stateOf _ rfl)⟩

set_option maxRecDepth 100000 in
/-- C5, failing input: in the periodic two-cell line mesh vertex 2 is the
periodic equivalent of vertex 0 of cell 0; `deactivateCell` on cell 0 succeeds,
removes the cell from the active set and from the list of its own vertex 0, and
leaves the entry `(0, 0)` in the list of the equivalent vertex 2. -/
theorem deactivateCell_leaves_periodic_entry :
    periodicTwoCellMesh.getCell 0 = Except.ok (cellOf periodicTwoCellMesh 0) ∧
      (cellOf periodicTwoCellMesh 0)._vertices = [0, 1] ∧
      periodicEquivalents periodicTwoCellMesh 0 = [2] ∧
      (∃ mt', deactivateCell periodicTwoCellMesh (cellOf periodicTwoCellMesh 0) = Except.ok mt' ∧
        mt'._activeCells = [1] ∧
        (mt'._activeCellsForEntities.getD 0 []).getD 0 [] = [(1, 1)] ∧
        (mt'._activeCellsForEntities.getD 0 []).getD 2 [] = [(0, 0), (1, 1)]) :=
  ⟨rfl, rfl, rfl,
    stateOf (deactivateCell periodicTwoCellMesh (cellOf periodicTwoCellMesh 0)),
    rfl, rfl, rfl, rfl⟩

/-- C16: for a vertex list with a repeated vertex index `addEntity` raises, and
the entity list, the known-key map, the canonical orderings and the topology
keys after the call are those before it. -/
theorem addEntity_repeated_vertex_raises (tools : CellTools) (mt : MeshTopology)
    (topo : CellTopology) (vs : List IndexType) (hrep : ¬ vs.Nodup) :
    addEntity tools mt topo vs = Except.error MeshError.repeatedVertices ∧
      (addEntityTables tools mt topo vs)._entities = mt._entities ∧
      (addEntityTables tools mt topo vs)._knownEntities = mt._knownEntities ∧
      (addEntityTables tools mt topo vs)._canonicalEntityOrdering = mt._canonicalEntityOrdering ∧
      (addEntityTables tools mt topo vs)._entityCellTopologyKeys = mt._entityCellTopologyKeys := by
  have hlen : (setOfList vs).length ≠ vs.length := fun h => hrep (nodup_of_length_setOfList h)
  have hraise : addEntity tools mt topo vs = Except.error MeshError.repeatedVertices := by
    unfold addEntity
    simp only [ne_eq, hlen, not_false_eq_true, if_true]
    rfl
  refine ⟨hraise, ?_, ?_, ?_, ?_⟩ <;>
  · unfold addEntityTables
    rw [hraise]

/-- Witness of C16: the edge with the vertex list `[0, 0]` in the empty
one-dimensional topology. -/
theorem addEntity_repeated_vertex_raises_witness :
    ¬ ([0, 0] : List IndexType).Nodup ∧
      addEntity sampleTools (MeshTopology.init 1 []) lineTopology [0, 0]
        = Except.error MeshError.repeatedVertices ∧
      (addEntityTables sampleTools (MeshTopology.init 1 []) lineTopology [0, 0])._entities
        = (MeshTopology.init 1 [])._entities ∧
      (addEntityTables sampleTools (MeshTopology.init 1 []) lineTopology [0, 0])._knownEntities
        = (MeshTopology.init 1 [])._knownEntities ∧
      (addEntityTables sampleTools (MeshTopology.init 1 []) lineTopology
          [0, 0])._canonicalEntityOrdering
        = (MeshTopology.init 1 [])._canonicalEntityOrdering ∧
      (addEntityTables sampleTools (MeshTopology.init 1 []) lineTopology
          [0, 0])._entityCellTopologyKeys
        = (MeshTopology.init 1 [])._entityCellTopologyKeys :=
  ⟨by decide,
    addEntity_repeated_vertex_raises sampleTools (MeshTopology.init 1 []) lineTopology [0, 0]
      (by decide)⟩

/-- C18: without periodic rules, `getEntityIndex(0, {v})` is `v`;
`getEntityIndex(0, S)` raises when `S` does not have exactly one element; and
for `d ≥ 1` `getEntityIndex(d, S)` returns the index stored under the sorted
list `S` when that key is known and the not-found sentinel otherwise, without
raising. -/
theorem getEntityIndex_without_periodic (mt : MeshTopology) (hper : mt._periodicBCs = []) :
    (∀ v : IndexType, getEntityIndex mt 0 [v] = Except.ok (some v)) ∧
    (∀ S : List IndexType, S.length ≠ 1 →
      getEntityIndex mt 0 S = Except.error MeshError.vertexNodeSet) ∧
    (∀ (d : Nat) (S : List IndexType), 1 ≤ d →
      getEntityIndex mt d S = Except.ok (mapFind (mt._knownEntities.getD d []) S) ∧
      (∀ i, mapFind (mt._knownEntities.getD d []) S = some i →
        getEntityIndex mt d S = Except.ok (some i)) ∧
      (mapFind (mt._knownEntities.getD d []) S = none →
        getEntityIndex mt d S = Except.ok none)) := by
  refine ⟨fun v => ?_, fun S hS => ?_, fun d S hd => ?_⟩
  · unfold getEntityIndex
    simp only [if_true, List.length_singleton, hper, List.length_nil]
    rfl
  · unfold getEntityIndex
    simp only [if_true, hS, if_false]
    rfl
  · have h := getEntityIndex_of_no_periodic mt d S (by omega) hper
    exact ⟨h, fun i hi => by rw [h, hi], fun hn => by rw [h, hn]⟩

set_option maxRecDepth 100000 in
/-- Witness of C18: in the two-quadrilateral mesh, which has no periodic rule,
vertex 3 resolves to itself, the empty vertex set raises in dimension 0, the
edge key `[1, 2]` resolves to edge 1 and the diagonal `[0, 2]` is not found. -/
theorem getEntityIndex_without_periodic_witness :
    twoQuadMesh._periodicBCs = [] ∧
      getEntityIndex twoQuadMesh 0 [3] = Except.ok (some 3) ∧
      getEntityIndex twoQuadMesh 0 [] = Except.error MeshError.vertexNodeSet ∧
      getEntityIndex twoQuadMesh 1 [1, 2] = Except.ok (some 1) ∧
      getEntityIndex twoQuadMesh 1 [0, 2] = Except.ok none :=
  ⟨rfl,
    (getEntityIndex_without_periodic twoQuadMesh rfl).1 3,
    (getEntityIndex_without_periodic twoQuadMesh rfl).2.1 [] (by decide),
    ((getEntityIndex_without_periodic twoQuadMesh rfl).2.2 1 [1, 2] (by decide)).2.1 1 rfl,
    ((getEntityIndex_without_periodic twoQuadMesh rfl).2.2 1 [0, 2] (by decide)).2.2 rfl⟩

/-- C17: for a list of pairwise-distinct vertices whose sorted key is not known
in dimension `d ≥ 1` and, with periodic rules, has no known periodic
relabeling, `addEntity` returns the previous entity count of dimension `d` with
permutation 0, appends the sorted list to the entities and the caller's
ordering to the canonical orderings of dimension `d`, records the key with the
new index, and changes no index, key or canonical ordering of an existing
entity of any dimension. -/
theorem addEntity_new_entity (tools : CellTools) (mt : MeshTopology) (topo : CellTopology)
    (vs : List IndexType) (hnodup : vs.Nodup) (hd : 1 ≤ topo.getDimension)
    (hkey : mapFind (mt._knownEntities.getD topo.getDimension []) (setOfList vs) = none)
    (hper : 0 < mt._periodicBCs.length →
      getCanonicalEntityNodesViaPeriodicBCs mt topo.getDimension (setOfList vs) = Except.ok [])
    (hrange : topo.getDimension < mt._entities.length ∧
      topo.getDimension < mt._knownEntities.length ∧
      topo.getDimension < mt._canonicalEntityOrdering.length) :
    ∃ mt', addEntity tools mt topo vs = Except.ok (mt', mt.entityCount topo.getDimension, 0) ∧
      mt'._entities.getD topo.getDimension []
        = mt._entities.getD topo.getDimension [] ++ [setOfList vs] ∧
      mt'._canonicalEntityOrdering.getD topo.getDimension []
        = mt._canonicalEntityOrdering.getD topo.getDimension [] ++ [vs] ∧
      mapFind (mt'._knownEntities.getD topo.getDimension []) (setOfList vs)
        = some (mt.entityCount topo.getDimension) ∧
      (∀ (d : Nat) (k : List IndexType) (i : IndexType),
        mapFind (mt._knownEntities.getD d []) k = some i →
        mapFind (mt'._knownEntities.getD d []) k = some i) ∧
      (∀ (d i : Nat), i < (mt._entities.getD d []).length →
        (mt'._entities.getD d [])[i]? = (mt._entities.getD d [])[i]?) ∧
      (∀ (d i : Nat), i < (mt._canonicalEntityOrdering.getD d []).length →
        (mt'._canonicalEntityOrdering.getD d [])[i]?
          = (mt._canonicalEntityOrdering.getD d [])[i]?) := by
  obtain ⟨hr1, hr2, hr3⟩ := hrange
  have hd0 : topo.getDimension ≠ 0 := by omega
  have hlen := length_setOfList_of_nodup hnodup
  have hmiss := getEntityIndex_of_unknown mt topo.getDimension (setOfList vs) hd0 hkey hper
  refine ⟨addNewEntity mt topo vs (setOfList vs), ?_, ?_, ?_, ?_, ?_, ?_, ?_⟩
  · unfold addEntity
    simp only [hlen, ne_eq, not_true_eq_false, if_false, hmiss, bind, Except.bind]
    rfl
  · show (modifyAt mt._entities topo.getDimension _).getD topo.getDimension [] = _
    rw [getD_modifyAt_self _ _ _ _ hr1]
  · show (if topo.getDimension ≠ 0 then modifyAt mt._canonicalEntityOrdering topo.getDimension _
      else mt._canonicalEntityOrdering).getD topo.getDimension [] = _
    rw [if_pos hd0, getD_modifyAt_self _ _ _ _ hr3]
  · show mapFind ((modifyAt mt._knownEntities topo.getDimension _).getD topo.getDimension [])
      (setOfList vs) = _
    rw [getD_modifyAt_self _ _ _ _ hr2, mapFind_mapInsert_of_none _ _ _ _ hkey, if_pos rfl]
    rfl
  · intro d k i hk
    show mapFind ((modifyAt mt._knownEntities topo.getDimension _).getD d []) k = _
    rw [getD_modifyAt_eq _ _ _ _ _ hr2]
    by_cases hdd : d = topo.getDimension
    · subst hdd
      rw [if_pos rfl, mapFind_mapInsert_of_none _ _ _ _ hkey]
      by_cases hkk : setOfList vs = k
      · rw [← hkk, hkey] at hk
        cases hk
      · rw [if_neg hkk, hk]
    · rw [if_neg hdd, hk]
  · intro d i hi
    show ((modifyAt mt._entities topo.getDimension _).getD d [])[i]? = _
    rw [getD_modifyAt_eq _ _ _ _ _ hr1]
    by_cases hdd : d = topo.getDimension
    · subst hdd
      rw [if_pos rfl, List.getElem?_append_left hi]
    · rw [if_neg hdd]
  · intro d i hi
    show ((if topo.getDimension ≠ 0 then modifyAt mt._canonicalEntityOrdering topo.getDimension _
      else mt._canonicalEntityOrdering).getD d [])[i]? = _
    rw [if_pos hd0, getD_modifyAt_eq _ _ _ _ _ hr3]
    by_cases hdd : d = topo.getDimension
    · subst hdd
      rw [if_pos rfl, List.getElem?_append_left hi]
    · rw [if_neg hdd]

set_option maxRecDepth 100000 in
/-- Witness of C17: the diagonal from vertex 2 to vertex 0 is a new edge of the
two-quadrilateral mesh; it gets the index 7, the count of the edges before. -/
theorem addEntity_new_entity_witness :
    ([2, 0] : List IndexType).Nodup ∧
      mapFind (twoQuadMesh._knownEntities.getD 1 []) (setOfList [2, 0]) = none ∧
      twoQuadMesh.entityCount 1 = 7 ∧
      ∃ mt', addEntity quadTools twoQuadMesh lineTopology [2, 0] = Except.ok (mt', 7, 0) ∧
        mt'._entities.getD 1 [] = twoQuadMesh._entities.getD 1 [] ++ [[0, 2]] ∧
        mt'._canonicalEntityOrdering.getD 1 []
          = twoQuadMesh._canonicalEntityOrdering.getD 1 [] ++ [[2, 0]] ∧
        mapFind (mt'._knownEntities.getD 1 []) [0, 2] = some 7 :=
  ⟨by decide, rfl, rfl,
    match addEntity_new_entity quadTools twoQuadMesh lineTopology [2, 0] (by decide)
        (by decide) rfl (fun h => absurd h (by decide)) (by decide) with
    | ⟨mt', h1, h2, h3, h4, _⟩ => ⟨mt', h1, h2, h3, h4⟩⟩

/-- Amended C19: `getCanonicalEntityNodesViaPeriodicBCs(d, vs)` returns `vs`
when the sorted key of `vs` is known in dimension `d`; for `d ≥ 1` and an
unknown key it returns the partner substitution, in the caller's order, under
the first periodic rule common to all vertices of `vs` whose substitution has a
known sorted key, and the empty list when there is no such rule; for `d = 0`
and an unknown key it returns the recorded canonical vertex of the first
vertex and raises when there is none. -/
theorem getCanonicalEntityNodes_spec (mt : MeshTopology) :
    (∀ (d : Nat) (vs : List IndexType), keyKnown mt d vs = true →
      getCanonicalEntityNodesViaPeriodicBCs mt d vs = Except.ok vs) ∧
    (∀ (d : Nat) (vs : List IndexType), 1 ≤ d →
      (∀ r ∈ commonPeriodicRules mt vs, ∀ v ∈ vs,
        (mapFind mt._equivalentNodeViaPeriodicBC (v, r)).isSome = true) →
      getCanonicalEntityNodesViaPeriodicBCs mt d vs = Except.ok (canonicalNodesSpec mt d vs) ∧
      (keyKnown mt d vs = false →
        (∀ r ∈ commonPeriodicRules mt vs, keyKnown mt d (substitutePartners mt r vs) = false) →
        getCanonicalEntityNodesViaPeriodicBCs mt d vs = Except.ok [])) ∧
    (∀ (v : IndexType) (rest : List IndexType), keyKnown mt 0 (v :: rest) = false →
      getCanonicalEntityNodesViaPeriodicBCs mt 0 (v :: rest)
        = match mapFind mt._canonicalVertexPeriodic v with
          | some canonical => Except.ok [canonical]
          | none => Except.error MeshError.vertexNotFound) := by
  refine ⟨fun d vs hk => getCanonical_of_known mt d vs hk, fun d vs hd hpart => ?_,
    fun v rest hk => ?_⟩
  · have hmain := getCanonical_eq_spec mt d vs hd hpart
    refine ⟨hmain, fun hk hnone => ?_⟩
    rw [hmain]
    unfold canonicalNodesSpec
    have hfind : (commonPeriodicRules mt vs).find?
        (fun r => keyKnown mt d (substitutePartners mt r vs)) = none := by
      rw [List.find?_eq_none]
      intro r hr
      rw [hnone r hr]
      exact Bool.false_ne_true
    simp only [hk, Bool.false_eq_true, if_false, hfind]
  · have hk' := hk
    unfold keyKnown at hk'
    unfold getCanonicalEntityNodesViaPeriodicBCs
    simp only [hk', Bool.false_eq_true, if_false, if_true]
    cases mapFind mt._canonicalVertexPeriodic v <;> rfl

set_option maxRecDepth 100000 in
/-- Witness of the amended C19: in the periodic one-quadrilateral mesh the known
edge `[2, 1]` is returned as it is; the list `[3, 0]` of the left edge has an
unknown key, the rule `(0, 0)` is common to its vertices and substitutes
`[2, 1]`, which is returned; the diagonal `[0, 2]` has no common rule and gives
the empty list; and in dimension 0 vertex 1 gives its canonical vertex 0. -/
theorem getCanonicalEntityNodes_spec_witness :
    keyKnown periodicQuadMesh 1 [1, 2] = true ∧
      getCanonicalEntityNodesViaPeriodicBCs periodicQuadMesh 1 [2, 1] = Except.ok [2, 1] ∧
      keyKnown periodicQuadMesh 1 [3, 0] = false ∧
      commonPeriodicRules periodicQuadMesh [3, 0] = [(0, 0)] ∧
      substitutePartners periodicQuadMesh (0, 0) [3, 0] = [2, 1] ∧
      getCanonicalEntityNodesViaPeriodicBCs periodicQuadMesh 1 [3, 0]
        = Except.ok (canonicalNodesSpec periodicQuadMesh 1 [3, 0]) ∧
      canonicalNodesSpec periodicQuadMesh 1 [3, 0] = [2, 1] ∧
      getCanonicalEntityNodesViaPeriodicBCs periodicQuadMesh 1 [0, 2] = Except.ok [] ∧
      getCanonicalEntityNodesViaPeriodicBCs periodicQuadMesh 0 [1] = Except.ok [0] :=
  ⟨rfl,
    (getCanonicalEntityNodes_spec periodicQuadMesh).1 1 [2, 1] rfl,
    rfl, rfl, rfl,
    ((getCanonicalEntityNodes_spec periodicQuadMesh).2.1 1 [3, 0] (by decide) (by decide)).1,
    rfl,
    ((getCanonicalEntityNodes_spec periodicQuadMesh).2.1 1 [0, 2] (by decide) (by decide)).2
      rfl (by decide),
    (getCanonicalEntityNodes_spec periodicQuadMesh).2.2 1 [] rfl⟩

set_option maxRecDepth 100000 in
/-- Counterexample to C19 as stated: in dimension 0 of the periodic
one-quadrilateral mesh the list `[7]` has an unknown key and no periodic rule,
and the call raises instead of returning the empty list; the list `[3, 0]` has
an unknown key and its only common rule substitutes a list of unknown key, and
the call returns `[2]` instead of the empty list. -/
theorem getCanonicalEntityNodes_dimension_zero :
    keyKnown periodicQuadMesh 0 [7] = false ∧
      commonPeriodicRules periodicQuadMesh [7] = [] ∧
      getCanonicalEntityNodesViaPeriodicBCs periodicQuadMesh 0 [7]
        = Except.error MeshError.vertexNotFound ∧
      keyKnown periodicQuadMesh 0 [3, 0] = false ∧
      commonPeriodicRules periodicQuadMesh [3, 0] = [(0, 0)] ∧
      keyKnown periodicQuadMesh 0 (substitutePartners periodicQuadMesh (0, 0) [3, 0]) = false ∧
      getCanonicalEntityNodesViaPeriodicBCs periodicQuadMesh 0 [3, 0] = Except.ok [2] :=
  ⟨rfl, rfl, rfl, rfl, rfl, rfl, rfl⟩

/-- C20: in a registry with periodic rules let `S` be the sorted vertex list
of the B-side description of a periodic entity: the rule `r` is the only rule
common to all vertices of `S`, every vertex `b` of `S` has the partner `p b`
under `r`, the partners form the known entity `E` of dimension `d ≥ 1`, and `S`
is not itself the key of another entity.  Then `getEntityIndex(d, S)` returns
`E`, as does `getEntityIndex` on the sorted list of the partners. -/
theorem getEntityIndex_periodic_sides_agree (mt : MeshTopology) (d : Nat)
    (S : List IndexType) (r : Nat × Nat) (p : IndexType → IndexType) (E : IndexType)
    (hd : 1 ≤ d) (hper : 0 < mt._periodicBCs.length)
    (hsorted : S.Sorted (fun a b => a < b))
    (hrule : r ∈ commonPeriodicRules mt S)
    (honly : ∀ r' ∈ commonPeriodicRules mt S, r' = r)
    (hpartner : ∀ b ∈ S, mapFind mt._equivalentNodeViaPeriodicBC (b, r) = some (p b))
    (hE : mapFind (mt._knownEntities.getD d []) (sortIndices (S.map p)) = some E)
    (hB : ∀ i, mapFind (mt._knownEntities.getD d []) S = some i → i = E) :
    getEntityIndex mt d S = Except.ok (some E) ∧
      getEntityIndex mt d (sortIndices (S.map p)) = Except.ok (some E) := by
  have hd0 : d ≠ 0 := by omega
  have hS : S ≠ [] := by
    intro hnil
    rw [hnil] at hrule
    cases hrule
  have hA : getEntityIndex mt d (sortIndices (S.map p)) = Except.ok (some E) := by
    unfold getEntityIndex
    simp only [hd0, if_false, hE]
    rfl
  refine ⟨?_, hA⟩
  cases hfind : mapFind (mt._knownEntities.getD d []) S with
  | some i =>
    unfold getEntityIndex
    simp only [hd0, if_false, hfind]
    rw [hB i hfind]
    rfl
  | none =>
    have hmem : ∀ r', r' ∈ commonPeriodicRules mt S ↔ r' = r :=
      fun r' => ⟨honly r', fun h => h ▸ hrule⟩
    have hsub : substitutePartners mt r S = S.map p := by
      unfold substitutePartners
      have : ∀ l : List IndexType, (∀ b ∈ l, b ∈ S) →
          l.filterMap (fun v => mapFind mt._equivalentNodeViaPeriodicBC (v, r)) = l.map p := by
        intro l
        induction l with
        | nil => intro _; rfl
        | cons a t ih =>
          intro hl
          rw [List.filterMap_cons, hpartner a (hl a (List.mem_cons_self _ _)),
            ih (fun b hb => hl b (List.mem_cons_of_mem _ hb))]
          rfl
      exact this S (fun b hb => hb)
    have hknown : keyKnown mt d (substitutePartners mt r S) = true := by
      unfold keyKnown
      rw [hsub, hE]
      rfl
    have hparts : ∀ r' ∈ commonPeriodicRules mt S, ∀ v ∈ S,
        (mapFind mt._equivalentNodeViaPeriodicBC (v, r')).isSome = true := by
      intro r' hr' v hv
      rw [(hmem r').1 hr', hpartner v hv]
      rfl
    have hcan := getCanonical_eq_spec mt d S hd hparts
    have hSkey : keyKnown mt d S = false := by
      unfold keyKnown
      rw [sortIndices_of_sorted S hsorted, hfind]
      rfl
    have hfirst : (commonPeriodicRules mt S).find?
        (fun r' => keyKnown mt d (substitutePartners mt r' S)) = some r := by
      cases hl : commonPeriodicRules mt S with
      | nil =>
        have := (hmem r).2 rfl
        rw [hl] at this
        cases this
      | cons a t =>
        have ha : a = r := (hmem a).1 (by rw [hl]; exact List.mem_cons_self _ _)
        subst ha
        rw [List.find?_cons, hknown]
    have hspec : canonicalNodesSpec mt d S = S.map p := by
      unfold canonicalNodesSpec
      simp only [hSkey, Bool.false_eq_true, if_false, hfirst, hsub]
    rw [hspec] at hcan
    have hlen : 0 < (S.map p).length := by
      rw [List.length_map]
      exact List.length_pos.2 hS
    unfold getEntityIndex
    simp only [hd0, if_false, hfind, gt_iff_lt, hper, if_true, hcan, bind, Except.bind, hlen, hE]
    rfl

set_option maxRecDepth 100000 in
/-- Witness of C20: in the periodic one-quadrilateral mesh the left edge
`[0, 3]` and the right edge `[1, 2]`, its image under the rule `(0, 0)`,
both resolve to edge 1. -/
theorem getEntityIndex_periodic_sides_agree_witness :
    getEntityIndex periodicQuadMesh 1 [0, 3] = Except.ok (some 1) ∧
      getEntityIndex periodicQuadMesh 1 [1, 2] = Except.ok (some 1) :=
  getEntityIndex_periodic_sides_agree periodicQuadMesh 1 [0, 3] (0, 0)
    (fun b => if b = 0 then 1 else 2) 1 (by decide) (by decide) (by decide) (by decide)
    (by decide) (by decide) rfl (by decide)

/-- C15: when both claimant slots of a side entity are occupied, by the cells
`c1` and `c2`, `addCellForSide` with a cell that has no parent, or whose parent
is neither `c1` nor `c2`, raises, and the claimant table after the call is the
one before it; and `getCellCountForSide` reports 0, 1 or 2 for every side of
every topology. -/
theorem addCellForSide_third_cell_raises (mt : MeshTopology) (cellIndex : IndexType)
    (sideOrdinal : Nat) (side c1 c2 : IndexType) (s1 s2 : Nat) (cellToAdd : Cell)
    (hentry : mt._cellsForSideEntities[side]? = some (some (c1, s1), some (c2, s2)))
    (hcell : mt.getCell cellIndex = Except.ok cellToAdd)
    (hparent : ∀ pointer, cellToAdd._parent = some pointer →
      ∃ parent, mt.derefCell (some pointer) = Except.ok parent ∧
        parent._cellIndex ≠ c1 ∧ parent._cellIndex ≠ c2) :
    addCellForSide mt cellIndex sideOrdinal (some side)
        = Except.error MeshError.thirdCellForSide ∧
      (addCellForSideTables mt cellIndex sideOrdinal (some side))._cellsForSideEntities
        = mt._cellsForSideEntities ∧
      (∀ (mt' : MeshTopology) (side' : IndexType),
        getCellCountForSide mt' side' = 0 ∨ getCellCountForSide mt' side' = 1 ∨
          getCellCountForSide mt' side' = 2) := by
  have hlen : ¬ mt._cellsForSideEntities.length ≤ side := by
    intro hle
    rw [List.getElem?_eq_none hle] at hentry
    cases hentry
  have hraise : addCellForSide mt cellIndex sideOrdinal (some side)
      = Except.error MeshError.thirdCellForSide := by
    unfold addCellForSide
    simp only [hlen, if_false, hentry, hcell]
    cases hp : cellToAdd._parent with
    | none =>
      simp
      rfl
    | some pointer =>
      obtain ⟨parent, hderef, h1, h2⟩ := hparent pointer hp
      simp only [hderef]
      simp [h1, h2]
      rfl
  refine ⟨hraise, ?_, ?_⟩
  · unfold addCellForSideTables
    rw [hraise]
  · intro mt' side'
    unfold getCellCountForSide
    split <;> simp

/-- Amended C14: when the part of `addCell` after its index check (the
registration of the sub-entities, the link to the parent, the claims of the
sides and the linking of the neighbours) completes without error, `addCell`
raises if and only if the index is in the cell table or is greater than the
next cell index; a call that returns with the index equal to the next cell
index has increased the next cell index and the active-cell count by one, and
with a smaller index it has left both as they were. -/
theorem addCell_raises_iff (tools : CellTools) (fuel : Nat) (mt : MeshTopology)
    (cellIndex : IndexType) (cellTopo : CellTopology) (cellVertices : List IndexType)
    (parent : Option IndexType)
    (hrest : ∀ mt1, countNewCell mt cellIndex = Except.ok mt1 →
      ∃ mt', addCellCounted tools fuel mt1 cellIndex cellTopo cellVertices parent
        = Except.ok mt') :
    ((∃ err, addCell tools fuel mt cellIndex cellTopo cellVertices parent = Except.error err) ↔
      ((mapFind mt._cells cellIndex).isSome = true ∨ mt._nextCellIndex < cellIndex)) ∧
    (∀ mt', addCell tools fuel mt cellIndex cellTopo cellVertices parent = Except.ok mt' →
      (cellIndex = mt._nextCellIndex →
        mt'._nextCellIndex = mt._nextCellIndex + 1 ∧
          mt'._activeCellCount = mt._activeCellCount + 1) ∧
      (cellIndex < mt._nextCellIndex →
        mt'._nextCellIndex = mt._nextCellIndex ∧
          mt'._activeCellCount = mt._activeCellCount)) := by
  have heq := addCell_eq_counted tools fuel mt cellIndex cellTopo cellVertices parent
  by_cases hin : (mapFind mt._cells cellIndex).isSome = true
  · have hc : countNewCell mt cellIndex = Except.error MeshError.cellExists := by
      unfold countNewCell
      rw [if_pos hin]
      rfl
    rw [hc] at heq
    refine ⟨⟨fun _ => Or.inl hin, fun _ => ⟨_, heq⟩⟩, fun mt' h => ?_⟩
    rw [heq] at h
    cases h
  · by_cases hlt : cellIndex < mt._nextCellIndex
    · have hc : countNewCell mt cellIndex = Except.ok mt := by
        unfold countNewCell
        rw [if_neg hin, if_pos hlt]
        rfl
      obtain ⟨mt2, h2⟩ := hrest mt hc
      rw [hc] at heq
      have hok : addCell tools fuel mt cellIndex cellTopo cellVertices parent = Except.ok mt2 :=
        heq.trans h2
      refine ⟨⟨fun ⟨err, herr⟩ => ?_, fun hor => ?_⟩, fun mt' h => ?_⟩
      · rw [hok] at herr
        cases herr
      · rcases hor with h1 | h1
        · exact absurd h1 hin
        · exact absurd hlt (Nat.lt_asymm h1)
      · rw [hok] at h
        cases h
        have hcnt := addCellCounted_counters _ _ _ _ _ _ _ _ h2
        exact ⟨fun he => absurd hlt (by rw [he]; exact Nat.lt_irrefl _), fun _ => hcnt⟩
    · by_cases heq' : cellIndex = mt._nextCellIndex
      · have hc : countNewCell mt cellIndex = Except.ok
            { mt with
              _nextCellIndex := mt._nextCellIndex + 1
              _activeCellCount := mt._activeCellCount + 1 } := by
          unfold countNewCell
          rw [if_neg hin, if_neg hlt, if_pos heq']
          rfl
        obtain ⟨mt2, h2⟩ := hrest _ hc
        rw [hc] at heq
        have hok : addCell tools fuel mt cellIndex cellTopo cellVertices parent
            = Except.ok mt2 := heq.trans h2
        refine ⟨⟨fun ⟨err, herr⟩ => ?_, fun hor => ?_⟩, fun mt' h => ?_⟩
        · rw [hok] at herr
          cases herr
        · rcases hor with h1 | h1
          · exact absurd h1 hin
          · exact absurd h1 (by rw [heq']; exact Nat.lt_irrefl _)
        · rw [hok] at h
          cases h
          have hcnt := addCellCounted_counters _ _ _ _ _ _ _ _ h2
          exact ⟨fun _ => hcnt, fun hl => absurd hl hlt⟩
      · have hc : countNewCell mt cellIndex = Except.error MeshError.cellIndexTooLarge := by
          unfold countNewCell
          rw [if_neg hin, if_neg hlt, if_neg heq']
          rfl
        rw [hc] at heq
        refine ⟨⟨fun _ => Or.inr ?_, fun _ => ⟨_, heq⟩⟩, fun mt' h => ?_⟩
        · exact Nat.lt_of_le_of_ne (Nat.le_of_not_lt hlt) (fun h => heq' h.symm)
        · rw [heq] at h
          cases h

/-- Witness of the amended C14: the first cell of the line mesh has the next
cell index 0 and is added, the counters going from 0 to 1; adding the index 0
again raises, as does adding the index 2 when the next index is 1. -/
theorem addCell_raises_iff_witness :
    addCell sampleTools 10 (MeshTopology.getVertexIndices (MeshTopology.init 1 []) [[0], [4]]).1
        0 lineTopology [0, 1] none = Except.ok lineMesh ∧
      lineMesh._nextCellIndex = 0 + 1 ∧ lineMesh._activeCellCount = 0 + 1 ∧
      (∃ err, addCell sampleTools 10 lineMesh 0 lineTopology [0, 1] none = Except.error err) ∧
      (∃ err, addCell sampleTools 10 lineMesh 2 lineTopology [0, 1] none = Except.error err) :=
  have hok : addCell sampleTools 10
      (MeshTopology.getVertexIndices (MeshTopology.init 1 []) [[0], [4]]).1
      0 lineTopology [0, 1] none = Except.ok lineMesh := eq_ok_stateOf _ rfl
  have hrest : ∀ mt1,
      countNewCell (MeshTopology.getVertexIndices (MeshTopology.init 1 []) [[0], [4]]).1 0
        = Except.ok mt1 →
      ∃ mt', addCellCounted sampleTools 10 mt1 0 lineTopology [0, 1] none = Except.ok mt' :=
    fun mt1 h1 => by
      cases h1
      exact ⟨_, eq_ok_stateOf _ rfl⟩
  have hcounters := ((addCell_raises_iff sampleTools 10
    (MeshTopology.getVertexIndices (MeshTopology.init 1 []) [[0], [4]]).1
    0 lineTopology [0, 1] none hrest).2 lineMesh hok).1 rfl
  ⟨hok, hcounters.1, hcounters.2,
    (addCell_raises_iff sampleTools 10 lineMesh 0 lineTopology [0, 1] none
      (fun mt1 h1 => by cases h1)).1.2 (Or.inl rfl),
    (addCell_raises_iff sampleTools 10 lineMesh 2 lineTopology [0, 1] none
      (fun mt1 h1 => by cases h1)).1.2 (Or.inr (by decide))⟩

/-- Counterexample to C14 as stated: for a line cell whose two vertices are the
same vertex, with the next cell index, the sub-entities register and both sides
are claimed without error, and `addCell` raises all the same, in the linking of
the neighbours, because the two claimants of the one side are the same cell. -/
theorem addCell_raises_with_fresh_index :
    mapFind (MeshTopology.getVertexIndices (MeshTopology.init 1 []) [[0]]).1._cells 0 = none ∧
      (MeshTopology.getVertexIndices (MeshTopology.init 1 []) [[0]]).1._nextCellIndex = 0 ∧
      (∃ mt1 mt2 perms mt5,
        countNewCell (MeshTopology.getVertexIndices (MeshTopology.init 1 []) [[0]]).1 0
          = Except.ok mt1 ∧
        foldExcept (addCellEntitiesOfDim sampleTools 0 lineTopology [0, 0]) (mt1, [])
          (List.range mt1._spaceDim) = Except.ok (mt2, perms) ∧
        foldExcept (claimSide 0) (insertCell mt2 0 lineTopology [0, 0] perms)
          (List.range lineTopology.getSideCount) = Except.ok mt5) ∧
      addCell sampleTools 10 (MeshTopology.getVertexIndices (MeshTopology.init 1 []) [[0]]).1
        0 lineTopology [0, 0] none = Except.error MeshError.sameCellNeighbor := by
  refine ⟨rfl, rfl, ⟨_, _, _, _, rfl, rfl, eq_ok_stateOf _ rfl⟩, rfl⟩

/-- Witness of C15: vertex 1 of the two-cell line mesh is claimed by the cells 0
and 1; a further claim by the parentless cell 0 raises and leaves the claimant
table. -/
theorem addCellForSide_third_cell_raises_witness :
    twoCellMesh._cellsForSideEntities[1]? = some (some (0, 1), some (1, 0)) ∧
      addCellForSide twoCellMesh 0 0 (some 1) = Except.error MeshError.thirdCellForSide ∧
      (addCellForSideTables twoCellMesh 0 0 (some 1))._cellsForSideEntities
        = twoCellMesh._cellsForSideEntities :=
  ⟨rfl,
    (addCellForSide_third_cell_raises twoCellMesh 0 0 1 0 1 1 0 (cellOf twoCellMesh 0) rfl rfl
      (fun pointer hp => by cases hp)).1,
    (addCellForSide_third_cell_raises twoCellMesh 0 0 1 0 1 1 0 (cellOf twoCellMesh 0) rfl rfl
      (fun pointer hp => by cases hp)).2.1⟩

/-- C11: for a cell, a side ordinal `s` below the side count and a view: if the
stored neighbour of the cell on `s` is valid in the view, `getNeighborInfo`
returns the stored pair; otherwise every result `(n, t)` other than none has
`n` valid in the view, is reached from the stored neighbour by one or more
steps from a cell to its parent that translate the side through the
child-to-parent side map of the parent's pattern, and `getNeighborInfo` of the
cell `n` on side `t` in the base topology returns the cell itself. -/
theorem getNeighborInfo_stored_or_ancestor (mt : MeshTopology) (fuel : Nat)
    (view : MeshTopologyView) (cell : Cell) (s : Nat) (stored : Option (IndexType × Nat))
    (hs : s < cell._cellTopo.getSideCount) (hstored : cell._neighbors[s]? = some stored) :
    (view.isValidCellIndex (stored.map Prod.fst) = true →
      Cell.getNeighborInfo mt (fuel + 1) view cell s = Except.ok stored) ∧
    (view.isValidCellIndex (stored.map Prod.fst) = false →
      ∀ (n : IndexType) (t : Nat),
        Cell.getNeighborInfo mt (fuel + 1) view cell s = Except.ok (some (n, t)) →
        ∃ storedNeighbor, stored = some storedNeighbor ∧
          view.isValidCellIndex (some n) = true ∧
          (∃ k, 1 ≤ k ∧ parentSideSteps mt k storedNeighbor = some (n, t)) ∧
          (∃ (ancestor : Cell) (back : Option (IndexType × Nat)), ancestor._cellIndex = n ∧
            Cell.getNeighborInfo mt fuel (mt.asView fuel) ancestor t = Except.ok back ∧
            back.map Prod.fst = some cell._cellIndex)) := by
  have hge : ¬ s ≥ cell._cellTopo.getSideCount := Nat.not_le.2 hs
  constructor
  · intro hvalid
    unfold Cell.getNeighborInfo
    simp only [hge, if_false, hstored, hvalid, if_true]
    rfl
  · intro hinvalid n t h
    unfold Cell.getNeighborInfo at h
    simp only [hge, if_false, hstored, hinvalid, Bool.false_eq_true] at h
    cases stored with
    | none => cases h
    | some storedNeighbor =>
      dsimp only at h
      split at h
      · obtain ⟨hv, hsteps, hback⟩ := ancestralNeighborLoop_sound mt _ view _ fuel _ n t h
        exact ⟨storedNeighbor, rfl, hv, hsteps, hback⟩
      · cases h

set_option maxRecDepth 100000 in
/-- Witness of C11: in the two-cell line mesh with cell 0 refined into the cells
2 and 3, the stored neighbour of cell 1 on side 0 is the child `(3, 1)`, which
the base topology returns as it is; in the view of the root cells the child is
not valid and the result is its parent with the translated side, `(0, 1)`. -/
theorem getNeighborInfo_stored_or_ancestor_witness :
    Cell.getNeighborInfo refinedTwoCellMesh 10 (refinedTwoCellMesh.asView 10)
        (cellOf refinedTwoCellMesh 1) 0 = Except.ok (some (3, 1)) ∧
      Cell.getNeighborInfo refinedTwoCellMesh 10 (rootView refinedTwoCellMesh)
        (cellOf refinedTwoCellMesh 1) 0 = Except.ok (some (0, 1)) ∧
      (∃ storedNeighbor, some ((3 : IndexType), 1) = some storedNeighbor ∧
        (rootView refinedTwoCellMesh).isValidCellIndex (some 0) = true ∧
        (∃ k, 1 ≤ k ∧ parentSideSteps refinedTwoCellMesh k storedNeighbor = some (0, 1)) ∧
        (∃ (ancestor : Cell) (back : Option (IndexType × Nat)), ancestor._cellIndex = 0 ∧
          Cell.getNeighborInfo refinedTwoCellMesh 9 (refinedTwoCellMesh.asView 9) ancestor 1
            = Except.ok back ∧
          back.map Prod.fst = some (cellOf refinedTwoCellMesh 1)._cellIndex)) :=
  ⟨(getNeighborInfo_stored_or_ancestor refinedTwoCellMesh 9 (refinedTwoCellMesh.asView 10)
      (cellOf refinedTwoCellMesh 1) 0 (some (3, 1)) (by decide) rfl).1 rfl,
    rfl,
    (getNeighborInfo_stored_or_ancestor refinedTwoCellMesh 9 (rootView refinedTwoCellMesh)
      (cellOf refinedTwoCellMesh 1) 0 (some (3, 1)) (by decide) rfl).2 rfl 0 1 rfl⟩

/-- C13: in pass `s` of the second side loop of `addCell` for a cell `c` with a
parent, let `e` be the side entity found for side `s` and `c` its only
claimant.  If the constraining side ancestry of `e` is non-empty and the
active-cell list of its last ancestor is the one entry `(n, t)` with `n` not
`c` itself, the branch returns and the stored neighbour of `c` on `s` is
`(n, t)`, which the rest of the pass keeps; if that list does not have exactly
one entry `addCell` raises; and if the ancestry is empty the pass leaves the
neighbours of `c` as they were. -/
theorem addCell_links_single_claimant (tools : CellTools) (fuel : Nat) (mt mts mt1 : MeshTopology)
    (c : IndexType) (topo : CellTopology) (vs : List IndexType) (p : IndexType) (s : Nat)
    (e : IndexType) (hs : s < topo.getSideCount)
    (hstart : addCellBeforeLinkSide tools fuel mt c topo vs (some p) s = Except.ok mts)
    (hside : cellSideEntityIndex mts c s = Except.ok (some e, mt1))
    (hcount : mt1.getCellCountForSide e = 1) :
    (∀ (anc : List (IndexType × Nat)) (last : IndexType × Nat) (n : IndexType) (t : Nat),
      getConstrainingSideAncestry fuel mt1 e = Except.ok anc → anc.getLast? = some last →
      (mt1._activeCellsForEntities.getD mt1.sideDim [])[last.1]? = some [(n, t)] → n ≠ c →
      ∃ mt2, linkSingleClaimant fuel mt1 c (some p) s e = Except.ok mt2 ∧
        (∃ cell, mt2.getCell c = Except.ok cell ∧ cell._neighbors[s]? = some (some (n, t))) ∧
        linkSide tools fuel c (some p) mts s = addSidesForSubEntities tools mt2 e ∧
        (∀ mt3, addSidesForSubEntities tools mt2 e = Except.ok mt3 → mt3._cells = mt2._cells)) ∧
    (∀ (anc : List (IndexType × Nat)) (last : IndexType × Nat) (entries : List (IndexType × Nat)),
      getConstrainingSideAncestry fuel mt1 e = Except.ok anc → anc.getLast? = some last →
      (mt1._activeCellsForEntities.getD mt1.sideDim [])[last.1]? = some entries →
      entries.length ≠ 1 →
      addCell tools fuel mt c topo vs (some p) = Except.error MeshError.activeCellEntriesSize) ∧
    (getConstrainingSideAncestry fuel mt1 e = Except.ok [] →
      linkSingleClaimant fuel mt1 c (some p) s e = Except.ok mt1 ∧
      linkSide tools fuel c (some p) mts s = addSidesForSubEntities tools mt1 e ∧
      (∀ mt3, addSidesForSubEntities tools mt1 e = Except.ok mt3 →
        ∃ cell cell3, mts.getCell c = Except.ok cell ∧ mt3.getCell c = Except.ok cell3 ∧
          cell3._neighbors = cell._neighbors)) := by
  obtain ⟨⟨cell, hcell, hidx, htopo, hlen⟩, _⟩ :=
    addCellBeforeLinkSide_spec tools fuel mt mts c topo vs (some p) s hstart
  obtain ⟨cell0, cell', hcell0, hentity, hmt1⟩ := cellEntityIndex_inv _ _ _ _ _ _ hside
  rw [hcell] at hcell0
  cases hcell0
  have hshape := entityIndex_sameShape _ _ _ _ _ _ hentity
  have hnb := entityIndex_neighbors _ _ _ _ _ _ hentity
  have hcell1 : mapFind mt1._cells c = some cell' := by
    rw [hmt1]
    show mapFind (mapSet mts._cells c cell') c = _
    rw [mapFind_mapSet, if_pos rfl]
  have hpass : ∀ r : Except MeshError MeshTopology,
      linkSingleClaimant fuel mt1 c (some p) s e = r →
      linkSide tools fuel c (some p) mts s
        = match r with
          | Except.error err => Except.error err
          | Except.ok mt2 => addSidesForSubEntities tools mt2 e := by
    intro r hr
    unfold linkSide
    rw [hside]
    dsimp only
    rw [hcount]
    simp only [OfNat.one_ne_ofNat, if_false, if_true, hr]
    rfl
  refine ⟨?_, ?_, ?_⟩
  · intro anc last n t hanc hlast hactive hn
    have hset := setNeighbor_ok mt1 c s n t false cell' hcell1
      (fun h => absurd (h.trans (hshape.1.trans hidx)) hn)
      (by rw [hshape.2.1, htopo]; exact hs)
    have hlink : linkSingleClaimant fuel mt1 c (some p) s e = Except.ok { mt1 with
        _cells := mapSet mt1._cells c
          { cell' with _neighbors := modifyAt cell'._neighbors s (fun _ => some (n, t)) } } := by
      unfold linkSingleClaimant
      simp only [hanc, hlast, hactive]
      exact hset
    refine ⟨_, hlink,
      ⟨{ cell' with _neighbors := modifyAt cell'._neighbors s (fun _ => some (n, t)) },
        getCell_of_mapFind _ _ _ ?_, ?_⟩, ?_, ?_⟩
    · show mapFind (mapSet mt1._cells c _) c = _
      rw [mapFind_mapSet, if_pos rfl]
    · show (modifyAt cell'._neighbors s (fun _ => some (n, t)))[s]? = _
      have hslen : s < cell'._neighbors.length := by
        rw [hshape.2.2.1, hlen]
        exact hs
      rw [getElem?_modifyAt, if_pos rfl, List.getElem?_eq_getElem hslen]
      rfl
    · rw [hpass _ hlink]
    · intro mt3 h3
      exact (addSidesForSubEntities_cells _ _ _ _ h3).1
  · intro anc last entries hanc hlast hactive hne
    have hlink : linkSingleClaimant fuel mt1 c (some p) s e
        = Except.error MeshError.activeCellEntriesSize := by
      unfold linkSingleClaimant
      simp only [hanc, hlast, hactive]
      cases entries with
      | nil => rfl
      | cons a rest =>
        cases rest with
        | nil => exact absurd rfl hne
        | cons b rest2 => rfl
    rw [addCell_eq_linkSide_from tools fuel mt c topo vs (some p) s hs, hstart]
    dsimp only
    rw [hpass _ hlink]
  · intro hanc
    have hlink : linkSingleClaimant fuel mt1 c (some p) s e = Except.ok mt1 := by
      unfold linkSingleClaimant
      simp only [hanc]
      rfl
    refine ⟨hlink, by rw [hpass _ hlink], ?_⟩
    intro mt3 h3
    refine ⟨cell, cell', getCell_of_mapFind _ _ _ hcell, getCell_of_mapFind _ _ _ ?_, hnb⟩
    rw [(addSidesForSubEntities_cells _ _ _ _ h3).1]
    exact hcell1

set_option maxRecDepth 1000000 in
/-- Witness of C13: when the second child, cell 3, is added to the
two-quadrilateral mesh being refined, its side 1 has the side entity 9, a half of
the edge shared with the unrefined cell 1, and cell 3 is its only claimant; the
ancestry of the side is the shared edge 1, whose one active entry is `(1, 3)`,
and the stored neighbour of cell 3 on side 1 becomes `(1, 3)`. -/
theorem addCell_links_single_claimant_witness :
    getConstrainingSideAncestry 10 secondChildPassSide 9 = Except.ok [(1, 0)] ∧
      (secondChildPassSide._activeCellsForEntities.getD secondChildPassSide.sideDim [])[1]?
        = some [(1, 3)] ∧
      (∃ mt2, linkSingleClaimant 10 secondChildPassSide 3 (some 0) 1 9 = Except.ok mt2 ∧
        (∃ cell, mt2.getCell 3 = Except.ok cell ∧ cell._neighbors[1]? = some (some (1, 3))) ∧
        linkSide quadTools 10 3 (some 0) secondChildPass 1
          = addSidesForSubEntities quadTools mt2 9 ∧
        (∀ mt3, addSidesForSubEntities quadTools mt2 9 = Except.ok mt3 →
          mt3._cells = mt2._cells)) ∧
      (cellOf (stateOf (addCell quadTools 10 refiningQuadMeshOneChild 3 quadTopology
        [6, 1, 7, 10] (some 0))) 3)._neighbors = [none, some (1, 3), none, some (2, 1)] :=
  ⟨rfl, rfl,
    (addCell_links_single_claimant quadTools 10 refiningQuadMeshOneChild secondChildPass
      secondChildPassSide 3 quadTopology [6, 1, 7, 10] 0 1 9 (by decide)
      (eq_ok_stateOf _ rfl) (eq_ok_lookupStateOf _ _ _ rfl) rfl).1
      [(1, 0)] (1, 0) 1 3 rfl rfl rfl (by decide),
    rfl⟩

/-- Counterexample to C21: on the mesh of two line cells the halo `[0, 1]` is the
full cell set, and the call, which rebuilds nothing, moves the pruning ordinal
from 0 to 1. -/
theorem pruneToInclude_full_halo_increments :
    pruningHalo (haloOf [0, 1]) (beginPrune twoCellMesh [0, 1]) [0, 1] 0
        = twoCellMesh._cells.map Prod.fst ∧
      twoCellMesh._pruningOrdinal = 0 ∧
      (pruneToInclude sampleTools (haloOf [0, 1]) 10 twoCellMesh [0, 1] 0).map
        (fun mt' => mt'._pruningOrdinal) = Except.ok 1 :=
  ⟨rfl, rfl, rfl⟩

/-- C21, amended: when the halo of the owned cells is the full cell set (and the
ordinal is below the largest signed 32-bit value), `pruneToInclude` returns the
topology with every table as it was, the pruning ordinal incremented by one and
the owned cells replaced by the argument. -/
theorem pruneToInclude_full_halo (tools : CellTools) (cellHalo : CellHalo) (fuel : Nat)
    (mt : MeshTopology) (owned : List IndexType) (dim : Nat)
    (hord : mt._pruningOrdinal < 2147483647)
    (hhalo : pruningHalo cellHalo (beginPrune mt owned) owned dim = mt._cells.map Prod.fst) :
    pruneToInclude tools cellHalo fuel mt owned dim
      = Except.ok
        { mt with _pruningOrdinal := mt._pruningOrdinal + 1, _ownedCellIndices := owned } := by
  unfold pruneToInclude
  rw [if_neg (by omega)]
  dsimp only
  rw [hhalo, if_pos (by rw [List.length_map]; rfl)]
  rfl

/-- Witness of the amended C21 on the mesh of two line cells with the halo `[0, 1]`. -/
theorem pruneToInclude_full_halo_witness :
    pruneToInclude sampleTools (haloOf [0, 1]) 10 twoCellMesh [0, 1] 0
      = Except.ok
        { twoCellMesh with
          _pruningOrdinal := twoCellMesh._pruningOrdinal + 1, _ownedCellIndices := [0, 1] } :=
  pruneToInclude_full_halo sampleTools (haloOf [0, 1]) 10 twoCellMesh [0, 1] 0
    (by decide) (by decide)

/-- C22: every call of `pruneToInclude` that completes, and so every one that
removes a cell, leaves the pruning ordinal exactly one higher; and over any
sequence of completed operations (additions of vertices, entities and cells,
refinements, prunes) the pruning ordinal never decreases. -/
theorem pruningOrdinal_monotone (tools : CellTools) (cellHalo : CellHalo) :
    (∀ (fuel : Nat) (mt mt' : MeshTopology) (owned : List IndexType) (dim : Nat),
      pruneToInclude tools cellHalo fuel mt owned dim = Except.ok mt' →
      mt'.pruningOrdinal = mt.pruningOrdinal + 1) ∧
    (∀ mt mt' : MeshTopology, Relation.ReflTransGen (Operation tools cellHalo) mt mt' →
      mt.pruningOrdinal ≤ mt'.pruningOrdinal) := by
  have hprune : ∀ (fuel : Nat) (mt mt' : MeshTopology) (owned : List IndexType) (dim : Nat),
      pruneToInclude tools cellHalo fuel mt owned dim = Except.ok mt' →
      mt'.pruningOrdinal = mt.pruningOrdinal + 1 := by
    intro fuel mt mt' owned dim h
    obtain ⟨_, ⟨_, hmt'⟩ | ⟨_, hre⟩⟩ := pruneToInclude_inv tools cellHalo fuel mt mt' owned dim h
    · rw [hmt']
      rfl
    · have hs : (pruningHalo cellHalo (beginPrune mt owned) owned dim).Sorted
          (fun a b => a < b) := sorted_setOfList _
      exact (pruneRebuild_cells tools fuel _ mt' _ hs hre).1
  have hop : ∀ a b : MeshTopology, Operation tools cellHalo a b →
      a.pruningOrdinal ≤ b.pruningOrdinal := by
    intro a b hab
    cases hab with
    | addVertices _ vertices =>
      exact Nat.le_of_eq (getVertexIndices_steady false false a vertices).ordinal.symm
    | addEntity _ _ topo vs i p h =>
      exact Nat.le_of_eq (addEntity_steady false false tools a b topo vs i p h).ordinal.symm
    | addCell fuel _ _ c topo vs parent h =>
      exact Nat.le_of_eq (addCell_steady false tools fuel a b c topo vs parent h).ordinal.symm
    | refineCell fuel _ _ c pat first h =>
      exact Nat.le_of_eq (refineCell_steady tools fuel a b c pat first h).ordinal.symm
    | pruneToInclude fuel _ _ owned dim h =>
      rw [hprune fuel a b owned dim h]
      exact Nat.le_succ _
  refine ⟨hprune, ?_⟩
  intro mt mt' hsteps
  induction hsteps with
  | refl => exact Nat.le_refl _
  | tail _ hstep ih => exact Nat.le_trans ih (hop _ _ hstep)

set_option maxRecDepth 1000000 in
/-- Witness of C22: the prune of the filled line mesh to the cells 1 and 2
completes and moves the pruning ordinal from 0 to 1. -/
theorem pruningOrdinal_monotone_witness :
    pruneToInclude sampleTools (haloOf [1, 2]) 10 filledLineMesh [1] 0
        = Except.ok prunedLineMesh ∧
      prunedLineMesh.pruningOrdinal = filledLineMesh.pruningOrdinal + 1 ∧
      filledLineMesh.pruningOrdinal ≤ prunedLineMesh.pruningOrdinal :=
  ⟨eq_ok_stateOf _ rfl,
    (pruningOrdinal_monotone sampleTools (haloOf [1, 2])).1 10 filledLineMesh prunedLineMesh
      [1] 0 (eq_ok_stateOf _ rfl),
    (pruningOrdinal_monotone sampleTools (haloOf [1, 2])).2 filledLineMesh prunedLineMesh
      (Relation.ReflTransGen.single
        (Operation.pruneToInclude 10 filledLineMesh prunedLineMesh [1] 0
          (eq_ok_stateOf _ rfl)))⟩

/-- C23: when `pruneToInclude` completes with a halo `H` that does not have as
many cells as the cell table (as a proper subset of the known cells has), the
keys of the cell table are then exactly the cells of `H`, in increasing order,
every cell of `H` is stored under the index it had, with the same cell index
in its record, and the valid cell set is `H`. -/
theorem pruneToInclude_cell_table (tools : CellTools) (cellHalo : CellHalo) (fuel : Nat)
    (mt mt' : MeshTopology) (owned : List IndexType) (dim : Nat)
    (h : pruneToInclude tools cellHalo fuel mt owned dim = Except.ok mt')
    (hproper : (pruningHalo cellHalo (beginPrune mt owned) owned dim).length
      ≠ mt._cells.length) :
    mt'._cells.map Prod.fst = pruningHalo cellHalo (beginPrune mt owned) owned dim ∧
      (∀ k ∈ pruningHalo cellHalo (beginPrune mt owned) owned dim,
        ∃ cell cell', mapFind mt._cells k = some cell ∧ mapFind mt'._cells k = some cell' ∧
          cell'._cellIndex = cell._cellIndex) ∧
      mt'._validCells = pruningHalo cellHalo (beginPrune mt owned) owned dim := by
  obtain ⟨_, ⟨hlen, _⟩ | ⟨_, hre⟩⟩ := pruneToInclude_inv tools cellHalo fuel mt mt' owned dim h
  · exact absurd hlen hproper
  · have hs : (pruningHalo cellHalo (beginPrune mt owned) owned dim).Sorted
        (fun a b => a < b) := sorted_setOfList _
    obtain ⟨_, _, hkeys, hvalid, hex, lookup, hfind⟩ :=
      pruneRebuild_cells tools fuel _ mt' _ hs hre
    refine ⟨hkeys, fun k hk => ?_, hvalid⟩
    obtain ⟨cell, hcell⟩ := hex k hk
    have hcell0 : mapFind mt._cells k = some cell := hcell
    refine ⟨cell,
      { cell with _vertices := cell._vertices.map (newIndex lookup), _entityIndices := [] },
      hcell0, ?_, rfl⟩
    rw [hfind k, if_pos hk, hcell]
    rfl

set_option maxRecDepth 1000000 in
/-- Witness of C23: the filled line mesh has the cells 0, 1 and 2; pruned to the
halo of the cells 1 and 2 its cell table has the keys 1 and 2, and they are its
valid cells. -/
theorem pruneToInclude_cell_table_witness :
    pruneToInclude sampleTools (haloOf [1, 2]) 10 filledLineMesh [1] 0
        = Except.ok prunedLineMesh ∧
      filledLineMesh._cells.map Prod.fst = [0, 1, 2] ∧
      prunedLineMesh._cells.map Prod.fst = [1, 2] ∧
      prunedLineMesh._validCells = [1, 2] :=
  ⟨eq_ok_stateOf _ rfl, by decide,
    (pruneToInclude_cell_table sampleTools (haloOf [1, 2]) 10 filledLineMesh prunedLineMesh
      [1] 0 (eq_ok_stateOf _ rfl) (by decide)).1,
    (pruneToInclude_cell_table sampleTools (haloOf [1, 2]) 10 filledLineMesh prunedLineMesh
      [1] 0 (eq_ok_stateOf _ rfl) (by decide)).2.2⟩

/-- C26: when `pruneToInclude` completes with a halo that does not have as many
cells as the cell table, every cell of the new table is the record that the old
table held under the same index with only the vertex-index list replaced and
the cache of sub-entity indices emptied: the level, the parent, the child
indices, the refinement pattern and the stored neighbours are the old ones. -/
theorem pruneToInclude_cell_records (tools : CellTools) (cellHalo : CellHalo) (fuel : Nat)
    (mt mt' : MeshTopology) (owned : List IndexType) (dim : Nat)
    (h : pruneToInclude tools cellHalo fuel mt owned dim = Except.ok mt')
    (hproper : (pruningHalo cellHalo (beginPrune mt owned) owned dim).length
      ≠ mt._cells.length)
    (k : IndexType) (cell' : Cell) (hk : mapFind mt'._cells k = some cell') :
    ∃ cell, mapFind mt._cells k = some cell ∧
      cell' = { cell with _vertices := cell'._vertices, _entityIndices := [] } ∧
      cell'._level = cell._level ∧ cell'._parent = cell._parent ∧
      cell'._childIndices = cell._childIndices ∧ cell'._refPattern = cell._refPattern ∧
      cell'._neighbors = cell._neighbors := by
  obtain ⟨_, ⟨hlen, _⟩ | ⟨_, hre⟩⟩ := pruneToInclude_inv tools cellHalo fuel mt mt' owned dim h
  · exact absurd hlen hproper
  · have hs : (pruningHalo cellHalo (beginPrune mt owned) owned dim).Sorted
        (fun a b => a < b) := sorted_setOfList _
    obtain ⟨_, _, _, _, _, lookup, hfind⟩ := pruneRebuild_cells tools fuel _ mt' _ hs hre
    rw [hfind k] at hk
    split at hk
    · cases hcell : mapFind (beginPrune mt owned)._cells k with
      | none =>
        rw [hcell] at hk
        cases hk
      | some cell =>
        rw [hcell] at hk
        cases hk
        exact ⟨cell, hcell, rfl, rfl, rfl, rfl, rfl, rfl⟩
    · cases hk

set_option maxRecDepth 1000000 in
/-- Witness of C26: cell 2 of the filled line mesh, with the vertices 1 and 2 and
the neighbours cell 0 and cell 1, keeps its neighbours in the pruned mesh, where
its vertices are 0 and 1. -/
theorem pruneToInclude_cell_records_witness :
    mapFind prunedLineMesh._cells 2 = some (cellOf prunedLineMesh 2) ∧
      (cellOf filledLineMesh 2)._vertices = [1, 2] ∧
      (cellOf prunedLineMesh 2)._vertices = [0, 1] ∧
      ∃ cell, mapFind filledLineMesh._cells 2 = some cell ∧
        cellOf prunedLineMesh 2
          = { cell with _vertices := (cellOf prunedLineMesh 2)._vertices, _entityIndices := [] } ∧
        (cellOf prunedLineMesh 2)._level = cell._level ∧
        (cellOf prunedLineMesh 2)._parent = cell._parent ∧
        (cellOf prunedLineMesh 2)._childIndices = cell._childIndices ∧
        (cellOf prunedLineMesh 2)._refPattern = cell._refPattern ∧
        (cellOf prunedLineMesh 2)._neighbors = cell._neighbors :=
  ⟨rfl, rfl, rfl,
    pruneToInclude_cell_records sampleTools (haloOf [1, 2]) 10 filledLineMesh prunedLineMesh
      [1] 0 (eq_ok_stateOf _ rfl) (by decide) 2 (cellOf prunedLineMesh 2) rfl⟩

set_option maxRecDepth 1000000 in
/-- Counterexample to C27: in the bisected tetrahedron mesh with the root cell 3
on the child edge 6, cell 3 has no parent, and each of its faces 9 to 12 has
cell 3 as its one claimant and its one active cell, so the cells 3 alone are
closed under ancestors, siblings and neighbours across faces; the edge 6 of
cell 3 has the parent edge 0, which is an edge of the refined cell 0 and not an
entity of cell 3; in the prune for the owned cell 3 with that halo and the faces
as the neighbour relation, the old-to-new map has no entry for edge 0, and the
prune raises instead of dropping the reference. -/
theorem pruneToInclude_unresolved_parent_raises :
    (cellOf edgeNeighborTetMesh 3)._parent = none ∧
      Cell.getEntityIndices edgeNeighborTetMesh (cellOf edgeNeighborTetMesh 3) 2
        = Except.ok [some 9, some 10, some 11, some 12] ∧
      [9, 10, 11, 12].map (fun f => edgeNeighborTetMesh._cellsForSideEntities[f]?)
        = [some (some (3, 0), none), some (some (3, 1), none), some (some (3, 2), none),
            some (some (3, 3), none)] ∧
      [9, 10, 11, 12].map (fun f => (edgeNeighborTetMesh._activeCellsForEntities.getD 2 [])[f]?)
        = [some [(3, 0)], some [(3, 1)], some [(3, 2)], some [(3, 3)]] ∧
      mapFind (edgeNeighborTetMesh._parentEntities.getD 1 []) 6 = some [(0, 0)] ∧
      (entitiesToKeep (beginPrune edgeNeighborTetMesh [3]) [3]).map (fun r => r.2)
        = Except.ok [[0, 4, 5, 6], [6, 10, 11, 12, 13, 14], [9, 10, 11, 12]] ∧
      pruneToInclude tetTools (haloOf [3]) 10 edgeNeighborTetMesh [3] 2
        = Except.error MeshError.parentEntityNotInLookup :=
  ⟨rfl, rfl, rfl, rfl, rfl, rfl, rfl⟩

/-- C27, amended: in one pass of the entity loop of the prune, for the kept
entity with the old index `entry.2` of dimension `d`, an old parent entity that
is not in the old-to-new map of dimension `d` makes the pass, and so the prune,
raise (when the reads before it succeed); and in a pass that completes every
old parent is in the map, the sides stored are the old sides that are in the
map of the sides, in their order and with their new indices, a generalized
parent that is not in the map of its dimension leaves no entry, and every child
list is stored with its length, each child read through the map, so that a
child that is not in the map becomes `-1` at its position. -/
theorem pruneEntity_unresolved (tools : CellTools) (mt : MeshTopology) (H : List IndexType)
    (d : Nat) (s : PrunedEntities) (entry : Nat × IndexType) :
    (∀ (entityTopo : CellTopology) (oldNodes : List IndexType)
      (r : List (IndexType × IndexType) × List IndexType × List IndexType)
      (oldActiveCells : List (IndexType × Nat)) (oldSides : List IndexType)
      (oldParents : List (IndexType × Nat)),
      getEntityTopology tools mt d entry.2 = Except.ok entityTopo →
      (mt._entities.getD d [])[entry.2]? = some oldNodes →
      foldExcept (pruneEntityNode d ((mt._canonicalEntityOrdering.getD d [])[entry.2]?))
        (s.reverseLookup.getD 0 [], [], []) oldNodes.enum = Except.ok r →
      (mt._activeCellsForEntities.getD d [])[entry.2]? = some oldActiveCells →
      (mt._sidesForEntities.getD d [])[entry.2]? = some oldSides →
      mapFind (mt._parentEntities.getD d []) entry.2 = some oldParents →
      (∃ p ∈ oldParents,
        mapFind ((modifyAt s.reverseLookup 0 (fun _ => r.1)).getD d []) p.1 = none) →
      pruneEntity tools mt H d s entry = Except.error MeshError.parentEntityNotInLookup) ∧
    (∀ s' : PrunedEntities, pruneEntity tools mt H d s entry = Except.ok s' →
      (∀ oldParents, mapFind (mt._parentEntities.getD d []) entry.2 = some oldParents →
        ∀ p ∈ oldParents, ∃ n, mapFind (s'.reverseLookup.getD d []) p.1 = some n) ∧
      (∀ oldSides, (mt._sidesForEntities.getD d [])[entry.2]? = some oldSides →
        s'.sidesForEntities = modifyAt s.sidesForEntities d
          (fun ss => ss ++
            [oldSides.filterMap (mapFind (s'.reverseLookup.getD mt.sideDim []))])) ∧
      (∀ oldEntry lookup,
        mapFind (mt._generalizedParentEntities.getD d []) entry.2 = some oldEntry →
        s'.reverseLookup[oldEntry.2]? = some lookup → mapFind lookup oldEntry.1 = none →
        s'.generalizedParentEntities = s.generalizedParentEntities) ∧
      (∀ refinements, mapFind (mt._childEntities.getD d []) entry.2 = some refinements →
        refinements ≠ [] →
        s'.childEntities = modifyAt s.childEntities d (fun cs => mapSet cs entry.1
          (refinements.map (fun refinement =>
            (refinement.1, prunedChildren (s'.reverseLookup.getD d []) refinement.2)))) ∧
        ∀ refinement ∈ refinements,
          (prunedChildren (s'.reverseLookup.getD d []) refinement.2).length
            = refinement.2.length ∧
          ∀ (i : Nat) (child : Option IndexType), refinement.2[i]? = some child →
            (prunedChildren (s'.reverseLookup.getD d []) refinement.2)[i]?
              = some (mapFind (s'.reverseLookup.getD d []) (unsignedIndex child)))) := by
  refine ⟨fun entityTopo oldNodes r oldActiveCells oldSides oldParents h1 h2 h3 h4 h5 h6 h7 =>
    pruneEntity_parent_error tools mt H d s entry entityTopo oldNodes r oldActiveCells oldSides
      oldParents h1 h2 h3 h4 h5 h6 h7, ?_⟩
  intro s' h
  obtain ⟨entityTopo, oldNodes, vl, nn, nc, oa, os, _, _, _, _, hsides, hparents, _, hgen, _,
    hrev, _, _, _, _, hsidesNew, hchildren, _⟩ := pruneEntity_inv tools mt H d s s' entry h
  refine ⟨?_, ?_, ?_, ?_⟩
  · intro oldParents hold p hp
    obtain ⟨np, hnp, _⟩ := hparents oldParents hold
    rw [hrev]
    exact (prunedParents_ok _ _ _ hnp).1 p hp
  · intro oldSides hold
    rw [hsides] at hold
    cases hold
    rw [hsidesNew, hrev]
  · intro oldEntry lookup hold hlookup hnone
    obtain ⟨lookup2, hl2, hnew⟩ := hgen oldEntry hold
    rw [hrev] at hlookup
    rw [hl2] at hlookup
    cases hlookup
    rw [hnew, hnone]
  · intro refinements hold hne
    refine ⟨?_, fun refinement _ => ⟨?_, fun i child hchild => ?_⟩⟩
    · rw [hchildren, hold, hrev]
      cases refinements with
      | nil => exact absurd rfl hne
      | cons a t => rfl
    · unfold prunedChildren
      rw [List.length_map]
    · rw [prunedChildren_getElem, hchild]
      rfl

set_option maxRecDepth 1000000 in
/-- Witness of the amended C27: in the bisected tetrahedron mesh with the root
cell 3, the pass for edge 6 with the tables for cell 3 raises, as its parent
edge 0 is not in the map; in the refined two-quadrilateral mesh, the pass for
edge 1 with the tables for the unrefined cell 1 completes, and the two child
edges 9 and 10 of edge 1, which are not in the map, are stored as `-1`. -/
theorem pruneEntity_unresolved_witness :
    pruneEntity tetTools edgeNeighborTetMesh [3] 1 edgeNeighborLookup (0, 6)
        = Except.error MeshError.parentEntityNotInLookup ∧
      pruneEntity quadTools refinedQuadMesh [1] 1 neighborLookup (0, 1)
        = Except.ok (prunedOf (pruneEntity quadTools refinedQuadMesh [1] 1 neighborLookup (0, 1))) ∧
      (mapFind (refinedQuadMesh._childEntities.getD 1 []) 1).map (fun l => l.map Prod.snd)
        = some [[some 9, some 10]] ∧
      (mapFind ((prunedOf (pruneEntity quadTools refinedQuadMesh [1] 1 neighborLookup
        (0, 1))).childEntities.getD 1 []) 0).map (fun l => l.map Prod.snd)
        = some [[none, none]] ∧
      (prunedChildren ((prunedOf (pruneEntity quadTools refinedQuadMesh [1] 1 neighborLookup
        (0, 1))).reverseLookup.getD 1 []) [some 9, some 10])[1]?
        = some (mapFind ((prunedOf (pruneEntity quadTools refinedQuadMesh [1] 1 neighborLookup
          (0, 1))).reverseLookup.getD 1 []) (unsignedIndex (some 10))) :=
  ⟨(pruneEntity_unresolved tetTools edgeNeighborTetMesh [3] 1 edgeNeighborLookup (0, 6)).1
      lineTopology [0, 4]
      ([(0, 0), (4, 1), (5, 2), (6, 3)], [0, 1], [0, 1])
      [(1, 0), (3, 0)] [4, 6, 9, 12] [(0, 0)] rfl rfl rfl rfl rfl rfl ⟨(0, 0), by decide, rfl⟩,
    eq_ok_prunedOf _ rfl, rfl, rfl,
    ((((pruneEntity_unresolved quadTools refinedQuadMesh [1] 1 neighborLookup (0, 1)).2
      (prunedOf (pruneEntity quadTools refinedQuadMesh [1] 1 neighborLookup (0, 1)))
      (eq_ok_prunedOf _ rfl)).2.2.2
      [(linePattern, [some 9, some 10])] rfl (by simp)).2
      (linePattern, [some 9, some 10]) (List.mem_singleton.2 rfl)).2 1 (some 10) rfl⟩

/-- C30: for a cell `c` that is valid in the view and a side `s` below its side
count: if `c` is not a parent in the view, `getDescendantsForSide` returns
exactly `[(c, s)]`; if `c` is a parent and the call with `leafNodesOnly` false
returns, the result is the concatenation, over the children that the
refinement pattern lists for `s` and in the order of the pattern, of the parts
"the child with its side, then the descendants of the child for that side",
and every entry of the result is reached from `c` through a path of children
that all occur before it in the result; and every cell of a result returned
with `leafNodesOnly` true is valid and not a parent. -/
theorem getDescendantsForSide_spec (mt : MeshTopology) (view : MeshTopologyView) (fuel : Nat)
    (cell : Cell) (s : Nat) (hvalid : view.isValidCellIndex (some cell._cellIndex) = true)
    (hs : s < cell._cellTopo.getSideCount) :
    (view.isParent cell._cellIndex = false → ∀ leafNodesOnly : Bool,
      Cell.getDescendantsForSide mt view leafNodesOnly (fuel + 1) cell s
        = Except.ok [(cell._cellIndex, s)]) ∧
    (view.isParent cell._cellIndex = true → ∀ L : List (IndexType × Nat),
      Cell.getDescendantsForSide mt view false (fuel + 1) cell s = Except.ok L →
      (∃ refPattern entries parts, cell._refPattern = some refPattern ∧
        refPattern.childrenForSides[s]? = some entries ∧ L = parts.flatten ∧
        List.Forall₂
          (Cell.SideChildPart mt view (Cell.getDescendantsForSide mt view false fuel) cell)
          entries parts) ∧
      (∀ (j : Nat) (e : IndexType × Nat), L[j]? = some e →
        ∃ path, Cell.OnSidePath mt view cell s e path ∧
          ∀ a ∈ path, ∃ i < j, L[i]? = some a)) ∧
    (∀ L : List (IndexType × Nat),
      Cell.getDescendantsForSide mt view true (fuel + 1) cell s = Except.ok L →
      ∀ e ∈ L, view.isValidCellIndex (some e.1) = true ∧ view.isParent e.1 = false) := by
  have hs' : ¬ s ≥ cell._cellTopo.getSideCount := by omega
  refine ⟨?_, ?_, ?_⟩
  · intro hleaf leafNodesOnly
    unfold Cell.getDescendantsForSide
    rw [hvalid, hleaf]
    simp only [Bool.not_true, Bool.false_eq_true, if_false, if_neg hs', Bool.not_false, if_true]
    rfl
  · intro hparent L h
    refine ⟨?_, getDescendantsForSide_paths mt view (fuel + 1) cell s L hparent h⟩
    unfold Cell.getDescendantsForSide at h
    rw [hvalid, hparent] at h
    simp only [Bool.not_true, Bool.false_eq_true, if_false, if_neg hs'] at h
    split at h
    · cases h
    · rename_i refPattern hpat
      split at h
      · cases h
      · rename_i entries hentries
        obtain ⟨parts, hparts, hall⟩ := descendantsForSideLoop_parts mt view cell _ entries L h
        exact ⟨refPattern, entries, parts, hpat, hentries, hparts, hall⟩
  · intro L h
    exact getDescendantsForSide_leaves mt view (fuel + 1) cell s L h

set_option maxRecDepth 1000000 in
/-- Witness of C30 on the twice refined line mesh, where cell 0 has the children
1 and 2 and cell 1 the children 3 and 4: for the leaf cell 3 and side 1 the
result is `[(3, 1)]`; for cell 0 and side 0 the result without the leaf filter
is `[(1, 0), (3, 0)]`, the child 1 before its own child 3, and the entry `(3, 0)`
is reached through a path whose cells stand before it; with the leaf filter the
result is `[(3, 0)]`, an active cell. -/
theorem getDescendantsForSide_spec_witness :
    Cell.getDescendantsForSide twiceRefinedLineMesh (twiceRefinedLineMesh.asView 10) false 10
        (cellOf twiceRefinedLineMesh 3) 1 = Except.ok [(3, 1)] ∧
      Cell.getDescendantsForSide twiceRefinedLineMesh (twiceRefinedLineMesh.asView 10) false 10
        (cellOf twiceRefinedLineMesh 0) 0 = Except.ok [(1, 0), (3, 0)] ∧
      (∃ path, Cell.OnSidePath twiceRefinedLineMesh (twiceRefinedLineMesh.asView 10)
          (cellOf twiceRefinedLineMesh 0) 0 (3, 0) path ∧
        ∀ a ∈ path, ∃ i < 1, [((1 : IndexType), (0 : Nat)), (3, 0)][i]? = some a) ∧
      Cell.getDescendantsForSide twiceRefinedLineMesh (twiceRefinedLineMesh.asView 10) true 10
        (cellOf twiceRefinedLineMesh 0) 0 = Except.ok [(3, 0)] ∧
      (∀ e ∈ [((3 : IndexType), (0 : Nat))],
        (twiceRefinedLineMesh.asView 10).isValidCellIndex (some e.1) = true ∧
          (twiceRefinedLineMesh.asView 10).isParent e.1 = false) :=
  ⟨(getDescendantsForSide_spec twiceRefinedLineMesh (twiceRefinedLineMesh.asView 10) 9
      (cellOf twiceRefinedLineMesh 3) 1 (by decide) (by decide)).1 (by decide) false,
    rfl,
    ((getDescendantsForSide_spec twiceRefinedLineMesh (twiceRefinedLineMesh.asView 10) 9
      (cellOf twiceRefinedLineMesh 0) 0 (by decide) (by decide)).2.1 (by decide)
        [(1, 0), (3, 0)] rfl).2 1 (3, 0) rfl,
    rfl,
    (getDescendantsForSide_spec twiceRefinedLineMesh (twiceRefinedLineMesh.asView 10) 9
      (cellOf twiceRefinedLineMesh 0) 0 (by decide) (by decide)).2.2 [(3, 0)] rfl⟩

/-- C29: let `refineCellEntities` complete for a cell `c` of the dimension of a
mesh of dimension two or more, and let `p` be the side entity that the cell
holds for its side `s`, a boundary side that is not subdivided yet (the cell is
refined for the first time) and that the refinement pattern subdivides into more
than one child.  Then `p` is still in the boundary-side set, and the child side
entities that are then recorded for `p` are all present and all in the
boundary-side set. -/
theorem refineCellEntities_boundary (tools : CellTools) (mt mt' : MeshTopology)
    (c : IndexType) (refPattern : RefinementPattern) (cell : Cell) (s : Nat) (p : IndexType)
    (subPattern : RefinementPattern) (nodesOfChildren : List Point → List (List Point))
    (h : refineCellEntities tools mt c refPattern = Except.ok mt')
    (hcell : mapFind mt._cells c = some cell)
    (hfull : cell._cellTopo.getDimension = mt._spaceDim)
    (hdim : 2 ≤ mt._spaceDim)
    (htables : mt.sideDim < mt._childEntities.length)
    (hs : s < cell._cellTopo.getSubcellCount mt.sideDim)
    (hside : cell.cached mt.sideDim s (some p))
    (hpat : (refPattern.subcellPatterns.getD mt.sideDim [])[s]?
      = some (subPattern, nodesOfChildren))
    (hmany : 1 < subPattern.numChildren)
    (hboundary : p ∈ mt._boundarySides)
    (hfirst : mapFind (mt._childEntities.getD mt.sideDim []) p = none) :
    p ∈ mt'._boundarySides ∧
      ∃ entry : RefinementPattern × List (Option IndexType),
        mapFind (mt'._childEntities.getD mt.sideDim []) p = some [entry] ∧
          (∀ x ∈ entry.2, x.isSome = true) ∧
          ∀ x : IndexType, some x ∈ entry.2 → x ∈ mt'._boundarySides := by
  have hsd : mt.sideDim = mt._spaceDim - 1 := by
    unfold sideDim
    rw [if_neg (by omega)]
  have hlt : mt.sideDim < mt._spaceDim := by omega
  have hJ : BoundarySideInv mt c s p mt :=
    ⟨rfl, htables, hboundary, ⟨cell, hcell, hside, hfull⟩, Or.inl hfirst⟩
  unfold refineCellEntities at h
  rw [getCell_of_mapFind _ _ _ hcell] at h
  dsimp only at h
  split at h
  · cases h
  · rename_i nodesOfCell _
    have hmem : mt.sideDim ∈ (List.range mt._spaceDim).drop 1 := by
      rw [List.mem_iff_getElem?]
      refine ⟨mt.sideDim - 1, ?_⟩
      rw [List.getElem?_drop, List.getElem?_range (by omega)]
      congr 1
      omega
    obtain ⟨hI, hQ⟩ := foldExcept_establish
      (refineCellEntitiesOfDim tools c cell._cellTopo nodesOfCell refPattern)
      (BoundarySideInv mt c s p) (fun m => SideRefined mt.sideDim m p)
      ((List.range mt._spaceDim).drop 1) mt.sideDim hmem
      (fun m d m1 _ hIm hf => by
        unfold refineCellEntitiesOfDim at hf
        exact foldExcept_rel
          (fun a b => BoundarySideInv mt c s p a →
            BoundarySideInv mt c s p b ∧
              (SideRefined mt.sideDim a p → SideRefined mt.sideDim b p))
          (fun _ hx => ⟨hx, fun hq => hq⟩)
          (fun a b e hab hbe ha =>
            ⟨(hbe (hab ha).1).1, fun hq => (hbe (hab ha).1).2 ((hab ha).2 hq)⟩)
          _ _
          (fun a ord b _ hfa ha =>
            ⟨(refineCellEntity_boundary tools c cell._cellTopo nodesOfCell refPattern d mt a b
                ord s p ha hfa).1,
              (refineCellEntity_boundary tools c cell._cellTopo nodesOfCell refPattern d mt a b
                ord s p ha hfa).2.1⟩)
          m m1 hf hIm)
      (fun m m1 hIm hf => by
        unfold refineCellEntitiesOfDim at hf
        exact (foldExcept_establish
          (refineCellEntity tools c cell._cellTopo nodesOfCell refPattern mt.sideDim)
          (BoundarySideInv mt c s p) (fun m => SideRefined mt.sideDim m p)
          (List.range (cell._cellTopo.getSubcellCount mt.sideDim)) s (List.mem_range.2 hs)
          (fun a ord b _ ha hfa =>
            ⟨(refineCellEntity_boundary tools c cell._cellTopo nodesOfCell refPattern mt.sideDim
                mt a b ord s p ha hfa).1,
              (refineCellEntity_boundary tools c cell._cellTopo nodesOfCell refPattern mt.sideDim
                mt a b ord s p ha hfa).2.1⟩)
          (fun a b ha hfa =>
            (refineCellEntity_boundary tools c cell._cellTopo nodesOfCell refPattern mt.sideDim
              mt a b s s p ha hfa).2.2 rfl rfl hlt
              (fun sp nc hsp => by
                rw [hpat] at hsp
                cases hsp
                omega))
          m m1 hIm hf).2)
      mt mt' hJ h
    exact ⟨hI.2.2.1, hQ⟩

set_option maxRecDepth 1000000 in
/-- Witness of C29: the one-quadrilateral mesh has the boundary sides 0 to 3 and
no child entities; `refineCellEntities(0, quadPattern)` completes, and for side 1
of cell 0, the edge 1, the edge is still a boundary side and its two recorded
child edges, 6 and 7, are boundary sides. -/
theorem refineCellEntities_boundary_witness :
    singleQuadMesh._boundarySides = [0, 1, 2, 3] ∧
      refineCellEntities quadTools singleQuadMesh 0 quadPattern
        = Except.ok quadWithRefinedEntities ∧
      (mapFind (quadWithRefinedEntities._childEntities.getD 1 []) 1).map
        (fun l => l.map Prod.snd) = some [[some 6, some 7]] ∧
      (1 ∈ quadWithRefinedEntities._boundarySides ∧
        ∃ entry : RefinementPattern × List (Option IndexType),
          mapFind (quadWithRefinedEntities._childEntities.getD singleQuadMesh.sideDim []) 1
            = some [entry] ∧
          (∀ x ∈ entry.2, x.isSome = true) ∧
          ∀ x : IndexType, some x ∈ entry.2 → x ∈ quadWithRefinedEntities._boundarySides) :=
  ⟨rfl, eq_ok_stateOf _ rfl, rfl,
    refineCellEntities_boundary quadTools singleQuadMesh quadWithRefinedEntities 0 quadPattern
      (cellOf singleQuadMesh 0) 1 1 _ _ (eq_ok_stateOf _ rfl) rfl rfl (by decide) (by decide)
      (by decide) ⟨_, rfl, rfl⟩ rfl (by decide) (by decide) rfl⟩

/-- C24: when `pruneToInclude` completes with a halo `H` that does not have as
many cells as the cell table, then for every dimension `d` below the space
dimension the kept old entity indices `olds[d]` are exactly the values of
`entityIndex(d, ordinal)` (read as unsigned) of the cells of `H`; they are in
increasing order, and the old-to-new map of `d` binds the kept index at position
`i` to `i` and nothing else; the new entity table of `d` lists, in that order,
the old sorted vertex lists with every vertex replaced by what the old-to-new
map of the vertices reads for it, and from dimension one up the same holds for
the first-seen orderings (the first node-count entries of each). -/
theorem pruneToInclude_entities (tools : CellTools) (cellHalo : CellHalo) (fuel : Nat)
    (mt mt' : MeshTopology) (owned : List IndexType) (dim : Nat)
    (h : pruneToInclude tools cellHalo fuel mt owned dim = Except.ok mt')
    (hproper : (pruningHalo cellHalo (beginPrune mt owned) owned dim).length
      ≠ mt._cells.length) :
    ∃ mt1 olds,
      entitiesToKeep (beginPrune mt owned)
        (pruningHalo cellHalo (beginPrune mt owned) owned dim) = Except.ok (mt1, olds) ∧
      (∀ (d : Nat) (x : IndexType), x ∈ olds.getD d [] ↔
        d < mt._spaceDim ∧
          IsHaloEntity mt (pruningHalo cellHalo (beginPrune mt owned) owned dim) d x) ∧
      (∀ d : Nat, (olds.getD d []).Sorted (fun a b => a < b)) ∧
      (∀ (d i : Nat) (x : IndexType), (olds.getD d [])[i]? = some x →
        mapFind (reverseLookupOfDim (olds.getD d [])) x = some i) ∧
      (∀ (d : Nat) (x : IndexType), x ∉ olds.getD d [] →
        mapFind (reverseLookupOfDim (olds.getD d [])) x = none) ∧
      (∀ d, d < mt._spaceDim → mt'._entities.getD d [] =
        (olds.getD d []).map (fun old => ((mt._entities.getD d []).getD old []).map
          (newIndex (reverseLookupOfDim (olds.getD 0 []))))) ∧
      (∀ d, 0 < d → d < mt._spaceDim → mt'._canonicalEntityOrdering.getD d [] =
        (olds.getD d []).map
          (fun old => (((mt._canonicalEntityOrdering.getD d []).getD old []).take
            ((mt._entities.getD d []).getD old []).length).map
              (newIndex (reverseLookupOfDim (olds.getD 0 []))))) := by
  obtain ⟨_, ⟨hlen, _⟩ | ⟨_, hre⟩⟩ := pruneToInclude_inv tools cellHalo fuel mt mt' owned dim h
  · exact absurd hlen hproper
  · obtain ⟨mt1, olds, h1, _, _, _, hrows, hcan, _⟩ :=
      pruneRebuild_tables tools fuel _ mt' _ hre
    obtain ⟨_, _, hsorted, hmem⟩ := entitiesToKeep_spec _ mt1 _ olds h1
    exact ⟨mt1, olds, h1, hmem, hsorted,
      fun d i x hi => reverseLookupOfDim_find _ (hsorted d).nodup i x hi,
      fun d x hx => reverseLookupOfDim_none _ x hx, hrows, hcan⟩

set_option maxRecDepth 1000000 in
/-- Witness of C24: the two-quadrilateral mesh pruned to the halo of its cell 1
keeps the vertices 1, 2, 4, 5 and the edges 1, 4, 5, 6 of that cell; the old
edges `[1, 2]`, `[1, 4]`, `[4, 5]`, `[2, 5]` become `[0, 1]`, `[0, 2]`, `[2, 3]`,
`[1, 3]`, and the first-seen ordering `[5, 2]` of the old edge 6 becomes `[3, 1]`. -/
theorem pruneToInclude_entities_witness :
    pruneToInclude quadTools (haloOf [1]) 10 twoQuadMesh [1] 0 = Except.ok prunedQuadMesh ∧
      (entitiesToKeep (beginPrune twoQuadMesh [1]) [1]).map Prod.snd
        = Except.ok [[1, 2, 4, 5], [1, 4, 5, 6]] ∧
      twoQuadMesh._entities.getD 1 [] = [[0, 1], [1, 2], [2, 3], [0, 3], [1, 4], [4, 5], [2, 5]] ∧
      prunedQuadMesh._entities.getD 1 [] = [[0, 1], [0, 2], [2, 3], [1, 3]] ∧
      prunedQuadMesh._canonicalEntityOrdering.getD 1 [] = [[0, 1], [0, 2], [2, 3], [3, 1]] ∧
      ∃ mt1 olds,
        entitiesToKeep (beginPrune twoQuadMesh [1])
          (pruningHalo (haloOf [1]) (beginPrune twoQuadMesh [1]) [1] 0)
            = Except.ok (mt1, olds) ∧
        (∀ (d : Nat) (x : IndexType), x ∈ olds.getD d [] ↔
          d < twoQuadMesh._spaceDim ∧
            IsHaloEntity twoQuadMesh
              (pruningHalo (haloOf [1]) (beginPrune twoQuadMesh [1]) [1] 0) d x) ∧
        (∀ d : Nat, (olds.getD d []).Sorted (fun a b => a < b)) ∧
        (∀ (d i : Nat) (x : IndexType), (olds.getD d [])[i]? = some x →
          mapFind (reverseLookupOfDim (olds.getD d [])) x = some i) ∧
        (∀ (d : Nat) (x : IndexType), x ∉ olds.getD d [] →
          mapFind (reverseLookupOfDim (olds.getD d [])) x = none) ∧
        (∀ d, d < twoQuadMesh._spaceDim → prunedQuadMesh._entities.getD d [] =
          (olds.getD d []).map (fun old => ((twoQuadMesh._entities.getD d []).getD old []).map
            (newIndex (reverseLookupOfDim (olds.getD 0 []))))) ∧
        (∀ d, 0 < d → d < twoQuadMesh._spaceDim →
          prunedQuadMesh._canonicalEntityOrdering.getD d [] =
          (olds.getD d []).map
            (fun old => (((twoQuadMesh._canonicalEntityOrdering.getD d []).getD old []).take
              ((twoQuadMesh._entities.getD d []).getD old []).length).map
                (newIndex (reverseLookupOfDim (olds.getD 0 []))))) :=
  ⟨eq_ok_stateOf _ rfl, rfl, rfl, rfl, rfl,
    pruneToInclude_entities quadTools (haloOf [1]) 10 twoQuadMesh prunedQuadMesh [1] 0
      (eq_ok_stateOf _ rfl) (by decide)⟩

/-- C25: let `pruneToInclude` complete on a mesh without periodic rules, and let
`c` be a cell of the halo of dimension one or more whose vertices are in the
vertex table with `_spaceDim` coordinates each and whose cache of vertex
entities is consistent (each slot of a vertex is there and is empty or holds the
vertex).  Then the cell stored under the index of `c` after the prune has as many
vertices as `c`, and for every vertex ordinal `j` the coordinates of its `j`-th
vertex in the new vertex table are those of the `j`-th vertex of `c` in the old
one. -/
theorem pruneToInclude_vertex_coordinates (tools : CellTools) (cellHalo : CellHalo)
    (fuel : Nat) (mt mt' : MeshTopology) (owned : List IndexType) (dim : Nat)
    (h : pruneToInclude tools cellHalo fuel mt owned dim = Except.ok mt')
    (hper : mt._periodicBCs.length = 0)
    (k : IndexType) (cell : Cell)
    (hk : k ∈ pruningHalo cellHalo (beginPrune mt owned) owned dim)
    (hcell : mapFind mt._cells k = some cell)
    (hdim : cell._cellTopo.getDimension ≠ 0)
    (hslots : ∀ (j : Nat) (v : IndexType), cell._vertices[j]? = some v →
      j < cell._cellTopo.getSubcellCount 0 ∧
        (cell.cacheSlot 0 j = some none ∨ cell.cacheSlot 0 j = some (some (some v))))
    (hcoords : ∀ (j : Nat) (v : IndexType), cell._vertices[j]? = some v →
      ∃ p : Point, mt._vertices[v]? = some p ∧ p.length = mt._spaceDim) :
    ∃ cell', mapFind mt'._cells k = some cell' ∧
      cell'._vertices.length = cell._vertices.length ∧
      ∀ (j : Nat) (v : IndexType), cell._vertices[j]? = some v →
        ∃ (v' : IndexType) (p : Point), cell'._vertices[j]? = some v' ∧
          mt'._vertices[v']? = some p ∧ mt._vertices[v]? = some p := by
  obtain ⟨_, ⟨_, hsame⟩ | ⟨_, hre⟩⟩ := pruneToInclude_inv tools cellHalo fuel mt mt' owned dim h
  · rw [hsame]
    refine ⟨cell, hcell, rfl, fun j v hv => ?_⟩
    obtain ⟨p, hp, _⟩ := hcoords j v hv
    exact ⟨v, p, hv, hp, hp⟩
  · obtain ⟨mt1, olds, h1, hsd, hverts, _, _, _, hcells⟩ :=
      pruneRebuild_tables tools fuel _ mt' _ hre
    obtain ⟨_, _, hsorted, hmem⟩ := entitiesToKeep_spec _ mt1 _ olds h1
    have hcell0 : mapFind (beginPrune mt owned)._cells k = some cell := hcell
    have hfind := hcells k
    rw [if_pos hk, hcell0] at hfind
    refine ⟨_, hfind, ?_, fun j v hv => ?_⟩
    · show (cell._vertices.map _).length = _
      rw [List.length_map]
    · obtain ⟨hj, hslot⟩ := hslots j v hv
      obtain ⟨p, hp, hplen⟩ := hcoords j v hv
      have hkept : v ∈ olds.getD 0 [] :=
        (hmem 0 v).2 ⟨Nat.pos_of_ne_zero hsd, k, hk, cell, hcell0, j, hj, some v,
          entityIndexValue_vertex (beginPrune mt owned) cell j v hper hdim hv hslot, rfl⟩
      obtain ⟨i, hi⟩ := List.mem_iff_getElem?.1 hkept
      have hnew : newIndex (reverseLookupOfDim (olds.getD 0 [])) v = i := by
        unfold newIndex
        rw [reverseLookupOfDim_find _ (hsorted 0).nodup i v hi]
        rfl
      refine ⟨i, p, ?_, ?_, hp⟩
      · show (cell._vertices.map _)[j]? = _
        rw [List.getElem?_map, hv, Option.map_some', hnew]
      · rw [hverts, List.getElem?_map, hi, Option.map_some']
        have hp0 : (beginPrune mt owned)._vertices[v]? = some p := hp
        rw [List.getD_eq_getElem?_getD, hp0]
        show some (p.take mt._spaceDim) = _
        rw [List.take_of_length_le (Nat.le_of_eq hplen)]

set_option maxRecDepth 1000000 in
/-- Witness of C25: cell 1 of the two-quadrilateral mesh has the vertices 1, 4, 5,
2; after the prune to its halo it has the vertices 0, 2, 3, 1 of the new vertex
table, whose coordinates (4,0), (8,0), (8,4), (4,4) are the old ones. -/
theorem pruneToInclude_vertex_coordinates_witness :
    pruneToInclude quadTools (haloOf [1]) 10 twoQuadMesh [1] 0 = Except.ok prunedQuadMesh ∧
      (cellOf twoQuadMesh 1)._vertices = [1, 4, 5, 2] ∧
      (cellOf prunedQuadMesh 1)._vertices = [0, 2, 3, 1] ∧
      twoQuadMesh._vertices = [[0, 0], [4, 0], [4, 4], [0, 4], [8, 0], [8, 4]] ∧
      prunedQuadMesh._vertices = [[4, 0], [4, 4], [8, 0], [8, 4]] ∧
      ∃ cell', mapFind prunedQuadMesh._cells 1 = some cell' ∧
        cell'._vertices.length = (cellOf twoQuadMesh 1)._vertices.length ∧
        ∀ (j : Nat) (v : IndexType), (cellOf twoQuadMesh 1)._vertices[j]? = some v →
          ∃ (v' : IndexType) (p : Point), cell'._vertices[j]? = some v' ∧
            prunedQuadMesh._vertices[v']? = some p ∧ twoQuadMesh._vertices[v]? = some p :=
  ⟨eq_ok_stateOf _ rfl, rfl, rfl, rfl, rfl,
    pruneToInclude_vertex_coordinates quadTools (haloOf [1]) 10 twoQuadMesh prunedQuadMesh
      [1] 0 (eq_ok_stateOf _ rfl) rfl 1 (cellOf twoQuadMesh 1) (by decide) rfl (by decide)
      (fun j v hv => by
        have hvs : (cellOf twoQuadMesh 1)._vertices = [1, 4, 5, 2] := rfl
        rw [hvs] at hv
        have hj : j < 4 := (List.getElem?_eq_some.1 hv).1
        interval_cases j
        · cases hv
          exact ⟨by decide, Or.inl rfl⟩
        · cases hv
          exact ⟨by decide, Or.inl rfl⟩
        · cases hv
          exact ⟨by decide, Or.inl rfl⟩
        · cases hv
          exact ⟨by decide, Or.inl rfl⟩)
      (fun j v hv => by
        have hvs : (cellOf twoQuadMesh 1)._vertices = [1, 4, 5, 2] := rfl
        rw [hvs] at hv
        have hj : j < 4 := (List.getElem?_eq_some.1 hv).1
        interval_cases j
        · cases hv
          exact ⟨_, rfl, rfl⟩
        · cases hv
          exact ⟨_, rfl, rfl⟩
        · cases hv
          exact ⟨_, rfl, rfl⟩
        · cases hv
          exact ⟨_, rfl, rfl⟩)⟩

/-- C32: for a cell index that is not a valid cell, `refineCell` returns; when
the first child index is below the next expected cell index the topology is
returned as it was, and otherwise only the two counters move: the next index
becomes `firstChild + numChildren`, and the active-cell count, an unsigned
32-bit value, is increased by `numChildren - 1`, which is the exact sum when
the pattern has a child and the sum stays below `2^32`. -/
theorem refineCell_unknown_cell (tools : CellTools) (fuel : Nat) (mt : MeshTopology)
    (c : IndexType) (pat : RefinementPattern) (firstChild : IndexType)
    (hinvalid : mt.isValidCellIndex (some c) = false) :
    (firstChild < mt._nextCellIndex →
      refineCell tools fuel mt c pat firstChild = Except.ok mt) ∧
    (mt._nextCellIndex ≤ firstChild →
      ∃ count : IndexType,
        refineCell tools fuel mt c pat firstChild = Except.ok
          { mt with _nextCellIndex := firstChild + pat.numChildren, _activeCellCount := count } ∧
        count = wrapAdd mt._activeCellCount
          (if pat.numChildren = 0 then 4294967295 else pat.numChildren - 1) ∧
        (1 ≤ pat.numChildren → mt._activeCellCount + (pat.numChildren - 1) < 4294967296 →
          count = mt._activeCellCount + (pat.numChildren - 1))) := by
  have hv : (countRefinement mt pat firstChild).isValidCellIndex (some c) = false := by
    rw [countRefinement_isValid]
    exact hinvalid
  constructor
  · intro hlt
    unfold refineCell
    dsimp only
    rw [hv]
    unfold countRefinement
    rw [if_neg (Nat.not_le.2 hlt)]
    rfl
  · intro hle
    refine ⟨_, ?_, rfl, ?_⟩
    · unfold refineCell
      dsimp only
      rw [hv]
      unfold countRefinement
      rw [if_pos hle]
      rfl
    · intro hone hsum
      have hne : pat.numChildren ≠ 0 := by omega
      rw [if_neg hne]
      unfold wrapAdd
      rw [if_pos hsum]

/-- Witness of C32 on the one-cell line mesh, where cell 7 is unknown and the
next expected index is 1: a refinement into two children from index 1 moves the
next index to 3 and the active-cell count from 1 to 2 and leaves the rest, and
with the first child index 0 nothing changes. -/
theorem refineCell_unknown_cell_witness :
    lineMesh._nextCellIndex = 1 ∧ lineMesh._activeCellCount = 1 ∧
      linePattern.numChildren = 2 ∧
      refineCell sampleTools 10 lineMesh 7 linePattern 0 = Except.ok lineMesh ∧
      ∃ count : IndexType,
        refineCell sampleTools 10 lineMesh 7 linePattern 1 = Except.ok
          { lineMesh with _nextCellIndex := 1 + linePattern.numChildren,
                          _activeCellCount := count } ∧
        count = wrapAdd lineMesh._activeCellCount
          (if linePattern.numChildren = 0 then 4294967295 else linePattern.numChildren - 1) ∧
        (1 ≤ linePattern.numChildren →
          lineMesh._activeCellCount + (linePattern.numChildren - 1) < 4294967296 →
          count = lineMesh._activeCellCount + (linePattern.numChildren - 1)) :=
  ⟨rfl, rfl, rfl,
    (refineCell_unknown_cell sampleTools 10 lineMesh 7 linePattern 0 rfl).1 (by decide),
    (refineCell_unknown_cell sampleTools 10 lineMesh 7 linePattern 1 rfl).2 (by decide)⟩

/-- C36: in a claimant table that fills the first slot first (no entry has a
filled second slot and an empty first slot), `addCellForSide` leaves such a
table, a completing `pruneToInclude` leaves such a table, and for every side
entity the list of `getCellsForSide` has the length `getCellCountForSide`. -/
theorem claimants_fill_first_slot_first (mt : MeshTopology) (hinv : ClaimantsInOrder mt) :
    (∀ (mt' : MeshTopology) (cellIndex : IndexType) (sideOrdinal : Nat)
        (side : Option IndexType),
      addCellForSide mt cellIndex sideOrdinal side = Except.ok mt' → ClaimantsInOrder mt') ∧
    (∀ (tools : CellTools) (cellHalo : CellHalo) (fuel : Nat) (mt' : MeshTopology)
        (owned : List IndexType) (dim : Nat),
      pruneToInclude tools cellHalo fuel mt owned dim = Except.ok mt' →
        ClaimantsInOrder mt') ∧
    (∀ e : IndexType, (mt.getCellsForSide e).length = mt.getCellCountForSide e) := by
  refine ⟨fun mt' c s side h => addCellForSide_inOrder mt mt' c s side hinv h, ?_,
    length_getCellsForSide mt hinv⟩
  intro tools cellHalo fuel mt' owned dim h
  obtain ⟨_, ⟨_, hsame⟩ | ⟨_, hre⟩⟩ := pruneToInclude_inv tools cellHalo fuel mt mt' owned dim h
  · rw [hsame]
    exact hinv
  · obtain ⟨mt1, olds, pv, vl, pvm, sl, pcs, pruned, rev, cells, valid, active, roots, visited,
      _, _, _, h3, _, _, _, hmt'⟩ := pruneRebuild_inv tools fuel _ mt' _ hre
    rw [hmt']
    show ∀ entry ∈ pcs, _
    exact foldExcept_rel
      (fun (a b : List (List (IndexType × IndexType)) ×
          List (Option (IndexType × Nat) × Option (IndexType × Nat))) =>
        (∀ x ∈ a.2, x.2.isSome = true → x.1.isSome = true) →
          ∀ x ∈ b.2, x.2.isSome = true → x.1.isSome = true)
      (fun _ hv => hv) (fun _ _ _ hab hbc hv => hbc (hab hv)) _ _
      (fun a q b _ hq hv => pruneSideClaimants_inOrder _ _ _ a b q hv hq) _ _ h3
      (fun x hx => by cases hx)

set_option maxRecDepth 1000000 in
/-- Witness of C36 on the line mesh of three cells: its claimant table fills the
first slot first; vertex 1 has the claimants `(0, 1)` and `(2, 0)`, and after the
prune to the cells 1 and 2, which drops the first of them, the entry of the
vertex is `((2, 0), (-1, -1))`: the slots have been swapped. -/
theorem claimants_fill_first_slot_first_witness :
    ClaimantsInOrder filledLineMesh ∧
      filledLineMesh._cellsForSideEntities[1]? = some (some (0, 1), some (2, 0)) ∧
      pruneToInclude sampleTools (haloOf [1, 2]) 10 filledLineMesh [1] 0
        = Except.ok prunedLineMesh ∧
      prunedLineMesh._cellsForSideEntities[0]? = some (some (2, 0), none) ∧
      filledLineMesh.getCellsForSide 1 = [0, 2] ∧ filledLineMesh.getCellCountForSide 1 = 2 ∧
      ((∀ (mt' : MeshTopology) (cellIndex : IndexType) (sideOrdinal : Nat)
          (side : Option IndexType),
        addCellForSide filledLineMesh cellIndex sideOrdinal side = Except.ok mt' →
          ClaimantsInOrder mt') ∧
      (∀ (tools : CellTools) (cellHalo : CellHalo) (fuel : Nat) (mt' : MeshTopology)
          (owned : List IndexType) (dim : Nat),
        pruneToInclude tools cellHalo fuel filledLineMesh owned dim = Except.ok mt' →
          ClaimantsInOrder mt') ∧
      (∀ e : IndexType,
        (filledLineMesh.getCellsForSide e).length = filledLineMesh.getCellCountForSide e)) :=
  ⟨claimantsInOrder_of_all _ rfl, rfl, eq_ok_stateOf _ rfl, rfl, rfl, rfl,
    claimants_fill_first_slot_first filledLineMesh (claimantsInOrder_of_all _ rfl)⟩

/-- C34: for a duplicate-free list of `N` active cell IDs (fewer than `2^31`)
and `P ≥ 1` partitions, the default `partitionMesh` called with the count `N`
returns `P` partitions whose concatenation is the ascending list of the IDs, so
that they are consecutive chunks of it, pairwise disjoint and covering all
cells; partition `i` has `N / P` cells, and one more when `i < N mod P`; and the
call raises when the reported count is another number. -/
theorem partitionMesh_chunks (ids : List IndexType) (P : Nat) (hnodup : ids.Nodup)
    (hP : 1 ≤ P) (hN : ids.length < 2147483648) :
    (∃ parts, MeshPartitionPolicy.partitionMesh ids.length (setOfList ids) P = Except.ok parts ∧
      parts.length = P ∧ parts.flatten = setOfList ids ∧
      parts.Pairwise List.Disjoint ∧
      ∀ i, i < P → ∃ part, parts[i]? = some part ∧
        part.length = ids.length / P + (if i < ids.length % P then 1 else 0)) ∧
    (∀ reported : Nat, reported ≠ ids.length →
      MeshPartitionPolicy.partitionMesh reported (setOfList ids) P
        = Except.error MeshError.activeCellCountMismatch) := by
  have hlen : (setOfList ids).length = ids.length := length_setOfList_of_nodup hnodup
  have hP0 : P ≠ 0 := by omega
  constructor
  · have hfold := fillPartitions_spec (setOfList ids) P hP (sorted_setOfList ids) P
      (Nat.le_refl _)
    rw [hlen] at hfold
    have hflat := flatten_chunks (setOfList ids) P P (Nat.le_refl _)
    rw [chunkStart_total _ _ hP, List.take_length] at hflat
    refine ⟨(List.range P).map (MeshPartitionPolicy.chunk (setOfList ids) P), ?_, ?_, hflat, ?_, ?_⟩
    · unfold MeshPartitionPolicy.partitionMesh
      rw [if_neg hP0]
      dsimp only
      rw [if_neg (by rw [hlen]; omega), hfold]
      simp
      rfl
    · rw [List.length_map, List.length_range]
    · have hnd : ((List.range P).map (MeshPartitionPolicy.chunk (setOfList ids) P)).flatten.Nodup := by
        rw [hflat]
        exact nodup_setOfList ids
      exact (List.nodup_flatten.1 hnd).2
    · intro i hi
      refine ⟨MeshPartitionPolicy.chunk (setOfList ids) P i, ?_, ?_⟩
      · rw [List.getElem?_map, List.getElem?_range hi]
        rfl
      · rw [length_chunk _ _ _ hP hi, hlen]
        rfl
  · intro reported hrep
    unfold MeshPartitionPolicy.partitionMesh
    rw [if_neg hP0]
    dsimp only
    rw [if_pos (Or.inr (by rw [hlen]; exact fun h => hrep h.symm))]
    rfl

/-- Witness of C34: the seven cells 9, 2, 5, 0, 12, 7 and 3 in three partitions
give the chunks `[0, 2, 3]`, `[5, 7]` and `[9, 12]`, and the call with the count
6 raises. -/
theorem partitionMesh_chunks_witness :
    MeshPartitionPolicy.partitionMesh 7 (setOfList [9, 2, 5, 0, 12, 7, 3]) 3
        = Except.ok [[0, 2, 3], [5, 7], [9, 12]] ∧
      ((∃ parts, MeshPartitionPolicy.partitionMesh [9, 2, 5, 0, 12, 7, 3].length
            (setOfList [9, 2, 5, 0, 12, 7, 3]) 3 = Except.ok parts ∧
        parts.length = 3 ∧ parts.flatten = setOfList [9, 2, 5, 0, 12, 7, 3] ∧
        parts.Pairwise List.Disjoint ∧
        ∀ i, i < 3 → ∃ part, parts[i]? = some part ∧
          part.length = [9, 2, 5, 0, 12, 7, 3].length / 3 +
            (if i < [9, 2, 5, 0, 12, 7, 3].length % 3 then 1 else 0)) ∧
      (∀ reported : Nat, reported ≠ [9, 2, 5, 0, 12, 7, 3].length →
        MeshPartitionPolicy.partitionMesh reported (setOfList [9, 2, 5, 0, 12, 7, 3]) 3
          = Except.error MeshError.activeCellCountMismatch)) :=
  ⟨rfl, partitionMesh_chunks [9, 2, 5, 0, 12, 7, 3] 3 (by decide) (by decide) (by decide)⟩

/-- C33: `getConstrainingSideAncestry(s)` is empty when `s` is a boundary side;
for a side that is not, with its list of active cells in the table, it is empty
when the list has two entries, it raises when the list has more than two, and
otherwise every list it returns is empty or a chain of successive parent sides
of `s` whose last entry has at least one active cell; in this last case the call
does return when the last-parent relation of the sides is well-founded and no
recorded parent list is empty. -/
theorem getConstrainingSideAncestry_cases (mt : MeshTopology) (s : IndexType) :
    (mt.isBoundarySide s = true → ∀ fuel, getConstrainingSideAncestry fuel mt s = Except.ok []) ∧
    (∀ entries, mt.isBoundarySide s = false →
      (mt._activeCellsForEntities.getD mt.sideDim [])[s]? = some entries →
      (entries.length = 2 → ∀ fuel, getConstrainingSideAncestry fuel mt s = Except.ok []) ∧
      (2 < entries.length → ∀ fuel,
        getConstrainingSideAncestry fuel mt s = Except.error MeshError.activeCellCountForSide) ∧
      (entries.length < 2 →
        (∀ fuel L, getConstrainingSideAncestry fuel mt s = Except.ok L →
          L = [] ∨ (ParentChain mt s L ∧
            ∃ last, L.getLast? = some last ∧ 0 < getActiveCellCount mt mt.sideDim last.1)) ∧
        (WellFounded (fun a b => mt.lastParent? b = some a) →
          (∀ x, mapFind (mt._parentEntities.getD mt.sideDim []) x ≠ some []) →
          ∃ N, ∀ fuel, N ≤ fuel → ∃ L, getConstrainingSideAncestry fuel mt s = Except.ok L))) := by
  refine ⟨?_, ?_⟩
  · intro hb fuel
    unfold getConstrainingSideAncestry
    rw [if_pos hb]
    rfl
  · intro entries hb hentries
    have hnb : ¬ (mt.isBoundarySide s = true) := by
      rw [hb]
      exact Bool.false_ne_true
    have hunfold : ∀ fuel, getConstrainingSideAncestry fuel mt s
        = if entries.length = 2 then pure []
          else if entries.length = 0 ∨ entries.length = 1 then sideAncestryLoop mt fuel s []
          else throw MeshError.activeCellCountForSide := by
      intro fuel
      unfold getConstrainingSideAncestry
      rw [if_neg hnb, hentries]
    refine ⟨?_, ?_, ?_⟩
    · intro h2 fuel
      rw [hunfold, if_pos h2]
      rfl
    · intro h2 fuel
      rw [hunfold, if_neg (by omega), if_neg (by omega)]
      rfl
    · intro h2
      have hloop : ∀ fuel, getConstrainingSideAncestry fuel mt s
          = sideAncestryLoop mt fuel s [] := by
        intro fuel
        rw [hunfold, if_neg (by omega), if_pos (by omega)]
      refine ⟨?_, ?_⟩
      · intro fuel L hL
        rw [hloop] at hL
        rcases sideAncestryLoop_spec mt fuel s [] L hL with hnil | ⟨rest, hrest, hchain, hlast⟩
        · left
          exact hnil
        · right
          rw [List.nil_append] at hrest
          rw [hrest]
          exact ⟨hchain, hlast⟩
      · intro hwf hne
        obtain ⟨N, hN⟩ := sideAncestryLoop_terminates mt hwf hne s
        refine ⟨N, fun fuel hfuel => ?_⟩
        rw [hloop]
        exact hN fuel hfuel []

set_option maxRecDepth 1000000 in
/-- Witness of C33 in the refined two-quadrilateral mesh: side 0 is a boundary
side, side 15 lies between the active cells 2 and 3, and the hanging side 9,
with the one active cell 3, has the ancestry of its parent side 1, which has the
active cell 1. -/
theorem getConstrainingSideAncestry_cases_witness :
    refinedQuadMesh.isBoundarySide 0 = true ∧
    getConstrainingSideAncestry 10 refinedQuadMesh 0 = Except.ok [] ∧
    getConstrainingSideAncestry 10 refinedQuadMesh 15 = Except.ok [] ∧
    getConstrainingSideAncestry 10 refinedQuadMesh 9 = Except.ok [(1, 0)] ∧
    ([(1, 0)] = [] ∨ (ParentChain refinedQuadMesh 9 [(1, 0)] ∧
      ∃ last, [(1, 0)].getLast? = some last ∧
        0 < getActiveCellCount refinedQuadMesh refinedQuadMesh.sideDim last.1)) ∧
    (∃ N, ∀ fuel, N ≤ fuel → ∃ L, getConstrainingSideAncestry fuel refinedQuadMesh 9 = Except.ok L) :=
  ⟨by decide,
    (getConstrainingSideAncestry_cases refinedQuadMesh 0).1 (by decide) 10,
    ((getConstrainingSideAncestry_cases refinedQuadMesh 15).2 [(2, 1), (3, 3)] (by decide)
      rfl).1 rfl 10,
    rfl,
    ((getConstrainingSideAncestry_cases refinedQuadMesh 9).2 [(3, 1)] (by decide)
      rfl).2.2 (by decide) |>.1 10 [(1, 0)] rfl,
    ((getConstrainingSideAncestry_cases refinedQuadMesh 9).2 [(3, 1)] (by decide)
      rfl).2.2 (by decide) |>.2 (lastParent_wf_of_all _ rfl)
      (parentLists_nonempty_of_all _ rfl)⟩

/-- C35: on a hanging interface the coarse cell alone owns the side.  When the
fine cell `f` has the resolved neighbour `(C, t)` on its side `s`, the cell `C`
is not a parent in the view and has the resolved neighbour `(P, u)` on `t`, with
`P` another cell than `f` that is a parent in the view and has `C` as resolved
neighbour on `u`, then `ownsSide(C, t)` is true and `ownsSide(f, s)` is false. -/
theorem ownsSide_hanging_interface (mt : MeshTopology) (fuel : Nat) (view : MeshTopologyView)
    (f : Cell) (s : Nat) (C : IndexType) (t : Nat) (cellC : Cell) (P : IndexType) (u : Nat)
    (cellP : Cell) (back : Nat)
    (hf : Cell.getNeighborInfo mt fuel view f s = Except.ok (some (C, t)))
    (hC : mt.getCell C = Except.ok cellC) (hidx : cellC._cellIndex = C)
    (hCleaf : cellC.isParent view = false)
    (hCn : Cell.getNeighborInfo mt fuel view cellC t = Except.ok (some (P, u)))
    (hPf : P ≠ f._cellIndex)
    (hP : mt.getCell P = Except.ok cellP) (hPpar : cellP.isParent view = true)
    (hPn : Cell.getNeighborInfo mt fuel view cellP u = Except.ok (some (C, back))) :
    Cell.ownsSide mt fuel view cellC t = Except.ok true ∧
      Cell.ownsSide mt fuel view f s = Except.ok false := by
  constructor
  · unfold Cell.ownsSide
    simp only [hCn, hP, hPn, hPpar, hidx, Option.map_some']
    simp [pure, Except.pure]
  · unfold Cell.ownsSide
    simp only [hf, hC, hCn, hCleaf, Option.map_some']
    simp [pure, Except.pure, hPf]

set_option maxRecDepth 1000000 in
/-- Witness of C35 in the refined two-quadrilateral mesh: the children 3 and 4
of the refined cell 0 face the unrefined cell 1 across its side 3. -/
theorem ownsSide_hanging_interface_witness :
    (Cell.ownsSide refinedQuadMesh 10 (refinedQuadMesh.asView 10) (cellOf refinedQuadMesh 1) 3
        = Except.ok true ∧
      Cell.ownsSide refinedQuadMesh 10 (refinedQuadMesh.asView 10) (cellOf refinedQuadMesh 3) 1
        = Except.ok false) ∧
    (Cell.ownsSide refinedQuadMesh 10 (refinedQuadMesh.asView 10) (cellOf refinedQuadMesh 1) 3
        = Except.ok true ∧
      Cell.ownsSide refinedQuadMesh 10 (refinedQuadMesh.asView 10) (cellOf refinedQuadMesh 4) 1
        = Except.ok false) :=
  ⟨ownsSide_hanging_interface refinedQuadMesh 10 (refinedQuadMesh.asView 10)
      (cellOf refinedQuadMesh 3) 1 1 3 (cellOf refinedQuadMesh 1) 0 1 (cellOf refinedQuadMesh 0) 3
      rfl rfl rfl rfl rfl (by decide) rfl rfl rfl,
    ownsSide_hanging_interface refinedQuadMesh 10 (refinedQuadMesh.asView 10)
      (cellOf refinedQuadMesh 4) 1 1 3 (cellOf refinedQuadMesh 1) 0 1 (cellOf refinedQuadMesh 0) 3
      rfl rfl rfl rfl rfl (by decide) rfl rfl rfl⟩

set_option maxRecDepth 1000000 in
/-- C40, failing input: in the two-quadrilateral mesh the side 0 of cell 1 is
the edge with index 4, which cell 1 lists as the nodes 1, 4 and whose stored
canonical ordering is 1, 4 as well, so that the permutation of the claim is the
identity.  `getSubEntityPermutation(2, 1, 1, 0)` matches the nodes against the
row of the canonical orderings at the sub-entity ordinal 0, the ordering 0, 1 of
edge 0, whatever the matching function is, and returns 1 with the matching
function of the samples.  For sub-entity dimension 0 the method returns 0, and
for a positive sub-entity dimension that is not below `d` it raises. -/
theorem getSubEntityPermutation_reads_ordinal_row :
    getSubEntityIndex quadTools twoQuadMesh 2 1 1 0 = Except.ok 4 ∧
      getEntityVertexIndices twoQuadMesh 2 1 = Except.ok [1, 4, 5, 2] ∧
      quadTopology.nodeMap 1 0 = [0, 1] ∧
      (twoQuadMesh._canonicalEntityOrdering.getD 1 [])[4]? = some [1, 4] ∧
      (twoQuadMesh._canonicalEntityOrdering.getD 1 [])[0]? = some [0, 1] ∧
      (∀ perm : CellTopology → List IndexType → List IndexType → Nat,
        getSubEntityPermutation { quadTools with permutationMatchingOrder := perm }
          twoQuadMesh 2 1 1 0 = Except.ok (perm lineTopology [0, 1] [1, 4])) ∧
      quadTools.permutationMatchingOrder lineTopology [1, 4] [1, 4] = 0 ∧
      getSubEntityPermutation quadTools twoQuadMesh 2 1 1 0 = Except.ok 1 ∧
      (∀ (tools : CellTools) (mt : MeshTopology) (d : Nat) (e : IndexType) (k : Nat),
        getSubEntityPermutation tools mt d e 0 k = Except.ok 0) ∧
      (∀ (tools : CellTools) (mt : MeshTopology) (d j : Nat) (e : IndexType) (k : Nat),
        getSubEntityPermutation tools mt d e (d + j + 1) k
          = Except.error MeshError.subEntityDimTooLarge) ∧
      (∀ (tools : CellTools) (mt : MeshTopology) (d : Nat) (e : IndexType) (k : Nat),
        getSubEntityPermutation tools mt (d + 1) e (d + 1) k
          = Except.error MeshError.subEntityDimTooLarge) :=
  ⟨rfl, rfl, rfl, rfl, rfl, fun _ => rfl, rfl, rfl,
    fun _ _ _ _ _ => rfl,
    (fun tools mt d j e k => by
      unfold getSubEntityPermutation
      rw [if_neg (by omega), if_pos (by omega)]
      rfl),
    (fun tools mt d e k => by
      unfold getSubEntityPermutation
      rw [if_neg (by omega), if_pos (by omega)]
      rfl)⟩

/-- C37: in every state of a replicated, unpruned mesh (reached from the empty
topology by `addCell` at the next cell index and by `refineCell` of known cells
without children, the first child index being the next cell index),
`activeCellCount()` is the size of the active-cell set, which has no repeated
member, and `cellCount()` is the number of entries of the cell table. -/
theorem replicated_counters (tools : CellTools) (mt : MeshTopology)
    (h : Replicated tools mt) :
    mt.activeCellCount = mt._activeCells.length ∧ mt._activeCells.Nodup ∧
      mt.cellCount = mapSize mt._cells := by
  have hc := counted_of_replicated tools mt h
  refine ⟨hc.count, hc.sorted.nodup, ?_⟩
  have hsize := mapSize_eq_of_keys mt._cells mt._nextCellIndex
    (fun k => (hc.keys k).trans (hc.valid k))
  exact hsize.symm

set_option maxRecDepth 1000000 in
/-- Witness of C37: the one-quadrilateral mesh refined into four is a replicated
mesh; it has 5 cells, 4 of them active. -/
theorem replicated_counters_witness :
    Replicated quadTools refinedSingleQuadMesh ∧
      refinedSingleQuadMesh.activeCellCount = 4 ∧
      refinedSingleQuadMesh._activeCells = [1, 2, 3, 4] ∧
      refinedSingleQuadMesh.cellCount = 5 ∧ mapSize refinedSingleQuadMesh._cells = 5 ∧
      (refinedSingleQuadMesh.activeCellCount = refinedSingleQuadMesh._activeCells.length ∧
        refinedSingleQuadMesh._activeCells.Nodup ∧
        refinedSingleQuadMesh.cellCount = mapSize refinedSingleQuadMesh._cells) :=
  have hrep : Replicated quadTools refinedSingleQuadMesh :=
    Replicated.refineCell 10 singleQuadMesh refinedSingleQuadMesh 0 quadPattern
      (cellOf singleQuadMesh 0)
      (Replicated.addCell 10
        (MeshTopology.getVertexIndices (MeshTopology.init 2 [])
          [[0, 0], [4, 0], [4, 4], [0, 4]]).1
        singleQuadMesh quadTopology [0, 1, 2, 3] none
        (Replicated.addVertices _ _ (Replicated.empty 2 []))
        (eq_ok_stateOf _ rfl))
      rfl rfl rfl (by decide) (by decide) (eq_ok_stateOf _ rfl)
  ⟨hrep, rfl, rfl, rfl, by decide, replicated_counters quadTools refinedSingleQuadMesh hrep⟩

/-- C39: when the first-parent relation of every dimension is well-founded,
`getConstrainingEntityIndexOfLikeDimension(d, e)` returns, the same entity for
every fuel that is large enough; when moreover every generalized-parent entry
of an entity without first parent has a larger dimension than the entity,
`getConstrainingEntity(d, e)` ends with the same result, which is not the
exhaustion of the fuel, for every fuel that is large enough, its for loop ends
within `sideDim - d + 2` units of fuel, one for each pass and one for the exit
test, and the generalized ancestors it visits are at most one more than
`sideDim - d`, so that it switches the dimension at most `sideDim - d` times. -/
theorem getConstrainingEntity_terminates (mt : MeshTopology)
    (hwf : ∀ d, WellFounded (fun a b => firstParent? mt d b = some a))
    (d : Nat) (e : IndexType) :
    (∃ N r, ∀ fuel, N ≤ fuel →
      getConstrainingEntityIndexOfLikeDimension fuel mt d e = Except.ok r) ∧
    ((∀ (k : Nat) (x : IndexType) (p : IndexType × Nat), firstParent? mt k x = none →
        mapFind (mt._generalizedParentEntities.getD k []) x = some p → k < p.2) →
      ∃ N R, R ≠ Except.error MeshError.outOfFuel ∧
        (∀ fuel, N ≤ fuel → getConstrainingEntity fuel mt d e = R) ∧
        (∀ n, N ≤ n → ∀ fuel, mt.sideDim - d + 2 ≤ fuel →
          constrainingEntityLoop mt n fuel d e (e, d) = R) ∧
        (∀ n, N ≤ n → ∀ fuel,
          (generalizedLevels mt n fuel d e).length - 1 ≤ mt.sideDim - d)) := by
  refine ⟨likeDimension_terminates mt d (hwf d) e, fun hgen => ?_⟩
  obtain ⟨N, hlen, hloop⟩ := constrainingEntityLoop_terminates mt hwf hgen
    (mt.sideDim + 1 - d) d e (Nat.le_refl _)
  obtain ⟨R, hR, hR'⟩ := hloop (e, d)
  refine ⟨max N (mt.sideDim + 1 - d + 1), R, hR, fun fuel hfuel => ?_,
    fun n hn fuel hfuel => ?_, fun n hn fuel => ?_⟩
  · unfold getConstrainingEntity
    exact hR' fuel (by omega) fuel (by omega)
  · exact hR' n (by omega) fuel (by omega)
  · have := hlen n (by omega) fuel
    omega

set_option maxRecDepth 1000000 in
/-- Witness of C39 in the refined two-quadrilateral mesh, where every parent has
a smaller index than its children: the climb from the vertex 7 in the middle of
the hanging side ends at the coarse edge 1. -/
theorem getConstrainingEntity_terminates_witness :
    getConstrainingEntity 10 refinedQuadMesh 0 7 = Except.ok (1, 1) ∧
    ((∃ N r, ∀ fuel, N ≤ fuel →
      getConstrainingEntityIndexOfLikeDimension fuel refinedQuadMesh 0 7 = Except.ok r) ∧
    ∃ N R, R ≠ Except.error MeshError.outOfFuel ∧
      (∀ fuel, N ≤ fuel → getConstrainingEntity fuel refinedQuadMesh 0 7 = R) ∧
      (∀ n, N ≤ n → ∀ fuel, refinedQuadMesh.sideDim - 0 + 2 ≤ fuel →
        constrainingEntityLoop refinedQuadMesh n fuel 0 7 (7, 0) = R) ∧
      (∀ n, N ≤ n → ∀ fuel,
        (generalizedLevels refinedQuadMesh n fuel 0 7).length - 1
          ≤ refinedQuadMesh.sideDim - 0)) :=
  ⟨rfl,
    (getConstrainingEntity_terminates refinedQuadMesh (firstParent_wf_of_all _ rfl) 0 7).1,
    (getConstrainingEntity_terminates refinedQuadMesh (firstParent_wf_of_all _ rfl) 0 7).2
      (generalizedParents_rise_of_all _ rfl)⟩

set_option maxRecDepth 1000000 in
/-- C38, counterexample: in the periodic two-tetrahedron mesh the bisection of
cell 1 records the edge 0, of dimension 1, as the generalized parent of the new
vertex 8.  The bisection of cell 0 adds the vertex 9, the periodic partner of
vertex 8; `determineGeneralizedParentsForRefinement` finds no record for vertex
9 when it visits the children of the face 0, sets the record of vertex 9 to the
face, of dimension 2, and overwrites the record of the partner 8 with it: the
recorded dimension of vertex 8 goes from 1 to 2. -/
theorem determineGeneralizedParents_raises_partner_dimension :
    refineCell tetTools 10 twoTetMesh 1 tetBisectPattern 2 = Except.ok bisectedTetMesh ∧
    mapFind (bisectedTetMesh._generalizedParentEntities.getD 0 []) 8 = some (0, 1) ∧
    mapFind (childrenAddedTetMesh._generalizedParentEntities.getD 0 []) 8 = some (0, 1) ∧
    mapFind (childrenAddedTetMesh._generalizedParentEntities.getD 0 []) 9 = none ∧
    periodicEquivalents childrenAddedTetMesh 9 = [8] ∧
    (∃ mt', determineGeneralizedParentsForRefinement tetTools childrenAddedTetMesh 0
        tetBisectPattern = Except.ok mt' ∧
      mapFind (mt'._generalizedParentEntities.getD 0 []) 9 = some (0, 2) ∧
      mapFind (mt'._generalizedParentEntities.getD 0 []) 8 = some (0, 2)) ∧
    refineCell tetTools 10 bisectedTetMesh 0 tetBisectPattern 4
      = Except.ok twiceBisectedTetMesh ∧
    mapFind (twiceBisectedTetMesh._generalizedParentEntities.getD 0 []) 8 = some (0, 2) :=
  ⟨eq_ok_stateOf _ rfl, rfl, rfl, rfl, rfl,
    ⟨stateOf (determineGeneralizedParentsForRefinement tetTools childrenAddedTetMesh 0
      tetBisectPattern), eq_ok_stateOf _ rfl, rfl, rfl⟩,
    eq_ok_stateOf _ rfl, rfl⟩

/-- Amended C38: a successful `determineGeneralizedParentsForRefinement` keeps a
well-formed generalized-parent table well formed (every recorded generalized
parent of an entity of dimension `d` has dimension at least `d` and is not the
entity itself), and the recorded dimension of an entity does not increase when
the entity is not a vertex or no vertex has periodic partners; a pass of its
child loop records the subdivided entity `p` of dimension `d` as the
generalized parent `(p, d)` of the child; and a sub-entity whose recorded
parent has dimension at most `d` keeps it. -/
theorem determineGeneralizedParents_wellFormed (tools : CellTools) (mt mt' : MeshTopology)
    (cellIndex : IndexType) (refPattern : RefinementPattern)
    (h : determineGeneralizedParentsForRefinement tools mt cellIndex refPattern = Except.ok mt')
    (hwf : GeneralizedParentsWF mt) :
    GeneralizedParentsWF mt' ∧
    (∀ (k : Nat) (e : IndexType) (q : IndexType × Nat),
      (1 ≤ k ∨ ∀ v, periodicEquivalents mt v = []) →
      mapFind (mt._generalizedParentEntities.getD k []) e = some q →
      ∃ q', mapFind (mt'._generalizedParentEntities.getD k []) e = some q' ∧ q'.2 ≤ q.2) ∧
    (∀ (d : Nat) (p : IndexType) (parentVertexIndices : List IndexType) (s s' : MeshTopology)
      (child : IndexType), p ≠ child → d < s._generalizedParentEntities.length →
      setChildGeneralizedParents tools d p parentVertexIndices s (some child) = Except.ok s' →
      mapFind (s'._generalizedParentEntities.getD d []) child = some (p, d)) ∧
    (∀ (d : Nat) (p : IndexType) (parentVertexIndices : List IndexType) (child : IndexType)
      (subcdim : Nat) (s : MeshTopology) (subcord : Nat) (x : IndexType) (q : IndexType × Nat),
      getSubEntityIndex tools s d child subcdim subcord = Except.ok x →
      mapFind (s._generalizedParentEntities.getD subcdim []) x = some q → q.2 ≤ d →
      setSubEntityGeneralizedParent tools d p parentVertexIndices child subcdim s subcord
        = Except.ok s) := by
  have hstep := determineGeneralizedParentsForRefinement_step tools mt mt' cellIndex refPattern h
  exact ⟨hstep.wf hwf, hstep.keep hwf,
    fun d p pv s s' child hne hlen hs =>
      setChildGeneralizedParents_child tools d p pv s s' child hne hlen hs,
    fun d p pv child subcdim s subcord x q hx hq hle =>
      setSubEntityGeneralizedParent_kept tools d p pv child subcdim s subcord x q hx hq hle⟩

set_option maxRecDepth 1000000 in
/-- Witness of the amended C38 in the refinement of cell 0 of the
two-quadrilateral mesh: the call returns, the halves 7 and 8 of the edge 0 get
the generalized parent `(0, 1)`, and the table stays well formed. -/
theorem determineGeneralizedParents_wellFormed_witness :
    GeneralizedParentsWF childrenAddedQuadMesh ∧
      ∃ mt', determineGeneralizedParentsForRefinement quadTools childrenAddedQuadMesh 0
          quadPattern = Except.ok mt' ∧
        mapFind (mt'._generalizedParentEntities.getD 1 []) 7 = some (0, 1) ∧
        mapFind (mt'._generalizedParentEntities.getD 1 []) 8 = some (0, 1) ∧
        GeneralizedParentsWF mt' :=
  ⟨generalizedParentsWF_of_all _ rfl,
    stateOf (determineGeneralizedParentsForRefinement quadTools childrenAddedQuadMesh 0
      quadPattern),
    eq_ok_stateOf _ rfl, rfl, rfl,
    (determineGeneralizedParents_wellFormed quadTools childrenAddedQuadMesh _ 0
      quadPattern (eq_ok_stateOf _ rfl) (generalizedParentsWF_of_all _ rfl)).1⟩

set_option maxRecDepth 1000000 in
/-- C31, counterexample: with the periodic rules 0 (lines `x = 8` and `x = 16`)
and 1 (lines `x = 0` and `x = 8`), cell 1 is inserted on the square from (4,0)
to (8,4) next to cell 0, and its cache holds 3 for its edge 1 (the edge on
`x = 8`, found as the left edge of cell 0), which is also what the uncached
lookup returns then. After the further call of `addCell` for the cell 2 on the
square from (16,0) to (20,4), the memoized `entityIndex(1, 1)` of cell 1 still
returns 3, while `getEntityIndices(1)` has 9, the left edge of the new cell, at
ordinal 1. -/
theorem entityIndex_stale_after_addCell :
    addCell quadTools 10 chainedPeriodicVertices 2 quadTopology [6, 7, 8, 9] none
        = Except.ok chainedPeriodicMeshThree ∧
      getCell chainedPeriodicMesh 1 = Except.ok (cellOf chainedPeriodicMesh 1) ∧
      Cell.entityIndexValue chainedPeriodicMesh (cellOf chainedPeriodicMesh 1) 1 1
        = Except.ok (some 3) ∧
      Cell.getEntityIndices chainedPeriodicMesh (cellOf chainedPeriodicMesh 1) 1
        = Except.ok [some 4, some 3, some 5, some 1] ∧
      getCell chainedPeriodicMeshThree 1 = Except.ok (cellOf chainedPeriodicMeshThree 1) ∧
      (cellOf chainedPeriodicMesh 1)._vertices = [1, 4, 5, 2] ∧
      (cellOf chainedPeriodicMeshThree 1)._vertices = [1, 4, 5, 2] ∧
      Cell.entityIndexValue chainedPeriodicMeshThree (cellOf chainedPeriodicMeshThree 1) 1 1
        = Except.ok (some 3) ∧
      Cell.getEntityIndices chainedPeriodicMeshThree (cellOf chainedPeriodicMeshThree 1) 1
        = Except.ok [some 4, some 9, some 5, some 1] :=
  ⟨eq_ok_stateOf _ rfl, rfl, rfl, rfl, rfl, rfl, rfl, rfl, rfl⟩

/-- Amended C31: in a topology without periodic boundary conditions, reached
from the empty topology by completed calls that add vertices, entities or cells,
refine a cell or prune, and by calls of `Cell::entityIndex` that return an
index, for every cell of the table and every sub-cell `(d, ord)` of it with `d`
below the dimension of the cell, the memoized `Cell::entityIndex(d, ord)`
returns exactly what the lookup of `Cell::getEntityIndices` returns for that
sub-cell, raises included, and when `getEntityIndices(d)` returns a list,
`entityIndex(d, ord)` returns the entry `ord` of that list. -/
theorem entityIndex_matches_getEntityIndices (tools : CellTools) (cellHalo : CellHalo)
    (spaceDim : Nat) (mt : MeshTopology)
    (hreach : Relation.ReflTransGen (CacheOperation tools cellHalo) (init spaceDim []) mt)
    (k : IndexType) (cell : Cell) (hcell : mapFind mt._cells k = some cell) (d ord : Nat)
    (hd : d < cell._cellTopo.getDimension) (hord : ord < cell._cellTopo.getSubcellCount d) :
    Cell.entityIndexValue mt cell d ord = Cell.lookupEntityIndex mt cell d ord ∧
      ∀ l, Cell.getEntityIndices mt cell d = Except.ok l →
        ∃ x cell', Cell.entityIndex mt cell d ord = Except.ok (x, cell') ∧ l[ord]? = some x := by
  have hs := cacheSound_of_reached tools cellHalo spaceDim mt hreach
  obtain ⟨hsized, hright⟩ := hs.2 k cell hcell
  have heq := entityIndexValue_eq_lookup mt cell hsized hright d ord hd hord
  refine ⟨heq, ?_⟩
  intro l hl
  obtain ⟨_, hall⟩ := getEntityIndices_loop mt cell d _ l hl
  obtain ⟨x, hx, hget⟩ := hall ord hord
  rw [hx] at heq
  unfold Cell.entityIndexValue at heq
  cases hidx : Cell.entityIndex mt cell d ord with
  | error err =>
    rw [hidx] at heq
    cases heq
  | ok r =>
    rw [hidx] at heq
    have hr : r.1 = x := by
      cases heq
      rfl
    exact ⟨r.1, r.2, rfl, by rw [hr]; exact hget⟩

set_option maxRecDepth 1000000 in
/-- Witness of the amended C31: the refined two-quadrilateral mesh is reached
from the empty topology by the addition of six vertices, two calls of `addCell`
and a call of `refineCell`, which leave the four edges of the child cell 3 in
its cache; the call `entityIndex(0, 2)` on cell 3 then caches the vertex 7.  In
the state reached, `entityIndex(0, 2)` of cell 3 returns the cached 7, the entry
2 of `getEntityIndices(0)`. -/
theorem entityIndex_matches_getEntityIndices_witness :
    (cellOf refinedQuadMesh 3)._entityIndices
        = [[], [some (some 8), some (some 9), some (some 17), some (some 15)]] ∧
      (cellOf vertexCachedQuadMesh 3)._entityIndices
        = [[none, none, some (some 7), none],
            [some (some 8), some (some 9), some (some 17), some (some 15)]] ∧
      mapFind vertexCachedQuadMesh._cells 3 = some (cellOf vertexCachedQuadMesh 3) ∧
      0 < (cellOf vertexCachedQuadMesh 3)._cellTopo.getDimension ∧
      2 < (cellOf vertexCachedQuadMesh 3)._cellTopo.getSubcellCount 0 ∧
      Cell.getEntityIndices vertexCachedQuadMesh (cellOf vertexCachedQuadMesh 3) 0
        = Except.ok [some 6, some 1, some 7, some 10] ∧
      Cell.getEntityIndices vertexCachedQuadMesh (cellOf vertexCachedQuadMesh 3) 1
        = Except.ok [some 8, some 9, some 17, some 15] ∧
      (Cell.entityIndexValue vertexCachedQuadMesh (cellOf vertexCachedQuadMesh 3) 0 2
          = Cell.lookupEntityIndex vertexCachedQuadMesh (cellOf vertexCachedQuadMesh 3) 0 2 ∧
        ∀ l, Cell.getEntityIndices vertexCachedQuadMesh (cellOf vertexCachedQuadMesh 3) 0
            = Except.ok l →
          ∃ x cell', Cell.entityIndex vertexCachedQuadMesh (cellOf vertexCachedQuadMesh 3) 0 2
            = Except.ok (x, cell') ∧ l[2]? = some x) :=
  ⟨rfl, rfl, rfl, by decide, by decide, rfl, rfl,
    entityIndex_matches_getEntityIndices quadTools (haloOf []) 2 vertexCachedQuadMesh
      (Relation.ReflTransGen.tail
        (Relation.ReflTransGen.tail
          (Relation.ReflTransGen.tail
            (Relation.ReflTransGen.tail
              (Relation.ReflTransGen.single
                (Or.inl (Operation.addVertices (init 2 [])
                  [[0, 0], [4, 0], [4, 4], [0, 4], [8, 0], [8, 4]])))
              (Or.inl (Operation.addCell 10 _ _ 0 quadTopology [0, 1, 2, 3] none
                (eq_ok_stateOf _ rfl))))
            (Or.inl (Operation.addCell 10 _ twoQuadMesh 1 quadTopology [1, 4, 5, 2] none
              (eq_ok_stateOf _ rfl))))
          (Or.inl (Operation.refineCell 10 twoQuadMesh refinedQuadMesh 0 quadPattern 2
            (eq_ok_stateOf _ rfl))))
        (Or.inr ⟨3, 0, 2, 7, eq_ok_lookupStateOf _ _ _ rfl⟩))
      3 (cellOf vertexCachedQuadMesh 3) rfl 0 2 (by decide) (by decide)⟩

end Camellia
